import Mathlib

/-!
# docbook2mdoc: parser, reorganizer and formatter

A shallow embedding of the C sources `node.c`, `parse.c`, `reorg.c`,
`macro.c`, `docbook2mdoc.c` and `main.c`.

Conventions of the embedding.

* A C string is a `List Char` without the terminating NUL; `NULL` is `none`.
* A `struct pnode` is a value of the inductive type `pnode`.  The child queue
  (`TAILQ`) is the list `childq`; the node owns its children.  The field
  `addr` stands for the address of the node and `parent` holds the address
  stored in the C field of that name, so that a parent pointer can differ from
  the node that really holds the child.
* The bits of a C flag word are the Boolean fields of a structure.
* `pnode_alloc` takes the address of the new node from a counter which the
  allocating functions thread through.
* The reorganizer returns an `Option`: `none` where the C function does not
  return.  The parser and the formatter return an `Except fault`: the error
  says how the run of the C program ends instead of returning.
* The parser keeps the nodes from `p->cur` up to the root as a stack; a node
  is linked into the child queue of its parent when it stops being the
  current node.  The read buffer is a list of cells, `none` where nothing has
  been written yet.
* The formatter changes the tree while it prints it.  Its functions return
  the node as it is afterwards, and `pnode_print` gets the surroundings of
  the node (the node that holds it and its two neighbours) as an argument.
  The bytes written to the standard output are a field of the formatter
  state.
* A recursion of the C program that is not along the structure of the tree
  takes a bound (`fuel`) as its first argument.
-/

set_option maxRecDepth 100000
set_option maxHeartbeats 1000000
set_option synthInstance.maxSize 4096
set_option linter.unusedTactic false
set_option linter.unreachableTactic false

/-! ## Strings -/

/-- A C string without its terminating NUL. -/
abbrev cstring := List Char

/-- The function `isspace(3)` in the C locale. -/
def c_isspace (c : Char) : Bool :=
  c = ' ' || c = '\t' || c = '\n' || c = Char.ofNat 11 || c = Char.ofNat 12 || c = '\r'

/-- The function `tolower(3)` in the C locale. -/
def c_tolower (c : Char) : Char :=
  if 'A' ≤ c ∧ c ≤ 'Z' then Char.ofNat (c.toNat + 32) else c

/-- The function `toupper(3)` in the C locale. -/
def c_toupper (c : Char) : Char :=
  if 'a' ≤ c ∧ c ≤ 'z' then Char.ofNat (c.toNat - 32) else c

/-- Whether `strcasecmp(a, b) == 0`. -/
def strcasecmp_eq (a b : cstring) : Bool :=
  a.map c_tolower == b.map c_tolower

/-! ## node.h -/

inductive nodeclass where
  | CLASS_VOID
  | CLASS_TEXT
  | CLASS_TRANS
  | CLASS_LINE
  | CLASS_ENCL
  | CLASS_BLOCK
  | CLASS_NOFILL
  deriving DecidableEq, Repr

open nodeclass

inductive nodeid where
  | NODE_ABSTRACT
  | NODE_APPENDIX
  | NODE_ARG
  | NODE_AUTHOR
  | NODE_AUTHORGROUP
  | NODE_BLOCKQUOTE
  | NODE_BOOKINFO
  | NODE_CAUTION
  | NODE_CITEREFENTRY
  | NODE_CITETITLE
  | NODE_CMDSYNOPSIS
  | NODE_COLSPEC
  | NODE_COMMAND
  | NODE_CONSTANT
  | NODE_CONTRIB
  | NODE_COPYRIGHT
  | NODE_DATE
  | NODE_DOCTYPE
  | NODE_EDITOR
  | NODE_EMAIL
  | NODE_EMPHASIS
  | NODE_ENTITY
  | NODE_ENTRY
  | NODE_ENVAR
  | NODE_ERRORNAME
  | NODE_FIELDSYNOPSIS
  | NODE_FILENAME
  | NODE_FIRSTTERM
  | NODE_FOOTNOTE
  | NODE_FUNCDEF
  | NODE_FUNCPARAMS
  | NODE_FUNCPROTOTYPE
  | NODE_FUNCSYNOPSIS
  | NODE_FUNCSYNOPSISINFO
  | NODE_FUNCTION
  | NODE_GLOSSTERM
  | NODE_GROUP
  | NODE_IMAGEDATA
  | NODE_INCLUDE
  | NODE_INDEX
  | NODE_INFO
  | NODE_INFORMALEQUATION
  | NODE_INLINEEQUATION
  | NODE_ITEMIZEDLIST
  | NODE_KEYSYM
  | NODE_LEGALNOTICE
  | NODE_LINK
  | NODE_LISTITEM
  | NODE_LITERAL
  | NODE_LITERALLAYOUT
  | NODE_MANVOLNUM
  | NODE_MARKUP
  | NODE_MEMBER
  | NODE_MML_MATH
  | NODE_MML_MFENCED
  | NODE_MML_MFRAC
  | NODE_MML_MI
  | NODE_MML_MN
  | NODE_MML_MO
  | NODE_MML_MROW
  | NODE_MML_MSUB
  | NODE_MML_MSUP
  | NODE_MODIFIER
  | NODE_NOTE
  | NODE_OLINK
  | NODE_OPTION
  | NODE_ORDEREDLIST
  | NODE_PARA
  | NODE_PARAMDEF
  | NODE_PARAMETER
  | NODE_PERSONNAME
  | NODE_PREFACE
  | NODE_PRODUCTNAME
  | NODE_PROGRAMLISTING
  | NODE_PROMPT
  | NODE_PUBDATE
  | NODE_QUOTE
  | NODE_REFCLASS
  | NODE_REFDESCRIPTOR
  | NODE_REFENTRY
  | NODE_REFENTRYINFO
  | NODE_REFENTRYTITLE
  | NODE_REFMETA
  | NODE_REFMETAINFO
  | NODE_REFMISCINFO
  | NODE_REFNAME
  | NODE_REFNAMEDIV
  | NODE_REFPURPOSE
  | NODE_REFSYNOPSISDIV
  | NODE_REPLACEABLE
  | NODE_ROW
  | NODE_SBR
  | NODE_SCREEN
  | NODE_SECTION
  | NODE_SIMPLELIST
  | NODE_SIMPLESECT
  | NODE_SPANSPEC
  | NODE_SUBSCRIPT
  | NODE_SUBTITLE
  | NODE_SUPERSCRIPT
  | NODE_SYNOPSIS
  | NODE_SYSTEMITEM
  | NODE_TABLE
  | NODE_TBODY
  | NODE_TERM
  | NODE_TFOOT
  | NODE_TGROUP
  | NODE_THEAD
  | NODE_TIP
  | NODE_TITLE
  | NODE_TYPE
  | NODE_VARIABLELIST
  | NODE_VARLISTENTRY
  | NODE_VARNAME
  | NODE_VOID
  | NODE_WARNING
  | NODE_WORDASWORD
  | NODE_XREF
  | NODE_YEAR
  | NODE_UNKNOWN
  | NODE_TEXT
  | NODE_ESCAPE
  | NODE_IGNORE
  | NODE_DELETE
  | NODE_DELETE_WARN
  deriving DecidableEq, Repr

open nodeid

inductive attrkey where
  | ATTRKEY_CHOICE
  | ATTRKEY_CLASS
  | ATTRKEY_CLOSE
  | ATTRKEY_COLS
  | ATTRKEY_DEFINITION
  | ATTRKEY_ENDTERM
  | ATTRKEY_ENTITYREF
  | ATTRKEY_FILEREF
  | ATTRKEY_HREF
  | ATTRKEY_ID
  | ATTRKEY_LINKEND
  | ATTRKEY_LOCALINFO
  | ATTRKEY_NAME
  | ATTRKEY_OPEN
  | ATTRKEY_PUBLIC
  | ATTRKEY_REP
  | ATTRKEY_SYSTEM
  | ATTRKEY_TARGETDOC
  | ATTRKEY_TARGETPTR
  | ATTRKEY_URL
  | ATTRKEY_XLINK_HREF
  | ATTRKEY__MAX
  deriving DecidableEq, Repr

open attrkey

inductive attrval where
  | ATTRVAL_EVENT
  | ATTRVAL_IPADDRESS
  | ATTRVAL_MONOSPACED
  | ATTRVAL_NOREPEAT
  | ATTRVAL_OPT
  | ATTRVAL_PLAIN
  | ATTRVAL_REPEAT
  | ATTRVAL_REQ
  | ATTRVAL_SYSTEMNAME
  | ATTRVAL__MAX
  deriving DecidableEq, Repr

open attrval

/-- One DocBook XML element attribute (`struct pattr`). -/
structure pattr where
  key : attrkey
  val : attrval
  rawval : Option cstring
  deriving DecidableEq, Repr

/-- The flag word of a node: `NFLAG_LINE` and `NFLAG_SPC`. -/
structure nflags where
  line : Bool
  spc : Bool
  deriving DecidableEq, Repr

/-- One DocBook XML element (`struct pnode`). -/
inductive pnode where
  | mk (addr : Nat) (node : nodeid) (b : Option cstring) (parent : Option Nat)
      (flags : nflags) (attrq : List pattr) (childq : List pnode)

namespace pnode

def addr : pnode → Nat
  | mk a _ _ _ _ _ _ => a

def node : pnode → nodeid
  | mk _ k _ _ _ _ _ => k

def b : pnode → Option cstring
  | mk _ _ s _ _ _ _ => s

def parent : pnode → Option Nat
  | mk _ _ _ p _ _ _ => p

def flags : pnode → nflags
  | mk _ _ _ _ f _ _ => f

def attrq : pnode → List pattr
  | mk _ _ _ _ _ q _ => q

def childq : pnode → List pnode
  | mk _ _ _ _ _ _ cs => cs

/-- The assignment `n->node = k`. -/
def setNode : pnode → nodeid → pnode
  | mk a _ s p f q cs, k => mk a k s p f q cs

/-- The assignment `n->b = s`. -/
def setB : pnode → Option cstring → pnode
  | mk a k _ p f q cs, s => mk a k s p f q cs

/-- The assignment `n->parent = p`. -/
def setParent : pnode → Option Nat → pnode
  | mk a k s _ f q cs, p => mk a k s p f q cs

/-- The assignment `n->flags = f`. -/
def setFlags : pnode → nflags → pnode
  | mk a k s p _ q cs, f => mk a k s p f q cs

/-- The node with another attribute queue. -/
def setAttrq : pnode → List pattr → pnode
  | mk a k s p f _ cs, q => mk a k s p f q cs

/-- The node with another child queue. -/
def setChildq : pnode → List pnode → pnode
  | mk a k s p f q _, cs => mk a k s p f q cs

/-- The macro `TAILQ_INSERT_TAIL(&n->childq, c, child)`. -/
def insertTail (n c : pnode) : pnode :=
  n.setChildq (n.childq ++ [c])

/-- The macro `TAILQ_INSERT_HEAD(&n->childq, c, child)`. -/
def insertHead (n c : pnode) : pnode :=
  n.setChildq (c :: n.childq)

end pnode

/-- The flag word of a tree: `TREE_ERROR`, `TREE_WARN` and `TREE_CLOSED`. -/
structure tflags where
  error : Bool
  warn : Bool
  closed : Bool
  deriving DecidableEq, Repr

/-- The parse result for one complete DocBook XML document (`struct ptree`). -/
structure ptree where
  root : Option pnode
  flags : tflags

/-! ## node.c -/

structure nodeprop where
  name : cstring
  cls : nodeclass

def properties_tab : List (String × nodeclass) :=
  [ ("abstract", CLASS_BLOCK),
    ("appendix", CLASS_BLOCK),
    ("arg", CLASS_ENCL),
    ("author", CLASS_LINE),
    ("authorgroup", CLASS_BLOCK),
    ("blockquote", CLASS_BLOCK),
    ("bookinfo", CLASS_BLOCK),
    ("caution", CLASS_BLOCK),
    ("citerefentry", CLASS_LINE),
    ("citetitle", CLASS_LINE),
    ("cmdsynopsis", CLASS_TRANS),
    ("colspec", CLASS_VOID),
    ("command", CLASS_LINE),
    ("constant", CLASS_LINE),
    ("contrib", CLASS_TRANS),
    ("copyright", CLASS_LINE),
    ("date", CLASS_TRANS),
    ("!DOCTYPE", CLASS_VOID),
    ("editor", CLASS_LINE),
    ("email", CLASS_ENCL),
    ("emphasis", CLASS_LINE),
    ("!ENTITY", CLASS_VOID),
    ("entry", CLASS_ENCL),
    ("envar", CLASS_LINE),
    ("errorname", CLASS_LINE),
    ("fieldsynopsis", CLASS_TRANS),
    ("filename", CLASS_LINE),
    ("firstterm", CLASS_LINE),
    ("footnote", CLASS_BLOCK),
    ("funcdef", CLASS_BLOCK),
    ("funcparams", CLASS_LINE),
    ("funcprototype", CLASS_BLOCK),
    ("funcsynopsis", CLASS_TRANS),
    ("funcsynopsisinfo", CLASS_LINE),
    ("function", CLASS_LINE),
    ("glossterm", CLASS_LINE),
    ("group", CLASS_ENCL),
    ("imagedata", CLASS_TEXT),
    ("xi:include", CLASS_VOID),
    ("index", CLASS_TRANS),
    ("info", CLASS_TRANS),
    ("informalequation", CLASS_BLOCK),
    ("inlineequation", CLASS_BLOCK),
    ("itemizedlist", CLASS_BLOCK),
    ("keysym", CLASS_LINE),
    ("legalnotice", CLASS_BLOCK),
    ("link", CLASS_ENCL),
    ("listitem", CLASS_TRANS),
    ("literal", CLASS_ENCL),
    ("literallayout", CLASS_NOFILL),
    ("manvolnum", CLASS_TRANS),
    ("markup", CLASS_LINE),
    ("member", CLASS_LINE),
    ("mml:math", CLASS_LINE),
    ("mml:mfenced", CLASS_LINE),
    ("mml:mfrac", CLASS_LINE),
    ("mml:mi", CLASS_LINE),
    ("mml:mn", CLASS_LINE),
    ("mml:mo", CLASS_LINE),
    ("mml:mrow", CLASS_LINE),
    ("mml:msub", CLASS_LINE),
    ("mml:msup", CLASS_LINE),
    ("modifier", CLASS_LINE),
    ("note", CLASS_BLOCK),
    ("olink", CLASS_ENCL),
    ("option", CLASS_LINE),
    ("orderedlist", CLASS_BLOCK),
    ("para", CLASS_BLOCK),
    ("paramdef", CLASS_LINE),
    ("parameter", CLASS_LINE),
    ("personname", CLASS_TRANS),
    ("preface", CLASS_BLOCK),
    ("productname", CLASS_LINE),
    ("programlisting", CLASS_NOFILL),
    ("prompt", CLASS_TRANS),
    ("pubdate", CLASS_TRANS),
    ("quote", CLASS_ENCL),
    ("refclass", CLASS_TRANS),
    ("refdescriptor", CLASS_TRANS),
    ("refentry", CLASS_TRANS),
    ("refentryinfo", CLASS_VOID),
    ("refentrytitle", CLASS_TRANS),
    ("refmeta", CLASS_TRANS),
    ("refmetainfo", CLASS_TRANS),
    ("refmiscinfo", CLASS_TRANS),
    ("refname", CLASS_LINE),
    ("refnamediv", CLASS_BLOCK),
    ("refpurpose", CLASS_LINE),
    ("refsynopsisdiv", CLASS_BLOCK),
    ("replaceable", CLASS_LINE),
    ("row", CLASS_BLOCK),
    ("sbr", CLASS_BLOCK),
    ("screen", CLASS_NOFILL),
    ("section", CLASS_BLOCK),
    ("simplelist", CLASS_TRANS),
    ("simplesect", CLASS_BLOCK),
    ("spanspec", CLASS_TRANS),
    ("subscript", CLASS_TEXT),
    ("subtitle", CLASS_BLOCK),
    ("superscript", CLASS_TEXT),
    ("synopsis", CLASS_NOFILL),
    ("systemitem", CLASS_LINE),
    ("table", CLASS_TRANS),
    ("tbody", CLASS_TRANS),
    ("term", CLASS_LINE),
    ("tfoot", CLASS_TRANS),
    ("tgroup", CLASS_BLOCK),
    ("thead", CLASS_TRANS),
    ("tip", CLASS_BLOCK),
    ("title", CLASS_BLOCK),
    ("type", CLASS_LINE),
    ("variablelist", CLASS_BLOCK),
    ("varlistentry", CLASS_BLOCK),
    ("varname", CLASS_LINE),
    ("void", CLASS_TEXT),
    ("warning", CLASS_BLOCK),
    ("wordasword", CLASS_TRANS),
    ("xref", CLASS_LINE),
    ("year", CLASS_TRANS),
    ("[UNKNOWN]", CLASS_VOID),
    ("(t)", CLASS_TEXT),
    ("(e)", CLASS_TEXT) ]

def properties : List nodeprop := properties_tab.map (fun e => ⟨e.1.toList, e.2⟩)

def attrkeys : List cstring :=
  [ "choice", "class", "close", "cols", "DEFINITION", "endterm", "entityref",
    "fileref", "href", "id", "linkend", "localinfo", "NAME", "open", "PUBLIC",
    "rep", "SYSTEM", "targetdoc", "targetptr", "url", "xlink:href" ].map String.toList

def attrvals : List cstring :=
  [ "event", "ipaddress", "monospaced", "norepeat", "opt", "plain", "repeat",
    "req", "systemname" ].map String.toList

/-- The loop of `attrkey_parse`: the first index whose name is `name`, or
`ATTRKEY__MAX` when the loop runs to its end. -/
def attrkey_parse (name : cstring) : attrkey :=
  attrkey.ofNat (attrkeys.findIdx (fun s => s == name))

def attrkey_name (key : attrkey) : Option cstring :=
  attrkeys.get? key.toCtorIdx

/-- The loop of `attrval_parse`: the first index whose name is `name`, or
`ATTRVAL__MAX` when the loop runs to its end. -/
def attrval_parse (name : cstring) : attrval :=
  attrval.ofNat (attrvals.findIdx (fun s => s == name))

/-- The value of an attribute: `attrvals[a->val]`, or `a->rawval` (possibly
`NULL`) for a free-form attribute. -/
def attr_getval (a : pattr) : Option cstring :=
  if a.val = ATTRVAL__MAX then a.rawval else attrvals.get? a.val.toCtorIdx

/-- The loop of `pnode_parse` runs over the entries below `NODE_UNKNOWN` and
returns `NODE_UNKNOWN` when none of them has the name. -/
def pnode_parse (name : cstring) : nodeid :=
  nodeid.ofNat ((properties.take NODE_UNKNOWN.toCtorIdx).findIdx (fun p => p.name == name))

/-- The name of a node kind; `none` where the C assertion `node < NODE_IGNORE`
fails. -/
def pnode_name (node : nodeid) : Option cstring :=
  (properties.get? node.toCtorIdx).map (fun p => p.name)

/-- The class of a node kind; `none` where the C assertion
`node < NODE_IGNORE` fails. -/
def pnode_class (node : nodeid) : Option nodeclass :=
  (properties.get? node.toCtorIdx).map (fun p => p.cls)

/-- The zeroed node that `pnode_alloc` creates at address `a`, with its parent
pointer set.  Linking it into the parent is `pnode.insertTail`. -/
def pnode_alloc (a : Nat) (np : Option Nat) : pnode :=
  pnode.mk a NODE_ABSTRACT none np ⟨false, false⟩ [] []

/-- The node that `pnode_alloc_text` creates at address `a`. -/
def pnode_alloc_text (a : Nat) (np : Option Nat) (text : cstring) : pnode :=
  ((pnode_alloc a np).setNode NODE_TEXT).setB (some text)

/-- The loop of `pnode_getattr`. -/
def pnode_getattr (n : Option pnode) (key : attrkey) : attrval :=
  match n with
  | none => ATTRVAL__MAX
  | some n =>
    match n.attrq.find? (fun a => a.key == key) with
    | some a => a.val
    | none => ATTRVAL__MAX

/-- The loop of `pnode_getattr_raw`. -/
def pnode_getattr_raw (n : Option pnode) (key : attrkey) (defval : Option cstring) :
    Option cstring :=
  match n with
  | none => defval
  | some n =>
    match n.attrq.find? (fun a => a.key == key) with
    | some a =>
      if a.val ≠ ATTRVAL__MAX then attrvals.get? a.val.toCtorIdx
      else if a.rawval ≠ none then a.rawval else defval
    | none => defval

mutual
/-- Recursively search and return the first instance of `node`. -/
def pnode_findfirst (node : nodeid) : pnode → Option pnode
  | .mk a k s p f q cs =>
    if k = node then some (.mk a k s p f q cs) else pnode_findfirst_queue node cs
/-- The loop `TAILQ_FOREACH` of `pnode_findfirst`. -/
def pnode_findfirst_queue (node : nodeid) : List pnode → Option pnode
  | [] => none
  | nc :: rest =>
    match pnode_findfirst node nc with
    | some res => some res
    | none => pnode_findfirst_queue node rest
end

mutual
/-- The search of `pnode_takefirst` below a node that is not itself of kind
`node`: the node found and the tree without it. -/
def pnode_takebelow (node : nodeid) : pnode → Option (pnode × pnode)
  | .mk a k s p f q cs =>
    match pnode_takefirst_queue node cs with
    | some (res, cs') => some (res, .mk a k s p f q cs')
    | none => none
/-- The search of `pnode_takefirst` in a child queue, in document order. -/
def pnode_takefirst_queue (node : nodeid) : List pnode → Option (pnode × List pnode)
  | [] => none
  | nc :: rest =>
    if nc.node = node then some (nc, rest)
    else
      match pnode_takebelow node nc with
      | some (res, nc') => some (res, nc' :: rest)
      | none =>
        match pnode_takefirst_queue node rest with
        | some (res, rest') => some (res, nc :: rest')
        | none => none
end

/-- Like `pnode_findfirst`, but also take the node out of the tree: the node
found and the tree `n` without it.  When `n` itself is of kind `node`, C
returns `n` and unlinks it from the queue of `n->parent`, which lies outside
of `n`; the second component is then `n` unchanged.  The node found is
unlinked from the queue that holds it, as `TAILQ_REMOVE` does when the parent
pointer of the node is right. -/
def pnode_takefirst (n : pnode) (node : nodeid) : Option pnode × pnode :=
  if n.node = node then (some n, n)
  else
    match pnode_takebelow node n with
    | some (res, n') => (some res, n')
    | none => (none, n)

mutual
/-- Store `new` in the place of the node that `pnode_findfirst` returns. -/
def pnode_putfirst (node : nodeid) (new : pnode) : pnode → Option pnode
  | .mk a k s p f q cs =>
    if k = node then some new
    else
      match pnode_putfirst_queue node new cs with
      | some cs' => some (.mk a k s p f q cs')
      | none => none
/-- The queue part of `pnode_putfirst`. -/
def pnode_putfirst_queue (node : nodeid) (new : pnode) : List pnode → Option (List pnode)
  | [] => none
  | nc :: rest =>
    match pnode_putfirst node new nc with
    | some nc' => some (nc' :: rest)
    | none =>
      match pnode_putfirst_queue node new rest with
      | some rest' => some (nc :: rest')
      | none => none
end

/-! ## reorg.c -/

/-- The node `pnode_alloc(NULL)` at address `a` after `n->node = node` and
`n->parent = root`, with the text node `pnode_alloc_text(n, text)` at address
`a + 1` as its only child. -/
def reorg_synth (a : Nat) (node : nodeid) (parent : Nat) (text : cstring) : pnode :=
  (((pnode_alloc a none).insertTail (pnode_alloc_text (a + 1) (some a) text)).setNode
    node).setParent (some parent)

/-- The part of `reorg_root` that hoists TITLE and ABSTRACT out of the info
block `info` of kind `k`, the node `pnode_findfirst(root, k)` returned.  When
that node is the root itself, the second search already sees the ABSTRACT that
has just been inserted at the head of the root. -/
def reorg_root_hoist (root : pnode) (k : nodeid) (info : pnode) : pnode :=
  let r1 := pnode_takefirst info NODE_ABSTRACT
  if root.node = k then
    let root1 := r1.2.setChildq (r1.1.toList ++ r1.2.childq)
    let r2 := pnode_takefirst root1 NODE_TITLE
    r2.2.setChildq (r2.1.toList ++ r2.2.childq)
  else
    let r2 := pnode_takefirst r1.2 NODE_TITLE
    let root1 := (pnode_putfirst k r2.2 root).getD root
    root1.setChildq (r2.1.toList ++ r1.1.toList ++ root1.childq)

/-- The search for the date at the start of `reorg_root`: the node that
`pnode_takefirst(root, NODE_PUBDATE)` or else `pnode_takefirst(root, NODE_DATE)`
returns, and the root without it. -/
def reorg_root_date (root : pnode) : Option pnode × pnode :=
  if (pnode_takefirst root NODE_PUBDATE).1.isSome then pnode_takefirst root NODE_PUBDATE
  else pnode_takefirst root NODE_DATE

/-- The search for the title and the volume in `reorg_root`, for the root
that the search for the date has left: the values of `name` and `vol`, and the
root without these nodes. -/
def reorg_root_meta (root : pnode) : Option pnode × Option pnode × pnode :=
  match pnode_findfirst NODE_REFMETA root with
  | some nc =>
    let rn := pnode_takefirst nc NODE_REFENTRYTITLE
    let rv := pnode_takefirst rn.2 NODE_MANVOLNUM
    (rn.1, rv.1, (pnode_putfirst NODE_REFMETA rv.2 root).getD root)
  | none => (none, none, root)

/-- The first step of the insertion in `reorg_root`: without a REFNAMEDIV,
the TITLE and the ABSTRACT of the first BOOKINFO, or else of the first
REFENTRYINFO, go to the head of the root. -/
def reorg_root_info (root : pnode) : pnode :=
  if (pnode_findfirst NODE_REFNAMEDIV root).isNone then
    match pnode_findfirst NODE_BOOKINFO root with
    | some info => reorg_root_hoist root NODE_BOOKINFO info
    | none =>
      match pnode_findfirst NODE_REFENTRYINFO root with
      | some info => reorg_root_hoist root NODE_REFENTRYINFO info
      | none => root
  else root

/-- The function `reorg_root` for a root that is not `NULL`; `a` is the next
free address.  The result is `none` where the C function links the root into
its own child queue: when the root itself is the node that
`pnode_takefirst(root, NODE_PUBDATE)` or `pnode_takefirst(root, NODE_DATE)`
returns, C sets `root->parent = root` and inserts the root at the head of
`root->childq`, and the recursion of `reorg_recurse` over that queue does not
end.  The call `pnode_unlink(vol)` frees a node that `pnode_takefirst` has
already taken out of its queue and leaves the tree as it is. -/
def reorg_root (a : Nat) (root : pnode) (sec : Option cstring) : Option (pnode × Nat) :=
  /- Collect prologue information. -/
  if root.node = NODE_PUBDATE ∨
      ((pnode_takefirst root NODE_PUBDATE).1.isNone ∧ root.node = NODE_DATE) then none
  else
    let dt : pnode × Nat :=
      match (reorg_root_date root).1 with
      | some d => ((d.setNode NODE_DATE).setParent (some root.addr), a)
      | none => (reorg_synth a NODE_DATE root.addr "$Mdocdate$".toList, a + 2)
    let nv := reorg_root_meta (reorg_root_date root).2
    let root2 := nv.2.2
    match pnode_getattr_raw (some root2) ATTRKEY_ID (some "UNKNOWN".toList) with
    | none => none
    | some id =>
      let nm : pnode × Nat :=
        match nv.1 with
        | some name => (name, dt.2)
        | none => (reorg_synth dt.2 NODE_REFENTRYTITLE root.addr id, dt.2 + 2)
      let vl : pnode × Nat :=
        match nv.2.1, sec with
        | some vol, none => (vol, nm.2)
        | _, none => (reorg_synth nm.2 NODE_MANVOLNUM root.addr "1".toList, nm.2 + 2)
        | _, some s => (reorg_synth nm.2 NODE_MANVOLNUM root.addr s, nm.2 + 2)
      /- Insert prologue information at the beginning. -/
      let root3 := reorg_root_info root2
      some (root3.setChildq (dt.1 :: nm.1 :: vl.1 :: root3.childq), vl.2)

/-- The node that `pnode_takefirst` returned, or `NULL` after
`pnode_unlink` when its child queue is empty. -/
def reorg_keep (info : Option pnode) : Option pnode :=
  match info with
  | some i => if i.childq.isEmpty then none else some i
  | none => none

/-- The string that the loop of `reorg_refentry` compares for the child `nc`:
the string of the first child of `pnode_findfirst(nc, NODE_TITLE)`, when that
child is a text node. -/
def reorg_title (nc : pnode) : Option cstring :=
  match pnode_findfirst NODE_TITLE nc with
  | none => none
  | some title =>
    match title.childq with
    | [] => none
    | t :: _ => if t.node = NODE_TEXT then t.b else none

/-- The titles that make a child the AUTHORS section. -/
def reorg_names_authors : List cstring :=
  [ "AUTHORS", "AUTHOR" ].map String.toList

/-- The titles of the standard sections that conventionally precede AUTHORS. -/
def reorg_names_standard : List cstring :=
  [ "NAME", "SYNOPSIS", "DESCRIPTION", "RETURN VALUES", "ENVIRONMENT", "FILES",
    "EXIT STATUS", "EXAMPLES", "DIAGNOSTICS", "ERRORS", "SEE ALSO", "STANDARDS",
    "HISTORY" ].map String.toList

/-- The titles of the standard sections that follow AUTHORS. -/
def reorg_names_later : List cstring :=
  [ "CAVEATS", "BUGS" ].map String.toList

/-- One pass of the loop body of `reorg_refentry` for the child `nc` at
position `i`; the state is the pair of the positions `match` and `later`.
Each chain of `strcasecmp` calls is a search in the list of its names. -/
def reorg_scan_step (nc : pnode) (i : Nat) (st : Option Nat × Option Nat) :
    Option Nat × Option Nat :=
  if nc.node = NODE_REFENTRY ∨ nc.node = NODE_REFNAMEDIV ∨ nc.node = NODE_REFSYNOPSISDIV then
    (st.1, none)
  else if nc.node = NODE_APPENDIX ∨ nc.node = NODE_INDEX then
    (st.1, if st.2.isNone then some i else st.2)
  else
    match reorg_title nc with
    | none => st
    | some b =>
      if reorg_names_authors.any (fun s => strcasecmp_eq b s) then
        (some i, st.2)
      else if reorg_names_standard.any (fun s => strcasecmp_eq b s) then
        (st.1, none)
      else if reorg_names_later.any (fun s => strcasecmp_eq b s) && st.2.isNone then
        (st.1, some i)
      else st

/-- The loop `TAILQ_FOREACH(nc, &n->childq, child)` of `reorg_refentry` over
the children from position `i` on. -/
def reorg_scan : List pnode → Nat → Option Nat × Option Nat → Option Nat × Option Nat
  | [], _, st => st
  | nc :: rest, i, st => reorg_scan rest (i + 1) (reorg_scan_step nc i st)

/-- The AUTHORS section that `reorg_refentry` creates from scratch at the
addresses `a`, `a + 1` and `a + 2`. -/
def reorg_authors (a : Nat) (parent : Nat) : pnode :=
  pnode.mk a NODE_SECTION none (some parent) ⟨false, true⟩ []
    [pnode.mk (a + 1) NODE_TITLE none (some a) ⟨false, true⟩ []
      [pnode.mk (a + 2) NODE_TEXT (some "AUTHORS".toList) (some (a + 1)) ⟨false, true⟩ [] []]]

/-- The first part of `reorg_refentry`, which collects the nodes that remained
behind from the prologue: the values of `info` and `meta` and the node
without them. -/
def reorg_collect (n : pnode) : Option pnode × Option pnode × pnode :=
  let r1 := pnode_takefirst n NODE_BOOKINFO
  match reorg_keep r1.1 with
  | some info => (some info, none, r1.2)
  | none =>
    let r2 := pnode_takefirst r1.2 NODE_REFENTRYINFO
    let r3 : Option pnode × pnode :=
      match reorg_keep r2.1 with
      | some info => (some info, r2.2)
      | none => pnode_takefirst r2.2 NODE_INFO
    let r4 := pnode_takefirst r3.2 NODE_REFMETA
    (r3.1, reorg_keep r4.1, r4.2)

/-- The second part of `reorg_refentry`, which finds the best place for the
nodes `stuff` collected by the first part, creates an AUTHORS section there if
there is none, and dumps the nodes into that section. -/
def reorg_place (a : Nat) (n : pnode) (stuff : List pnode) : pnode × Nat :=
  let st := reorg_scan n.childq 0 (none, none)
  match st.1 with
  | none =>
    let sect := (reorg_authors a n.addr).setChildq ((reorg_authors a n.addr).childq ++ stuff)
    match st.2 with
    | none => (n.setChildq (n.childq ++ [sect]), a + 3)
    | some i => (n.setChildq (n.childq.take i ++ sect :: n.childq.drop i), a + 3)
  | some i =>
    (n.setChildq (n.childq.modify (fun nc => nc.setChildq (nc.childq ++ stuff)) i), a)

/-- The function `reorg_refentry`.  It is called for nodes of the kinds
REFENTRY, APPENDIX, PREFACE and SECTION, so that `pnode_takefirst` never
returns `n` itself. -/
def reorg_refentry (a : Nat) (n : pnode) : pnode × Nat :=
  let im := reorg_collect n
  if im.1.isNone ∧ im.2.1.isNone then (im.2.2, a)
  else reorg_place a im.2.2 (im.1.toList ++ im.2.1.toList)

/-- The function `default_title`. -/
def default_title (a : Nat) (n : pnode) (title : cstring) : pnode × Nat :=
  if n.parent.isNone then (n, a)
  else if n.childq.any (fun nc => nc.node == NODE_TITLE) then (n, a)
  else (n.insertHead (reorg_synth a NODE_TITLE n.addr title), a + 2)

/-- The function `reorg_function`. -/
def reorg_function (n : pnode) : pnode :=
  match n.childq with
  | [nc] =>
    match nc.b with
    | some b =>
      if nc.node = NODE_TEXT ∧ b.length > 2 ∧ b.get? (b.length - 2) = some '(' ∧
          b.get? (b.length - 1) = some ')' then
        n.setChildq [nc.setB (some (b.take (b.length - 2)))]
      else n
    | none => n
  | _ => n

/-- The `switch` statement of `reorg_recurse`. -/
def reorg_switch (a : Nat) (n : pnode) : pnode × Nat :=
  match n.node with
  | NODE_ABSTRACT =>
    let r := default_title a n "Abstract".toList
    (r.1.setNode NODE_SECTION, r.2)
  | NODE_APPENDIX =>
    let r := if n.parent.isNone then reorg_refentry a n else (n, a)
    default_title r.2 r.1 "Appendix".toList
  | NODE_CAUTION =>
    let r := default_title a n "Caution".toList
    (r.1.setNode NODE_NOTE, r.2)
  | NODE_FUNCTION => (reorg_function n, a)
  | NODE_LEGALNOTICE =>
    let r := default_title a n "Legal Notice".toList
    (r.1.setNode NODE_SIMPLESECT, r.2)
  | NODE_NOTE => default_title a n "Note".toList
  | NODE_PREFACE =>
    let r := if n.parent.isNone then reorg_refentry a n else (n, a)
    let r := default_title r.2 r.1 "Preface".toList
    (r.1.setNode NODE_SECTION, r.2)
  | NODE_REFENTRY => reorg_refentry a n
  | NODE_SECTION =>
    let r := if n.parent.isNone then reorg_refentry a n else (n, a)
    default_title r.2 r.1 "Untitled".toList
  | NODE_SIMPLESECT => default_title a n "Untitled".toList
  | NODE_TIP =>
    let r := default_title a n "Tip".toList
    (r.1.setNode NODE_NOTE, r.2)
  | NODE_WARNING =>
    let r := default_title a n "Warning".toList
    (r.1.setNode NODE_NOTE, r.2)
  | _ => (n, a)

/-- Apply `g`, which threads the next free address, to the nodes of a queue in
order (the loop `TAILQ_FOREACH(nc, &n->childq, child)`). -/
def reorg_queue (g : Nat → pnode → Option (pnode × Nat)) :
    Nat → List pnode → Option (List pnode × Nat)
  | a, [] => some ([], a)
  | a, nc :: rest =>
    match g a nc with
    | none => none
    | some (nc', a') =>
      match reorg_queue g a' rest with
      | none => none
      | some (rest', a'') => some (nc' :: rest', a'')

/-- The function `reorg_recurse` for a node that is not `NULL`.  The first
argument bounds the depth of the recursion; `none` means that the bound was
too small. -/
def reorg_recurse : Nat → Nat → pnode → Option (pnode × Nat)
  | 0, _, _ => none
  | fuel + 1, a, n =>
    match reorg_queue (reorg_recurse fuel) (reorg_switch a n).2 (reorg_switch a n).1.childq with
    | none => none
    | some (cs, a') => some ((reorg_switch a n).1.setChildq cs, a')

/-- What one node adds to the bound `pnode.weight`: every node counts once, a
node that can receive a default title counts two more, and a node for which
`reorg_refentry` is called counts six more. -/
def reorg_cost (k : nodeid) (top : Bool) : Nat :=
  1 + (if k = NODE_ABSTRACT ∨ k = NODE_APPENDIX ∨ k = NODE_CAUTION ∨ k = NODE_LEGALNOTICE ∨
        k = NODE_NOTE ∨ k = NODE_PREFACE ∨ k = NODE_SECTION ∨ k = NODE_SIMPLESECT ∨
        k = NODE_TIP ∨ k = NODE_WARNING then 2 else 0)
    + (if k = NODE_REFENTRY ∨
        ((k = NODE_APPENDIX ∨ k = NODE_PREFACE ∨ k = NODE_SECTION) ∧ top = true) then 6 else 0)

mutual
/-- A bound for the depth of the recursion of `reorg_recurse` on a node: the
sum of `reorg_cost` over the nodes of the subtree. -/
def pnode.weight : pnode → Nat
  | .mk _ k _ p _ _ cs => reorg_cost k p.isNone + pnode.weight_queue cs
/-- The sum of the weights of the nodes of a queue. -/
def pnode.weight_queue : List pnode → Nat
  | [] => 0
  | nc :: rest => nc.weight + pnode.weight_queue rest
end

/-- The function `ptree_reorg`; `a` is the next free address.  The result is
`none` where the C function does not return (see `reorg_root`). -/
def ptree_reorg (a : Nat) (tree : ptree) (sec : Option cstring) : Option (ptree × Nat) :=
  match tree.root with
  | none => some (tree, a)
  | some root =>
    match reorg_root a root sec with
    | none => none
    | some (root1, a1) =>
      match reorg_recurse root1.weight a1 root1 with
      | none => none
      | some (root2, a2) => some (⟨some root2, tree.flags⟩, a2)

/-! ## Properties of trees -/

mutual
/-- The nodes of the subtree of a node, in document order. -/
def pnode.nodes : pnode → List pnode
  | .mk a k s p f q cs => .mk a k s p f q cs :: pnode.nodes_queue cs
/-- The nodes of the subtrees of a queue, in document order. -/
def pnode.nodes_queue : List pnode → List pnode
  | [] => []
  | nc :: rest => nc.nodes ++ pnode.nodes_queue rest
end

/-- The kind that the reorganizer leaves on a node of kind `k`, in the words
of the specification: CAUTION, TIP and WARNING become NOTE, LEGALNOTICE becomes
SIMPLESECT, ABSTRACT and PREFACE become SECTION. -/
def reorg_kind : nodeid → nodeid
  | NODE_CAUTION => NODE_NOTE
  | NODE_TIP => NODE_NOTE
  | NODE_WARNING => NODE_NOTE
  | NODE_LEGALNOTICE => NODE_SIMPLESECT
  | NODE_ABSTRACT => NODE_SECTION
  | NODE_PREFACE => NODE_SECTION
  | k => k

/-- The default titles in the words of the specification, each with the kind
of the node that receives it. -/
def default_titles : List (nodeid × cstring) :=
  [ (NODE_CAUTION, "Caution"), (NODE_TIP, "Tip"), (NODE_WARNING, "Warning"),
    (NODE_LEGALNOTICE, "Legal Notice"), (NODE_ABSTRACT, "Abstract"),
    (NODE_PREFACE, "Preface"), (NODE_APPENDIX, "Appendix"), (NODE_NOTE, "Note"),
    (NODE_SECTION, "Untitled"), (NODE_SIMPLESECT, "Untitled") ].map
    (fun e => (e.1, e.2.toList))

/-- Whether the child `nc` is titled, without regard to case, with one of
`names`; the title is the string that `reorg_title` gives. -/
def reorg_titled (names : List cstring) (nc : pnode) : Bool :=
  match reorg_title nc with
  | some b => names.any (fun s => strcasecmp_eq b s)
  | none => false

/-- A child behind which the AUTHORS section belongs: a REFENTRY, REFNAMEDIV
or REFSYNOPSISDIV, or a child other than APPENDIX and INDEX that is titled
with one of the standard names. -/
def reorg_is_standard (nc : pnode) : Bool :=
  nc.node == NODE_REFENTRY || nc.node == NODE_REFNAMEDIV || nc.node == NODE_REFSYNOPSISDIV ||
    (nc.node != NODE_APPENDIX && nc.node != NODE_INDEX && reorg_titled reorg_names_standard nc)

/-- A child before which the AUTHORS section belongs: an APPENDIX or INDEX, or
a child other than REFENTRY, REFNAMEDIV and REFSYNOPSISDIV that is titled
CAVEATS or BUGS. -/
def reorg_is_later (nc : pnode) : Bool :=
  nc.node == NODE_APPENDIX || nc.node == NODE_INDEX ||
    (nc.node != NODE_REFENTRY && nc.node != NODE_REFNAMEDIV &&
      nc.node != NODE_REFSYNOPSISDIV &&
      reorg_titled reorg_names_later nc)

/-- A child that serves as the AUTHORS section: one titled AUTHORS or AUTHOR
whose kind is none of REFENTRY, REFNAMEDIV, REFSYNOPSISDIV, APPENDIX and
INDEX. -/
def reorg_is_authors (nc : pnode) : Bool :=
  nc.node != NODE_REFENTRY && nc.node != NODE_REFNAMEDIV &&
    nc.node != NODE_REFSYNOPSISDIV && nc.node != NODE_APPENDIX && nc.node != NODE_INDEX &&
    reorg_titled reorg_names_authors nc


mutual
/-- The invariant of the tree that every node in a child queue has a parent
pointer to the node that holds the queue, below `n`. -/
def pnode.parents_ok : pnode → Bool
  | .mk a _ _ _ _ _ cs => pnode.parents_ok_queue a cs
/-- The queue part of `pnode.parents_ok`, for the queue of the node at
address `a`. -/
def pnode.parents_ok_queue (a : Nat) : List pnode → Bool
  | [] => true
  | nc :: rest => nc.parent == some a && nc.parents_ok && pnode.parents_ok_queue a rest
end

/-- The invariant of the tree with root `n`: the root has no parent, every
other node has a parent pointer to the node whose child queue holds it, and
no node occurs twice. -/
def pnode.linked (n : pnode) : Bool :=
  n.parent.isNone && n.parents_ok && decide ((n.nodes.map pnode.addr).Nodup)
/-! ## parse.c: tables -/

/-- The table `aliases` of parse.c: element names that are other names of a
node kind, in the order of the source, without the terminating entry. -/
def aliases_tab : List (String × nodeid) :=
  [ ("acronym", NODE_IGNORE),
    ("affiliation", NODE_IGNORE),
    ("anchor", NODE_DELETE),
    ("application", NODE_COMMAND),
    ("article", NODE_SECTION),
    ("articleinfo", NODE_BOOKINFO),
    ("book", NODE_SECTION),
    ("chapter", NODE_SECTION),
    ("caption", NODE_IGNORE),
    ("code", NODE_LITERAL),
    ("computeroutput", NODE_LITERAL),
    ("!doctype", NODE_DOCTYPE),
    ("figure", NODE_IGNORE),
    ("firstname", NODE_PERSONNAME),
    ("glossary", NODE_VARIABLELIST),
    ("glossdef", NODE_IGNORE),
    ("glossdiv", NODE_IGNORE),
    ("glossentry", NODE_VARLISTENTRY),
    ("glosslist", NODE_VARIABLELIST),
    ("holder", NODE_IGNORE),
    ("imageobject", NODE_IGNORE),
    ("indexterm", NODE_DELETE),
    ("informaltable", NODE_TABLE),
    ("jobtitle", NODE_IGNORE),
    ("keycap", NODE_KEYSYM),
    ("keycode", NODE_IGNORE),
    ("keycombo", NODE_IGNORE),
    ("mediaobject", NODE_BLOCKQUOTE),
    ("orgdiv", NODE_IGNORE),
    ("orgname", NODE_IGNORE),
    ("othercredit", NODE_AUTHOR),
    ("othername", NODE_PERSONNAME),
    ("part", NODE_SECTION),
    ("phrase", NODE_IGNORE),
    ("primary", NODE_DELETE),
    ("property", NODE_PARAMETER),
    ("reference", NODE_SECTION),
    ("refsect1", NODE_SECTION),
    ("refsect2", NODE_SECTION),
    ("refsect3", NODE_SECTION),
    ("refsection", NODE_SECTION),
    ("releaseinfo", NODE_IGNORE),
    ("returnvalue", NODE_IGNORE),
    ("secondary", NODE_DELETE),
    ("sect1", NODE_SECTION),
    ("sect2", NODE_SECTION),
    ("sect3", NODE_SECTION),
    ("sect4", NODE_SECTION),
    ("sgmltag", NODE_MARKUP),
    ("simpara", NODE_PARA),
    ("structfield", NODE_PARAMETER),
    ("structname", NODE_TYPE),
    ("surname", NODE_PERSONNAME),
    ("symbol", NODE_CONSTANT),
    ("tag", NODE_MARKUP),
    ("trademark", NODE_IGNORE),
    ("ulink", NODE_LINK),
    ("userinput", NODE_LITERAL) ]

/-- The table `aliases` with C strings. -/
def aliases : List (cstring × nodeid) :=
  aliases_tab.map (fun e => (e.1.toList, e.2))

/-- The table `entities` of parse.c: entity names and their roff
replacement, in the order of the source, without the terminating entry. -/
def entities_tab : List (String × String) :=
  [ ("alpha", "\\(*a"),
    ("amp", "&"),
    ("apos", "'"),
    ("auml", "\\(:a"),
    ("beta", "\\(*b"),
    ("circ", "^"),
    ("copy", "\\(co"),
    ("dagger", "\\(dg"),
    ("Delta", "\\(*D"),
    ("eacute", "\\('e"),
    ("emsp", "\\ "),
    ("gt", ">"),
    ("hairsp", "\\^"),
    ("kappa", "\\(*k"),
    ("larr", "\\(<-"),
    ("ldquo", "\\(lq"),
    ("le", "\\(<="),
    ("lowbar", "_"),
    ("lsqb", "["),
    ("lt", "<"),
    ("mdash", "\\(em"),
    ("minus", "\\-"),
    ("ndash", "\\(en"),
    ("nbsp", "\\ "),
    ("num", "#"),
    ("oslash", "\\(/o"),
    ("ouml", "\\(:o"),
    ("percnt", "%"),
    ("quot", "\\(dq"),
    ("rarr", "\\(->"),
    ("rArr", "\\(rA"),
    ("rdquo", "\\(rq"),
    ("reg", "\\(rg"),
    ("rho", "\\(*r"),
    ("rsqb", "]"),
    ("sigma", "\\(*s"),
    ("shy", "\\&"),
    ("tau", "\\(*t"),
    ("tilde", "\\[u02DC]"),
    ("times", "\\[tmu]"),
    ("uuml", "\\(:u") ]

/-- The table `entities` with C strings. -/
def entities : List (cstring × cstring) :=
  entities_tab.map (fun e => (e.1.toList, e.2.toList))

/-! ## parse.c: the parser state -/

/-- How a run of the C program ends when it does not return normally:
a call of `abort()`, a failed `assert`, a dereferenced `NULL`, an access
through a pointer to freed memory, a read outside the initialised part of a
buffer, or, in the embedding only, the end of the fuel. -/
inductive fault where
  | abort
  | assertion
  | null
  | stale
  | bounds
  | fuel
  deriving DecidableEq, Repr

inductive pstate where
  | PARSE_ELEM
  | PARSE_TAG
  | PARSE_ARG
  | PARSE_SQ
  | PARSE_DQ
  deriving DecidableEq, Repr

open pstate

/-- The flag word of the parser: `PFLAG_WARN`, `PFLAG_LINE`, `PFLAG_SPC`,
`PFLAG_ATTR` and `PFLAG_EEND`. -/
structure pflags where
  warn : Bool
  line : Bool
  spc : Bool
  attr : Bool
  eend : Bool
  deriving DecidableEq, Repr

/-- The global parse state (`struct parse`).

The nodes that the C program reaches from `p->cur` through the parent pointers
are the list `stack`, `p->cur` first; a node of the stack holds the children
that are complete, and it is itself the last child of the next node of the
stack.  The trees without a parent that are not on the stack are in `loose`.
The fields `root` and `tflags` are `p->tree->root` (an address) and
`p->tree->flags`; `doctype` is an address; `next` is the address the next
`pnode_alloc` returns; `files` is what `open(2)` finds, by name.  The text
of the messages on the standard error output is left out. -/
structure parse where
  fname : Option cstring
  root : Option Nat
  tflags : tflags
  doctype : Option Nat
  stack : List pnode
  loose : List pnode
  ncur : nodeid
  line : Int
  col : Int
  nline : Int
  ncol : Int
  del : Int
  nofill : Int
  flags : pflags
  next : Nat
  files : List (cstring × List Char)

namespace parse

/-- The pointer `p->cur`. -/
def cur (p : parse) : Option pnode := p.stack.head?

/-- The node that `pnode_alloc(p->cur)` returns, before it is linked. -/
def alloc (p : parse) : pnode × parse :=
  (pnode_alloc p.next (p.cur.map pnode.addr), { p with next := p.next + 1 })

/-- The `TAILQ_INSERT_TAIL` of `pnode_alloc(p->cur)` for a node that does not
become the current node. -/
def link (p : parse) (n : pnode) : parse :=
  match p.stack with
  | [] => { p with loose := p.loose ++ [n] }
  | c :: rest => { p with stack := c.insertTail n :: rest }

/-- The assignment `p->cur = n` for a new node `n`. -/
def push (p : parse) (n : pnode) : parse :=
  { p with stack := n :: p.stack }

/-- The assignment `p->cur = p->cur->parent`. -/
def pop (p : parse) : parse :=
  match p.stack with
  | [] => p
  | n :: rest => link { p with stack := rest } n

/-- A change of the node `p->cur` in place. -/
def setCur (p : parse) (n : pnode) : parse :=
  match p.stack with
  | [] => p
  | _ :: rest => { p with stack := n :: rest }

end parse

/-- The flag `TREE_ERROR` that `error_msg` sets. -/
def error_msg (p : parse) : parse :=
  { p with tflags := { p.tflags with error := true } }

/-- The flag `TREE_WARN` that `warn_msg` sets unless warnings are off. -/
def warn_msg (p : parse) : parse :=
  if p.flags.warn then { p with tflags := { p.tflags with warn := true } } else p

/-- The bytes of a buffer up to the first NUL, which is what a C string
function sees of them. -/
def strtrunc (s : List Char) : cstring :=
  s.takeWhile (fun c => c != Char.ofNat 0)

/-- The string without its trailing white space. -/
def rstrip (s : cstring) : cstring :=
  (s.reverse.dropWhile c_isspace).reverse

/-- Parse an element name: `xml_name2node`, whose argument `p` is unused. -/
def xml_name2node (name : cstring) : nodeid :=
  if (pnode_parse name).toCtorIdx < NODE_UNKNOWN.toCtorIdx then pnode_parse name
  else
    match aliases.find? (fun al => al.1 == name) with
    | some al => al.2
    | none => NODE_UNKNOWN

mutual
/-- The loop of `xml_text` that looks for an in-line macro directly before the
new text node: whether `np` is not `NULL` at its end. -/
def xml_text_np : pnode → Except fault Bool
  | .mk _ k _ _ _ _ cs =>
    match pnode_class k with
    | none => .error .assertion
    | some CLASS_TRANS => xml_text_np_last cs
    | some CLASS_LINE => .ok true
    | some CLASS_ENCL => .ok true
    | some _ => .ok false
/-- The step `np = TAILQ_LAST(&np->childq, pnodeq)` of that loop. -/
def xml_text_np_last : List pnode → Except fault Bool
  | [] => .ok false
  | c :: cs =>
    match cs with
    | [] => xml_text_np c
    | _ :: _ => xml_text_np_last cs
end

/-- Process a string of characters: `xml_text(p, word, sz)` with the `sz`
bytes at `word`. -/
def xml_text (p : parse) (word : List Char) : Except fault parse :=
  if word.length = 0 then .error .assertion
  else if p.del > 0 then .ok p
  else
    match p.stack with
    | [] => .ok (error_msg p)
    | n :: _ =>
      if n.node = NODE_TEXT then
        match n.b with
        | none => .error .null
        | some old =>
          let sep := if old.length ≠ 0 ∧ p.flags.spc then [' '] else []
          let p1 := p.setCur (n.setB (some (strtrunc (old ++ sep ++ word))))
          .ok { p1 with flags := { p1.flags with line := false, spc := false } }
      else
        let p0 := if p.tflags.closed ∧ p.root = some n.addr then warn_msg p else p
        let prev := n.childq.getLast?
        let t := (p0.alloc.1.setNode NODE_TEXT).setFlags
          ⟨p0.flags.line && prev.isSome, p0.flags.spc⟩
        let p1 := p0.alloc.2
        let p2 := { p1 with flags := { p1.flags with line := false, spc := false } }
        let np : Except fault Bool := if t.flags.spc then .ok false else
          match prev with
          | none => .ok false
          | some q => xml_text_np q
        match np with
        | .error e => .error e
        | .ok false => .ok (p2.push (t.setB (some (strtrunc word))))
        | .ok true =>
          let i := (word.takeWhile (fun c => !c_isspace c)).length
          let p3 := p2.link (t.setB (some (strtrunc (word.take i))))
          if i = word.length then .ok p3
          else
            let rest := (word.drop i).dropWhile c_isspace
            if rest.length = 0 then .ok { p3 with flags := { p3.flags with spc := true } }
            else
              let t2 := (p3.alloc.1.setNode NODE_TEXT).setFlags ⟨false, true⟩
              .ok (p3.alloc.2.push (t2.setB (some (strtrunc rest))))

/-- Close out the text node and strip trailing whitespace, if one is open. -/
def pnode_closetext (p : parse) (check_last_word : Bool) : Except fault parse :=
  match p.stack with
  | [] => .ok p
  | n :: _ =>
    if n.node ≠ NODE_TEXT then .ok p
    else
      match n.b with
      | none => .error .null
      | some b =>
        let s := rstrip b
        let p1 := if s.length < b.length then { p with flags := { p.flags with spc := true } }
          else p
        if p1.flags.spc ∨ !check_last_word then .ok (p1.setCur (n.setB (some s))).pop
        else
          let last_word := (s.reverse.takeWhile (fun c => !c_isspace c)).reverse
          let front := rstrip (s.take (s.length - last_word.length))
          if front.length = 0 then .ok (p1.setCur (n.setB (some s))).pop
          else
            let p2 := (p1.setCur (n.setB (some front))).pop
            let t := (pnode_alloc_text p2.alloc.1.addr p2.alloc.1.parent last_word).setFlags
              ⟨false, true⟩
            .ok (p2.alloc.2.link t)

/-! ## parse.c: pointers into the tree -/

mutual
/-- The node at address `a` in the tree `n`, if there is one: what a stored
pointer with that address designates. -/
def pnode_findaddr (a : Nat) : pnode → Option pnode
  | .mk a' k s p f q cs =>
    if a' = a then some (.mk a' k s p f q cs) else pnode_findaddr_queue a cs
/-- The queue part of `pnode_findaddr`. -/
def pnode_findaddr_queue (a : Nat) : List pnode → Option pnode
  | [] => none
  | nc :: rest =>
    match pnode_findaddr a nc with
    | some res => some res
    | none => pnode_findaddr_queue a rest
end

mutual
/-- The tree `n` without the subtrees below it whose root has the address
`a`: `pnode_unlink` of the node at that address. -/
def pnode_dropaddr (a : Nat) : pnode → pnode
  | .mk a' k s p f q cs => .mk a' k s p f q (pnode_dropaddr_queue a cs)
/-- The queue part of `pnode_dropaddr`. -/
def pnode_dropaddr_queue (a : Nat) : List pnode → List pnode
  | [] => []
  | nc :: rest =>
    if nc.addr = a then pnode_dropaddr_queue a rest
    else pnode_dropaddr a nc :: pnode_dropaddr_queue a rest
end

namespace parse

/-- The tree that holds `p->cur`, with the nodes of the stack linked into
their parents. -/
def zip (p : parse) : Option pnode :=
  match p.stack with
  | [] => none
  | n :: rest => some (rest.foldl (fun acc m => m.insertTail acc) n)

/-- The node that a pointer with the address `a` designates, `none` when no
node of the parser has this address (any more). -/
def deref (p : parse) (a : Nat) : Option pnode :=
  (p.zip.toList ++ p.loose).findSome? (pnode_findaddr a)

/-- The call `pnode_unlink(n)` for a complete node `n` at address `a`. -/
def unlink (p : parse) (a : Nat) : parse :=
  { p with
    stack := p.stack.map (pnode_dropaddr a)
    loose := (p.loose.filter (fun n => n.addr != a)).map (pnode_dropaddr a) }

end parse

/-! ## parse.c: the parser events -/

/-- The calls of the parser that read further input while an event is
handled: `parse_file(p, -1, fname)` and
`parse_string(p, cp, strlen(cp), &pstate, 0)` with `pstate` starting as
`PARSE_ELEM`. -/
structure nested where
  file : parse → cstring → Except fault parse
  str : parse → cstring → Except fault parse

/-- The function `strtonum(3)`: an optionally signed decimal number after
optional white space, with nothing behind it, within the bounds. -/
def strtonum (s : cstring) (minval maxval : Int) : Option Int :=
  let t := s.dropWhile c_isspace
  let neg := t.head? = some '-'
  let d := if t.head? = some '-' ∨ t.head? = some '+' then t.drop 1 else t
  if d.length = 0 ∨ !d.all Char.isDigit then none
  else
    let v : Int := d.foldl (fun acc c => acc * 10 + (c.toNat - 48 : Nat)) 0
    let v := if neg then -v else v
    if v < minval ∨ v > maxval then none else some v

/-- The conversion `%4.4X` of `printf(3)`: upper-case hexadecimal digits, at
least four of them. -/
def fmt_4X (n : Nat) : cstring :=
  let ds := (Nat.toDigits 16 n).map c_toupper
  List.replicate (4 - ds.length) '0' ++ ds

/-- Close out an entity node: the part of `xml_entity` from `done:` on, for
the new node with the string `b`. -/
def xml_entity_done (p : parse) (b : cstring) : Except fault parse :=
  match p.stack with
  | [] => if p.flags.line then .error .null else
    let n := ((p.alloc.1.setB (some b)).setNode NODE_ESCAPE).setFlags ⟨false, p.flags.spc⟩
    .ok { p.alloc.2.link n with flags := { p.flags with line := false, spc := false } }
  | c :: _ =>
    let n := ((p.alloc.1.setB (some b)).setNode NODE_ESCAPE).setFlags
      ⟨p.flags.line && c.childq.getLast?.isSome, p.flags.spc⟩
    .ok { p.alloc.2.link n with flags := { p.flags with line := false, spc := false } }

/-- The entity declaration of the doctype that `xml_entity` uses for `name`:
the first child with that `NAME` that has a `SYSTEM` or a `DEFINITION`. -/
def xml_entity_decl (dt : pnode) (name : cstring) : Option pnode :=
  dt.childq.find? (fun n =>
    pnode_getattr_raw (some n) ATTRKEY_NAME none == some name &&
    ((pnode_getattr_raw (some n) ATTRKEY_SYSTEM none).isSome ||
     (pnode_getattr_raw (some n) ATTRKEY_DEFINITION none).isSome))

/-- The part of `xml_entity` for a name that is not in the table `entities`. -/
def xml_entity_other (r : nested) (p : parse) (name : cstring) : Except fault parse :=
  let numeric : Except fault parse :=
    if name.head? = some '#' then
      match strtonum (name.drop 1) 0 0x10ffff with
      | some c => xml_entity_done p ("\\[u".toList ++ fmt_4X c.toNat ++ "]".toList)
      | none => .ok (error_msg p)
    else .ok (error_msg p)
  match p.doctype with
  | none => numeric
  | some d =>
    match p.deref d with
    | none => .error .stale
    | some dt =>
      match xml_entity_decl dt name with
      | none => numeric
      | some n =>
        match pnode_getattr_raw (some n) ATTRKEY_SYSTEM none with
        | some ccp =>
          (r.file p ccp).map
            (fun q => { q with flags := { q.flags with line := false, spc := false } })
        | none =>
          match pnode_getattr_raw (some n) ATTRKEY_DEFINITION none with
          | none => numeric
          | some ccp =>
            (r.str p ccp).map
              (fun q => { q with flags := { q.flags with line := false, spc := false } })

/-- Process an entity reference. -/
def xml_entity (r : nested) (p : parse) (name : cstring) : Except fault parse :=
  if p.del > 0 then .ok p
  else if p.stack.length = 0 then .ok (error_msg p)
  else
    match pnode_closetext p false with
    | .error e => .error e
    | .ok p1 =>
      let p2 := if p1.tflags.closed ∧ p1.cur.map pnode.addr = p1.root then warn_msg p1 else p1
      match entities.find? (fun e => e.1 == name) with
      | some e => xml_entity_done p2 e.2
      | none => xml_entity_other r p2 name

/-- Whether the element name starts neither with `!` nor with `?`. -/
def xml_name_plain (name : cstring) : Bool :=
  name.head? != some '!' && name.head? != some '?'

/-- The part of `xml_elem_start` that creates the node, for a regular kind
`p->ncur` of class `cls`, after the open text node has been closed. -/
def xml_elem_alloc (p : parse) (cls : nodeclass) : parse :=
  let lineflag := match p.stack with
    | [] => false
    | c :: _ => p.flags.line && c.childq.getLast?.isSome
  let eend := p.ncur = NODE_DOCTYPE ∨ p.ncur = NODE_ENTITY ∨ p.ncur = NODE_SBR ∨
    p.ncur = NODE_VOID
  let spcflag := if cls = CLASS_LINE ∨ cls = CLASS_ENCL then p.flags.spc else true
  let n := (p.alloc.1.setNode p.ncur).setFlags ⟨lineflag, spcflag⟩
  let p1 : parse := { p.alloc.2 with
    flags := { p.flags with line := false, eend := p.flags.eend || decide eend }
    nofill := if cls = CLASS_NOFILL then p.nofill + 1 else p.nofill }
  let p2 := p1.push n
  if n.node = NODE_DOCTYPE then
    if p2.doctype = none then { p2 with doctype := some n.addr } else error_msg p2
  else if n.parent = none ∧ p2.root = none then { p2 with root := some n.addr }
  else p2

/-- Begin an element. -/
def xml_elem_start (p : parse) (name : cstring) : Except fault parse :=
  if p.del > 0 then
    .ok (if xml_name_plain name then { p with del := p.del + 1 } else p)
  else
    let p0 := { p with ncur := xml_name2node name }
    match p0.ncur with
    | NODE_DELETE_WARN => .ok { warn_msg p0 with del := 1 }
    | NODE_DELETE => .ok { p0 with del := 1 }
    | NODE_IGNORE => .ok p0
    | NODE_UNKNOWN => .ok (if xml_name_plain name then error_msg p0 else p0)
    | _ =>
      match (if p0.tflags.closed then p0.cur.map (fun c => c.parent == none) else some false),
          pnode_class p0.ncur with
      | none, _ => .error .null
      | _, none => .error .assertion
      | some w, some cls =>
        let p1 := if w then warn_msg p0 else p0
        match pnode_closetext p1 (cls = CLASS_LINE ∨ cls = CLASS_ENCL) with
        | .error e => .error e
        | .ok p2 => .ok (xml_elem_alloc p2 cls)

/-- The function `xml_attrkey`; it calls itself at most once, which the first
argument bounds. -/
def xml_attrkey_aux : Nat → parse → cstring → Except fault parse
  | 0, _, _ => .error .fuel
  | k + 1, p, name =>
    if p.del > 0 ∨ p.ncur.toCtorIdx ≥ NODE_UNKNOWN.toCtorIdx ∨ name.length = 0 then .ok p
    else
      let special := p.ncur = NODE_DOCTYPE ∨ p.ncur = NODE_ENTITY
      match (if special then p.cur.map (fun c => decide (c.attrq.length = 0)) else some false)
      with
      | none => .error .null
      | some first =>
        let value : Option cstring := if first then some name else none
        let key := attrkey_parse (if first then "NAME".toList else name)
        if key = ATTRKEY__MAX then .ok { p with flags := { p.flags with attr := false } }
        else
          match p.stack with
          | [] => .error .null
          | c :: _ =>
            let p1 := { p.setCur (c.setAttrq (c.attrq ++ [⟨key, ATTRVAL__MAX, value⟩])) with
              flags := { p.flags with attr := value.isNone } }
            if p1.ncur = NODE_ENTITY ∧ key = ATTRKEY_NAME then
              xml_attrkey_aux k p1 "DEFINITION".toList
            else .ok p1

/-- Process the name of an attribute. -/
def xml_attrkey (p : parse) (name : cstring) : Except fault parse :=
  xml_attrkey_aux 2 p name

/-- Process the value of an attribute. -/
def xml_attrval (p : parse) (name : cstring) : Except fault parse :=
  if p.del > 0 ∨ p.ncur.toCtorIdx ≥ NODE_UNKNOWN.toCtorIdx ∨ p.flags.attr = false then .ok p
  else
    match p.stack with
    | [] => .error .null
    | c :: _ =>
      match c.attrq.getLast? with
      | none => .ok p
      | some a =>
        let val := attrval_parse name
        let a1 : pattr := ⟨a.key, val, if val = ATTRVAL__MAX then some name else a.rawval⟩
        .ok { p.setCur (c.setAttrq (c.attrq.dropLast ++ [a1])) with
          flags := { p.flags with attr := false } }

/-- The default case of the `switch` of `xml_elem_end`, for the kind `node`. -/
def xml_elem_close (r : nested) (p : parse) (node : nodeid) : Except fault parse :=
  match p.stack with
  | [] => .ok (warn_msg p)
  | n :: _ =>
    if node ≠ n.node then .ok (warn_msg p)
    else
      match pnode_class node with
      | none => .error .assertion
      | some cls =>
        let p1 := if cls = CLASS_NOFILL then { p with nofill := p.nofill - 1 } else p
        let p2 :=
          if n.parent ≠ none ∨ node = NODE_DOCTYPE then
            match p1.pop.cur with
            | some c => { p1.pop with ncur := c.node }
            | none => p1.pop
          else { p1 with tflags := { p1.tflags with closed := true } }
        let p3 := { p2 with flags := { p2.flags with line := false, spc := false } }
        if node = NODE_ENTITY ∧
            pnode_getattr_raw (some n) ATTRKEY_NAME (some []) = some "%".toList then
          match pnode_getattr_raw (some n) ATTRKEY_SYSTEM none with
          | some cp => r.file p3 cp
          | none => .ok p3
        else .ok p3

/-- The `switch` of `xml_elem_end` for the kind `node`. -/
def xml_elem_switch (r : nested) (p : parse) (node : nodeid) : Except fault parse :=
  match node with
  | NODE_DELETE_WARN => .ok (if p.del > 0 then { p with del := p.del - 1 } else p)
  | NODE_DELETE => .ok (if p.del > 0 then { p with del := p.del - 1 } else p)
  | NODE_IGNORE => .ok p
  | NODE_UNKNOWN => .ok p
  | NODE_INCLUDE =>
    match p.stack with
    | [] => .error .null
    | n :: _ =>
      let p1 := p.pop
      let p2 : Except fault parse := match pnode_getattr_raw (some n) ATTRKEY_HREF none with
        | none => .ok (error_msg p1)
        | some cp => r.file p1 cp
      p2.map (fun q =>
        { q.unlink n.addr with flags := { q.flags with line := false, spc := false } })
  | _ =>
    let p1 := if node = NODE_DOCTYPE ∨ node = NODE_SBR ∨ node = NODE_VOID then
      { p with flags := { p.flags with eend := false } } else p
    xml_elem_close r p1 node

/-- Roll up the parse tree: `xml_elem_end`, where `name` may be `NULL`. -/
def xml_elem_end (r : nested) (p : parse) (name : Option cstring) : Except fault parse :=
  if p.del > 1 then .ok { p with del := p.del - 1 }
  else
    match (if p.del = 0 then pnode_closetext p false else .ok p) with
    | .error e => .error e
    | .ok p1 =>
      let node := match name with
        | none => p1.ncur
        | some s => xml_name2node s
      match xml_elem_switch r p1 node with
      | .error e => .error e
      | .ok p2 => if p2.del = 0 then .ok p2 else .error .assertion

/-- The zeroed parser of `parse_alloc(warn)`; the environment gives the files
that can be opened and the first free address. -/
def parse_alloc (warn : Bool) (files : List (cstring × List Char)) (next : Nat) : parse :=
  { fname := none, root := none, tflags := ⟨false, false, false⟩, doctype := none,
    stack := [], loose := [], ncur := NODE_ABSTRACT, line := 0, col := 0, nline := 0,
    ncol := 0, del := 0, nofill := 0, flags := ⟨warn, false, false, false, false⟩,
    next := next, files := files }

/-! ## parse.c: the scanner -/

/-- The state of one call of `parse_string`: the parser, the buffer `b`, where
a cell that was never written holds `none`, `*pstate`, `pend` and `pws`. -/
structure scan where
  p : parse
  b : List (Option Char)
  pstate : pstate
  pend : Nat
  pws : Nat

/-- The NUL character. -/
def NUL : Char := Char.ofNat 0

/-- Read the cell `b[i]`. -/
def buf_get (b : List (Option Char)) (i : Nat) : Except fault Char :=
  match b.get? i with
  | some (some c) => .ok c
  | _ => .error .bounds

/-- The C string that starts with the given cells. -/
def buf_cstr : List (Option Char) → Except fault cstring
  | [] => .error .bounds
  | none :: _ => .error .bounds
  | some c :: rest => if c = NUL then .ok [] else (buf_cstr rest).map (fun s => c :: s)

/-- The C string `b + off`. -/
def buf_str (b : List (Option Char)) (off : Nat) : Except fault cstring :=
  buf_cstr (b.drop off)

/-- The bytes `b[off]` to `b[off + sz - 1]`. -/
def buf_bytes (b : List (Option Char)) (off sz : Nat) : Except fault (List Char) :=
  ((b.drop off).take sz).foldr
    (fun c acc => match c, acc with
      | some c, .ok s => .ok (c :: s)
      | none, .ok _ => .error .bounds
      | _, .error e => .error e)
    (if off + sz ≤ b.length then .ok [] else .error .bounds)

/-- Whether the C string that starts with the given cells starts with `pat`. -/
def buf_prefix : List Char → List (Option Char) → Except fault Bool
  | [], _ => .ok true
  | _ :: _, [] => .error .bounds
  | _ :: _, none :: _ => .error .bounds
  | c :: pat, some d :: rest => if c = d then buf_prefix pat rest else .ok false

/-- The function `strstr(3)` on the C string that starts with the given
cells: the offset of the first occurrence of `pat`. -/
def buf_strstr (pat : List Char) : List (Option Char) → Except fault (Option Nat)
  | [] => .error .bounds
  | none :: _ => .error .bounds
  | some c :: rest =>
    match buf_prefix pat (some c :: rest) with
    | .error e => .error e
    | .ok true => .ok (some 0)
    | .ok false =>
      if c = NUL then .ok none
      else (buf_strstr pat rest).map (fun r => r.map (fun i => i + 1))

/-- Whether `strchr(charset, c) != NULL`; the NUL that ends the set counts. -/
def c_strchr (charset : cstring) (c : Char) : Bool :=
  c = NUL || charset.contains c

/-- The function `increment`. -/
def increment (s : scan) (refill : Bool) : Except fault scan :=
  if refill then
    match buf_get s.b s.pend with
    | .error e => .error e
    | .ok c =>
      if c = '\n' then
        .ok { s with p := { s.p with nline := s.p.nline + 1, ncol := 1 }, pend := s.pend + 1 }
      else .ok { s with p := { s.p with ncol := s.p.ncol + 1 }, pend := s.pend + 1 }
  else .ok { s with pend := s.pend + 1 }

/-- The loop of `advance`; it runs at most `rlen - pend` times, which the
first argument bounds. -/
def advance_loop : Nat → scan → Nat → Bool → cstring → Bool → Except fault scan
  | 0, s, _, _, _, _ => .ok s
  | k + 1, s, rlen, space, charset, refill =>
    if s.pend < rlen then
      match buf_get s.b s.pend with
      | .error e => .error e
      | .ok c =>
        if (space && c_isspace c) || c_strchr charset c then .ok s
        else
          match increment s refill with
          | .error e => .error e
          | .ok s1 => advance_loop k s1 rlen space charset refill
    else .ok s

/-- Advance `pend` to the next character in the charset: the new state and
the return value of `advance`. -/
def advance (s : scan) (rlen : Nat) (charset : cstring) (refill : Bool) :
    Except fault (scan × Bool) :=
  let space := charset.head? = some ' '
  let cs := if space then charset.drop 1 else charset
  let s0 := if refill then { s with p := { s.p with nline := s.p.line, ncol := s.p.col } }
    else s
  match advance_loop (rlen - s0.pend) s0 rlen space cs refill with
  | .error e => .error e
  | .ok s1 =>
    if s1.pend = rlen then .ok ({ s1 with b := s1.b.set rlen (some NUL) }, refill)
    else .ok (s1, false)

/-- The common end of the three tag tokens: when `b[pend]` is `>` and
`b[pend - 1]` is a slash, overwrite the slash and report a self-closing tag. -/
def scan_slash (s : scan) : Except fault (scan × Bool) :=
  if s.pend > 0 then
    match buf_get s.b (s.pend - 1) with
    | .error e => .error e
    | .ok c =>
      if c = '/' then .ok ({ s with b := s.b.set (s.pend - 1) (some NUL) }, true)
      else .ok (s, false)
  else .ok (s, false)

/-- The statements `b[pend] = 0; if (pend < rlen) increment(...)`. -/
def scan_term (s : scan) (rlen : Nat) (refill : Bool) : Except fault scan :=
  let s1 := { s with b := s.b.set s.pend (some NUL) }
  if s1.pend < rlen then increment s1 refill else .ok s1

/-- The token of `parse_string` that parses an attribute value, after the
test for an opening quote.  The second component is the return value of
`parse_string` when the token loop is left. -/
def scan_value (r : nested) (s : scan) (rlen : Nat) (refill : Bool) (poff : Nat) :
    Except fault (scan × Option Nat) := do
  let charset := if s.pstate = PARSE_DQ then "\"".toList
    else if s.pstate = PARSE_SQ then [Char.ofNat 39] else " >".toList
  let (s1, adv) ← advance s rlen charset refill
  if adv then return (s1, some poff)
  let c ← buf_get s1.b s1.pend
  let (s2, slash) ← if c = '>' then scan_slash { s1 with pstate := PARSE_ELEM }
    else pure ({ s1 with pstate := PARSE_TAG }, false)
  let elem_end := slash || (c = '>' && s2.p.flags.eend)
  let s3 ← scan_term s2 rlen refill
  let name ← buf_str s3.b poff
  let p1 ← xml_attrval s3.p name
  let p2 ← if elem_end then xml_elem_end r p1 none else pure p1
  return ({ s3 with p := p2, pws := s3.pend }, none)

/-- The token of `parse_string` that looks for an attribute name, after the
tests for the opening bracket of a doctype and for a quote. -/
def scan_key (r : nested) (s : scan) (rlen : Nat) (refill : Bool) (poff : Nat) :
    Except fault (scan × Option Nat) := do
  let (s1, adv) ← advance s rlen " =>".toList refill
  if adv then return (s1, some poff)
  let c ← buf_get s1.b s1.pend
  let (s2, slash) ← if c = '>' then scan_slash { s1 with pstate := PARSE_ELEM }
    else if c = '=' then pure ({ s1 with pstate := PARSE_ARG }, false)
    else pure (s1, false)
  let elem_end := slash || (c = '>' && s2.p.flags.eend)
  let s3 ← scan_term s2 rlen refill
  let name ← buf_str s3.b poff
  let p1 ← xml_attrkey s3.p name
  let p2 ← if elem_end then xml_elem_end r p1 none else pure p1
  return ({ s3 with p := p2, pws := s3.pend }, none)

/-- Skip a comment: the loop that increments `pend` up to `cp`. -/
def scan_skip : Nat → scan → Nat → Bool → Except fault scan
  | 0, s, _, _ => .ok s
  | k + 1, s, cp, refill =>
    if s.pend < cp then
      match increment s refill with
      | .error e => .error e
      | .ok s1 => scan_skip k s1 cp refill
    else .ok s

/-- The token of `parse_string` that begins an opening or closing tag, or
skips a comment. -/
def scan_tag (r : nested) (s : scan) (rlen : Nat) (refill : Bool) (poff : Nat) :
    Except fault (scan × Option Nat) := do
  let (s1, adv) ← advance s rlen " >".toList refill
  if adv then return (s1, some poff)
  let comment ← if s1.pend > poff + 3 then buf_prefix "<!--".toList (s1.b.drop poff)
    else pure false
  if comment then
    let found ← buf_strstr "-->".toList (s1.b.drop (s1.pend - 2))
    match found with
    | none =>
      if refill then return (s1, some poff)
      let s2 ← scan_skip (rlen - s1.pend) s1 rlen refill
      return (s2, none)
    | some i =>
      let s2 ← scan_skip (s1.pend - 2 + i + 3 - s1.pend) s1 (s1.pend - 2 + i + 3) refill
      return (s2, none)
  let c ← buf_get s1.b s1.pend
  let (s2, slash) ← if c ≠ '>' then pure ({ s1 with pstate := PARSE_TAG }, false)
    else scan_slash s1
  let s3 ← scan_term s2 rlen refill
  let c1 ← buf_get s3.b (poff + 1)
  if c1 = '/' then
    let name ← buf_str s3.b (poff + 2)
    let p1 ← xml_elem_end r s3.p (some name)
    return ({ s3 with p := p1, pws := s3.pend }, none)
  let name ← buf_str s3.b (poff + 1)
  let p1 ← xml_elem_start s3.p name
  let elem_end := slash || (s3.pstate = PARSE_ELEM && p1.flags.eend)
  let p2 ← if elem_end then xml_elem_end r p1 (some name) else pure p1
  return ({ s3 with p := p2, pws := s3.pend }, none)

/-- The token of `parse_string` that processes an entity. -/
def scan_entity (r : nested) (s : scan) (rlen : Nat) (refill : Bool) (poff : Nat) :
    Except fault (scan × Option Nat) := do
  let (s1, adv) ← advance s rlen ";".toList refill
  if adv then return (s1, some poff)
  let s2 ← scan_term s1 rlen refill
  let name ← buf_str s2.b (poff + 1)
  let p1 ← xml_entity r s2.p name
  return ({ s2 with p := p1, pws := s2.pend }, none)

/-- The token of `parse_string` that processes text up to the next tag,
entity, or end of line. -/
def scan_text (s : scan) (rlen : Nat) (refill : Bool) (poff : Nat) :
    Except fault (scan × Option Nat) := do
  let charset := if s.p.ncur = NODE_DOCTYPE then "<&]\n".toList else "<&\n".toList
  let (s1, _) ← advance s rlen charset refill
  let off := if s1.p.nofill ≠ 0 then s1.pws else poff
  let word ← buf_bytes s1.b off (s1.pend - off)
  let p1 ← xml_text s1.p word
  let c ← buf_get s1.b s1.pend
  let p2 ← if c = '\n' then pnode_closetext p1 false else pure p1
  return ({ s1 with p := p2, pws := s1.pend }, none)

/-- One turn of the token loop of `parse_string`. -/
def parse_string_step (r : nested) (s : scan) (rlen : Nat) (refill : Bool) :
    Except fault (scan × Option Nat) := do
  let s := if refill then { s with p := { s.p with line := s.p.nline, col := s.p.ncol } }
    else s
  let poff := s.pend
  if poff = rlen then return (s, some poff)
  let c ← buf_get s.b s.pend
  if c_isspace c then
    let p1 := { s.p with flags := { s.p.flags with spc := true } }
    let s1 := if c = '\n' then
      { s with p := { p1 with flags := { p1.flags with line := true } }, pws := s.pend + 1 }
      else { s with p := p1 }
    let s2 ← increment s1 refill
    return (s2, none)
  if s.pstate = PARSE_ARG ∨ s.pstate = PARSE_SQ ∨ s.pstate = PARSE_DQ then
    if s.pstate = PARSE_ARG ∧ (c = Char.ofNat 39 ∨ c = '"') then
      let s1 ← increment { s with pstate := if c = '"' then PARSE_DQ else PARSE_SQ } refill
      return (s1, none)
    scan_value r s rlen refill poff
  else if s.pstate = PARSE_TAG then
    if s.p.ncur = NODE_DOCTYPE ∧ c = '[' then
      let s1 ← increment { s with pstate := PARSE_ELEM } refill
      return (s1, none)
    if (s.p.ncur = NODE_DOCTYPE ∨ s.p.ncur = NODE_ENTITY) ∧ (c = '"' ∨ c = Char.ofNat 39) then
      return ({ s with pstate := PARSE_ARG }, none)
    scan_key r s rlen refill poff
  else if c = '<' then scan_tag r s rlen refill poff
  else if s.p.ncur = NODE_DOCTYPE ∧ c = ']' then
    let s1 ← increment { s with pstate := PARSE_TAG } refill
    return ({ s1 with pws := s1.pend }, none)
  else if c = '&' then scan_entity r s rlen refill poff
  else scan_text s rlen refill poff

/-- The token loop of `parse_string`; the first argument bounds the number
of its turns. -/
def parse_string_loop (r : nested) : Nat → scan → Nat → Bool → Except fault (scan × Nat)
  | 0, _, _, _ => .error .fuel
  | k + 1, s, rlen, refill =>
    match parse_string_step r s rlen refill with
    | .error e => .error e
    | .ok (s1, some poff) => .ok (s1, poff)
    | .ok (s1, none) => parse_string_loop r k s1 rlen refill

/-- The function `parse_string`: the parser, the buffer and `*pstate` at its
end, and its return value.  Every turn of the token loop but one in a row
moves `pend`, hence the bound. -/
def parse_string (r : nested) (p : parse) (b : List (Option Char)) (rlen : Nat)
    (st : pstate) (refill : Bool) : Except fault (scan × Nat) :=
  parse_string_loop r (2 * rlen + 4) ⟨p, b, st, 0, 0⟩ rlen refill

/-! ## parse.c: the read loop -/

/-- The read loop of `parse_fd` on the bytes `input` that `read(2)` still has
to deliver, with `rlen` bytes in the buffer `b`.  Every `read` fills the
buffer as far as the input reaches; it does not fail.  The first argument
bounds the number of turns. -/
def parse_fd_loop (r : nested) : Nat → parse → List Char → List (Option Char) → Nat →
    pstate → Except fault parse
  | 0, _, _, _, _, _ => .error .fuel
  | k + 1, p, input, b, rlen, st =>
    let rsz := min input.length (b.length - rlen - 1)
    let b1 := b.take rlen ++ (input.take rsz).map some ++ b.drop (rlen + rsz)
    let rlen1 := rlen + rsz
    if rlen1 = 0 then .ok p
    else
      match parse_string r p b1 rlen1 st (decide (rsz > 0)) with
      | .error e => .error e
      | .ok (s, poff) =>
        if poff = 0 then .error .assertion
        else if poff > rlen1 then .error .bounds
        else
          let rlen2 := rlen1 - poff
          let b2 := (s.b.drop poff).take rlen2 ++ s.b.drop rlen2
          parse_fd_loop r k s.p (input.drop rsz) b2 rlen2 s.pstate

/-- The function `parse_fd` for a descriptor that delivers `input`; the
buffer of 4096 bytes starts uninitialised. -/
def parse_fd (r : nested) (p : parse) (input : List Char) : Except fault parse :=
  parse_fd_loop r (2 * input.length + 2) p input (List.replicate 4096 none) 0 PARSE_ELEM

namespace parse

/-- The call `pnode_unlink(n)` at the end of the parse: as `unlink`, and when
the node at address `a` is still open, the nodes of the stack down to that
node go with it. -/
def unlink_open (p : parse) (a : Nat) : parse :=
  if p.stack.any (fun n => n.addr == a) then
    { p with stack := (p.stack.dropWhile (fun n => n.addr != a)).drop 1 }
  else p.unlink a

end parse

/-- The steps of `parse_file` that finalize the parse tree on the top
level. -/
def parse_finish (p : parse) : Except fault parse :=
  match pnode_closetext p false with
  | .error e => .error e
  | .ok p1 =>
    let p2 := if p1.root = none then error_msg p1
      else if p1.tflags.closed = false then warn_msg p1 else p1
    match p2.doctype with
    | none => .ok p2
    | some d => .ok (p2.unlink_open d)

/-- Open and parse a file: `parse_file(p, fd, fname)`, where `fd` is `none`
for -1 and else the bytes that the open descriptor delivers.  The change of
the working directory is left out: `files` is searched by the name as it
is given. -/
def parse_file_at (r : nested) (p : parse) (fd : Option (List Char)) (fname : cstring) :
    Except fault parse :=
  let p0 := { p with fname := some fname, line := 0, col := 0 }
  let input := match fd with
    | some bytes => some bytes
    | none => (p.files.find? (fun f => f.1 == fname)).map (fun f => f.2)
  match input with
  | none => .ok { error_msg p0 with fname := p.fname }
  | some bytes =>
    match parse_fd r { p0 with nline := 1, ncol := 1 } bytes with
    | .error e => .error e
    | .ok p1 =>
      match (if p.fname = none then parse_finish p1 else .ok p1) with
      | .error e => .error e
      | .ok p2 => .ok { p2 with fname := p.fname, nline := p.nline, ncol := p.ncol }

/-- The nested calls of the parser, `k` levels deep. -/
def parse_nested : Nat → nested
  | 0 => ⟨fun _ _ => .error .fuel, fun _ _ => .error .fuel⟩
  | k + 1 =>
    ⟨fun p fname => parse_file_at (parse_nested k) p none fname,
     fun p cp => (parse_string (parse_nested k) p (cp.map some ++ [some NUL]) cp.length
        PARSE_ELEM false).map (fun res => res.1.p)⟩

/-- The function `parse_file` with entity and include files nested at most
`fuel` levels deep. -/
def parse_file (fuel : Nat) (p : parse) (fd : Option (List Char)) (fname : cstring) :
    Except fault parse :=
  parse_file_at (parse_nested fuel) p fd fname

/-- The tree `p->tree` that `parse_file` returns, as the caller sees it. -/
def parse_tree (p : parse) : Except fault ptree :=
  match p.root with
  | none => .ok ⟨none, p.tflags⟩
  | some a =>
    match (p.zip.toList ++ p.loose).find? (fun n => n.addr == a) with
    | some n => .ok ⟨some n, p.tflags⟩
    | none => .error .stale

/-! ## macro.h -/

inductive linestate where
  | LINE_NEW
  | LINE_TEXT
  | LINE_MACRO
  deriving DecidableEq, Repr

open linestate

inductive parastate where
  | PARA_HAVE
  | PARA_MID
  | PARA_WANT
  deriving DecidableEq, Repr

open parastate

/-- The flag word of the formatter: `FMT_NOSPC`, `FMT_ARG`, `FMT_CHILD` and
`FMT_IMPL`. -/
structure fflags where
  nospc : Bool
  arg : Bool
  child : Bool
  impl : Bool
  deriving DecidableEq, Repr

/-- The formatter state (`struct format`), together with the bytes written
to the standard output so far. -/
structure format where
  level : Int
  nofill : Int
  flags : fflags
  linestate : linestate
  parastate : parastate
  out : List Char
  deriving DecidableEq, Repr

/-- The flags of an argument: `ARG_SPACE`, `ARG_SINGLE`, `ARG_QUOTED` and
`ARG_UPPER`. -/
structure aflags where
  space : Bool
  single : Bool
  quoted : Bool
  upper : Bool
  deriving DecidableEq, Repr

/-- No argument flag: the value 0. -/
def ARG_NONE : aflags := ⟨false, false, false, false⟩

def ARG_SPACE : aflags := ⟨true, false, false, false⟩

def ARG_SINGLE : aflags := ⟨false, true, false, false⟩

def ARG_QUOTED : aflags := ⟨false, false, true, false⟩

def ARG_UPPER : aflags := ⟨false, false, false, true⟩

/-- The bitwise or of two argument flag words. -/
def aflags.or (x y : aflags) : aflags :=
  ⟨x.space || y.space, x.single || y.single, x.quoted || y.quoted, x.upper || y.upper⟩

/-- The value 0 of the flag word of the formatter. -/
def FMT_NONE : fflags := ⟨false, false, false, false⟩

namespace format

/-- The call `fputs(s, stdout)`. -/
def puts (f : format) (s : List Char) : format :=
  { f with out := f.out ++ s }

/-- The call `putchar(c)`. -/
def putc (f : format) (c : Char) : format :=
  { f with out := f.out ++ [c] }

end format

/-! ## macro.c -/

/-- The functions `isupper`, `islower` and `isalnum` in the C locale. -/
def c_isupper (c : Char) : Bool := 'A' ≤ c && c ≤ 'Z'

def c_islower (c : Char) : Bool := 'a' ≤ c && c ≤ 'z'

def c_isalnum (c : Char) : Bool := c_isupper c || c_islower c || ('0' ≤ c && c ≤ '9')

def para_check (f : format) : format :=
  if f.parastate ≠ PARA_WANT then f
  else
    let f1 := if f.linestate ≠ LINE_NEW then { f.putc '\n' with linestate := LINE_NEW } else f
    { f1.puts ".Pp\n".toList with parastate := PARA_HAVE }

/-- The `switch` of `macro_open` with its fall-through cases. -/
def macro_open_line (f : format) : format :=
  let fresh (g : format) : format :=
    { g.putc '.' with linestate := LINE_MACRO, flags := FMT_NONE }
  let text (g : format) : format :=
    fresh ((if g.nofill ≠ 0 ∧ g.linestate = LINE_TEXT then g.puts " \\c".toList else g).putc '\n')
  match f.linestate with
  | LINE_MACRO =>
    if f.flags.nospc then f.puts " Ns ".toList
    else if f.nofill ≠ 0 ∨ f.flags.child ∨ f.flags.impl then f.putc ' '
    else text f
  | LINE_TEXT => text f
  | LINE_NEW => fresh f

def macro_open (f : format) (name : cstring) : format :=
  let f1 := (macro_open_line (para_check f)).puts name
  { f1 with flags := ⟨false, true, false, f1.flags.impl⟩, parastate := PARA_MID }

def macro_close (f : format) : format :=
  let f1 := if f.linestate ≠ LINE_NEW then f.putc '\n' else f
  { f1 with linestate := LINE_NEW, flags := FMT_NONE }

def macro_line (f : format) (name : cstring) : format :=
  macro_close (macro_open (macro_close f) name)

/-- The test of `macro_addarg` for a word that looks like a macro, at the
characters `cp[0]`, `cp[1]`, ... of the argument. -/
def macro_like (cp : List Char) : Bool :=
  c_isupper (cp.getD 0 NUL) && c_islower (cp.getD 1 NUL) &&
  (cp.getD 2 NUL == NUL || cp.getD 2 NUL == ' ' ||
   ((cp.getD 3 NUL == NUL || cp.getD 3 NUL == ' ') &&
    (cp.take 3 == "Brq".toList || cp.take 3 == "Bro".toList ||
     cp.take 3 == "Brc".toList || cp.take 3 == "Bsx".toList)))

/-- The main loop of `macro_addarg` at the characters `cp` of the argument;
`start` tells that `cp == arg` and `prev` is `cp[-1]`. -/
def macro_addarg_loop (f : format) (start : Bool) (prev : Char) (flags : aflags) :
    List Char → format
  | [] => f
  | c :: rest =>
    if c_isspace c then macro_addarg_loop f false c { flags with space := true } rest
    else
      let f1 := if flags.space then f.putc ' ' else f
      let flags1 := { flags with space := false }
      let f2 := if !flags1.quoted && !flags1.upper && (start || c_isspace prev) &&
          macro_like (c :: rest) then f1.puts "\\&".toList else f1
      let f3 := if c = '"' then f2.puts "\\(dq".toList
        else if flags1.upper then f2.putc (c_toupper c) else f2.putc c
      let f4 := if c = '\\' then f3.putc 'e' else f3
      macro_addarg_loop f4 false c flags1 rest

/-- Print an argument string on a macro line, collapsing whitespace. -/
def macro_addarg (f : format) (arg : cstring) (flags : aflags) : Except fault format :=
  if f.linestate ≠ LINE_MACRO then .error .assertion
  else
    let quote_now := flags.single && !flags.quoted && arg.any c_isspace
    let f1 := if quote_now then (if flags.space then f.putc ' ' else f).putc '"' else f
    let flags1 := if quote_now then ARG_QUOTED else flags
    let f2 := macro_addarg_loop f1 true NUL flags1 arg
    let f3 := if quote_now then f2.putc '"' else f2
    .ok { f3 with parastate := PARA_MID }

def macro_argline (f : format) (name arg : cstring) : Except fault format :=
  (macro_addarg (macro_open f name) arg ARG_SPACE).map macro_close

/-- The update of the flags between two children in the loop of
`macro_addnode`: `nc` has been printed and `nn` is its successor. -/
def macro_addnode_next (nc : pnode) (nn : Option pnode) (flags : aflags) :
    Except fault aflags :=
  match pnode_class nc.node, nn with
  | none, _ => .error .assertion
  | some _, none => .ok { flags with space := true }
  | some c, some n =>
    match pnode_class n.node with
    | none => .error .assertion
    | some cn =>
      if c = CLASS_TEXT ∧ cn = CLASS_TEXT ∧ n.flags.spc = false then
        .ok { flags with space := false }
      else .ok { flags with space := true }

mutual
/-- Recursively append text from the children of a node to a macro line. -/
def macro_addnode (f : format) (flags : aflags) : pnode → Except fault format
  | .mk _ k b _ _ _ cs =>
    if f.linestate ≠ LINE_MACRO then .error .assertion
    else
      match macro_addnode_only f flags cs with
      | some r => r
      | none =>
        if k = NODE_TEXT ∨ k = NODE_ESCAPE then
          match b with
          | none => .error .null
          | some s => (macro_addarg f s flags).map (fun g => { g with parastate := PARA_MID })
        else
          let quote_now := flags.single && !flags.quoted
          let f1 := if quote_now then (if flags.space then f.putc ' ' else f).putc '"' else f
          let flags1 : aflags :=
            if quote_now then ⟨false, false, true, flags.upper⟩
            else { flags with single := false }
          match macro_addnode_queue f1 flags1 cs with
          | .error e => .error e
          | .ok f2 =>
            .ok { (if quote_now then f2.putc '"' else f2) with parastate := PARA_MID }
/-- The loop at the start of `macro_addnode` that goes down to an only
child: the result for that child, if there is one. -/
def macro_addnode_only (f : format) (flags : aflags) :
    List pnode → Option (Except fault format)
  | [] => none
  | c :: rest =>
    match rest with
    | [] => some (macro_addnode f flags c)
    | _ :: _ => none
/-- The loop of `macro_addnode` over the children. -/
def macro_addnode_queue (f : format) (flags : aflags) : List pnode → Except fault format
  | [] => .ok f
  | nc :: rest =>
    match macro_addnode f flags nc with
    | .error e => .error e
    | .ok f1 =>
      match macro_addnode_next nc rest.head? flags with
      | .error e => .error e
      | .ok flags1 => macro_addnode_queue f1 flags1 rest
end

def macro_nodeline (f : format) (name : cstring) (n : pnode) (flags : aflags) :
    Except fault format :=
  (macro_addnode (macro_open f name) (ARG_SPACE.or flags) n).map macro_close

/-- The loop of `print_text` at the characters `word`; `p2` and `p1` are
`word[-2]` and `word[-1]`. -/
def print_text_loop : Nat → format → Bool → Nat → Char → Char → List Char → Except fault format
  | 0, _, _, _, _, _, _ => .error .fuel
  | _ + 1, f, _, _, _, _, [] => .ok f
  | k + 1, f, ateos, inword, p2, p1, c :: rest =>
    let put (g : format) : format := if c = '\\' then (g.putc c).putc 'e' else g.putc c
    if f.nofill = 0 then
      if c = ' ' then
        if ateos = false then print_text_loop k (put f) false 0 p1 c rest
        else
          let rest1 := rest.dropWhile (fun d => d == ' ')
          let f1 := match rest1.head? with
            | none => f
            | some d => if d = Char.ofNat 39 ∨ d = '.' then f.puts "\n\\&".toList else f.putc '\n'
          print_text_loop k f1 false 0 (if rest1.length < rest.length then ' ' else p1) ' ' rest1
      else if c = '!' ∨ c = '.' ∨ c = '?' then
        let ateos1 := if inword > 1 ∧ (p2 ≠ 'n' ∨ p1 ≠ 'c') ∧ (p2 ≠ 'v' ∨ p1 ≠ 's') then true
          else ateos
        print_text_loop k (put f) ateos1 0 p1 c rest
      else if c = '"' ∨ c = Char.ofNat 39 ∨ c = ')' ∨ c = ']' then
        print_text_loop k (put f) ateos 0 p1 c rest
      else
        print_text_loop k (put f) false (if c_isalnum c then inword + 1 else inword) p1 c rest
    else print_text_loop k (put f) ateos inword p1 c rest

/-- Print a word on the current text line if one is open, or on a new text
line otherwise. -/
def print_text (f : format) (word : cstring) (flags : aflags) : Except fault format :=
  let f1 := para_check f
  let f2 := match f1.linestate with
    | LINE_NEW => f1
    | LINE_TEXT => if flags.space then f1.putc ' ' else f1
    | LINE_MACRO => macro_close f1
  let f3 := if f2.linestate = LINE_NEW ∧ (word.head? = some '.' ∨ word.head? = some (Char.ofNat 39))
    then f2.puts "\\&".toList else f2
  (print_text_loop (word.length + 1) f3 false 0 NUL NUL word).map
    (fun g => { g with linestate := LINE_TEXT, parastate := PARA_MID, flags := FMT_NONE })

mutual
/-- Recursively print the content of a node on a text line. -/
def print_textnode (f : format) : pnode → Except fault format
  | .mk _ k b _ _ _ cs =>
    if k = NODE_TEXT ∨ k = NODE_ESCAPE then
      match b with
      | none => .error .null
      | some s => print_text f s ARG_SPACE
    else print_textnode_queue f cs
/-- The loop of `print_textnode` over the children. -/
def print_textnode_queue (f : format) : List pnode → Except fault format
  | [] => .ok f
  | nc :: rest =>
    match print_textnode f nc with
    | .error e => .error e
    | .ok f1 => print_textnode_queue f1 rest
end

/-! ## docbook2mdoc.c: the surroundings of a node -/

/-- What `pnode_print` reads and writes around the node it prints: the kind
and the address of the node that holds it in its child queue, the sibling
before it (`TAILQ_PREV`) and the sibling after it (`TAILQ_NEXT`). -/
structure pctx where
  upnode : Option nodeid
  upaddr : Option Nat
  prev : Option pnode
  next : Option pnode

/-- The surroundings of a node that is in no child queue. -/
def pctx.top : pctx := ⟨none, none, none, none⟩

/-- The test `n->parent != NULL && n->parent->node == k`.  A parent pointer
that is not the address of the node that holds `n` is a fault. -/
def pnode_parent_is (ctx : pctx) (n : pnode) (k : nodeid) : Except fault Bool :=
  match n.parent with
  | none => .ok false
  | some a => if ctx.upaddr = some a then .ok (ctx.upnode == some k) else .error .stale

/-- Whether `pnode_unlink(x)` works for a node `x` in the child queue of the
node at address `a`, where `last` tells that `x` is the last node of the
queue: `TAILQ_REMOVE` goes through `x->parent`, which it uses only to
update the head when `x` is last; with a `NULL` parent `x` would be freed
but stay in the queue. -/
def pnode_unlink_ok (a : Nat) (x : pnode) (last : Bool) : Bool :=
  x.parent == some a || (x.parent.isSome && !last)

/-- The call `pnode_unlink(nc)` for the child of `n` at position `i`. -/
def pnode_unlink_child (n : pnode) (i : Nat) : Except fault pnode :=
  match n.childq.get? i with
  | none => .error .null
  | some x =>
    if pnode_unlink_ok n.addr x (i + 1 == n.childq.length) then
      .ok (n.setChildq (n.childq.eraseIdx i))
    else .error .stale

/-- Unlink all children of a node and free them. -/
def pnode_unlinksub (n : pnode) : Except fault pnode :=
  if n.childq.all (fun x => x.parent.isSome) &&
      n.childq.getLast?.all (fun x => x.parent == some n.addr) then
    .ok (n.setChildq [])
  else .error .stale

/-- A loop `TAILQ_FOREACH_SAFE` over the children of the node at address `a`
that unlinks the children for which `sel` holds, after it has run `act` on
them: the state and the children that remain. -/
def pnode_foreach_unlink (a : Nat) (sel : pnode → Bool)
    (act : format → pnode → Except fault format) :
    format → List pnode → Except fault (format × List pnode)
  | f, [] => .ok (f, [])
  | f, nc :: rest =>
    if sel nc then
      match act f nc with
      | .error e => .error e
      | .ok f1 =>
        if pnode_unlink_ok a nc rest.isEmpty then pnode_foreach_unlink a sel act f1 rest
        else .error .stale
    else
      match pnode_foreach_unlink a sel act f rest with
      | .error e => .error e
      | .ok (f1, rest1) => .ok (f1, nc :: rest1)

/-! ## docbook2mdoc.c: text -/

/-- The loop at the start of `pnode_printtext` that prints closing
punctuation as arguments of its own: the state and `cp` at its end, where
`none` stands for the `return` at the end of the string. -/
def pnode_printtext_punct (f : format) : List Char → format × Option (List Char)
  | [] => (f, none)
  | c :: rest =>
    if "!),.:;?]".toList.contains c then pnode_printtext_punct ((f.putc ' ').putc c) rest
    else (f, some (c :: rest))

/-- The first block of `pnode_printtext`, entered on a macro line that takes
no argument for a node without the flag `NFLAG_SPC`: the state, `cp`, the
node and `accept_arg`; `none` stands for the `return`. -/
def pnode_printtext_head (f : format) (n : pnode) (cp : List Char) :
    format × Option (List Char × pnode × Bool) :=
  match pnode_printtext_punct f cp with
  | (f1, none) => (f1, none)
  | (f1, some cp1) =>
    if cp1.head?.any c_isspace then
      (f1, some (cp1.dropWhile c_isspace, n.setFlags { n.flags with spc := true }, false))
    else
      let f2 := macro_open { f1 with flags := { f1.flags with nospc := false, child := true } }
        "Ns".toList
      ({ f2 with flags := { f2.flags with arg := false, child := true } }, some (cp1, n, true))

/-- The part of `pnode_printtext` for text before a macro without
intervening whitespace, which requires a `Pf` macro: the state, the next
sibling and `accept_arg`. -/
def pnode_printtext_pf (f : format) (ctx : pctx) (accept_arg : Bool) :
    Except fault (format × Option pnode × Bool) :=
  if f.nofill ≠ 0 ∨ f.linestate ≠ LINE_MACRO then
    match ctx.next with
    | none => .ok (f, none, accept_arg)
    | some nn =>
      if nn.flags.spc then .ok (f, some nn, accept_arg)
      else
        match pnode_class nn.node with
        | none => .error .assertion
        | some cls =>
          if cls = CLASS_LINE ∨ cls = CLASS_ENCL then
            let f1 := macro_open f "Pf".toList
            .ok ({ f1 with flags := { f1.flags with child := true } },
              some (nn.setFlags { nn.flags with spc := true }), true)
          else .ok (f, some nn, accept_arg)
  else .ok (f, ctx.next, accept_arg)

/-- The `switch` on the line state in `pnode_printtext`. -/
def pnode_printtext_sep (f : format) (ctx : pctx) (n : pnode) (accept_arg : Bool) :
    Except fault format :=
  match f.linestate with
  | LINE_NEW => .ok f
  | LINE_TEXT =>
    if n.flags.spc then
      if n.flags.line then
        match pnode_class n.node with
        | none => .error .assertion
        | some cls => .ok (if cls = CLASS_TEXT then macro_close f else f.putc ' ')
      else .ok (f.putc ' ')
    else .ok f
  | LINE_MACRO =>
    if accept_arg = false then
      if f.nofill ≠ 0 then
        let f1 := macro_open { f with flags := { f.flags with nospc := false, child := true } }
          "No ".toList
        .ok { f1 with flags := { f1.flags with arg := false, child := true } }
      else .ok (macro_close f)
    else if n.flags.spc ∨ f.flags.arg = false then .ok (f.putc ' ')
    else
      match ctx.prev with
      | none => .ok (f.putc ' ')
      | some nn =>
        match pnode_class nn.node with
        | none => .error .assertion
        | some cls => .ok (if cls ≠ CLASS_TEXT then f.putc ' ' else f)

/-- The function `pnode_printtext`: the state, the node and its next
sibling afterwards. -/
def pnode_printtext (f : format) (ctx : pctx) (n : pnode) :
    Except fault (format × pnode × Option pnode) :=
  match n.b with
  | none => .error .null
  | some b => do
    let f0 := para_check f
    let (f1, r) := if f0.linestate = LINE_MACRO ∧ f0.flags.arg = false ∧ n.flags.spc = false
      then pnode_printtext_head f0 n b
      else (f0, some (b, n, f0.flags.arg))
    match r with
    | none => return (f1, n, ctx.next)
    | some (cp, n1, accept_arg) =>
      let f2 := if f1.linestate = LINE_MACRO ∧ f1.nofill = 0 ∧ accept_arg = false ∧
        f1.flags.impl = false then macro_close f1 else f1
      let (f3, next, accept_arg1) ← pnode_printtext_pf f2 ctx accept_arg
      let f4 ← pnode_printtext_sep f3 ctx n1 accept_arg1
      if n1.node = NODE_ESCAPE then
        let f5 := f4.puts b
        return (if f5.linestate = LINE_NEW then { f5 with linestate := LINE_TEXT } else f5,
          n1, next)
      let opt ← pnode_parent_is ctx n1 NODE_OPTION
      let cp1 := if opt ∧ cp.head? = some '-' then cp.drop 1 else cp
      let f5 ← if f4.linestate = LINE_MACRO then macro_addarg f4 cp1 ARG_NONE
        else print_text f4 cp1 ARG_NONE
      return (f5, n1, next)

def pnode_printimagedata (f : format) (n : pnode) : Except fault format :=
  let cp := match pnode_getattr_raw (some n) ATTRKEY_FILEREF none with
    | some s => some s
    | none => pnode_getattr_raw (some n) ATTRKEY_ENTITYREF none
  match cp with
  | some s => do
    let f1 ← print_text f "[image:".toList ARG_SPACE
    let f2 ← print_text f1 s ARG_SPACE
    print_text f2 "]".toList ARG_NONE
  | none => print_text f "[image]".toList ARG_SPACE

/-! ## docbook2mdoc.c: sections and the prologue -/

/-- The loop of `pnode_printrefnamediv` over the children from `nc` on: the
state and the children that remain. -/
def pnode_printrefnamediv_loop (a : Nat) :
    format → Bool → List pnode → Except fault (format × List pnode)
  | f, _, [] => .ok (f, [])
  | f, comma, nc :: rest =>
    if nc.node ≠ NODE_REFNAME then
      (pnode_printrefnamediv_loop a f comma rest).map (fun r => (r.1, nc :: r.2))
    else do
      let f1 ← if comma then macro_addarg f ",".toList ARG_SPACE else pure f
      let f2 ← macro_addnode (macro_open f1 "Nm".toList) ARG_SPACE nc
      if pnode_unlink_ok a nc rest.isEmpty then pnode_printrefnamediv_loop a f2 true rest
      else .error .stale

def pnode_printrefnamediv (f : format) (n : pnode) : Except fault (format × pnode) := do
  let f1 := { macro_line { f with parastate := PARA_HAVE } "Sh NAME".toList with
    parastate := PARA_HAVE }
  let (f2, cs) ← pnode_printrefnamediv_loop n.addr f1 false n.childq
  return (macro_close f2, n.setChildq cs)

/-- If the SYNOPSIS macro has a superfluous title, kill it. -/
def pnode_printrefsynopsisdiv (f : format) (n : pnode) : Except fault (format × pnode) := do
  let (f1, cs) ← pnode_foreach_unlink n.addr (fun nc => nc.node == NODE_TITLE)
    (fun g _ => .ok g) f n.childq
  return ({ macro_line { f1 with parastate := PARA_HAVE } "Sh SYNOPSIS".toList with
    parastate := PARA_HAVE }, n.setChildq cs)

/-- The first `switch` of `pnode_printsection`: the flags for the title and
the level that is used, for the kind of the node and the level `++f->level`. -/
def pnode_printsection_level (k : nodeid) (level : Int) : Except fault (aflags × Int) :=
  match k with
  | NODE_SECTION => .ok (if level = 1 then ARG_SPACE.or ARG_UPPER else ARG_SPACE, level)
  | NODE_APPENDIX => .ok (if level = 1 then ARG_SPACE.or ARG_UPPER else ARG_SPACE, level)
  | NODE_SIMPLESECT => .ok (ARG_SPACE, if level < 2 then 2 else level)
  | NODE_NOTE => .ok (ARG_SPACE, if level < 3 then 3 else level)
  | _ => .error .abort

/-- Start a hopefully-named `Sh` section. -/
def pnode_printsection (f : format) (n : pnode) : Except fault (format × pnode) :=
  if n.parent = none then .ok (f, n)
  else do
    let f0 := { f with level := f.level + 1 }
    let (flags, level) ← pnode_printsection_level n.node f0.level
    let i := n.childq.findIdx (fun nc => nc.node == NODE_TITLE)
    let f1 :=
      if level = 1 then macro_open { macro_close f0 with parastate := PARA_HAVE } "Sh".toList
      else if level = 2 then
        macro_open { macro_close f0 with parastate := PARA_HAVE } "Ss".toList
      else
        macro_open (if f0.parastate = PARA_MID then { f0 with parastate := PARA_WANT } else f0)
          "Sy".toList
    match n.childq.get? i with
    | none => .error .null
    | some nc =>
      let f2 ← macro_addnode f1 flags nc
      let f3 := macro_close f2
      let authors ← (
        if level = 1 then
          match nc.childq.head? with
          | none => .ok false
          | some ncc =>
            if ncc.node = NODE_TEXT then
              match ncc.b with
              | none => .error .null
              | some s => .ok (strcasecmp_eq s "AUTHORS".toList)
            else .ok false
        else .ok false : Except fault Bool)
      let f4 := if authors then macro_line f3 "An -nosplit".toList else f3
      let n1 ← pnode_unlink_child n i
      return ({ f4 with parastate := if level > 2 then PARA_WANT else PARA_HAVE }, n1)

/-- Start a reference, extracting the title and volume. -/
def pnode_printciterefentry (f : format) (n : pnode) : Except fault (format × pnode) := do
  let title := (n.childq.filter (fun nc => nc.node == NODE_REFENTRYTITLE)).getLast?
  let manvol := (n.childq.filter (fun nc => nc.node == NODE_MANVOLNUM)).getLast?
  let f1 := macro_open f "Xr".toList
  let f2 ← match title with
    | none => macro_addarg f1 "unknown".toList ARG_SPACE
    | some t => macro_addnode f1 (ARG_SPACE.or ARG_SINGLE) t
  let f3 ← match manvol with
    | none => macro_addarg f2 "1".toList ARG_SPACE
    | some m => macro_addnode f2 (ARG_SPACE.or ARG_SINGLE) m
  let n1 ← pnode_unlinksub n
  return (f3, n1)

/-- The function `pnode_printprologue`: the state and the root without the
nodes of the prologue. -/
def pnode_printprologue (f : format) (root : pnode) : Except fault (format × pnode) :=
  match root.childq with
  | [] => .error .null
  | nc :: _ =>
    if nc.node ≠ NODE_DATE then .error .assertion
    else do
      let f1 ← macro_nodeline f "Dd".toList nc ARG_NONE
      let root1 ← pnode_unlink_child root 0
      let f2 := macro_open f1 "Dt".toList
      match root1.childq with
      | [] => .error .null
      | name :: rest =>
        if name.node ≠ NODE_REFENTRYTITLE then .error .assertion
        else
          let f3 ← macro_addnode f2 ((ARG_SPACE.or ARG_SINGLE).or ARG_UPPER) name
          let root2 := root1.setChildq rest
          match root2.childq with
          | [] => .error .null
          | vol :: _ =>
            if vol.node ≠ NODE_MANVOLNUM then .error .assertion
            else
              let f4 ← macro_addnode f3 (ARG_SPACE.or ARG_SINGLE) vol
              let root3 ← pnode_unlink_child root2 0
              let f5 := macro_line f4 "Os".toList
              match root3.childq with
              | [] => return ({ f5 with parastate := PARA_HAVE }, root3)
              | t :: _ =>
                if t.node = NODE_TITLE then
                  let f6 := macro_line f5 "Sh NAME".toList
                  let f7 ← macro_nodeline f6 "Nm".toList name ARG_SINGLE
                  let f8 ← macro_nodeline f7 "Nd".toList t ARG_NONE
                  let root4 ← pnode_unlink_child root3 0
                  return ({ f8 with parastate := PARA_HAVE }, root4)
                else return ({ f5 with parastate := PARA_HAVE }, root3)

/-! ## docbook2mdoc.c: loops over children -/

/-- The recursive call `pnode_print(f, nc)` as the functions of the formatter
see it: the state, the node and its next sibling afterwards. -/
abbrev printer := format → pctx → pnode → Except fault (format × pnode × Option pnode)

/-- A loop `TAILQ_FOREACH` over the children `n :: rest` of the node `up`
whose body `step` contains a call of `pnode_print`; `first` tells that `n`
is the first child and `prev` is the sibling before `n`. -/
def pnode_foreach (step : Bool → printer) (up : pnode) :
    Bool → format → Option pnode → pnode → List pnode → Except fault (format × List pnode)
  | first, f, prev, n, [] =>
    match step first f ⟨some up.node, some up.addr, prev, none⟩ n with
    | .error e => .error e
    | .ok (f1, n1, _) => .ok (f1, [n1])
  | first, f, prev, n, m :: rest =>
    match step first f ⟨some up.node, some up.addr, prev, some m⟩ n with
    | .error e => .error e
    | .ok (f1, n1, nx) =>
      match pnode_foreach step up false f1 (some n1) (nx.getD m) rest with
      | .error e => .error e
      | .ok (f2, l) => .ok (f2, n1 :: l)

/-- The loop `pnode_foreach` over all children of `n`: the state and `n`
with its children as they are afterwards. -/
def pnode_children (step : Bool → printer) (f : format) (n : pnode) :
    Except fault (format × pnode) :=
  match n.childq with
  | [] => .ok (f, n)
  | c :: rest => (pnode_foreach step n true f none c rest).map (fun r => (r.1, n.setChildq r.2))

mutual
/-- The first node of kind `node` below `n` in document order, `n` without
it, whether `pnode_unlink` works for it where it is, and its surroundings. -/
def pnode_takebelow_chk (node : nodeid) : pnode → Option (pnode × pnode × Bool × pctx)
  | .mk a k s p f q cs =>
    match pnode_takefirst_queue_chk node k a none cs with
    | some (res, cs', r) => some (res, .mk a k s p f q cs', r)
    | none => none
/-- The queue part of `pnode_takebelow_chk`, for the queue of the node of
kind `k` at address `a`, from the node after `prev` on. -/
def pnode_takefirst_queue_chk (node k : nodeid) (a : Nat) :
    Option pnode → List pnode → Option (pnode × List pnode × Bool × pctx)
  | _, [] => none
  | prev, nc :: rest =>
    if nc.node = node then
      some (nc, rest, pnode_unlink_ok a nc rest.isEmpty, ⟨some k, some a, prev, rest.head?⟩)
    else
      match pnode_takebelow_chk node nc with
      | some (res, nc', r) => some (res, nc' :: rest, r)
      | none =>
        match pnode_takefirst_queue_chk node k a (some nc) rest with
        | some (res, rest', r) => some (res, nc :: rest', r)
        | none => none
end

/-- The function `atoi(3)`: the value of `strtol(3)` converted to `int`. -/
def c_atoi (s : cstring) : Int :=
  let t := s.dropWhile c_isspace
  let neg := t.head? = some '-'
  let d := (if t.head? = some '-' ∨ t.head? = some '+' then t.drop 1 else t).takeWhile
    Char.isDigit
  let v : Int := d.foldl (fun acc c => acc * 10 + (c.toNat - 48 : Nat)) 0
  let v := if neg then -v else v
  let l := if v > 2 ^ 63 - 1 then 2 ^ 63 - 1 else if v < -(2 ^ 63) then -(2 ^ 63) else v
  (l + 2 ^ 31) % 2 ^ 32 - 2 ^ 31

/-! ## docbook2mdoc.c: mathematics and function prototypes -/

/-- The function `pnode_printmathfenced`. -/
def pnode_printmathfenced (print : printer) (f : format) (n : pnode) :
    Except fault (format × pnode) := do
  let f1 := ((f.puts "left ".toList).puts
    ((pnode_getattr_raw (some n) ATTRKEY_OPEN (some "(".toList)).getD [])).putc ' '
  match n.childq with
  | [] => .error .null
  | c :: rest =>
    let (f2, cs) ← pnode_foreach (fun first g ctx nc => print (if first then g else g.putc ',')
      ctx nc) n true f1 none c rest
    let f3 := ((f2.puts "right ".toList).puts
      ((pnode_getattr_raw (some n) ATTRKEY_CLOSE (some ")".toList)).getD [])).putc ' '
    let n1 ← pnode_unlinksub (n.setChildq cs)
    return (f3, n1)

/-- The function `pnode_printmath`. -/
def pnode_printmath (print : printer) (f : format) (n : pnode) :
    Except fault (format × pnode) :=
  match n.childq with
  | [] => .error .null
  | c :: rest => do
    let (f1, c1, nx) ← print f ⟨some n.node, some n.addr, none, rest.head?⟩ c
    let f2 := match n.node with
      | NODE_MML_MSUP => f1.puts " sup ".toList
      | NODE_MML_MFRAC => f1.puts " over ".toList
      | NODE_MML_MSUB => f1.puts " sub ".toList
      | _ => f1
    match rest with
    | [] =>
      let n1 ← pnode_unlinksub (n.setChildq [c1])
      return (f2, n1)
    | d :: rest1 =>
      let (f3, d1, nx1) ← print f2 ⟨some n.node, some n.addr, some c1, rest1.head?⟩ (nx.getD d)
      let rest2 := match nx1, rest1 with
        | some x, _ :: tl => x :: tl
        | _, _ => rest1
      let n1 ← pnode_unlinksub (n.setChildq (c1 :: d1 :: rest2))
      return (f3, n1)

/-- The first loop of `pnode_printfuncprototype`: the first FUNCDEF child,
taken out of the queue with its parent pointer cleared, and the children
that remain once the VOID children are unlinked. -/
def pnode_funcdef (a : Nat) : Option pnode → List pnode →
    Except fault (Option pnode × List pnode)
  | fdef, [] => .ok (fdef, [])
  | fdef, nc :: rest =>
    if nc.node = NODE_FUNCDEF ∧ fdef.isNone then
      pnode_funcdef a (some (nc.setParent none)) rest
    else if nc.node = NODE_VOID then
      if pnode_unlink_ok a nc rest.isEmpty then pnode_funcdef a fdef rest else .error .stale
    else (pnode_funcdef a fdef rest).map (fun r => (r.1, nc :: r.2))

/-- The part of `pnode_printfuncprototype` that prints the function
definition `fdef`; `void` tells that no child is left. -/
def pnode_printfuncdef (f : format) (fdef : pnode) (void : Bool) : Except fault format := do
  let (f1, fdef1) ← (match fdef.childq.head? with
    | some ftype =>
      if ftype.node = NODE_TEXT then
        match ftype.b with
        | none => .error .null
        | some b => do
          let g ← macro_argline f "Ft".toList b
          let d ← pnode_unlink_child fdef 0
          pure (g, d)
      else pure (f, fdef)
    | none => pure (f, fdef) : Except fault (format × pnode))
  if void then
    let f2 ← macro_addnode (macro_open f1 "Fn".toList) (ARG_SPACE.or ARG_SINGLE) fdef1
    let f3 ← macro_addarg f2 "void".toList ARG_SPACE
    return macro_close f3
  else macro_nodeline f1 "Fo".toList fdef1 ARG_SINGLE

/-- The call `pnode_takefirst(nc, NODE_FUNCPARAMS)` in the last loop of
`pnode_printfuncprototype`: the node found, `nc` afterwards, and whether
the removal works.  When `nc` itself is found it is taken out of the queue
of its parent already here, and `nc` is unchanged. -/
def pnode_takeparams (a : Nat) (nc : pnode) (last : Bool) : Option (pnode × pnode × Bool) :=
  if nc.node = NODE_FUNCPARAMS then some (nc, nc, pnode_unlink_ok a nc last)
  else (pnode_takebelow_chk NODE_FUNCPARAMS nc).map (fun r => (r.1, r.2.1, r.2.2.1))

/-- The last loop of `pnode_printfuncprototype`, over the parameters. -/
def pnode_printparams (a : Nat) : format → List pnode → Except fault format
  | f, [] => .ok f
  | f, nc :: rest => do
    let f1 ← (
      match pnode_takeparams a nc rest.isEmpty with
      | some (fps, nc1, ok) =>
        if ok = false then .error .stale
        else do
          let g1 ← macro_addnode (macro_open f "Fa \"".toList) ARG_QUOTED nc1
          let g2 ← macro_addarg g1 "(".toList ARG_QUOTED
          let g3 ← macro_addnode g2 ARG_QUOTED fps
          let g4 ← macro_addarg g3 ")".toList ARG_QUOTED
          pure (macro_close (g4.putc '"'))
      | none => macro_nodeline f "Fa".toList nc ARG_SINGLE : Except fault format)
    if pnode_unlink_ok a nc rest.isEmpty then pnode_printparams a f1 rest else .error .stale

/-- The function `pnode_printfuncprototype`. -/
def pnode_printfuncprototype (f : format) (n : pnode) : Except fault (format × pnode) := do
  let (fdef, cs) ← pnode_funcdef n.addr none n.childq
  let f1 ← (match fdef with
    | some d => pnode_printfuncdef f d cs.isEmpty
    | none => pure (macro_line f
        (if cs.isEmpty then "Fn UNKNOWN void".toList else "Fo UNKNOWN".toList)) :
      Except fault format)
  if cs.isEmpty then return (f1, n.setChildq [])
  let f2 ← pnode_printparams n.addr f1 cs
  return (macro_line f2 "Fc".toList, n.setChildq [])

/-! ## docbook2mdoc.c: arguments, authors and links -/

/-- The loop over the attributes in `pnode_printarg` and `pnode_printgroup`:
`isop` and `isrep`. -/
def pnode_choice (n : pnode) : Bool × Bool :=
  n.attrq.foldl (fun r a =>
    if a.key = ATTRKEY_CHOICE ∧ (a.val = ATTRVAL_PLAIN ∨ a.val = ATTRVAL_REQ) then (false, r.2)
    else if a.key = ATTRKEY_REP ∧ a.val = ATTRVAL_REPEAT then (r.1, true)
    else r) (true, false)

/-- Open an enclosure with the macro `one` or, when `impl` holds, with the
macro `open_`; the first sets the flag `FMT_IMPL`. -/
def macro_enclose_if (f : format) (impl : Bool) (one open_ : String) : format :=
  if impl then macro_open f open_.toList
  else
    let f1 := macro_open f one.toList
    { f1 with flags := { f1.flags with impl := true } }

/-- Open an enclosure with the macro `one` or, inside a partial implicit
block, with the macro `open_`: the state and `was_impl`. -/
def macro_enclose (f : format) (one open_ : String) : format × Bool :=
  (macro_enclose_if f f.flags.impl one open_, f.flags.impl)

/-- Close an enclosure with the macro `close`, or end the partial implicit
block. -/
def macro_unclose (f : format) (was_impl : Bool) (close : String) : format :=
  if was_impl then macro_open f close.toList
  else { f with flags := { f.flags with impl := false } }

/-- The function `pnode_printarg`. -/
def pnode_printarg (print : printer) (f : format) (n : pnode) :
    Except fault (format × pnode) := do
  let (isop, isrep) := pnode_choice n
  let (f1, was_impl) := if isop then macro_enclose f "Op" "Oo" else (f, false)
  let (f2, n1) ← pnode_children (fun _ g ctx nc =>
    print (if nc.node = NODE_TEXT then macro_open g "Ar".toList else g) ctx nc) f1 n
  let f3 ← if isrep ∧ f2.linestate = LINE_MACRO then macro_addarg f2 "...".toList ARG_SPACE
    else pure f2
  let f4 := if isop then macro_unclose f3 was_impl "Oc" else f3
  let n2 ← pnode_unlinksub n1
  return (f4, n2)

/-- The function `pnode_printgroup`. -/
def pnode_printgroup (print : printer) (f : format) (n : pnode) :
    Except fault (format × pnode) := do
  let (isop, isrep) := pnode_choice n
  let (f1, was_impl) := if isop then macro_enclose f "Op" "Oo"
    else if isrep then macro_enclose f "Brq" "Bro" else (f, false)
  let (f2, n1) ← pnode_children (fun first g ctx nc => do
    let g1 ← if !first ∧ g.linestate = LINE_MACRO then macro_addarg g "|".toList ARG_SPACE
      else pure g
    print g1 ctx nc) f1 n
  let f3 := if isop then macro_unclose f2 was_impl "Oc"
    else if isrep then macro_unclose f2 was_impl "Brc" else f2
  let f4 ← if isrep ∧ f3.linestate = LINE_MACRO then macro_addarg f3 "...".toList ARG_SPACE
    else pure f3
  let n2 ← pnode_unlinksub n1
  return (f4, n2)

def pnode_printsystemitem (f : format) (n : pnode) : format :=
  match pnode_getattr (some n) ATTRKEY_CLASS with
  | ATTRVAL_IPADDRESS => f
  | ATTRVAL_SYSTEMNAME => macro_open f "Pa".toList
  | _ => macro_open f "Sy".toList

/-- The first loop of `pnode_printauthor`, which prints the CONTRIB children
up front: the state, `have_contrib` and the children that remain. -/
def pnode_printcontrib (a : Nat) :
    format → Bool → List pnode → Except fault (format × Bool × List pnode)
  | f, have_contrib, [] => .ok (f, have_contrib, [])
  | f, have_contrib, nc :: rest =>
    if nc.node = NODE_CONTRIB then do
      let f1 ← if have_contrib then print_text f ",".toList ARG_NONE else pure f
      let f2 ← print_textnode f1 nc
      if pnode_unlink_ok a nc rest.isEmpty then pnode_printcontrib a f2 true rest
      else .error .stale
    else
      (pnode_printcontrib a f have_contrib rest).map (fun r => (r.1, r.2.1, nc :: r.2.2))

/-- The function `pnode_printauthor`. -/
def pnode_printauthor (f : format) (n : pnode) : Except fault (format × pnode) := do
  let have_name := n.childq.any (fun nc => nc.node == NODE_PERSONNAME)
  let (f1, have_contrib, cs) ← pnode_printcontrib n.addr f false n.childq
  if cs.isEmpty then return (f1, n.setChildq [])
  let f2 ← if have_contrib then print_text f1 ":".toList ARG_NONE else pure f1
  let (f3, cs1) ← pnode_foreach_unlink n.addr
    (fun nc => nc.node == NODE_PERSONNAME || !have_name)
    (fun g nc => macro_addnode g ARG_SPACE nc) (macro_open f2 "An".toList) cs
  let n1 := n.setChildq cs1
  let (f4, n2) ← (match pnode_takebelow_chk NODE_EMAIL n1 with
    | none => pure (f3, n1)
    | some (nc, n2, ok, _) =>
      if ok = false then .error .stale
      else do
        let g ← macro_addnode
          (macro_open { f3 with flags := { f3.flags with child := true } } "Aq Mt".toList)
          ARG_SPACE nc
        pure (g, n2) : Except fault (format × pnode))
  if n2.childq.isEmpty then return (f4, n2)
  let f5 ← macro_addarg f4 ",".toList ARG_SPACE
  return (macro_close f5, n2)

def pnode_printxref (f : format) (n : pnode) : Except fault format :=
  match pnode_getattr_raw (some n) ATTRKEY_LINKEND none with
  | some linkend => macro_addarg (macro_open f "Sx".toList) linkend ARG_SPACE
  | none => .ok f

/-- The part of `pnode_printlink` for a link with the attribute `linkend`. -/
def pnode_printlinkend (print : printer) (f : format) (n : pnode) (uri : cstring) :
    Except fault (format × pnode) := do
  let (f1, n1, text) ← (
    if !n.childq.isEmpty then
      (pnode_children (fun _ g ctx nc => print g ctx nc) f n).map (fun r => (r.1, r.2, true))
    else
      match pnode_getattr_raw (some n) ATTRKEY_ENDTERM none with
      | some text =>
        (if f.linestate = LINE_MACRO ∧ f.flags.arg then macro_addarg f text ARG_SPACE
          else print_text f text ARG_SPACE).map (fun g => (g, n, true))
      | none => pure (f, n, false) : Except fault (format × pnode × Bool))
  let f2 := if text then
      if f1.flags.impl then macro_open f1 "Po".toList
      else
        let g := macro_open f1 "Pq".toList
        { g with flags := { g.flags with child := true } }
    else f1
  let f3 ← macro_addarg (macro_open f2 "Sx".toList) uri ARG_SPACE
  let f4 := if text ∧ f3.flags.impl then macro_open f3 "Pc".toList else f3
  let n2 ← pnode_unlinksub n1
  return (f4, n2)

/-- The function `pnode_printlink`. -/
def pnode_printlink (print : printer) (f : format) (n : pnode) :
    Except fault (format × pnode) :=
  match pnode_getattr_raw (some n) ATTRKEY_LINKEND none with
  | some uri => pnode_printlinkend print f n uri
  | none =>
    let uri := match pnode_getattr_raw (some n) ATTRKEY_XLINK_HREF none with
      | some s => some s
      | none => pnode_getattr_raw (some n) ATTRKEY_URL none
    match uri with
    | none => .ok (f, n)
    | some uri => do
      let f1 ← macro_addarg (macro_open f "Lk".toList) uri (ARG_SPACE.or ARG_SINGLE)
      let f2 ← if !n.childq.isEmpty then macro_addnode f1 (ARG_SPACE.or ARG_SINGLE) n
        else pure f1
      let n1 ← pnode_unlinksub n
      return (f2, n1)

/-- The function `pnode_printolink`. -/
def pnode_printolink (f : format) (n : pnode) : Except fault (format × pnode) :=
  let targetdoc := pnode_getattr_raw (some n) ATTRKEY_TARGETDOC none
  let targetptr := pnode_getattr_raw (some n) ATTRKEY_TARGETPTR none
  let localinfo := pnode_getattr_raw (some n) ATTRKEY_LOCALINFO none
  let (uri, ptr) := if targetdoc.isNone then (targetptr, none) else (targetdoc, targetptr)
  let (uri, local_) := if uri.isNone then (localinfo, none) else (uri, localinfo)
  match uri with
  | none => .ok (f, n)
  | some uri => do
    let f1 ← macro_addarg (macro_open f "Lk".toList) uri (ARG_SPACE.or ARG_SINGLE)
    let f2 ← macro_addnode f1 (ARG_SPACE.or ARG_SINGLE) n
    let f3 ← (
      if ptr.isSome ∨ local_.isSome then do
        let g ← (match ptr with
          | some s => macro_addarg (macro_open (macro_close f2) "Pq".toList) s ARG_SPACE
          | none => pure (macro_open (macro_close f2) "Pq".toList) : Except fault format)
        match local_ with
        | some s => macro_addarg g s ARG_SPACE
        | none => pure g
      else pure f2 : Except fault format)
    let n1 ← pnode_unlinksub n
    return (f3, n1)

/-! ## docbook2mdoc.c: lists and tables -/

/-- The first loop of `pnode_printvarlistentry`, over the terms, from the
child `nc` on; `comma` is `none` for the value -1. -/
def pnode_printterms (print : printer) (up : pnode) :
    format → Option aflags → Option pnode → pnode → List pnode →
    Except fault (format × List pnode)
  | f, comma, prev, nc, rest =>
    let go (g : format) (c : Option aflags) (nx : Option pnode) (keep : List pnode) :
        Except fault (format × List pnode) :=
      match nx, rest with
      | _, [] => .ok (g, keep)
      | nx, m :: rest1 =>
        (pnode_printterms print up g c (keep.head?.or prev) (nx.getD m) rest1).map
          (fun r => (r.1, keep ++ r.2))
    if nc.node ≠ NODE_TERM ∧ nc.node ≠ NODE_GLOSSTERM then go f comma rest.head? [nc]
    else do
      let f1 ← (match comma, f.linestate with
        | none, _ => pure f
        | some _, LINE_NEW => pure f
        | some _, LINE_TEXT => print_text f ",".toList ARG_NONE
        | some c, LINE_MACRO => macro_addarg f ",".toList c : Except fault format)
      let comma1 ← (match nc.childq.head? with
        | none => pure ARG_NONE
        | some ncc =>
          match pnode_class ncc.node with
          | none => .error .assertion
          | some cls => pure (if cls = CLASS_TEXT then ARG_NONE else ARG_SPACE) :
        Except fault aflags)
      let (f2, _, nx) ← print { f1 with parastate := PARA_HAVE }
        ⟨some up.node, some up.addr, prev, rest.head?⟩ nc
      if pnode_unlink_ok up.addr nc rest.isEmpty then go f2 (some comma1) nx []
      else .error .stale

/-- The last loop of `pnode_printvarlistentry`, which prints and unlinks the
first child until none is left. -/
def pnode_printrest (print : printer) (up : pnode) :
    format → pnode → List pnode → Except fault format
  | f, nc, [] =>
    match print f ⟨some up.node, some up.addr, none, none⟩ nc with
    | .error e => .error e
    | .ok (f1, _, _) => if pnode_unlink_ok up.addr nc true then .ok f1 else .error .stale
  | f, nc, m :: rest =>
    match print f ⟨some up.node, some up.addr, none, some m⟩ nc with
    | .error e => .error e
    | .ok (f1, _, nx) =>
      if pnode_unlink_ok up.addr nc false then pnode_printrest print up f1 (nx.getD m) rest
      else .error .stale

/-- The function `pnode_printvarlistentry`. -/
def pnode_printvarlistentry (print : printer) (f : format) (n : pnode) :
    Except fault (format × pnode) := do
  let f0 := macro_open f "It".toList
  let f1 := { f0 with parastate := PARA_HAVE, flags := { f0.flags with impl := true } }
  let (f2, cs) ← (match n.childq with
    | [] => pure (f1, [])
    | c :: rest => pnode_printterms print n f1 none none c rest :
    Except fault (format × List pnode))
  let f3 := { macro_close f2 with parastate := PARA_HAVE }
  let f4 ← (match cs with
    | [] => pure f3
    | c :: rest => pnode_printrest print n f3 c rest : Except fault format)
  return ({ macro_close f4 with parastate := PARA_HAVE }, n.setChildq [])

/-- The function `pnode_printtitle`. -/
def pnode_printtitle (f : format) (n : pnode) : Except fault (format × pnode) :=
  (pnode_foreach_unlink n.addr (fun nc => nc.node == NODE_TITLE)
    (fun g nc => macro_nodeline
      (if g.parastate = PARA_MID then { g with parastate := PARA_WANT } else g)
      "Sy".toList nc ARG_NONE) f n.childq).map (fun r => (r.1, n.setChildq r.2))

/-- The function `pnode_printrow` up to its last statement, the
`pnode_unlink(n)` of the row itself. -/
def pnode_printrow (print : printer) (f : format) (n : pnode) : Except fault format :=
  (pnode_children (fun _ g ctx nc => print (macro_line g "It".toList) ctx nc)
    (macro_line f "Bl -dash -compact".toList) n).map (fun r => macro_line r.1 "El".toList)

/-- The loop of `pnode_printtgroup1`; the first argument bounds the number
of its turns. -/
def pnode_printtgroup1_loop (print : printer) : Nat → format → pnode →
    Except fault (format × pnode)
  | 0, _, _ => .error .fuel
  | k + 1, f, n =>
    match pnode_takebelow_chk NODE_ENTRY n with
    | none => .ok (f, n)
    | some (nc, n1, ok, ctx) =>
      match print { macro_line f "It".toList with parastate := PARA_HAVE } ctx nc with
      | .error e => .error e
      | .ok (f1, _, _) =>
        if ok then pnode_printtgroup1_loop print k { f1 with parastate := PARA_HAVE } n1
        else .error .stale

def pnode_printtgroup1 (print : printer) (f : format) (n : pnode) :
    Except fault (format × pnode) := do
  let (f1, n1) ← pnode_printtgroup1_loop print (n.nodes.length + 1)
    (macro_line f "Bl -bullet -compact".toList) n
  let n2 ← pnode_unlinksub n1
  return (macro_line f1 "El".toList, n2)

/-- The loop of `pnode_printtgroup2`; the first argument bounds the number
of its turns.  The row found is gone with the entry when it lies in it. -/
def pnode_printtgroup2_loop (print : printer) : Nat → format → pnode →
    Except fault (format × pnode)
  | 0, _, _ => .error .fuel
  | k + 1, f, n =>
    match pnode_findfirst_queue NODE_ROW n.childq, pnode_takebelow_chk NODE_ENTRY n with
    | none, _ => .ok (f, n)
    | some _, none => .ok (f, n)
    | some nr, some (ne, n1, ok, ctx) => do
      let f0 := macro_open f "It".toList
      let (f1, _, _) ← print
        { f0 with flags := { f0.flags with impl := true }, parastate := PARA_HAVE } ctx ne
      if ok = false then .error .stale
      else if ne.nodes.any (fun x => x.addr == nr.addr) then .error .stale
      else
        match pnode_takebelow_chk NODE_ROW n1 with
        | none => .error .stale
        | some (nr1, n2, ok1, ctx1) =>
          let (f2, _, _) ← print { macro_close f1 with parastate := PARA_HAVE } ctx1 nr1
          if ok1 then pnode_printtgroup2_loop print k { f2 with parastate := PARA_HAVE } n2
          else .error .stale

def pnode_printtgroup2 (print : printer) (f : format) (n : pnode) :
    Except fault (format × pnode) := do
  let (f1, n1) ← pnode_printtgroup2_loop print (n.nodes.length + 1)
    (macro_line { f with parastate := PARA_HAVE } "Bl -tag -width Ds".toList) n
  let n2 ← pnode_unlinksub n1
  return ({ macro_line f1 "El".toList with parastate := PARA_WANT }, n2)

/-- The loop of `pnode_printtgroup` over the rows; the first argument bounds
the number of its turns. -/
def pnode_printtgroup_loop (print : printer) : Nat → format → pnode →
    Except fault (format × pnode)
  | 0, _, _ => .error .fuel
  | k + 1, f, n =>
    match pnode_takebelow_chk NODE_ROW n with
    | none => .ok (f, n)
    | some (nc, n1, ok, _) =>
      match pnode_printrow print (macro_line f "It Table Row".toList) nc with
      | .error e => .error e
      | .ok f1 => if ok then pnode_printtgroup_loop print k f1 n1 else .error .stale

def pnode_printtgroup (print : printer) (f : format) (n : pnode) :
    Except fault (format × pnode) :=
  let cols := c_atoi ((pnode_getattr_raw (some n) ATTRKEY_COLS (some "0".toList)).getD [])
  if cols = 1 then pnode_printtgroup1 print f n
  else if cols = 2 then pnode_printtgroup2 print f n
  else do
    let (f1, n1) ← pnode_printtgroup_loop print (n.nodes.length + 1)
      (macro_line { f with parastate := PARA_HAVE } "Bl -ohang".toList) n
    let n2 ← pnode_unlinksub n1
    return ({ macro_line f1 "El".toList with parastate := PARA_WANT }, n2)

def pnode_printlist (print : printer) (f : format) (n : pnode) :
    Except fault (format × pnode) := do
  let (f1, n1) ← pnode_printtitle f n
  let f2 ← macro_argline { f1 with parastate := PARA_HAVE } "Bl".toList
    (if n1.node = NODE_ORDEREDLIST then "-enum".toList else "-bullet".toList)
  let (f3, n2) ← pnode_children (fun _ g ctx nc =>
    (print { macro_line g "It".toList with parastate := PARA_HAVE } ctx nc).map
      (fun r => ({ r.1 with parastate := PARA_HAVE }, r.2))) f2 n1
  let n3 ← pnode_unlinksub n2
  return ({ macro_line f3 "El".toList with parastate := PARA_WANT }, n3)

/-- The loop of `pnode_printvariablelist` over the children. -/
def pnode_printentries (print : printer) :
    format → List pnode → Except fault (format × List pnode)
  | f, [] => .ok (f, [])
  | f, nc :: rest => do
    let (f1, nc1) ← (
      if nc.node = NODE_VARLISTENTRY then pnode_printvarlistentry print f nc
      else (macro_nodeline f "It".toList nc ARG_NONE).map (fun g => (g, nc)) :
      Except fault (format × pnode))
    let (f2, rest1) ← pnode_printentries print f1 rest
    return (f2, nc1 :: rest1)

def pnode_printvariablelist (print : printer) (f : format) (n : pnode) :
    Except fault (format × pnode) := do
  let (f1, n1) ← pnode_printtitle f n
  let (f2, cs) ← pnode_printentries print
    (macro_line { f1 with parastate := PARA_HAVE } "Bl -tag -width Ds".toList) n1.childq
  let n2 ← pnode_unlinksub (n1.setChildq cs)
  return ({ macro_line f2 "El".toList with parastate := PARA_WANT }, n2)

/-! ## docbook2mdoc.c: pnode_print -/

/-- The test `(nc = TAILQ_FIRST(&n->childq)) != NULL &&
pnode_class(nc->node) < CLASS_LINE`. -/
def pnode_first_inline (n : pnode) : Except fault Bool :=
  match n.childq.head? with
  | none => .ok false
  | some nc =>
    match pnode_class nc.node with
    | none => .error .assertion
    | some cls => .ok (decide (cls.toCtorIdx < CLASS_LINE.toCtorIdx))

/-- The test of the QUOTE cases: the only child is a FILENAME. -/
def pnode_quotes_file (n : pnode) : Bool :=
  match n.childq with
  | [nc] => nc.node == NODE_FILENAME
  | _ => false

/-- The node with the flags of its first child changed by `g`. -/
def pnode_first_flags (n : pnode) (g : nflags → nflags) : pnode :=
  match n.childq with
  | [] => n
  | nc :: rest => n.setChildq (nc.setFlags (g nc.flags) :: rest)

/-- A display that is opened with the macro line `name`. -/
def macro_display (f : format) (name : String) : format :=
  { macro_line { f with parastate := PARA_HAVE } name.toList with parastate := PARA_HAVE }

/-- The first `switch` of `pnode_print`, for the kinds that only open a
macro or write text. -/
def pnode_print_open (f : format) (ctx : pctx) (was_impl : Bool) (n : pnode) :
    Except fault format :=
  match n.node with
  | NODE_AUTHORGROUP => .ok (macro_line f "An -split".toList)
  | NODE_BLOCKQUOTE => .ok (macro_display f "Bd -ragged -offset indent")
  | NODE_CITETITLE => .ok (macro_open f "%T".toList)
  | NODE_COMMAND => .ok (macro_open f "Nm".toList)
  | NODE_CONSTANT => .ok (macro_open f "Dv".toList)
  | NODE_COPYRIGHT =>
    (print_text f "Copyright".toList ARG_SPACE).map (fun g => g.puts " \\(co".toList)
  | NODE_EMAIL => .ok (macro_enclose_if f was_impl "Aq Mt" "Ao Mt")
  | NODE_EMPHASIS => (pnode_first_inline n).map (fun b => if b then macro_open f "Em".toList else f)
  | NODE_FIRSTTERM =>
    (pnode_first_inline n).map (fun b => if b then macro_open f "Em".toList else f)
  | NODE_GLOSSTERM =>
    (pnode_first_inline n).map (fun b =>
      { (if b then macro_open f "Em".toList else f) with parastate := PARA_HAVE })
  | NODE_ENVAR => .ok (macro_open f "Ev".toList)
  | NODE_ERRORNAME => .ok (macro_open f "Er".toList)
  | NODE_FILENAME => .ok (macro_open f "Pa".toList)
  | NODE_FOOTNOTE => .ok { macro_line f "Bo".toList with parastate := PARA_HAVE }
  | NODE_FUNCTION => .ok (macro_open f "Fn".toList)
  | NODE_FUNCSYNOPSISINFO => .ok (macro_open f "Fd".toList)
  | NODE_IMAGEDATA => pnode_printimagedata f n
  | NODE_INFORMALEQUATION =>
    .ok (macro_line (macro_display f "Bd -ragged -offset indent") "EQ".toList)
  | NODE_INLINEEQUATION => .ok (macro_line f "EQ".toList)
  | NODE_KEYSYM => .ok (macro_open f "Sy".toList)
  | NODE_PRODUCTNAME => .ok (macro_open f "Sy".toList)
  | NODE_LITERAL =>
    (pnode_parent_is ctx n NODE_QUOTE).map (fun q =>
      if q then macro_open f "Li".toList
      else macro_enclose_if f was_impl "Ql" "So Li")
  | NODE_LITERALLAYOUT =>
    (macro_argline { macro_close f with parastate := PARA_HAVE } "Bd".toList
      (if pnode_getattr (some n) ATTRKEY_CLASS = ATTRVAL_MONOSPACED then "-literal".toList
       else "-unfilled".toList)).map (fun g => { g with parastate := PARA_HAVE })
  | NODE_MARKUP => .ok (macro_open f "Ic".toList)
  | NODE_MML_MROW => .ok (if n.childq.isEmpty then f else f.puts " \x7b ".toList)
  | NODE_MML_MI => .ok (if n.childq.isEmpty then f else f.puts " \x7b ".toList)
  | NODE_MML_MN => .ok (if n.childq.isEmpty then f else f.puts " \x7b ".toList)
  | NODE_MML_MO => .ok (if n.childq.isEmpty then f else f.puts " \x7b ".toList)
  | NODE_OPTION => (pnode_first_inline n).map (fun b => if b then macro_open f "Fl".toList else f)
  | NODE_PARA => .ok (if f.parastate = PARA_MID then { f with parastate := PARA_WANT } else f)
  | NODE_PROGRAMLISTING => .ok (macro_display f "Bd -literal")
  | NODE_SCREEN => .ok (macro_display f "Bd -literal")
  | NODE_SYNOPSIS => .ok (macro_display f "Bd -literal")
  | NODE_SYSTEMITEM => .ok (pnode_printsystemitem f n)
  | NODE_REFNAME => .ok (macro_open f "Nm".toList)
  | NODE_REFPURPOSE => .ok (macro_open f "Nd".toList)
  | NODE_REPLACEABLE => .ok (macro_open f "Ar".toList)
  | NODE_SBR => .ok (if f.parastate = PARA_MID then macro_line f "br".toList else f)
  | NODE_TYPE => .ok (macro_open f "Vt".toList)
  | NODE_VARNAME => .ok (macro_open f "Va".toList)
  | NODE_VOID => print_text f "void".toList ARG_SPACE
  | NODE_XREF => pnode_printxref f n
  | NODE_CAUTION => .error .abort
  | NODE_LEGALNOTICE => .error .abort
  | NODE_PREFACE => .error .abort
  | NODE_TIP => .error .abort
  | NODE_WARNING => .error .abort
  | _ => .ok f

/-- The first `switch` of `pnode_print`: the state, the node and its next
sibling afterwards. -/
def pnode_print_pre (print : printer) (f : format) (ctx : pctx) (was_impl : Bool) (n : pnode) :
    Except fault (format × pnode × Option pnode) :=
  let keep (r : Except fault (format × pnode)) : Except fault (format × pnode × Option pnode) :=
    r.map (fun x => (x.1, x.2, ctx.next))
  match n.node with
  | NODE_ARG => keep (pnode_printarg print f n)
  | NODE_AUTHOR => keep (pnode_printauthor f n)
  | NODE_CITEREFENTRY => keep (pnode_printciterefentry f n)
  | NODE_EDITOR =>
    keep ((print_text f "editor:".toList ARG_SPACE).bind (fun g => pnode_printauthor g n))
  | NODE_FUNCPROTOTYPE => keep (pnode_printfuncprototype f n)
  | NODE_ITEMIZEDLIST => keep (pnode_printlist print f n)
  | NODE_GROUP => keep (pnode_printgroup print f n)
  | NODE_LINK => keep (pnode_printlink print f n)
  | NODE_MML_MFENCED => keep (pnode_printmathfenced print f n)
  | NODE_MML_MFRAC => keep (pnode_printmath print f n)
  | NODE_MML_MSUB => keep (pnode_printmath print f n)
  | NODE_MML_MSUP => keep (pnode_printmath print f n)
  | NODE_OLINK => keep (pnode_printolink f n)
  | NODE_ORDEREDLIST => keep (pnode_printlist print f n)
  | NODE_PARAMDEF =>
    keep ((macro_addnode (macro_open f "Fa".toList) (ARG_SPACE.or ARG_SINGLE) n).bind
      (fun g => (pnode_unlinksub n).map (fun m => (g, m))))
  | NODE_PARAMETER =>
    keep ((macro_addnode (macro_open f "Fa".toList) (ARG_SPACE.or ARG_SINGLE) n).bind
      (fun g => (pnode_unlinksub n).map (fun m => (g, m))))
  | NODE_QUOTE =>
    if pnode_quotes_file n then
      .ok (f, if n.flags.spc then pnode_first_flags n (fun fl => { fl with spc := true }) else n,
        ctx.next)
    else .ok (macro_enclose_if f was_impl "Dq" "Do", n, ctx.next)
  | NODE_REFNAMEDIV => keep (pnode_printrefnamediv f n)
  | NODE_REFSYNOPSISDIV => keep (pnode_printrefsynopsisdiv f n)
  | NODE_SECTION => keep (pnode_printsection f n)
  | NODE_SIMPLESECT => keep (pnode_printsection f n)
  | NODE_APPENDIX => keep (pnode_printsection f n)
  | NODE_NOTE => keep (pnode_printsection f n)
  | NODE_SUBSCRIPT =>
    keep ((if f.linestate = LINE_MACRO then macro_addarg f "_".toList ARG_NONE
      else print_text f "_".toList ARG_NONE).map
        (fun g => (g, pnode_first_flags n (fun _ => ⟨false, false⟩))))
  | NODE_SUPERSCRIPT =>
    .ok (f.puts "\\(ha".toList, pnode_first_flags n (fun _ => ⟨false, false⟩), ctx.next)
  | NODE_TEXT => pnode_printtext f ctx n
  | NODE_ESCAPE => pnode_printtext f ctx n
  | NODE_TGROUP => keep (pnode_printtgroup print f n)
  | NODE_TITLE =>
    keep ((macro_nodeline (if f.parastate = PARA_MID then { f with parastate := PARA_WANT } else f)
      "Sy".toList n ARG_NONE).bind (fun g => (pnode_unlinksub n).map (fun m => (g, m))))
  | NODE_SUBTITLE =>
    keep ((macro_nodeline (if f.parastate = PARA_MID then { f with parastate := PARA_WANT } else f)
      "Sy".toList n ARG_NONE).bind (fun g => (pnode_unlinksub n).map (fun m => (g, m))))
  | NODE_VARIABLELIST => keep (pnode_printvariablelist print f n)
  | _ => keep ((pnode_print_open f ctx was_impl n).map (fun g => (g, n)))

/-- Close an enclosure that was opened with `was_impl`: the macro `close`
after clearing `FMT_NOSPC`, or the end of the partial implicit block. -/
def macro_unclose_if (f : format) (was_impl : Bool) (close : String) : format :=
  if was_impl then macro_open { f with flags := { f.flags with nospc := false } } close.toList
  else { f with flags := { f.flags with impl := false } }

/-- The second `switch` of `pnode_print`: the state and the next sibling
afterwards, and whether the function goes on to its last statements
instead of returning. -/
def pnode_print_post (f : format) (ctx : pctx) (was_impl : Bool) (n : pnode) :
    Except fault (format × Option pnode × Bool) :=
  let go (g : format) : Except fault (format × Option pnode × Bool) := .ok (g, ctx.next, true)
  match n.node with
  | NODE_EMAIL => go (macro_unclose_if f was_impl "Ac")
  | NODE_ESCAPE => .ok (f, ctx.next, false)
  | NODE_TERM => .ok (f, ctx.next, false)
  | NODE_TEXT => .ok (f, ctx.next, false)
  | NODE_FOOTNOTE => go (macro_line { f with parastate := PARA_HAVE } "Bc".toList)
  | NODE_GLOSSTERM => go { f with parastate := PARA_HAVE }
  | NODE_INFORMALEQUATION => go (macro_line (macro_line f "EN".toList) "Ed".toList)
  | NODE_INLINEEQUATION => go (macro_line f "EN".toList)
  | NODE_LITERAL =>
    (pnode_parent_is ctx n NODE_QUOTE).bind (fun q =>
      go (if q then f else macro_unclose_if f was_impl "Sc"))
  | NODE_MEMBER =>
    let more := ctx.next.any (fun nn => nn.node == NODE_MEMBER)
    match f.linestate with
    | LINE_TEXT => (if more then print_text f ",".toList ARG_NONE else .ok f).bind go
    | LINE_MACRO =>
      (if more then macro_addarg f ",".toList ARG_SPACE else .ok f).bind
        (fun g => go (macro_close g))
    | LINE_NEW => go f
  | NODE_MML_MROW => go (if n.childq.isEmpty then f else f.puts " \x7d ".toList)
  | NODE_MML_MI => go (if n.childq.isEmpty then f else f.puts " \x7d ".toList)
  | NODE_MML_MN => go (if n.childq.isEmpty then f else f.puts " \x7d ".toList)
  | NODE_MML_MO => go (if n.childq.isEmpty then f else f.puts " \x7d ".toList)
  | NODE_PARA => go (if f.parastate = PARA_MID then { f with parastate := PARA_WANT } else f)
  | NODE_QUOTE => go (if pnode_quotes_file n then f else macro_unclose_if f was_impl "Dc")
  | NODE_SECTION => go (if n.parent ≠ none then { f with level := f.level - 1 } else f)
  | NODE_SIMPLESECT => go (if n.parent ≠ none then { f with level := f.level - 1 } else f)
  | NODE_APPENDIX => go (if n.parent ≠ none then { f with level := f.level - 1 } else f)
  | NODE_NOTE => go (if n.parent ≠ none then { f with level := f.level - 1 } else f)
  | NODE_BLOCKQUOTE =>
    go { macro_line { f with parastate := PARA_HAVE } "Ed".toList with parastate := PARA_WANT }
  | NODE_LITERALLAYOUT =>
    go { macro_line { f with parastate := PARA_HAVE } "Ed".toList with parastate := PARA_WANT }
  | NODE_PROGRAMLISTING =>
    go { macro_line { f with parastate := PARA_HAVE } "Ed".toList with parastate := PARA_WANT }
  | NODE_SCREEN =>
    go { macro_line { f with parastate := PARA_HAVE } "Ed".toList with parastate := PARA_WANT }
  | NODE_SYNOPSIS =>
    go { macro_line { f with parastate := PARA_HAVE } "Ed".toList with parastate := PARA_WANT }
  | NODE_TITLE => go { f with parastate := PARA_WANT }
  | NODE_SUBTITLE => go { f with parastate := PARA_WANT }
  | NODE_YEAR =>
    match ctx.next with
    | none => go f
    | some nn =>
      if nn.node = NODE_YEAR ∧ f.linestate = LINE_TEXT then
        (print_text f ",".toList ARG_NONE).map (fun g =>
          (g, some (pnode_first_flags (nn.setFlags { nn.flags with spc := true })
            (fun fl => { fl with spc := true })), true))
      else go f
  | _ => go f

/-- Print a parsed node: `pnode_print(f, n)` for a node `n` with the
surroundings `ctx`; the state, the node and its next sibling afterwards.
The first argument bounds the depth of the recursion. -/
def pnode_print : Nat → printer
  | 0, _, _, _ => .error .fuel
  | k + 1, f, ctx, n => do
    let f0 := if n.flags.line ∧ (f.nofill ≠ 0 ∨ (f.flags.arg = false ∧ f.flags.impl = false))
      then macro_close f else f
    let was_impl := f0.flags.impl
    let f1 := { f0 with flags := { f0.flags with nospc := !n.flags.spc } }
    let (f2, n1, next1) ← pnode_print_pre (pnode_print k) f1 ctx was_impl n
    let cls ← (match pnode_class n1.node with
      | none => .error .assertion
      | some c => pure c : Except fault nodeclass)
    let f3 := if cls = CLASS_NOFILL then { f2 with nofill := f2.nofill + 1 } else f2
    let (f4, n2) ← pnode_children (fun _ g c nc => pnode_print k g c nc) f3 n1
    let (f5, next2, more) ← pnode_print_post f4 { ctx with next := next1 } was_impl n2
    if more then
      let f6 := { f5 with flags := { f5.flags with arg := false } }
      return (if cls = CLASS_NOFILL then { f6 with nofill := f6.nofill - 1 } else f6, n2, next2)
    else return (f5, n2, next2)

/-- The function `ptree_print_mdoc` for a tree with a root, started with the
flags `flags` in the formatter, which C leaves uninitialised: the state at
the end, with the output.  `fuel` bounds the depth of the recursion. -/
def ptree_print_mdoc (fuel : Nat) (flags : fflags) (tree : ptree) : Except fault format :=
  match tree.root with
  | none => .error .null
  | some root => do
    let (f1, root1) ← pnode_printprologue ⟨0, 0, flags, LINE_NEW, PARA_HAVE, []⟩ root
    let (f2, _, _) ← pnode_print fuel f1 pctx.top root1
    return (if f2.linestate ≠ LINE_NEW then f2.putc '\n' else f2)

/-! ## main.c -/

deriving instance DecidableEq for Except

/-- The exit code that `main` computes from the flags of the tree. -/
def main_rc (flags : tflags) : Nat :=
  if flags.error then 3 else if flags.warn then 2 else 0

/-- The first half of `main` for a document on the standard input: the tree
that `parse_file` returns for the bytes `input`, reorganized by `ptree_reorg`.
The option `-W` is `warn` and the argument of `-s` is `sec`; `files` are the
files that can be opened and `fuel` bounds the nesting of included files.
A reorganizer that does not return is the fault `fuel`. -/
def main_tree (fuel : Nat) (files : List (cstring × List Char)) (warn : Bool)
    (sec : Option cstring) (input : List Char) : Except fault ptree := do
  let p ← parse_file fuel (parse_alloc warn files 1) (some input) "<stdin>".toList
  let tree ← parse_tree p
  match ptree_reorg p.next tree sec with
  | none => .error .fuel
  | some (tree1, _) => return tree1

/-- The function `ptree_print_mdoc` with fuel enough for the depth of the
tree. -/
def main_print (flags : fflags) (tree : ptree) : Except fault format :=
  ptree_print_mdoc ((tree.root.map (fun root => root.nodes.length)).getD 0 + 1) flags tree

/-- The run of `main` that reads the bytes `input` from the standard input
and writes mdoc: the bytes written to the standard output and the exit code.
`flags` are the flags that the formatter happens to start with. -/
def main_mdoc (fuel : Nat) (files : List (cstring × List Char)) (flags : fflags) (warn : Bool)
    (sec : Option cstring) (input : List Char) : Except fault (List Char × Nat) := do
  let tree ← main_tree fuel files warn sec input
  if tree.root.isNone then return ([], main_rc tree.flags)
  let f ← main_print flags tree
  return (f.out, main_rc tree.flags)

/-! ## Runs of the formatter that do not call abort -/

/-- The kinds for which `pnode_print` calls `abort()`. -/
def abort_kind (k : nodeid) : Bool :=
  k == NODE_CAUTION || k == NODE_LEGALNOTICE || k == NODE_PREFACE || k == NODE_TIP ||
    k == NODE_WARNING

/-- No node of the subtree of `n` has a kind for which `pnode_print` calls
`abort()`. -/
def pnode.clean (n : pnode) : Prop :=
  ∀ m ∈ n.nodes, abort_kind m.node = false

/-- The run `x` does not end in a call of `abort()`, and when it returns, its
result satisfies `Q`. -/
def Safe {α : Type} (Q : α → Prop) (x : Except fault α) : Prop :=
  match x with
  | .ok a => Q a
  | .error e => e ≠ fault.abort

/-- A recursive call of the printer that is safe on clean nodes and keeps
the node and its next sibling clean. -/
def SafePrinter (print : printer) : Prop :=
  ∀ (f : format) (ctx : pctx) (n : pnode), n.clean → (∀ x, ctx.next = some x → x.clean) →
    Safe (fun r => r.2.1.clean ∧ ∀ x, r.2.2 = some x → x.clean) (print f ctx n)

/-! ## parse.c: sequences of calls of the handlers -/

/-- A call of one of the handlers of the parser with its argument, as
`parse_string` makes them while it reads the input: `xml_elem_start`,
`xml_elem_end` (whose name may be `NULL`), `xml_text`, `xml_entity`,
`xml_attrkey` and `xml_attrval`. -/
inductive xml_event where
  | elem_start (name : cstring)
  | elem_end (name : Option cstring)
  | text (word : List Char)
  | entity (name : cstring)
  | attrkey (name : cstring)
  | attrval (name : cstring)

/-- The call that an event stands for. -/
def xml_call (r : nested) (p : parse) : xml_event → Except fault parse
  | .elem_start name => xml_elem_start p name
  | .elem_end name => xml_elem_end r p name
  | .text word => xml_text p word
  | .entity name => xml_entity r p name
  | .attrkey name => xml_attrkey p name
  | .attrval name => xml_attrval p name

/-- The calls of a list of events, one after the other. -/
def xml_calls (r : nested) (p : parse) : List xml_event → Except fault parse
  | [] => .ok p
  | e :: es =>
    match xml_call r p e with
    | .error x => .error x
    | .ok p1 => xml_calls r p1 es

/-- Whether the events are the content of an element, `d` levels below it:
the starts and ends of elements are well nested, the names of the elements
that start are element names and not declarations or processing
instructions, and every text has at least one byte. -/
def xml_nested : Nat → List xml_event → Bool
  | d, [] => d == 0
  | d, .elem_start name :: es => xml_name_plain name && xml_nested (d + 1) es
  | d, .elem_end _ :: es => decide (0 < d) && xml_nested (d - 1) es
  | d, .text word :: es => decide (0 < word.length) && xml_nested d es
  | d, .entity _ :: es => xml_nested d es
  | d, .attrkey _ :: es => xml_nested d es
  | d, .attrval _ :: es => xml_nested d es

/-! ## parse.c: the strings of the text nodes -/

/-- Whether a string has at least one byte and white space at neither end. -/
def text_trimmed (s : cstring) : Bool :=
  !s.isEmpty && !s.head?.any c_isspace && !s.getLast?.any c_isspace

/-- Whether a string can be the string of a text node that is still open,
outside no-fill elements: it has at least one byte, no white space at its start
and no NUL in it. -/
def text_open (s : cstring) : Bool :=
  !s.isEmpty && !s.head?.any c_isspace && !s.contains NUL

/-- Every TEXT node of the subtree of `n` whose address is not in `A` has a
string that is not empty and has white space at neither end. -/
def pnode.text_ok (A : List Nat) (n : pnode) : Prop :=
  ∀ m ∈ n.nodes, m.node = NODE_TEXT → m.addr ∉ A →
    ∃ s, m.b = some s ∧ text_trimmed s = true

/-- The text nodes of the parser outside no-fill elements: the complete
nodes, which are the children of the nodes of the stack and the trees in
`loose`, hold only TEXT nodes with trimmed strings, the open elements are no
TEXT nodes, and when the current node is a TEXT node, it has no children and
an open string.  Besides, the kind of the element last seen is not TEXT and
the deletion counter is not negative.  The list `A` holds the addresses of the
nodes that are about to be unlinked: while `xml_elem_end` reads the file of
an `xi:include` element, the node of that element is linked into the tree as
it is, and it is removed when the file has been read. -/
def parse.text_ok (A : List Nat) (p : parse) : Prop :=
  (∀ n ∈ p.loose, n.text_ok A) ∧
  (∀ n ∈ p.stack, ∀ c ∈ n.childq, c.text_ok A) ∧
  (∀ n ∈ p.stack.tail, n.node ≠ NODE_TEXT) ∧
  (∀ n, p.stack.head? = some n → n.node = NODE_TEXT →
    p.stack.tail ≠ [] ∧ n.childq = [] ∧ ∃ s, n.b = some s ∧ text_open s = true) ∧
  p.ncur ≠ NODE_TEXT ∧ 0 ≤ p.del

/-- The nested calls of the parser keep the property `parse.text_ok`. -/
def nested.text_ok (r : nested) : Prop :=
  ∀ A : List Nat,
    (∀ p s q, p.text_ok A → r.file p s = .ok q → q.text_ok A) ∧
    (∀ p s q, p.text_ok A → r.str p s = .ok q → q.text_ok A)

/-- The state `q` has the trees, the kind of the element last seen and the
counters of the state `p`: what the scanner keeps while it moves through the
buffer. -/
def parse.same_tree (p q : parse) : Prop :=
  q.stack = p.stack ∧ q.loose = p.loose ∧ q.ncur = p.ncur ∧ q.del = p.del ∧
    q.nofill = p.nofill

/-! ## The argument of a macro, word by word

The definitions of this section say in words of their own what `macro_addarg`
writes; the theorems compare them with the loop of the function. -/

/-- The words of an argument, each with the character that follows it;
`w` is the part of the current word that has been read. -/
def arg_tokens_aux : List Char → List Char → List (List Char × Option Char)
  | w, [] => if w = [] then [] else [(w, none)]
  | w, c :: rest =>
    if c_isspace c then
      if w = [] then arg_tokens_aux [] rest else (w, some c) :: arg_tokens_aux [] rest
    else arg_tokens_aux (w ++ [c]) rest

/-- The words of an argument that white space delimits, each with the
character that follows it, which is `none` at the end of the argument. -/
def arg_tokens (arg : List Char) : List (List Char × Option Char) :=
  arg_tokens_aux [] arg

/-- The words of an argument that white space delimits. -/
def arg_words (arg : List Char) : List (List Char) :=
  (arg_tokens arg).map Prod.fst

/-- A word that mdoc would read as a macro: one upper-case letter followed
by one lower-case letter, or one of Brq, Bro, Brc and Bsx. -/
def macro_word (w : List Char) : Bool :=
  (w.length == 2 && c_isupper (w.getD 0 NUL) && c_islower (w.getD 1 NUL)) ||
  w == "Brq".toList || w == "Bro".toList || w == "Brc".toList || w == "Bsx".toList

/-- The bytes that stand for one character of an argument: a double quote
is written as `\(dq`, a backslash as `\e`, and every other character as it
is, or in upper case. -/
def arg_escape (upper : Bool) (c : Char) : List Char :=
  if c = '"' then "\\(dq".toList
  else if c = '\\' then "\\e".toList
  else if upper then [c_toupper c] else [c]

/-- Whether a word gets the prefix `\&`: outside quotes, without upper case,
when it would be read as a macro and the end of the argument or a blank
follows it. -/
def arg_prefixed (quoted upper : Bool) (t : List Char × Option Char) : Bool :=
  !quoted && !upper && macro_word t.1 && (t.2 == none || t.2 == some ' ')

/-- The bytes that stand for one word of an argument. -/
def arg_word (quoted upper : Bool) (t : List Char × Option Char) : List Char :=
  (if arg_prefixed quoted upper t then "\\&".toList else []) ++ t.1.flatMap (arg_escape upper)

/-- The bytes that stand for the words of an argument: one blank goes
before every word but the first, and before the first when `sp` is set. -/
def arg_render (sp quoted upper : Bool) : List (List Char × Option Char) → List Char
  | [] => []
  | t :: ts => (if sp then [' '] else []) ++ arg_word quoted upper t ++
      arg_render true quoted upper ts

/-! ## The last word of a text node -/

/-- The last word of the string of a text node, as `pnode_closetext` looks
for it from the end of the string. -/
def text_last_word (s : cstring) : cstring :=
  (s.reverse.takeWhile (fun c => !c_isspace c)).reverse

/-- The part of the string before the last word, without the white space
between the two. -/
def text_front (s : cstring) : cstring :=
  rstrip (s.take (s.length - (text_last_word s).length))

/-! ## The text of a line, chunk by chunk

The definitions of this section say in words of their own what the loop of
`print_text` writes; the theorems compare them with the loop. -/

/-- One of the characters that end a sentence. -/
def text_punct (c : Char) : Bool :=
  c = '!' || c = '.' || c = '?'

/-- One of the closing characters that may follow the end of a sentence. -/
def text_closer (c : Char) : Bool :=
  c = '"' || c = Char.ofNat 39 || c = ')' || c = ']'

/-- A character that is neither a blank nor one of the seven characters
above. -/
def text_plain (c : Char) : Bool :=
  !(c = ' ' || text_punct c || text_closer c)

/-- Whether a chunk of text without blanks ends a sentence, for the chunk
read backwards: it ends with a run of the seven characters that begins with
one of `.`, `?` and `!`, and the run of plain characters before that holds
at least two alphanumeric characters and does not end with `nc` or `vs`. -/
def sentence_end_rev (xr : List Char) : Bool :=
  ((xr.takeWhile (fun c => text_punct c || text_closer c)).getLast?.any text_punct) &&
  decide (1 < ((xr.dropWhile (fun c => text_punct c || text_closer c)).takeWhile
    text_plain).countP c_isalnum) &&
  !((xr.dropWhile (fun c => text_punct c || text_closer c)).take 2 == ['c', 'n']) &&
  !((xr.dropWhile (fun c => text_punct c || text_closer c)).take 2 == ['s', 'v'])

/-- Whether a chunk of text without blanks ends a sentence. -/
def sentence_end (chunk : List Char) : Bool :=
  sentence_end_rev chunk.reverse

/-- The chunks of a word, each with the number of blanks that follow it;
`chunk` and `n` are the chunk that is being read and the blanks behind it. -/
def text_chunks_aux : List Char → Nat → List Char → List (List Char × Nat)
  | chunk, n, [] => [(chunk, n)]
  | chunk, n, c :: rest =>
    if c = ' ' then text_chunks_aux chunk (n + 1) rest
    else if n = 0 then text_chunks_aux (chunk ++ [c]) 0 rest
    else (chunk, n) :: text_chunks_aux [c] 0 rest

/-- The chunks without blanks of a word, each with the number of blanks that
follow it; only the first chunk can be empty, and only the last can have no
blank behind it. -/
def text_chunks (word : List Char) : List (List Char × Nat) :=
  text_chunks_aux [] 0 word

/-- The bytes that stand for one character of a text: a backslash is
written as `\e`. -/
def text_escape (c : Char) : List Char :=
  if c = '\\' then "\\e".toList else [c]

/-- The bytes that stand for the blanks behind the end of a sentence: a
newline, with `\&` behind it when the next chunk begins with a dot or an
apostrophe, and nothing at the end of the word. -/
def text_break : List (List Char × Nat) → List Char
  | [] => []
  | (next, _) :: _ =>
    if next.head? = some (Char.ofNat 39) ∨ next.head? = some '.' then "\n\\&".toList
    else "\n".toList

/-- The bytes that stand for the chunks of a word in fill mode: the blanks
behind a chunk that ends a sentence are replaced, all others are kept. -/
def text_render : List (List Char × Nat) → List Char
  | [] => []
  | (chunk, n) :: more =>
    chunk.flatMap text_escape ++
      (if n = 0 then [] else if sentence_end chunk then text_break more
        else List.replicate n ' ') ++
      text_render more

/-! ## The lines of the output -/

/-- The lines of an output; `cur` is the part of the current line that has
been read. -/
def out_lines_aux : List Char → List Char → List (List Char)
  | cur, [] => [cur]
  | cur, c :: rest => if c = '\n' then cur :: out_lines_aux [] rest
    else out_lines_aux (cur ++ [c]) rest

/-- The lines of an output, without the newlines that end them. -/
def out_lines (out : List Char) : List (List Char) :=
  out_lines_aux [] out

/-- Whether a line starts with one of the macros after which no paragraph
break is due: `.Sh`, `.Ss`, `.Bd`, `.Bl` and `.Pp`. -/
def pp_banned_after (line : List Char) : Bool :=
  [".Sh", ".Ss", ".Bd", ".Bl", ".Pp"].any (fun m => m.toList.isPrefixOf line)

/-- Whether among the lines a line `.Pp` directly follows a line that starts
with one of these macros. -/
def pp_misplaced : List (List Char) → Bool
  | [] => false
  | [_] => false
  | l1 :: l2 :: rest =>
    (pp_banned_after l1 && l2 == ".Pp".toList) || pp_misplaced (l2 :: rest)
/-! ## The outline of a tree -/

mutual
/-- The nodes of the subtree of a node in document order, each without its
children and with its depth below the node, which itself has the depth `d`. -/
def pnode.outline (d : Nat) : pnode → List (Nat × pnode)
  | .mk a k s p f q cs => (d, .mk a k s p f q []) :: pnode.outline_queue (d + 1) cs
/-- The outline of the nodes of a queue, one after the other. -/
def pnode.outline_queue (d : Nat) : List pnode → List (Nat × pnode)
  | [] => []
  | nc :: rest => nc.outline d ++ pnode.outline_queue d rest
end

/-- The text that `pnode_printtext` hands on for the string `s`, where `opt`
tells that the parent of the text node is an OPTION element: one leading
dash is cut below an option. -/
def option_strip (opt : Bool) (s : cstring) : cstring :=
  match opt, s with
  | true, '-' :: t => t
  | _, _ => s

/-- The number of open no-fill elements of the parser: the nodes of class
NOFILL among the current node and its ancestors. -/
def parse.nofill_open (p : parse) : Int :=
  (p.stack.filter (fun n => pnode_class n.node == some CLASS_NOFILL)).length

/-- The number of lines of an output that call the macro `name`, such as
`.Bd`: the lines that are the name alone or start with the name and a blank. -/
def macro_lines (name : String) (out : List Char) : Nat :=
  ((out_lines out).filter
    (fun l => l == name.toList || (name.toList ++ [' ']).isPrefixOf l)).length
/-- The state of the parser with the switch for warnings off and the flag
`TREE_WARN` cleared. -/
def parse.no_warn (p : parse) : parse :=
  { p with flags := { p.flags with warn := false }, tflags := { p.tflags with warn := false } }

/-- The state of a call of `parse_string` with the parser as `parse.no_warn`
leaves it. -/
def scan.no_warn (s : scan) : scan :=
  { s with p := s.p.no_warn }

/-- The nested calls of the parser do with the switch for warnings off what
they do with it on, but for that switch and the flag `TREE_WARN`. -/
def nested.warn_free (r : nested) : Prop :=
  ∀ p s, r.file p.no_warn s = (r.file p s).map parse.no_warn ∧
    r.str p.no_warn s = (r.str p s).map parse.no_warn

/-- The tree with the flag `TREE_WARN` cleared. -/
def ptree.no_warn (t : ptree) : ptree := { t with flags := { t.flags with warn := false } }

/-! ## Runs of the formatter that do not run out of fuel -/

/-- The run `x` does not stop for want of fuel, and when it returns, its
result satisfies `Q`. -/
def Runs {α : Type} (Q : α → Prop) (x : Except fault α) : Prop :=
  match x with
  | .ok a => Q a
  | .error e => e ≠ fault.fuel

/-- Every child of `n` has at most `k` nodes in its subtree. -/
def pnode.small (k : Nat) (n : pnode) : Prop :=
  ∀ c ∈ n.childq, c.nodes.length ≤ k

/-- The node `m` is `n` with other children, each with at most `k` nodes in
its subtree: the kind and the parent pointer are those of `n`. -/
def pnode.kept (k : Nat) (n m : pnode) : Prop :=
  m.node = n.node ∧ m.parent = n.parent ∧ m.small k

/-- The sibling `b` that a call leaves as the next one is none or has the
size of the next sibling `a` before the call. -/
def next_kept (a b : Option pnode) : Prop :=
  ∀ x, b = some x → ∃ m, a = some m ∧ x.nodes.length = m.nodes.length

/-- A recursive call of the printer that, on nodes with at most `k` nodes in
the subtree, does not run out of fuel and returns with the section level
and the no-fill counter of the call, and with a next sibling of the same
size. -/
def Restores (k : Nat) (print : printer) : Prop :=
  ∀ (f : format) (ctx : pctx) (n : pnode), n.nodes.length ≤ k →
    Runs (fun r => r.1.level = f.level ∧ r.1.nofill = f.nofill ∧ next_kept ctx.next r.2.2)
      (print f ctx n)
/-! ## Deciding the equality of nodes -/

mutual
/-- Equality of two nodes can be decided: the fields are compared one by
one and the children pairwise. -/
def pnode.decEq : (x y : pnode) → Decidable (x = y)
  | .mk a k s p f q cs, .mk a2 k2 s2 p2 f2 q2 cs2 =>
    if h : a = a2 ∧ k = k2 ∧ s = s2 ∧ p = p2 ∧ f = f2 ∧ q = q2 then
      match pnode.decEq_queue cs cs2 with
      | isTrue hc => isTrue (by
          obtain ⟨h1, h2, h3, h4, h5, h6⟩ := h
          rw [h1, h2, h3, h4, h5, h6, hc])
      | isFalse hc => isFalse (fun e => hc (by injection e))
    else isFalse (fun e => h (by
      injection e with e1 e2 e3 e4 e5 e6 e7
      exact ⟨e1, e2, e3, e4, e5, e6⟩))
/-- Equality of two child queues can be decided. -/
def pnode.decEq_queue : (xs ys : List pnode) → Decidable (xs = ys)
  | [], [] => isTrue rfl
  | [], _ :: _ => isFalse (fun e => by cases e)
  | _ :: _, [] => isFalse (fun e => by cases e)
  | c :: cs, d :: ds =>
    match pnode.decEq c d with
    | isTrue h1 =>
      match pnode.decEq_queue cs ds with
      | isTrue h2 => isTrue (by rw [h1, h2])
      | isFalse h2 => isFalse (fun e => h2 (by injection e))
    | isFalse h1 => isFalse (fun e => h1 (by injection e))
end

instance : DecidableEq pnode := pnode.decEq

/-! ## Example trees -/

/-- A text node at address `a` with parent pointer `p`, as the parser makes
it for text that follows a tag directly. -/
def ex_text (a p : Nat) (s : String) : pnode :=
  pnode.mk a NODE_TEXT (some s.toList) (some p) ⟨false, false⟩ [] []

/-- An element node at address `a` with parent pointer `p`. -/
def ex_elem (a : Nat) (k : nodeid) (p : Option Nat) (cs : List pnode) : pnode :=
  pnode.mk a k none p ⟨false, true⟩ [] cs

/-- The tree of `<refentry><refmeta><refmiscinfo>x</refmiscinfo></refmeta>
<refsect1><title>Author</title><para>me</para></refsect1></refentry>`. -/
def ex_author : pnode :=
  ex_elem 1 NODE_REFENTRY none
    [ ex_elem 2 NODE_REFMETA (some 1) [ex_elem 3 NODE_REFMISCINFO (some 2) [ex_text 4 3 "x"]],
      ex_elem 5 NODE_SECTION (some 1)
        [ ex_elem 6 NODE_TITLE (some 5) [ex_text 7 6 "Author"],
          ex_elem 8 NODE_PARA (some 5) [ex_text 9 8 "me"] ] ]

/-- The tree of `<book><bookinfo><author>me</author></bookinfo>
<appendix><para>a</para></appendix><refentry><refnamediv><refname>n</refname>
</refnamediv></refentry></book>`. -/
def ex_book : pnode :=
  ex_elem 1 NODE_SECTION none
    [ ex_elem 2 NODE_BOOKINFO (some 1) [ex_elem 3 NODE_AUTHOR (some 2) [ex_text 4 3 "me"]],
      ex_elem 5 NODE_APPENDIX (some 1) [ex_elem 6 NODE_PARA (some 5) [ex_text 7 6 "a"]],
      ex_elem 8 NODE_REFENTRY (some 1)
        [ex_elem 9 NODE_REFNAMEDIV (some 8) [ex_elem 10 NODE_REFNAME (some 9) [ex_text 11 10 "n"]]] ]

/-- The tree of `<refentry><refmeta><refmiscinfo>x</refmiscinfo></refmeta>
<refsect1><title>Description</title></refsect1>
<refsect1><title>Bugs</title></refsect1></refentry>`. -/
def ex_bugs : pnode :=
  ex_elem 1 NODE_REFENTRY none
    [ ex_elem 2 NODE_REFMETA (some 1) [ex_elem 3 NODE_REFMISCINFO (some 2) [ex_text 4 3 "x"]],
      ex_elem 5 NODE_SECTION (some 1) [ex_elem 6 NODE_TITLE (some 5) [ex_text 7 6 "Description"]],
      ex_elem 8 NODE_SECTION (some 1) [ex_elem 9 NODE_TITLE (some 8) [ex_text 10 9 "Bugs"]] ]

/-- The tree of `<refentry id="foo"><refnamediv><refname>foo</refname>
</refnamediv></refentry>`. -/
def ex_id : pnode :=
  pnode.mk 1 NODE_REFENTRY none none ⟨false, true⟩ [⟨ATTRKEY_ID, ATTRVAL__MAX, some "foo".toList⟩]
    [ex_elem 2 NODE_REFNAMEDIV (some 1) [ex_elem 3 NODE_REFNAME (some 2) [ex_text 4 3 "foo"]]]

/-- The tree of `<refentry><refmeta><refentrytitle>foo</refentrytitle>
<manvolnum>8<date>2019</date></manvolnum></refmeta></refentry>`. -/
def ex_voldate : pnode :=
  ex_elem 1 NODE_REFENTRY none
    [ ex_elem 2 NODE_REFMETA (some 1)
        [ ex_elem 3 NODE_REFENTRYTITLE (some 2) [ex_text 4 3 "foo"],
          ex_elem 5 NODE_MANVOLNUM (some 2)
            [ex_text 6 5 "8", ex_elem 7 NODE_DATE (some 5) [ex_text 8 7 "2019"]] ] ]

/-- The tree of the minimal document `<refentry><refmeta><refentrytitle>foo
</refentrytitle><manvolnum>1</manvolnum></refmeta><refnamediv><refname>foo
</refname><refpurpose>bar</refpurpose></refnamediv></refentry>`. -/
def ex_minimal : pnode :=
  ex_elem 1 NODE_REFENTRY none
    [ ex_elem 2 NODE_REFMETA (some 1)
        [ ex_elem 3 NODE_REFENTRYTITLE (some 2) [ex_text 4 3 "foo"],
          ex_elem 6 NODE_MANVOLNUM (some 2) [ex_text 7 6 "1"] ],
      ex_elem 9 NODE_REFNAMEDIV (some 1)
        [ ex_elem 10 NODE_REFNAME (some 9) [ex_text 11 10 "foo"],
          ex_elem 13 NODE_REFPURPOSE (some 9) [ex_text 14 13 "bar"] ] ]


/-- The parser after `<arg choice=`: the ARG node is the current node and its
attribute `choice` waits for its value. -/
def ex_pending : parse :=
  { parse_alloc false [] 1 with
    root := some 1
    stack := [pnode.mk 1 NODE_ARG none none ⟨false, true⟩ [⟨ATTRKEY_CHOICE, ATTRVAL__MAX, none⟩] []]
    ncur := NODE_ARG
    flags := ⟨false, false, false, true, false⟩
    next := 2 }

/-- The minimal document of the manual. -/
def minimal_input : List Char :=
  ("<refentry><refmeta><refentrytitle>foo</refentrytitle><manvolnum>1</manvolnum>" ++
   "</refmeta><refnamediv><refname>foo</refname><refpurpose>bar</refpurpose>" ++
   "</refnamediv></refentry>").toList

/-- The six lines that the manual gives as the output for the minimal
document. -/
def minimal_output : List Char :=
  ".Dd $Mdocdate$\n.Dt FOO 1\n.Os\n.Sh NAME\n.Nm foo\n.Nd bar\n".toList

/-- A document whose date holds a title BUGS and whose REFMETA holds more
than a title and a volume. -/
def prologue_input : List Char :=
  ("<refentry><date><title>BUGS</title></date><refmeta><refmiscinfo>x</refmiscinfo>" ++
   "</refmeta></refentry>").toList

/-- The minimal document without its REFNAMEDIV. -/
def refmeta_input : List Char :=
  ("<refentry><refmeta><refentrytitle>foo</refentrytitle><manvolnum>1</manvolnum>" ++
   "</refmeta></refentry>").toList

/-- The parser after `<para>a `, where the text has not been closed yet: the
TEXT node with the string `a ` is the current node. -/
def ex_open : parse :=
  { parse_alloc false [] 1 with
    root := some 1
    stack := [pnode.mk 2 NODE_TEXT (some "a ".toList) (some 1) ⟨false, false⟩ [] [],
      pnode.mk 1 NODE_PARA none none ⟨false, true⟩ [] []]
    ncur := NODE_PARA
    next := 3 }

/-- The events of `<b>x</b>&amp;<c d="e"/>`, as they follow the start of an
element. -/
def ex_content : List xml_event :=
  [.elem_start "b".toList, .text "x".toList, .elem_end (some "b".toList),
   .entity "amp".toList, .elem_start "c".toList, .attrkey "d".toList, .attrval "e".toList,
   .elem_end none]


/-- The scanner at the bytes `b</para>` in a buffer, with the state `ex_open`
of the parser: the text `a ` is open below a paragraph. -/
def ex_scan : scan :=
  ⟨ex_open, "b</para>".toList.map some ++ [none], PARSE_ELEM, 0, 0⟩

/-- The parser after `<para>see foo`, where the text has not been closed
yet: the TEXT node with the string `see foo` is the current node. -/
def ex_words : parse :=
  { parse_alloc false [] 1 with
    root := some 1
    stack := [pnode.mk 2 NODE_TEXT (some "see foo".toList) (some 1) ⟨false, false⟩ [] [],
      pnode.mk 1 NODE_PARA none none ⟨false, true⟩ [] []]
    ncur := NODE_PARA
    next := 3 }

/-- The tree of `<section><title>T</title><programlisting>x</programlisting>
</section>` below a root at address 0: printing it raises the section level
and the no-fill counter of the formatter on the way. -/
def ex_listing : pnode :=
  ex_elem 1 NODE_SECTION (some 0)
    [ ex_elem 2 NODE_TITLE (some 1) [ex_text 3 2 "T"],
      ex_elem 4 NODE_PROGRAMLISTING (some 1) [ex_text 5 4 "x"] ]

/-! # Theorems -/

/-! ## Accessors -/

namespace pnode

@[simp] theorem addr_mk (a k s p f q cs) : (mk a k s p f q cs).addr = a := rfl
@[simp] theorem node_mk (a k s p f q cs) : (mk a k s p f q cs).node = k := rfl
@[simp] theorem b_mk (a k s p f q cs) : (mk a k s p f q cs).b = s := rfl
@[simp] theorem parent_mk (a k s p f q cs) : (mk a k s p f q cs).parent = p := rfl
@[simp] theorem flags_mk (a k s p f q cs) : (mk a k s p f q cs).flags = f := rfl
@[simp] theorem attrq_mk (a k s p f q cs) : (mk a k s p f q cs).attrq = q := rfl
@[simp] theorem childq_mk (a k s p f q cs) : (mk a k s p f q cs).childq = cs := rfl

theorem sizeOf_childq_lt (n : pnode) : sizeOf n.childq < sizeOf n := by
  cases n; simp

theorem eta (n : pnode) : mk n.addr n.node n.b n.parent n.flags n.attrq n.childq = n := by
  cases n; rfl

@[simp] theorem setNode_eq (n : pnode) (k : nodeid) :
    n.setNode k = mk n.addr k n.b n.parent n.flags n.attrq n.childq := by cases n; rfl
@[simp] theorem setB_eq (n : pnode) (s : Option cstring) :
    n.setB s = mk n.addr n.node s n.parent n.flags n.attrq n.childq := by cases n; rfl
@[simp] theorem setParent_eq (n : pnode) (p : Option Nat) :
    n.setParent p = mk n.addr n.node n.b p n.flags n.attrq n.childq := by cases n; rfl
@[simp] theorem setFlags_eq (n : pnode) (f : nflags) :
    n.setFlags f = mk n.addr n.node n.b n.parent f n.attrq n.childq := by cases n; rfl
@[simp] theorem setAttrq_eq (n : pnode) (q : List pattr) :
    n.setAttrq q = mk n.addr n.node n.b n.parent n.flags q n.childq := by cases n; rfl
@[simp] theorem setChildq_eq (n : pnode) (cs : List pnode) :
    n.setChildq cs = mk n.addr n.node n.b n.parent n.flags n.attrq cs := by cases n; rfl
@[simp] theorem insertTail_eq (n c : pnode) :
    n.insertTail c = mk n.addr n.node n.b n.parent n.flags n.attrq (n.childq ++ [c]) := by
  cases n; rfl
@[simp] theorem insertHead_eq (n c : pnode) :
    n.insertHead c = mk n.addr n.node n.b n.parent n.flags n.attrq (c :: n.childq) := by
  cases n; rfl

theorem weight_eq (n : pnode) :
    n.weight = reorg_cost n.node n.parent.isNone + weight_queue n.childq := by
  cases n; simp [weight]

theorem induct {P : pnode → Prop} (h : ∀ n, (∀ c ∈ n.childq, P c) → P n) (n : pnode) : P n :=
  h n (fun c _ => induct h c)
termination_by sizeOf n
decreasing_by
  have h1 := sizeOf_childq_lt n
  have h2 := List.sizeOf_lt_of_mem ‹c ∈ n.childq›
  omega

theorem weight_queue_append (xs ys : List pnode) :
    weight_queue (xs ++ ys) = weight_queue xs + weight_queue ys := by
  induction xs with
  | nil => simp [weight_queue]
  | cons x xs ih => simp [weight_queue, ih]; omega

theorem weight_le_queue {c : pnode} {cs : List pnode} (h : c ∈ cs) :
    c.weight ≤ weight_queue cs := by
  induction cs with
  | nil => cases h
  | cons x xs ih =>
    simp only [weight_queue]
    rcases List.mem_cons.1 h with h | h
    · subst h; omega
    · have := ih h; omega

end pnode

/-! ## pnode_findfirst and pnode_takefirst -/

theorem pnode_findfirst_eq (node : nodeid) (n : pnode) :
    pnode_findfirst node n =
      if n.node = node then some n else pnode_findfirst_queue node n.childq := by
  cases n; simp [pnode_findfirst]

theorem pnode_takebelow_eq (node : nodeid) (n : pnode) :
    pnode_takebelow node n =
      (pnode_takefirst_queue node n.childq).map (fun r => (r.1, n.setChildq r.2)) := by
  cases n with
  | mk a k s p f q cs =>
    simp only [pnode_takebelow, pnode.childq_mk, pnode.setChildq_eq, pnode.addr_mk,
      pnode.node_mk, pnode.b_mk, pnode.parent_mk, pnode.flags_mk, pnode.attrq_mk]
    cases pnode_takefirst_queue node cs <;> rfl

theorem pnode_takefirst_queue_find (node : nodeid) : ∀ cs : List pnode,
    (pnode_takefirst_queue node cs).map Prod.fst = pnode_findfirst_queue node cs
  | [] => by simp [pnode_takefirst_queue, pnode_findfirst_queue]
  | nc :: rest => by
    have h2 := pnode_takefirst_queue_find node rest
    have h1 := pnode_takefirst_queue_find node nc.childq
    simp only [pnode_takefirst_queue, pnode_findfirst_queue, pnode_findfirst_eq,
      pnode_takebelow_eq]
    by_cases hk : nc.node = node
    · simp [hk]
    · simp only [hk, if_false]
      cases hb : pnode_takefirst_queue node nc.childq with
      | some r => rw [hb] at h1; simp at h1; simp [← h1]
      | none =>
        rw [hb] at h1; simp at h1
        simp only [← h1, Option.map_none']
        cases hq : pnode_takefirst_queue node rest with
        | none => rw [hq] at h2; simp at h2; simp [← h2]
        | some r => rw [hq] at h2; simp at h2; simp [← h2]
termination_by cs => sizeOf cs
decreasing_by
  all_goals simp_wf
  all_goals first | omega | (have hlt := pnode.sizeOf_childq_lt nc; omega)


theorem pnode_takefirst_queue_weight (node : nodeid) : ∀ (cs : List pnode) (r : pnode)
    (cs' : List pnode), pnode_takefirst_queue node cs = some (r, cs') →
    r.weight + pnode.weight_queue cs' = pnode.weight_queue cs
  | [], r, cs', h => by simp [pnode_takefirst_queue] at h
  | nc :: rest, r, cs', h => by
    have h2 := pnode_takefirst_queue_weight node rest
    have h1 := pnode_takefirst_queue_weight node nc.childq
    simp only [pnode_takefirst_queue, pnode_takebelow_eq] at h
    by_cases hk : nc.node = node
    · simp [hk] at h
      obtain ⟨rfl, rfl⟩ := h
      simp [pnode.weight_queue]
    · simp only [hk, if_false] at h
      cases hb : pnode_takefirst_queue node nc.childq with
      | some x =>
        obtain ⟨r1, c1⟩ := x
        rw [hb] at h; simp at h
        obtain ⟨rfl, rfl⟩ := h
        have := h1 _ _ hb
        simp only [pnode.weight_queue, pnode.weight_eq nc, pnode.weight, Option.isNone]
        simp only [pnode.weight_eq nc] at this
        omega
      | none =>
        rw [hb] at h; simp at h
        cases hq : pnode_takefirst_queue node rest with
        | none => rw [hq] at h; simp at h
        | some x =>
          obtain ⟨r1, c1⟩ := x
          rw [hq] at h; simp at h
          obtain ⟨rfl, rfl⟩ := h
          have := h2 _ _ hq
          simp only [pnode.weight_queue]
          omega
termination_by cs => sizeOf cs
decreasing_by
  all_goals simp_wf
  all_goals first | omega | (have hlt := pnode.sizeOf_childq_lt nc; omega)


/-- What `pnode_takefirst` leaves of a node that is not itself of the kind
searched: the node keeps its own fields, and the weight of the node found and
of the remaining children add up to the weight of the children. -/
theorem pnode_takefirst_spec (n : pnode) (node : nodeid) (h : n.node ≠ node) :
    (pnode_takefirst n node).2.addr = n.addr ∧ (pnode_takefirst n node).2.node = n.node ∧
    (pnode_takefirst n node).2.parent = n.parent ∧ (pnode_takefirst n node).2.b = n.b ∧
    (pnode_takefirst n node).2.flags = n.flags ∧ (pnode_takefirst n node).2.attrq = n.attrq ∧
    pnode.weight_queue ((pnode_takefirst n node).1.toList) +
      pnode.weight_queue (pnode_takefirst n node).2.childq = pnode.weight_queue n.childq := by
  simp only [pnode_takefirst, h, if_false, pnode_takebelow_eq]
  cases hq : pnode_takefirst_queue node n.childq with
  | none => simp [pnode.weight_queue]
  | some x =>
    have := pnode_takefirst_queue_weight node _ _ _ hq
    simp [pnode.weight_queue]
    omega

theorem reorg_keep_weight (info : Option pnode) :
    pnode.weight_queue (reorg_keep info).toList ≤ pnode.weight_queue info.toList := by
  unfold reorg_keep
  cases info with
  | none => simp
  | some i => by_cases h : i.childq.isEmpty <;> simp [h, pnode.weight_queue]

/-- The kinds that `reorg_refentry` takes out of the tree. -/
theorem reorg_collect_spec (n : pnode) (h1 : n.node ≠ NODE_BOOKINFO)
    (h2 : n.node ≠ NODE_REFENTRYINFO) (h3 : n.node ≠ NODE_INFO) (h4 : n.node ≠ NODE_REFMETA) :
    (reorg_collect n).2.2.addr = n.addr ∧ (reorg_collect n).2.2.node = n.node ∧
    (reorg_collect n).2.2.parent = n.parent ∧
    pnode.weight_queue ((reorg_collect n).1.toList ++ (reorg_collect n).2.1.toList) +
      pnode.weight_queue (reorg_collect n).2.2.childq ≤ pnode.weight_queue n.childq := by
  obtain ⟨a1, k1, p1, -, -, -, w1⟩ := pnode_takefirst_spec n NODE_BOOKINFO h1
  have hk1 := reorg_keep_weight (pnode_takefirst n NODE_BOOKINFO).1
  unfold reorg_collect
  simp only
  cases hkeep : reorg_keep (pnode_takefirst n NODE_BOOKINFO).1 with
  | some info =>
    rw [hkeep] at hk1
    simp only [Option.toList, List.append_nil] at hk1 w1 ⊢
    refine ⟨a1, k1, p1, ?_⟩
    omega
  | none =>
    simp only
    obtain ⟨a2, k2, p2, -, -, -, w2⟩ :=
      pnode_takefirst_spec (pnode_takefirst n NODE_BOOKINFO).2 NODE_REFENTRYINFO (by rw [k1]; exact h2)
    have hk2 := reorg_keep_weight
      (pnode_takefirst (pnode_takefirst n NODE_BOOKINFO).2 NODE_REFENTRYINFO).1
    generalize pnode_takefirst (pnode_takefirst n NODE_BOOKINFO).2 NODE_REFENTRYINFO = r2
      at a2 k2 p2 w2 hk2 ⊢
    cases hkeep2 : reorg_keep r2.1 with
    | some info =>
      simp only
      rw [hkeep2] at hk2
      obtain ⟨a4, k4, p4, -, -, -, w4⟩ :=
        pnode_takefirst_spec r2.2 NODE_REFMETA (by rw [k2, k1]; exact h4)
      have hk4 := reorg_keep_weight (pnode_takefirst r2.2 NODE_REFMETA).1
      refine ⟨by rw [a4, a2, a1], by rw [k4, k2, k1], by rw [p4, p2, p1], ?_⟩
      simp only [pnode.weight_queue_append, Option.toList] at *
      omega
    | none =>
      simp only
      obtain ⟨a3, k3, p3, -, -, -, w3⟩ :=
        pnode_takefirst_spec r2.2 NODE_INFO (by rw [k2, k1]; exact h3)
      generalize pnode_takefirst r2.2 NODE_INFO = r3 at a3 k3 p3 w3 ⊢
      obtain ⟨a4, k4, p4, -, -, -, w4⟩ :=
        pnode_takefirst_spec r3.2 NODE_REFMETA (by rw [k3, k2, k1]; exact h4)
      have hk4 := reorg_keep_weight (pnode_takefirst r3.2 NODE_REFMETA).1
      refine ⟨by rw [a4, a3, a2, a1], by rw [k4, k3, k2, k1], by rw [p4, p3, p2, p1], ?_⟩
      simp only [pnode.weight_queue_append] at *
      omega


theorem pnode.weight_queue_take_drop (cs : List pnode) (i : Nat) :
    pnode.weight_queue (cs.take i) + pnode.weight_queue (cs.drop i) = pnode.weight_queue cs := by
  rw [← pnode.weight_queue_append, List.take_append_drop]

theorem pnode.weight_queue_modify (cs stuff : List pnode) (i : Nat) :
    pnode.weight_queue (cs.modify (fun nc => nc.setChildq (nc.childq ++ stuff)) i) ≤
      pnode.weight_queue cs + pnode.weight_queue stuff := by
  induction cs generalizing i with
  | nil => cases i <;> simp [List.modify, pnode.weight_queue]
  | cons c cs ih =>
    cases i with
    | zero =>
      simp [List.modify, pnode.weight_queue, pnode.weight, pnode.weight_eq c,
        pnode.weight_queue_append]
      omega
    | succ i =>
      have := ih i
      simp [List.modify, pnode.weight_queue] at this ⊢
      omega

theorem reorg_place_spec (a : Nat) (n : pnode) (stuff : List pnode) :
    (reorg_place a n stuff).1.addr = n.addr ∧ (reorg_place a n stuff).1.node = n.node ∧
    (reorg_place a n stuff).1.parent = n.parent ∧
    pnode.weight_queue (reorg_place a n stuff).1.childq ≤
      pnode.weight_queue n.childq + pnode.weight_queue stuff + 5 := by
  unfold reorg_place
  simp only
  cases (reorg_scan n.childq 0 (none, none)).1 with
  | none =>
    cases (reorg_scan n.childq 0 (none, none)).2 with
    | none =>
      simp [reorg_authors, pnode.weight_queue_append, pnode.weight_queue, pnode.weight,
        reorg_cost]
      omega
    | some i =>
      have := pnode.weight_queue_take_drop n.childq i
      simp [reorg_authors, pnode.weight_queue_append, pnode.weight_queue, pnode.weight,
        reorg_cost]
      omega
  | some i =>
    have := pnode.weight_queue_modify n.childq stuff i
    simp only [pnode.setChildq_eq, pnode.addr_mk, pnode.node_mk, pnode.parent_mk,
      pnode.childq_mk, true_and] at this ⊢
    omega

theorem reorg_refentry_spec (a : Nat) (n : pnode) (h1 : n.node ≠ NODE_BOOKINFO)
    (h2 : n.node ≠ NODE_REFENTRYINFO) (h3 : n.node ≠ NODE_INFO) (h4 : n.node ≠ NODE_REFMETA) :
    (reorg_refentry a n).1.addr = n.addr ∧ (reorg_refentry a n).1.node = n.node ∧
    (reorg_refentry a n).1.parent = n.parent ∧
    pnode.weight_queue (reorg_refentry a n).1.childq ≤ pnode.weight_queue n.childq + 5 := by
  obtain ⟨ha, hk, hp, hw⟩ := reorg_collect_spec n h1 h2 h3 h4
  unfold reorg_refentry
  simp only
  split
  · refine ⟨ha, hk, hp, ?_⟩
    show pnode.weight_queue (reorg_collect n).2.2.childq ≤ _
    omega
  · obtain ⟨ha', hk', hp', hw'⟩ := reorg_place_spec a (reorg_collect n).2.2
      ((reorg_collect n).1.toList ++ (reorg_collect n).2.1.toList)
    exact ⟨by rw [ha', ha], by rw [hk', hk], by rw [hp', hp], by omega⟩

theorem default_title_spec (a : Nat) (n : pnode) (title : cstring) :
    (default_title a n title).1.addr = n.addr ∧ (default_title a n title).1.node = n.node ∧
    (default_title a n title).1.parent = n.parent ∧
    pnode.weight_queue (default_title a n title).1.childq ≤ pnode.weight_queue n.childq + 2 := by
  unfold default_title
  split
  · simp
  · split
    · simp
    · simp [reorg_synth, pnode_alloc, pnode_alloc_text, pnode.weight_queue, pnode.weight,
        reorg_cost]
      omega

theorem reorg_function_spec (n : pnode) :
    (reorg_function n).addr = n.addr ∧ (reorg_function n).node = n.node ∧
    (reorg_function n).parent = n.parent ∧
    pnode.weight_queue (reorg_function n).childq = pnode.weight_queue n.childq := by
  unfold reorg_function
  split
  · rename_i nc hc
    split
    · split
      · simp [hc, pnode.weight_queue, pnode.weight_eq]
      · simp
    · simp
  · simp

theorem reorg_cost_pos (k : nodeid) (top : Bool) : 0 < reorg_cost k top := by
  unfold reorg_cost; omega

theorem reorg_top_spec (a : Nat) (n : pnode)
    (hk : n.node = NODE_APPENDIX ∨ n.node = NODE_PREFACE ∨ n.node = NODE_SECTION) :
    (if n.parent.isNone then reorg_refentry a n else (n, a)).1.addr = n.addr ∧
    (if n.parent.isNone then reorg_refentry a n else (n, a)).1.node = n.node ∧
    (if n.parent.isNone then reorg_refentry a n else (n, a)).1.parent = n.parent ∧
    pnode.weight_queue (if n.parent.isNone then reorg_refentry a n else (n, a)).1.childq + 3 ≤
      n.weight := by
  have h := reorg_refentry_spec a n (by rcases hk with h | h | h <;> rw [h] <;> decide)
      (by rcases hk with h | h | h <;> rw [h] <;> decide)
      (by rcases hk with h | h | h <;> rw [h] <;> decide)
      (by rcases hk with h | h | h <;> rw [h] <;> decide)
  rw [pnode.weight_eq]
  by_cases hp : n.parent.isNone
  · simp only [hp, if_true]
    refine ⟨h.1, h.2.1, h.2.2.1, ?_⟩
    have := h.2.2.2
    rcases hk with h | h | h <;> simp [h, reorg_cost] <;> omega
  · simp only [hp]
    refine ⟨rfl, rfl, rfl, ?_⟩
    rcases hk with h | h | h <;> simp [h, reorg_cost] <;> omega

/-- The switch of `reorg_recurse` keeps the address and the parent pointer of
the node, and the children that it leaves weigh less than the node did. -/
theorem reorg_switch_spec (a : Nat) (n : pnode) :
    (reorg_switch a n).1.addr = n.addr ∧ (reorg_switch a n).1.parent = n.parent ∧
    pnode.weight_queue (reorg_switch a n).1.childq < n.weight := by
  unfold reorg_switch
  split
  all_goals rename_i hk
  all_goals try dsimp only
  · obtain ⟨ha, hn, hp, hw⟩ := default_title_spec a n "Abstract".toList
    rw [pnode.weight_eq]
    have hc : 3 ≤ reorg_cost n.node n.parent.isNone := by simp [hk, reorg_cost]
    exact ⟨by simpa using ha, by simpa using hp, by
      first
        | (simp only [pnode.setNode_eq, pnode.childq_mk]; omega)
        | omega⟩
  · obtain ⟨ha1, hn1, hp1, hw1⟩ := reorg_top_spec a n (by simp [hk])
    obtain ⟨ha, hn, hp, hw⟩ := default_title_spec
      (if n.parent.isNone then reorg_refentry a n else (n, a)).2
      (if n.parent.isNone then reorg_refentry a n else (n, a)).1 "Appendix".toList
    exact ⟨by rw [ha, ha1], by rw [hp, hp1], by omega⟩
  · obtain ⟨ha, hn, hp, hw⟩ := default_title_spec a n "Caution".toList
    rw [pnode.weight_eq]
    have hc : 3 ≤ reorg_cost n.node n.parent.isNone := by simp [hk, reorg_cost]
    exact ⟨by simpa using ha, by simpa using hp, by
      first
        | (simp only [pnode.setNode_eq, pnode.childq_mk]; omega)
        | omega⟩
  · obtain ⟨ha, hn, hp, hw⟩ := reorg_function_spec n
    rw [pnode.weight_eq]
    have := reorg_cost_pos n.node n.parent.isNone
    exact ⟨ha, hp, by omega⟩
  · obtain ⟨ha, hn, hp, hw⟩ := default_title_spec a n "Legal Notice".toList
    rw [pnode.weight_eq]
    have hc : 3 ≤ reorg_cost n.node n.parent.isNone := by simp [hk, reorg_cost]
    exact ⟨by simpa using ha, by simpa using hp, by
      first
        | (simp only [pnode.setNode_eq, pnode.childq_mk]; omega)
        | omega⟩
  · obtain ⟨ha, hn, hp, hw⟩ := default_title_spec a n "Note".toList
    rw [pnode.weight_eq]
    have hc : 3 ≤ reorg_cost n.node n.parent.isNone := by simp [hk, reorg_cost]
    exact ⟨by simpa using ha, by simpa using hp, by
      first
        | (simp only [pnode.setNode_eq, pnode.childq_mk]; omega)
        | omega⟩
  · obtain ⟨ha1, hn1, hp1, hw1⟩ := reorg_top_spec a n (by simp [hk])
    obtain ⟨ha, hn, hp, hw⟩ := default_title_spec
      (if n.parent.isNone then reorg_refentry a n else (n, a)).2
      (if n.parent.isNone then reorg_refentry a n else (n, a)).1 "Preface".toList
    simp only [pnode.setNode_eq, pnode.addr_mk, pnode.parent_mk, pnode.childq_mk]
    exact ⟨by rw [ha, ha1], by rw [hp, hp1], by omega⟩
  · obtain ⟨ha, hn, hp, hw⟩ := reorg_refentry_spec a n (by rw [hk]; decide)
      (by rw [hk]; decide) (by rw [hk]; decide) (by rw [hk]; decide)
    rw [pnode.weight_eq]
    have hc : 7 ≤ reorg_cost n.node n.parent.isNone := by simp [hk, reorg_cost]
    exact ⟨ha, hp, by omega⟩
  · obtain ⟨ha1, hn1, hp1, hw1⟩ := reorg_top_spec a n (by simp [hk])
    obtain ⟨ha, hn, hp, hw⟩ := default_title_spec
      (if n.parent.isNone then reorg_refentry a n else (n, a)).2
      (if n.parent.isNone then reorg_refentry a n else (n, a)).1 "Untitled".toList
    exact ⟨by rw [ha, ha1], by rw [hp, hp1], by omega⟩
  · obtain ⟨ha, hn, hp, hw⟩ := default_title_spec a n "Untitled".toList
    rw [pnode.weight_eq]
    have hc : 3 ≤ reorg_cost n.node n.parent.isNone := by simp [hk, reorg_cost]
    exact ⟨by simpa using ha, by simpa using hp, by
      first
        | (simp only [pnode.setNode_eq, pnode.childq_mk]; omega)
        | omega⟩
  · obtain ⟨ha, hn, hp, hw⟩ := default_title_spec a n "Tip".toList
    rw [pnode.weight_eq]
    have hc : 3 ≤ reorg_cost n.node n.parent.isNone := by simp [hk, reorg_cost]
    exact ⟨by simpa using ha, by simpa using hp, by
      first
        | (simp only [pnode.setNode_eq, pnode.childq_mk]; omega)
        | omega⟩
  · obtain ⟨ha, hn, hp, hw⟩ := default_title_spec a n "Warning".toList
    rw [pnode.weight_eq]
    have hc : 3 ≤ reorg_cost n.node n.parent.isNone := by simp [hk, reorg_cost]
    exact ⟨by simpa using ha, by simpa using hp, by
      first
        | (simp only [pnode.setNode_eq, pnode.childq_mk]; omega)
        | omega⟩
  · rw [pnode.weight_eq]
    have := reorg_cost_pos n.node n.parent.isNone
    exact ⟨rfl, rfl, by omega⟩

theorem reorg_queue_total (g : Nat → pnode → Option (pnode × Nat)) :
    ∀ (cs : List pnode) (a : Nat), (∀ c ∈ cs, ∀ a', ∃ r, g a' c = some r) →
      ∃ r, reorg_queue g a cs = some r
  | [], a, _ => ⟨_, rfl⟩
  | c :: cs, a, h => by
    obtain ⟨r, hr⟩ := h c (List.mem_cons_self _ _) a
    obtain ⟨r', hr'⟩ := reorg_queue_total g cs r.2 (fun c' hc' => h c' (List.mem_cons_of_mem _ hc'))
    exact ⟨(r.1 :: r'.1, r'.2), by simp only [reorg_queue, hr, hr']⟩

/-- The recursion of `reorg_recurse` ends: with a bound of at least the weight
of the node, the function returns a result. -/
theorem reorg_recurse_total : ∀ (fuel a : Nat) (n : pnode), n.weight ≤ fuel →
    ∃ r, reorg_recurse fuel a n = some r
  | 0, a, n, h => by
    have := reorg_cost_pos n.node n.parent.isNone
    rw [pnode.weight_eq] at h; omega
  | fuel + 1, a, n, h => by
    obtain ⟨-, -, hw⟩ := reorg_switch_spec a n
    obtain ⟨r, hr⟩ := reorg_queue_total (reorg_recurse fuel) (reorg_switch a n).1.childq
      (reorg_switch a n).2 (fun c hc a' => reorg_recurse_total fuel a' c (by
        have := pnode.weight_le_queue hc; omega))
    exact ⟨((reorg_switch a n).1.setChildq r.1, r.2), by simp only [reorg_recurse, hr]⟩


/-! ## The recursion of the reorganizer -/

theorem pnode.nodes_eq (n : pnode) : n.nodes = n :: pnode.nodes_queue n.childq := by
  cases n; simp [pnode.nodes]

theorem pnode.mem_nodes_self (n : pnode) : n ∈ n.nodes := by
  rw [pnode.nodes_eq]; exact List.mem_cons_self _ _

theorem pnode.mem_nodes_queue {m : pnode} {cs : List pnode} :
    m ∈ pnode.nodes_queue cs ↔ ∃ c ∈ cs, m ∈ c.nodes := by
  induction cs with
  | nil => simp [pnode.nodes_queue]
  | cons c cs ih => simp [pnode.nodes_queue, ih]

theorem forall₂_mem_right {α β : Type} {R : α → β → Prop} {l1 : List α} {l2 : List β}
    (h : List.Forall₂ R l1 l2) {y : β} (hy : y ∈ l2) : ∃ x ∈ l1, R x y := by
  induction h with
  | nil => cases hy
  | cons hr _ ih =>
    rcases List.mem_cons.1 hy with rfl | hy
    · exact ⟨_, List.mem_cons_self _ _, hr⟩
    · obtain ⟨x, hx, hxy⟩ := ih hy
      exact ⟨x, List.mem_cons_of_mem _ hx, hxy⟩

theorem forall₂_mem_left {α β : Type} {R : α → β → Prop} {l1 : List α} {l2 : List β}
    (h : List.Forall₂ R l1 l2) {x : α} (hx : x ∈ l1) : ∃ y ∈ l2, R x y := by
  induction h with
  | nil => cases hx
  | cons hr _ ih =>
    rcases List.mem_cons.1 hx with rfl | hx
    · exact ⟨_, List.mem_cons_self _ _, hr⟩
    · obtain ⟨y, hy, hxy⟩ := ih hx
      exact ⟨y, List.mem_cons_of_mem _ hy, hxy⟩

theorem reorg_queue_forall (g : Nat → pnode → Option (pnode × Nat)) :
    ∀ (cs : List pnode) (a : Nat) (cs' : List pnode) (a' : Nat),
      reorg_queue g a cs = some (cs', a') →
      List.Forall₂ (fun c c' => ∃ a1 a2, g a1 c = some (c', a2)) cs cs'
  | [], a, cs', a', h => by
    simp only [reorg_queue, Option.some.injEq, Prod.mk.injEq] at h
    obtain ⟨rfl, -⟩ := h
    exact List.Forall₂.nil
  | c :: cs, a, cs', a', h => by
    simp only [reorg_queue] at h
    cases hc : g a c with
    | none => rw [hc] at h; simp at h
    | some r =>
      rw [hc] at h; simp only at h
      cases hq : reorg_queue g r.2 cs with
      | none => rw [hq] at h; simp at h
      | some r' =>
        rw [hq] at h; simp only [Option.some.injEq, Prod.mk.injEq] at h
        rw [← h.1]
        exact List.Forall₂.cons ⟨a, r.2, hc⟩ (reorg_queue_forall g cs r.2 r'.1 r'.2 hq)

/-- The shape of the result of `reorg_recurse`: the node that the switch
leaves, with each of its children replaced by the result of the recursion. -/
theorem reorg_recurse_shape {fuel a : Nat} {n n' : pnode} {a' : Nat}
    (h : reorg_recurse (fuel + 1) a n = some (n', a')) :
    ∃ cs', n' = (reorg_switch a n).1.setChildq cs' ∧
      List.Forall₂ (fun c c' => ∃ a1 a2, reorg_recurse fuel a1 c = some (c', a2))
        (reorg_switch a n).1.childq cs' := by
  simp only [reorg_recurse] at h
  cases hq : reorg_queue (reorg_recurse fuel) (reorg_switch a n).2 (reorg_switch a n).1.childq with
  | none => rw [hq] at h; simp at h
  | some r =>
    rw [hq] at h; simp only [Option.some.injEq, Prod.mk.injEq] at h
    exact ⟨r.1, h.1.symm, reorg_queue_forall _ _ _ _ _ hq⟩

theorem reorg_switch_node (a : Nat) (n : pnode) :
    (reorg_switch a n).1.node = reorg_kind n.node := by
  unfold reorg_switch
  split
  all_goals rename_i hk
  all_goals try dsimp only
  all_goals first
    | (simp only [hk, reorg_kind, pnode.setNode_eq, pnode.node_mk]; done)
    | (rw [(default_title_spec _ _ _).2.1, (reorg_top_spec a n (by simp [hk])).2.1, hk]; rfl)
    | (rw [(reorg_function_spec n).2.1, hk]; rfl)
    | (rw [(default_title_spec _ _ _).2.1, hk]; rfl)
    | (rw [(reorg_refentry_spec a n (by rw [hk]; decide) (by rw [hk]; decide)
        (by rw [hk]; decide) (by rw [hk]; decide)).2.1, hk]; rfl)
    | (unfold reorg_kind; split <;> simp_all)

/-- The kind, the address and the parent pointer of the result of
`reorg_recurse`. -/
theorem reorg_recurse_node {fuel a : Nat} {n n' : pnode} {a' : Nat}
    (h : reorg_recurse fuel a n = some (n', a')) :
    n'.node = reorg_kind n.node ∧ n'.addr = n.addr ∧ n'.parent = n.parent := by
  cases fuel with
  | zero => simp [reorg_recurse] at h
  | succ fuel =>
    obtain ⟨cs', rfl, -⟩ := reorg_recurse_shape h
    obtain ⟨ha, hp, -⟩ := reorg_switch_spec a n
    simp only [pnode.setChildq_eq, pnode.node_mk, pnode.addr_mk, pnode.parent_mk]
    exact ⟨reorg_switch_node a n, ha, hp⟩

/-- A property of single nodes that holds for every node the switch leaves,
whatever the recursion makes of its children, holds for all nodes of the
result of `reorg_recurse`. -/
theorem reorg_recurse_nodes (Q : pnode → Prop)
    (hQ : ∀ (a : Nat) (n : pnode) (cs' : List pnode),
      List.Forall₂ (fun c c' => c'.node = reorg_kind c.node)
        (reorg_switch a n).1.childq cs' → Q ((reorg_switch a n).1.setChildq cs')) :
    ∀ (fuel a : Nat) (n n' : pnode) (a' : Nat), reorg_recurse fuel a n = some (n', a') →
      ∀ m ∈ n'.nodes, Q m
  | 0, a, n, n', a', h => by simp [reorg_recurse] at h
  | fuel + 1, a, n, n', a', h => by
    obtain ⟨cs', rfl, hall⟩ := reorg_recurse_shape h
    intro m hm
    rw [pnode.nodes_eq] at hm
    rcases List.mem_cons.1 hm with rfl | hm
    · apply hQ
      exact hall.imp (fun _ _ ⟨_, _, hc⟩ => (reorg_recurse_node hc).1)
    · simp only [pnode.setChildq_eq, pnode.childq_mk] at hm
      obtain ⟨c', hc', hmc⟩ := pnode.mem_nodes_queue.1 hm
      obtain ⟨c, -, a1, a2, hc⟩ := forall₂_mem_right hall hc'
      exact reorg_recurse_nodes Q hQ fuel a1 c c' a2 hc m hmc


/-! ## reorg_root -/

theorem pnode_getattr_raw_some (n : Option pnode) (key : attrkey) (d : cstring) :
    ∃ s, pnode_getattr_raw n key (some d) = some s := by
  unfold pnode_getattr_raw
  cases n with
  | none => exact ⟨d, rfl⟩
  | some n =>
    simp only
    cases n.attrq.find? (fun a => a.key == key) with
    | none => exact ⟨d, rfl⟩
    | some x =>
      simp only
      by_cases hv : x.val = ATTRVAL__MAX
      · simp only [hv, ne_eq, not_true_eq_false, if_false]
        cases hr : x.rawval with
        | none => exact ⟨d, by simp⟩
        | some s => exact ⟨s, by simp⟩
      · simp only [ne_eq, hv, not_false_eq_true, if_true]
        cases hval : x.val <;> first | exact absurd hval hv | exact ⟨_, rfl⟩

theorem pnode_getattr_raw_ne_none (n : Option pnode) (key : attrkey) (d : cstring) :
    pnode_getattr_raw n key (some d) ≠ none := by
  obtain ⟨s, hs⟩ := pnode_getattr_raw_some n key d
  rw [hs]; simp

/-- The function `reorg_root` returns unless the root is the date node that
it takes itself. -/
theorem reorg_root_none_iff (a : Nat) (root : pnode) (sec : Option cstring) :
    reorg_root a root sec = none ↔
      (root.node = NODE_PUBDATE ∨
        ((pnode_takefirst root NODE_PUBDATE).1.isNone ∧ root.node = NODE_DATE)) := by
  unfold reorg_root
  simp only
  split
  · rename_i h; simp only [true_iff]; exact h
  · rename_i h
    simp only [h, iff_false]
    split
    · rename_i hid
      exact absurd hid (pnode_getattr_raw_ne_none _ _ _)
    · simp

theorem reorg_root_total (a : Nat) (root : pnode) (sec : Option cstring)
    (h1 : root.node ≠ NODE_PUBDATE) (h2 : root.node ≠ NODE_DATE) :
    ∃ r, reorg_root a root sec = some r := by
  cases h : reorg_root a root sec with
  | some r => exact ⟨r, rfl⟩
  | none =>
    rcases (reorg_root_none_iff a root sec).1 h with h | ⟨-, h⟩
    · exact absurd h h1
    · exact absurd h h2

/-- The function `ptree_reorg` returns for every tree whose root is not
itself a PUBDATE or DATE node. -/
theorem ptree_reorg_total (a : Nat) (tree : ptree) (sec : Option cstring)
    (h : ∀ root, tree.root = some root → root.node ≠ NODE_PUBDATE ∧ root.node ≠ NODE_DATE) :
    ∃ r, ptree_reorg a tree sec = some r := by
  unfold ptree_reorg
  cases hr : tree.root with
  | none => exact ⟨_, rfl⟩
  | some root =>
    obtain ⟨r1, h1⟩ := reorg_root_total a root sec (h root hr).1 (h root hr).2
    obtain ⟨r2, h2⟩ := reorg_recurse_total r1.1.weight r1.2 r1.1 (Nat.le_refl _)
    simp only [h1, h2]
    exact ⟨_, rfl⟩

theorem ptree_reorg_some {a : Nat} {tree : ptree} {sec : Option cstring} {r : ptree × Nat}
    {root' : pnode} (h : ptree_reorg a tree sec = some r) (hr : r.1.root = some root') :
    ∃ root r1 a2, tree.root = some root ∧ reorg_root a root sec = some r1 ∧
      reorg_recurse r1.1.weight r1.2 r1.1 = some (root', a2) := by
  unfold ptree_reorg at h
  cases ht : tree.root with
  | none =>
    rw [ht] at h; simp only [Option.some.injEq] at h
    rw [← h] at hr; simp only at hr
    rw [ht] at hr; cases hr
  | some root =>
    rw [ht] at h; simp only at h
    cases h1 : reorg_root a root sec with
    | none => rw [h1] at h; simp at h
    | some r1 =>
      rw [h1] at h; simp only at h
      cases h2 : reorg_recurse r1.1.weight r1.2 r1.1 with
      | none => rw [h2] at h; simp at h
      | some r2 =>
        rw [h2] at h; simp only [Option.some.injEq] at h
        rw [← h] at hr; simp only [Option.some.injEq] at hr
        exact ⟨root, r1, r2.2, rfl, h1, by rw [← hr]; exact h2⟩


/-! ## Claims about the reorganizer -/

theorem reorg_switch_titled (a : Nat) (n : pnode) (k : nodeid) (title : cstring)
    (hmem : (k, title) ∈ default_titles) (hk : n.node = k) (hp : n.parent ≠ none) :
    reorg_switch a n =
      ((default_title a n title).1.setNode (reorg_kind k), (default_title a n title).2) := by
  have hp' : n.parent.isNone = false := by
    cases h : n.parent with
    | none => exact absurd h hp
    | some p => rfl
  have hn := (default_title_spec a n title).2.1
  simp only [default_titles, List.map, List.mem_cons, Prod.mk.injEq, List.mem_nil_iff,
    or_false] at hmem
  rcases hmem with h | h | h | h | h | h | h | h | h | h <;> obtain ⟨rfl, rfl⟩ := h
  all_goals
    unfold reorg_switch
    simp only [hk, hp', reorg_kind, Bool.false_eq_true, if_false]
  all_goals
    try (rw [← hn, ← pnode.setNode_eq, pnode.setNode_eq]; simp only [pnode.eta])
  all_goals
    try (rw [← hk, ← hn]; simp only [pnode.setNode_eq, pnode.eta])

theorem reorg_recurse_title {fuel a p : Nat} {title : cstring} {t' : pnode} {a' : Nat}
    (h : reorg_recurse fuel a (reorg_synth p NODE_TITLE n title) = some (t', a')) :
    t' = reorg_synth p NODE_TITLE n title := by
  match fuel with
  | 0 => simp [reorg_recurse] at h
  | 1 =>
    simp [reorg_recurse, reorg_switch, reorg_synth, pnode_alloc, pnode_alloc_text, reorg_queue]
      at h
  | fuel + 2 =>
    simp [reorg_recurse, reorg_switch, reorg_synth, pnode_alloc, pnode_alloc_text, reorg_queue]
      at h
    simp [reorg_synth, pnode_alloc, pnode_alloc_text, ← h.1]


theorem default_title_none (a : Nat) (n : pnode) (title : cstring) (hp : n.parent ≠ none)
    (ht : ∀ c ∈ n.childq, c.node ≠ NODE_TITLE) :
    default_title a n title = (n.insertHead (reorg_synth a NODE_TITLE n.addr title), a + 2) := by
  unfold default_title
  have hp' : n.parent.isNone = false := by
    cases h : n.parent with
    | none => exact absurd h hp
    | some p => rfl
  have hany : (n.childq.any fun nc => nc.node == NODE_TITLE) = false := by
    rw [List.any_eq_false]
    intro c hc
    simpa using ht c hc
  simp only [hp', hany, Bool.false_eq_true, if_false]

theorem default_title_some (a : Nat) (n : pnode) (title : cstring)
    (ht : ∃ c ∈ n.childq, c.node = NODE_TITLE) : default_title a n title = (n, a) := by
  unfold default_title
  have hany : (n.childq.any fun nc => nc.node == NODE_TITLE) = true := by
    rw [List.any_eq_true]
    obtain ⟨c, hc, hk⟩ := ht
    exact ⟨c, hc, by simpa using hk⟩
  simp only [hany, if_true, ite_self]

theorem default_titles_has (k : nodeid)
    (h : reorg_kind k = NODE_SECTION ∨ reorg_kind k = NODE_SIMPLESECT ∨
      reorg_kind k = NODE_APPENDIX ∨ reorg_kind k = NODE_NOTE) :
    ∃ title, (k, title) ∈ default_titles := by
  cases k
  all_goals first
    | (exfalso; simp [reorg_kind] at h; done)
    | exact ⟨"Caution".toList, by decide⟩
    | exact ⟨"Tip".toList, by decide⟩
    | exact ⟨"Warning".toList, by decide⟩
    | exact ⟨"Legal Notice".toList, by decide⟩
    | exact ⟨"Abstract".toList, by decide⟩
    | exact ⟨"Preface".toList, by decide⟩
    | exact ⟨"Appendix".toList, by decide⟩
    | exact ⟨"Note".toList, by decide⟩
    | exact ⟨"Untitled".toList, by decide⟩

/-- After the switch of `reorg_recurse`, a node that is not the root and whose
kind is SECTION, SIMPLESECT, APPENDIX or NOTE has a TITLE child. -/
theorem reorg_switch_has_title (a : Nat) (n : pnode) (hp : n.parent ≠ none)
    (hk : (reorg_switch a n).1.node = NODE_SECTION ∨
      (reorg_switch a n).1.node = NODE_SIMPLESECT ∨
      (reorg_switch a n).1.node = NODE_APPENDIX ∨ (reorg_switch a n).1.node = NODE_NOTE) :
    ∃ t ∈ (reorg_switch a n).1.childq, t.node = NODE_TITLE := by
  have key : ∀ title, (n.node, title) ∈ default_titles →
      ∃ t ∈ (reorg_switch a n).1.childq, t.node = NODE_TITLE := by
    intro title hmem
    rw [reorg_switch_titled a n n.node title hmem rfl hp]
    simp only [pnode.setNode_eq, pnode.childq_mk]
    by_cases ht : ∃ c ∈ n.childq, c.node = NODE_TITLE
    · rw [default_title_some a n title ht]; exact ht
    · rw [default_title_none a n title hp (by
        intro c hc hkc; exact ht ⟨c, hc, hkc⟩)]
      simp only [pnode.insertHead_eq, pnode.childq_mk]
      exact ⟨_, List.mem_cons_self _ _, by simp [reorg_synth, pnode_alloc]⟩
  rw [reorg_switch_node] at hk
  obtain ⟨title, hmem⟩ := default_titles_has n.node hk
  exact key title hmem

/-- C6: a node that is not the root, has one of the ten kinds with a default
title and has no TITLE among its children receives from `reorg_recurse`, as its
first child, a TITLE node whose only child is the text of the default title;
the other children are those the recursion makes of the old ones.  A node that
already has a TITLE child receives no further child.  Consequently every
node of a reorganized tree that is not the root and is a SECTION, SIMPLESECT,
APPENDIX or NOTE has a TITLE child. -/
theorem reorg_recurse_default_title :
    (∀ (fuel a : Nat) (n n' : pnode) (a' : Nat) (k : nodeid) (title : cstring),
      (k, title) ∈ default_titles → n.node = k → n.parent ≠ none →
      (∀ c ∈ n.childq, c.node ≠ NODE_TITLE) →
      reorg_recurse fuel a n = some (n', a') →
      ∃ rest, n'.childq =
          pnode.mk a NODE_TITLE none (some n.addr) ⟨false, false⟩ []
            [pnode.mk (a + 1) NODE_TEXT (some title) (some a) ⟨false, false⟩ [] []] :: rest ∧
        List.Forall₂ (fun c c' => ∃ a1 a2, reorg_recurse (fuel - 1) a1 c = some (c', a2))
          n.childq rest) ∧
    (∀ (fuel a : Nat) (n n' : pnode) (a' : Nat) (k : nodeid) (title : cstring),
      (k, title) ∈ default_titles → n.node = k → n.parent ≠ none →
      (∃ c ∈ n.childq, c.node = NODE_TITLE) →
      reorg_recurse fuel a n = some (n', a') →
      List.Forall₂ (fun c c' => ∃ a1 a2, reorg_recurse (fuel - 1) a1 c = some (c', a2))
        n.childq n'.childq) ∧
    (∀ (a : Nat) (tree : ptree) (sec : Option cstring) (r : ptree × Nat) (root' : pnode),
      ptree_reorg a tree sec = some r → r.1.root = some root' →
      ∀ m ∈ root'.nodes, m.parent ≠ none →
        m.node = NODE_SECTION ∨ m.node = NODE_SIMPLESECT ∨ m.node = NODE_APPENDIX ∨
          m.node = NODE_NOTE →
        ∃ t ∈ m.childq, t.node = NODE_TITLE) := by
  refine ⟨?_, ?_, ?_⟩
  · intro fuel a n n' a' k title hmem hk hp ht h
    cases fuel with
    | zero => simp [reorg_recurse] at h
    | succ fuel =>
      obtain ⟨cs', rfl, hall⟩ := reorg_recurse_shape h
      rw [reorg_switch_titled a n k title hmem hk hp, default_title_none a n title hp ht] at hall ⊢
      simp only [pnode.setNode_eq, pnode.insertHead_eq, pnode.childq_mk, pnode.setChildq_eq]
        at hall ⊢
      cases hall with
      | cons h1 h2 =>
        obtain ⟨a1, a2, h1⟩ := h1
        rw [reorg_recurse_title h1]
        exact ⟨_, by simp [reorg_synth, pnode_alloc, pnode_alloc_text], h2⟩
  · intro fuel a n n' a' k title hmem hk hp ht h
    cases fuel with
    | zero => simp [reorg_recurse] at h
    | succ fuel =>
      obtain ⟨cs', rfl, hall⟩ := reorg_recurse_shape h
      rw [reorg_switch_titled a n k title hmem hk hp, default_title_some a n title ht] at hall ⊢
      simpa using hall
  · intro a tree sec r root' h hr
    obtain ⟨root, r1, a2, -, -, h2⟩ := ptree_reorg_some h hr
    refine reorg_recurse_nodes _ ?_ _ _ _ _ _ h2
    intro a n cs' hall hp hk
    simp only [pnode.setChildq_eq, pnode.node_mk, pnode.parent_mk, pnode.childq_mk] at hp hk ⊢
    rw [(reorg_switch_spec a n).2.1] at hp
    obtain ⟨t, ht, htk⟩ := reorg_switch_has_title a n hp hk
    obtain ⟨t', ht', hk'⟩ := forall₂_mem_left hall ht
    exact ⟨t', ht', by rw [hk', htk]; rfl⟩

/-- A node of kind CAUTION without a title becomes a NOTE whose first child is
the TITLE "Caution"; a SECTION that has a title keeps its children. -/
theorem reorg_recurse_default_title_witness :
    (∃ rest, (pnode.mk 7 NODE_NOTE none (some 1) ⟨false, true⟩ []
        [pnode.mk 20 NODE_TITLE none (some 7) ⟨false, false⟩ []
          [pnode.mk 21 NODE_TEXT (some "Caution".toList) (some 20) ⟨false, false⟩ [] []]]).childq =
        pnode.mk 20 NODE_TITLE none (some 7) ⟨false, false⟩ []
          [pnode.mk 21 NODE_TEXT (some "Caution".toList) (some 20) ⟨false, false⟩ [] []] :: rest ∧
      List.Forall₂ (fun c c' => ∃ a1 a2, reorg_recurse (3 - 1) a1 c = some (c', a2))
        (pnode.mk 7 NODE_CAUTION none (some 1) ⟨false, true⟩ [] []).childq rest) :=
  reorg_recurse_default_title.1 3 20 (pnode.mk 7 NODE_CAUTION none (some 1) ⟨false, true⟩ [] [])
    _ 22 NODE_CAUTION "Caution".toList (by decide) rfl (by simp) (by simp) (by rfl)


/-! ## The place of the AUTHORS section -/

theorem strcasecmp_eq_trans {b x y : cstring} (h1 : strcasecmp_eq b x = true)
    (h2 : strcasecmp_eq b y = true) : strcasecmp_eq x y = true := by
  simp only [strcasecmp_eq, beq_iff_eq] at *
  rw [← h1, ← h2]

theorem strcasecmp_any_disjoint (l1 l2 : List cstring)
    (h : ∀ x ∈ l1, ∀ y ∈ l2, strcasecmp_eq x y = false) (b : cstring)
    (h1 : l1.any (fun s => strcasecmp_eq b s) = true)
    (h2 : l2.any (fun s => strcasecmp_eq b s) = true) : False := by
  rw [List.any_eq_true] at h1 h2
  obtain ⟨x, hx, hbx⟩ := h1
  obtain ⟨y, hy, hby⟩ := h2
  have := strcasecmp_eq_trans hbx hby
  rw [h x hx y hy] at this
  cases this

theorem reorg_titled_disjoint (l1 l2 : List cstring)
    (h : ∀ x ∈ l1, ∀ y ∈ l2, strcasecmp_eq x y = false) (nc : pnode)
    (h1 : reorg_titled l1 nc = true) : reorg_titled l2 nc = false := by
  unfold reorg_titled at *
  cases ht : reorg_title nc with
  | none => rfl
  | some b =>
    rw [ht] at h1
    simp only at h1 ⊢
    cases h2 : l2.any (fun s => strcasecmp_eq b s) with
    | false => rfl
    | true => exact (strcasecmp_any_disjoint l1 l2 h b h1 h2).elim

theorem reorg_names_disjoint :
    (∀ x ∈ reorg_names_authors, ∀ y ∈ reorg_names_standard, strcasecmp_eq x y = false) ∧
    (∀ x ∈ reorg_names_authors, ∀ y ∈ reorg_names_later, strcasecmp_eq x y = false) ∧
    (∀ x ∈ reorg_names_standard, ∀ y ∈ reorg_names_later, strcasecmp_eq x y = false) := by
  decide

/-- The loop body of `reorg_refentry` in terms of the three classes of
children. -/
theorem reorg_scan_step_eq (nc : pnode) (i : Nat) (st : Option Nat × Option Nat) :
    reorg_scan_step nc i st =
      if reorg_is_standard nc then (st.1, none)
      else if reorg_is_later nc then (st.1, if st.2.isNone then some i else st.2)
      else if reorg_is_authors nc then (some i, st.2)
      else st := by
  obtain ⟨d1, d2, d3⟩ := reorg_names_disjoint
  have e1 := reorg_titled_disjoint _ _ d1 nc
  have e2 := reorg_titled_disjoint _ _ d2 nc
  have e3 := reorg_titled_disjoint _ _ d3 nc
  unfold reorg_scan_step reorg_is_standard reorg_is_later reorg_is_authors
  unfold reorg_titled at *
  cases ht : reorg_title nc with
  | none =>
    by_cases k1 : nc.node = NODE_REFENTRY <;> by_cases k2 : nc.node = NODE_REFNAMEDIV <;>
    by_cases k3 : nc.node = NODE_REFSYNOPSISDIV <;> by_cases k4 : nc.node = NODE_APPENDIX <;>
    by_cases k5 : nc.node = NODE_INDEX <;> simp [k1, k2, k3, k4, k5]
  | some b =>
    rw [ht] at e1 e2 e3
    simp only at e1 e2 e3 ⊢
    by_cases hA : (reorg_names_authors.any fun s => strcasecmp_eq b s) = true <;>
    by_cases hS : (reorg_names_standard.any fun s => strcasecmp_eq b s) = true <;>
    by_cases hC : (reorg_names_later.any fun s => strcasecmp_eq b s) = true <;>
    simp only [hA, hS, hC, true_implies, Bool.true_eq_false, Bool.false_eq_true,
      false_implies] at e1 e2 e3 <;>
    simp only [Bool.not_eq_true] at hA hS hC <;>
    by_cases k1 : nc.node = NODE_REFENTRY <;> by_cases k2 : nc.node = NODE_REFNAMEDIV <;>
    by_cases k3 : nc.node = NODE_REFSYNOPSISDIV <;> by_cases k4 : nc.node = NODE_APPENDIX <;>
    by_cases k5 : nc.node = NODE_INDEX <;>
    simp [k1, k2, k3, k4, k5, hA, hS, hC, -List.any_eq_true, -List.any_eq_false] <;>
    obtain ⟨s1, s2⟩ := st <;> cases s2 <;> simp


theorem reorg_classes_exclusive (c : pnode) :
    (reorg_is_standard c = true → reorg_is_later c = false) ∧
    (reorg_is_authors c = true → reorg_is_standard c = false ∧ reorg_is_later c = false) := by
  obtain ⟨d1, d2, d3⟩ := reorg_names_disjoint
  have e1 := reorg_titled_disjoint _ _ d1 c
  have e2 := reorg_titled_disjoint _ _ d2 c
  have e3 := reorg_titled_disjoint _ _ d3 c
  unfold reorg_is_standard reorg_is_later reorg_is_authors
  by_cases hA : reorg_titled reorg_names_authors c = true <;>
  by_cases hS : reorg_titled reorg_names_standard c = true <;>
  by_cases hC : reorg_titled reorg_names_later c = true <;>
  simp only [hA, hS, hC, true_implies, Bool.true_eq_false, Bool.false_eq_true,
    false_implies] at e1 e2 e3 <;>
  simp only [Bool.not_eq_true] at hA hS hC <;>
  by_cases k1 : c.node = NODE_REFENTRY <;> by_cases k2 : c.node = NODE_REFNAMEDIV <;>
  by_cases k3 : c.node = NODE_REFSYNOPSISDIV <;> by_cases k4 : c.node = NODE_APPENDIX <;>
  by_cases k5 : c.node = NODE_INDEX <;>
  simp_all

theorem reorg_scan_append (l1 l2 : List pnode) (i : Nat) (st : Option Nat × Option Nat) :
    reorg_scan (l1 ++ l2) i st = reorg_scan l2 (i + l1.length) (reorg_scan l1 i st) := by
  induction l1 generalizing i st with
  | nil => simp [reorg_scan]
  | cons c l1 ih =>
    have h := ih (i + 1) (reorg_scan_step c i st)
    have e : i + 1 + l1.length = i + (l1.length + 1) := by omega
    rw [e] at h
    simpa only [List.cons_append, reorg_scan, List.length_cons] using h

theorem reorg_scan_concat (cs : List pnode) (c : pnode) (st : Option Nat × Option Nat) :
    reorg_scan (cs ++ [c]) 0 st = reorg_scan_step c cs.length (reorg_scan cs 0 st) := by
  rw [reorg_scan_append]; simp [reorg_scan]

theorem concat_eq_append_cons {α : Type} {cs l1 l2 : List α} {c x : α}
    (h : cs ++ [c] = l1 ++ x :: l2) :
    (l2 = [] ∧ cs = l1 ∧ c = x) ∨ ∃ l2', l2 = l2' ++ [c] ∧ cs = l1 ++ x :: l2' := by
  rcases List.eq_nil_or_concat l2 with rfl | ⟨l2', y, rfl⟩
  · have := List.append_inj' h rfl
    exact Or.inl ⟨rfl, this.1, by simpa using this.2⟩
  · right
    have h' : cs ++ [c] = (l1 ++ x :: l2') ++ [y] := by simpa using h
    have := List.append_inj' h' rfl
    refine ⟨l2', ?_, this.1⟩
    have hc : c = y := by simpa using this.2
    rw [hc]; simp

/-- What the loop of `reorg_refentry` leaves in `later`: the position of the
first child before which the section belongs among the children that follow
the last standard one. -/
theorem reorg_scan_later (cs : List pnode) :
    match (reorg_scan cs 0 (none, none)).2 with
    | none => ∀ l1 x l2, cs = l1 ++ x :: l2 → reorg_is_later x = true →
        ∃ s ∈ l2, reorg_is_standard s = true
    | some j => ∃ p1 x t, cs = p1 ++ x :: t ∧ p1.length = j ∧ reorg_is_later x = true ∧
        (∀ s ∈ x :: t, reorg_is_standard s = false) ∧
        ∀ l1 y l2, p1 = l1 ++ y :: l2 → reorg_is_later y = true →
          ∃ s ∈ l2, reorg_is_standard s = true := by
  induction cs using List.reverseRecOn with
  | nil =>
    simp only [reorg_scan]
    intro l1 x l2 h
    simp at h
  | append_singleton cs c ih =>
    rw [reorg_scan_concat, reorg_scan_step_eq]
    obtain ⟨ex1, -⟩ := reorg_classes_exclusive c
    by_cases hs : reorg_is_standard c = true
    · simp only [hs, if_true]
      intro l1 x l2 h hx
      rcases concat_eq_append_cons h with ⟨-, -, rfl⟩ | ⟨l2', rfl, -⟩
      · rw [ex1 hs] at hx; cases hx
      · exact ⟨c, by simp, hs⟩
    · have hs' : reorg_is_standard c = false := by simpa using hs
      simp only [hs', Bool.false_eq_true, if_false]
      have hkeep : ∀ st1 : Option Nat, (match (reorg_scan cs 0 (none, none)).2 with
          | none => reorg_is_later c = false
          | some _ => True) →
          match (st1, (reorg_scan cs 0 (none, none)).2).2 with
          | none => ∀ l1 x l2, cs ++ [c] = l1 ++ x :: l2 → reorg_is_later x = true →
              ∃ s ∈ l2, reorg_is_standard s = true
          | some j => ∃ p1 x t, cs ++ [c] = p1 ++ x :: t ∧ p1.length = j ∧
              reorg_is_later x = true ∧ (∀ s ∈ x :: t, reorg_is_standard s = false) ∧
              ∀ l1 y l2, p1 = l1 ++ y :: l2 → reorg_is_later y = true →
                ∃ s ∈ l2, reorg_is_standard s = true := by
        intro st1 hl
        cases hold : (reorg_scan cs 0 (none, none)).2 with
        | none =>
          rw [hold] at ih hl
          simp only at ih hl ⊢
          intro l1 x l2 h hx
          rcases concat_eq_append_cons h with ⟨-, -, rfl⟩ | ⟨l2', rfl, hcs⟩
          · rw [hl] at hx; cases hx
          · obtain ⟨s, hs1, hs2⟩ := ih l1 x l2' hcs hx
            exact ⟨s, by simp [hs1], hs2⟩
        | some j =>
          rw [hold] at ih
          simp only at ih ⊢
          obtain ⟨p1, x, t, hcs, hlen, hx, hstd, hp1⟩ := ih
          refine ⟨p1, x, t ++ [c], by simp [hcs], hlen, hx, ?_, hp1⟩
          intro s hs1
          simp only [List.mem_cons, List.mem_append, List.mem_singleton, List.mem_nil_iff,
            or_false] at hs1
          rcases hs1 with rfl | hs1 | rfl
          · exact hstd _ (by simp)
          · exact hstd _ (by simp [hs1])
          · exact hs'
      by_cases hl : reorg_is_later c = true
      · simp only [hl, if_true]
        cases hold : (reorg_scan cs 0 (none, none)).2 with
        | none =>
          rw [hold] at ih
          simp only [Option.isNone_none, if_true]
          exact ⟨cs, c, [], rfl, rfl, hl, by simpa using hs', ih⟩
        | some j =>
          have := hkeep (reorg_scan cs 0 (none, none)).1 (by rw [hold]; trivial)
          rw [hold] at this
          simpa using this
      · have hl' : reorg_is_later c = false := by simpa using hl
        simp only [hl', Bool.false_eq_true, if_false]
        by_cases ha : reorg_is_authors c = true
        · simp only [ha, if_true]
          exact hkeep (some cs.length) (by cases (reorg_scan cs 0 (none, none)).2 <;> simp [hl'])
        · simp only [ha, if_false]
          exact hkeep (reorg_scan cs 0 (none, none)).1
            (by cases (reorg_scan cs 0 (none, none)).2 <;> simp [hl'])

/-- What the loop of `reorg_refentry` leaves in `match`: the position of the
last child that serves as the AUTHORS section. -/
theorem reorg_scan_match (cs : List pnode) :
    match (reorg_scan cs 0 (none, none)).1 with
    | none => ∀ c ∈ cs, reorg_is_authors c = false
    | some j => ∃ p1 m t, cs = p1 ++ m :: t ∧ p1.length = j ∧ reorg_is_authors m = true ∧
        ∀ c ∈ t, reorg_is_authors c = false := by
  induction cs using List.reverseRecOn with
  | nil => simp [reorg_scan]
  | append_singleton cs c ih =>
    rw [reorg_scan_concat, reorg_scan_step_eq]
    obtain ⟨-, ex2⟩ := reorg_classes_exclusive c
    by_cases ha : reorg_is_authors c = true
    · obtain ⟨h1, h2⟩ := ex2 ha
      simp only [h1, h2, ha, Bool.false_eq_true, if_false, if_true]
      exact ⟨cs, c, [], rfl, rfl, ha, by simp⟩
    · have ha' : reorg_is_authors c = false := by simpa using ha
      have hfst : (if reorg_is_standard c = true then ((reorg_scan cs 0 (none, none)).1, none)
          else if reorg_is_later c = true then
            ((reorg_scan cs 0 (none, none)).1,
              if (reorg_scan cs 0 (none, none)).2.isNone = true then some cs.length
              else (reorg_scan cs 0 (none, none)).2)
          else if reorg_is_authors c = true then (some cs.length, (reorg_scan cs 0 (none, none)).2)
          else reorg_scan cs 0 (none, none)).1 = (reorg_scan cs 0 (none, none)).1 := by
        split
        · rfl
        · split
          · rfl
          · simp [ha']
      rw [hfst]
      cases hold : (reorg_scan cs 0 (none, none)).1 with
      | none =>
        rw [hold] at ih
        simp only at ih ⊢
        intro c' hc'
        rcases List.mem_append.1 hc' with h | h
        · exact ih c' h
        · rw [List.mem_singleton.1 h]; exact ha'
      | some j =>
        rw [hold] at ih
        simp only at ih ⊢
        obtain ⟨p1, m, t, hcs, hlen, hm, ht⟩ := ih
        refine ⟨p1, m, t ++ [c], by simp [hcs], hlen, hm, ?_⟩
        intro c' hc'
        rcases List.mem_append.1 hc' with h | h
        · exact ht c' h
        · rw [List.mem_singleton.1 h]; exact ha'


theorem list_modify_append_cons {α : Type} (f : α → α) (p1 : List α) (m : α) (t : List α) :
    (p1 ++ m :: t).modify f p1.length = p1 ++ f m :: t := by
  induction p1 with
  | nil => simp [List.modify]
  | cons x p1 ih => simpa [List.modify] using ih

theorem list_take_drop_append_cons {α : Type} (p1 : List α) (x : α) (t : List α) :
    (p1 ++ x :: t).take p1.length = p1 ∧ (p1 ++ x :: t).drop p1.length = x :: t := by
  constructor
  · simp
  · simp

/-- The two cases of the second part of `reorg_refentry`. -/
theorem reorg_place_shape (a : Nat) (n : pnode) (stuff : List pnode) :
    ((∀ c ∈ n.childq, reorg_is_authors c = false) →
      ∃ pre post, n.childq = pre ++ post ∧
        reorg_place a n stuff =
          (n.setChildq (pre ++ pnode.mk a NODE_SECTION none (some n.addr) ⟨false, true⟩ []
            (pnode.mk (a + 1) NODE_TITLE none (some a) ⟨false, true⟩ []
                [pnode.mk (a + 2) NODE_TEXT (some "AUTHORS".toList) (some (a + 1))
                  ⟨false, true⟩ [] []] :: stuff) :: post), a + 3) ∧
        (∀ s ∈ post, reorg_is_standard s = false) ∧
        (∀ x t, post = x :: t → reorg_is_later x = true) ∧
        ∀ l1 y l2, pre = l1 ++ y :: l2 → reorg_is_later y = true →
          ∃ s ∈ l2, reorg_is_standard s = true) ∧
    ((∃ c ∈ n.childq, reorg_is_authors c = true) →
      ∃ pre m post, n.childq = pre ++ m :: post ∧
        reorg_is_authors m = true ∧ (∀ c ∈ post, reorg_is_authors c = false) ∧
        reorg_place a n stuff =
          (n.setChildq (pre ++ m.setChildq (m.childq ++ stuff) :: post), a)) := by
  have hM := reorg_scan_match n.childq
  have hL := reorg_scan_later n.childq
  unfold reorg_place
  simp only
  constructor
  · intro hno
    cases hm : (reorg_scan n.childq 0 (none, none)).1 with
    | some j =>
      rw [hm] at hM
      obtain ⟨p1, m, t, hcs, -, hma, -⟩ := hM
      have := hno m (by rw [hcs]; simp)
      rw [hma] at this; cases this
    | none =>
      simp only
      cases hl : (reorg_scan n.childq 0 (none, none)).2 with
      | none =>
        rw [hl] at hL
        refine ⟨n.childq, [], by simp, ?_, by simp, by simp, hL⟩
        simp [reorg_authors]
      | some j =>
        rw [hl] at hL
        obtain ⟨p1, x, t, hcs, hlen, hx, hstd, hp1⟩ := hL
        refine ⟨p1, x :: t, hcs, ?_, hstd, ?_, hp1⟩
        · obtain ⟨h1, h2⟩ := list_take_drop_append_cons p1 x t
          simp only [pnode.setChildq_eq, pnode.childq_mk, hcs, ← hlen, h1, h2]
          simp [reorg_authors]
        · intro x' t' h
          simp only [List.cons.injEq] at h
          rw [← h.1]; exact hx
  · rintro ⟨c, hc, hca⟩
    cases hm : (reorg_scan n.childq 0 (none, none)).1 with
    | none =>
      rw [hm] at hM
      have := hM c hc
      rw [hca] at this; cases this
    | some j =>
      rw [hm] at hM
      obtain ⟨p1, m, t, hcs, hlen, hma, ht⟩ := hM
      refine ⟨p1, m, t, hcs, hma, ht, ?_⟩
      simp only [pnode.setChildq_eq, pnode.childq_mk, Prod.mk.injEq, pnode.mk.injEq, true_and,
        and_true]
      rw [← hlen]
      conv => lhs; rw [hcs]
      exact list_modify_append_cons _ p1 m t

/-- The claim of C7 fails as it is stated.  In `ex_author` a block is left
over and no child is titled AUTHORS, yet no section is created: the child
titled "Author" receives the block.  In `ex_book` the section is put at the end
of the children, behind the REFENTRY, and not before the APPENDIX. -/
theorem reorg_refentry_authors_counterexample :
    ((reorg_collect ex_author).2.1.isSome = true ∧
      (∀ c ∈ (reorg_collect ex_author).2.2.childq,
        reorg_titled ["AUTHORS".toList] c = false) ∧
      (reorg_refentry 100 ex_author).2 = 100 ∧
      (reorg_refentry 100 ex_author).1.childq.map reorg_title = [some "Author".toList]) ∧
    ((reorg_collect ex_book).1.isSome = true ∧
      (reorg_collect ex_book).2.2.childq.map pnode.node = [NODE_APPENDIX, NODE_REFENTRY] ∧
      (reorg_refentry 100 ex_book).1.childq.map pnode.node =
        [NODE_APPENDIX, NODE_REFENTRY, NODE_SECTION] ∧
      (reorg_refentry 100 ex_book).1.childq.map reorg_title =
        [none, none, some "AUTHORS".toList]) := by
  decide

/-- C7, amended: when `reorg_refentry` has collected a left-over info or meta
block and no remaining child serves as the AUTHORS section (a child titled
AUTHORS or AUTHOR, other than a REFENTRY, REFNAMEDIV, REFSYNOPSISDIV, APPENDIX
or INDEX), it creates a SECTION whose children are a TITLE with the text
"AUTHORS" and the blocks, and inserts it behind the last standard child (a
REFENTRY, REFNAMEDIV or REFSYNOPSISDIV, or a child titled with a standard
name), immediately before the first APPENDIX, INDEX or child titled CAVEATS or
BUGS that follows it, or at the end if there is none.  When a child serves as
the AUTHORS section, nothing is allocated and the blocks become the last
children of the last such child. -/
theorem reorg_refentry_authors (a : Nat) (n : pnode)
    (hleft : (reorg_collect n).1.isSome = true ∨ (reorg_collect n).2.1.isSome = true) :
    ((∀ c ∈ (reorg_collect n).2.2.childq, reorg_is_authors c = false) →
      ∃ pre post, (reorg_collect n).2.2.childq = pre ++ post ∧
        (reorg_refentry a n).1.childq =
          pre ++ pnode.mk a NODE_SECTION none (some (reorg_collect n).2.2.addr) ⟨false, true⟩ []
            (pnode.mk (a + 1) NODE_TITLE none (some a) ⟨false, true⟩ []
                [pnode.mk (a + 2) NODE_TEXT (some "AUTHORS".toList) (some (a + 1))
                  ⟨false, true⟩ [] []] ::
              ((reorg_collect n).1.toList ++ (reorg_collect n).2.1.toList)) :: post ∧
        (∀ s ∈ post, reorg_is_standard s = false) ∧
        (∀ x t, post = x :: t → reorg_is_later x = true) ∧
        ∀ l1 y l2, pre = l1 ++ y :: l2 → reorg_is_later y = true →
          ∃ s ∈ l2, reorg_is_standard s = true) ∧
    ((∃ c ∈ (reorg_collect n).2.2.childq, reorg_is_authors c = true) →
      ∃ pre m post, (reorg_collect n).2.2.childq = pre ++ m :: post ∧
        reorg_is_authors m = true ∧ (∀ c ∈ post, reorg_is_authors c = false) ∧
        (reorg_refentry a n).1.childq =
          pre ++ m.setChildq (m.childq ++
            ((reorg_collect n).1.toList ++ (reorg_collect n).2.1.toList)) :: post ∧
        (reorg_refentry a n).2 = a) := by
  have hne : ¬((reorg_collect n).1.isNone = true ∧ (reorg_collect n).2.1.isNone = true) := by
    rintro ⟨h1, h2⟩
    rcases hleft with h | h
    · cases hc : (reorg_collect n).1 <;> simp [hc] at h h1
    · cases hc : (reorg_collect n).2.1 <;> simp [hc] at h h2
  obtain ⟨hA, hB⟩ := reorg_place_shape a (reorg_collect n).2.2
    ((reorg_collect n).1.toList ++ (reorg_collect n).2.1.toList)
  unfold reorg_refentry
  simp only [hne, if_false]
  constructor
  · intro hno
    obtain ⟨pre, post, h1, h2, h3, h4, h5⟩ := hA hno
    exact ⟨pre, post, h1, by rw [h2]; simp, h3, h4, h5⟩
  · intro hex
    obtain ⟨pre, m, post, h1, h2, h3, h4⟩ := hB hex
    exact ⟨pre, m, post, h1, h2, h3, by rw [h4]; simp, by rw [h4]⟩

/-- In `ex_bugs` the REFMETA is left over and the new section goes between
the DESCRIPTION and the BUGS section. -/
theorem reorg_refentry_authors_witness :
    (reorg_refentry 100 ex_bugs).1.childq.map reorg_title =
      [some "Description".toList, some "AUTHORS".toList, some "Bugs".toList] ∧
    ∃ pre post, (reorg_collect ex_bugs).2.2.childq = pre ++ post ∧
      (reorg_refentry 100 ex_bugs).1.childq =
        pre ++ pnode.mk 100 NODE_SECTION none (some (reorg_collect ex_bugs).2.2.addr)
          ⟨false, true⟩ []
          (pnode.mk (100 + 1) NODE_TITLE none (some 100) ⟨false, true⟩ []
              [pnode.mk (100 + 2) NODE_TEXT (some "AUTHORS".toList) (some (100 + 1))
                ⟨false, true⟩ [] []] ::
            ((reorg_collect ex_bugs).1.toList ++ (reorg_collect ex_bugs).2.1.toList)) :: post ∧
      (∀ s ∈ post, reorg_is_standard s = false) ∧
      (∀ x t, post = x :: t → reorg_is_later x = true) ∧
      ∀ l1 y l2, pre = l1 ++ y :: l2 → reorg_is_later y = true →
        ∃ s ∈ l2, reorg_is_standard s = true :=
  ⟨by decide, (reorg_refentry_authors 100 ex_bugs (Or.inr (by decide))).1 (by decide)⟩

/-! ## Searching and the nodes of a tree -/

theorem pnode.mem_nodes_of_child {n c m : pnode} (hc : c ∈ n.childq) (hm : m ∈ c.nodes) :
    m ∈ n.nodes := by
  rw [pnode.nodes_eq]
  exact List.mem_cons_of_mem _ (pnode.mem_nodes_queue.2 ⟨c, hc, hm⟩)

theorem pnode.mem_nodes_trans {n m x : pnode} (hm : m ∈ n.nodes) (hx : x ∈ m.nodes) :
    x ∈ n.nodes := by
  induction n using pnode.induct with
  | h n ih =>
    rw [pnode.nodes_eq] at hm
    rcases List.mem_cons.1 hm with rfl | hm
    · exact hx
    · obtain ⟨c, hc, hmc⟩ := pnode.mem_nodes_queue.1 hm
      exact pnode.mem_nodes_of_child hc (ih c hc hmc)

theorem pnode_findfirst_queue_some (node : nodeid) : ∀ (cs : List pnode) (r : pnode),
    (∀ c ∈ cs, ∀ r, pnode_findfirst node c = some r → r ∈ c.nodes ∧ r.node = node) →
    pnode_findfirst_queue node cs = some r → r ∈ pnode.nodes_queue cs ∧ r.node = node
  | [], r, _, h => by simp [pnode_findfirst_queue] at h
  | c :: cs, r, hc, h => by
    simp only [pnode_findfirst_queue] at h
    cases hf : pnode_findfirst node c with
    | some r' =>
      rw [hf] at h; simp only [Option.some.injEq] at h
      subst h
      obtain ⟨h1, h2⟩ := hc c (List.mem_cons_self _ _) _ hf
      exact ⟨by simp [pnode.nodes_queue, h1], h2⟩
    | none =>
      rw [hf] at h; simp only at h
      obtain ⟨h1, h2⟩ := pnode_findfirst_queue_some node cs r
        (fun c' hc' => hc c' (List.mem_cons_of_mem _ hc')) h
      exact ⟨by simp [pnode.nodes_queue, h1], h2⟩

/-- The node that `pnode_findfirst` returns is a node of the subtree and has
the kind searched. -/
theorem pnode_findfirst_some (node : nodeid) (n : pnode) :
    ∀ r, pnode_findfirst node n = some r → r ∈ n.nodes ∧ r.node = node := by
  induction n using pnode.induct with
  | h n ih =>
    intro r h
    rw [pnode_findfirst_eq] at h
    by_cases hk : n.node = node
    · simp only [hk, if_true, Option.some.injEq] at h
      subst h
      exact ⟨pnode.mem_nodes_self _, hk⟩
    · simp only [hk, if_false] at h
      obtain ⟨h1, h2⟩ := pnode_findfirst_queue_some node n.childq r ih h
      rw [pnode.nodes_eq]
      exact ⟨List.mem_cons_of_mem _ h1, h2⟩

theorem pnode_findfirst_queue_none (node : nodeid) : ∀ (cs : List pnode),
    (∀ c ∈ cs, pnode_findfirst node c = none → ∀ m ∈ c.nodes, m.node ≠ node) →
    pnode_findfirst_queue node cs = none → ∀ m ∈ pnode.nodes_queue cs, m.node ≠ node
  | [], _, _ => by simp [pnode.nodes_queue]
  | c :: cs, hc, h => by
    simp only [pnode_findfirst_queue] at h
    cases hf : pnode_findfirst node c with
    | some r' => rw [hf] at h; simp at h
    | none =>
      rw [hf] at h; simp only at h
      intro m hm
      simp only [pnode.nodes_queue, List.mem_append] at hm
      rcases hm with hm | hm
      · exact hc c (List.mem_cons_self _ _) hf m hm
      · exact pnode_findfirst_queue_none node cs
          (fun c' hc' => hc c' (List.mem_cons_of_mem _ hc')) h m hm

/-- When `pnode_findfirst` returns `NULL`, no node of the subtree has the kind
searched. -/
theorem pnode_findfirst_none (node : nodeid) (n : pnode) :
    pnode_findfirst node n = none → ∀ m ∈ n.nodes, m.node ≠ node := by
  induction n using pnode.induct with
  | h n ih =>
    intro h m hm
    rw [pnode_findfirst_eq] at h
    by_cases hk : n.node = node
    · simp [hk] at h
    · simp only [hk, if_false] at h
      rw [pnode.nodes_eq] at hm
      rcases List.mem_cons.1 hm with rfl | hm
      · exact hk
      · exact pnode_findfirst_queue_none node n.childq ih h m hm

theorem pnode_findfirst_none_of (node : nodeid) (n : pnode)
    (h : ∀ m ∈ n.nodes, m.node ≠ node) : pnode_findfirst node n = none := by
  cases hf : pnode_findfirst node n with
  | none => rfl
  | some r =>
    obtain ⟨h1, h2⟩ := pnode_findfirst_some node n r hf
    exact absurd h2 (h r h1)

theorem pnode_takefirst_fst (n : pnode) (node : nodeid) :
    (pnode_takefirst n node).1 = pnode_findfirst node n := by
  rw [pnode_findfirst_eq]
  unfold pnode_takefirst
  by_cases hk : n.node = node
  · simp [hk]
  · simp only [hk, if_false, pnode_takebelow_eq]
    rw [← pnode_takefirst_queue_find]
    cases pnode_takefirst_queue node n.childq <;> rfl

/-- Every node that is left after `pnode_takefirst` on a queue comes from a
node of the queue of the same kind, and the kinds found below it were found
below that node. -/
theorem pnode_takefirst_queue_nodes (node : nodeid) : ∀ (cs : List pnode) (r : pnode)
    (cs' : List pnode), pnode_takefirst_queue node cs = some (r, cs') →
    ∀ m1 ∈ pnode.nodes_queue cs', ∃ m ∈ pnode.nodes_queue cs, m.node = m1.node ∧
      ∀ x ∈ m1.nodes, ∃ y ∈ m.nodes, y.node = x.node
  | [], r, cs', h => by simp [pnode_takefirst_queue] at h
  | nc :: rest, r, cs', h => by
    have h2 := pnode_takefirst_queue_nodes node rest
    have h1 := pnode_takefirst_queue_nodes node nc.childq
    simp only [pnode_takefirst_queue, pnode_takebelow_eq] at h
    by_cases hk : nc.node = node
    · simp only [hk, if_true, Option.some.injEq, Prod.mk.injEq] at h
      obtain ⟨-, rfl⟩ := h
      intro m1 hm1
      exact ⟨m1, by simp [pnode.nodes_queue, hm1], rfl, fun x hx => ⟨x, hx, rfl⟩⟩
    · simp only [hk, if_false] at h
      cases hb : pnode_takefirst_queue node nc.childq with
      | some x =>
        obtain ⟨r1, c1⟩ := x
        rw [hb] at h
        simp only [Option.map_some', Option.some.injEq, Prod.mk.injEq] at h
        obtain ⟨-, rfl⟩ := h
        intro m1 hm1
        simp only [pnode.nodes_queue, List.mem_append] at hm1
        rcases hm1 with hm1 | hm1
        · rw [pnode.nodes_eq] at hm1
          rcases List.mem_cons.1 hm1 with rfl | hm1
          · refine ⟨nc, by simp [pnode.nodes_queue, pnode.mem_nodes_self], by simp, ?_⟩
            intro x hx
            rw [pnode.nodes_eq] at hx
            rcases List.mem_cons.1 hx with rfl | hx
            · exact ⟨nc, pnode.mem_nodes_self _, by simp⟩
            · simp only [pnode.setChildq_eq, pnode.childq_mk] at hx
              obtain ⟨m, hm, hmk, -⟩ := h1 _ _ hb x hx
              obtain ⟨c, hc, hmc⟩ := pnode.mem_nodes_queue.1 hm
              exact ⟨m, pnode.mem_nodes_of_child hc hmc, hmk⟩
          · simp only [pnode.setChildq_eq, pnode.childq_mk] at hm1
            obtain ⟨m, hm, hmk, hsub⟩ := h1 _ _ hb m1 hm1
            obtain ⟨c, hc, hmc⟩ := pnode.mem_nodes_queue.1 hm
            exact ⟨m, by simp [pnode.nodes_queue, pnode.mem_nodes_of_child hc hmc], hmk, hsub⟩
        · exact ⟨m1, by simp [pnode.nodes_queue, hm1], rfl, fun x hx => ⟨x, hx, rfl⟩⟩
      | none =>
        rw [hb] at h; simp only [Option.map_none'] at h
        cases hq : pnode_takefirst_queue node rest with
        | none => rw [hq] at h; simp at h
        | some x =>
          obtain ⟨r1, c1⟩ := x
          rw [hq] at h
          simp only [Option.some.injEq, Prod.mk.injEq] at h
          obtain ⟨-, rfl⟩ := h
          intro m1 hm1
          simp only [pnode.nodes_queue, List.mem_append] at hm1
          rcases hm1 with hm1 | hm1
          · exact ⟨m1, by simp [pnode.nodes_queue, hm1], rfl, fun x hx => ⟨x, hx, rfl⟩⟩
          · obtain ⟨m, hm, hmk, hsub⟩ := h2 _ _ hq m1 hm1
            exact ⟨m, by simp [pnode.nodes_queue, hm], hmk, hsub⟩
termination_by cs => sizeOf cs
decreasing_by
  all_goals simp_wf
  all_goals first | omega | (have hlt := pnode.sizeOf_childq_lt nc; omega)

/-- Every node of the tree that `pnode_takefirst` leaves comes from a node of
the tree of the same kind, and the kinds found below it were found below that
node. -/
theorem pnode_takefirst_nodes (n : pnode) (node : nodeid) :
    ∀ m1 ∈ (pnode_takefirst n node).2.nodes, ∃ m ∈ n.nodes, m.node = m1.node ∧
      ∀ x ∈ m1.nodes, ∃ y ∈ m.nodes, y.node = x.node := by
  unfold pnode_takefirst
  by_cases hk : n.node = node
  · simp only [hk, if_true]
    intro m1 hm1
    exact ⟨m1, hm1, rfl, fun x hx => ⟨x, hx, rfl⟩⟩
  · simp only [hk, if_false, pnode_takebelow_eq]
    cases hq : pnode_takefirst_queue node n.childq with
    | none =>
      intro m1 hm1
      exact ⟨m1, hm1, rfl, fun x hx => ⟨x, hx, rfl⟩⟩
    | some x =>
      have h1 := pnode_takefirst_queue_nodes node _ _ _ hq
      simp only [Option.map_some']
      intro m1 hm1
      rw [pnode.nodes_eq] at hm1
      rcases List.mem_cons.1 hm1 with rfl | hm1
      · refine ⟨n, pnode.mem_nodes_self _, by simp, ?_⟩
        intro y hy
        rw [pnode.nodes_eq] at hy
        rcases List.mem_cons.1 hy with rfl | hy
        · exact ⟨n, pnode.mem_nodes_self _, by simp⟩
        · simp only [pnode.setChildq_eq, pnode.childq_mk] at hy
          obtain ⟨m, hm, hmk, -⟩ := h1 y hy
          obtain ⟨c, hc, hmc⟩ := pnode.mem_nodes_queue.1 hm
          exact ⟨m, pnode.mem_nodes_of_child hc hmc, hmk⟩
      · simp only [pnode.setChildq_eq, pnode.childq_mk] at hm1
        obtain ⟨m, hm, hmk, hsub⟩ := h1 m1 hm1
        obtain ⟨c, hc, hmc⟩ := pnode.mem_nodes_queue.1 hm
        exact ⟨m, pnode.mem_nodes_of_child hc hmc, hmk, hsub⟩


/-! ## The prologue nodes -/

theorem pnode_takefirst_attrq (n : pnode) (node : nodeid) :
    (pnode_takefirst n node).2.attrq = n.attrq ∧ (pnode_takefirst n node).2.node = n.node ∧
    (pnode_takefirst n node).2.addr = n.addr ∧ (pnode_takefirst n node).2.parent = n.parent := by
  by_cases hk : n.node = node
  · simp [pnode_takefirst, hk]
  · obtain ⟨h1, h2, h3, -, -, h6, -⟩ := pnode_takefirst_spec n node hk
    exact ⟨h6, h2, h1, h3⟩

theorem pnode_putfirst_eq (node : nodeid) (new n : pnode) :
    pnode_putfirst node new n =
      if n.node = node then some new
      else (pnode_putfirst_queue node new n.childq).map (fun cs => n.setChildq cs) := by
  cases n with
  | mk a k s p f q cs =>
    simp only [pnode_putfirst, pnode.node_mk, pnode.childq_mk, pnode.setChildq_eq,
      pnode.addr_mk, pnode.b_mk, pnode.parent_mk, pnode.flags_mk, pnode.attrq_mk]
    split
    · rfl
    · cases pnode_putfirst_queue node new cs <;> rfl

theorem reorg_root_date_attrq (root : pnode) :
    (reorg_root_date root).2.attrq = root.attrq := by
  unfold reorg_root_date
  split
  · exact (pnode_takefirst_attrq _ _).1
  · exact (pnode_takefirst_attrq _ _).1

theorem reorg_root_meta_attrq (root : pnode) :
    (reorg_root_meta root).2.2.attrq = root.attrq := by
  unfold reorg_root_meta
  cases hf : pnode_findfirst NODE_REFMETA root with
  | none => rfl
  | some nc =>
    simp only
    rw [pnode_putfirst_eq]
    by_cases hk : root.node = NODE_REFMETA
    · simp only [hk, if_true, Option.getD_some]
      rw [pnode_findfirst_eq] at hf
      simp only [hk, if_true, Option.some.injEq] at hf
      subst hf
      rw [(pnode_takefirst_attrq _ _).1, (pnode_takefirst_attrq _ _).1]
    · simp only [hk, if_false]
      cases pnode_putfirst_queue NODE_REFMETA
        (pnode_takefirst (pnode_takefirst nc NODE_REFENTRYTITLE).2 NODE_MANVOLNUM).2
        root.childq <;> simp

theorem reorg_root_id (root : pnode) (d : Option cstring) :
    pnode_getattr_raw (some (reorg_root_meta (reorg_root_date root).2).2.2) ATTRKEY_ID d =
      pnode_getattr_raw (some root) ATTRKEY_ID d := by
  simp only [pnode_getattr_raw, reorg_root_meta_attrq, reorg_root_date_attrq]

/-- The children that `reorg_root` puts at the head of the root. -/
theorem reorg_root_shape (a : Nat) (root : pnode) (sec : Option cstring) (r : pnode × Nat) :
    reorg_root a root sec = some r →
    ∃ id, pnode_getattr_raw (some root) ATTRKEY_ID (some "UNKNOWN".toList) = some id ∧
      r.1.childq =
        (match (reorg_root_date root).1 with
          | some d => (d.setNode NODE_DATE).setParent (some root.addr)
          | none => reorg_synth a NODE_DATE root.addr "$Mdocdate$".toList) ::
        (match (reorg_root_meta (reorg_root_date root).2).1 with
          | some name => name
          | none => reorg_synth (match (reorg_root_date root).1 with
              | some _ => a
              | none => a + 2) NODE_REFENTRYTITLE root.addr id) ::
        (match (reorg_root_meta (reorg_root_date root).2).2.1, sec with
          | some vol, none => vol
          | _, none => reorg_synth (match (reorg_root_meta (reorg_root_date root).2).1 with
              | some _ => (match (reorg_root_date root).1 with
                | some _ => a
                | none => a + 2)
              | none => (match (reorg_root_date root).1 with
                | some _ => a
                | none => a + 2) + 2) NODE_MANVOLNUM root.addr "1".toList
          | _, some s => reorg_synth (match (reorg_root_meta (reorg_root_date root).2).1 with
              | some _ => (match (reorg_root_date root).1 with
                | some _ => a
                | none => a + 2)
              | none => (match (reorg_root_date root).1 with
                | some _ => a
                | none => a + 2) + 2) NODE_MANVOLNUM root.addr s) ::
        (reorg_root_info (reorg_root_meta (reorg_root_date root).2).2.2).childq := by
  intro h
  unfold reorg_root at h
  simp only at h
  split at h
  · cases h
  · rw [reorg_root_id] at h
    cases hid : pnode_getattr_raw (some root) ATTRKEY_ID (some "UNKNOWN".toList) with
    | none => rw [hid] at h; cases h
    | some id =>
      rw [hid] at h
      simp only [Option.some.injEq] at h
      have hc := congrArg (fun x => x.1.childq) h
      simp only [pnode.setChildq_eq, pnode.childq_mk] at hc
      rw [← hc]
      refine ⟨id, rfl, ?eq⟩
      case eq =>
        congr 1
        · cases (reorg_root_date root).1 <;> rfl
        · congr 1
          · cases (reorg_root_date root).1 <;>
              cases (reorg_root_meta (reorg_root_date root).2).1 <;> rfl
          · congr 1
            · cases (reorg_root_date root).1 <;>
                cases (reorg_root_meta (reorg_root_date root).2).1 <;>
                cases (reorg_root_meta (reorg_root_date root).2).2.1 <;> cases sec <;> rfl

theorem reorg_root_date_nodes (root : pnode) :
    ∀ m1 ∈ (reorg_root_date root).2.nodes, ∃ m ∈ root.nodes, m.node = m1.node ∧
      ∀ x ∈ m1.nodes, ∃ y ∈ m.nodes, y.node = x.node := by
  unfold reorg_root_date
  split
  · exact pnode_takefirst_nodes _ _
  · exact pnode_takefirst_nodes _ _

/-- When no REFMETA of the tree holds a node of kind `k`, the first REFMETA
that `reorg_root` finds holds none either. -/
theorem reorg_root_meta_none (root : pnode) (k : nodeid)
    (h : ∀ m ∈ root.nodes, m.node = NODE_REFMETA → pnode_findfirst k m = none) :
    ∀ nc, pnode_findfirst NODE_REFMETA (reorg_root_date root).2 = some nc →
      ∀ x ∈ nc.nodes, x.node ≠ k := by
  intro nc hf x hx
  obtain ⟨hmem, hk⟩ := pnode_findfirst_some _ _ _ hf
  obtain ⟨m, hm, hmk, hsub⟩ := reorg_root_date_nodes root nc hmem
  obtain ⟨y, hy, hyk⟩ := hsub x hx
  rw [← hyk]
  exact pnode_findfirst_none k m (h m hm (by rw [hmk, hk])) y hy


/-- The claim of C4 fails as it is stated: the root of `ex_id` has no REFMETA
at all, and the text of the REFENTRYTITLE that `reorg_root` makes is the value
"foo" of the attribute `id` of the root, not "UNKNOWN". -/
theorem reorg_root_synthesizes_counterexample :
    (∀ m ∈ ex_id.nodes, m.node ≠ NODE_REFMETA) ∧
    (reorg_root 100 ex_id none).map (fun r => r.1.childq.map
        (fun nc => (nc.node, nc.childq.map (fun t => (t.node, t.b))))) =
      some [ (NODE_DATE, [(NODE_TEXT, some "$Mdocdate$".toList)]),
        (NODE_REFENTRYTITLE, [(NODE_TEXT, some "foo".toList)]),
        (NODE_MANVOLNUM, [(NODE_TEXT, some "1".toList)]),
        (NODE_REFNAMEDIV, [(NODE_REFNAME, none)]) ] :=
  ⟨by decide, rfl⟩

/-- C4, amended: `reorg_root` returns unless the root is itself of kind
PUBDATE or DATE.  When no REFMETA of the tree holds a REFENTRYTITLE, the second
child of the root it returns is a new REFENTRYTITLE whose only child is a TEXT
node with the value of the attribute `id` of the root, or with "UNKNOWN" when
the root has no such attribute.  When the tree has neither PUBDATE nor DATE,
the first child is a new DATE whose only child is the TEXT "$Mdocdate$".  When
no REFMETA holds a MANVOLNUM and there is no override, the third child is a
new MANVOLNUM whose only child is the TEXT "1". -/
theorem reorg_root_synthesizes (a : Nat) (root : pnode) (sec : Option cstring) :
    (root.node ≠ NODE_PUBDATE → root.node ≠ NODE_DATE → ∃ r, reorg_root a root sec = some r) ∧
    ∀ r, reorg_root a root sec = some r →
      ((∀ m ∈ root.nodes, m.node = NODE_REFMETA →
          pnode_findfirst NODE_REFENTRYTITLE m = none) →
        ∃ a1 id, pnode_getattr_raw (some root) ATTRKEY_ID (some "UNKNOWN".toList) = some id ∧
          (root.attrq.find? (fun x => x.key == ATTRKEY_ID) = none → id = "UNKNOWN".toList) ∧
          r.1.childq.get? 1 = some
            (pnode.mk a1 NODE_REFENTRYTITLE none (some root.addr) ⟨false, false⟩ []
              [pnode.mk (a1 + 1) NODE_TEXT (some id) (some a1) ⟨false, false⟩ [] []])) ∧
      (pnode_findfirst NODE_PUBDATE root = none → pnode_findfirst NODE_DATE root = none →
        r.1.childq.get? 0 = some
          (pnode.mk a NODE_DATE none (some root.addr) ⟨false, false⟩ []
            [pnode.mk (a + 1) NODE_TEXT (some "$Mdocdate$".toList) (some a)
              ⟨false, false⟩ [] []])) ∧
      ((∀ m ∈ root.nodes, m.node = NODE_REFMETA → pnode_findfirst NODE_MANVOLNUM m = none) →
        sec = none →
        ∃ a1, r.1.childq.get? 2 = some
          (pnode.mk a1 NODE_MANVOLNUM none (some root.addr) ⟨false, false⟩ []
            [pnode.mk (a1 + 1) NODE_TEXT (some "1".toList) (some a1) ⟨false, false⟩ [] []])) := by
  refine ⟨reorg_root_total a root sec, ?_⟩
  intro r h
  obtain ⟨id, hid, hshape⟩ := reorg_root_shape a root sec r h
  rw [hshape]
  refine ⟨?_, ?_, ?_⟩
  · intro hno
    have hname : (reorg_root_meta (reorg_root_date root).2).1 = none := by
      unfold reorg_root_meta
      cases hf : pnode_findfirst NODE_REFMETA (reorg_root_date root).2 with
      | none => rfl
      | some nc =>
        simp only [pnode_takefirst_fst]
        exact pnode_findfirst_none_of _ _ (reorg_root_meta_none root _ hno nc hf)
    refine ⟨(match (reorg_root_date root).1 with
      | some _ => a
      | none => a + 2), id, hid, ?_, ?_⟩
    · intro hnoid
      simp only [pnode_getattr_raw, hnoid, Option.some.injEq] at hid
      exact hid.symm
    · simp only [hname, List.get?_cons_succ, List.get?_cons_zero, reorg_synth, pnode_alloc,
        pnode_alloc_text, pnode.setNode_eq, pnode.setB_eq, pnode.setParent_eq,
        pnode.insertTail_eq, pnode.addr_mk, pnode.node_mk, pnode.b_mk, pnode.parent_mk,
        pnode.flags_mk, pnode.attrq_mk, pnode.childq_mk, List.nil_append]
  · intro h1 h2
    have hdate : (reorg_root_date root).1 = none := by
      unfold reorg_root_date
      simp only [pnode_takefirst_fst, h1, h2, Option.isSome_none, Bool.false_eq_true, if_false]
    simp only [hdate, List.get?_cons_zero, reorg_synth, pnode_alloc,
      pnode_alloc_text, pnode.setNode_eq, pnode.setB_eq, pnode.setParent_eq,
      pnode.insertTail_eq, pnode.addr_mk, pnode.node_mk, pnode.b_mk, pnode.parent_mk,
      pnode.flags_mk, pnode.attrq_mk, pnode.childq_mk, List.nil_append]
  · intro hno hsec
    have hvol : (reorg_root_meta (reorg_root_date root).2).2.1 = none := by
      unfold reorg_root_meta
      cases hf : pnode_findfirst NODE_REFMETA (reorg_root_date root).2 with
      | none => rfl
      | some nc =>
        simp only [pnode_takefirst_fst]
        apply pnode_findfirst_none_of
        intro x hx hxk
        obtain ⟨m, hm, hmk, -⟩ := pnode_takefirst_nodes nc NODE_REFENTRYTITLE x hx
        exact reorg_root_meta_none root _ hno nc hf m hm (by rw [hmk, hxk])
    subst hsec
    refine ⟨(match (reorg_root_meta (reorg_root_date root).2).1 with
      | some _ => (match (reorg_root_date root).1 with
        | some _ => a
        | none => a + 2)
      | none => (match (reorg_root_date root).1 with
        | some _ => a
        | none => a + 2) + 2), ?_⟩
    simp only [hvol, List.get?_cons_succ, List.get?_cons_zero, reorg_synth, pnode_alloc,
      pnode_alloc_text, pnode.setNode_eq, pnode.setB_eq, pnode.setParent_eq,
      pnode.insertTail_eq, pnode.addr_mk, pnode.node_mk, pnode.b_mk, pnode.parent_mk,
      pnode.flags_mk, pnode.attrq_mk, pnode.childq_mk, List.nil_append]

/-- A root without attributes, REFMETA and dates receives the three default
prologue nodes. -/
theorem reorg_root_synthesizes_witness :
    ∃ r, reorg_root 100 (ex_elem 1 NODE_REFENTRY none []) none = some r ∧
      r.1.childq.get? 0 = some
        (pnode.mk 100 NODE_DATE none (some 1) ⟨false, false⟩ []
          [pnode.mk (100 + 1) NODE_TEXT (some "$Mdocdate$".toList) (some 100)
            ⟨false, false⟩ [] []]) := by
  obtain ⟨r, hr⟩ := (reorg_root_synthesizes 100 (ex_elem 1 NODE_REFENTRY none []) none).1
    (by decide) (by decide)
  exact ⟨r, hr, ((reorg_root_synthesizes 100 (ex_elem 1 NODE_REFENTRY none []) none).2 r hr).2.1
    rfl rfl⟩


/-! ## The volume number -/

theorem find_vol_cons_pos (c : pnode) (rest : List pnode) (h : c.node = NODE_MANVOLNUM) :
    (c :: rest).find? (fun c => c.node == NODE_MANVOLNUM) = some c := by
  simp [List.find?, h]

theorem find_vol_cons_neg (c : pnode) (rest : List pnode) (h : ¬ c.node = NODE_MANVOLNUM) :
    (c :: rest).find? (fun c => c.node == NODE_MANVOLNUM) =
      rest.find? (fun c => c.node == NODE_MANVOLNUM) := by
  have : (c.node == NODE_MANVOLNUM) = false := by simpa using h
  simp [List.find?, this]

theorem find_vol_takefirst_queue (k : nodeid) (hk : k ≠ NODE_MANVOLNUM) (v : pnode)
    (hv : pnode_findfirst_queue k v.childq = none) :
    ∀ (cs : List pnode) (r : pnode) (cs' : List pnode),
      cs.find? (fun c => c.node == NODE_MANVOLNUM) = some v →
      pnode_takefirst_queue k cs = some (r, cs') →
      cs'.find? (fun c => c.node == NODE_MANVOLNUM) = some v := by
  intro cs
  induction cs with
  | nil => intro r cs' h; simp at h
  | cons c rest ih =>
    intro r cs' hf ht
    simp only [pnode_takefirst_queue, pnode_takebelow_eq] at ht
    by_cases hc : c.node = NODE_MANVOLNUM
    · have hcv : c = v := by
        rw [find_vol_cons_pos c rest hc] at hf; simpa using hf
      subst hcv
      have hne : ¬ c.node = k := by rw [hc]; exact fun h => hk h.symm
      have hq : pnode_takefirst_queue k c.childq = none := by
        have := pnode_takefirst_queue_find k c.childq
        rw [hv] at this
        cases hq : pnode_takefirst_queue k c.childq with
        | none => rfl
        | some x => rw [hq] at this; simp at this
      simp only [hne, if_false, hq, Option.map_none'] at ht
      cases hr : pnode_takefirst_queue k rest with
      | none => rw [hr] at ht; simp at ht
      | some x =>
        rw [hr] at ht
        simp only [Option.some.injEq, Prod.mk.injEq] at ht
        rw [← ht.2]
        exact find_vol_cons_pos c x.2 hc
    · have hf' : rest.find? (fun c => c.node == NODE_MANVOLNUM) = some v := by
        rw [find_vol_cons_neg c rest hc] at hf; exact hf
      by_cases hck : c.node = k
      · simp only [hck, if_true, Option.some.injEq, Prod.mk.injEq] at ht
        rw [← ht.2]; exact hf'
      · simp only [hck, if_false] at ht
        cases hq : pnode_takefirst_queue k c.childq with
        | some x =>
          rw [hq] at ht
          simp only [Option.map_some', Option.some.injEq, Prod.mk.injEq] at ht
          rw [← ht.2]
          rw [find_vol_cons_neg _ rest (by simpa using hc)]
          exact hf'
        | none =>
          rw [hq] at ht
          simp only [Option.map_none'] at ht
          cases hr : pnode_takefirst_queue k rest with
          | none => rw [hr] at ht; simp at ht
          | some x =>
            rw [hr] at ht
            simp only [Option.some.injEq, Prod.mk.injEq] at ht
            rw [← ht.2]
            rw [find_vol_cons_neg c x.2 hc]
            exact ih x.1 x.2 hf' (by rw [hr])

theorem find_vol_takefirst (k : nodeid) (hk : k ≠ NODE_MANVOLNUM) (v : pnode)
    (hv : pnode_findfirst_queue k v.childq = none) (n : pnode) (hn : n.node ≠ k)
    (hf : n.childq.find? (fun c => c.node == NODE_MANVOLNUM) = some v) :
    (pnode_takefirst n k).2.childq.find? (fun c => c.node == NODE_MANVOLNUM) = some v := by
  unfold pnode_takefirst
  simp only [hn, if_false, pnode_takebelow_eq]
  cases hq : pnode_takefirst_queue k n.childq with
  | none => exact hf
  | some x =>
    simp only [Option.map_some', pnode.setChildq_eq, pnode.childq_mk]
    exact find_vol_takefirst_queue k hk v hv n.childq x.1 x.2 hf (by rw [hq])

/-- The node that `reorg_root` makes for an override or a missing volume:
nothing can be taken out of it, and it does not serve as a section. -/
theorem reorg_synth_vol (a p : Nat) (s : cstring) :
    (∀ k, k ≠ NODE_TEXT →
      pnode_findfirst_queue k (reorg_synth a NODE_MANVOLNUM p s).childq = none) ∧
    reorg_is_authors (reorg_synth a NODE_MANVOLNUM p s) = false ∧
    (reorg_synth a NODE_MANVOLNUM p s).node = NODE_MANVOLNUM := by
  refine ⟨?_, ?_, ?_⟩
  · intro k hk
    have : ¬ NODE_TEXT = k := fun h => hk h.symm
    simp [reorg_synth, pnode_alloc, pnode_alloc_text, pnode_findfirst_queue, pnode_findfirst,
      this]
  · simp [reorg_is_authors, reorg_titled, reorg_title, reorg_synth, pnode_alloc,
      pnode_alloc_text, pnode_findfirst_queue, pnode_findfirst]
  · simp [reorg_synth, pnode_alloc]

theorem find_vol_collect (v : pnode)
    (hv : ∀ k, k ≠ NODE_TEXT → pnode_findfirst_queue k v.childq = none) (n : pnode)
    (h1 : n.node ≠ NODE_BOOKINFO) (h2 : n.node ≠ NODE_REFENTRYINFO) (h3 : n.node ≠ NODE_INFO)
    (h4 : n.node ≠ NODE_REFMETA)
    (hf : n.childq.find? (fun c => c.node == NODE_MANVOLNUM) = some v) :
    (reorg_collect n).2.2.childq.find? (fun c => c.node == NODE_MANVOLNUM) = some v := by
  have s1 := find_vol_takefirst NODE_BOOKINFO (by decide) v (hv _ (by decide)) n h1 hf
  have k1 := (pnode_takefirst_attrq n NODE_BOOKINFO).2.1
  unfold reorg_collect
  simp only
  cases reorg_keep (pnode_takefirst n NODE_BOOKINFO).1 with
  | some info => exact s1
  | none =>
    simp only
    have s2 := find_vol_takefirst NODE_REFENTRYINFO (by decide) v (hv _ (by decide))
      (pnode_takefirst n NODE_BOOKINFO).2 (by rw [k1]; exact h2) s1
    have k2 := (pnode_takefirst_attrq (pnode_takefirst n NODE_BOOKINFO).2
      NODE_REFENTRYINFO).2.1
    generalize pnode_takefirst (pnode_takefirst n NODE_BOOKINFO).2 NODE_REFENTRYINFO = r2
      at s2 k2 ⊢
    cases reorg_keep r2.1 with
    | some info =>
      exact find_vol_takefirst NODE_REFMETA (by decide) v (hv _ (by decide)) r2.2
        (by rw [k2, k1]; exact h4) s2
    | none =>
      simp only
      have s3 := find_vol_takefirst NODE_INFO (by decide) v (hv _ (by decide)) r2.2
        (by rw [k2, k1]; exact h3) s2
      have k3 := (pnode_takefirst_attrq r2.2 NODE_INFO).2.1
      exact find_vol_takefirst NODE_REFMETA (by decide) v (hv _ (by decide)) _
        (by rw [k3, k2, k1]; exact h4) s3

theorem find_vol_insert (v x : pnode) (hx : x.node ≠ NODE_MANVOLNUM) (pre post : List pnode)
    (hf : (pre ++ post).find? (fun c => c.node == NODE_MANVOLNUM) = some v) :
    (pre ++ x :: post).find? (fun c => c.node == NODE_MANVOLNUM) = some v := by
  induction pre with
  | nil =>
    simp only [List.nil_append] at hf ⊢
    rw [find_vol_cons_neg x post hx]; exact hf
  | cons c pre ih =>
    by_cases hc : c.node = NODE_MANVOLNUM
    · simp only [List.cons_append] at hf ⊢
      rw [find_vol_cons_pos c _ hc] at hf ⊢; exact hf
    · simp only [List.cons_append] at hf ⊢
      rw [find_vol_cons_neg c _ hc] at hf ⊢
      exact ih hf

theorem find_vol_replace (v m m' : pnode) (hm : m'.node = m.node) (hne : m ≠ v)
    (pre post : List pnode)
    (hf : (pre ++ m :: post).find? (fun c => c.node == NODE_MANVOLNUM) = some v) :
    (pre ++ m' :: post).find? (fun c => c.node == NODE_MANVOLNUM) = some v := by
  induction pre with
  | nil =>
    simp only [List.nil_append] at hf ⊢
    by_cases hc : m.node = NODE_MANVOLNUM
    · rw [find_vol_cons_pos m post hc] at hf
      exact absurd (by simpa using hf) hne
    · rw [find_vol_cons_neg m post hc] at hf
      rw [find_vol_cons_neg m' post (by rw [hm]; exact hc)]
      exact hf
  | cons c pre ih =>
    simp only [List.cons_append] at hf ⊢
    by_cases hc : c.node = NODE_MANVOLNUM
    · rw [find_vol_cons_pos c _ hc] at hf ⊢; exact hf
    · rw [find_vol_cons_neg c _ hc] at hf ⊢
      exact ih hf

theorem find_vol_place (v : pnode) (hv : reorg_is_authors v = false) (a : Nat) (n : pnode)
    (stuff : List pnode)
    (hf : n.childq.find? (fun c => c.node == NODE_MANVOLNUM) = some v) :
    (reorg_place a n stuff).1.childq.find? (fun c => c.node == NODE_MANVOLNUM) = some v := by
  obtain ⟨hA, hB⟩ := reorg_place_shape a n stuff
  by_cases hex : ∃ c ∈ n.childq, reorg_is_authors c = true
  · obtain ⟨pre, m, post, h1, h2, -, h4⟩ := hB hex
    rw [h4]
    simp only [pnode.setChildq_eq, pnode.childq_mk]
    rw [h1] at hf
    refine find_vol_replace v m _ (by simp) ?_ pre post hf
    intro hmv
    rw [hmv, hv] at h2; cases h2
  · have hno : ∀ c ∈ n.childq, reorg_is_authors c = false := by
      intro c hc
      cases h : reorg_is_authors c with
      | false => rfl
      | true => exact absurd ⟨c, hc, h⟩ hex
    obtain ⟨pre, post, h1, h2, -⟩ := hA hno
    rw [h2]
    simp only [pnode.setChildq_eq, pnode.childq_mk]
    rw [h1] at hf
    exact find_vol_insert v _ (by simp) pre post hf

theorem find_vol_refentry (v : pnode)
    (hv : ∀ k, k ≠ NODE_TEXT → pnode_findfirst_queue k v.childq = none)
    (hva : reorg_is_authors v = false) (a : Nat) (n : pnode)
    (h1 : n.node ≠ NODE_BOOKINFO) (h2 : n.node ≠ NODE_REFENTRYINFO) (h3 : n.node ≠ NODE_INFO)
    (h4 : n.node ≠ NODE_REFMETA)
    (hf : n.childq.find? (fun c => c.node == NODE_MANVOLNUM) = some v) :
    (reorg_refentry a n).1.childq.find? (fun c => c.node == NODE_MANVOLNUM) = some v := by
  have hc := find_vol_collect v hv n h1 h2 h3 h4 hf
  unfold reorg_refentry
  simp only
  split
  · exact hc
  · exact find_vol_place v hva a _ _ hc

theorem find_vol_default_title (v : pnode) (a : Nat) (n : pnode) (title : cstring)
    (hf : n.childq.find? (fun c => c.node == NODE_MANVOLNUM) = some v) :
    (default_title a n title).1.childq.find? (fun c => c.node == NODE_MANVOLNUM) = some v := by
  unfold default_title
  split
  · exact hf
  · split
    · exact hf
    · simp only [pnode.insertHead_eq, pnode.childq_mk]
      exact find_vol_insert v _ (by simp [reorg_synth, pnode_alloc]) [] n.childq hf

theorem find_vol_function (v : pnode) (n : pnode)
    (hf : n.childq.find? (fun c => c.node == NODE_MANVOLNUM) = some v) :
    (reorg_function n).childq.find? (fun c => c.node == NODE_MANVOLNUM) = some v := by
  unfold reorg_function
  split
  · rename_i nc hc
    split
    · split
      · rename_i b hb hcond
        rw [hc] at hf
        have : nc.node = NODE_MANVOLNUM := by
          by_cases h : nc.node = NODE_MANVOLNUM
          · exact h
          · rw [find_vol_cons_neg nc [] h] at hf; simp at hf
        rw [hcond.1] at this; cases this
      · exact hf
    · exact hf
  · exact hf

/-- The switch of `reorg_recurse` leaves the first MANVOLNUM child as it is
when that child is a node that `reorg_root` has made. -/
theorem find_vol_switch (v : pnode)
    (hv : ∀ k, k ≠ NODE_TEXT → pnode_findfirst_queue k v.childq = none)
    (hva : reorg_is_authors v = false) (a : Nat) (n : pnode)
    (hf : n.childq.find? (fun c => c.node == NODE_MANVOLNUM) = some v) :
    (reorg_switch a n).1.childq.find? (fun c => c.node == NODE_MANVOLNUM) = some v := by
  have top : ∀ (hk : n.node = NODE_APPENDIX ∨ n.node = NODE_PREFACE ∨ n.node = NODE_SECTION),
      (if n.parent.isNone then reorg_refentry a n else (n, a)).1.childq.find?
        (fun c => c.node == NODE_MANVOLNUM) = some v := by
    intro hk
    split
    · exact find_vol_refentry v hv hva a n (by rcases hk with h | h | h <;> rw [h] <;> decide)
        (by rcases hk with h | h | h <;> rw [h] <;> decide)
        (by rcases hk with h | h | h <;> rw [h] <;> decide)
        (by rcases hk with h | h | h <;> rw [h] <;> decide) hf
    · exact hf
  unfold reorg_switch
  split
  all_goals rename_i hk
  all_goals try dsimp only
  all_goals try simp only [pnode.setNode_eq, pnode.childq_mk]
  all_goals first
    | exact find_vol_default_title v _ _ _ (top (by simp [hk]))
    | exact find_vol_default_title v _ _ _ hf
    | exact find_vol_function v n hf
    | exact find_vol_refentry v hv hva a n (by rw [hk]; decide) (by rw [hk]; decide)
        (by rw [hk]; decide) (by rw [hk]; decide) hf
    | exact hf

theorem reorg_kind_vol (k : nodeid) (h : reorg_kind k = NODE_MANVOLNUM) :
    k = NODE_MANVOLNUM := by
  unfold reorg_kind at h
  split at h <;> first | (cases h; done) | exact h

theorem reorg_recurse_vol {fuel a p n : Nat} {s : cstring} {t' : pnode} {a' : Nat}
    (h : reorg_recurse fuel a (reorg_synth p NODE_MANVOLNUM n s) = some (t', a')) :
    t' = reorg_synth p NODE_MANVOLNUM n s := by
  match fuel with
  | 0 => simp [reorg_recurse] at h
  | 1 =>
    simp [reorg_recurse, reorg_switch, reorg_synth, pnode_alloc, pnode_alloc_text, reorg_queue]
      at h
  | fuel + 2 =>
    simp [reorg_recurse, reorg_switch, reorg_synth, pnode_alloc, pnode_alloc_text, reorg_queue]
      at h
    simp [reorg_synth, pnode_alloc, pnode_alloc_text, ← h.1]

theorem find_vol_recurse (fuel p n : Nat) (s : cstring) {cs cs' : List pnode}
    (hall : List.Forall₂ (fun c c' => ∃ a1 a2, reorg_recurse fuel a1 c = some (c', a2)) cs cs')
    (hf : cs.find? (fun c => c.node == NODE_MANVOLNUM) =
      some (reorg_synth p NODE_MANVOLNUM n s)) :
    cs'.find? (fun c => c.node == NODE_MANVOLNUM) = some (reorg_synth p NODE_MANVOLNUM n s) := by
  induction hall with
  | nil => simp at hf
  | @cons c c' l l' h1 _ ih =>
    obtain ⟨a1, a2, h1⟩ := h1
    have hk := (reorg_recurse_node h1).1
    by_cases hc : c.node = NODE_MANVOLNUM
    · have hcv : c = reorg_synth p NODE_MANVOLNUM n s := by
        rw [find_vol_cons_pos c _ hc] at hf; simpa using hf
      rw [hcv] at h1
      have := reorg_recurse_vol h1
      rw [this]
      exact find_vol_cons_pos _ _ (by simp [reorg_synth, pnode_alloc])
    · have hc' : ¬ c'.node = NODE_MANVOLNUM := by
        rw [hk]; exact fun h => hc (reorg_kind_vol _ h)
      rw [find_vol_cons_neg c _ hc] at hf
      rw [find_vol_cons_neg c' _ hc']
      exact ih hf


theorem reorg_root_meta_name (root name : pnode)
    (h : (reorg_root_meta root).1 = some name) : name.node = NODE_REFENTRYTITLE := by
  unfold reorg_root_meta at h
  cases hf : pnode_findfirst NODE_REFMETA root with
  | none => rw [hf] at h; cases h
  | some nc =>
    rw [hf] at h
    simp only [pnode_takefirst_fst] at h
    exact (pnode_findfirst_some _ _ _ h).2

theorem reorg_root_meta_vol (root vol : pnode)
    (h : (reorg_root_meta root).2.1 = some vol) : vol.node = NODE_MANVOLNUM := by
  unfold reorg_root_meta at h
  cases hf : pnode_findfirst NODE_REFMETA root with
  | none => rw [hf] at h; cases h
  | some nc =>
    rw [hf] at h
    simp only [pnode_takefirst_fst] at h
    exact (pnode_findfirst_some _ _ _ h).2

/-- The kinds of the three children that `reorg_root` puts at the head of the
root. -/
theorem reorg_root_kinds (a : Nat) (root : pnode) (sec : Option cstring) (r : pnode × Nat)
    (h : reorg_root a root sec = some r) :
    ∃ dt nm vl rest, r.1.childq = dt :: nm :: vl :: rest ∧ dt.node = NODE_DATE ∧
      nm.node = NODE_REFENTRYTITLE ∧ vl.node = NODE_MANVOLNUM ∧
      (∀ s, sec = some s → ∃ a1, vl = reorg_synth a1 NODE_MANVOLNUM root.addr s) ∧
      (∀ vol, sec = none → (reorg_root_meta (reorg_root_date root).2).2.1 = some vol →
        vl = vol) := by
  obtain ⟨id, -, hshape⟩ := reorg_root_shape a root sec r h
  refine ⟨_, _, _, _, hshape, ?_, ?_, ?_, ?_, ?_⟩
  · cases (reorg_root_date root).1 <;> simp [reorg_synth, pnode_alloc]
  · cases hn : (reorg_root_meta (reorg_root_date root).2).1 with
    | none => simp [reorg_synth, pnode_alloc]
    | some name => exact reorg_root_meta_name _ _ hn
  · cases hv : (reorg_root_meta (reorg_root_date root).2).2.1 with
    | none => cases sec <;> simp [reorg_synth, pnode_alloc]
    | some vol =>
      cases sec with
      | none => exact reorg_root_meta_vol _ _ hv
      | some s => simp [reorg_synth, pnode_alloc]
  · intro s hs
    subst hs
    cases (reorg_root_meta (reorg_root_date root).2).2.1 <;> exact ⟨_, rfl⟩
  · intro vol hs hv
    subst hs
    rw [hv]

theorem pnode_parse_unknown (name : cstring)
    (h : name ∉ (properties.take NODE_UNKNOWN.toCtorIdx).map nodeprop.name) :
    pnode_parse name = NODE_UNKNOWN := by
  have hlen : (properties.take NODE_UNKNOWN.toCtorIdx).length = NODE_UNKNOWN.toCtorIdx := by
    decide
  have hidx : (properties.take NODE_UNKNOWN.toCtorIdx).findIdx (fun p => p.name == name) =
      (properties.take NODE_UNKNOWN.toCtorIdx).length := by
    rw [List.findIdx_eq_length]
    intro x hx
    have : x.name ≠ name := fun hn => h (List.mem_map.2 ⟨x, hx, hn⟩)
    simpa using this
  unfold pnode_parse
  rw [hidx, hlen]
  rfl

theorem xml_name2node_unknown (name : cstring)
    (h1 : name ∉ (properties.take NODE_UNKNOWN.toCtorIdx).map nodeprop.name)
    (h2 : name ∉ aliases.map Prod.fst) : xml_name2node name = NODE_UNKNOWN := by
  unfold xml_name2node
  rw [pnode_parse_unknown name h1]
  have hf : aliases.find? (fun al => al.1 == name) = none := by
    rw [List.find?_eq_none]
    intro x hx
    have : x.1 ≠ name := fun hn => h2 (List.mem_map.2 ⟨x, hx, hn⟩)
    simpa using this
  simp [hf]

/-- The claim of C9 fails as it is stated: `(t)` is a name of the primary
table, the name of the kind TEXT, and `xml_name2node` returns UNKNOWN for it;
the same holds for `(e)` and the kind ESCAPE. -/
theorem xml_name2node_table_counterexample :
    (properties.get? NODE_TEXT.toCtorIdx).map nodeprop.name = some "(t)".toList ∧
    xml_name2node "(t)".toList = NODE_UNKNOWN ∧
    (properties.get? NODE_ESCAPE.toCtorIdx).map nodeprop.name = some "(e)".toList ∧
    xml_name2node "(e)".toList = NODE_UNKNOWN := by
  decide

/-- C9, amended: `xml_name2node` maps the name of every entry of the primary
table below the entry of UNKNOWN to the kind of that entry, and the names
`[UNKNOWN]`, `(t)` and `(e)` of the last three entries to UNKNOWN; it maps
every name of the alias table to the kind given there, in particular
chapter, book, refsect1, sect1, sect2, sect3 and sect4 to SECTION, ulink to
LINK, keycap to KEYSYM, simpara to PARA, computeroutput, userinput and code to
LITERAL, structname to TYPE, anchor, indexterm and primary to DELETE, phrase,
acronym and trademark to IGNORE; and it returns UNKNOWN for every name that is
neither the name of an entry below UNKNOWN nor in the alias table, such as
`Para` and `PARA`, which differ from `para` in case only. -/
theorem xml_name2node_table :
    (∀ i, i < NODE_UNKNOWN.toCtorIdx →
      (properties.get? i).map (fun pr => xml_name2node pr.name) = some (nodeid.ofNat i)) ∧
    (∀ i, NODE_UNKNOWN.toCtorIdx ≤ i → i < properties.length →
      (properties.get? i).map (fun pr => xml_name2node pr.name) = some NODE_UNKNOWN) ∧
    (∀ e ∈ aliases, xml_name2node e.1 = e.2) ∧
    (["chapter", "book", "refsect1", "sect1", "sect2", "sect3", "sect4"].map
      (fun s => xml_name2node s.toList) = List.replicate 7 NODE_SECTION ∧
     xml_name2node "ulink".toList = NODE_LINK ∧
     xml_name2node "keycap".toList = NODE_KEYSYM ∧
     xml_name2node "simpara".toList = NODE_PARA ∧
     ["computeroutput", "userinput", "code"].map
      (fun s => xml_name2node s.toList) = List.replicate 3 NODE_LITERAL ∧
     xml_name2node "structname".toList = NODE_TYPE ∧
     ["anchor", "indexterm", "primary"].map
      (fun s => xml_name2node s.toList) = List.replicate 3 NODE_DELETE ∧
     ["phrase", "acronym", "trademark"].map
      (fun s => xml_name2node s.toList) = List.replicate 3 NODE_IGNORE) ∧
    (∀ name : cstring,
      name ∉ (properties.take NODE_UNKNOWN.toCtorIdx).map nodeprop.name →
      name ∉ aliases.map Prod.fst → xml_name2node name = NODE_UNKNOWN) ∧
    xml_name2node "para".toList = NODE_PARA ∧
    xml_name2node "Para".toList = NODE_UNKNOWN ∧
    xml_name2node "PARA".toList = NODE_UNKNOWN := by
  refine ⟨by decide!, by decide!, by decide!, by decide!, xml_name2node_unknown,
    by decide!, by decide!, by decide!⟩


/-! ## Attribute values: xml_attrval -/

theorem attrval_parse_mem (s : cstring) (h : s ∈ attrvals) :
    attrval_parse s ≠ ATTRVAL__MAX ∧ attrvals.get? (attrval_parse s).toCtorIdx = some s := by
  simp only [attrvals, List.map_cons, List.map_nil, List.mem_cons, List.mem_singleton,
    List.not_mem_nil, or_false] at h
  rcases h with rfl | rfl | rfl | rfl | rfl | rfl | rfl | rfl | rfl <;> decide

theorem attrval_parse_not_mem (s : cstring) (h : s ∉ attrvals) :
    attrval_parse s = ATTRVAL__MAX := by
  have hidx : attrvals.findIdx (fun t => t == s) = attrvals.length := by
    rw [List.findIdx_eq_length]
    intro x hx
    have : x ≠ s := fun hn => h (hn ▸ hx)
    simpa using this
  unfold attrval_parse
  rw [hidx]
  rfl

/-- C10: when an attribute is pending, that is, nothing is being deleted, the
current element has a regular kind, the flag `PFLAG_ATTR` is set and the
current node has a last attribute `a`, then `xml_attrval(p, s)` replaces `a`
by an attribute with the same key for which `attr_getval` returns `s`: for `s`
among the nine enumerated values the enum member that `attrval_parse` finds is
stored, its table name is `s` and the raw string stays as it was; otherwise
the member is `ATTRVAL__MAX` and the raw string is `s`.  The flag
`PFLAG_ATTR` is cleared and nothing else changes. -/
theorem xml_attrval_getval (p : parse) (s : cstring) (c : pnode) (rest : List pnode)
    (a : pattr) (hdel : ¬ p.del > 0) (hcur : p.ncur.toCtorIdx < NODE_UNKNOWN.toCtorIdx)
    (hattr : p.flags.attr = true) (hstack : p.stack = c :: rest)
    (hlast : c.attrq.getLast? = some a) :
    ∃ a' : pattr,
      xml_attrval p s = .ok { p with
        stack := c.setAttrq (c.attrq.dropLast ++ [a']) :: rest
        flags := { p.flags with attr := false } } ∧
      a'.key = a.key ∧ attr_getval a' = some s ∧
      (s ∈ attrvals → a'.val = attrval_parse s ∧ a'.val ≠ ATTRVAL__MAX ∧
        attrvals.get? a'.val.toCtorIdx = some s ∧ a'.rawval = a.rawval) ∧
      (s ∉ attrvals → a'.val = ATTRVAL__MAX ∧ a'.rawval = some s) := by
  refine ⟨⟨a.key, attrval_parse s,
    if attrval_parse s = ATTRVAL__MAX then some s else a.rawval⟩, ?_, rfl, ?_, ?_, ?_⟩
  · unfold xml_attrval
    have hcur' : ¬ p.ncur.toCtorIdx ≥ NODE_UNKNOWN.toCtorIdx := by omega
    simp [hdel, hcur', hattr, hstack, hlast, parse.setCur]
  · by_cases hm : s ∈ attrvals
    · obtain ⟨h1, h2⟩ := attrval_parse_mem s hm
      simp only [attr_getval, h1, if_false]
      exact h2
    · simp [attr_getval, attrval_parse_not_mem s hm]
  · intro hm
    obtain ⟨h1, h2⟩ := attrval_parse_mem s hm
    exact ⟨rfl, h1, h2, by simp [h1]⟩
  · intro hm
    simp [attrval_parse_not_mem s hm]

/-- After `<arg choice=` the value `plain` is stored as the enum member
`ATTRVAL_PLAIN`, whose name is read back. -/
theorem xml_attrval_getval_witness :
    ∃ a' : pattr,
      xml_attrval ex_pending "plain".toList = .ok { ex_pending with
        stack := (pnode.mk 1 NODE_ARG none none ⟨false, true⟩
          [⟨ATTRKEY_CHOICE, ATTRVAL__MAX, none⟩] []).setAttrq
            (([⟨ATTRKEY_CHOICE, ATTRVAL__MAX, none⟩] : List pattr).dropLast ++ [a']) :: []
        flags := { ex_pending.flags with attr := false } } ∧
      a'.key = ATTRKEY_CHOICE ∧ attr_getval a' = some "plain".toList ∧
      ("plain".toList ∈ attrvals → a'.val = attrval_parse "plain".toList ∧
        a'.val ≠ ATTRVAL__MAX ∧
        attrvals.get? a'.val.toCtorIdx = some "plain".toList ∧ a'.rawval = none) ∧
      ("plain".toList ∉ attrvals → a'.val = ATTRVAL__MAX ∧ a'.rawval = some "plain".toList) :=
  xml_attrval_getval ex_pending "plain".toList
    (pnode.mk 1 NODE_ARG none none ⟨false, true⟩ [⟨ATTRKEY_CHOICE, ATTRVAL__MAX, none⟩] [])
    [] ⟨ATTRKEY_CHOICE, ATTRVAL__MAX, none⟩ (by decide) (by decide) rfl rfl rfl


/-! ## The whole program on small documents -/

theorem main_mdoc_ok {fuel : Nat} {files : List (cstring × List Char)} {flags : fflags}
    {warn : Bool} {sec : Option cstring} {input out : List Char} {rc : Nat}
    (h : main_mdoc fuel files flags warn sec input = .ok (out, rc)) (hout : out ≠ []) :
    ∃ tree f, main_tree fuel files warn sec input = .ok tree ∧ rc = main_rc tree.flags ∧
      main_print flags tree = .ok f ∧ f.out = out := by
  unfold main_mdoc at h
  cases h1 : main_tree fuel files warn sec input with
  | error e => rw [h1] at h; cases h
  | ok tree =>
    rw [h1] at h
    simp only [bind, Except.bind, pure, Except.pure] at h
    by_cases hr : tree.root.isNone = true
    · rw [if_pos hr] at h
      injection h with h
      injection h with h2 h3
      exact absurd h2.symm hout
    · rw [if_neg hr] at h
      cases h2 : main_print flags tree with
      | error e => rw [h2] at h; cases h
      | ok f =>
        rw [h2] at h
        injection h with h
        injection h with h3 h4
        exact ⟨tree, f, rfl, h4.symm, h2, h3⟩

set_option maxRecDepth 1000000 in
theorem main_minimal_eval : ∀ warn a b c d : Bool,
    main_mdoc 0 [] ⟨a, b, c, d⟩ warn none minimal_input = .ok (minimal_output, 0) := by
  decide!

theorem main_rc_zero (flags : tflags) (h : 0 = main_rc flags) :
    flags.error = false ∧ flags.warn = false := by
  unfold main_rc at h
  cases he : flags.error <;> cases hw : flags.warn <;> simp [he, hw] at h ⊢

/-- C2: for the minimal input, with or without warnings, `parse_file`
(with no other file at hand) and `ptree_reorg` without a section override
return a tree that has neither the error nor the warning flag, and
`ptree_print_mdoc`, whatever flags the formatter starts with, writes exactly
the lines `.Dd $Mdocdate$`, `.Dt FOO 1`, `.Os`, `.Sh NAME`, `.Nm foo` and
`.Nd bar`; the program ends with the exit code 0. -/
theorem main_mdoc_minimal : ∀ (warn : Bool) (flags : fflags),
    ∃ tree f, main_tree 0 [] warn none minimal_input = .ok tree ∧
      tree.flags.error = false ∧ tree.flags.warn = false ∧
      main_print flags tree = .ok f ∧
      f.out = ".Dd $Mdocdate$\n.Dt FOO 1\n.Os\n.Sh NAME\n.Nm foo\n.Nd bar\n".toList ∧
      main_mdoc 0 [] flags warn none minimal_input =
        .ok (".Dd $Mdocdate$\n.Dt FOO 1\n.Os\n.Sh NAME\n.Nm foo\n.Nd bar\n".toList, 0) := by
  intro warn flags
  obtain ⟨a, b, c, d⟩ := flags
  have h := main_minimal_eval warn a b c d
  obtain ⟨tree, f, h1, h2, h3, h4⟩ := main_mdoc_ok h (by decide)
  obtain ⟨he, hw⟩ := main_rc_zero _ h2
  exact ⟨tree, f, h1, he, hw, h3, h4, h⟩

set_option maxRecDepth 1000000 in
theorem main_prologue_eval : ∀ warn a b c d : Bool,
    main_mdoc 0 [] ⟨a, b, c, d⟩ warn none prologue_input = .error .assertion := by
  decide!

set_option maxRecDepth 1000000 in
theorem main_prologue_kinds :
    (main_tree 0 [] false none prologue_input).map
      (fun t => t.root.map (fun r => r.childq.map pnode.node)) =
    .ok (some [NODE_SECTION, NODE_DATE, NODE_REFENTRYTITLE, NODE_MANVOLNUM]) := by
  decide!

/-- C1 does not hold: `reorg_root` does put a DATE, a REFENTRYTITLE and a
MANVOLNUM at the head of the root, but for the document
`<refentry><date><title>BUGS</title></date><refmeta><refmiscinfo>x
</refmiscinfo></refmeta></refentry>` the function `reorg_refentry`, called
afterwards, puts the new AUTHORS section before the DATE, which it takes for
a section titled BUGS.  The children of the root are then a SECTION, the
DATE, the REFENTRYTITLE and the MANVOLNUM, and the first assertion of
`pnode_printprologue` fails. -/
theorem pnode_printprologue_assert_fails :
    (∀ (a : Nat) (root : pnode) (sec : Option cstring) (r : pnode × Nat),
      reorg_root a root sec = some r →
      (r.1.childq.take 3).map pnode.node =
        [NODE_DATE, NODE_REFENTRYTITLE, NODE_MANVOLNUM]) ∧
    (main_tree 0 [] false none prologue_input).map
      (fun t => t.root.map (fun r => r.childq.map pnode.node)) =
      .ok (some [NODE_SECTION, NODE_DATE, NODE_REFENTRYTITLE, NODE_MANVOLNUM]) ∧
    (∀ (warn : Bool) (flags : fflags),
      main_mdoc 0 [] flags warn none prologue_input = .error .assertion) := by
  refine ⟨?_, main_prologue_kinds, ?_⟩
  · intro a root sec r h
    obtain ⟨dt, nm, vl, rest, hc, hd, hn, hv, -, -⟩ := reorg_root_kinds a root sec r h
    rw [hc]
    simp [hd, hn, hv]
  · intro warn flags
    obtain ⟨a, b, c, d⟩ := flags
    exact main_prologue_eval warn a b c d

set_option maxRecDepth 1000000 in
theorem main_minimal_linked :
    ((parse_file 0 (parse_alloc false [] 1) (some minimal_input) "<stdin>".toList).bind
      parse_tree).map (fun t => t.root.map pnode.linked) = .ok (some true) ∧
    (main_tree 0 [] false none minimal_input).map (fun t => t.root.map pnode.linked) =
      .ok (some false) := by
  refine ⟨?_, ?_⟩
  · decide!
  · decide!

set_option maxRecDepth 1000000 in
theorem main_minimal_parents :
    (main_tree 0 [] false none minimal_input).map (fun t => t.root.map pnode.addr) =
      .ok (some 1) ∧
    (main_tree 0 [] false none minimal_input).map (fun t => t.root.map (fun r =>
      r.childq.map pnode.node)) =
      .ok (some [NODE_DATE, NODE_REFENTRYTITLE, NODE_MANVOLNUM, NODE_REFNAMEDIV]) ∧
    (main_tree 0 [] false none minimal_input).map (fun t => t.root.map (fun r =>
      r.childq.map pnode.parent)) = .ok (some [some 1, some 2, some 2, some 1]) ∧
    (main_tree 0 [] false none minimal_input).map (fun t => t.root.map (fun r =>
      r.nodes.map pnode.addr)) = .ok (some [1, 12, 13, 3, 4, 5, 6, 7, 8, 9, 10, 11]) := by
  refine ⟨?_, ?_, ?_, ?_⟩
  · decide!
  · decide!
  · decide!
  · decide!

set_option maxRecDepth 1000000 in
theorem main_refmeta_eval : ∀ warn a b c d : Bool,
    main_mdoc 0 [] ⟨a, b, c, d⟩ warn none refmeta_input = .error .stale := by
  decide!

/-- C8 does not hold: the tree that the parser builds for the minimal
document has the invariant, and the tree that `ptree_reorg` makes of it has
not.  The root, at address 1, then holds the REFENTRYTITLE and the MANVOLNUM
that `reorg_root` took out of the REFMETA without setting their parent
pointers: these still hold the address 2 of the REFMETA, which
`reorg_refentry` has freed, so that no node of the tree has this address.
For the same document without its REFNAMEDIV the MANVOLNUM is the last child
of the root, and `pnode_unlink` in `pnode_printprologue` writes to the freed
REFMETA. -/
theorem ptree_reorg_parents_stale :
    ((parse_file 0 (parse_alloc false [] 1) (some minimal_input) "<stdin>".toList).bind
      parse_tree).map (fun t => t.root.map pnode.linked) = .ok (some true) ∧
    (main_tree 0 [] false none minimal_input).map (fun t => t.root.map pnode.linked) =
      .ok (some false) ∧
    (main_tree 0 [] false none minimal_input).map (fun t => t.root.map pnode.addr) =
      .ok (some 1) ∧
    (main_tree 0 [] false none minimal_input).map (fun t => t.root.map (fun r =>
      r.childq.map pnode.node)) =
      .ok (some [NODE_DATE, NODE_REFENTRYTITLE, NODE_MANVOLNUM, NODE_REFNAMEDIV]) ∧
    (main_tree 0 [] false none minimal_input).map (fun t => t.root.map (fun r =>
      r.childq.map pnode.parent)) = .ok (some [some 1, some 2, some 2, some 1]) ∧
    (main_tree 0 [] false none minimal_input).map (fun t => t.root.map (fun r =>
      r.nodes.map pnode.addr)) = .ok (some [1, 12, 13, 3, 4, 5, 6, 7, 8, 9, 10, 11]) ∧
    (∀ (warn : Bool) (flags : fflags),
      main_mdoc 0 [] flags warn none refmeta_input = .error .stale) := by
  refine ⟨main_minimal_linked.1, main_minimal_linked.2, main_minimal_parents.1,
    main_minimal_parents.2.1, main_minimal_parents.2.2.1, main_minimal_parents.2.2.2, ?_⟩
  intro warn flags
  obtain ⟨a, b, c, d⟩ := flags
  exact main_refmeta_eval warn a b c d


/-! ## The formatter does not call abort on a reorganized tree -/

theorem Safe.ok {α : Type} {Q : α → Prop} {a : α} (h : Q a) : Safe Q (.ok a) := h

theorem Safe.pure {α : Type} {Q : α → Prop} {a : α} (h : Q a) :
    Safe Q (pure a : Except fault α) := h

theorem Safe.error {α : Type} {Q : α → Prop} {e : fault} (h : e ≠ fault.abort) :
    Safe Q (.error e : Except fault α) := h

theorem Safe.bind {α β : Type} {Q : α → Prop} {R : β → Prop} {x : Except fault α}
    {g : α → Except fault β} (hx : Safe Q x) (hg : ∀ a, Q a → Safe R (g a)) :
    Safe R (x >>= g) := by
  cases x with
  | error e => exact hx
  | ok a => exact hg a hx

theorem Safe.bind' {α β : Type} {Q : α → Prop} {R : β → Prop} {x : Except fault α}
    {g : α → Except fault β} (hx : Safe Q x) (hg : ∀ a, Q a → Safe R (g a)) :
    Safe R (x.bind g) := Safe.bind hx hg

theorem Safe.map {α β : Type} {Q : α → Prop} {R : β → Prop} {x : Except fault α}
    {g : α → β} (hx : Safe Q x) (hg : ∀ a, Q a → R (g a)) : Safe R (x.map g) := by
  cases x with
  | error e => exact hx
  | ok a => exact hg a hx

theorem Safe.map' {α β : Type} {Q : α → Prop} {R : β → Prop} {x : Except fault α}
    {g : α → β} (hx : Safe Q x) (hg : ∀ a, Q a → R (g a)) : Safe R (g <$> x) :=
  Safe.map hx hg

theorem Safe.mono {α : Type} {Q R : α → Prop} {x : Except fault α}
    (hx : Safe Q x) (h : ∀ a, Q a → R a) : Safe R x := by
  cases x with
  | error e => exact hx
  | ok a => exact h a hx

theorem Safe.ne_abort {α : Type} {Q : α → Prop} {x : Except fault α} (hx : Safe Q x) :
    x ≠ .error .abort := by
  intro h
  rw [h] at hx
  exact hx rfl

theorem Safe.of_ok {α : Type} {Q : α → Prop} {x : Except fault α} {a : α} (hx : Safe Q x)
    (h : x = .ok a) : Q a := by
  rw [h] at hx
  exact hx

theorem pnode.clean_iff (n : pnode) :
    n.clean ↔ abort_kind n.node = false ∧ ∀ c ∈ n.childq, c.clean := by
  unfold pnode.clean
  constructor
  · intro h
    exact ⟨h n (pnode.mem_nodes_self n), fun c hc m hm => h m (pnode.mem_nodes_of_child hc hm)⟩
  · rintro ⟨h1, h2⟩ m hm
    rw [pnode.nodes_eq] at hm
    rcases List.mem_cons.1 hm with rfl | hm
    · exact h1
    · obtain ⟨c, hc, hmc⟩ := pnode.mem_nodes_queue.1 hm
      exact h2 c hc m hmc

theorem pnode.clean_setChildq {n : pnode} {cs : List pnode} (h : abort_kind n.node = false)
    (hcs : ∀ c ∈ cs, c.clean) : (n.setChildq cs).clean := by
  rw [pnode.clean_iff]
  cases n
  exact ⟨h, hcs⟩

theorem pnode.clean_setFlags {n : pnode} (fl : nflags) (h : n.clean) :
    (n.setFlags fl).clean := by
  rw [pnode.clean_iff] at h ⊢
  cases n
  exact h

theorem pnode.clean_setParent {n : pnode} (p : Option Nat) (h : n.clean) :
    (n.setParent p).clean := by
  rw [pnode.clean_iff] at h ⊢
  cases n
  exact h

theorem pnode.clean_kind {n : pnode} (h : n.clean) : abort_kind n.node = false :=
  ((pnode.clean_iff n).1 h).1

theorem pnode.clean_child {n c : pnode} (h : n.clean) (hc : c ∈ n.childq) : c.clean :=
  ((pnode.clean_iff n).1 h).2 c hc


/-! ## The parser state: what the basic steps leave as it is -/

namespace parse

@[simp] theorem setCur_fname (p : parse) (n : pnode) :
    (p.setCur n).fname = p.fname := by
  unfold setCur; split <;> rfl

@[simp] theorem setCur_root (p : parse) (n : pnode) :
    (p.setCur n).root = p.root := by
  unfold setCur; split <;> rfl

@[simp] theorem setCur_tflags (p : parse) (n : pnode) :
    (p.setCur n).tflags = p.tflags := by
  unfold setCur; split <;> rfl

@[simp] theorem setCur_doctype (p : parse) (n : pnode) :
    (p.setCur n).doctype = p.doctype := by
  unfold setCur; split <;> rfl

@[simp] theorem setCur_ncur (p : parse) (n : pnode) :
    (p.setCur n).ncur = p.ncur := by
  unfold setCur; split <;> rfl

@[simp] theorem setCur_line (p : parse) (n : pnode) :
    (p.setCur n).line = p.line := by
  unfold setCur; split <;> rfl

@[simp] theorem setCur_col (p : parse) (n : pnode) :
    (p.setCur n).col = p.col := by
  unfold setCur; split <;> rfl

@[simp] theorem setCur_nline (p : parse) (n : pnode) :
    (p.setCur n).nline = p.nline := by
  unfold setCur; split <;> rfl

@[simp] theorem setCur_ncol (p : parse) (n : pnode) :
    (p.setCur n).ncol = p.ncol := by
  unfold setCur; split <;> rfl

@[simp] theorem setCur_del (p : parse) (n : pnode) :
    (p.setCur n).del = p.del := by
  unfold setCur; split <;> rfl

@[simp] theorem setCur_nofill (p : parse) (n : pnode) :
    (p.setCur n).nofill = p.nofill := by
  unfold setCur; split <;> rfl

@[simp] theorem setCur_flags (p : parse) (n : pnode) :
    (p.setCur n).flags = p.flags := by
  unfold setCur; split <;> rfl

@[simp] theorem setCur_next (p : parse) (n : pnode) :
    (p.setCur n).next = p.next := by
  unfold setCur; split <;> rfl

@[simp] theorem setCur_files (p : parse) (n : pnode) :
    (p.setCur n).files = p.files := by
  unfold setCur; split <;> rfl

@[simp] theorem setCur_loose (p : parse) (n : pnode) :
    (p.setCur n).loose = p.loose := by
  unfold setCur; split <;> rfl

@[simp] theorem push_fname (p : parse) (n : pnode) :
    (p.push n).fname = p.fname := by
  rfl

@[simp] theorem push_root (p : parse) (n : pnode) :
    (p.push n).root = p.root := by
  rfl

@[simp] theorem push_tflags (p : parse) (n : pnode) :
    (p.push n).tflags = p.tflags := by
  rfl

@[simp] theorem push_doctype (p : parse) (n : pnode) :
    (p.push n).doctype = p.doctype := by
  rfl

@[simp] theorem push_ncur (p : parse) (n : pnode) :
    (p.push n).ncur = p.ncur := by
  rfl

@[simp] theorem push_line (p : parse) (n : pnode) :
    (p.push n).line = p.line := by
  rfl

@[simp] theorem push_col (p : parse) (n : pnode) :
    (p.push n).col = p.col := by
  rfl

@[simp] theorem push_nline (p : parse) (n : pnode) :
    (p.push n).nline = p.nline := by
  rfl

@[simp] theorem push_ncol (p : parse) (n : pnode) :
    (p.push n).ncol = p.ncol := by
  rfl

@[simp] theorem push_del (p : parse) (n : pnode) :
    (p.push n).del = p.del := by
  rfl

@[simp] theorem push_nofill (p : parse) (n : pnode) :
    (p.push n).nofill = p.nofill := by
  rfl

@[simp] theorem push_flags (p : parse) (n : pnode) :
    (p.push n).flags = p.flags := by
  rfl

@[simp] theorem push_next (p : parse) (n : pnode) :
    (p.push n).next = p.next := by
  rfl

@[simp] theorem push_files (p : parse) (n : pnode) :
    (p.push n).files = p.files := by
  rfl

@[simp] theorem push_loose (p : parse) (n : pnode) :
    (p.push n).loose = p.loose := by
  rfl

@[simp] theorem link_fname (p : parse) (n : pnode) :
    (p.link n).fname = p.fname := by
  unfold link; split <;> rfl

@[simp] theorem link_root (p : parse) (n : pnode) :
    (p.link n).root = p.root := by
  unfold link; split <;> rfl

@[simp] theorem link_tflags (p : parse) (n : pnode) :
    (p.link n).tflags = p.tflags := by
  unfold link; split <;> rfl

@[simp] theorem link_doctype (p : parse) (n : pnode) :
    (p.link n).doctype = p.doctype := by
  unfold link; split <;> rfl

@[simp] theorem link_ncur (p : parse) (n : pnode) :
    (p.link n).ncur = p.ncur := by
  unfold link; split <;> rfl

@[simp] theorem link_line (p : parse) (n : pnode) :
    (p.link n).line = p.line := by
  unfold link; split <;> rfl

@[simp] theorem link_col (p : parse) (n : pnode) :
    (p.link n).col = p.col := by
  unfold link; split <;> rfl

@[simp] theorem link_nline (p : parse) (n : pnode) :
    (p.link n).nline = p.nline := by
  unfold link; split <;> rfl

@[simp] theorem link_ncol (p : parse) (n : pnode) :
    (p.link n).ncol = p.ncol := by
  unfold link; split <;> rfl

@[simp] theorem link_del (p : parse) (n : pnode) :
    (p.link n).del = p.del := by
  unfold link; split <;> rfl

@[simp] theorem link_nofill (p : parse) (n : pnode) :
    (p.link n).nofill = p.nofill := by
  unfold link; split <;> rfl

@[simp] theorem link_flags (p : parse) (n : pnode) :
    (p.link n).flags = p.flags := by
  unfold link; split <;> rfl

@[simp] theorem link_next (p : parse) (n : pnode) :
    (p.link n).next = p.next := by
  unfold link; split <;> rfl

@[simp] theorem link_files (p : parse) (n : pnode) :
    (p.link n).files = p.files := by
  unfold link; split <;> rfl

@[simp] theorem pop_fname (p : parse) : p.pop.fname = p.fname := by
  unfold pop; split
  · rfl
  · exact link_fname _ _

@[simp] theorem pop_root (p : parse) : p.pop.root = p.root := by
  unfold pop; split
  · rfl
  · exact link_root _ _

@[simp] theorem pop_tflags (p : parse) : p.pop.tflags = p.tflags := by
  unfold pop; split
  · rfl
  · exact link_tflags _ _

@[simp] theorem pop_doctype (p : parse) : p.pop.doctype = p.doctype := by
  unfold pop; split
  · rfl
  · exact link_doctype _ _

@[simp] theorem pop_ncur (p : parse) : p.pop.ncur = p.ncur := by
  unfold pop; split
  · rfl
  · exact link_ncur _ _

@[simp] theorem pop_line (p : parse) : p.pop.line = p.line := by
  unfold pop; split
  · rfl
  · exact link_line _ _

@[simp] theorem pop_col (p : parse) : p.pop.col = p.col := by
  unfold pop; split
  · rfl
  · exact link_col _ _

@[simp] theorem pop_nline (p : parse) : p.pop.nline = p.nline := by
  unfold pop; split
  · rfl
  · exact link_nline _ _

@[simp] theorem pop_ncol (p : parse) : p.pop.ncol = p.ncol := by
  unfold pop; split
  · rfl
  · exact link_ncol _ _

@[simp] theorem pop_del (p : parse) : p.pop.del = p.del := by
  unfold pop; split
  · rfl
  · exact link_del _ _

@[simp] theorem pop_nofill (p : parse) : p.pop.nofill = p.nofill := by
  unfold pop; split
  · rfl
  · exact link_nofill _ _

@[simp] theorem pop_flags (p : parse) : p.pop.flags = p.flags := by
  unfold pop; split
  · rfl
  · exact link_flags _ _

@[simp] theorem pop_next (p : parse) : p.pop.next = p.next := by
  unfold pop; split
  · rfl
  · exact link_next _ _

@[simp] theorem pop_files (p : parse) : p.pop.files = p.files := by
  unfold pop; split
  · rfl
  · exact link_files _ _

@[simp] theorem setCur_stack (p : parse) (n c : pnode) (rest : List pnode)
    (h : p.stack = c :: rest) : (p.setCur n).stack = n :: rest := by
  unfold setCur; rw [h]

@[simp] theorem push_stack (p : parse) (n : pnode) : (p.push n).stack = n :: p.stack := rfl

theorem link_stack (p : parse) (n c : pnode) (rest : List pnode) (h : p.stack = c :: rest) :
    (p.link n).stack = c.insertTail n :: rest ∧ (p.link n).loose = p.loose := by
  unfold link; rw [h]; exact ⟨rfl, rfl⟩

theorem link_nil (p : parse) (n : pnode) (h : p.stack = []) :
    (p.link n).stack = [] ∧ (p.link n).loose = p.loose ++ [n] := by
  unfold link; rw [h]; exact ⟨rfl, rfl⟩

theorem pop_stack (p : parse) (n c : pnode) (rest : List pnode) (h : p.stack = n :: c :: rest) :
    p.pop.stack = c.insertTail n :: rest ∧ p.pop.loose = p.loose := by
  unfold pop; rw [h]; exact ⟨rfl, rfl⟩

theorem pop_last (p : parse) (n : pnode) (h : p.stack = [n]) :
    p.pop.stack = [] ∧ p.pop.loose = p.loose ++ [n] := by
  unfold pop; rw [h]; exact ⟨rfl, rfl⟩

theorem pop_nil (p : parse) (h : p.stack = []) : p.pop = p := by
  unfold pop; rw [h]

end parse

@[simp] theorem warn_msg_stack (p : parse) : (warn_msg p).stack = p.stack := by
  unfold warn_msg; split <;> rfl

@[simp] theorem error_msg_stack (p : parse) : (error_msg p).stack = p.stack := rfl

@[simp] theorem warn_msg_loose (p : parse) : (warn_msg p).loose = p.loose := by
  unfold warn_msg; split <;> rfl

@[simp] theorem error_msg_loose (p : parse) : (error_msg p).loose = p.loose := rfl

@[simp] theorem warn_msg_root (p : parse) : (warn_msg p).root = p.root := by
  unfold warn_msg; split <;> rfl

@[simp] theorem error_msg_root (p : parse) : (error_msg p).root = p.root := rfl

@[simp] theorem warn_msg_doctype (p : parse) : (warn_msg p).doctype = p.doctype := by
  unfold warn_msg; split <;> rfl

@[simp] theorem error_msg_doctype (p : parse) : (error_msg p).doctype = p.doctype := rfl

@[simp] theorem warn_msg_ncur (p : parse) : (warn_msg p).ncur = p.ncur := by
  unfold warn_msg; split <;> rfl

@[simp] theorem error_msg_ncur (p : parse) : (error_msg p).ncur = p.ncur := rfl

@[simp] theorem warn_msg_del (p : parse) : (warn_msg p).del = p.del := by
  unfold warn_msg; split <;> rfl

@[simp] theorem error_msg_del (p : parse) : (error_msg p).del = p.del := rfl

@[simp] theorem warn_msg_nofill (p : parse) : (warn_msg p).nofill = p.nofill := by
  unfold warn_msg; split <;> rfl

@[simp] theorem error_msg_nofill (p : parse) : (error_msg p).nofill = p.nofill := rfl

@[simp] theorem warn_msg_flags (p : parse) : (warn_msg p).flags = p.flags := by
  unfold warn_msg; split <;> rfl

@[simp] theorem error_msg_flags (p : parse) : (error_msg p).flags = p.flags := rfl

@[simp] theorem warn_msg_next (p : parse) : (warn_msg p).next = p.next := by
  unfold warn_msg; split <;> rfl

@[simp] theorem error_msg_next (p : parse) : (error_msg p).next = p.next := rfl

@[simp] theorem warn_msg_files (p : parse) : (warn_msg p).files = p.files := by
  unfold warn_msg; split <;> rfl

@[simp] theorem error_msg_files (p : parse) : (error_msg p).files = p.files := rfl

@[simp] theorem warn_msg_fname (p : parse) : (warn_msg p).fname = p.fname := by
  unfold warn_msg; split <;> rfl

@[simp] theorem error_msg_fname (p : parse) : (error_msg p).fname = p.fname := rfl

@[simp] theorem warn_msg_line (p : parse) : (warn_msg p).line = p.line := by
  unfold warn_msg; split <;> rfl

@[simp] theorem error_msg_line (p : parse) : (error_msg p).line = p.line := rfl

@[simp] theorem warn_msg_col (p : parse) : (warn_msg p).col = p.col := by
  unfold warn_msg; split <;> rfl

@[simp] theorem error_msg_col (p : parse) : (error_msg p).col = p.col := rfl

@[simp] theorem warn_msg_nline (p : parse) : (warn_msg p).nline = p.nline := by
  unfold warn_msg; split <;> rfl

@[simp] theorem error_msg_nline (p : parse) : (error_msg p).nline = p.nline := rfl

@[simp] theorem warn_msg_ncol (p : parse) : (warn_msg p).ncol = p.ncol := by
  unfold warn_msg; split <;> rfl

@[simp] theorem error_msg_ncol (p : parse) : (error_msg p).ncol = p.ncol := rfl

/-- The forms of the state that `pnode_closetext` returns: the state as it
is when no text node is open, and else the text node is closed with the
string `rstrip b`, or, when the last word is split off, with the part before
the last word, and the last word follows in a text node of its own. -/
theorem pnode_closetext_cases (p q : parse) (chk : Bool) (h : pnode_closetext p chk = .ok q) :
    (q = p ∧ ∀ n, p.stack.head? = some n → n.node ≠ NODE_TEXT) ∨
    ∃ n rest b p1, p.stack = n :: rest ∧ n.node = NODE_TEXT ∧ n.b = some b ∧
      ((¬ (rstrip b).length < b.length ∧ p1 = p) ∨ ((rstrip b).length < b.length ∧
        p1 = { p with flags := { p.flags with spc := true } })) ∧
      (q = (p1.setCur (n.setB (some (rstrip b)))).pop ∨
        ∃ m t, (rstrip ((rstrip b).take m)).length ≠ 0 ∧ chk = true ∧ t.node = NODE_TEXT ∧
          t.b = some ((rstrip b).reverse.takeWhile (fun c => !c_isspace c)).reverse ∧
          t.childq = [] ∧ t.flags.spc = true ∧
          q = (p1.setCur (n.setB (some (rstrip ((rstrip b).take m))))).pop.alloc.2.link t) := by
  obtain ⟨fname, root, tfl, doctype, stack, loose, ncur, line, col, nline, ncol, del, nofill,
    flags, next, files⟩ := p
  unfold pnode_closetext at h
  cases stack with
  | nil =>
    cases h
    exact Or.inl ⟨rfl, fun n hn => by cases hn⟩
  | cons n rest =>
    dsimp only at h
    by_cases hn : n.node = NODE_TEXT
    · rw [if_neg (by simpa using hn)] at h
      cases hb : n.b with
      | none => rw [hb] at h; cases h
      | some b =>
        rw [hb] at h
        dsimp only at h
        right
        generalize hg : (if (rstrip b).length < b.length then
          ({ fname := fname, root := root, tflags := tfl, doctype := doctype,
             stack := n :: rest, loose := loose, ncur := ncur, line := line, col := col,
             nline := nline, ncol := ncol, del := del, nofill := nofill,
             flags := { flags with spc := true }, next := next, files := files } : parse)
          else _) = p1 at h
        have hp1 : (¬ (rstrip b).length < b.length ∧
            p1 = ⟨fname, root, tfl, doctype, n :: rest, loose, ncur, line, col, nline,
            ncol, del, nofill, flags, next, files⟩) ∨
            ((rstrip b).length < b.length ∧
            p1 = ⟨fname, root, tfl, doctype, n :: rest, loose, ncur, line, col, nline,
              ncol, del, nofill, { flags with spc := true }, next, files⟩) := by
          split at hg
          · exact Or.inr ⟨‹_›, hg.symm⟩
          · exact Or.inl ⟨‹_›, hg.symm⟩
        split at h
        · cases h
          exact ⟨n, rest, b, p1, rfl, hn, hb, hp1, Or.inl rfl⟩
        · rename_i hchk
          have hc : chk = true := by
            cases chk with
            | true => rfl
            | false => exact absurd (Or.inr rfl) hchk
          split at h
          · cases h
            exact ⟨n, rest, b, p1, rfl, hn, hb, hp1, Or.inl rfl⟩
          · rename_i hfront
            cases h
            refine ⟨n, rest, b, p1, rfl, hn, hb, hp1, Or.inr ⟨_, _, ?_, hc, ?_, ?_, ?_, ?_, rfl⟩⟩
            · simpa using hfront
            · rfl
            · rfl
            · rfl
            · rfl
    · rw [if_pos (by simpa using hn)] at h
      cases h
      refine Or.inl ⟨rfl, fun m hm => ?_⟩
      simp only [List.head?_cons, Option.some.injEq] at hm
      exact hm ▸ hn

/-- What `pnode_closetext` leaves as it is. -/
theorem pnode_closetext_frame (p q : parse) (chk : Bool) (h : pnode_closetext p chk = .ok q) :
    q.del = p.del ∧ q.ncur = p.ncur ∧ q.nofill = p.nofill ∧ q.tflags = p.tflags ∧
    q.root = p.root ∧ q.doctype = p.doctype ∧ q.files = p.files ∧ q.fname = p.fname ∧
    q.flags.warn = p.flags.warn ∧ q.flags.eend = p.flags.eend ∧ q.flags.attr = p.flags.attr ∧
    q.flags.line = p.flags.line := by
  rcases pnode_closetext_cases p q chk h with ⟨rfl, -⟩ | ⟨n, rest, b, p1, -, -, -, hp1, hq⟩
  · simp
  · rcases hp1 with ⟨-, rfl⟩ | ⟨-, rfl⟩ <;>
      rcases hq with rfl | ⟨m, t, -, -, -, -, -, -, rfl⟩ <;> simp [parse.alloc]

/-! ## Entities: xml_entity -/

theorem find_key_of_nodup {α β : Type} [BEq α] [LawfulBEq α] : ∀ (l : List (α × β)) (e : α × β),
    (l.map Prod.fst).Nodup → e ∈ l → l.find? (fun x => x.1 == e.1) = some e
  | [], _, _, h => by cases h
  | x :: l, e, hnd, h => by
    rw [List.map_cons, List.nodup_cons] at hnd
    rcases List.mem_cons.1 h with rfl | h
    · simp
    · have hne : x.1 ≠ e.1 := by
        intro heq
        exact hnd.1 (heq ▸ List.mem_map_of_mem Prod.fst h)
      rw [List.find?_cons_of_neg _ (by simpa using hne)]
      exact find_key_of_nodup l e hnd.2 h

theorem entities_nodup : (entities.map Prod.fst).Nodup := by decide!

theorem entities_find (name roff : cstring) (h : (name, roff) ∈ entities) :
    entities.find? (fun e => e.1 == name) = some (name, roff) :=
  find_key_of_nodup entities (name, roff) entities_nodup h

/-- What `pnode_closetext(p, 0)` does when a node is current: nothing when it
is no text node, and else the text node, without its trailing white space,
is the last child of the node below it on the stack, which is current. -/
theorem pnode_closetext_cur (p : parse) (n : pnode) (rest : List pnode)
    (hstack : p.stack = n :: rest) (htext : n.node = NODE_TEXT → n.b ≠ none ∧ rest ≠ []) :
    ∃ q c up, pnode_closetext p false = .ok q ∧ q.stack = c :: up ∧
      (n.node ≠ NODE_TEXT → q = p) ∧ q.tflags = p.tflags ∧ q.loose = p.loose ∧
      q.root = p.root ∧ q.del = p.del ∧ q.next = p.next ∧ q.doctype = p.doctype ∧
      q.nofill = p.nofill := by
  unfold pnode_closetext
  rw [hstack]
  by_cases hk : n.node = NODE_TEXT
  · obtain ⟨hb, hrest⟩ := htext hk
    obtain ⟨s, hs⟩ := Option.ne_none_iff_exists'.1 hb
    obtain ⟨c, up, rfl⟩ := List.exists_cons_of_ne_nil hrest
    simp only [hk, ne_eq, not_true_eq_false, if_false, hs, Bool.not_false, or_true, if_true]
    refine ⟨_, c.insertTail (n.setB (some (rstrip s))), up, rfl, ?_, fun h => absurd hk (by simp at h), ?_⟩
    · split <;> simp [parse.setCur, parse.pop, parse.link, hstack]
    · split <;> simp [parse.setCur, parse.pop, parse.link, hstack]
  · simp only [ne_eq, hk, not_false_eq_true, if_true]
    exact ⟨p, n, rest, rfl, hstack, fun _ => rfl, rfl, rfl, rfl, rfl, rfl, rfl, rfl⟩

theorem warn_msg_fields (x : parse) : (warn_msg x).stack = x.stack ∧
    (warn_msg x).next = x.next ∧ (warn_msg x).tflags.error = x.tflags.error ∧
    (warn_msg x).del = x.del ∧ (warn_msg x).loose = x.loose ∧ (warn_msg x).root = x.root ∧
    (warn_msg x).flags = x.flags ∧ (warn_msg x).doctype = x.doctype ∧
    (warn_msg x).nofill = x.nofill := by
  unfold warn_msg
  split <;> simp

/-- The start of `xml_entity` with a current node and no deletion in
progress: the open text node is closed, which gives the state `q`, and the
rest works on a state `q2` that differs from `q` at most in the flag
`TREE_WARN`. -/
theorem xml_entity_closetext (r : nested) (p : parse) (n : pnode)
    (rest : List pnode) (hdel : p.del = 0) (hstack : p.stack = n :: rest)
    (htext : n.node = NODE_TEXT → n.b ≠ none ∧ rest ≠ []) :
    ∃ q c up q2,
      pnode_closetext p false = .ok q ∧ q.stack = c :: up ∧ (n.node ≠ NODE_TEXT → q = p) ∧
      (∀ name, xml_entity r p name =
        (match entities.find? (fun e => e.1 == name) with
          | some e => xml_entity_done q2 e.2
          | none => xml_entity_other r q2 name)) ∧
      q2.stack = c :: up ∧ q2.next = p.next ∧ q2.tflags.error = p.tflags.error ∧ q2.del = 0 ∧
      q2.loose = p.loose ∧ q2.root = p.root ∧ q2.flags = q.flags ∧ q2.doctype = p.doctype ∧
      q2.nofill = p.nofill ∧ q2.loose = q.loose := by
  obtain ⟨q, c, up, hq, hqs, hqp, hqt, hql, hqr, hqd, hqn, hqdt, hqnf⟩ :=
    pnode_closetext_cur p n rest hstack htext
  have hlen : ¬ p.stack.length = 0 := by simp [hstack]
  have hdel1 : ¬ p.del > 0 := by omega
  refine ⟨q, c, up,
    if q.tflags.closed = true ∧ q.cur.map pnode.addr = q.root then warn_msg q else q,
    hq, hqs, hqp, ?_, ?_⟩
  · intro name
    unfold xml_entity
    simp only [hdel1, hlen, if_false, hq]
    try rfl
  · split
    · simp [warn_msg_fields, hqs, hqn, hqt, hqd, hdel, hql, hqr, hqdt, hqnf]
    · simp [hqs, hqn, hqt, hqd, hdel, hql, hqr, hqdt, hqnf]

/-- The end of `xml_entity` from the label `done` on, with a current node. -/
theorem xml_entity_done_cur (q2 : parse) (b : cstring) (c : pnode) (up : List pnode)
    (hs : q2.stack = c :: up) :
    ∃ p2, xml_entity_done q2 b = .ok p2 ∧
      p2.stack = c.setChildq (c.childq ++
        [pnode.mk q2.next NODE_ESCAPE (some b) (some c.addr)
          ⟨q2.flags.line && c.childq.getLast?.isSome, q2.flags.spc⟩ [] []]) :: up ∧
      p2.cur.map pnode.addr = some c.addr ∧
      p2.tflags = q2.tflags ∧ p2.del = q2.del ∧ p2.loose = q2.loose ∧
      p2.root = q2.root ∧ p2.next = q2.next + 1 ∧ p2.nofill = q2.nofill ∧
      p2.doctype = q2.doctype := by
  have hd : xml_entity_done q2 b = .ok
      { (q2.alloc.2.link (((q2.alloc.1.setB (some b)).setNode NODE_ESCAPE).setFlags
          ⟨q2.flags.line && c.childq.getLast?.isSome, q2.flags.spc⟩)) with
        flags := { q2.flags with line := false, spc := false } } := by
    unfold xml_entity_done
    rw [hs]
  refine ⟨_, hd, ?_⟩
  simp [parse.alloc, parse.link, parse.cur, hs, pnode_alloc]

/-- C11: for every name of the table `entities`, `xml_entity` with a current
node and no deletion in progress first closes an open text node, which gives
the state `q` with the current node `c`, and then appends exactly one node as
the last child of `c`: an `ESCAPE` node without children whose string is the
replacement of the table.  The node `c` stays current, the error flag and the
deletion counter are as before, and one address is used up. -/
theorem xml_entity_table (r : nested) (p : parse) (name roff : cstring) (n : pnode)
    (rest : List pnode) (he : (name, roff) ∈ entities) (hdel : p.del = 0)
    (hstack : p.stack = n :: rest) (htext : n.node = NODE_TEXT → n.b ≠ none ∧ rest ≠ []) :
    ∃ q c up p2,
      pnode_closetext p false = .ok q ∧ q.stack = c :: up ∧ (n.node ≠ NODE_TEXT → q = p) ∧
      xml_entity r p name = .ok p2 ∧
      p2.stack = c.setChildq (c.childq ++
        [pnode.mk p.next NODE_ESCAPE (some roff) (some c.addr)
          ⟨q.flags.line && c.childq.getLast?.isSome, q.flags.spc⟩ [] []]) :: up ∧
      p2.cur.map pnode.addr = some c.addr ∧
      p2.tflags.error = p.tflags.error ∧ p2.del = 0 ∧ p2.loose = p.loose ∧
      p2.root = p.root ∧ p2.next = p.next + 1 := by
  obtain ⟨q, c, up, q2, hq, hqs, hqp, hx, h2s, h2n, h2e, h2d, h2l, h2r, h2f, -, -, -⟩ :=
    xml_entity_closetext r p n rest hdel hstack htext
  have hx := hx name
  rw [entities_find name roff he] at hx
  obtain ⟨p2, hd, h3s, h3c, h3t, h3d, h3l, h3r, h3n, -, -⟩ := xml_entity_done_cur q2 roff c up h2s
  refine ⟨q, c, up, p2, hq, hqs, hqp, hx.trans hd, ?_, h3c, ?_, ?_, ?_, ?_, ?_⟩
  · rw [h3s, h2n, h2f]
  · rw [h3t, h2e]
  · rw [h3d, h2d]
  · rw [h3l, h2l]
  · rw [h3r, h2r]
  · rw [h3n, h2n]

/-- In the state after `<para>a `, the entity `copy` closes the text node
with the string `a` and adds the ESCAPE node with the string `\(co` behind it;
the table also holds `mdash`, `lt` and `amp` with the replacements `\(em`, `<`
and `&`. -/
theorem xml_entity_table_witness :
    (("mdash".toList, "\\(em".toList) ∈ entities ∧ ("lt".toList, "<".toList) ∈ entities ∧
      ("amp".toList, "&".toList) ∈ entities) ∧
    ∃ q c up p2,
      pnode_closetext ex_open false = .ok q ∧ q.stack = c :: up ∧
      ((pnode.mk 2 NODE_TEXT (some "a ".toList) (some 1) ⟨false, false⟩ [] []).node ≠ NODE_TEXT →
        q = ex_open) ∧
      xml_entity (parse_nested 0) ex_open "copy".toList = .ok p2 ∧
      p2.stack = c.setChildq (c.childq ++
        [pnode.mk ex_open.next NODE_ESCAPE (some "\\(co".toList) (some c.addr)
          ⟨q.flags.line && c.childq.getLast?.isSome, q.flags.spc⟩ [] []]) :: up ∧
      p2.cur.map pnode.addr = some c.addr ∧
      p2.tflags.error = ex_open.tflags.error ∧ p2.del = 0 ∧ p2.loose = ex_open.loose ∧
      p2.root = ex_open.root ∧ p2.next = ex_open.next + 1 :=
  ⟨by decide!, xml_entity_table (parse_nested 0) ex_open "copy".toList "\\(co".toList
    (pnode.mk 2 NODE_TEXT (some "a ".toList) (some 1) ⟨false, false⟩ [] [])
    [pnode.mk 1 NODE_PARA none none ⟨false, true⟩ [] []] (by decide!) rfl rfl
    (fun _ => ⟨by simp, by simp⟩)⟩

/-! ## Numbers in entity names: strtonum and the conversion %4.4X -/

theorem toDigitsCore_fuel (b : Nat) (hb : 2 ≤ b) : ∀ (n f1 f2 : Nat) (ds : List Char),
    n < f1 → n < f2 → Nat.toDigitsCore b f1 n ds = Nat.toDigitsCore b f2 n [] ++ ds := by
  intro n
  induction n using Nat.strong_induction_on with
  | _ n ih =>
    intro f1 f2 ds h1 h2
    obtain ⟨g1, rfl⟩ : ∃ g, f1 = g + 1 := ⟨f1 - 1, by omega⟩
    obtain ⟨g2, rfl⟩ : ∃ g, f2 = g + 1 := ⟨f2 - 1, by omega⟩
    simp only [Nat.toDigitsCore]
    by_cases h0 : n / b = 0
    · simp [h0]
    · simp only [h0, if_false]
      have hlt : n / b < n := by
        have hn : 0 < n := by
          rcases Nat.eq_zero_or_pos n with h | h
          · simp [h] at h0
          · exact h
        exact Nat.div_lt_self hn (by omega)
      rw [ih (n / b) hlt g1 g2 _ (by omega) (by omega),
        ih (n / b) hlt g2 g2 [Nat.digitChar (n % b)] (by omega) (by omega)]
      simp

theorem toDigits_lt (b n : Nat) (_hb : 2 ≤ b) (h : n < b) :
    Nat.toDigits b n = [Nat.digitChar n] := by
  have h0 : n / b = 0 := Nat.div_eq_of_lt h
  simp [Nat.toDigits, Nat.toDigitsCore, h0, Nat.mod_eq_of_lt h]

theorem toDigits_ge (b n : Nat) (hb : 2 ≤ b) (h : b ≤ n) :
    Nat.toDigits b n = Nat.toDigits b (n / b) ++ [Nat.digitChar (n % b)] := by
  have h0 : n / b ≠ 0 := by
    have : 0 < n / b := Nat.div_pos h (by omega)
    omega
  have hlt : n / b < n := Nat.div_lt_self (by omega) (by omega)
  simp only [Nat.toDigits, Nat.toDigitsCore, h0, if_false]
  exact toDigitsCore_fuel b hb (n / b) n (n / b + 1) _ hlt (by omega)

theorem digitChar_dec_fin : ∀ k : Fin 10, (Nat.digitChar k.1).isDigit = true ∧
    (Nat.digitChar k.1).toNat - 48 = k.1 ∧ c_isspace (Nat.digitChar k.1) = false ∧
    Nat.digitChar k.1 ≠ '-' ∧ Nat.digitChar k.1 ≠ '+' := by
  decide

theorem digitChar_dec (k : Nat) (h : k < 10) : (Nat.digitChar k).isDigit = true ∧
    (Nat.digitChar k).toNat - 48 = k ∧ c_isspace (Nat.digitChar k) = false ∧
    Nat.digitChar k ≠ '-' ∧ Nat.digitChar k ≠ '+' :=
  digitChar_dec_fin ⟨k, h⟩

/-- The value that `strtonum` computes from a string of digits. -/
theorem toDigits_dec (n : Nat) :
    Nat.toDigits 10 n ≠ [] ∧ (∀ d ∈ Nat.toDigits 10 n, ∃ k, k < 10 ∧ d = Nat.digitChar k) ∧
    (Nat.toDigits 10 n).foldl (fun (acc : Int) c => acc * 10 + (c.toNat - 48 : Nat)) 0 = n := by
  induction n using Nat.strong_induction_on with
  | _ n ih =>
    by_cases h : n < 10
    · rw [toDigits_lt 10 n (by omega) h]
      refine ⟨by simp, ?_, ?_⟩
      · intro d hd
        exact ⟨n, h, by simpa using hd⟩
      · simp [(digitChar_dec n h).2.1]
    · rw [toDigits_ge 10 n (by omega) (by omega)]
      obtain ⟨-, h2, h3⟩ := ih (n / 10) (by omega)
      refine ⟨by simp, ?_, ?_⟩
      · intro d hd
        rcases List.mem_append.1 hd with hd | hd
        · exact h2 d hd
        · exact ⟨n % 10, Nat.mod_lt _ (by omega), by simpa using hd⟩
      · rw [List.foldl_append, h3]
        simp only [List.foldl_cons, List.foldl_nil]
        rw [(digitChar_dec (n % 10) (Nat.mod_lt _ (by omega))).2.1]
        omega

theorem strtonum_toDigits (c : Nat) (maxval : Int) (h : (c : Int) ≤ maxval) :
    strtonum (Nat.toDigits 10 c) 0 maxval = some (c : Int) := by
  obtain ⟨h1, h2, h3⟩ := toDigits_dec c
  obtain ⟨c0, rest, hds⟩ := List.exists_cons_of_ne_nil h1
  have hall : ∀ d ∈ Nat.toDigits 10 c, d.isDigit = true ∧ c_isspace d = false ∧ d ≠ '-' ∧
      d ≠ '+' := by
    intro d hd
    obtain ⟨k, hk, rfl⟩ := h2 d hd
    exact ⟨(digitChar_dec k hk).1, (digitChar_dec k hk).2.2⟩
  have h0 := hall c0 (by simp [hds])
  have hdrop : (Nat.toDigits 10 c).dropWhile c_isspace = Nat.toDigits 10 c := by
    rw [hds, List.dropWhile_cons_of_neg (by simp [h0.2.1])]
  have hhead : (Nat.toDigits 10 c).head? = some c0 := by rw [hds]; rfl
  have hd : (Nat.toDigits 10 c).all Char.isDigit = true := by
    rw [List.all_eq_true]
    exact fun d hd => (hall d hd).1
  unfold strtonum
  simp only [hdrop, hhead, Option.some.injEq, h0.2.2.1, h0.2.2.2, or_self, if_false, hd,
    Bool.not_true, h3, decide_False, Bool.false_eq_true]
  have hlen : (Nat.toDigits 10 c).length ≠ 0 := by simp [hds]
  simp only [hlen, false_or, if_false]
  have : ¬ ((c : Int) < 0 ∨ (c : Int) > maxval) := by omega
  simp [this]

theorem strtonum_hex (s : cstring) (minval maxval : Int) :
    strtonum ('x' :: s) minval maxval = none := by
  have hx : c_isspace 'x' = false := by decide
  have hd : Char.isDigit 'x' = false := by decide
  unfold strtonum
  rw [List.dropWhile_cons_of_neg (by simp [hx])]
  simp [hd]

theorem digitChar_hex_fin : ∀ k : Fin 16,
    c_toupper (Nat.digitChar k.1) ∈ "0123456789ABCDEF".toList ∧
    "0123456789ABCDEF".toList.indexOf (c_toupper (Nat.digitChar k.1)) = k.1 := by
  decide

theorem digitChar_hex (k : Nat) (h : k < 16) :
    c_toupper (Nat.digitChar k) ∈ "0123456789ABCDEF".toList ∧
    "0123456789ABCDEF".toList.indexOf (c_toupper (Nat.digitChar k)) = k :=
  digitChar_hex_fin ⟨k, h⟩

/-- The number of hexadecimal digits of a number. -/
theorem toDigits_hex_length : ∀ (k n : Nat), n < 16 ^ (k + 1) → (k = 0 ∨ 16 ^ k ≤ n) →
    (Nat.toDigits 16 n).length = k + 1
  | 0, n, h, _ => by
    rw [toDigits_lt 16 n (by omega) (by simpa using h)]
    rfl
  | k + 1, n, h, h0 => by
    have hge : 16 ^ (k + 1) ≤ n := by
      rcases h0 with h0 | h0
      · omega
      · exact h0
    have h16 : 16 ≤ n := le_trans (by
      have : 1 ≤ 16 ^ k := Nat.one_le_pow _ _ (by omega)
      rw [pow_succ]
      omega) hge
    rw [toDigits_ge 16 n (by omega) h16, List.length_append,
      toDigits_hex_length k (n / 16) ?_ ?_]
    · rfl
    · rw [Nat.div_lt_iff_lt_mul (by omega)]
      rw [pow_succ] at h
      exact h
    · right
      rw [Nat.le_div_iff_mul_le (by omega)]
      rw [pow_succ] at hge
      exact hge

/-- The digits of the conversion are upper-case hexadecimal digits whose
value is the number. -/
theorem toDigits_hex_value (n : Nat) :
    (∀ d ∈ (Nat.toDigits 16 n).map c_toupper, d ∈ "0123456789ABCDEF".toList) ∧
    ((Nat.toDigits 16 n).map c_toupper).foldl
      (fun acc d => acc * 16 + "0123456789ABCDEF".toList.indexOf d) 0 = n := by
  induction n using Nat.strong_induction_on with
  | _ n ih =>
    by_cases h : n < 16
    · rw [toDigits_lt 16 n (by omega) h]
      simp only [List.map_cons, List.map_nil, List.mem_singleton, forall_eq, List.foldl_cons,
        List.foldl_nil]
      exact ⟨(digitChar_hex n h).1, by rw [(digitChar_hex n h).2]; omega⟩
    · rw [toDigits_ge 16 n (by omega) (by omega)]
      obtain ⟨h2, h3⟩ := ih (n / 16) (by omega)
      have hm := digitChar_hex (n % 16) (Nat.mod_lt _ (by omega))
      refine ⟨?_, ?_⟩
      · intro d hd
        rw [List.map_append, List.mem_append] at hd
        rcases hd with hd | hd
        · exact h2 d hd
        · have hd' : d = c_toupper (Nat.digitChar (n % 16)) := by simpa using hd
          rw [hd']
          exact hm.1
      · rw [List.map_append, List.foldl_append, h3]
        simp only [List.map_cons, List.map_nil, List.foldl_cons, List.foldl_nil]
        rw [hm.2]
        omega

theorem fmt_4X_length (c : Nat) (hc : c ≤ 0x10FFFF) :
    (fmt_4X c).length = if c ≤ 0xFFFF then 4 else if c ≤ 0xFFFFF then 5 else 6 := by
  unfold fmt_4X
  simp only [List.length_append, List.length_replicate, List.length_map]
  by_cases h1 : c < 16
  · rw [toDigits_hex_length 0 c (by omega) (Or.inl rfl)]
    have : c ≤ 0xFFFF := by omega
    simp [this]
  by_cases h2 : c < 16 ^ 2
  · rw [toDigits_hex_length 1 c (by omega) (Or.inr (by omega))]
    have : c ≤ 0xFFFF := by omega
    simp [this]
  by_cases h3 : c < 16 ^ 3
  · rw [toDigits_hex_length 2 c (by omega) (Or.inr (by omega))]
    have : c ≤ 0xFFFF := by omega
    simp [this]
  by_cases h4 : c < 16 ^ 4
  · rw [toDigits_hex_length 3 c (by omega) (Or.inr (by omega))]
    have : c ≤ 0xFFFF := by omega
    simp [this]
  by_cases h5 : c < 16 ^ 5
  · rw [toDigits_hex_length 4 c (by omega) (Or.inr (by omega))]
    have ha : ¬ c ≤ 0xFFFF := by omega
    have hb : c ≤ 0xFFFFF := by omega
    simp [ha, hb]
  · rw [toDigits_hex_length 5 c (by omega) (Or.inr (by omega))]
    have ha : ¬ c ≤ 0xFFFF := by omega
    have hb : ¬ c ≤ 0xFFFFF := by omega
    simp [ha, hb]

theorem fmt_4X_value (c : Nat) :
    (∀ d ∈ fmt_4X c, d ∈ "0123456789ABCDEF".toList) ∧
    (fmt_4X c).foldl (fun acc d => acc * 16 + "0123456789ABCDEF".toList.indexOf d) 0 = c := by
  obtain ⟨h1, h2⟩ := toDigits_hex_value c
  unfold fmt_4X
  refine ⟨?_, ?_⟩
  · intro d hd
    rcases List.mem_append.1 hd with hd | hd
    · rw [List.eq_of_mem_replicate hd]
      decide
    · exact h1 d hd
  · rw [List.foldl_append]
    have hz : ∀ k : Nat, (List.replicate k '0').foldl
        (fun acc d => acc * 16 + "0123456789ABCDEF".toList.indexOf d) 0 = 0 := by
      intro k
      induction k with
      | zero => rfl
      | succ k ih =>
        rw [List.replicate_succ, List.foldl_cons]
        exact ih
    rw [hz]
    exact h2

/-! ## Numeric entity references -/

theorem entities_no_hash : ∀ e ∈ entities, e.1.head? ≠ some '#' := by decide!

theorem entities_find_hash (s : cstring) :
    entities.find? (fun e => e.1 == '#' :: s) = none := by
  rw [List.find?_eq_none]
  intro e he heq
  have h1 : e.1 = '#' :: s := by simpa using heq
  exact entities_no_hash e he (by rw [h1]; rfl)

/-- The part of `xml_entity` for a name that starts with `#` and that the
doctype does not declare. -/
theorem xml_entity_other_hash (r : nested) (q : parse) (s : cstring)
    (hdoc : ∀ d, q.doctype = some d →
      ∃ dt, q.deref d = some dt ∧ xml_entity_decl dt ('#' :: s) = none) :
    xml_entity_other r q ('#' :: s) =
      match strtonum s 0 0x10ffff with
      | some c => xml_entity_done q ("\\[u".toList ++ fmt_4X c.toNat ++ "]".toList)
      | none => .ok (error_msg q) := by
  unfold xml_entity_other
  simp only [List.head?_cons, if_true, List.drop_succ_cons, List.drop_zero]
  cases hd : q.doctype with
  | none => rfl
  | some d =>
    obtain ⟨dt, h1, h2⟩ := hdoc d hd
    simp only [h1, h2]
    try rfl

/-- A reference by number in a state with a current node and no deletion in
progress: what `xml_entity` does for the names `#N` with decimal digits and
`#x...`, when the doctype declares no entity with such a name. -/
theorem xml_entity_hash (r : nested) (p : parse) (c : Nat) (n : pnode) (rest : List pnode)
    (hc : c ≤ 0x10FFFF) (hdel : p.del = 0) (hstack : p.stack = n :: rest)
    (htext : n.node = NODE_TEXT → n.b ≠ none ∧ rest ≠ [])
    (hdoc : ∀ d, p.doctype = some d → ∀ q, pnode_closetext p false = .ok q →
      ∃ dt, q.deref d = some dt ∧ ∀ s, xml_entity_decl dt ('#' :: s) = none) :
    ∃ q cur up,
      pnode_closetext p false = .ok q ∧ q.stack = cur :: up ∧
      (∃ p2, xml_entity r p ('#' :: Nat.toDigits 10 c) = .ok p2 ∧
        p2.stack = cur.setChildq (cur.childq ++ [pnode.mk p.next NODE_ESCAPE
          (some ("\\[u".toList ++ fmt_4X c ++ "]".toList)) (some cur.addr)
          ⟨q.flags.line && cur.childq.getLast?.isSome, q.flags.spc⟩ [] []]) :: up ∧
        p2.tflags.error = p.tflags.error ∧ p2.next = p.next + 1) ∧
      (∀ s, ∃ p3, xml_entity r p ('#' :: 'x' :: s) = .ok p3 ∧
        p3.stack = cur :: up ∧ p3.tflags.error = true ∧ p3.next = p.next ∧
        p3.loose = p.loose) := by
  obtain ⟨q, cur, up, q2, hq, hqs, -, hx, h2s, h2n, h2e, h2d, h2l, h2r, h2f, h2dt, -, h2lq⟩ :=
    xml_entity_closetext r p n rest hdel hstack htext
  have hderef : ∀ d, q2.deref d = q.deref d := by
    intro d
    simp only [parse.deref, parse.zip, h2s, hqs, h2lq]
  have hdoc2 : ∀ s d, q2.doctype = some d →
      ∃ dt, q2.deref d = some dt ∧ xml_entity_decl dt ('#' :: s) = none := by
    intro s d hd
    obtain ⟨dt, h1, h2⟩ := hdoc d (h2dt ▸ hd) q hq
    exact ⟨dt, (hderef d).trans h1, h2 s⟩
  refine ⟨q, cur, up, hq, hqs, ?_, ?_⟩
  · obtain ⟨p2, hd, h3s, -, h3t, -, -, -, h3n, -, -⟩ :=
      xml_entity_done_cur q2 ("\\[u".toList ++ fmt_4X c ++ "]".toList) cur up h2s
    refine ⟨p2, ?_, ?_, ?_, ?_⟩
    · rw [hx, entities_find_hash, xml_entity_other_hash r q2 _ (hdoc2 _),
        strtonum_toDigits c 0x10ffff (by omega)]
      exact hd
    · rw [h3s, h2n, h2f]
    · rw [h3t, h2e]
    · rw [h3n, h2n]
  · intro s
    refine ⟨error_msg q2, ?_, ?_, ?_, ?_, ?_⟩
    · rw [hx, entities_find_hash, xml_entity_other_hash r q2 _ (hdoc2 _), strtonum_hex]
    · simp [error_msg, h2s]
    · simp [error_msg]
    · simp [error_msg, h2n]
    · simp [error_msg, h2l]

/-- The document `<para>&#x41;</para>`: the reference in hexadecimal form
sets the error flag and the paragraph gets no ESCAPE node, whereas
`<para>&#65;</para>` gives the ESCAPE node with the string `\[u0041]`. -/
theorem parse_hex_reference :
    (∀ warn, ((parse_file 0 (parse_alloc warn [] 1) (some "<para>&#x41;</para>".toList)
      "<stdin>".toList).bind parse_tree).map (fun t => t.flags.error) = .ok true) ∧
    (∀ warn, ((parse_file 0 (parse_alloc warn [] 1) (some "<para>&#x41;</para>".toList)
      "<stdin>".toList).bind parse_tree).map (fun t =>
        t.root.toList.map (fun root => root.nodes.map (fun m => (m.node, m.b)))) =
      .ok [[(NODE_PARA, none)]]) ∧
    (∀ warn, ((parse_file 0 (parse_alloc warn [] 1) (some "<para>&#65;</para>".toList)
      "<stdin>".toList).bind parse_tree).map (fun t => t.flags.error) = .ok false) ∧
    (∀ warn, ((parse_file 0 (parse_alloc warn [] 1) (some "<para>&#65;</para>".toList)
      "<stdin>".toList).bind parse_tree).map (fun t =>
        t.root.toList.map (fun root => root.nodes.map (fun m => (m.node, m.b)))) =
      .ok [[(NODE_PARA, none), (NODE_ESCAPE, some "\\[u0041]".toList)]]) := by
  refine ⟨by decide!, by decide!, by decide!, by decide!⟩

/-- C12: in a state with a current node and no deletion in progress, whose
doctype declares no entity with a name that starts with `#`, the name `#N`
with the decimal digits `N` of a code point `c` up to 0x10FFFF makes
`xml_entity` append one ESCAPE node with the string `\[u` `XXXX` `]`, where
`XXXX` are upper-case hexadecimal digits with the value `c`, at least four of
them, and the error flag stays as it is.  Every name `#x...`, among them the
code point in hexadecimal digits, is an unknown entity: `xml_entity` sets the
error flag and appends no node, since `strtonum` reads decimal numbers
only. -/
theorem xml_entity_numeric (r : nested) (p : parse) (c : Nat) (n : pnode) (rest : List pnode)
    (hc : c ≤ 0x10FFFF) (hdel : p.del = 0) (hstack : p.stack = n :: rest)
    (htext : n.node = NODE_TEXT → n.b ≠ none ∧ rest ≠ [])
    (hdoc : ∀ d, p.doctype = some d → ∀ q, pnode_closetext p false = .ok q →
      ∃ dt, q.deref d = some dt ∧ ∀ s, xml_entity_decl dt ('#' :: s) = none) :
    ∃ q cur up,
      pnode_closetext p false = .ok q ∧ q.stack = cur :: up ∧
      (∃ p2, xml_entity r p ('#' :: Nat.toDigits 10 c) = .ok p2 ∧
        p2.stack = cur.setChildq (cur.childq ++ [pnode.mk p.next NODE_ESCAPE
          (some ("\\[u".toList ++ fmt_4X c ++ "]".toList)) (some cur.addr)
          ⟨q.flags.line && cur.childq.getLast?.isSome, q.flags.spc⟩ [] []]) :: up ∧
        p2.tflags.error = p.tflags.error ∧ p2.next = p.next + 1) ∧
      (∀ d ∈ fmt_4X c, d ∈ "0123456789ABCDEF".toList) ∧
      (fmt_4X c).foldl (fun acc d => acc * 16 + "0123456789ABCDEF".toList.indexOf d) 0 = c ∧
      4 ≤ (fmt_4X c).length ∧
      (∀ s, ∃ p3, xml_entity r p ('#' :: 'x' :: s) = .ok p3 ∧
        p3.stack = cur :: up ∧ p3.tflags.error = true ∧ p3.next = p.next ∧
        p3.loose = p.loose) := by
  obtain ⟨q, cur, up, hq, hqs, h1, h2⟩ := xml_entity_hash r p c n rest hc hdel hstack htext hdoc
  refine ⟨q, cur, up, hq, hqs, h1, (fmt_4X_value c).1, (fmt_4X_value c).2, ?_, h2⟩
  rw [fmt_4X_length c hc]
  split
  · omega
  · split <;> omega

/-- In the state after `<para>a `, the name `#65` gives the string `\[u0041]`
and the name `#x41` the error flag. -/
theorem xml_entity_numeric_witness :
    ∃ q cur up,
      pnode_closetext ex_open false = .ok q ∧ q.stack = cur :: up ∧
      (∃ p2, xml_entity (parse_nested 0) ex_open ('#' :: Nat.toDigits 10 65) = .ok p2 ∧
        p2.stack = cur.setChildq (cur.childq ++ [pnode.mk ex_open.next NODE_ESCAPE
          (some ("\\[u".toList ++ fmt_4X 65 ++ "]".toList)) (some cur.addr)
          ⟨q.flags.line && cur.childq.getLast?.isSome, q.flags.spc⟩ [] []]) :: up ∧
        p2.tflags.error = ex_open.tflags.error ∧ p2.next = ex_open.next + 1) ∧
      (∀ d ∈ fmt_4X 65, d ∈ "0123456789ABCDEF".toList) ∧
      (fmt_4X 65).foldl (fun acc d => acc * 16 + "0123456789ABCDEF".toList.indexOf d) 0 = 65 ∧
      4 ≤ (fmt_4X 65).length ∧
      (∀ s, ∃ p3, xml_entity (parse_nested 0) ex_open ('#' :: 'x' :: s) = .ok p3 ∧
        p3.stack = cur :: up ∧ p3.tflags.error = true ∧ p3.next = ex_open.next ∧
        p3.loose = ex_open.loose) :=
  xml_entity_numeric (parse_nested 0) ex_open 65
    (pnode.mk 2 NODE_TEXT (some "a ".toList) (some 1) ⟨false, false⟩ [] [])
    [pnode.mk 1 NODE_PARA none none ⟨false, true⟩ [] []] (by decide) rfl rfl
    (fun _ => ⟨by simp, by simp⟩) (fun d hd => by simp [ex_open, parse_alloc] at hd)

/-- The claim of C13 fails as it is stated: the code point 0x100000 is above
0xFFFF, and the name `#1048576` gives an escape string with six hexadecimal
digits, `\[u100000]`. -/
theorem xml_entity_digits_counterexample :
    0xFFFF < 1048576 ∧ 1048576 ≤ 0x10FFFF ∧
    (xml_entity (parse_nested 0) ex_open ('#' :: Nat.toDigits 10 1048576)).map
      (fun p2 => p2.stack.map (fun c => c.childq.map (fun m => (m.node, m.b)))) =
        .ok [[(NODE_TEXT, some "a".toList), (NODE_ESCAPE, some "\\[u100000]".toList)]] ∧
    "100000".length = 6 := by
  decide!

/-- C13, amended: for a reference by decimal number with a code point `c` up to
0x10FFFF, the escape string that `xml_entity` produces is `\[u`, then
upper-case hexadecimal digits with the value `c`, then `]`, and the number of
these digits is four (with zeros in front) when `c` is at most 0xFFFF, five
when `c` is from 0x10000 to 0xFFFFF, and six when `c` is from 0x100000 to
0x10FFFF. -/
theorem xml_entity_digits (r : nested) (p : parse) (c : Nat) (n : pnode) (rest : List pnode)
    (hc : c ≤ 0x10FFFF) (hdel : p.del = 0) (hstack : p.stack = n :: rest)
    (htext : n.node = NODE_TEXT → n.b ≠ none ∧ rest ≠ [])
    (hdoc : ∀ d, p.doctype = some d → ∀ q, pnode_closetext p false = .ok q →
      ∃ dt, q.deref d = some dt ∧ ∀ s, xml_entity_decl dt ('#' :: s) = none) :
    ∃ p2 cur up esc ds,
      xml_entity r p ('#' :: Nat.toDigits 10 c) = .ok p2 ∧ p2.stack = cur :: up ∧
      cur.childq.getLast? = some esc ∧ esc.node = NODE_ESCAPE ∧
      esc.b = some ("\\[u".toList ++ ds ++ "]".toList) ∧
      (∀ d ∈ ds, d ∈ "0123456789ABCDEF".toList) ∧
      ds.foldl (fun acc d => acc * 16 + "0123456789ABCDEF".toList.indexOf d) 0 = c ∧
      ds.length = (if c ≤ 0xFFFF then 4 else if c ≤ 0xFFFFF then 5 else 6) := by
  obtain ⟨q, cur, up, -, -, ⟨p2, h1, h2, -, -⟩, -⟩ :=
    xml_entity_hash r p c n rest hc hdel hstack htext hdoc
  refine ⟨p2, _, up, pnode.mk p.next NODE_ESCAPE
    (some ("\\[u".toList ++ fmt_4X c ++ "]".toList)) (some cur.addr)
    ⟨q.flags.line && cur.childq.getLast?.isSome, q.flags.spc⟩ [] [], fmt_4X c, h1, h2, ?_,
    rfl, rfl, (fmt_4X_value c).1, (fmt_4X_value c).2, fmt_4X_length c hc⟩
  cases cur
  simp

/-- In the state after `<para>a `, the name `#65536` gives five digits. -/
theorem xml_entity_digits_witness :
    ∃ p2 cur up esc ds,
      xml_entity (parse_nested 0) ex_open ('#' :: Nat.toDigits 10 65536) = .ok p2 ∧
      p2.stack = cur :: up ∧
      cur.childq.getLast? = some esc ∧ esc.node = NODE_ESCAPE ∧
      esc.b = some ("\\[u".toList ++ ds ++ "]".toList) ∧
      (∀ d ∈ ds, d ∈ "0123456789ABCDEF".toList) ∧
      ds.foldl (fun acc d => acc * 16 + "0123456789ABCDEF".toList.indexOf d) 0 = 65536 ∧
      ds.length = (if 65536 ≤ 0xFFFF then 4 else if 65536 ≤ 0xFFFFF then 5 else 6) :=
  xml_entity_digits (parse_nested 0) ex_open 65536
    (pnode.mk 2 NODE_TEXT (some "a ".toList) (some 1) ⟨false, false⟩ [] [])
    [pnode.mk 1 NODE_PARA none none ⟨false, true⟩ [] []] (by decide) rfl rfl
    (fun _ => ⟨by simp, by simp⟩) (fun d hd => by simp [ex_open, parse_alloc] at hd)

/-! ## Elements that are ignored or deleted -/

/-- C14: for every parser state with no deletion in progress and every name
that resolves to IGNORE, `xml_elem_start` returns the state as it is, apart
from the kind `p->ncur` of the element last seen, which becomes IGNORE: no
node is made or used up, the stack, the trees, the deletion counter and all
flags stay.  The matching `xml_elem_end` does what `pnode_closetext(p, 0)`
does and nothing more: it pops no element, and when the current node is no
text node, or when there is no current node, it leaves the state as it is. -/
theorem xml_elem_ignore (r : nested) (p : parse) (name : cstring) (hdel : p.del = 0)
    (hname : xml_name2node name = NODE_IGNORE) :
    xml_elem_start p name = .ok { p with ncur := NODE_IGNORE } ∧
    xml_elem_end r p (some name) = pnode_closetext p false ∧
    xml_elem_end r { p with ncur := NODE_IGNORE } none =
      pnode_closetext { p with ncur := NODE_IGNORE } false ∧
    (p.stack = [] → xml_elem_end r p (some name) = .ok p) ∧
    (∀ n rest, p.stack = n :: rest → n.node ≠ NODE_TEXT →
      xml_elem_end r p (some name) = .ok p) := by
  have hdel1 : ¬ p.del > 0 := by omega
  have hdel2 : ¬ p.del > 1 := by omega
  have hend : ∀ (x : parse) (nm : Option cstring), x.del = 0 →
      nm.elim x.ncur xml_name2node = NODE_IGNORE →
      xml_elem_end r x nm = pnode_closetext x false := by
    intro x nm hx hk
    have hx2 : ¬ x.del > 1 := by omega
    unfold xml_elem_end
    rw [if_neg hx2, if_pos hx]
    cases hq : pnode_closetext x false with
    | error e => rfl
    | ok q =>
      obtain ⟨hqd, hqn, -⟩ := pnode_closetext_frame x q false hq
      dsimp only
      cases nm with
      | none =>
        dsimp only
        rw [hqn, show x.ncur = NODE_IGNORE from hk]
        simp only [xml_elem_switch]
        rw [if_pos (hqd.trans hx)]
      | some s =>
        dsimp only
        rw [show xml_name2node s = NODE_IGNORE from hk]
        simp only [xml_elem_switch]
        rw [if_pos (hqd.trans hx)]
  refine ⟨?_, hend p (some name) hdel hname, hend _ none hdel rfl, ?_, ?_⟩
  · unfold xml_elem_start
    simp only [hdel1, if_false, hname]
  · intro hs
    rw [hend p (some name) hdel hname]
    unfold pnode_closetext
    rw [hs]
  · intro n rest hs hn
    rw [hend p (some name) hdel hname]
    unfold pnode_closetext
    rw [hs]
    simp [hn]

/-- The name `phrase` resolves to IGNORE; in the state after `<para>a `, the
start of a `phrase` only sets the kind of the element last seen. -/
theorem xml_elem_ignore_witness :
    xml_elem_start ex_open "phrase".toList = .ok { ex_open with ncur := NODE_IGNORE } ∧
    xml_elem_end (parse_nested 0) ex_open (some "phrase".toList) =
      pnode_closetext ex_open false ∧
    xml_elem_end (parse_nested 0) { ex_open with ncur := NODE_IGNORE } none =
      pnode_closetext { ex_open with ncur := NODE_IGNORE } false ∧
    (ex_open.stack = [] →
      xml_elem_end (parse_nested 0) ex_open (some "phrase".toList) = .ok ex_open) ∧
    (∀ n rest, ex_open.stack = n :: rest → n.node ≠ NODE_TEXT →
      xml_elem_end (parse_nested 0) ex_open (some "phrase".toList) = .ok ex_open) :=
  xml_elem_ignore (parse_nested 0) ex_open "phrase".toList rfl (by decide!)

/-- The handlers while an element is being deleted. -/
theorem xml_deleted (r : nested) (q : parse) (hq : q.del > 0) :
    (∀ s, xml_elem_start q s =
      .ok (if xml_name_plain s then { q with del := q.del + 1 } else q)) ∧
    (∀ s, q.del > 1 → xml_elem_end r q s = .ok { q with del := q.del - 1 }) ∧
    (∀ w, w ≠ [] → xml_text q w = .ok q) ∧
    (∀ s, xml_entity r q s = .ok q) ∧ (∀ s, xml_attrkey q s = .ok q) ∧
    (∀ s, xml_attrval q s = .ok q) := by
  refine ⟨?_, ?_, ?_, ?_, ?_, ?_⟩
  · intro s
    unfold xml_elem_start
    rw [if_pos hq]
  · intro s h1
    unfold xml_elem_end
    rw [if_pos h1]
  · intro w hw
    have hlen : ¬ w.length = 0 := by simpa using hw
    unfold xml_text
    rw [if_neg hlen, if_pos hq]
  · intro s
    unfold xml_entity
    rw [if_pos hq]
  · intro s
    unfold xml_attrkey xml_attrkey_aux
    rw [if_pos (Or.inl hq)]
  · intro s
    unfold xml_attrval
    rw [if_pos (Or.inl hq)]

theorem xml_calls_cons (r : nested) (p p1 : parse) (e : xml_event) (es : List xml_event)
    (h : xml_call r p e = .ok p1) : xml_calls r p (e :: es) = xml_calls r p1 es := by
  simp only [xml_calls, h]

/-- The calls for the content of a deleted element, `k` levels below it, leave
nothing but the deletion counter, which is one at their end. -/
theorem xml_calls_deleted (r : nested) : ∀ (es : List xml_event) (k : Nat) (q : parse)
    (tail : List xml_event), xml_nested k es = true → q.del = k + 1 →
    xml_calls r q (es ++ tail) = xml_calls r { q with del := 1 } tail
  | [], k, q, tail, h, hq => by
    have hk : k = 0 := by simpa [xml_nested] using h
    subst hk
    have : ({ q with del := 1 } : parse) = q := by
      cases q
      simp only [Nat.cast_zero, zero_add] at hq
      subst hq
      rfl
    rw [this]
    rfl
  | e :: es, k, q, tail, h, hq => by
    have hpos : q.del > 0 := by omega
    obtain ⟨h1, h2, h3, h4, h5, h6⟩ := xml_deleted r q hpos
    cases e with
    | elem_start name =>
      simp only [xml_nested, Bool.and_eq_true] at h
      simp only [List.cons_append, xml_calls, xml_call, h1, h.1, if_true]
      exact xml_calls_deleted r es (k + 1) _ tail h.2
        (by show q.del + 1 = ((k + 1 : Nat) : Int) + 1; omega)
    | elem_end name =>
      simp only [xml_nested, Bool.and_eq_true, decide_eq_true_eq] at h
      simp only [List.cons_append, xml_calls, xml_call, h2 name (by omega)]
      exact xml_calls_deleted r es (k - 1) _ tail h.2
        (by show q.del - 1 = ((k - 1 : Nat) : Int) + 1; omega)
    | text word =>
      simp only [xml_nested, Bool.and_eq_true, decide_eq_true_eq] at h
      have hw : word ≠ [] := by
        intro hn
        rw [hn] at h
        simp at h
      simp only [List.cons_append, xml_calls, xml_call, h3 word hw]
      exact xml_calls_deleted r es k q tail h.2 hq
    | entity name =>
      simp only [xml_nested] at h
      simp only [List.cons_append, xml_calls, xml_call, h4]
      exact xml_calls_deleted r es k q tail h hq
    | attrkey name =>
      simp only [xml_nested] at h
      simp only [List.cons_append, xml_calls, xml_call, h5]
      exact xml_calls_deleted r es k q tail h hq
    | attrval name =>
      simp only [xml_nested] at h
      simp only [List.cons_append, xml_calls, xml_call, h6]
      exact xml_calls_deleted r es k q tail h hq

/-- The end of the deleted element itself. -/
theorem xml_elem_end_deleted (r : nested) (q : parse) (name : Option cstring)
    (hq : q.del = 1) (hname : name.elim q.ncur xml_name2node = NODE_DELETE) :
    xml_elem_end r q name = .ok { q with del := 0 } := by
  have h1 : ¬ q.del > 1 := by omega
  have h0 : ¬ q.del = 0 := by omega
  have hpos : q.del > 0 := by omega
  unfold xml_elem_end
  rw [if_neg h1, if_neg h0]
  dsimp only
  cases name with
  | none =>
    dsimp only
    have hn : q.ncur = NODE_DELETE := hname
    rw [hn]
    simp only [xml_elem_switch]
    rw [if_pos hpos]
    simp [hq, hn]
  | some s =>
    dsimp only
    have hn : xml_name2node s = NODE_DELETE := hname
    rw [hn]
    simp only [xml_elem_switch]
    rw [if_pos hpos]
    simp [hq]

/-- C15: when no deletion is in progress, `xml_elem_start` with a name that
resolves to DELETE sets the deletion counter to 1 (and the kind of the element
last seen to DELETE) and changes nothing else.  While the counter is positive,
`xml_elem_start` only counts (elements, not declarations or processing
instructions), `xml_elem_end` only counts down while the counter is above 1,
and `xml_text`, `xml_entity`, `xml_attrkey` and `xml_attrval` return the state
as it is, so no node and no attribute is made.  For every content `es` of the
DELETE element whose element starts and ends are well nested, after the end
tag of the DELETE element, by name or as the end of a self-closing tag, the
counter is 0 again and the state is the one before the element, apart from
the kind of the element last seen. -/
theorem xml_elem_delete (r : nested) (p : parse) (name : cstring) (hdel : p.del = 0)
    (hname : xml_name2node name = NODE_DELETE) :
    xml_elem_start p name = .ok { p with ncur := NODE_DELETE, del := 1 } ∧
    (∀ q : parse, q.del > 0 →
      (∀ s, xml_elem_start q s =
        .ok (if xml_name_plain s then { q with del := q.del + 1 } else q)) ∧
      (∀ s, q.del > 1 → xml_elem_end r q s = .ok { q with del := q.del - 1 }) ∧
      (∀ w, w ≠ [] → xml_text q w = .ok q) ∧
      (∀ s, xml_entity r q s = .ok q) ∧ (∀ s, xml_attrkey q s = .ok q) ∧
      (∀ s, xml_attrval q s = .ok q)) ∧
    (∀ es, xml_nested 0 es = true →
      xml_calls r p (.elem_start name :: es ++ [.elem_end (some name)]) =
        .ok { p with ncur := NODE_DELETE } ∧
      xml_calls r p (.elem_start name :: es ++ [.elem_end none]) =
        .ok { p with ncur := NODE_DELETE }) := by
  have hdel1 : ¬ p.del > 0 := by omega
  have hstart : xml_elem_start p name = .ok { p with ncur := NODE_DELETE, del := 1 } := by
    unfold xml_elem_start
    simp only [hdel1, if_false, hname]
  refine ⟨hstart, fun q hq => xml_deleted r q hq, ?_⟩
  intro es hes
  have hfin : ({ p with ncur := NODE_DELETE, del := 0 } : parse) = { p with ncur := NODE_DELETE } := by
    cases p
    simp only at hdel
    subst hdel
    rfl
  have hrun : ∀ x : Option cstring, x.elim NODE_DELETE xml_name2node = NODE_DELETE →
      xml_calls r p (.elem_start name :: es ++ [.elem_end x]) =
        .ok { p with ncur := NODE_DELETE } := by
    intro x hx
    calc xml_calls r p (.elem_start name :: es ++ [.elem_end x])
        = xml_calls r { p with ncur := NODE_DELETE, del := 1 } (es ++ [.elem_end x]) :=
          xml_calls_cons r p _ (.elem_start name) _ hstart
      _ = xml_calls r { p with ncur := NODE_DELETE, del := 1 } [.elem_end x] :=
          xml_calls_deleted r es 0 _ _ hes (by simp)
      _ = xml_calls r { p with ncur := NODE_DELETE, del := 0 } [] :=
          xml_calls_cons r _ _ (.elem_end x) _ (xml_elem_end_deleted r _ x rfl hx)
      _ = .ok { p with ncur := NODE_DELETE } := by rw [hfin]; rfl
  exact ⟨hrun (some name) hname, hrun none rfl⟩

/-- The name `anchor` resolves to DELETE; in the state after `<para>a `, the
events of `<anchor><b>x</b>&amp;<c d="e"/></anchor>` leave the state as it
was. -/
theorem xml_elem_delete_witness :
    xml_name2node "anchor".toList = NODE_DELETE ∧ xml_nested 0 ex_content = true ∧
    xml_elem_start ex_open "anchor".toList =
      .ok { ex_open with ncur := NODE_DELETE, del := 1 } ∧
    xml_calls (parse_nested 0) ex_open
        (.elem_start "anchor".toList :: ex_content ++ [.elem_end (some "anchor".toList)]) =
      .ok { ex_open with ncur := NODE_DELETE } :=
  ⟨by decide!, by decide,
   (xml_elem_delete (parse_nested 0) ex_open "anchor".toList rfl (by decide!)).1,
   ((xml_elem_delete (parse_nested 0) ex_open "anchor".toList rfl (by decide!)).2.2
      ex_content (by decide)).1⟩

/-! ## Closing tags that do not match -/

theorem pnode_dropaddr_queue_cons (a : Nat) (nc : pnode) (rest : List pnode) :
    pnode_dropaddr_queue a (nc :: rest) =
      if nc.addr = a then pnode_dropaddr_queue a rest
      else pnode_dropaddr a nc :: pnode_dropaddr_queue a rest := rfl

theorem pnode_dropaddr_mk (a a' : Nat) (k : nodeid) (s : Option cstring) (p : Option Nat)
    (f : nflags) (q : List pattr) (cs : List pnode) :
    pnode_dropaddr a (.mk a' k s p f q cs) = .mk a' k s p f q (pnode_dropaddr_queue a cs) := rfl

theorem pnode_dropaddr_queue_append (a : Nat) (c : pnode) (h : c.addr = a) :
    ∀ cs : List pnode, pnode_dropaddr_queue a (cs ++ [c]) = pnode_dropaddr_queue a cs
  | [] => by
    rw [List.nil_append, pnode_dropaddr_queue_cons, if_pos h]
  | nc :: rest => by
    rw [List.cons_append, pnode_dropaddr_queue_cons, pnode_dropaddr_queue_cons,
      pnode_dropaddr_queue_append a c h rest]

theorem pnode_dropaddr_insertTail (u c : pnode) :
    pnode_dropaddr c.addr (u.insertTail c) = pnode_dropaddr c.addr u := by
  cases u
  simp only [pnode.insertTail_eq, pnode.childq_mk, pnode.setChildq_eq, pnode.addr_mk,
    pnode.node_mk, pnode.b_mk, pnode.parent_mk, pnode.flags_mk, pnode.attrq_mk,
    pnode_dropaddr_mk, pnode_dropaddr_queue_append c.addr c rfl]

theorem pnode_dropaddr_insertTail_mk (u c : pnode) :
    pnode_dropaddr c.addr
      (pnode.mk u.addr u.node u.b u.parent u.flags u.attrq (u.childq ++ [c])) =
      pnode_dropaddr c.addr u := by
  cases u
  simp only [pnode.childq_mk, pnode.addr_mk, pnode.node_mk, pnode.b_mk, pnode.parent_mk,
    pnode.flags_mk, pnode.attrq_mk, pnode_dropaddr_mk,
    pnode_dropaddr_queue_append c.addr c rfl]

/-- The kinds below UNKNOWN are not the pseudo kinds. -/
theorem nodeid_regular (k : nodeid) (h : k.toCtorIdx < NODE_UNKNOWN.toCtorIdx) :
    k ≠ NODE_DELETE_WARN ∧ k ≠ NODE_DELETE ∧ k ≠ NODE_IGNORE ∧ k ≠ NODE_UNKNOWN ∧
    k ≠ NODE_TEXT ∧ k ≠ NODE_ESCAPE := by
  refine ⟨?_, ?_, ?_, ?_, ?_, ?_⟩ <;> (intro hk; rw [hk] at h; revert h; decide)

/-- The default case of `xml_elem_end` for a kind that is not the kind of the
current node. -/
theorem xml_elem_close_mismatch (r : nested) (q : parse) (k : nodeid) (c : pnode)
    (up : List pnode) (hs : q.stack = c :: up) (hk : k ≠ c.node) :
    xml_elem_close r q k = .ok (warn_msg q) := by
  unfold xml_elem_close
  rw [hs]
  simp only [ne_eq, hk, not_false_eq_true, if_true]

/-- The document `<para><emphasis>x</xi:include>y</para>`: the closing tag
removes the open element `emphasis` with its text. -/
theorem parse_stray_include :
    (∀ warn, ((parse_file 0 (parse_alloc warn [] 1)
      (some "<para><emphasis>x</xi:include>y</para>".toList) "<stdin>".toList).bind
        parse_tree).map (fun t => t.root.toList.map (fun root =>
          root.nodes.map (fun m => (m.node, m.b)))) =
      .ok [[(NODE_PARA, none), (NODE_TEXT, some "y".toList)]]) ∧
    (∀ warn, ((parse_file 0 (parse_alloc warn [] 1)
      (some "<para><emphasis>x</emphasis>y</para>".toList) "<stdin>".toList).bind
        parse_tree).map (fun t => t.root.toList.map (fun root =>
          root.nodes.map (fun m => (m.node, m.b)))) =
      .ok [[(NODE_PARA, none), (NODE_EMPHASIS, none), (NODE_TEXT, some "x".toList),
        (NODE_TEXT, some "y".toList)]]) := by
  refine ⟨by decide!, by decide!⟩

/-- C16: in a state with a current node and no deletion in progress,
`xml_elem_end` first closes an open text node, which gives the state `q` with
the current node `c`.  For a name that resolves to a regular kind other than
INCLUDE and other than the kind of `c`, it then pops nothing: the stack, the
complete trees, the no-fill counter and the error flag are those of `q`, only
a warning is noted.  For a name that resolves to INCLUDE, such as
`xi:include`, the kind of `c` is not looked at: when `c` has no attribute
`href`, `c` is popped and removed from the tree with all its children, and
the error flag is set. -/
theorem xml_elem_end_mismatch (r : nested) (p : parse) (name : cstring) (n : pnode)
    (rest : List pnode) (hdel : p.del = 0) (hstack : p.stack = n :: rest)
    (htext : n.node = NODE_TEXT → n.b ≠ none ∧ rest ≠ [])
    (hreg : (xml_name2node name).toCtorIdx < NODE_UNKNOWN.toCtorIdx) :
    ∃ q c up,
      pnode_closetext p false = .ok q ∧ q.stack = c :: up ∧ (n.node ≠ NODE_TEXT → q = p) ∧
      (xml_name2node name ≠ NODE_INCLUDE → xml_name2node name ≠ c.node →
        ∃ p2, xml_elem_end r p (some name) = .ok p2 ∧ p2.stack = c :: up ∧
          p2.loose = q.loose ∧ p2.nofill = p.nofill ∧ p2.tflags.error = p.tflags.error ∧
          p2.next = p.next ∧ p2.del = 0) ∧
      (xml_name2node name = NODE_INCLUDE →
        pnode_getattr_raw (some c) ATTRKEY_HREF none = none →
        ∃ p2, xml_elem_end r p (some name) = .ok p2 ∧
          p2.stack = up.map (pnode_dropaddr c.addr) ∧
          p2.loose = (q.loose.filter (fun m => m.addr != c.addr)).map (pnode_dropaddr c.addr) ∧
          p2.tflags.error = true ∧ p2.del = 0) := by
  obtain ⟨q, c, up, hq, hqs, hqp, hqt, hql, hqr, hqd, hqn, hqdt, hqnf⟩ :=
    pnode_closetext_cur p n rest hstack htext
  have h1 : ¬ p.del > 1 := by omega
  have hend : xml_elem_end r p (some name) =
      match xml_elem_switch r q (xml_name2node name) with
      | .error e => .error e
      | .ok p2 => if p2.del = 0 then .ok p2 else .error .assertion := by
    unfold xml_elem_end
    rw [if_neg h1, if_pos hdel, hq]
    try rfl
  obtain ⟨k1, k2, k3, k4, -, -⟩ := nodeid_regular _ hreg
  refine ⟨q, c, up, hq, hqs, hqp, ?_, ?_⟩
  · intro hinc hne
    have hsw : ∃ q1 : parse, xml_elem_switch r q (xml_name2node name) = .ok (warn_msg q1) ∧
        q1.stack = q.stack ∧ q1.loose = q.loose ∧ q1.nofill = q.nofill ∧
        q1.tflags = q.tflags ∧ q1.next = q.next ∧ q1.del = q.del := by
      unfold xml_elem_switch
      split
      · exact absurd ‹_› k1
      · exact absurd ‹_› k2
      · exact absurd ‹_› k3
      · exact absurd ‹_› k4
      · exact absurd ‹_› hinc
      · dsimp only
        split
        · exact ⟨_, xml_elem_close_mismatch r _ _ c up hqs hne, rfl, rfl, rfl, rfl, rfl, rfl⟩
        · exact ⟨_, xml_elem_close_mismatch r _ _ c up hqs hne, rfl, rfl, rfl, rfl, rfl, rfl⟩
    obtain ⟨q1, hsw, e1, e2, e3, e4, e5, e6⟩ := hsw
    have hd : (warn_msg q1).del = 0 := by rw [warn_msg_del, e6, hqd, hdel]
    refine ⟨warn_msg q1, ?_, ?_, ?_, ?_, ?_, ?_, hd⟩
    · rw [hend, hsw]
      simp only [hd, if_true]
    · rw [warn_msg_stack, e1, hqs]
    · rw [warn_msg_loose, e2]
    · rw [warn_msg_nofill, e3, hqnf]
    · rw [(warn_msg_fields q1).2.2.1, e4, hqt]
    · rw [warn_msg_next, e5, hqn]
  · intro hinc href
    have hsw : xml_elem_switch r q NODE_INCLUDE = .ok
        { (error_msg q.pop).unlink c.addr with
          flags := { (error_msg q.pop).flags with line := false, spc := false } } := by
      simp only [xml_elem_switch, hqs, href]
      rfl
    rw [hinc] at hend
    rw [hsw] at hend
    have hd0 : ({ (error_msg q.pop).unlink c.addr with
        flags := { (error_msg q.pop).flags with line := false, spc := false } } : parse).del
        = 0 := by
      simp [parse.unlink, hqd, hdel]
    refine ⟨{ (error_msg q.pop).unlink c.addr with
      flags := { (error_msg q.pop).flags with line := false, spc := false } },
      hend.trans ?_, ?_, ?_, ?_, hd0⟩
    · exact if_pos hd0
    · cases up with
      | nil =>
        simp [parse.unlink, (parse.pop_last q c hqs).1]
      | cons u up1 =>
        simp [parse.unlink, (parse.pop_stack q c u up1 hqs).1, pnode_dropaddr_insertTail_mk]
    · cases up with
      | nil =>
        simp [parse.unlink, (parse.pop_last q c hqs).2, List.filter_append]
      | cons u up1 =>
        simp [parse.unlink, (parse.pop_stack q c u up1 hqs).2]
    · simp [parse.unlink, error_msg]

/-- In the state after `<para>a `, the closing tag `</emphasis>` closes the
text node and pops nothing, and the closing tag `</xi:include>` removes the
paragraph. -/
theorem xml_elem_end_mismatch_witness :
    (∃ q c up,
      pnode_closetext ex_open false = .ok q ∧ q.stack = c :: up ∧
      c.node = NODE_PARA ∧ xml_name2node "emphasis".toList = NODE_EMPHASIS ∧
      ∃ p2, xml_elem_end (parse_nested 0) ex_open (some "emphasis".toList) = .ok p2 ∧
        p2.stack = c :: up) ∧
    ∃ q c up,
      pnode_closetext ex_open false = .ok q ∧ q.stack = c :: up ∧
      ((pnode.mk 2 NODE_TEXT (some "a ".toList) (some 1) ⟨false, false⟩ [] []).node ≠ NODE_TEXT →
        q = ex_open) ∧
      (xml_name2node "xi:include".toList ≠ NODE_INCLUDE →
        xml_name2node "xi:include".toList ≠ c.node →
        ∃ p2, xml_elem_end (parse_nested 0) ex_open (some "xi:include".toList) = .ok p2 ∧
          p2.stack = c :: up ∧
          p2.loose = q.loose ∧ p2.nofill = ex_open.nofill ∧
          p2.tflags.error = ex_open.tflags.error ∧ p2.next = ex_open.next ∧ p2.del = 0) ∧
      (xml_name2node "xi:include".toList = NODE_INCLUDE →
        pnode_getattr_raw (some c) ATTRKEY_HREF none = none →
        ∃ p2, xml_elem_end (parse_nested 0) ex_open (some "xi:include".toList) = .ok p2 ∧
          p2.stack = up.map (pnode_dropaddr c.addr) ∧
          p2.loose = (q.loose.filter (fun m => m.addr != c.addr)).map (pnode_dropaddr c.addr) ∧
          p2.tflags.error = true ∧ p2.del = 0) := by
  refine ⟨?_, xml_elem_end_mismatch (parse_nested 0) ex_open "xi:include".toList
    (pnode.mk 2 NODE_TEXT (some "a ".toList) (some 1) ⟨false, false⟩ [] [])
    [pnode.mk 1 NODE_PARA none none ⟨false, true⟩ [] []] rfl rfl
    (fun _ => ⟨by simp, by simp⟩) (by decide!)⟩
  obtain ⟨q, c, up, hq, hqs, -, h1, -⟩ :=
    xml_elem_end_mismatch (parse_nested 0) ex_open "emphasis".toList
      (pnode.mk 2 NODE_TEXT (some "a ".toList) (some 1) ⟨false, false⟩ [] [])
      [pnode.mk 1 NODE_PARA none none ⟨false, true⟩ [] []] rfl rfl
      (fun _ => ⟨by simp, by simp⟩) (by decide!)
  have hq2 : pnode_closetext ex_open false = .ok
      { ex_open with
        stack := [pnode.mk 1 NODE_PARA none none ⟨false, true⟩ []
          [pnode.mk 2 NODE_TEXT (some "a".toList) (some 1) ⟨false, false⟩ [] []]]
        flags := { ex_open.flags with spc := true } } := by
    simp [pnode_closetext, ex_open, parse_alloc, rstrip, c_isspace, parse.setCur, parse.pop,
      parse.link]
  rw [hq2] at hq
  cases hq
  simp only [List.cons.injEq] at hqs
  obtain ⟨rfl, rfl⟩ := hqs
  have hk : xml_name2node "emphasis".toList = NODE_EMPHASIS := by decide!
  obtain ⟨p2, h2, h3, -⟩ := h1 (by rw [hk]; decide) (by rw [hk]; decide)
  exact ⟨_, _, _, hq2, rfl, rfl, hk, p2, h2, h3⟩

/-! ## The assertion at the end of xml_elem_end -/

/-- The default case of `xml_elem_end` for a kind other than ENTITY fails an
assertion or leaves the deletion counter as it is. -/
theorem xml_elem_close_del (r : nested) (q : parse) (k : nodeid) (hk : k ≠ NODE_ENTITY) :
    xml_elem_close r q k = .error .assertion ∨
      ∃ q2, xml_elem_close r q k = .ok q2 ∧ q2.del = q.del := by
  unfold xml_elem_close
  cases hs : q.stack with
  | nil => exact Or.inr ⟨_, rfl, warn_msg_del q⟩
  | cons n rest =>
    dsimp only
    by_cases hn : k = n.node
    · rw [if_neg (by simpa using hn)]
      cases hc : pnode_class k with
      | none => exact Or.inl rfl
      | some cls =>
        dsimp only
        right
        rw [if_neg (fun h => hk h.1)]
        refine ⟨_, rfl, ?_⟩
        dsimp only
        repeat' split
        all_goals simp
    · rw [if_pos (by simpa using hn)]
      exact Or.inr ⟨_, rfl, warn_msg_del q⟩

/-- While the deletion counter is one, a closing tag whose name does not
resolve to DELETE or DELETE_WARN (nor to INCLUDE or ENTITY, which can read
files) makes the assertion at the end of `xml_elem_end` fail. -/
theorem xml_elem_end_del_one (r : nested) (p : parse) (name : cstring) (hdel : p.del = 1)
    (h1 : xml_name2node name ≠ NODE_DELETE) (h2 : xml_name2node name ≠ NODE_DELETE_WARN)
    (h3 : xml_name2node name ≠ NODE_INCLUDE) (h4 : xml_name2node name ≠ NODE_ENTITY) :
    xml_elem_end r p (some name) = .error .assertion := by
  have hd1 : ¬ p.del > 1 := by omega
  have hd0 : ¬ p.del = 0 := by omega
  have hsw : xml_elem_switch r p (xml_name2node name) = .error .assertion ∨
      ∃ q2, xml_elem_switch r p (xml_name2node name) = .ok q2 ∧ q2.del = 1 := by
    unfold xml_elem_switch
    split
    · exact absurd ‹_› h2
    · exact absurd ‹_› h1
    · exact Or.inr ⟨p, rfl, hdel⟩
    · exact Or.inr ⟨p, rfl, hdel⟩
    · exact absurd ‹_› h3
    · dsimp only
      split
      · rcases xml_elem_close_del r { p with flags := { p.flags with eend := false } }
          (xml_name2node name) h4 with h | ⟨q2, h, hq2⟩
        · exact Or.inl h
        · exact Or.inr ⟨q2, h, hq2.trans hdel⟩
      · rcases xml_elem_close_del r p (xml_name2node name) h4 with h | ⟨q2, h, hq2⟩
        · exact Or.inl h
        · exact Or.inr ⟨q2, h, hq2.trans hdel⟩
  unfold xml_elem_end
  rw [if_neg hd1, if_neg hd0]
  dsimp only
  rcases hsw with h | ⟨q2, h, hq2⟩
  · rw [h]
  · rw [h]
    dsimp only
    rw [if_neg (by omega)]

/-- C17 fails: the assertion `p->del == 0` at the end of `xml_elem_end` does
not hold for every sequence of events.  After the start of an element that is
deleted, when the deletion counter is one, every closing tag with another
name, one that resolves neither to DELETE nor to DELETE_WARN (nor to INCLUDE
or ENTITY), reaches the assertion with the counter still at one.  The events
of `<anchor></para>` from the initial state are an instance, and the parser
fails the assertion on the document `<anchor></para>`. -/
theorem xml_elem_end_assert_fails :
    (∀ (r : nested) (p : parse) (name : cstring), p.del = 1 →
      xml_name2node name ∉ [NODE_DELETE, NODE_DELETE_WARN, NODE_INCLUDE, NODE_ENTITY] →
      xml_elem_end r p (some name) = .error .assertion) ∧
    (∀ (r : nested) (warn : Bool) (files : List (cstring × List Char)) (next : Nat),
      xml_calls r (parse_alloc warn files next)
        [.elem_start "anchor".toList, .elem_end (some "para".toList)] = .error .assertion) ∧
    (∀ warn : Bool, ((parse_file 0 (parse_alloc warn [] 1) (some "<anchor></para>".toList)
      "<stdin>".toList).map (fun _ => ())) = .error .assertion) := by
  refine ⟨?_, ?_, by decide!⟩
  · intro r p name hdel hk
    simp only [List.mem_cons, List.mem_singleton, List.not_mem_nil, or_false, not_or] at hk
    exact xml_elem_end_del_one r p name hdel hk.1 hk.2.1 hk.2.2.1 hk.2.2.2
  · intro r warn files next
    have hs : xml_elem_start (parse_alloc warn files next) "anchor".toList =
        .ok { parse_alloc warn files next with ncur := NODE_DELETE, del := 1 } := by
      have hn : xml_name2node "anchor".toList = NODE_DELETE := by decide!
      unfold xml_elem_start
      rw [if_neg (by simp [parse_alloc])]
      simp only [hn]
    rw [xml_calls_cons r _ _ (.elem_start "anchor".toList) _ hs]
    have he := xml_elem_end_del_one r
      { parse_alloc warn files next with ncur := NODE_DELETE, del := 1 } "para".toList rfl
      (by decide!) (by decide!) (by decide!) (by decide!)
    simp only [xml_calls, xml_call, he]

/-! ## The length that parse_string passes to xml_text -/

theorem advance_loop_pend : ∀ (k : Nat) (s s1 : scan) (rlen : Nat) (space : Bool)
    (cs : cstring) (refill : Bool), advance_loop k s rlen space cs refill = .ok s1 →
    s.pend ≤ s1.pend ∧ s1.b = s.b
  | 0, s, s1, rlen, space, cs, refill, h => by
    simp only [advance_loop] at h
    cases h
    exact ⟨le_refl _, rfl⟩
  | k + 1, s, s1, rlen, space, cs, refill, h => by
    simp only [advance_loop] at h
    split at h
    · split at h
      · cases h
      · split at h
        · cases h
          exact ⟨le_refl _, rfl⟩
        · split at h
          · cases h
          · rename_i s2 hinc
            have h2 := advance_loop_pend k s2 s1 rlen space cs refill h
            have h3 : s2.pend = s.pend + 1 ∧ s2.b = s.b := by
              unfold increment at hinc
              split at hinc
              · split at hinc
                · cases hinc
                · split at hinc <;> cases hinc <;> exact ⟨rfl, rfl⟩
              · cases hinc
                exact ⟨rfl, rfl⟩
            exact ⟨by omega, h2.2.trans h3.2⟩
    · cases h
      exact ⟨le_refl _, rfl⟩

/-- A text token that starts at a byte which is neither NUL nor in the set
of bytes that end a text consumes at least one byte. -/
theorem advance_text_progress (s s1 : scan) (rlen : Nat) (charset : cstring) (refill adv : Bool)
    (c : Char) (hset : charset = "<&\n".toList ∨ charset = "<&]\n".toList)
    (hlt : s.pend < rlen) (hc : buf_get s.b s.pend = .ok c) (hnul : c ≠ NUL)
    (hmem : c ∉ charset) (h : advance s rlen charset refill = .ok (s1, adv)) :
    s.pend < s1.pend := by
  have hhead : charset.head? = some '<' := by
    rcases hset with rfl | rfl <;> rfl
  unfold advance at h
  simp only [hhead, Option.some.injEq, show ¬ ('<' = ' ') by decide, decide_False,
    Bool.false_eq_true, if_false] at h
  obtain ⟨k, hk⟩ : ∃ k, rlen - s.pend = k + 1 := ⟨rlen - s.pend - 1, by omega⟩
  have hstr : c_strchr charset c = false := by
    simp [c_strchr, hnul, hmem]
  cases refill with
  | false =>
    simp only [Bool.false_eq_true, if_false, hk, advance_loop, hlt, if_true, hc,
      Bool.false_and, Bool.false_or, hstr, increment] at h
    split at h
    · cases h
    · rename_i s2 h2
      have h3 := (advance_loop_pend _ _ _ _ _ _ _ h2).1
      split at h <;> cases h <;> simpa using h3
  | true =>
    simp only [if_true, hk, advance_loop, hlt, hc, Bool.false_and, Bool.false_or, hstr,
      Bool.false_eq_true, if_false] at h
    split at h
    · cases h
    · rename_i s2 h2
      split at h2
      · cases h2
      · rename_i s3 h3
        have h4 := (advance_loop_pend _ _ _ _ _ _ _ h2).1
        have h5 : s3.pend = s.pend + 1 := by
          unfold increment at h3
          simp only [if_true, hc] at h3
          split at h3 <;> cases h3 <;> rfl
        split at h <;> cases h
        · show s.pend < _
          dsimp only
          omega
        · omega
theorem buf_get_of_get (b : List (Option Char)) (i : Nat) (c : Char)
    (h : b.get? i = some (some c)) : buf_get b i = .ok c := by
  unfold buf_get
  rw [h]

/-- The turn of the token loop that processes text. -/
theorem parse_string_step_text (r : nested) (s s0 : scan) (rlen : Nat) (refill : Bool) (c : Char)
    (hs0 : s0 = if refill then { s with p := { s.p with line := s.p.nline, col := s.p.ncol } }
      else s)
    (hne : s.pend ≠ rlen) (hget : buf_get s.b s.pend = .ok c) (hsp : c_isspace c = false)
    (hst : s.pstate = PARSE_ELEM) (h1 : c ≠ '<') (h2 : c ≠ '&')
    (h3 : ¬ (s.p.ncur = NODE_DOCTYPE ∧ c = ']')) :
    parse_string_step r s rlen refill = scan_text s0 rlen refill s0.pend := by
  have e1 : s0.pend = s.pend := by rw [hs0]; split <;> rfl
  have e2 : s0.b = s.b := by rw [hs0]; split <;> rfl
  have e3 : s0.pstate = s.pstate := by rw [hs0]; split <;> rfl
  have e4 : s0.p.ncur = s.p.ncur := by rw [hs0]; split <;> rfl
  unfold parse_string_step
  rw [← hs0]
  dsimp only
  rw [e1, e2, e3, e4, if_neg hne]
  simp only [bind, Except.bind, pure, Except.pure, hget, hsp, Bool.false_eq_true, if_false, hst,
    h1, h2, h3, false_or, or_self, false_and]
  rw [if_neg (by decide), if_neg (by decide)]

/-- A NUL byte where a token starts, outside tags and outside no-fill
elements: `advance` stops at once and `xml_text` gets the length 0. -/
theorem parse_string_step_nul (r : nested) (s : scan) (rlen : Nat) (refill : Bool)
    (hst : s.pstate = PARSE_ELEM) (hlt : s.pend < rlen)
    (hb : s.b.get? s.pend = some (some NUL)) (hnf : s.p.nofill = 0 ∨ s.pws = s.pend) :
    parse_string_step r s rlen refill = .error .assertion := by
  have hlen : s.pend ≤ s.b.length := by
    obtain ⟨h1, -⟩ := List.get?_eq_some.1 hb
    omega
  obtain ⟨k, hk⟩ : ∃ k, rlen - s.pend = k + 1 := ⟨rlen - s.pend - 1, by omega⟩
  rw [parse_string_step_text r s _ rlen refill NUL rfl (by omega) (buf_get_of_get _ _ _ hb)
    (by decide) hst (by decide) (by decide) (fun h => absurd h.2 (by decide))]
  have hadv : ∀ (x : scan) (cs : cstring) (rf : Bool), x.pend = s.pend → x.b = s.b →
      cs = "<&]\n".toList ∨ cs = "<&\n".toList → ∃ x1, advance x rlen cs rf = .ok (x1, false) ∧
        x1.pend = s.pend ∧ x1.b = s.b ∧ x1.pws = x.pws ∧ x1.p.nofill = x.p.nofill := by
    intro x cs rf hx1 hx2 hcs
    have hhead : cs.head? = some '<' := by
      rcases hcs with rfl | rfl <;> rfl
    unfold advance
    simp only [hhead, Option.some.injEq, show ¬ ('<' = ' ') by decide, decide_False,
      Bool.false_eq_true, if_false]
    cases rf with
    | false =>
      simp only [Bool.false_eq_true, if_false, hx1, hk, advance_loop, hlt, if_true, hx2,
        buf_get_of_get _ _ _ hb, c_strchr, decide_True, Bool.true_or, Bool.or_true]
      rw [if_neg (by omega)]
      exact ⟨_, rfl, hx1, hx2, rfl, rfl⟩
    | true =>
      simp only [if_true, hx1, hk, advance_loop, hlt, hx2,
        buf_get_of_get _ _ _ hb, c_strchr, decide_True, Bool.true_or, Bool.or_true]
      rw [if_neg (by omega)]
      exact ⟨_, rfl, rfl, rfl, rfl, rfl⟩
  have hw : ∀ off, (off = s.pend) → buf_bytes s.b off (s.pend - off) = .ok [] := by
    intro off hoff
    subst hoff
    simp [buf_bytes, hlen]
  have htext : ∀ x : parse, xml_text x [] = .error .assertion := by
    intro x
    unfold xml_text
    rfl
  unfold scan_text
  simp only [bind, Except.bind]
  cases refill with
  | false =>
    obtain ⟨x1, h1, h2, h3, h4, h5⟩ := hadv s
      (if s.p.ncur = NODE_DOCTYPE then "<&]\n".toList else "<&\n".toList) false rfl rfl
      (ite_eq_or_eq _ _ _)
    simp only [Bool.false_eq_true, if_false]
    rw [h1]
    dsimp only
    rw [h2, h3, h4, h5]
    rw [hw _ (by rcases hnf with h | h <;> simp [h])]
    dsimp only
    rw [htext]
  | true =>
    obtain ⟨x1, h1, h2, h3, h4, h5⟩ := hadv
      { s with p := { s.p with line := s.p.nline, col := s.p.ncol } }
      (if s.p.ncur = NODE_DOCTYPE then "<&]\n".toList else "<&\n".toList) true rfl rfl
      (ite_eq_or_eq _ _ _)
    simp only [if_true]
    rw [h1]
    dsimp only
    rw [h2, h3, h4, h5]
    rw [hw _ (by rcases hnf with h | h <;> simp [h])]
    dsimp only
    rw [htext]

/-- C18 fails: a NUL byte in the input makes `parse_string` call `xml_text`
with the length 0.  At a NUL byte where a token starts outside tags (and, in
no-fill mode, with no white space pending before it), `advance` finds the NUL
in every set of bytes, since `strchr` finds the terminator, and stops at
once, so that the assertion `sz > 0` of `xml_text` fails; the parser fails it
on the input that is one NUL byte and on `<para>a`, NUL, `b</para>`.  For any
other byte that starts a text, `advance` moves `pend` by at least one. -/
theorem xml_text_length_fails :
    (∀ (r : nested) (s : scan) (rlen : Nat) (refill : Bool), s.pstate = PARSE_ELEM →
      s.pend < rlen → s.b.get? s.pend = some (some NUL) →
      (s.p.nofill = 0 ∨ s.pws = s.pend) →
      parse_string_step r s rlen refill = .error .assertion) ∧
    (∀ warn : Bool, (parse_file 0 (parse_alloc warn [] 1) (some [NUL])
      "<stdin>".toList).map (fun _ => ()) = .error .assertion) ∧
    (∀ warn : Bool, (parse_file 0 (parse_alloc warn [] 1)
      (some ("<para>a".toList ++ [NUL] ++ "b</para>".toList))
      "<stdin>".toList).map (fun _ => ()) = .error .assertion) ∧
    (∀ (s s1 : scan) (rlen : Nat) (charset : cstring) (refill adv : Bool) (c : Char),
      (charset = "<&\n".toList ∨ charset = "<&]\n".toList) → s.pend < rlen →
      buf_get s.b s.pend = .ok c → c ≠ NUL → c ∉ charset →
      advance s rlen charset refill = .ok (s1, adv) → s.pend < s1.pend) := by
  refine ⟨parse_string_step_nul, by decide!, by decide!, ?_⟩
  intro s s1 rlen charset refill adv c hset hlt hc hnul hmem h
  exact advance_text_progress s s1 rlen charset refill adv c hset hlt hc hnul hmem h

/-! ## The parse offset that parse_string returns -/

/-- The turn of the token loop that begins a tag. -/
theorem parse_string_step_tag (r : nested) (s s0 : scan) (rlen : Nat) (refill : Bool)
    (hs0 : s0 = if refill then { s with p := { s.p with line := s.p.nline, col := s.p.ncol } }
      else s)
    (hne : s.pend ≠ rlen) (hget : buf_get s.b s.pend = .ok '<') (hst : s.pstate = PARSE_ELEM) :
    parse_string_step r s rlen refill = scan_tag r s0 rlen refill s0.pend := by
  have e1 : s0.pend = s.pend := by rw [hs0]; split <;> rfl
  have e2 : s0.b = s.b := by rw [hs0]; split <;> rfl
  have e3 : s0.pstate = s.pstate := by rw [hs0]; split <;> rfl
  have e4 : s0.p.ncur = s.p.ncur := by rw [hs0]; split <;> rfl
  have hsp : c_isspace '<' = false := by decide
  unfold parse_string_step
  rw [← hs0]
  dsimp only
  rw [e1, e2, e3, e4, if_neg hne]
  simp only [bind, Except.bind, pure, Except.pure, hget, hsp, Bool.false_eq_true, if_false, hst,
    if_true]
  rw [if_neg (by decide), if_neg (by decide)]

/-- When no byte up to the end of the buffer stops it, the loop of `advance`
runs to the end of the buffer. -/
theorem advance_loop_end (rlen : Nat) (space : Bool) (cs : cstring) (refill : Bool) :
    ∀ (k : Nat) (s : scan), rlen - s.pend ≤ k → s.pend ≤ rlen →
    (∀ i, s.pend ≤ i → i < rlen → ∃ c, s.b.get? i = some (some c) ∧
      ((space && c_isspace c) || c_strchr cs c) = false) →
    ∃ s1, advance_loop k s rlen space cs refill = .ok s1 ∧ s1.pend = rlen ∧ s1.b = s.b ∧
      s1.pstate = s.pstate
  | 0, s, hk, hle, _ => by
    refine ⟨s, rfl, by omega, rfl, rfl⟩
  | k + 1, s, hk, hle, h => by
    simp only [advance_loop]
    by_cases hlt : s.pend < rlen
    · obtain ⟨c, hc, hstop⟩ := h s.pend (le_refl _) hlt
      rw [if_pos hlt, buf_get_of_get _ _ _ hc]
      simp only [hstop, Bool.false_eq_true, if_false]
      have hinc : ∃ s2, increment s refill = .ok s2 ∧ s2.pend = s.pend + 1 ∧ s2.b = s.b ∧
          s2.pstate = s.pstate := by
        unfold increment
        cases refill with
        | false => exact ⟨_, rfl, rfl, rfl, rfl⟩
        | true =>
          simp only [if_true, buf_get_of_get _ _ _ hc]
          split <;> exact ⟨_, rfl, rfl, rfl, rfl⟩
      obtain ⟨s2, h1, h2, h3, h4⟩ := hinc
      rw [h1]
      obtain ⟨s1, g1, g2, g3, g4⟩ := advance_loop_end rlen space cs refill k s2 (by omega)
        (by omega) (fun i hi1 hi2 => by rw [h3]; exact h i (by omega) hi2)
      exact ⟨s1, g1, g2, g3.trans h3, g4.trans h4⟩
    · rw [if_neg hlt]
      exact ⟨s, rfl, by omega, rfl, rfl⟩

/-- A tag that does not end in the buffer, on a refill: `parse_string`
returns the offset at which the tag starts. -/
theorem parse_string_tag_open (r : nested) (p : parse) (b : List (Option Char)) (rlen : Nat)
    (hpos : 0 < rlen) (h0 : b.get? 0 = some (some '<'))
    (h : ∀ i, i < rlen → ∃ c, b.get? i = some (some c) ∧ c_isspace c = false ∧ c ≠ '>' ∧
      c ≠ NUL) :
    ∃ s, parse_string r p b rlen PARSE_ELEM true = .ok (s, 0) := by
  have hadv : ∀ s : scan, s.pend = 0 → s.b = b →
      ∃ s1, advance s rlen " >".toList true = .ok (s1, true) := by
    intro s hs hb
    unfold advance
    simp only [show (" >".toList.head? = some ' ') from rfl, decide_True, if_true]
    have hrun := advance_loop_end rlen true (" >".toList.drop 1) true (rlen - s.pend)
      { s with p := { s.p with nline := s.p.line, ncol := s.p.col } }
      (le_refl _) (by simp [hs]) (by
        intro i _ hi
        obtain ⟨c, hc, h1, h2, h3⟩ := h i hi
        refine ⟨c, by simpa [hb] using hc, ?_⟩
        simp [h1, c_strchr, h2, h3])
    obtain ⟨s1, g1, g2, -, -⟩ := hrun
    rw [g1]
    simp only [g2, if_true]
    exact ⟨_, rfl⟩
  unfold parse_string
  obtain ⟨k, hk⟩ : ∃ k, 2 * rlen + 4 = k + 1 := ⟨2 * rlen + 3, by omega⟩
  rw [hk]
  simp only [parse_string_loop]
  rw [parse_string_step_tag r ⟨p, b, PARSE_ELEM, 0, 0⟩ _ rlen true rfl (by simp; omega)
    (buf_get_of_get _ _ _ h0) rfl]
  obtain ⟨s1, hs1⟩ := hadv { (⟨p, b, PARSE_ELEM, 0, 0⟩ : scan) with
    p := { p with line := p.nline, col := p.ncol } } rfl rfl
  unfold scan_tag
  simp only [if_true, bind, Except.bind, hs1, pure, Except.pure]
  exact ⟨_, rfl⟩

/-- The first buffer of `parse_fd` holds the start of the input. -/
theorem parse_fd_buffer (input : List Char) (b0 : List (Option Char)) (n i : Nat)
    (hi : i < min input.length n) :
    ((input.take (min input.length n)).map some ++ b0.drop (min input.length n)).get? i =
      some (input.get? i) := by
  have h1 : i < input.length := by omega
  simp only [List.get?_eq_getElem?]
  rw [List.getElem?_append_left (by simp; omega)]
  simp [List.getElem?_take, hi, h1]

/-- A tag at the start of the input that is not complete makes the
assertion `poff > 0` of `parse_fd` fail. -/
theorem parse_fd_tag_open (r : nested) (p : parse) (name : cstring)
    (hname : ∀ c ∈ name, c_isspace c = false ∧ c ≠ '>' ∧ c ≠ NUL) :
    parse_fd r p ('<' :: name) = .error .assertion := by
  unfold parse_fd
  obtain ⟨k, hk⟩ : ∃ k, 2 * ('<' :: name).length + 2 = k + 1 :=
    ⟨2 * ('<' :: name).length + 1, by omega⟩
  rw [hk]
  have hlen : (List.replicate 4096 (none : Option Char)).length = 4096 :=
    List.length_replicate _ _
  generalize List.replicate 4096 (none : Option Char) = b0 at hlen ⊢
  simp only [parse_fd_loop, hlen, Nat.sub_zero, show 4096 - 1 = 4095 from rfl,
    List.take_zero, List.nil_append, zero_add]
  have hmin : 0 < min ('<' :: name).length 4095 := by simp
  have hcell : ∀ i, i < min ('<' :: name).length 4095 → ∃ c,
      ((('<' :: name).take (min ('<' :: name).length 4095)).map some ++
        b0.drop (min ('<' :: name).length 4095)).get? i = some (some c) ∧
      c_isspace c = false ∧ c ≠ '>' ∧ c ≠ NUL := by
    intro i hi
    rw [parse_fd_buffer ('<' :: name) b0 4095 i hi]
    have h1 : i < ('<' :: name).length := by omega
    refine ⟨('<' :: name).get ⟨i, h1⟩, by rw [List.get?_eq_get h1], ?_⟩
    have hm : ('<' :: name).get ⟨i, h1⟩ ∈ '<' :: name := List.get_mem _ _ _
    rcases List.mem_cons.1 hm with h | h
    · rw [h]; decide
    · exact hname _ h
  have h0 : ((('<' :: name).take (min ('<' :: name).length 4095)).map some ++
        b0.drop (min ('<' :: name).length 4095)).get? 0 = some (some '<') := by
    rw [parse_fd_buffer ('<' :: name) b0 4095 0 hmin]
    rfl
  obtain ⟨s, hs⟩ := parse_string_tag_open r p _ (min ('<' :: name).length 4095) hmin h0 hcell
  rw [if_neg (by omega)]
  have hd : decide (min ('<' :: name).length 4095 > 0) = true := by simpa using hmin
  rw [hd, hs]
  rfl

/-- C19 fails: `parse_string` returns the offset 0 when the token at the
start of the buffer does not end in the buffer and the last `read` got data,
and `parse_fd` then fails its assertion `poff > 0` instead of reading on.
For every input that is `<` followed by bytes among which there is no white
space, no `>` and no NUL, the first call of `parse_string` returns 0 and
`parse_fd` fails the assertion, whatever the length of the input: this holds
for the two bytes `<a` as for a tag name of 5000 bytes, which is longer than
the buffer. -/
theorem parse_fd_assert_fails :
    (∀ (r : nested) (p : parse) (name : cstring),
      (∀ c ∈ name, c_isspace c = false ∧ c ≠ '>' ∧ c ≠ NUL) →
      parse_fd r p ('<' :: name) = .error .assertion) ∧
    (∀ (fuel : Nat) (p : parse) (name : cstring),
      (∀ c ∈ name, c_isspace c = false ∧ c ≠ '>' ∧ c ≠ NUL) →
      (parse_file fuel p (some ('<' :: name)) "<stdin>".toList).map (fun _ => ()) =
        .error .assertion) ∧
    (∀ (fuel : Nat) (p : parse),
      (parse_file fuel p (some "<a".toList) "<stdin>".toList).map (fun _ => ()) =
        .error .assertion) ∧
    (∀ (fuel : Nat) (p : parse),
      (parse_file fuel p (some ('<' :: List.replicate 5000 'a')) "<stdin>".toList).map
        (fun _ => ()) = .error .assertion) := by
  have hfile : ∀ (fuel : Nat) (p : parse) (name : cstring),
      (∀ c ∈ name, c_isspace c = false ∧ c ≠ '>' ∧ c ≠ NUL) →
      (parse_file fuel p (some ('<' :: name)) "<stdin>".toList).map (fun _ => ()) =
        .error .assertion := by
    intro fuel p name hname
    unfold parse_file parse_file_at
    dsimp only
    rw [parse_fd_tag_open _ _ name hname]
    rfl
  refine ⟨parse_fd_tag_open, hfile, ?_, ?_⟩
  · intro fuel p
    exact hfile fuel p "a".toList (by decide)
  · intro fuel p
    refine hfile fuel p (List.replicate 5000 'a') ?_
    intro c hc
    rw [List.eq_of_mem_replicate hc]
    decide

/-! ## Text nodes: the strings -/

theorem text_trimmed_iff (s : cstring) :
    text_trimmed s = true ↔ s ≠ [] ∧ (∀ c, s.head? = some c → c_isspace c = false) ∧
      (∀ c, s.getLast? = some c → c_isspace c = false) := by
  unfold text_trimmed
  cases s with
  | nil => simp
  | cons a t =>
    cases h : (a :: t).getLast? with
    | none => simp at h
    | some z => simp

theorem text_open_iff (s : cstring) :
    text_open s = true ↔ s ≠ [] ∧ (∀ c, s.head? = some c → c_isspace c = false) ∧ NUL ∉ s := by
  unfold text_open
  cases s with
  | nil => simp
  | cons a t => simp

theorem rstrip_front (s : cstring) : rstrip s <+: s := by
  unfold rstrip
  rw [← List.reverse_suffix, List.reverse_reverse]
  exact List.dropWhile_suffix _

theorem rstrip_last (s : cstring) (c : Char) (h : (rstrip s).getLast? = some c) :
    c_isspace c = false := by
  unfold rstrip at h
  rw [List.getLast?_reverse] at h
  have := List.head?_dropWhile_not c_isspace s.reverse
  rw [h] at this
  simpa using this

theorem front_head {α : Type} {l₁ l₂ : List α} (h : l₁ <+: l₂) (hne : l₁ ≠ []) :
    l₁.head? = l₂.head? := by
  obtain ⟨t, rfl⟩ := h
  cases l₁ with
  | nil => exact absurd rfl hne
  | cons a u => rfl

theorem rstrip_ne_nil (s : cstring) (c : Char) (hc : s.head? = some c)
    (hsp : c_isspace c = false) : rstrip s ≠ [] := by
  unfold rstrip
  intro h
  rw [List.reverse_eq_nil_iff, List.dropWhile_eq_nil_iff] at h
  cases s with
  | nil => cases hc
  | cons a t =>
    simp only [List.head?_cons, Option.some.injEq] at hc
    subst hc
    have := h a (by simp)
    rw [hsp] at this
    cases this

/-- A string that starts with a byte other than white space is trimmed once
its trailing white space is gone. -/
theorem rstrip_trimmed (s : cstring) (c : Char) (hc : s.head? = some c)
    (hsp : c_isspace c = false) : text_trimmed (rstrip s) = true := by
  have hne := rstrip_ne_nil s c hc hsp
  rw [text_trimmed_iff]
  refine ⟨hne, ?_, rstrip_last s⟩
  intro d hd
  rw [front_head (rstrip_front s) hne, hc] at hd
  cases hd
  exact hsp

theorem text_trimmed_of_all (s : cstring) (hne : s ≠ [])
    (h : ∀ c ∈ s, c_isspace c = false) : text_trimmed s = true := by
  rw [text_trimmed_iff]
  refine ⟨hne, ?_, ?_⟩
  · intro c hc
    exact h c (List.mem_of_mem_head? hc)
  · intro c hc
    exact h c (List.mem_of_mem_getLast? hc)

theorem strtrunc_eq (s : cstring) (h : NUL ∉ s) : strtrunc s = s := by
  unfold strtrunc
  rw [List.takeWhile_eq_self_iff]
  intro c hc
  have : c ≠ NUL := fun hn => h (hn ▸ hc)
  simpa [NUL] using this

theorem take_takeWhile_length {α : Type} (p : α → Bool) : ∀ l : List α,
    l.take (l.takeWhile p).length = l.takeWhile p
  | [] => rfl
  | a :: t => by
    by_cases h : p a = true
    · rw [List.takeWhile_cons_of_pos h, List.length_cons, List.take_succ_cons,
        take_takeWhile_length p t]
    · rw [List.takeWhile_cons_of_neg h]
      rfl

theorem drop_takeWhile_length {α : Type} (p : α → Bool) : ∀ l : List α,
    l.drop (l.takeWhile p).length = l.dropWhile p
  | [] => rfl
  | a :: t => by
    by_cases h : p a = true
    · rw [List.takeWhile_cons_of_pos h, List.dropWhile_cons_of_pos h, List.length_cons,
        List.drop_succ_cons, drop_takeWhile_length p t]
    · rw [List.takeWhile_cons_of_neg h, List.dropWhile_cons_of_neg h]
      rfl

/-- The first word of a text that starts with a byte other than white
space. -/
theorem first_word_trimmed (w : cstring) (h : text_open w = true) :
    text_trimmed (strtrunc (w.take (w.takeWhile (fun c => !c_isspace c)).length)) = true := by
  obtain ⟨hne, hhead, hnul⟩ := (text_open_iff w).1 h
  rw [take_takeWhile_length]
  have hsub : ∀ c ∈ w.takeWhile (fun c => !c_isspace c), c ∈ w :=
    fun c hc => (List.takeWhile_sublist _).subset hc
  rw [strtrunc_eq _ (fun hn => hnul (hsub _ hn))]
  refine text_trimmed_of_all _ ?_ ?_
  · cases w with
    | nil => exact absurd rfl hne
    | cons a t =>
      have ha := hhead a rfl
      rw [List.takeWhile_cons_of_pos (by simp [ha])]
      simp
  · intro c hc
    have := List.mem_takeWhile_imp hc
    simpa using this

/-- What is left of a text after its first word and the white space behind
it. -/
theorem rest_word_open (w : cstring) (h : text_open w = true)
    (hne : ((w.drop (w.takeWhile (fun c => !c_isspace c)).length).dropWhile c_isspace).length
      ≠ 0) :
    text_open (strtrunc
      ((w.drop (w.takeWhile (fun c => !c_isspace c)).length).dropWhile c_isspace)) = true := by
  obtain ⟨-, -, hnul⟩ := (text_open_iff w).1 h
  have hsub : ∀ c ∈ (w.drop (w.takeWhile (fun c => !c_isspace c)).length).dropWhile c_isspace,
      c ∈ w := fun c hc => List.mem_of_mem_drop ((List.dropWhile_sublist _).subset hc)
  rw [strtrunc_eq _ (fun hn => hnul (hsub _ hn))]
  rw [text_open_iff]
  refine ⟨fun h0 => hne (by rw [h0]; rfl), ?_, fun hn => hnul (hsub _ hn)⟩
  intro c hc
  have := List.head?_dropWhile_not c_isspace (w.drop (w.takeWhile (fun c => !c_isspace c)).length)
  rw [hc] at this
  simpa using this

/-- More text for an open text node. -/
theorem append_open (old word : cstring) (sp : Bool) (h1 : text_open old = true)
    (h2 : NUL ∉ word) :
    text_open (strtrunc (old ++ (if old.length ≠ 0 ∧ sp = true then [' '] else []) ++ word)) =
      true := by
  obtain ⟨hne, hhead, hnul⟩ := (text_open_iff old).1 h1
  have hn : NUL ∉ old ++ (if old.length ≠ 0 ∧ sp = true then [' '] else []) ++ word := by
    intro h
    rcases List.mem_append.1 h with h | h
    · rcases List.mem_append.1 h with h | h
      · exact hnul h
      · split at h
        · simp only [List.mem_singleton] at h
          revert h
          decide
        · cases h
    · exact h2 h
  rw [strtrunc_eq _ hn, text_open_iff]
  refine ⟨by simp [hne], ?_, hn⟩
  intro c hc
  cases old with
  | nil => exact absurd rfl hne
  | cons a t => exact hhead c (by simpa using hc)

/-- The last word of a trimmed string, which `pnode_closetext` can split
off. -/
theorem last_word_trimmed (s : cstring) (h : text_trimmed s = true) :
    text_trimmed (s.reverse.takeWhile (fun c => !c_isspace c)).reverse = true := by
  obtain ⟨hne, -, hlast⟩ := (text_trimmed_iff s).1 h
  refine text_trimmed_of_all _ ?_ ?_
  · obtain ⟨z, hz⟩ : ∃ z, s.getLast? = some z := by
      cases hl : s.getLast? with
      | none => exact absurd (List.getLast?_eq_none_iff.1 hl) hne
      | some z => exact ⟨z, rfl⟩
    have hz2 := hlast z hz
    rw [← List.head?_reverse] at hz
    intro h0
    rw [List.reverse_eq_nil_iff] at h0
    cases hr : s.reverse with
    | nil => rw [hr] at hz; cases hz
    | cons a t =>
      rw [hr] at hz h0
      simp only [List.head?_cons, Option.some.injEq] at hz
      subst hz
      rw [List.takeWhile_cons_of_pos (by simp [hz2])] at h0
      cases h0
  · intro c hc
    rw [List.mem_reverse] at hc
    have := List.mem_takeWhile_imp hc
    simpa using this

/-- The front part of a trimmed string without its last word. -/
theorem front_trimmed (s : cstring) (m : Nat) (h : text_trimmed s = true)
    (hne : (rstrip (s.take m)).length ≠ 0) : text_trimmed (rstrip (s.take m)) = true := by
  obtain ⟨hs, hhead, -⟩ := (text_trimmed_iff s).1 h
  have hne2 : rstrip (s.take m) ≠ [] := fun h0 => hne (by rw [h0]; rfl)
  have hpre : rstrip (s.take m) <+: s := ( rstrip_front _).trans ( List.take_prefix _ _)
  rw [text_trimmed_iff]
  refine ⟨hne2, ?_, rstrip_last _⟩
  intro c hc
  rw [front_head hpre hne2] at hc
  exact hhead c hc

/-! ## Text nodes: the trees -/

section TextNodes

variable {A : List Nat}

theorem pnode.text_ok_iff (n : pnode) :
    n.text_ok A ↔
      (n.node = NODE_TEXT → n.addr ∉ A → ∃ s, n.b = some s ∧ text_trimmed s = true) ∧
      ∀ c ∈ n.childq, c.text_ok A := by
  unfold pnode.text_ok
  constructor
  · intro h
    exact ⟨h n (pnode.mem_nodes_self n), fun c hc m hm => h m (pnode.mem_nodes_of_child hc hm)⟩
  · rintro ⟨h1, h2⟩ m hm
    rw [pnode.nodes_eq] at hm
    rcases List.mem_cons.1 hm with rfl | hm
    · exact h1
    · obtain ⟨c, hc, hmc⟩ := pnode.mem_nodes_queue.1 hm
      exact h2 c hc m hmc

theorem pnode.text_ok_elem {n : pnode} (h : n.node ≠ NODE_TEXT)
    (hc : ∀ c ∈ n.childq, c.text_ok A) : n.text_ok A :=
  (pnode.text_ok_iff n).2 ⟨fun hn => absurd hn h, hc⟩

theorem pnode.text_ok_leaf {n : pnode} (s : cstring) (hb : n.b = some s)
    (hs : text_trimmed s = true) (hc : n.childq = []) : n.text_ok A :=
  (pnode.text_ok_iff n).2 ⟨fun _ _ => ⟨s, hb, hs⟩, fun c h => by rw [hc] at h; cases h⟩

theorem pnode.text_ok_child {n c : pnode} (h : n.text_ok A) (hc : c ∈ n.childq) : c.text_ok A :=
  ((pnode.text_ok_iff n).1 h).2 c hc

/-- A node behind an address that is about to be unlinked. -/
theorem pnode.text_ok_exempt {n : pnode} (ha : n.addr ∈ A) (hc : n.childq = []) :
    n.text_ok A :=
  (pnode.text_ok_iff n).2 ⟨fun _ hna => absurd ha hna, fun c h => by rw [hc] at h; cases h⟩

theorem pnode.text_ok_mono {B : List Nat} (hAB : ∀ a, a ∈ A → a ∈ B) {n : pnode}
    (h : n.text_ok A) : n.text_ok B :=
  fun m hm hk hB => h m hm hk (fun hA => hB (hAB _ hA))

theorem mem_dropaddr_queue (a : Nat) : ∀ (cs : List pnode) (x : pnode),
    x ∈ pnode_dropaddr_queue a cs → ∃ c ∈ cs, c.addr ≠ a ∧ x = pnode_dropaddr a c
  | [], x, h => by cases h
  | nc :: rest, x, h => by
    rw [pnode_dropaddr_queue_cons] at h
    split at h
    · obtain ⟨c, hc, hx⟩ := mem_dropaddr_queue a rest x h
      exact ⟨c, List.mem_cons_of_mem _ hc, hx⟩
    · rename_i hne
      rcases List.mem_cons.1 h with h | h
      · exact ⟨nc, List.mem_cons_self _ _, hne, h⟩
      · obtain ⟨c, hc, hx⟩ := mem_dropaddr_queue a rest x h
        exact ⟨c, List.mem_cons_of_mem _ hc, hx⟩

theorem pnode_dropaddr_fields (a : Nat) (n : pnode) :
    (pnode_dropaddr a n).node = n.node ∧ (pnode_dropaddr a n).b = n.b ∧
    (pnode_dropaddr a n).childq = pnode_dropaddr_queue a n.childq ∧
    (pnode_dropaddr a n).addr = n.addr := by
  cases n
  exact ⟨rfl, rfl, rfl, rfl⟩

/-- Unlinking the nodes at the address `a` keeps the text nodes that stay as
they are, and the address needs no exemption any more. -/
theorem pnode_dropaddr_text_ok (a : Nat) (n : pnode) :
    n.addr ≠ a → n.text_ok (a :: A) → (pnode_dropaddr a n).text_ok A := by
  induction n using pnode.induct with
  | h n ih =>
    intro hna h
    obtain ⟨h1, h2⟩ := (pnode.text_ok_iff n).1 h
    obtain ⟨e1, e2, e3, e4⟩ := pnode_dropaddr_fields a n
    rw [pnode.text_ok_iff, e1, e2, e3, e4]
    refine ⟨fun hk hA => h1 hk ?_, ?_⟩
    · intro hmem
      rcases List.mem_cons.1 hmem with hmem | hmem
      · exact hna hmem
      · exact hA hmem
    · intro x hx
      obtain ⟨c, hc, hca, rfl⟩ := mem_dropaddr_queue a _ x hx
      exact ih c hc hca (h2 c hc)

theorem pnode_dropaddr_queue_text_ok (a : Nat) (cs : List pnode)
    (h : ∀ c ∈ cs, c.text_ok (a :: A)) : ∀ x ∈ pnode_dropaddr_queue a cs, x.text_ok A := by
  intro x hx
  obtain ⟨c, hc, hca, rfl⟩ := mem_dropaddr_queue a _ x hx
  exact pnode_dropaddr_text_ok a c hca (h c hc)

namespace parse

/-- The property `text_ok` looks at the stack, the complete trees, the kind
of the element last seen and the deletion counter only. -/
theorem text_ok_congr {p q : parse} (h : p.text_ok A) (hs : q.stack = p.stack)
    (hl : q.loose = p.loose) (hn : q.ncur = p.ncur) (hd : q.del = p.del) : q.text_ok A := by
  unfold text_ok at h ⊢
  rw [hs, hl, hn, hd]
  exact h

theorem text_ok_of {p q : parse} (h : p.text_ok A) (hs : q.stack = p.stack)
    (hl : q.loose = p.loose) (hn : q.ncur ≠ NODE_TEXT) (hd : 0 ≤ q.del) : q.text_ok A := by
  unfold text_ok at h ⊢
  rw [hs, hl]
  exact ⟨h.1, h.2.1, h.2.2.1, h.2.2.2.1, hn, hd⟩

/-- A state whose current node is an element. -/
theorem text_ok_cur {p : parse} (c : pnode) (up : List pnode) (hs : p.stack = c :: up)
    (hl : ∀ n ∈ p.loose, n.text_ok A) (hc : c.node ≠ NODE_TEXT)
    (hcc : ∀ x ∈ c.childq, x.text_ok A) (hup : ∀ n ∈ up, n.node ≠ NODE_TEXT)
    (hupc : ∀ n ∈ up, ∀ x ∈ n.childq, x.text_ok A) (hn : p.ncur ≠ NODE_TEXT) (hd : 0 ≤ p.del) :
    p.text_ok A := by
  unfold text_ok
  rw [hs]
  refine ⟨hl, ?_, hup, ?_, hn, hd⟩
  · intro n hn
    rcases List.mem_cons.1 hn with rfl | hn
    · exact hcc
    · exact hupc n hn
  · intro n hn hk
    simp only [List.head?_cons, Option.some.injEq] at hn
    exact absurd (hn ▸ hk) hc

/-- A state whose current node is an open text node. -/
theorem text_ok_text {p : parse} (t c : pnode) (up : List pnode) (s : cstring)
    (hs : p.stack = t :: c :: up) (hl : ∀ n ∈ p.loose, n.text_ok A) (hb : t.b = some s)
    (ho : text_open s = true) (htc : t.childq = []) (hc : c.node ≠ NODE_TEXT)
    (hcc : ∀ x ∈ c.childq, x.text_ok A) (hup : ∀ n ∈ up, n.node ≠ NODE_TEXT)
    (hupc : ∀ n ∈ up, ∀ x ∈ n.childq, x.text_ok A) (hn : p.ncur ≠ NODE_TEXT) (hd : 0 ≤ p.del) :
    p.text_ok A := by
  unfold text_ok
  rw [hs]
  refine ⟨hl, ?_, ?_, ?_, hn, hd⟩
  · intro n hn
    rcases List.mem_cons.1 hn with rfl | hn
    · intro x hx
      rw [htc] at hx
      cases hx
    · rcases List.mem_cons.1 hn with rfl | hn
      · exact hcc
      · exact hupc n hn
  · intro n hn
    rcases List.mem_cons.1 hn with rfl | hn
    · exact hc
    · exact hup n hn
  · intro n hn _
    simp only [List.head?_cons, Option.some.injEq] at hn
    subst hn
    exact ⟨by simp, htc, s, hb, ho⟩

/-- The parts of `text_ok` for a state with a node on the stack. -/
theorem text_ok_cons {p : parse} (h : p.text_ok A) (c : pnode) (up : List pnode)
    (hs : p.stack = c :: up) :
    (∀ n ∈ p.loose, n.text_ok A) ∧ (∀ x ∈ c.childq, x.text_ok A) ∧
    (∀ n ∈ up, n.node ≠ NODE_TEXT) ∧ (∀ n ∈ up, ∀ x ∈ n.childq, x.text_ok A) ∧
    p.ncur ≠ NODE_TEXT ∧ 0 ≤ p.del ∧
    (c.node = NODE_TEXT → up ≠ [] ∧ c.childq = [] ∧ ∃ s, c.b = some s ∧ text_open s = true) := by
  unfold text_ok at h
  rw [hs] at h
  obtain ⟨h1, h2, h3, h4, h5, h6⟩ := h
  exact ⟨h1, h2 c (List.mem_cons_self _ _), h3, fun n hn => h2 n (List.mem_cons_of_mem _ hn),
    h5, h6, fun hk => h4 c rfl hk⟩

/-- More exemptions keep the property. -/
theorem text_ok_more {B : List Nat} (hAB : ∀ a, a ∈ A → a ∈ B) {p : parse}
    (h : p.text_ok A) : p.text_ok B := by
  unfold text_ok at h ⊢
  obtain ⟨h1, h2, h3, h4, h5, h6⟩ := h
  exact ⟨fun n hn => pnode.text_ok_mono hAB (h1 n hn),
    fun n hn c hc => pnode.text_ok_mono hAB (h2 n hn c hc), h3, h4, h5, h6⟩

end parse

/-- The zeroed parser holds no text node. -/
theorem parse_alloc_text_ok (warn : Bool) (files : List (cstring × List Char)) (next : Nat) :
    (parse_alloc warn files next).text_ok A := by
  unfold parse.text_ok parse_alloc
  refine ⟨?_, ?_, ?_, ?_, (fun h => by cases h), le_refl _⟩ <;> intro n hn <;> cases hn

/-! ## Text nodes: closing and opening them -/

theorem pnode.insertTail_node (x y : pnode) : (x.insertTail y).node = x.node := by
  cases x; rfl

theorem pnode.mem_insertTail (x y z : pnode) :
    z ∈ (x.insertTail y).childq ↔ z ∈ x.childq ∨ z = y := by
  cases x
  simp

/-- Closing the open text node, with the string `x`. -/
theorem parse.close_shape (p1 : parse) (n n1 c : pnode) (up : List pnode)
    (hs : p1.stack = n :: c :: up) :
    (p1.setCur n1).pop.stack = c.insertTail n1 :: up ∧
    (p1.setCur n1).pop.loose = p1.loose := by
  have h1 : (p1.setCur n1).stack = n1 :: c :: up := parse.setCur_stack p1 n1 n _ hs
  obtain ⟨h2, h3⟩ := parse.pop_stack (p1.setCur n1) n1 c up h1
  exact ⟨h2, h3.trans (parse.setCur_loose p1 n1)⟩

/-- The function `pnode_closetext` keeps the property `text_ok`, and
afterwards the current node is no text node. -/
theorem pnode_closetext_text_ok (p q : parse) (chk : Bool) (h : p.text_ok A)
    (hq : pnode_closetext p chk = .ok q) :
    q.text_ok A ∧ ∀ n ∈ q.stack, n.node ≠ NODE_TEXT := by
  obtain ⟨hqd, hqn, -⟩ := pnode_closetext_frame p q chk hq
  rcases pnode_closetext_cases p q chk hq with ⟨rfl, htop⟩ |
    ⟨n, rest, b, p1, hs, hn, hb, hp1, hq2⟩
  · refine ⟨h, ?_⟩
    intro n hn
    cases hst : q.stack with
    | nil => rw [hst] at hn; cases hn
    | cons c up =>
      rw [hst] at hn
      obtain ⟨-, -, hup, -⟩ := parse.text_ok_cons h c up hst
      rcases List.mem_cons.1 hn with rfl | hn
      · exact htop n (by rw [hst]; rfl)
      · exact hup n hn
  · obtain ⟨hl, -, hup, hupc, hnc, hd, htext⟩ := parse.text_ok_cons h n rest hs
    obtain ⟨hrest, -, s, hs2, ho⟩ := htext hn
    rw [hb] at hs2
    cases hs2
    obtain ⟨c, up, rfl⟩ := List.exists_cons_of_ne_nil hrest
    obtain ⟨-, hhead, -⟩ := (text_open_iff b).1 ho
    obtain ⟨b0, hb0⟩ : ∃ b0, b.head? = some b0 := by
      cases b with
      | nil => simp [text_open] at ho
      | cons a t => exact ⟨a, rfl⟩
    have htr : text_trimmed (rstrip b) = true := rstrip_trimmed b b0 hb0 (hhead b0 hb0)
    have hp1s : p1.stack = n :: c :: up ∧ p1.loose = p.loose := by
      rcases hp1 with ⟨-, rfl⟩ | ⟨-, rfl⟩
      · exact ⟨hs, rfl⟩
      · exact ⟨hs, rfl⟩
    have hcup : ∀ m ∈ up, m.node ≠ NODE_TEXT := fun m hm => hup m (List.mem_cons_of_mem _ hm)
    have hcupc : ∀ m ∈ up, ∀ x ∈ m.childq, x.text_ok A :=
      fun m hm => hupc m (List.mem_cons_of_mem _ hm)
    have hcn : c.node ≠ NODE_TEXT := hup c (List.mem_cons_self _ _)
    have hcc : ∀ x ∈ c.childq, x.text_ok A := hupc c (List.mem_cons_self _ _)
    have hkey : ∀ (x : cstring), text_trimmed x = true →
        ∀ q1 : parse, q1 = (p1.setCur (n.setB (some x))).pop →
        q1.stack = c.insertTail (n.setB (some x)) :: up ∧ q1.loose = p.loose ∧
        ∀ y ∈ (c.insertTail (n.setB (some x))).childq, y.text_ok A := by
      intro x hx q1 hq1
      obtain ⟨e1, e2⟩ := parse.close_shape p1 n (n.setB (some x)) c up hp1s.1
      refine ⟨hq1 ▸ e1, hq1 ▸ (e2.trans hp1s.2), ?_⟩
      intro y hy
      rcases (pnode.mem_insertTail _ _ _).1 hy with hy | rfl
      · exact hcc y hy
      · refine pnode.text_ok_leaf x ?_ hx ?_
        · cases n; rfl
        · have hnc0 := (htext hn).2.1
          cases n
          exact hnc0
    rcases hq2 with rfl | ⟨m, t, hm, -, ht1, ht2, ht3, -, rfl⟩
    · obtain ⟨e1, e2, e3⟩ := hkey (rstrip b) htr _ rfl
      have hok : ((p1.setCur (n.setB (some (rstrip b)))).pop).text_ok A :=
        parse.text_ok_cur _ up e1 (by rw [e2]; exact hl) (by rw [pnode.insertTail_node]; exact hcn) e3 hcup
          hcupc (by rw [hqn]; exact hnc) (by rw [hqd]; exact hd)
      refine ⟨hok, ?_⟩
      intro y hy
      rw [e1] at hy
      rcases List.mem_cons.1 hy with rfl | hy
      · rw [pnode.insertTail_node]; exact hcn
      · exact hcup y hy
    · obtain ⟨e1, e2, e3⟩ := hkey (rstrip ((rstrip b).take m)) (front_trimmed _ m htr hm) _ rfl
      have f1 : ((p1.setCur (n.setB (some (rstrip ((rstrip b).take m))))).pop.alloc.2).stack =
          c.insertTail (n.setB (some (rstrip ((rstrip b).take m)))) :: up := e1
      obtain ⟨g1, g2⟩ := parse.link_stack _ t _ _ f1
      have htok : t.text_ok A := pnode.text_ok_leaf _ ht2 (last_word_trimmed _ htr) ht3
      have hok : ((p1.setCur (n.setB (some (rstrip ((rstrip b).take m))))).pop.alloc.2.link
          t).text_ok A := by
        refine parse.text_ok_cur _ up g1 ?_ ?_ ?_ hcup hcupc (by rw [hqn]; exact hnc)
          (by rw [hqd]; exact hd)
        · rw [g2]
          exact fun x hx => hl x (e2 ▸ hx)
        · rw [pnode.insertTail_node, pnode.insertTail_node]; exact hcn
        · intro y hy
          rcases (pnode.mem_insertTail _ _ _).1 hy with hy | rfl
          · exact e3 y hy
          · exact htok
      refine ⟨hok, ?_⟩
      intro y hy
      rw [g1] at hy
      rcases List.mem_cons.1 hy with rfl | hy
      · rw [pnode.insertTail_node, pnode.insertTail_node]; exact hcn
      · exact hcup y hy

theorem pnode.setB_fields (t : pnode) (x : Option cstring) :
    (t.setB x).b = x ∧ (t.setB x).node = t.node ∧ (t.setB x).childq = t.childq := by
  cases t
  exact ⟨rfl, rfl, rfl⟩

/-- The part of `xml_text` that makes new text nodes, below the element `n`
that is current. -/
theorem xml_text_new_text_ok (p2 q : parse) (t n : pnode) (up : List pnode)
    (np : Except fault Bool) (word : List Char) (h : p2.text_ok A) (hw : text_open word = true)
    (hs : p2.stack = n :: up) (hn : n.node ≠ NODE_TEXT) (ht : t.childq = [])
    (hq : (match np with
      | .error e => .error e
      | .ok false => .ok (p2.push (t.setB (some (strtrunc word))))
      | .ok true =>
        let i := (word.takeWhile (fun c => !c_isspace c)).length
        let p3 := p2.link (t.setB (some (strtrunc (word.take i))))
        if i = word.length then .ok p3
        else
          let rest := (word.drop i).dropWhile c_isspace
          if rest.length = 0 then .ok { p3 with flags := { p3.flags with spc := true } }
          else
            let t2 := (p3.alloc.1.setNode NODE_TEXT).setFlags ⟨false, true⟩
            .ok (p3.alloc.2.push (t2.setB (some (strtrunc rest))))) = Except.ok q) :
    q.text_ok A := by
  obtain ⟨-, -, hwnul⟩ := (text_open_iff word).1 hw
  obtain ⟨hl, hcc, hup, hupc, hnc, hd, -⟩ := parse.text_ok_cons h n up hs
  have hword : text_open (strtrunc word) = true := by rw [strtrunc_eq _ hwnul]; exact hw
  cases np with
  | error e => cases hq
  | ok bnp =>
    cases bnp with
    | false =>
      cases hq
      refine parse.text_ok_text (t.setB (some (strtrunc word))) n up _ ?_ hl
        (pnode.setB_fields _ _).1 hword ?_ hn hcc hup hupc hnc hd
      · rw [parse.push_stack, hs]
      · rw [(pnode.setB_fields _ _).2.2]; exact ht
    | true =>
      dsimp only at hq
      obtain ⟨g1, g2⟩ := parse.link_stack p2
        (t.setB (some (strtrunc (word.take (word.takeWhile (fun c => !c_isspace c)).length))))
        n up hs
      have hfirst : ∀ y ∈ (n.insertTail (t.setB (some (strtrunc
          (word.take (word.takeWhile (fun c => !c_isspace c)).length))))).childq, y.text_ok A := by
        intro y hy
        rcases (pnode.mem_insertTail _ _ _).1 hy with hy | rfl
        · exact hcc y hy
        · exact pnode.text_ok_leaf _ (pnode.setB_fields _ _).1 (first_word_trimmed word hw)
            (by rw [(pnode.setB_fields _ _).2.2]; exact ht)
      have hn2 : (n.insertTail (t.setB (some (strtrunc
          (word.take (word.takeWhile (fun c => !c_isspace c)).length))))).node ≠ NODE_TEXT := by
        rw [pnode.insertTail_node]; exact hn
      have h3 : (p2.link (t.setB (some (strtrunc
          (word.take (word.takeWhile (fun c => !c_isspace c)).length))))).text_ok A :=
        parse.text_ok_cur _ up g1 (by rw [g2]; exact hl) hn2 hfirst hup hupc
          (by rw [parse.link_ncur]; exact hnc) (by rw [parse.link_del]; exact hd)
      generalize n.insertTail (t.setB (some (strtrunc
          (word.take (word.takeWhile (fun c => !c_isspace c)).length)))) = c1 at g1 hfirst hn2
      generalize p2.link (t.setB (some (strtrunc
          (word.take (word.takeWhile (fun c => !c_isspace c)).length)))) = p3 at hq g1 g2 h3
      split at hq
      · cases hq
        exact h3
      · split at hq
        · cases hq
          exact parse.text_ok_congr h3 rfl rfl rfl rfl
        · rename_i hrest
          cases hq
          refine parse.text_ok_text
            (((p3.alloc.1.setNode NODE_TEXT).setFlags ⟨false, true⟩).setB (some (strtrunc
              ((word.drop (word.takeWhile (fun c => !c_isspace c)).length).dropWhile
                c_isspace)))) c1 up _ ?_ ?_ (pnode.setB_fields _ _).1
            (rest_word_open word hw hrest) ?_ hn2 hfirst hup hupc ?_ ?_
          · rw [parse.push_stack]
            exact congrArg _ g1
          · intro x hx
            exact hl x (g2 ▸ hx)
          · rfl
          · exact (parse.text_ok_cons h3 c1 up g1).2.2.2.2.1
          · exact (parse.text_ok_cons h3 c1 up g1).2.2.2.2.2.1

/-- The function `xml_text` keeps the property `text_ok` when the text it
gets has at least one byte, no white space at its start and no NUL. -/
theorem xml_text_text_ok (p q : parse) (word : List Char) (h : p.text_ok A)
    (hw : text_open word = true) (hq : xml_text p word = .ok q) : q.text_ok A := by
  obtain ⟨hwne, hwhead, hwnul⟩ := (text_open_iff word).1 hw
  have hlen : ¬ word.length = 0 := by simpa using hwne
  unfold xml_text at hq
  rw [if_neg hlen] at hq
  by_cases hdel : p.del > 0
  · rw [if_pos hdel] at hq
    cases hq
    exact h
  rw [if_neg hdel] at hq
  split at hq
  · cases hq
    exact parse.text_ok_congr h rfl rfl rfl rfl
  · rename_i n rest hs
    obtain ⟨hl, hcc, hup, hupc, hnc, hd, htext⟩ := parse.text_ok_cons h n rest hs
    split at hq
    · rename_i hn
      obtain ⟨hrest, hch, s, hs2, ho⟩ := htext hn
      obtain ⟨c, up, rfl⟩ := List.exists_cons_of_ne_nil hrest
      split at hq
      · cases hq
      · rename_i old hb
        rw [hs2] at hb
        cases hb
        cases hq
        refine parse.text_ok_text (n.setB (some (strtrunc (s ++
          (if s.length ≠ 0 ∧ p.flags.spc = true then [' '] else []) ++ word)))) c up _ ?_ ?_
          ?_ (append_open s word p.flags.spc ho hwnul) ?_
          (hup c (List.mem_cons_self _ _)) (hupc c (List.mem_cons_self _ _))
          (fun m hm => hup m (List.mem_cons_of_mem _ hm))
          (fun m hm => hupc m (List.mem_cons_of_mem _ hm)) ?_ ?_
        · exact parse.setCur_stack p _ n _ hs
        · simpa using hl
        · cases n; rfl
        · cases n; exact hch
        · simpa using hnc
        · simpa using hd
    · rename_i hn
      have hp0 : ∀ p0 : parse, p0 = (if p.tflags.closed = true ∧ p.root = some n.addr
          then warn_msg p else p) → p0.stack = p.stack ∧ p0.loose = p.loose ∧
          p0.ncur = p.ncur ∧ p0.del = p.del := by
        intro p0 hp0
        rw [hp0]
        split <;> simp
      obtain ⟨e1, e2, e3, e4⟩ := hp0 _ rfl
      refine xml_text_new_text_ok _ q _ n rest _ word ?_ hw ?_ hn ?_ hq
      · exact parse.text_ok_congr h e1 e2 e3 e4
      · exact e1.trans hs
      · rfl

/-! ## Text nodes: the other events of the parser -/

namespace parse

/-- A state with no text node on the stack. -/
theorem text_ok_closed {p : parse} (hl : ∀ n ∈ p.loose, n.text_ok A)
    (hs : ∀ n ∈ p.stack, n.node ≠ NODE_TEXT) (hc : ∀ n ∈ p.stack, ∀ x ∈ n.childq, x.text_ok A)
    (hn : p.ncur ≠ NODE_TEXT) (hd : 0 ≤ p.del) : p.text_ok A := by
  unfold text_ok
  refine ⟨hl, hc, fun n h => hs n (List.mem_of_mem_tail h), ?_, hn, hd⟩
  intro n h hk
  exact absurd hk (hs n (List.mem_of_mem_head? h))

theorem text_ok_parts {p : parse} (h : p.text_ok A) :
    (∀ n ∈ p.loose, n.text_ok A) ∧ (∀ n ∈ p.stack, ∀ x ∈ n.childq, x.text_ok A) ∧
    p.ncur ≠ NODE_TEXT ∧ 0 ≤ p.del :=
  ⟨h.1, h.2.1, h.2.2.2.2.1, h.2.2.2.2.2⟩

/-- Linking a complete node below the current element. -/
theorem link_text_ok (p : parse) (n : pnode) (h : p.text_ok A)
    (hs : ∀ m ∈ p.stack, m.node ≠ NODE_TEXT) (hn : n.text_ok A) :
    (p.link n).text_ok A ∧ ∀ m ∈ (p.link n).stack, m.node ≠ NODE_TEXT := by
  obtain ⟨hl, hc, hnc, hd⟩ := text_ok_parts h
  have key : (∀ m ∈ (p.link n).loose, m.text_ok A) ∧
      (∀ m ∈ (p.link n).stack, m.node ≠ NODE_TEXT) ∧
      (∀ m ∈ (p.link n).stack, ∀ x ∈ m.childq, x.text_ok A) := by
    cases hst : p.stack with
    | nil =>
      obtain ⟨e1, e2⟩ := link_nil p n hst
      rw [e1, e2]
      refine ⟨?_, by simp, by simp⟩
      intro m hm
      rcases List.mem_append.1 hm with hm | hm
      · exact hl m hm
      · rw [List.mem_singleton.1 hm]; exact hn
    | cons c up =>
      obtain ⟨e1, e2⟩ := link_stack p n c up hst
      rw [e1, e2]
      rw [hst] at hs hc
      refine ⟨hl, ?_, ?_⟩
      · intro m hm
        rcases List.mem_cons.1 hm with rfl | hm
        · rw [pnode.insertTail_node]; exact hs c (List.mem_cons_self _ _)
        · exact hs m (List.mem_cons_of_mem _ hm)
      · intro m hm x hx
        rcases List.mem_cons.1 hm with rfl | hm
        · rcases (pnode.mem_insertTail _ _ _).1 hx with hx | rfl
          · exact hc c (List.mem_cons_self _ _) x hx
          · exact hn
        · exact hc m (List.mem_cons_of_mem _ hm) x hx
  exact ⟨text_ok_closed key.1 key.2.1 key.2.2 (by rw [link_ncur]; exact hnc)
    (by rw [link_del]; exact hd), key.2.1⟩

/-- Leaving the current element. -/
theorem pop_text_ok (p : parse) (h : p.text_ok A) (hs : ∀ m ∈ p.stack, m.node ≠ NODE_TEXT) :
    p.pop.text_ok A ∧ ∀ m ∈ p.pop.stack, m.node ≠ NODE_TEXT := by
  obtain ⟨hl, hc, hnc, hd⟩ := text_ok_parts h
  cases hst : p.stack with
  | nil =>
    rw [pop_nil p hst]
    exact ⟨h, hs⟩
  | cons n rest =>
    rw [hst] at hs hc
    have hnok : n.text_ok A :=
      pnode.text_ok_elem (hs n (List.mem_cons_self _ _)) (hc n (List.mem_cons_self _ _))
    have hrest : ({ p with stack := rest } : parse).text_ok A :=
      text_ok_closed hl (fun m hm => hs m (List.mem_cons_of_mem _ hm))
        (fun m hm => hc m (List.mem_cons_of_mem _ hm)) hnc hd
    have hpop : p.pop = ({ p with stack := rest } : parse).link n := by
      unfold pop
      rw [hst]
    rw [hpop]
    exact link_text_ok _ n hrest (fun m hm => hs m (List.mem_cons_of_mem _ hm)) hnok

/-- Entering a new element. -/
theorem push_text_ok (p : parse) (n : pnode) (h : p.text_ok A)
    (hs : ∀ m ∈ p.stack, m.node ≠ NODE_TEXT) (hn : n.node ≠ NODE_TEXT) (hc : n.childq = []) :
    (p.push n).text_ok A := by
  obtain ⟨hl, hcc, hnc, hd⟩ := text_ok_parts h
  refine text_ok_closed hl ?_ ?_ hnc hd
  · intro m hm
    rcases List.mem_cons.1 hm with rfl | hm
    · exact hn
    · exact hs m hm
  · intro m hm x hx
    rcases List.mem_cons.1 hm with rfl | hm
    · rw [hc] at hx; cases hx
    · exact hcc m hm x hx

/-- A change of the attributes of the current node. -/
theorem setAttrq_text_ok (p : parse) (c : pnode) (rest : List pnode) (x : List pattr)
    (h : p.text_ok A) (hs : p.stack = c :: rest) : (p.setCur (c.setAttrq x)).text_ok A := by
  have e1 : (p.setCur (c.setAttrq x)).stack = c.setAttrq x :: rest := setCur_stack p _ c rest hs
  have hf : (c.setAttrq x).node = c.node ∧ (c.setAttrq x).b = c.b ∧
      (c.setAttrq x).childq = c.childq := by
    cases c
    exact ⟨rfl, rfl, rfl⟩
  unfold text_ok at h ⊢
  rw [e1, setCur_loose, setCur_ncur, setCur_del]
  rw [hs] at h
  obtain ⟨h1, h2, h3, h4, h5, h6⟩ := h
  refine ⟨h1, ?_, h3, ?_, h5, h6⟩
  · intro n hn
    rcases List.mem_cons.1 hn with rfl | hn
    · rw [hf.2.2]; exact h2 c (List.mem_cons_self _ _)
    · exact h2 n (List.mem_cons_of_mem _ hn)
  · intro n hn hk
    simp only [List.head?_cons, Option.some.injEq] at hn
    subst hn
    rw [hf.1] at hk
    rw [hf.2.1, hf.2.2]
    exact h4 c rfl hk

/-- Unlinking the node at an address, which needs no exemption any more. -/
theorem unlink_text_ok (p : parse) (a : Nat) (h : p.text_ok (a :: A)) :
    (p.unlink a).text_ok A := by
  unfold text_ok at h ⊢
  obtain ⟨h1, h2, h3, h4, h5, h6⟩ := h
  have e1 : (p.unlink a).stack = p.stack.map (pnode_dropaddr a) := rfl
  have e2 : (p.unlink a).loose =
      (p.loose.filter (fun n => n.addr != a)).map (pnode_dropaddr a) := rfl
  have e3 : (p.unlink a).ncur = p.ncur := rfl
  have e4 : (p.unlink a).del = p.del := rfl
  rw [e1, e2, e3, e4]
  refine ⟨?_, ?_, ?_, ?_, h5, h6⟩
  · intro n hn
    obtain ⟨m, hm, rfl⟩ := List.mem_map.1 hn
    obtain ⟨hm1, hm2⟩ := List.mem_filter.1 hm
    exact pnode_dropaddr_text_ok a m (by simpa using hm2) (h1 m hm1)
  · intro n hn
    obtain ⟨m, hm, rfl⟩ := List.mem_map.1 hn
    rw [(pnode_dropaddr_fields a m).2.2.1]
    exact pnode_dropaddr_queue_text_ok a _ (h2 m hm)
  · intro n hn
    cases hst : p.stack with
    | nil => rw [hst] at hn; cases hn
    | cons c up =>
      rw [hst] at hn h3
      obtain ⟨m, hm, rfl⟩ := List.mem_map.1 hn
      rw [(pnode_dropaddr_fields a m).1]
      exact h3 m hm
  · intro n hn hk
    cases hst : p.stack with
    | nil => rw [hst] at hn; cases hn
    | cons c up =>
      rw [hst] at hn h4
      simp only [List.map_cons, List.head?_cons, Option.some.injEq] at hn
      subst hn
      rw [(pnode_dropaddr_fields a c).1] at hk
      obtain ⟨g1, g2, s, g3, g4⟩ := h4 c rfl hk
      refine ⟨?_, ?_, s, ?_, g4⟩
      · simpa using g1
      · rw [(pnode_dropaddr_fields a c).2.2.1, g2]
        rfl
      · rw [(pnode_dropaddr_fields a c).2.1]; exact g3

/-- Leaving the current node at the end of an inclusion: the node is linked
into its parent as it is, behind an exemption. -/
theorem pop_exempt_text_ok (p : parse) (n : pnode) (rest : List pnode) (h : p.text_ok A)
    (hst : p.stack = n :: rest) : p.pop.text_ok (n.addr :: A) := by
  obtain ⟨hl, hcc, hup, hupc, hnc, hd, htext⟩ := text_ok_cons h n rest hst
  have hsub : ∀ a, a ∈ A → a ∈ n.addr :: A := fun a ha => List.mem_cons_of_mem _ ha
  have hnok : n.text_ok (n.addr :: A) := by
    by_cases hn : n.node = NODE_TEXT
    · exact pnode.text_ok_exempt (List.mem_cons_self _ _) (htext hn).2.1
    · exact pnode.text_ok_elem hn (fun x hx => pnode.text_ok_mono hsub (hcc x hx))
  have hrest : ({ p with stack := rest } : parse).text_ok (n.addr :: A) :=
    text_ok_closed (fun m hm => pnode.text_ok_mono hsub (hl m hm)) hup
      (fun m hm x hx => pnode.text_ok_mono hsub (hupc m hm x hx)) hnc hd
  have hpop : p.pop = ({ p with stack := rest } : parse).link n := by
    unfold pop
    rw [hst]
  rw [hpop]
  exact (link_text_ok _ n hrest hup hnok).1

end parse

/-- No element name stands for a text node. -/
theorem xml_name2node_ne_text (name : cstring) : xml_name2node name ≠ NODE_TEXT := by
  have hal : ∀ al ∈ aliases, al.2 ≠ NODE_TEXT := by decide
  unfold xml_name2node
  split
  · rename_i hlt
    intro h
    rw [h] at hlt
    revert hlt
    decide
  · split
    · rename_i al hf
      exact hal al (List.mem_of_find?_eq_some hf)
    · decide

/-- The part of `xml_entity` that makes the node. -/
theorem xml_entity_done_text_ok (p q : parse) (b : cstring) (h : p.text_ok A)
    (hs : ∀ n ∈ p.stack, n.node ≠ NODE_TEXT) (hq : xml_entity_done p b = .ok q) :
    q.text_ok A := by
  have key : ∀ fl, (p.alloc.2.link
      (((p.alloc.1.setB (some b)).setNode NODE_ESCAPE).setFlags fl)).text_ok A := by
    intro fl
    refine (parse.link_text_ok p.alloc.2 _ (parse.text_ok_congr h rfl rfl rfl rfl) hs ?_).1
    exact pnode.text_ok_elem (by show NODE_ESCAPE ≠ NODE_TEXT; decide) (fun c hc => by cases hc)
  unfold xml_entity_done at hq
  split at hq
  · split at hq
    · cases hq
    · cases hq
      exact parse.text_ok_congr (key _) rfl rfl rfl rfl
  · cases hq
    exact parse.text_ok_congr (key _) rfl rfl rfl rfl

theorem xml_entity_other_text_ok (r : nested) (hr : r.text_ok) (p q : parse) (name : cstring)
    (h : p.text_ok A) (hs : ∀ n ∈ p.stack, n.node ≠ NODE_TEXT)
    (hq : xml_entity_other r p name = .ok q) : q.text_ok A := by
  have hnum : ∀ q1, (if name.head? = some '#' then
      match strtonum (name.drop 1) 0 0x10ffff with
      | some c => xml_entity_done p ("\\[u".toList ++ fmt_4X c.toNat ++ "]".toList)
      | none => .ok (error_msg p)
    else .ok (error_msg p)) = Except.ok q1 → q1.text_ok A := by
    intro q1 h1
    split at h1
    · split at h1
      · exact xml_entity_done_text_ok p q1 _ h hs h1
      · cases h1
        exact parse.text_ok_congr h rfl rfl rfl rfl
    · cases h1
      exact parse.text_ok_congr h rfl rfl rfl rfl
  have hmap : ∀ (x : Except fault parse) q1,
      x.map (fun q => { q with flags := { q.flags with line := false, spc := false } }) =
        Except.ok q1 → ∃ q0, x = .ok q0 ∧
        q1 = { q0 with flags := { q0.flags with line := false, spc := false } } := by
    intro x q1 h1
    cases x with
    | error e => cases h1
    | ok q0 => cases h1; exact ⟨q0, rfl, rfl⟩
  unfold xml_entity_other at hq
  dsimp only at hq
  split at hq
  · exact hnum q hq
  · split at hq
    · cases hq
    · split at hq
      · exact hnum q hq
      · split at hq
        · obtain ⟨q0, h0, rfl⟩ := hmap _ _ hq
          exact parse.text_ok_congr ((hr _).1 p _ q0 h h0) rfl rfl rfl rfl
        · split at hq
          · exact hnum q hq
          · obtain ⟨q0, h0, rfl⟩ := hmap _ _ hq
            exact parse.text_ok_congr ((hr _).2 p _ q0 h h0) rfl rfl rfl rfl

/-- The function `xml_entity` keeps the property `text_ok`. -/
theorem xml_entity_text_ok (r : nested) (hr : r.text_ok) (p q : parse) (name : cstring)
    (h : p.text_ok A) (hq : xml_entity r p name = .ok q) : q.text_ok A := by
  unfold xml_entity at hq
  split at hq
  · cases hq; exact h
  · split at hq
    · cases hq
      exact parse.text_ok_congr h rfl rfl rfl rfl
    · split at hq
      · cases hq
      · rename_i p1 hp1
        obtain ⟨h1, hs1⟩ := pnode_closetext_text_ok p p1 false h hp1
        have h2 : ∀ p2 : parse, p2 = (if p1.tflags.closed ∧ p1.cur.map pnode.addr = p1.root
            then warn_msg p1 else p1) →
            p2.text_ok A ∧ ∀ n ∈ p2.stack, n.node ≠ NODE_TEXT := by
          intro p2 hp2
          rw [hp2]
          split
          · exact ⟨parse.text_ok_congr h1 (by simp) (by simp) (by simp) (by simp),
              by simpa using hs1⟩
          · exact ⟨h1, hs1⟩
        obtain ⟨h3, hs3⟩ := h2 _ rfl
        dsimp only at hq
        split at hq
        · exact xml_entity_done_text_ok _ q _ h3 hs3 hq
        · exact xml_entity_other_text_ok r hr _ q name h3 hs3 hq

theorem xml_elem_alloc_frame (n : pnode) (p2 q : parse)
    (hq : q = (if n.node = NODE_DOCTYPE then
        if p2.doctype = none then { p2 with doctype := some n.addr } else error_msg p2
      else if n.parent = none ∧ p2.root = none then { p2 with root := some n.addr }
      else p2)) :
    q.stack = p2.stack ∧ q.loose = p2.loose ∧ q.ncur = p2.ncur ∧ q.del = p2.del := by
  subst hq
  split
  · split <;> exact ⟨rfl, rfl, rfl, rfl⟩
  · split <;> exact ⟨rfl, rfl, rfl, rfl⟩

/-- The part of `xml_elem_start` that makes the node. -/
theorem xml_elem_alloc_text_ok (p : parse) (cls : nodeclass) (h : p.text_ok A)
    (hs : ∀ n ∈ p.stack, n.node ≠ NODE_TEXT) :
    (xml_elem_alloc p cls).text_ok A ∧ (xml_elem_alloc p cls).del = p.del := by
  obtain ⟨hl, hcc, hnc, hd⟩ := parse.text_ok_parts h
  have key : ∀ (q : parse) (n : pnode), q.stack = n :: p.stack → n.node = p.ncur →
      n.childq = [] → q.loose = p.loose → q.ncur = p.ncur → q.del = p.del →
      q.text_ok A ∧ q.del = p.del := by
    intro q n e1 e0 ec e2 e3 e4
    refine ⟨parse.text_ok_closed (by rw [e2]; exact hl) ?_ ?_ (by rw [e3]; exact hnc)
      (by rw [e4]; exact hd), e4⟩
    · intro m hm
      rw [e1] at hm
      rcases List.mem_cons.1 hm with rfl | hm
      · rw [e0]; exact hnc
      · exact hs m hm
    · intro m hm x hx
      rw [e1] at hm
      rcases List.mem_cons.1 hm with rfl | hm
      · rw [ec] at hx; cases hx
      · exact hcc m hm x hx
  obtain ⟨e1, e2, e3, e4⟩ := xml_elem_alloc_frame _ _ (xml_elem_alloc p cls) rfl
  exact key _ _ (e1.trans rfl) rfl rfl (e2.trans rfl) (e3.trans rfl) (e4.trans rfl)

/-- The function `xml_elem_start` keeps the property `text_ok`; it leaves the
stack alone while elements are deleted and keeps the counter otherwise,
unless the element starts a deletion. -/
theorem xml_elem_start_text_ok (p q : parse) (name : cstring) (h : p.text_ok A)
    (hq : xml_elem_start p name = .ok q) :
    q.text_ok A ∧ (p.del ≠ 0 → q.stack = p.stack) ∧
    (p.del = 0 → xml_name2node name = NODE_INCLUDE → q.del = 0) := by
  obtain ⟨hl, hcc, hnc, hd⟩ := parse.text_ok_parts h
  unfold xml_elem_start at hq
  split at hq
  · rename_i hdel
    cases hq
    refine ⟨?_, ?_, fun h0 => absurd h0 (by omega)⟩
    · split
      · exact parse.text_ok_of h rfl rfl hnc (by show 0 ≤ p.del + 1; omega)
      · exact h
    · intro _
      split <;> rfl
  · rename_i hdel
    have hd0 : p.del = 0 := by omega
    have h0 : ({ p with ncur := xml_name2node name } : parse).text_ok A :=
      parse.text_ok_of h rfl rfl (xml_name2node_ne_text name) hd
    refine ⟨?_, fun hne => absurd hd0 hne, ?_⟩
    · dsimp only at hq
      split at hq
      · cases hq
        exact parse.text_ok_of h0 (by simp) (by simp) (by simpa using xml_name2node_ne_text name)
          (by show (0 : Int) ≤ 1; omega)
      · cases hq
        exact parse.text_ok_of h0 rfl rfl (xml_name2node_ne_text name)
          (by show (0 : Int) ≤ 1; omega)
      · cases hq; exact h0
      · cases hq
        split
        · exact parse.text_ok_congr h0 rfl rfl rfl rfl
        · exact h0
      · split at hq
        · cases hq
        · cases hq
        · rename_i w cls _ _
          split at hq
          · cases hq
          · rename_i p2 hp2
            cases hq
            have h1 : (if w = true then warn_msg { p with ncur := xml_name2node name }
                else { p with ncur := xml_name2node name }).text_ok A := by
              split
              · exact parse.text_ok_congr h0 (by simp) (by simp) (by simp) (by simp)
              · exact h0
            obtain ⟨h2, hs2⟩ := pnode_closetext_text_ok _ p2 _ h1 hp2
            exact (xml_elem_alloc_text_ok p2 cls h2 hs2).1
    · intro _ hinc
      dsimp only at hq
      rw [hinc] at hq
      dsimp only at hq
      split at hq
      · cases hq
      · cases hq
      · rename_i w cls _ _
        split at hq
        · cases hq
        · rename_i p2 hp2
          cases hq
          obtain ⟨e1, -, -⟩ := pnode_closetext_frame _ p2 _ hp2
          have h1 : (if w = true then warn_msg { p with ncur := NODE_INCLUDE }
              else { p with ncur := NODE_INCLUDE }).text_ok A := by
            rw [hinc] at h0
            split
            · exact parse.text_ok_congr h0 (by simp) (by simp) (by simp) (by simp)
            · exact h0
          obtain ⟨h2, hs2⟩ := pnode_closetext_text_ok _ p2 _ h1 hp2
          rw [(xml_elem_alloc_text_ok p2 cls h2 hs2).2, e1]
          split <;> simpa using hd0

/-! ## Text nodes: attributes and the end of an element -/

/-- The function `xml_attrkey` keeps the property `text_ok` and the deletion
counter, and does nothing while elements are deleted. -/
theorem xml_attrkey_aux_text_ok : ∀ (k : Nat) (p q : parse) (name : cstring), p.text_ok A →
    xml_attrkey_aux k p name = .ok q → q.text_ok A ∧ q.del = p.del ∧ (p.del ≠ 0 → q = p)
  | 0, p, q, name, _, hq => by
    unfold xml_attrkey_aux at hq
    cases hq
  | k + 1, p, q, name, h, hq => by
    obtain ⟨-, -, -, hd⟩ := parse.text_ok_parts h
    unfold xml_attrkey_aux at hq
    by_cases hc : p.del > 0 ∨ p.ncur.toCtorIdx ≥ NODE_UNKNOWN.toCtorIdx ∨ name.length = 0
    · rw [if_pos hc] at hq
      cases hq
      exact ⟨h, rfl, fun _ => rfl⟩
    · rw [if_neg hc] at hq
      have hd0 : p.del = 0 := by
        have : ¬ p.del > 0 := fun h1 => hc (Or.inl h1)
        omega
      dsimp only at hq
      generalize (if p.ncur = NODE_DOCTYPE ∨ p.ncur = NODE_ENTITY then
        Option.map (fun c => decide (c.attrq.length = 0)) p.cur else some false) = of at hq
      cases of with
      | none => cases hq
      | some first =>
        dsimp only at hq
        generalize attrkey_parse (if first = true then "NAME".toList else name) = key at hq
        generalize (if first = true then some name else none) = value at hq
        by_cases hk : key = ATTRKEY__MAX
        · rw [if_pos hk] at hq
          cases hq
          exact ⟨parse.text_ok_congr h rfl rfl rfl rfl, rfl, fun hne => absurd hd0 hne⟩
        · rw [if_neg hk] at hq
          cases hst : p.stack with
          | nil =>
            rw [hst] at hq
            cases hq
          | cons c rest =>
            rw [hst] at hq
            dsimp only at hq
            have h1 : ({ p.setCur (c.setAttrq (c.attrq ++ [⟨key, ATTRVAL__MAX, value⟩])) with
                flags := { p.flags with attr := value.isNone } } : parse).text_ok A :=
              parse.text_ok_congr (parse.setAttrq_text_ok p c rest _ h hst) rfl rfl rfl rfl
            have hd1 : ({ p.setCur (c.setAttrq (c.attrq ++ [⟨key, ATTRVAL__MAX, value⟩])) with
                flags := { p.flags with attr := value.isNone } } : parse).del = p.del :=
              parse.setCur_del p _
            generalize ({ p.setCur (c.setAttrq (c.attrq ++ [⟨key, ATTRVAL__MAX, value⟩])) with
                flags := { p.flags with attr := value.isNone } } : parse) = p1 at hq h1 hd1
            split at hq
            · obtain ⟨g1, g2, -⟩ := xml_attrkey_aux_text_ok k p1 q _ h1 hq
              exact ⟨g1, g2.trans hd1, fun hne => absurd hd0 hne⟩
            · cases hq
              exact ⟨h1, hd1, fun hne => absurd hd0 hne⟩

/-- The function `xml_attrval` keeps the property `text_ok` and the deletion
counter, and does nothing while elements are deleted. -/
theorem xml_attrval_text_ok (p q : parse) (name : cstring) (h : p.text_ok A)
    (hq : xml_attrval p name = .ok q) : q.text_ok A ∧ q.del = p.del ∧ (p.del ≠ 0 → q = p) := by
  obtain ⟨-, -, -, hd⟩ := parse.text_ok_parts h
  unfold xml_attrval at hq
  by_cases hc : p.del > 0 ∨ p.ncur.toCtorIdx ≥ NODE_UNKNOWN.toCtorIdx ∨ p.flags.attr = false
  · rw [if_pos hc] at hq
    cases hq
    exact ⟨h, rfl, fun _ => rfl⟩
  · rw [if_neg hc] at hq
    have hd0 : p.del = 0 := by
      have : ¬ p.del > 0 := fun h1 => hc (Or.inl h1)
      omega
    cases hst : p.stack with
    | nil =>
      rw [hst] at hq
      cases hq
    | cons c rest =>
      rw [hst] at hq
      dsimp only at hq
      cases hl : c.attrq.getLast? with
      | none =>
        rw [hl] at hq
        cases hq
        exact ⟨h, rfl, fun _ => rfl⟩
      | some a =>
        rw [hl] at hq
        cases hq
        exact ⟨parse.text_ok_congr (parse.setAttrq_text_ok p c rest _ h hst) rfl rfl rfl rfl,
          parse.setCur_del p _, fun hne => absurd hd0 hne⟩

theorem parse.text_ok_flags (p : parse) (f : pflags) (h : p.text_ok A) :
    ({ p with flags := f } : parse).text_ok A :=
  parse.text_ok_congr h rfl rfl rfl rfl

/-- The step of `xml_elem_close` that leaves the element. -/
theorem xml_elem_close_pop (p1 p2 : parse) (c : Prop) [Decidable c] (h : p1.text_ok A)
    (hs : ∀ m ∈ p1.stack, m.node ≠ NODE_TEXT)
    (hp2 : p2 = if c then
        match p1.pop.cur with
        | some c => { p1.pop with ncur := c.node }
        | none => p1.pop
      else { p1 with tflags := { p1.tflags with closed := true } }) : p2.text_ok A := by
  obtain ⟨g1, g2⟩ := parse.pop_text_ok p1 h hs
  subst hp2
  split
  · split
    · rename_i c0 hc0
      exact parse.text_ok_of g1 rfl rfl (g2 c0 (List.mem_of_mem_head? hc0))
        (parse.text_ok_parts g1).2.2.2
    · exact g1
  · exact parse.text_ok_congr h rfl rfl rfl rfl

/-- The end of `xml_elem_close`, where the file of a parameter entity is
read. -/
theorem xml_elem_close_tail (r : nested) (hr : r.text_ok) (p3 q : parse) (c : Prop)
    [Decidable c] (o : Option cstring) (h3 : p3.text_ok A)
    (hq : (if c then
        match o with
        | some cp => r.file p3 cp
        | none => .ok p3
      else .ok p3) = Except.ok q) : q.text_ok A := by
  split at hq
  · split at hq
    · exact (hr _).1 p3 _ q h3 hq
    · cases hq; exact h3
  · cases hq; exact h3

/-- The function `xml_elem_close` keeps the property `text_ok`. -/
theorem xml_elem_close_text_ok (r : nested) (hr : r.text_ok) (p q : parse) (node : nodeid)
    (h : p.text_ok A) (hnode : node ≠ NODE_TEXT) (hq : xml_elem_close r p node = .ok q) :
    q.text_ok A := by
  unfold xml_elem_close at hq
  cases hst : p.stack with
  | nil =>
    rw [hst] at hq
    cases hq
    exact parse.text_ok_congr h (by simp) (by simp) (by simp) (by simp)
  | cons n rest =>
    rw [hst] at hq
    dsimp only at hq
    by_cases hn : node ≠ n.node
    · rw [if_pos hn] at hq
      cases hq
      exact parse.text_ok_congr h (by simp) (by simp) (by simp) (by simp)
    · rw [if_neg hn] at hq
      have hn2 : node = n.node := not_not.1 hn
      have hs : ∀ m ∈ p.stack, m.node ≠ NODE_TEXT := by
        intro m hm
        rw [hst] at hm
        rcases List.mem_cons.1 hm with rfl | hm
        · rw [← hn2]; exact hnode
        · exact (parse.text_ok_cons h n rest hst).2.2.1 m hm
      cases hcl : pnode_class node with
      | none =>
        rw [hcl] at hq
        cases hq
      | some cls =>
        rw [hcl] at hq
        dsimp only at hq
        refine xml_elem_close_tail r hr _ q _ _ ?_ hq
        refine parse.text_ok_flags _ _ ?_
        refine xml_elem_close_pop _ _ _ ?_ ?_ rfl
        · split
          · exact parse.text_ok_congr h hst.symm rfl rfl rfl
          · exact h
        · split
          · intro m hm
            exact hs m (hst ▸ hm)
          · exact hs

/-- The function `xml_elem_switch` keeps the property `text_ok`. -/
theorem xml_elem_switch_text_ok (r : nested) (hr : r.text_ok) (p q : parse) (node : nodeid)
    (h : p.text_ok A) (hnode : node ≠ NODE_TEXT)
    (hq : xml_elem_switch r p node = .ok q) : q.text_ok A := by
  obtain ⟨hl, hcc, hnc, hd⟩ := parse.text_ok_parts h
  have hdel : (if p.del > 0 then { p with del := p.del - 1 } else p).text_ok A := by
    split
    · exact parse.text_ok_of h rfl rfl hnc (by show 0 ≤ p.del - 1; omega)
    · exact h
  unfold xml_elem_switch at hq
  split at hq
  · cases hq; exact hdel
  · cases hq; exact hdel
  · cases hq; exact h
  · cases hq; exact h
  · cases hst : p.stack with
    | nil =>
      rw [hst] at hq
      cases hq
    | cons n rest =>
      rw [hst] at hq
      dsimp only at hq
      have hmap : ∀ (x : Except fault parse),
          x.map (fun q => { q.unlink n.addr with
            flags := { q.flags with line := false, spc := false } }) = Except.ok q →
          ∃ q0, x = .ok q0 ∧ q = { q0.unlink n.addr with
            flags := { q0.flags with line := false, spc := false } } := by
        intro x h1
        cases x with
        | error e => cases h1
        | ok q0 => cases h1; exact ⟨q0, rfl, rfl⟩
      obtain ⟨q0, h0, rfl⟩ := hmap _ hq
      refine parse.text_ok_congr (parse.unlink_text_ok q0 n.addr ?_) rfl rfl rfl rfl
      have g1 := parse.pop_exempt_text_ok p n rest h hst
      split at h0
      · cases h0
        exact parse.text_ok_congr g1 rfl rfl rfl rfl
      · exact (hr _).1 _ _ q0 g1 h0
  · have h1 : (if node = NODE_DOCTYPE ∨ node = NODE_SBR ∨ node = NODE_VOID then
        { p with flags := { p.flags with eend := false } } else p).text_ok A := by
      split
      · exact parse.text_ok_congr h rfl rfl rfl rfl
      · exact h
    exact xml_elem_close_text_ok r hr _ q node h1 hnode hq

/-- The function `xml_elem_end` keeps the property `text_ok`. -/
theorem xml_elem_end_text_ok (r : nested) (hr : r.text_ok) (p q : parse)
    (name : Option cstring) (h : p.text_ok A) (hq : xml_elem_end r p name = .ok q) :
    q.text_ok A := by
  obtain ⟨hl, hcc, hnc, hd⟩ := parse.text_ok_parts h
  unfold xml_elem_end at hq
  split at hq
  · cases hq
    exact parse.text_ok_of h rfl rfl hnc (by show 0 ≤ p.del - 1; omega)
  · split at hq
    · cases hq
    · rename_i p1 hp1
      have h1 : p1.text_ok A := by
        split at hp1
        · exact (pnode_closetext_text_ok p p1 false h hp1).1
        · cases hp1; exact h
      dsimp only at hq
      split at hq
      · cases hq
      · rename_i p2 hp2
        split at hq
        · cases hq
          refine xml_elem_switch_text_ok r hr p1 _ _ h1 ?_ hp2
          cases name with
          | none => exact (parse.text_ok_parts h1).2.2.1
          | some s => exact xml_name2node_ne_text s
        · cases hq

/-! ## Text nodes: the scanner -/

namespace parse

theorem same_tree_refl (p : parse) : p.same_tree p := ⟨rfl, rfl, rfl, rfl, rfl⟩

theorem same_tree_trans {p q u : parse} (h1 : p.same_tree q) (h2 : q.same_tree u) :
    p.same_tree u :=
  ⟨h2.1.trans h1.1, h2.2.1.trans h1.2.1, h2.2.2.1.trans h1.2.2.1,
    h2.2.2.2.1.trans h1.2.2.2.1, h2.2.2.2.2.trans h1.2.2.2.2⟩

theorem same_tree_text_ok {p q : parse} (h1 : p.same_tree q) (h : p.text_ok A) :
    q.text_ok A :=
  text_ok_congr h h1.1 h1.2.1 h1.2.2.1 h1.2.2.2.1

end parse

/-- The function `increment` moves `pend` by one and counts lines and
columns. -/
theorem increment_same (s s1 : scan) (refill : Bool) (h : increment s refill = .ok s1) :
    s.p.same_tree s1.p ∧ s1.b = s.b ∧ s1.pend = s.pend + 1 ∧ s1.pstate = s.pstate := by
  unfold increment at h
  split at h
  · split at h
    · cases h
    · split at h <;> cases h <;> exact ⟨⟨rfl, rfl, rfl, rfl, rfl⟩, rfl, rfl, rfl⟩
  · cases h
    exact ⟨⟨rfl, rfl, rfl, rfl, rfl⟩, rfl, rfl, rfl⟩

/-- The loop of `advance` keeps the trees and the buffer, and the bytes it
passes are not in the set. -/
theorem advance_loop_same : ∀ (k : Nat) (s s1 : scan) (rlen : Nat) (space : Bool)
    (charset : cstring) (refill : Bool),
    advance_loop k s rlen space charset refill = .ok s1 →
    s.p.same_tree s1.p ∧ s1.b = s.b ∧ s.pend ≤ s1.pend ∧ s1.pstate = s.pstate ∧
    ∀ i, s.pend ≤ i → i < s1.pend → ∃ c, s.b.get? i = some (some c) ∧
      ((space && c_isspace c) || c_strchr charset c) = false
  | 0, s, s1, rlen, space, charset, refill, h => by
    unfold advance_loop at h
    cases h
    exact ⟨parse.same_tree_refl _, rfl, le_refl _, rfl, fun i h1 h2 => absurd h2 (by omega)⟩
  | k + 1, s, s1, rlen, space, charset, refill, h => by
    unfold advance_loop at h
    split at h
    · rename_i hlt
      split at h
      · cases h
      · rename_i c hc
        split at h
        · cases h
          exact ⟨parse.same_tree_refl _, rfl, le_refl _, rfl,
            fun i h1 h2 => absurd h2 (by omega)⟩
        · rename_i hstop
          split at h
          · cases h
          · rename_i s2 hs2
            obtain ⟨a1, a2, a3, a4⟩ := increment_same s s2 refill hs2
            obtain ⟨b1, b2, b3, b4, b6⟩ :=
              advance_loop_same k s2 s1 rlen space charset refill h
            refine ⟨parse.same_tree_trans a1 b1, b2.trans a2, by omega, b4.trans a4, ?_⟩
            · intro i h1 h2
              by_cases hi : i = s.pend
              · subst hi
                refine ⟨c, ?_, by simpa using hstop⟩
                unfold buf_get at hc
                split at hc
                · rename_i c1 hc1
                  cases hc
                  exact hc1
                · cases hc
              · rw [← a2]
                exact b6 i (by omega) h2
    · cases h
      exact ⟨parse.same_tree_refl _, rfl, le_refl _, rfl, fun i h1 h2 => absurd h2 (by omega)⟩

theorem advance_same_aux (s0 s1 : scan) (rlen : Nat) (space : Bool) (cs : cstring)
    (refill adv : Bool)
    (h : (match advance_loop (rlen - s0.pend) s0 rlen space cs refill with
      | .error e => .error e
      | .ok s1 =>
        if s1.pend = rlen then .ok ({ s1 with b := s1.b.set rlen (some NUL) }, refill)
        else .ok (s1, false)) = Except.ok (s1, adv)) :
    s0.p.same_tree s1.p ∧ s0.pend ≤ s1.pend ∧ s1.pstate = s0.pstate ∧
    (∀ i, i < s1.pend → s1.b.get? i = s0.b.get? i) ∧
    ∀ i, s0.pend ≤ i → i < s1.pend → ∃ c, s0.b.get? i = some (some c) ∧
      ((space && c_isspace c) || c_strchr cs c) = false := by
  split at h
  · cases h
  · rename_i s2 hs2
    obtain ⟨b1, b2, b3, b4, b6⟩ := advance_loop_same _ s0 s2 rlen space cs refill hs2
    split at h
    · rename_i hend
      cases h
      refine ⟨b1, b3, b4, ?_, b6⟩
      intro i hi
      have hi2 : i < s2.pend := hi
      show (s2.b.set rlen (some NUL)).get? i = s0.b.get? i
      rw [b2, List.get?_eq_getElem?, List.get?_eq_getElem?,
        List.getElem?_set_ne (by omega : rlen ≠ i)]
    · cases h
      exact ⟨b1, b3, b4, fun i _ => by rw [b2], b6⟩

/-- The function `advance` keeps the trees, and the bytes it passes stay in
the buffer and are not in the set. -/
theorem advance_same (s s1 : scan) (rlen : Nat) (charset : cstring) (refill adv : Bool)
    (h : advance s rlen charset refill = .ok (s1, adv)) :
    s.p.same_tree s1.p ∧ s.pend ≤ s1.pend ∧ s1.pstate = s.pstate ∧
    (∀ i, i < s1.pend → s1.b.get? i = s.b.get? i) ∧
    ∀ i, s.pend ≤ i → i < s1.pend → ∃ c, s.b.get? i = some (some c) ∧
      ((decide (charset.head? = some ' ') && c_isspace c) ||
        c_strchr (if charset.head? = some ' ' then charset.drop 1 else charset) c) = false := by
  unfold advance at h
  have h0 : ∀ s0 : scan, s0 = (if refill then
      { s with p := { s.p with nline := s.p.line, ncol := s.p.col } } else s) →
      s.p.same_tree s0.p ∧ s0.pend = s.pend ∧ s0.pstate = s.pstate ∧ s0.b = s.b := by
    intro s0 hs0
    rw [hs0]
    split <;> exact ⟨⟨rfl, rfl, rfl, rfl, rfl⟩, rfl, rfl, rfl⟩
  obtain ⟨a1, a2, a3, a4⟩ := h0 _ rfl
  obtain ⟨b1, b2, b3, b4, b5⟩ := advance_same_aux _ s1 rlen _ _ refill adv h
  refine ⟨parse.same_tree_trans a1 b1, by omega, b3.trans a3, ?_, ?_⟩
  · intro i hi
    rw [b4 i hi, a4]
  · intro i h1 h2
    rw [← a4]
    simpa using b5 i (by omega) h2

theorem scan_slash_same (s s1 : scan) (slash : Bool) (h : scan_slash s = .ok (s1, slash)) :
    s1.p = s.p := by
  unfold scan_slash at h
  split at h
  · split at h
    · cases h
    · split at h <;> cases h <;> rfl
  · cases h
    rfl

theorem scan_term_same (s s1 : scan) (rlen : Nat) (refill : Bool)
    (h : scan_term s rlen refill = .ok s1) : s.p.same_tree s1.p := by
  unfold scan_term at h
  dsimp only at h
  split at h
  · exact (increment_same _ s1 refill h).1
  · cases h
    exact parse.same_tree_refl _

theorem scan_skip_same : ∀ (k : Nat) (s s1 : scan) (cp : Nat) (refill : Bool),
    scan_skip k s cp refill = .ok s1 → s.p.same_tree s1.p
  | 0, s, s1, cp, refill, h => by
    unfold scan_skip at h
    cases h
    exact parse.same_tree_refl _
  | k + 1, s, s1, cp, refill, h => by
    unfold scan_skip at h
    split at h
    · split at h
      · cases h
      · rename_i s2 hs2
        exact parse.same_tree_trans (increment_same s s2 refill hs2).1
          (scan_skip_same k s2 s1 cp refill h)
    · cases h
      exact parse.same_tree_refl _

/-- The bytes that `buf_bytes` returns are the cells of the buffer. -/
theorem buf_bytes_cells (b : List (Option Char)) (off sz : Nat) (w : List Char)
    (h : buf_bytes b off sz = .ok w) : (b.drop off).take sz = w.map some := by
  have key : ∀ (l : List (Option Char)) (init : Except fault (List Char)) (w : List Char),
      l.foldr (fun c acc => match c, acc with
        | some c, .ok s => .ok (c :: s)
        | none, .ok _ => .error .bounds
        | _, .error e => .error e) init = Except.ok w →
      ∃ w0 w1, init = .ok w0 ∧ l = w1.map some ∧ w = w1 ++ w0 := by
    intro l
    induction l with
    | nil =>
      intro init w h
      exact ⟨w, [], h, rfl, rfl⟩
    | cons a t ih =>
      intro init w h
      rw [List.foldr_cons] at h
      split at h
      · rename_i c s hs
        cases h
        obtain ⟨w0, w1, e1, e2, e3⟩ := ih init s hs
        exact ⟨w0, c :: w1, e1, by rw [e2]; rfl, by rw [e3]; rfl⟩
      · cases h
      · cases h
  unfold buf_bytes at h
  obtain ⟨w0, w1, e1, e2, e3⟩ := key _ _ w h
  split at e1
  · cases e1
    rw [e2, e3, List.append_nil]
  · cases e1

/-! ## Text nodes: the tokens -/

theorem except_bind_ok {α β : Type} (x : Except fault α) (f : α → Except fault β) (b : β)
    (h : (x >>= f) = .ok b) : ∃ a, x = .ok a ∧ f a = .ok b := by
  cases x with
  | error e => simp [bind, Except.bind] at h
  | ok a => exact ⟨a, rfl, h⟩

theorem except_pure_ok {α : Type} (a b : α) (h : (pure a : Except fault α) = .ok b) :
    a = b := by
  simpa [pure, Except.pure] using h

theorem buf_get_ok (b : List (Option Char)) (i : Nat) (c : Char) (h : buf_get b i = .ok c) :
    b.get? i = some (some c) := by
  unfold buf_get at h
  split at h
  · rename_i c1 hc1
    cases h
    exact hc1
  · cases h

/-- The end of the tokens inside a tag: the element ends at once, or not. -/
theorem scan_end_text_ok (r : nested) (hr : r.text_ok) (p1 : parse) (c : Bool)
    (name : Option cstring) (s3 s1 : scan) (x : Option Nat) (h : p1.text_ok A)
    (hq : (if c = true then
        (xml_elem_end r p1 name >>= fun y =>
          pure (({ s3 with p := y, pws := s3.pend } : scan), (none : Option Nat)))
      else
        (pure p1 >>= fun y =>
          pure (({ s3 with p := y, pws := s3.pend } : scan), (none : Option Nat)))) =
      Except.ok (s1, x)) :
    s1.p.text_ok A := by
  split at hq
  · obtain ⟨p2, h1, hq⟩ := except_bind_ok _ _ _ hq
    cases except_pure_ok _ _ hq
    exact xml_elem_end_text_ok r hr p1 p2 name h h1
  · obtain ⟨p2, h1, hq⟩ := except_bind_ok _ _ _ hq
    cases except_pure_ok _ _ h1
    cases except_pure_ok _ _ hq
    exact h

/-- The token that processes an entity keeps the property `text_ok`. -/
theorem scan_entity_text_ok (r : nested) (hr : r.text_ok) (s s1 : scan) (rlen : Nat)
    (refill : Bool) (poff : Nat) (x : Option Nat) (h : s.p.text_ok A)
    (hq : scan_entity r s rlen refill poff = .ok (s1, x)) : s1.p.text_ok A := by
  unfold scan_entity at hq
  obtain ⟨⟨s2, adv⟩, h1, hq⟩ := except_bind_ok _ _ _ hq
  have a1 := parse.same_tree_text_ok (advance_same s s2 rlen _ refill adv h1).1 h
  dsimp only at hq
  split at hq
  · cases except_pure_ok _ _ hq
    exact a1
  · obtain ⟨_, -, hq⟩ := except_bind_ok _ _ _ hq
    obtain ⟨s3, h2, hq⟩ := except_bind_ok _ _ _ hq
    obtain ⟨name, h3, hq⟩ := except_bind_ok _ _ _ hq
    obtain ⟨p1, h4, hq⟩ := except_bind_ok _ _ _ hq
    cases except_pure_ok _ _ hq
    exact xml_entity_text_ok r hr s3.p p1 name
      (parse.same_tree_text_ok (scan_term_same s2 s3 rlen refill h2) a1) h4

/-- The token that parses an attribute value keeps the property `text_ok`. -/
theorem scan_value_text_ok (r : nested) (hr : r.text_ok) (s s1 : scan) (rlen : Nat)
    (refill : Bool) (poff : Nat) (x : Option Nat) (h : s.p.text_ok A)
    (hq : scan_value r s rlen refill poff = .ok (s1, x)) : s1.p.text_ok A := by
  unfold scan_value at hq
  dsimp only at hq
  obtain ⟨⟨s2, adv⟩, h1, hq⟩ := except_bind_ok _ _ _ hq
  have a1 := parse.same_tree_text_ok (advance_same s s2 rlen _ refill adv h1).1 h
  dsimp only at hq
  split at hq
  · cases except_pure_ok _ _ hq
    exact a1
  · obtain ⟨_, -, hq⟩ := except_bind_ok _ _ _ hq
    obtain ⟨c, h2, hq⟩ := except_bind_ok _ _ _ hq
    split at hq
    all_goals
      obtain ⟨⟨s3, slash⟩, h3, hq⟩ := except_bind_ok _ _ _ hq
      have a3 : s3.p.text_ok A := by
        first
        | rw [scan_slash_same _ s3 slash h3]
          exact a1
        | cases except_pure_ok _ _ h3
          exact a1
      dsimp only at hq
      obtain ⟨s4, h4, hq⟩ := except_bind_ok _ _ _ hq
      obtain ⟨name, h5, hq⟩ := except_bind_ok _ _ _ hq
      obtain ⟨p1, h6, hq⟩ := except_bind_ok _ _ _ hq
      exact scan_end_text_ok r hr p1 _ none s4 s1 x (xml_attrval_text_ok s4.p p1 name
        (parse.same_tree_text_ok (scan_term_same s3 s4 rlen refill h4) a3) h6).1 hq

/-- The token that looks for an attribute name keeps the property
`text_ok`. -/
theorem scan_key_text_ok (r : nested) (hr : r.text_ok) (s s1 : scan) (rlen : Nat)
    (refill : Bool) (poff : Nat) (x : Option Nat) (h : s.p.text_ok A)
    (hq : scan_key r s rlen refill poff = .ok (s1, x)) : s1.p.text_ok A := by
  unfold scan_key at hq
  obtain ⟨⟨s2, adv⟩, h1, hq⟩ := except_bind_ok _ _ _ hq
  have a1 := parse.same_tree_text_ok (advance_same s s2 rlen _ refill adv h1).1 h
  dsimp only at hq
  split at hq
  · cases except_pure_ok _ _ hq
    exact a1
  · obtain ⟨_, -, hq⟩ := except_bind_ok _ _ _ hq
    obtain ⟨c, h2, hq⟩ := except_bind_ok _ _ _ hq
    split at hq
    on_goal 2 => split at hq
    all_goals
      obtain ⟨⟨s3, slash⟩, h3, hq⟩ := except_bind_ok _ _ _ hq
      have a3 : s3.p.text_ok A := by
        first
        | rw [scan_slash_same _ s3 slash h3]
          exact a1
        | cases except_pure_ok _ _ h3
          exact a1
      dsimp only at hq
      obtain ⟨s4, h4, hq⟩ := except_bind_ok _ _ _ hq
      obtain ⟨name, h5, hq⟩ := except_bind_ok _ _ _ hq
      obtain ⟨p1, h6, hq⟩ := except_bind_ok _ _ _ hq
      exact scan_end_text_ok r hr p1 _ none s4 s1 x (xml_attrkey_aux_text_ok 2 s4.p p1 name
        (parse.same_tree_text_ok (scan_term_same s3 s4 rlen refill h4) a3) h6).1 hq

/-- The token that begins a tag keeps the property `text_ok`. -/
theorem scan_tag_text_ok (r : nested) (hr : r.text_ok) (s s1 : scan) (rlen : Nat)
    (refill : Bool) (poff : Nat) (x : Option Nat) (h : s.p.text_ok A)
    (hq : scan_tag r s rlen refill poff = .ok (s1, x)) : s1.p.text_ok A := by
  unfold scan_tag at hq
  obtain ⟨⟨s2, adv⟩, h1, hq⟩ := except_bind_ok _ _ _ hq
  have a1 := parse.same_tree_text_ok (advance_same s s2 rlen _ refill adv h1).1 h
  dsimp only at hq
  split at hq
  · cases except_pure_ok _ _ hq
    exact a1
  · obtain ⟨_, -, hq⟩ := except_bind_ok _ _ _ hq
    split at hq
    all_goals
      obtain ⟨comment, h2, hq⟩ := except_bind_ok _ _ _ hq
      try dsimp only at hq
      split at hq
      · obtain ⟨found, h3, hq⟩ := except_bind_ok _ _ _ hq
        try dsimp only at hq
        split at hq
        · split at hq
          · cases except_pure_ok _ _ hq
            exact a1
          · obtain ⟨_, -, hq⟩ := except_bind_ok _ _ _ hq
            obtain ⟨s3, h4, hq⟩ := except_bind_ok _ _ _ hq
            have e : s3 = s1 := congrArg Prod.fst (except_pure_ok _ _ hq)
            rw [← e]
            exact parse.same_tree_text_ok (scan_skip_same _ s2 s3 _ refill h4) a1
        · obtain ⟨s3, h4, hq⟩ := except_bind_ok _ _ _ hq
          have e : s3 = s1 := congrArg Prod.fst (except_pure_ok _ _ hq)
          rw [← e]
          exact parse.same_tree_text_ok (scan_skip_same _ s2 s3 _ refill h4) a1
      · obtain ⟨_, -, hq⟩ := except_bind_ok _ _ _ hq
        obtain ⟨c, h3, hq⟩ := except_bind_ok _ _ _ hq
        split at hq
        all_goals
          obtain ⟨⟨s3, slash⟩, h4, hq⟩ := except_bind_ok _ _ _ hq
          have a3 : s3.p.text_ok A := by
            first
            | rw [scan_slash_same _ s3 slash h4]
              exact a1
            | cases except_pure_ok _ _ h4
              exact a1
          try dsimp only at hq
          obtain ⟨s4, h5, hq⟩ := except_bind_ok _ _ _ hq
          have a4 := parse.same_tree_text_ok (scan_term_same s3 s4 rlen refill h5) a3
          obtain ⟨c1, h6, hq⟩ := except_bind_ok _ _ _ hq
          split at hq
          · obtain ⟨name, h7, hq⟩ := except_bind_ok _ _ _ hq
            obtain ⟨p1, h8, hq⟩ := except_bind_ok _ _ _ hq
            cases except_pure_ok _ _ hq
            exact xml_elem_end_text_ok r hr s4.p p1 _ a4 h8
          · obtain ⟨_, -, hq⟩ := except_bind_ok _ _ _ hq
            obtain ⟨name, h7, hq⟩ := except_bind_ok _ _ _ hq
            obtain ⟨p1, h8, hq⟩ := except_bind_ok _ _ _ hq
            try dsimp only at hq
            exact scan_end_text_ok r hr p1 _ _ s4 s1 x
              (xml_elem_start_text_ok s4.p p1 name a4 h8).1 hq

/-- The text token keeps the property `text_ok` when it starts outside
no-fill elements at a byte that is no white space. -/
theorem scan_text_text_ok (s s1 : scan) (rlen : Nat) (refill : Bool) (x : Option Nat)
    (c : Char) (h : s.p.text_ok A) (hnf : s.p.nofill = 0)
    (hc : s.b.get? s.pend = some (some c)) (hsp : c_isspace c = false)
    (hq : scan_text s rlen refill s.pend = .ok (s1, x)) : s1.p.text_ok A := by
  unfold scan_text at hq
  dsimp only at hq
  obtain ⟨⟨s2, adv⟩, h1, hq⟩ := except_bind_ok _ _ _ hq
  obtain ⟨b1, b2, b3, b4, b5⟩ := advance_same s s2 rlen _ refill adv h1
  have a1 := parse.same_tree_text_ok b1 h
  dsimp only at hq
  rw [if_neg (by rw [b1.2.2.2.2, hnf]; simp)] at hq
  obtain ⟨word, h2, hq⟩ := except_bind_ok _ _ _ hq
  obtain ⟨p1, h3, hq⟩ := except_bind_ok _ _ _ hq
  obtain ⟨c2, h4, hq⟩ := except_bind_ok _ _ _ hq
  have hcells := buf_bytes_cells _ _ _ _ h2
  have hget : ∀ i, i < word.length → s.pend + i < s2.pend ∧
      s.b.get? (s.pend + i) = some (some (word.getD i NUL)) := by
    intro i hi
    have hlen := congrArg List.length hcells
    rw [List.length_take, List.length_drop, List.length_map] at hlen
    have hlt : s.pend + i < s2.pend := by omega
    refine ⟨hlt, ?_⟩
    rw [← b4 _ hlt]
    have hi2 := congrArg (fun l => l.get? i) hcells
    simp only [List.get?_eq_getElem?, List.getElem?_take, List.getElem?_drop,
      List.getElem?_map] at hi2 ⊢
    rw [if_pos (by omega)] at hi2
    rw [hi2, List.getD_eq_getElem?_getD, List.getElem?_eq_getElem hi]
    rfl
  have hword : text_open word = true := by
    rw [text_open_iff]
    refine ⟨?_, ?_, ?_⟩
    · rintro rfl
      unfold xml_text at h3
      simp at h3
    · intro c0 hc0
      cases word with
      | nil => cases hc0
      | cons w0 t =>
        cases hc0
        obtain ⟨-, e⟩ := hget 0 (by simp)
        rw [Nat.add_zero, hc] at e
        cases e
        exact hsp
    · intro hmem
      obtain ⟨i, hi, hx⟩ := List.getElem_of_mem hmem
      obtain ⟨hlt, e⟩ := hget i hi
      obtain ⟨c3, e3, hstop⟩ := b5 (s.pend + i) (by omega) hlt
      rw [e3, List.getD_eq_getElem?_getD, List.getElem?_eq_getElem hi, hx] at e
      simp only [Option.getD_some, Option.some.injEq] at e
      subst e
      simp [c_strchr] at hstop
  have a2 := xml_text_text_ok s2.p p1 word a1 hword h3
  split at hq
  · obtain ⟨p2, h5, hq⟩ := except_bind_ok _ _ _ hq
    cases except_pure_ok _ _ hq
    exact (pnode_closetext_text_ok p1 p2 false a2 h5).1
  · obtain ⟨p2, h5, hq⟩ := except_bind_ok _ _ _ hq
    cases except_pure_ok _ _ h5
    cases except_pure_ok _ _ hq
    exact a2

/-! ## Text nodes: the token loop and the finished tree -/

theorem increment_text_ok (s s1 : scan) (refill : Bool) (h : s.p.text_ok A)
    (hq : increment s refill = .ok s1) : s1.p.text_ok A :=
  parse.same_tree_text_ok (increment_same s s1 refill hq).1 h

/-- One turn of the token loop of `parse_string` outside no-fill elements
keeps the property `text_ok`. -/
theorem parse_string_step_text_ok (r : nested) (hr : r.text_ok) (s s1 : scan) (rlen : Nat)
    (refill : Bool) (x : Option Nat) (h : s.p.text_ok A) (hnf : s.p.nofill = 0)
    (hq : parse_string_step r s rlen refill = .ok (s1, x)) : s1.p.text_ok A := by
  have h0 : ∀ s0 : scan, s0 = (if refill then
      { s with p := { s.p with line := s.p.nline, col := s.p.ncol } } else s) →
      s0.p.text_ok A ∧ s0.p.nofill = 0 := by
    intro s0 hs0
    rw [hs0]
    split
    · exact ⟨parse.text_ok_congr h rfl rfl rfl rfl, hnf⟩
    · exact ⟨h, hnf⟩
  unfold parse_string_step at hq
  generalize (if refill then
      ({ s with p := { s.p with line := s.p.nline, col := s.p.ncol } } : scan) else s) = s0
    at hq h0
  obtain ⟨a0, n0⟩ := h0 s0 rfl
  dsimp only at hq
  by_cases e1 : s0.pend = rlen
  · rw [if_pos e1] at hq
    have e : s0 = s1 := congrArg Prod.fst (except_pure_ok _ _ hq)
    rw [← e]
    exact a0
  · rw [if_neg e1] at hq
    obtain ⟨_, -, hq⟩ := except_bind_ok _ _ _ hq
    obtain ⟨c, hc, hq⟩ := except_bind_ok _ _ _ hq
    by_cases e2 : c_isspace c = true
    · rw [if_pos e2] at hq
      obtain ⟨s2, h2, hq⟩ := except_bind_ok _ _ _ hq
      have e : s2 = s1 := congrArg Prod.fst (except_pure_ok _ _ hq)
      rw [← e]
      refine increment_text_ok _ s2 refill ?_ h2
      split <;> exact parse.text_ok_congr a0 rfl rfl rfl rfl
    · rw [if_neg e2] at hq
      obtain ⟨_, -, hq⟩ := except_bind_ok _ _ _ hq
      split at hq
      · split at hq
        · obtain ⟨s2, h2, hq⟩ := except_bind_ok _ _ _ hq
          have e : s2 = s1 := congrArg Prod.fst (except_pure_ok _ _ hq)
          rw [← e]
          exact increment_text_ok _ s2 refill (by exact a0) h2
        · obtain ⟨_, -, hq⟩ := except_bind_ok _ _ _ hq
          exact scan_value_text_ok r hr s0 s1 rlen refill _ x a0 hq
      · split at hq
        · split at hq
          · obtain ⟨s2, h2, hq⟩ := except_bind_ok _ _ _ hq
            have e : s2 = s1 := congrArg Prod.fst (except_pure_ok _ _ hq)
            rw [← e]
            exact increment_text_ok _ s2 refill (by exact a0) h2
          · obtain ⟨_, -, hq⟩ := except_bind_ok _ _ _ hq
            split at hq
            · have e : ({ s0 with pstate := PARSE_ARG } : scan) = s1 :=
                congrArg Prod.fst (except_pure_ok _ _ hq)
              rw [← e]
              exact a0
            · obtain ⟨_, -, hq⟩ := except_bind_ok _ _ _ hq
              exact scan_key_text_ok r hr s0 s1 rlen refill _ x a0 hq
        · split at hq
          · exact scan_tag_text_ok r hr s0 s1 rlen refill _ x a0 hq
          · split at hq
            · obtain ⟨s2, h2, hq⟩ := except_bind_ok _ _ _ hq
              have e : ({ s2 with pws := s2.pend } : scan) = s1 :=
                congrArg Prod.fst (except_pure_ok _ _ hq)
              rw [← e]
              exact increment_text_ok _ s2 refill (by exact a0) h2
            · split at hq
              · exact scan_entity_text_ok r hr s0 s1 rlen refill _ x a0 hq
              · exact scan_text_text_ok s0 s1 rlen refill x c a0 n0 (buf_get_ok _ _ _ hc)
                  (by simpa using e2) hq

/-- Linking the open elements into their parents. -/
theorem zip_fold_text_ok : ∀ (rest : List pnode) (n : pnode), n.text_ok A →
    (∀ m ∈ rest, m.node ≠ NODE_TEXT) → (∀ m ∈ rest, ∀ x ∈ m.childq, x.text_ok A) →
    (rest.foldl (fun acc m => m.insertTail acc) n).text_ok A
  | [], n, hn, _, _ => hn
  | m :: rest, n, hn, h1, h2 => by
    rw [List.foldl_cons]
    refine zip_fold_text_ok rest (m.insertTail n) ?_
      (fun y hy => h1 y (List.mem_cons_of_mem _ hy))
      (fun y hy => h2 y (List.mem_cons_of_mem _ hy))
    refine pnode.text_ok_elem ?_ ?_
    · rw [pnode.insertTail_node]
      exact h1 m (List.mem_cons_self _ _)
    · intro y hy
      rcases (pnode.mem_insertTail _ _ _).1 hy with hy | rfl
      · exact h2 m (List.mem_cons_self _ _) y hy
      · exact hn

/-- The tree that the caller gets holds only trimmed text nodes when no text
node is open. -/
theorem parse_tree_text_ok (p : parse) (tree : ptree) (root : pnode) (h : p.text_ok A)
    (hs : ∀ n ∈ p.stack, n.node ≠ NODE_TEXT) (ht : parse_tree p = .ok tree)
    (hroot : tree.root = some root) : root.text_ok A := by
  obtain ⟨hl, hcc, -, -⟩ := parse.text_ok_parts h
  unfold parse_tree at ht
  split at ht
  · cases ht
    cases hroot
  · split at ht
    · rename_i n hn
      cases ht
      cases hroot
      have hmem := List.mem_of_find?_eq_some hn
      rcases List.mem_append.1 hmem with hz | hz
      · unfold parse.zip at hz
        split at hz
        · cases hz
        · rename_i c up hst
          simp only [Option.toList, List.mem_singleton] at hz
          subst hz
          rw [hst] at hs hcc
          exact zip_fold_text_ok up c
            (pnode.text_ok_elem (hs c (List.mem_cons_self _ _)) (hcc c (List.mem_cons_self _ _)))
            (fun y hy => hs y (List.mem_cons_of_mem _ hy))
            (fun y hy => hcc y (List.mem_cons_of_mem _ hy))
      · exact hl root hz
    · cases ht

/-- Unlinking the doctype at the end of the parse. -/
theorem unlink_open_text_ok (p : parse) (a : Nat) (h : p.text_ok A)
    (hs : ∀ n ∈ p.stack, n.node ≠ NODE_TEXT) :
    (p.unlink_open a).text_ok A ∧ ∀ n ∈ (p.unlink_open a).stack, n.node ≠ NODE_TEXT := by
  obtain ⟨hl, hcc, hnc, hd⟩ := parse.text_ok_parts h
  unfold parse.unlink_open
  split
  · have hsub : ∀ n ∈ (p.stack.dropWhile (fun n => n.addr != a)).drop 1, n ∈ p.stack :=
      fun n hn => (List.dropWhile_sublist _).subset (List.mem_of_mem_drop hn)
    exact ⟨parse.text_ok_closed hl (fun n hn => hs n (hsub n hn))
      (fun n hn => hcc n (hsub n hn)) hnc hd, fun n hn => hs n (hsub n hn)⟩
  · refine ⟨parse.unlink_text_ok p a
      (parse.text_ok_more (fun x hx => List.mem_cons_of_mem _ hx) h), ?_⟩
    intro n hn
    obtain ⟨m, hm, rfl⟩ := List.mem_map.1 hn
    rw [(pnode_dropaddr_fields a m).1]
    exact hs m hm

/-- The end of the parse keeps the property `text_ok` and leaves no text node
open. -/
theorem parse_finish_text_ok (p q : parse) (h : p.text_ok A) (hq : parse_finish p = .ok q) :
    q.text_ok A ∧ ∀ n ∈ q.stack, n.node ≠ NODE_TEXT := by
  unfold parse_finish at hq
  split at hq
  · cases hq
  · rename_i p1 hp1
    obtain ⟨h1, hs1⟩ := pnode_closetext_text_ok p p1 false h hp1
    have h2 : ∀ p2 : parse, p2 = (if p1.root = none then error_msg p1
        else if p1.tflags.closed = false then warn_msg p1 else p1) →
        p2.text_ok A ∧ ∀ n ∈ p2.stack, n.node ≠ NODE_TEXT := by
      intro p2 hp2
      rw [hp2]
      split
      · exact ⟨parse.text_ok_congr h1 rfl rfl rfl rfl, hs1⟩
      · split
        · exact ⟨parse.text_ok_congr h1 (by simp) (by simp) (by simp) (by simp),
            by simpa using hs1⟩
        · exact ⟨h1, hs1⟩
    obtain ⟨h3, hs3⟩ := h2 _ rfl
    dsimp only at hq
    split at hq
    · cases hq
      exact ⟨h3, hs3⟩
    · cases hq
      exact unlink_open_text_ok _ _ h3 hs3

/-- A white-space byte outside a token only sets the flags of the parser. -/
theorem parse_string_step_space (r : nested) (s : scan) (rlen : Nat) (refill : Bool) (c : Char)
    (hne : s.pend ≠ rlen) (hc : s.b.get? s.pend = some (some c)) (hsp : c_isspace c = true) :
    ∃ s1, parse_string_step r s rlen refill = .ok (s1, none) ∧ s.p.same_tree s1.p ∧
      s1.p.flags.spc = true := by
  have hget := buf_get_of_get _ _ _ hc
  unfold parse_string_step
  cases refill with
  | false =>
    simp only [Bool.false_eq_true, if_false, hne, bind, Except.bind, pure, Except.pure, hget,
      hsp, if_true, increment]
    by_cases hnl : c = '\n'
    · simp only [hnl, if_true]
      exact ⟨_, rfl, ⟨rfl, rfl, rfl, rfl, rfl⟩, rfl⟩
    · simp only [hnl, if_false]
      exact ⟨_, rfl, ⟨rfl, rfl, rfl, rfl, rfl⟩, rfl⟩
  | true =>
    simp only [if_true, hne, if_false, bind, Except.bind, pure, Except.pure, hget,
      hsp, increment]
    by_cases hnl : c = '\n'
    · simp only [hnl, if_true, hget]
      exact ⟨_, rfl, ⟨rfl, rfl, rfl, rfl, rfl⟩, rfl⟩
    · simp only [hnl, if_false, hget]
      exact ⟨_, rfl, ⟨rfl, rfl, rfl, rfl, rfl⟩, rfl⟩

/-- A text chunk after white space, below an element: the new text node gets
the pending flag, and its string is the chunk. -/
theorem xml_text_spc (p q : parse) (word : List Char) (n : pnode) (rest : List pnode)
    (hd : p.del = 0) (hs : p.stack = n :: rest) (hn : n.node ≠ NODE_TEXT)
    (hspc : p.flags.spc = true) (hq : xml_text p word = .ok q) :
    ∃ t, q.stack = t :: n :: rest ∧ t.node = NODE_TEXT ∧ t.flags.spc = true ∧
      t.b = some (strtrunc word) ∧ t.childq = [] ∧ q.flags.spc = false := by
  obtain ⟨fname, root, tfl, doctype, stack, loose, ncur, line, col, nline, ncol, del, nofill,
    flags, next, files⟩ := p
  dsimp only at hd hs hspc
  subst hd hs
  unfold xml_text at hq
  split at hq
  · cases hq
  · rw [if_neg (by show ¬ (0 : Int) > 0; decide)] at hq
    dsimp only at hq
    rw [if_neg hn] at hq
    have hw : ∀ x : parse, x = (if tfl.closed = true ∧ root = some n.addr then
        warn_msg ⟨fname, root, tfl, doctype, n :: rest, loose, ncur, line, col, nline, ncol, 0,
          nofill, flags, next, files⟩
        else ⟨fname, root, tfl, doctype, n :: rest, loose, ncur, line, col, nline, ncol, 0,
          nofill, flags, next, files⟩) → x.flags = flags ∧ x.stack = n :: rest := by
      intro x hx
      rw [hx]
      split
      · exact ⟨by simp [warn_msg]; split <;> rfl, by simp⟩
      · exact ⟨rfl, rfl⟩
    obtain ⟨w1, w2⟩ := hw _ rfl
    generalize (if tfl.closed = true ∧ root = some n.addr then
        warn_msg ⟨fname, root, tfl, doctype, n :: rest, loose, ncur, line, col, nline, ncol, 0,
          nofill, flags, next, files⟩
        else ⟨fname, root, tfl, doctype, n :: rest, loose, ncur, line, col, nline, ncol, 0,
          nofill, flags, next, files⟩) = p0 at hq w1 w2
    have hsp0 : p0.flags.spc = true := by rw [w1]; exact hspc
    have ht : ((p0.alloc.1.setNode NODE_TEXT).setFlags
        ⟨p0.flags.line && n.childq.getLast?.isSome, p0.flags.spc⟩).flags.spc = true := hsp0
    rw [if_pos ht] at hq
    try dsimp only at hq
    cases hq
    exact ⟨_, congrArg _ w2, rfl, hsp0, rfl, rfl, rfl⟩

/-- Closing a text node strips the white space at its end and sets the
pending flag when there was some. -/
theorem pnode_closetext_spc (p q : parse) (n c : pnode) (up : List pnode) (b : cstring)
    (hs : p.stack = n :: c :: up) (hn : n.node = NODE_TEXT) (hb : n.b = some b)
    (hq : pnode_closetext p false = .ok q) :
    ∃ t, q.stack = c.insertTail t :: up ∧ t.node = NODE_TEXT ∧ t.b = some (rstrip b) ∧
      ((rstrip b).length < b.length → q.flags.spc = true) ∧
      (¬ (rstrip b).length < b.length → q.flags.spc = p.flags.spc) := by
  rcases pnode_closetext_cases p q false hq with ⟨-, htop⟩ |
    ⟨n1, rest1, b1, p1, hs1, -, hb1, hp1, hq2⟩
  · exact absurd hn (htop n (by rw [hs]; rfl))
  · rw [hs] at hs1
    cases hs1
    rw [hb] at hb1
    cases hb1
    have hp1s : p1.stack = n :: c :: up := by
      rcases hp1 with ⟨-, rfl⟩ | ⟨-, rfl⟩
      · exact hs
      · exact hs
    rcases hq2 with rfl | ⟨m, t, -, hchk, -⟩
    · refine ⟨n.setB (some (rstrip b)), (parse.close_shape p1 n _ c up hp1s).1, ?_,
        (pnode.setB_fields _ _).1, ?_, ?_⟩
      · rw [(pnode.setB_fields _ _).2.1]; exact hn
      · intro hlt
        rcases hp1 with ⟨hge, -⟩ | ⟨-, rfl⟩
        · exact absurd hlt hge
        · simp
      · intro hge
        rcases hp1 with ⟨-, rfl⟩ | ⟨hlt, -⟩
        · simp
        · exact absurd hlt hge
    · cases hchk

end TextNodes

/-! ## The text nodes of the finished tree -/

/-- The claim of C29 fails as it is stated: in a state with the flag IMPL set
and the line state NEW, `macro_open` begins a new macro line, which clears
all flags, so that IMPL is clear afterwards. -/
theorem macro_open_impl_counterexample :
    (macro_open ⟨0, 0, ⟨false, false, false, true⟩, LINE_NEW, PARA_HAVE, []⟩
      "Op".toList).flags.impl = false ∧
    (macro_open ⟨0, 0, ⟨false, false, false, true⟩, LINE_NEW, PARA_HAVE, []⟩
      "Op".toList).out = ".Op".toList ∧
    (macro_open ⟨0, 0, ⟨false, false, false, true⟩, LINE_MACRO, PARA_WANT, ".It".toList⟩
      "Op".toList).flags.impl = false ∧
    (macro_open ⟨0, 0, ⟨false, false, false, true⟩, LINE_MACRO, PARA_WANT, ".It".toList⟩
      "Op".toList).out = ".It\n.Pp\n.Op".toList := by
  decide

theorem para_check_out (f : format) : ∃ w, (para_check f).out = f.out ++ w := by
  unfold para_check
  split
  · exact ⟨[], (List.append_nil _).symm⟩
  · split
    · exact ⟨'\n' :: ".Pp\n".toList, by simp [format.puts, format.putc]⟩
    · exact ⟨".Pp\n".toList, rfl⟩

theorem macro_open_line_out (f : format) : ∃ w, (macro_open_line f).out = f.out ++ w := by
  unfold macro_open_line
  dsimp only
  split
  · split
    · exact ⟨_, rfl⟩
    · split
      · exact ⟨_, rfl⟩
      · split
        · exact ⟨" \\c".toList ++ ['\n', '.'], by simp [format.puts, format.putc]⟩
        · exact ⟨['\n', '.'], by simp [format.puts, format.putc]⟩
  · split
    · exact ⟨" \\c".toList ++ ['\n', '.'], by simp [format.puts, format.putc]⟩
    · exact ⟨['\n', '.'], by simp [format.puts, format.putc]⟩
  · exact ⟨_, rfl⟩

theorem macro_open_out (f : format) (name : cstring) :
    ∃ w, (macro_open f name).out = f.out ++ w ++ name := by
  obtain ⟨w0, h0⟩ := para_check_out f
  obtain ⟨w1, h1⟩ := macro_open_line_out (para_check f)
  refine ⟨w0 ++ w1, ?_⟩
  show (macro_open_line (para_check f)).out ++ name = _
  rw [h1, h0, List.append_assoc f.out]

/-- C29, amended: for every formatter state and macro name, after
`macro_open` the line state is MACRO, the paragraph state is MID, the flag ARG
is set and the flags CHILD and NOSPC are clear.  The flag IMPL has the value it
had before the call when the macro goes onto the macro line that is open,
which is the case when the line state was MACRO and the paragraph state was
not WANT; when `macro_open` begins a new line, IMPL is clear.  The level and
the no-fill counter stay, and the name is the end of the output. -/
theorem macro_open_state (f : format) (name : cstring) :
    (macro_open f name).linestate = LINE_MACRO ∧
    (macro_open f name).parastate = PARA_MID ∧
    (macro_open f name).flags.arg = true ∧
    (macro_open f name).flags.child = false ∧
    (macro_open f name).flags.nospc = false ∧
    (macro_open f name).flags.impl =
      (f.flags.impl && decide (f.linestate = LINE_MACRO ∧ f.parastate ≠ PARA_WANT)) ∧
    (macro_open f name).level = f.level ∧ (macro_open f name).nofill = f.nofill ∧
    ∃ w, (macro_open f name).out = f.out ++ w ++ name := by
  refine ⟨?_, ?_, ?_, ?_, ?_, ?_, ?_, ?_, macro_open_out f name⟩
  all_goals
    obtain ⟨level, nofill, ⟨nospc, arg, child, impl⟩, ls, ps, out⟩ := f
    cases ls <;> cases ps <;> cases nospc <;> cases child <;> cases impl <;>
      by_cases hn : nofill = 0 <;>
      simp [macro_open, macro_open_line, para_check, format.puts, format.putc, FMT_NONE, hn]

/-! ## The switch for warnings stays as it is during the parse -/

theorem pnode_closetext_warn (p q : parse) (chk : Bool) (h : pnode_closetext p chk = .ok q) :
    q.flags.warn = p.flags.warn :=
  (pnode_closetext_frame p q chk h).2.2.2.2.2.2.2.2.1

theorem xml_text_warn (p q : parse) (word : List Char) (hq : xml_text p word = .ok q) :
    q.flags.warn = p.flags.warn := by
  unfold xml_text at hq
  split at hq
  · cases hq
  · split at hq
    · cases hq; rfl
    · split at hq
      · cases hq; rfl
      · split at hq
        · split at hq
          · cases hq
          · cases hq
            simp
        · have hp0 : ∀ p0 : parse, p0 = (if p.tflags.closed = true ∧ p.root = some (‹pnode›).addr
              then warn_msg p else p) → p0.flags = p.flags := by
            intro p0 hp0
            rw [hp0]
            split <;> simp
          have e0 := hp0 _ rfl
          dsimp only at hq
          generalize (if p.tflags.closed = true ∧ p.root = some (‹pnode›).addr
              then warn_msg p else p) = p0 at hq e0
          split at hq
          · cases hq
          · cases hq
            simp [parse.alloc, e0]
          · split at hq
            · cases hq
              simp [parse.alloc, e0]
            · split at hq
              · cases hq
                simp [parse.alloc, e0]
              · cases hq
                simp [parse.alloc, e0]

theorem xml_entity_done_warn (p q : parse) (b : cstring) (hq : xml_entity_done p b = .ok q) :
    q.flags.warn = p.flags.warn := by
  unfold xml_entity_done at hq
  split at hq
  · split at hq
    · cases hq
    · cases hq; rfl
  · cases hq; rfl

theorem xml_entity_other_warn (r : nested)
    (hr : ∀ p s q, (r.file p s = .ok q → q.flags.warn = p.flags.warn) ∧
      (r.str p s = .ok q → q.flags.warn = p.flags.warn))
    (p q : parse) (name : cstring) (hq : xml_entity_other r p name = .ok q) :
    q.flags.warn = p.flags.warn := by
  have hnum : ∀ q1, (if name.head? = some '#' then
      match strtonum (name.drop 1) 0 0x10ffff with
      | some c => xml_entity_done p ("\\[u".toList ++ fmt_4X c.toNat ++ "]".toList)
      | none => .ok (error_msg p)
    else .ok (error_msg p)) = Except.ok q1 → q1.flags.warn = p.flags.warn := by
    intro q1 h1
    split at h1
    · split at h1
      · exact xml_entity_done_warn p q1 _ h1
      · cases h1; rfl
    · cases h1; rfl
  have hmap : ∀ (x : Except fault parse) q1,
      x.map (fun q => { q with flags := { q.flags with line := false, spc := false } }) =
        Except.ok q1 → ∃ q0, x = .ok q0 ∧
        q1 = { q0 with flags := { q0.flags with line := false, spc := false } } := by
    intro x q1 h1
    cases x with
    | error e => cases h1
    | ok q0 => cases h1; exact ⟨q0, rfl, rfl⟩
  unfold xml_entity_other at hq
  dsimp only at hq
  split at hq
  · exact hnum q hq
  · split at hq
    · cases hq
    · split at hq
      · exact hnum q hq
      · split at hq
        · obtain ⟨q0, h0, rfl⟩ := hmap _ _ hq
          exact (hr p _ q0).1 h0
        · split at hq
          · exact hnum q hq
          · obtain ⟨q0, h0, rfl⟩ := hmap _ _ hq
            exact (hr p _ q0).2 h0

theorem xml_entity_warn (r : nested)
    (hr : ∀ p s q, (r.file p s = .ok q → q.flags.warn = p.flags.warn) ∧
      (r.str p s = .ok q → q.flags.warn = p.flags.warn))
    (p q : parse) (name : cstring) (hq : xml_entity r p name = .ok q) :
    q.flags.warn = p.flags.warn := by
  unfold xml_entity at hq
  split at hq
  · cases hq; rfl
  · split at hq
    · cases hq; rfl
    · split at hq
      · cases hq
      · rename_i p1 hp1
        have e1 := pnode_closetext_warn p p1 false hp1
        have h2 : ∀ p2 : parse, p2 = (if p1.tflags.closed ∧ p1.cur.map pnode.addr = p1.root
            then warn_msg p1 else p1) → p2.flags = p1.flags := by
          intro p2 hp2
          rw [hp2]
          split <;> simp
        have e2 := h2 _ rfl
        dsimp only at hq
        split at hq
        · rw [xml_entity_done_warn _ q _ hq, e2, e1]
        · rw [xml_entity_other_warn r hr _ q name hq, e2, e1]

theorem xml_elem_alloc_warn (p : parse) (cls : nodeclass) :
    (xml_elem_alloc p cls).flags.warn = p.flags.warn := by
  have key : ∀ (n : pnode) (p2 q : parse),
      q = (if n.node = NODE_DOCTYPE then
        if p2.doctype = none then { p2 with doctype := some n.addr } else error_msg p2
      else if n.parent = none ∧ p2.root = none then { p2 with root := some n.addr }
      else p2) → q.flags = p2.flags := by
    intro n p2 q hq
    subst hq
    split
    · split <;> rfl
    · split <;> rfl
  have e := key _ _ (xml_elem_alloc p cls) rfl
  rw [e]
  rfl

theorem xml_elem_start_warn (p q : parse) (name : cstring)
    (hq : xml_elem_start p name = .ok q) : q.flags.warn = p.flags.warn := by
  unfold xml_elem_start at hq
  split at hq
  · cases hq
    split <;> rfl
  · dsimp only at hq
    split at hq
    · cases hq
      simp
    · cases hq; rfl
    · cases hq; rfl
    · cases hq
      split <;> rfl
    · split at hq
      · cases hq
      · cases hq
      · rename_i w cls _ _
        split at hq
        · cases hq
        · rename_i p2 hp2
          cases hq
          rw [xml_elem_alloc_warn, pnode_closetext_warn _ p2 _ hp2]
          split <;> simp

theorem xml_attrkey_aux_warn : ∀ (k : Nat) (p q : parse) (name : cstring),
    xml_attrkey_aux k p name = .ok q → q.flags.warn = p.flags.warn
  | 0, p, q, name, hq => by
    unfold xml_attrkey_aux at hq
    cases hq
  | k + 1, p, q, name, hq => by
    unfold xml_attrkey_aux at hq
    by_cases hc : p.del > 0 ∨ p.ncur.toCtorIdx ≥ NODE_UNKNOWN.toCtorIdx ∨ name.length = 0
    · rw [if_pos hc] at hq
      cases hq
      rfl
    · rw [if_neg hc] at hq
      dsimp only at hq
      generalize (if p.ncur = NODE_DOCTYPE ∨ p.ncur = NODE_ENTITY then
        Option.map (fun c => decide (c.attrq.length = 0)) p.cur else some false) = of at hq
      cases of with
      | none => cases hq
      | some first =>
        dsimp only at hq
        generalize attrkey_parse (if first = true then "NAME".toList else name) = key at hq
        generalize (if first = true then some name else none) = value at hq
        by_cases hk : key = ATTRKEY__MAX
        · rw [if_pos hk] at hq
          cases hq
          rfl
        · rw [if_neg hk] at hq
          split at hq
          · cases hq
          · rename_i c rest hst
            try dsimp only at hq
            have hd1 : ({ p.setCur (c.setAttrq (c.attrq ++ [⟨key, ATTRVAL__MAX, value⟩])) with
                flags := { p.flags with attr := value.isNone } } : parse).flags.warn =
                p.flags.warn := rfl
            generalize ({ p.setCur (c.setAttrq (c.attrq ++ [⟨key, ATTRVAL__MAX, value⟩])) with
                flags := { p.flags with attr := value.isNone } } : parse) = p1 at hq hd1
            split at hq
            · exact (xml_attrkey_aux_warn k p1 q _ hq).trans hd1
            · cases hq
              exact hd1

theorem xml_attrval_warn (p q : parse) (name : cstring) (hq : xml_attrval p name = .ok q) :
    q.flags.warn = p.flags.warn := by
  unfold xml_attrval at hq
  split at hq
  · cases hq; rfl
  · split at hq
    · cases hq
    · split at hq
      · cases hq; rfl
      · cases hq; rfl

theorem xml_elem_close_warn (r : nested)
    (hr : ∀ p s q, (r.file p s = .ok q → q.flags.warn = p.flags.warn) ∧
      (r.str p s = .ok q → q.flags.warn = p.flags.warn))
    (p q : parse) (node : nodeid) (hq : xml_elem_close r p node = .ok q) :
    q.flags.warn = p.flags.warn := by
  have hbody : ∀ (p1 : parse) (c1 c2 : Prop) [Decidable c1] [Decidable c2]
      (o : Option cstring),
      (let p2 := if c1 then
          match p1.pop.cur with
          | some c => { p1.pop with ncur := c.node }
          | none => p1.pop
        else { p1 with tflags := { p1.tflags with closed := true } }
       let p3 := { p2 with flags := { p2.flags with line := false, spc := false } }
       if c2 then
        match o with
        | some cp => r.file p3 cp
        | none => .ok p3
       else .ok p3) = Except.ok q → q.flags.warn = p1.flags.warn := by
    intro p1 c1 c2 _ _ o h
    have hp2 : ∀ p2 : parse, p2 = (if c1 then
          match p1.pop.cur with
          | some c => { p1.pop with ncur := c.node }
          | none => p1.pop
        else { p1 with tflags := { p1.tflags with closed := true } }) →
        p2.flags = p1.flags := by
      intro p2 hp2
      subst hp2
      split
      · split
        · exact parse.pop_flags p1
        · exact parse.pop_flags p1
      · rfl
    have e2 := hp2 _ rfl
    dsimp only at h
    generalize (if c1 then
          match p1.pop.cur with
          | some c => { p1.pop with ncur := c.node }
          | none => p1.pop
        else { p1 with tflags := { p1.tflags with closed := true } }) = p2 at h e2
    have e3 : p2.flags.warn = p1.flags.warn := congrArg pflags.warn e2
    split at h
    · split at h
      · rw [(hr _ _ q).1 h]
        exact e3
      · cases h
        exact e3
    · cases h
      exact e3
  unfold xml_elem_close at hq
  split at hq
  · cases hq
    simp
  · split at hq
    · cases hq
      simp
    · split at hq
      · cases hq
      · rw [hbody _ _ _ _ hq]
        split <;> rfl

theorem xml_elem_switch_warn (r : nested)
    (hr : ∀ p s q, (r.file p s = .ok q → q.flags.warn = p.flags.warn) ∧
      (r.str p s = .ok q → q.flags.warn = p.flags.warn))
    (p q : parse) (node : nodeid) (hq : xml_elem_switch r p node = .ok q) :
    q.flags.warn = p.flags.warn := by
  unfold xml_elem_switch at hq
  split at hq
  · cases hq
    split <;> rfl
  · cases hq
    split <;> rfl
  · cases hq; rfl
  · cases hq; rfl
  · split at hq
    · cases hq
    · rename_i n rest hst
      dsimp only at hq
      have hmap : ∀ (x : Except fault parse),
          x.map (fun q => { q.unlink n.addr with
            flags := { q.flags with line := false, spc := false } }) = Except.ok q →
          ∃ q0, x = .ok q0 ∧ q = { q0.unlink n.addr with
            flags := { q0.flags with line := false, spc := false } } := by
        intro x h1
        cases x with
        | error e => cases h1
        | ok q0 => cases h1; exact ⟨q0, rfl, rfl⟩
      obtain ⟨q0, h0, rfl⟩ := hmap _ hq
      show q0.flags.warn = p.flags.warn
      split at h0
      · cases h0
        exact congrArg pflags.warn (parse.pop_flags p)
      · rw [(hr _ _ q0).1 h0]
        exact congrArg pflags.warn (parse.pop_flags p)
  · rw [xml_elem_close_warn r hr _ q node hq]
    split <;> rfl

theorem xml_elem_end_warn (r : nested)
    (hr : ∀ p s q, (r.file p s = .ok q → q.flags.warn = p.flags.warn) ∧
      (r.str p s = .ok q → q.flags.warn = p.flags.warn))
    (p q : parse) (name : Option cstring) (hq : xml_elem_end r p name = .ok q) :
    q.flags.warn = p.flags.warn := by
  unfold xml_elem_end at hq
  split at hq
  · cases hq; rfl
  · split at hq
    · cases hq
    · rename_i p1 hp1
      have h1 : p1.flags.warn = p.flags.warn := by
        split at hp1
        · exact pnode_closetext_warn p p1 false hp1
        · cases hp1; rfl
      dsimp only at hq
      split at hq
      · cases hq
      · rename_i p2 hp2
        split at hq
        · cases hq
          exact (xml_elem_switch_warn r hr p1 _ _ hp2).trans h1
        · cases hq

/-! ## The switch for warnings in the scanner and the read loop -/

theorem increment_warn (s s1 : scan) (refill : Bool) (h : increment s refill = .ok s1) :
    s1.p.flags.warn = s.p.flags.warn := by
  unfold increment at h
  split at h
  · split at h
    · cases h
    · split at h <;> cases h <;> rfl
  · cases h
    rfl

theorem advance_loop_warn : ∀ (k : Nat) (s s1 : scan) (rlen : Nat) (space : Bool)
    (charset : cstring) (refill : Bool),
    advance_loop k s rlen space charset refill = .ok s1 → s1.p.flags.warn = s.p.flags.warn
  | 0, s, s1, rlen, space, charset, refill, h => by
    unfold advance_loop at h
    cases h
    rfl
  | k + 1, s, s1, rlen, space, charset, refill, h => by
    unfold advance_loop at h
    split at h
    · split at h
      · cases h
      · split at h
        · cases h
          rfl
        · split at h
          · cases h
          · rename_i s2 hs2
            exact (advance_loop_warn k s2 s1 rlen space charset refill h).trans
              (increment_warn s s2 refill hs2)
    · cases h
      rfl

theorem advance_warn (s s1 : scan) (rlen : Nat) (charset : cstring) (refill adv : Bool)
    (h : advance s rlen charset refill = .ok (s1, adv)) :
    s1.p.flags.warn = s.p.flags.warn := by
  have haux : ∀ (s0 : scan) (space : Bool) (cs : cstring),
      (match advance_loop (rlen - s0.pend) s0 rlen space cs refill with
      | .error e => .error e
      | .ok s1 =>
        if s1.pend = rlen then .ok ({ s1 with b := s1.b.set rlen (some NUL) }, refill)
        else .ok (s1, false)) = Except.ok (s1, adv) → s1.p.flags.warn = s0.p.flags.warn := by
    intro s0 space cs h
    split at h
    · cases h
    · rename_i s2 hs2
      have e := advance_loop_warn _ s0 s2 rlen space cs refill hs2
      split at h
      · cases h
        exact e
      · cases h
        exact e
  unfold advance at h
  rw [haux _ _ _ h]
  split <;> rfl

theorem scan_term_warn (s s1 : scan) (rlen : Nat) (refill : Bool)
    (h : scan_term s rlen refill = .ok s1) : s1.p.flags.warn = s.p.flags.warn := by
  unfold scan_term at h
  dsimp only at h
  split at h
  · exact increment_warn { s with b := s.b.set s.pend (some NUL) } s1 refill h
  · cases h
    rfl

theorem scan_skip_warn : ∀ (k : Nat) (s s1 : scan) (cp : Nat) (refill : Bool),
    scan_skip k s cp refill = .ok s1 → s1.p.flags.warn = s.p.flags.warn
  | 0, s, s1, cp, refill, h => by
    unfold scan_skip at h
    cases h
    rfl
  | k + 1, s, s1, cp, refill, h => by
    unfold scan_skip at h
    split at h
    · split at h
      · cases h
      · rename_i s2 hs2
        exact (scan_skip_warn k s2 s1 cp refill h).trans (increment_warn s s2 refill hs2)
    · cases h
      rfl

theorem scan_end_warn (r : nested)
    (hr : ∀ p s q, (r.file p s = .ok q → q.flags.warn = p.flags.warn) ∧
      (r.str p s = .ok q → q.flags.warn = p.flags.warn))
    (p1 : parse) (c : Bool) (name : Option cstring) (s3 s1 : scan) (x : Option Nat)
    (hq : (if c = true then
        (xml_elem_end r p1 name >>= fun y =>
          pure (({ s3 with p := y, pws := s3.pend } : scan), (none : Option Nat)))
      else
        (pure p1 >>= fun y =>
          pure (({ s3 with p := y, pws := s3.pend } : scan), (none : Option Nat)))) =
      Except.ok (s1, x)) :
    s1.p.flags.warn = p1.flags.warn := by
  split at hq
  · obtain ⟨p2, h1, hq⟩ := except_bind_ok _ _ _ hq
    cases except_pure_ok _ _ hq
    exact xml_elem_end_warn r hr p1 p2 name h1
  · obtain ⟨p2, h1, hq⟩ := except_bind_ok _ _ _ hq
    cases except_pure_ok _ _ h1
    cases except_pure_ok _ _ hq
    rfl

theorem scan_entity_warn (r : nested)
    (hr : ∀ p s q, (r.file p s = .ok q → q.flags.warn = p.flags.warn) ∧
      (r.str p s = .ok q → q.flags.warn = p.flags.warn))
    (s s1 : scan) (rlen : Nat) (refill : Bool) (poff : Nat) (x : Option Nat)
    (hq : scan_entity r s rlen refill poff = .ok (s1, x)) :
    s1.p.flags.warn = s.p.flags.warn := by
  unfold scan_entity at hq
  obtain ⟨⟨s2, adv⟩, h1, hq⟩ := except_bind_ok _ _ _ hq
  have a1 := advance_warn s s2 rlen _ refill adv h1
  dsimp only at hq
  split at hq
  · cases except_pure_ok _ _ hq
    exact a1
  · obtain ⟨_, -, hq⟩ := except_bind_ok _ _ _ hq
    obtain ⟨s3, h2, hq⟩ := except_bind_ok _ _ _ hq
    obtain ⟨name, h3, hq⟩ := except_bind_ok _ _ _ hq
    obtain ⟨p1, h4, hq⟩ := except_bind_ok _ _ _ hq
    cases except_pure_ok _ _ hq
    exact ((xml_entity_warn r hr s3.p p1 name h4).trans
      (scan_term_warn s2 s3 rlen refill h2)).trans a1

theorem scan_value_warn (r : nested)
    (hr : ∀ p s q, (r.file p s = .ok q → q.flags.warn = p.flags.warn) ∧
      (r.str p s = .ok q → q.flags.warn = p.flags.warn))
    (s s1 : scan) (rlen : Nat) (refill : Bool) (poff : Nat) (x : Option Nat)
    (hq : scan_value r s rlen refill poff = .ok (s1, x)) :
    s1.p.flags.warn = s.p.flags.warn := by
  unfold scan_value at hq
  dsimp only at hq
  obtain ⟨⟨s2, adv⟩, h1, hq⟩ := except_bind_ok _ _ _ hq
  have a1 := advance_warn s s2 rlen _ refill adv h1
  dsimp only at hq
  split at hq
  · cases except_pure_ok _ _ hq
    exact a1
  · obtain ⟨_, -, hq⟩ := except_bind_ok _ _ _ hq
    obtain ⟨c, h2, hq⟩ := except_bind_ok _ _ _ hq
    split at hq
    all_goals
      obtain ⟨⟨s3, slash⟩, h3, hq⟩ := except_bind_ok _ _ _ hq
      have a3 : s3.p.flags.warn = s.p.flags.warn := by
        first
        | rw [scan_slash_same _ s3 slash h3]
          exact a1
        | cases except_pure_ok _ _ h3
          exact a1
      dsimp only at hq
      obtain ⟨s4, h4, hq⟩ := except_bind_ok _ _ _ hq
      obtain ⟨name, h5, hq⟩ := except_bind_ok _ _ _ hq
      obtain ⟨p1, h6, hq⟩ := except_bind_ok _ _ _ hq
      exact (scan_end_warn r hr p1 _ none s4 s1 x hq).trans
        (((xml_attrval_warn s4.p p1 name h6).trans (scan_term_warn s3 s4 rlen refill h4)).trans a3)

theorem scan_key_warn (r : nested)
    (hr : ∀ p s q, (r.file p s = .ok q → q.flags.warn = p.flags.warn) ∧
      (r.str p s = .ok q → q.flags.warn = p.flags.warn))
    (s s1 : scan) (rlen : Nat) (refill : Bool) (poff : Nat) (x : Option Nat)
    (hq : scan_key r s rlen refill poff = .ok (s1, x)) :
    s1.p.flags.warn = s.p.flags.warn := by
  unfold scan_key at hq
  obtain ⟨⟨s2, adv⟩, h1, hq⟩ := except_bind_ok _ _ _ hq
  have a1 := advance_warn s s2 rlen _ refill adv h1
  dsimp only at hq
  split at hq
  · cases except_pure_ok _ _ hq
    exact a1
  · obtain ⟨_, -, hq⟩ := except_bind_ok _ _ _ hq
    obtain ⟨c, h2, hq⟩ := except_bind_ok _ _ _ hq
    split at hq
    on_goal 2 => split at hq
    all_goals
      obtain ⟨⟨s3, slash⟩, h3, hq⟩ := except_bind_ok _ _ _ hq
      have a3 : s3.p.flags.warn = s.p.flags.warn := by
        first
        | rw [scan_slash_same _ s3 slash h3]
          exact a1
        | cases except_pure_ok _ _ h3
          exact a1
      dsimp only at hq
      obtain ⟨s4, h4, hq⟩ := except_bind_ok _ _ _ hq
      obtain ⟨name, h5, hq⟩ := except_bind_ok _ _ _ hq
      obtain ⟨p1, h6, hq⟩ := except_bind_ok _ _ _ hq
      exact (scan_end_warn r hr p1 _ none s4 s1 x hq).trans
        (((xml_attrkey_aux_warn 2 s4.p p1 name h6).trans
          (scan_term_warn s3 s4 rlen refill h4)).trans a3)

theorem scan_tag_warn (r : nested)
    (hr : ∀ p s q, (r.file p s = .ok q → q.flags.warn = p.flags.warn) ∧
      (r.str p s = .ok q → q.flags.warn = p.flags.warn))
    (s s1 : scan) (rlen : Nat) (refill : Bool) (poff : Nat) (x : Option Nat)
    (hq : scan_tag r s rlen refill poff = .ok (s1, x)) :
    s1.p.flags.warn = s.p.flags.warn := by
  unfold scan_tag at hq
  obtain ⟨⟨s2, adv⟩, h1, hq⟩ := except_bind_ok _ _ _ hq
  have a1 := advance_warn s s2 rlen _ refill adv h1
  dsimp only at hq
  split at hq
  · cases except_pure_ok _ _ hq
    exact a1
  · obtain ⟨_, -, hq⟩ := except_bind_ok _ _ _ hq
    split at hq
    all_goals
      obtain ⟨comment, h2, hq⟩ := except_bind_ok _ _ _ hq
      try dsimp only at hq
      split at hq
      · obtain ⟨found, h3, hq⟩ := except_bind_ok _ _ _ hq
        try dsimp only at hq
        split at hq
        · split at hq
          · cases except_pure_ok _ _ hq
            exact a1
          · obtain ⟨_, -, hq⟩ := except_bind_ok _ _ _ hq
            obtain ⟨s3, h4, hq⟩ := except_bind_ok _ _ _ hq
            have e : s3 = s1 := congrArg Prod.fst (except_pure_ok _ _ hq)
            rw [← e]
            exact (scan_skip_warn _ s2 s3 _ refill h4).trans a1
        · obtain ⟨s3, h4, hq⟩ := except_bind_ok _ _ _ hq
          have e : s3 = s1 := congrArg Prod.fst (except_pure_ok _ _ hq)
          rw [← e]
          exact (scan_skip_warn _ s2 s3 _ refill h4).trans a1
      · obtain ⟨_, -, hq⟩ := except_bind_ok _ _ _ hq
        obtain ⟨c, h3, hq⟩ := except_bind_ok _ _ _ hq
        split at hq
        all_goals
          obtain ⟨⟨s3, slash⟩, h4, hq⟩ := except_bind_ok _ _ _ hq
          have a3 : s3.p.flags.warn = s.p.flags.warn := by
            first
            | rw [scan_slash_same _ s3 slash h4]
              exact a1
            | cases except_pure_ok _ _ h4
              exact a1
          try dsimp only at hq
          obtain ⟨s4, h5, hq⟩ := except_bind_ok _ _ _ hq
          have a4 := (scan_term_warn s3 s4 rlen refill h5).trans a3
          obtain ⟨c1, h6, hq⟩ := except_bind_ok _ _ _ hq
          split at hq
          · obtain ⟨name, h7, hq⟩ := except_bind_ok _ _ _ hq
            obtain ⟨p1, h8, hq⟩ := except_bind_ok _ _ _ hq
            cases except_pure_ok _ _ hq
            exact (xml_elem_end_warn r hr s4.p p1 _ h8).trans a4
          · obtain ⟨_, -, hq⟩ := except_bind_ok _ _ _ hq
            obtain ⟨name, h7, hq⟩ := except_bind_ok _ _ _ hq
            obtain ⟨p1, h8, hq⟩ := except_bind_ok _ _ _ hq
            try dsimp only at hq
            exact (scan_end_warn r hr p1 _ _ s4 s1 x hq).trans
              ((xml_elem_start_warn s4.p p1 name h8).trans a4)

theorem scan_text_warn (s s1 : scan) (rlen : Nat) (refill : Bool) (poff : Nat)
    (x : Option Nat) (hq : scan_text s rlen refill poff = .ok (s1, x)) :
    s1.p.flags.warn = s.p.flags.warn := by
  unfold scan_text at hq
  dsimp only at hq
  obtain ⟨⟨s2, adv⟩, h1, hq⟩ := except_bind_ok _ _ _ hq
  have a1 := advance_warn s s2 rlen _ refill adv h1
  dsimp only at hq
  obtain ⟨word, h2, hq⟩ := except_bind_ok _ _ _ hq
  obtain ⟨p1, h3, hq⟩ := except_bind_ok _ _ _ hq
  obtain ⟨c2, h4, hq⟩ := except_bind_ok _ _ _ hq
  have a2 := (xml_text_warn s2.p p1 word h3).trans a1
  split at hq
  · obtain ⟨p2, h5, hq⟩ := except_bind_ok _ _ _ hq
    cases except_pure_ok _ _ hq
    exact (pnode_closetext_warn p1 p2 false h5).trans a2
  · obtain ⟨p2, h5, hq⟩ := except_bind_ok _ _ _ hq
    cases except_pure_ok _ _ h5
    cases except_pure_ok _ _ hq
    exact a2

/-- One turn of the token loop leaves the switch for warnings as it is. -/
theorem parse_string_step_warn (r : nested)
    (hr : ∀ p s q, (r.file p s = .ok q → q.flags.warn = p.flags.warn) ∧
      (r.str p s = .ok q → q.flags.warn = p.flags.warn))
    (s s1 : scan) (rlen : Nat) (refill : Bool) (x : Option Nat)
    (hq : parse_string_step r s rlen refill = .ok (s1, x)) :
    s1.p.flags.warn = s.p.flags.warn := by
  have h0 : ∀ s0 : scan, s0 = (if refill then
      { s with p := { s.p with line := s.p.nline, col := s.p.ncol } } else s) →
      s0.p.flags.warn = s.p.flags.warn := by
    intro s0 hs0
    rw [hs0]
    split <;> rfl
  unfold parse_string_step at hq
  generalize (if refill then
      ({ s with p := { s.p with line := s.p.nline, col := s.p.ncol } } : scan) else s) = s0
    at hq h0
  have a0 := h0 s0 rfl
  dsimp only at hq
  by_cases e1 : s0.pend = rlen
  · rw [if_pos e1] at hq
    have e : s0 = s1 := congrArg Prod.fst (except_pure_ok _ _ hq)
    rw [← e]
    exact a0
  · rw [if_neg e1] at hq
    obtain ⟨_, -, hq⟩ := except_bind_ok _ _ _ hq
    obtain ⟨c, hc, hq⟩ := except_bind_ok _ _ _ hq
    by_cases e2 : c_isspace c = true
    · rw [if_pos e2] at hq
      obtain ⟨s2, h2, hq⟩ := except_bind_ok _ _ _ hq
      have e : s2 = s1 := congrArg Prod.fst (except_pure_ok _ _ hq)
      rw [← e, increment_warn _ s2 refill h2]
      split <;> exact a0
    · rw [if_neg e2] at hq
      obtain ⟨_, -, hq⟩ := except_bind_ok _ _ _ hq
      split at hq
      · split at hq
        · obtain ⟨s2, h2, hq⟩ := except_bind_ok _ _ _ hq
          have e : s2 = s1 := congrArg Prod.fst (except_pure_ok _ _ hq)
          rw [← e, increment_warn _ s2 refill h2]
          exact a0
        · obtain ⟨_, -, hq⟩ := except_bind_ok _ _ _ hq
          exact (scan_value_warn r hr s0 s1 rlen refill _ x hq).trans a0
      · split at hq
        · split at hq
          · obtain ⟨s2, h2, hq⟩ := except_bind_ok _ _ _ hq
            have e : s2 = s1 := congrArg Prod.fst (except_pure_ok _ _ hq)
            rw [← e, increment_warn _ s2 refill h2]
            exact a0
          · obtain ⟨_, -, hq⟩ := except_bind_ok _ _ _ hq
            split at hq
            · have e : ({ s0 with pstate := PARSE_ARG } : scan) = s1 :=
                congrArg Prod.fst (except_pure_ok _ _ hq)
              rw [← e]
              exact a0
            · obtain ⟨_, -, hq⟩ := except_bind_ok _ _ _ hq
              exact (scan_key_warn r hr s0 s1 rlen refill _ x hq).trans a0
        · split at hq
          · exact (scan_tag_warn r hr s0 s1 rlen refill _ x hq).trans a0
          · split at hq
            · obtain ⟨s2, h2, hq⟩ := except_bind_ok _ _ _ hq
              have e : ({ s2 with pws := s2.pend } : scan) = s1 :=
                congrArg Prod.fst (except_pure_ok _ _ hq)
              rw [← e]
              show s2.p.flags.warn = _
              rw [increment_warn _ s2 refill h2]
              exact a0
            · split at hq
              · exact (scan_entity_warn r hr s0 s1 rlen refill _ x hq).trans a0
              · exact (scan_text_warn s0 s1 rlen refill _ x hq).trans a0

theorem parse_string_loop_warn (r : nested)
    (hr : ∀ p s q, (r.file p s = .ok q → q.flags.warn = p.flags.warn) ∧
      (r.str p s = .ok q → q.flags.warn = p.flags.warn)) :
    ∀ (k : Nat) (s : scan) (rlen : Nat) (refill : Bool) (res : scan × Nat),
    parse_string_loop r k s rlen refill = .ok res → res.1.p.flags.warn = s.p.flags.warn
  | 0, s, rlen, refill, res, h => by
    unfold parse_string_loop at h
    cases h
  | k + 1, s, rlen, refill, res, h => by
    unfold parse_string_loop at h
    split at h
    · cases h
    · rename_i s1 poff hs
      cases h
      exact parse_string_step_warn r hr s s1 rlen refill _ hs
    · rename_i s1 hs
      exact (parse_string_loop_warn r hr k s1 rlen refill res h).trans
        (parse_string_step_warn r hr s s1 rlen refill _ hs)

theorem parse_fd_loop_warn (r : nested)
    (hr : ∀ p s q, (r.file p s = .ok q → q.flags.warn = p.flags.warn) ∧
      (r.str p s = .ok q → q.flags.warn = p.flags.warn)) :
    ∀ (k : Nat) (p : parse) (input : List Char) (b : List (Option Char)) (rlen : Nat)
      (st : pstate) (q : parse),
    parse_fd_loop r k p input b rlen st = .ok q → q.flags.warn = p.flags.warn
  | 0, p, input, b, rlen, st, q, h => by
    unfold parse_fd_loop at h
    cases h
  | k + 1, p, input, b, rlen, st, q, h => by
    unfold parse_fd_loop at h
    dsimp only at h
    split at h
    · cases h
      rfl
    · split at h
      · cases h
      · rename_i s poff hs
        split at h
        · cases h
        · split at h
          · cases h
          · exact (parse_fd_loop_warn r hr k _ _ _ _ _ q h).trans
              (parse_string_loop_warn r hr _ _ _ _ _ hs)

theorem parse_finish_warn (p q : parse) (hq : parse_finish p = .ok q) :
    q.flags.warn = p.flags.warn := by
  unfold parse_finish at hq
  split at hq
  · cases hq
  · rename_i p1 hp1
    have e1 := pnode_closetext_warn p p1 false hp1
    have h2 : ∀ p2 : parse, p2 = (if p1.root = none then error_msg p1
        else if p1.tflags.closed = false then warn_msg p1 else p1) →
        p2.flags = p1.flags := by
      intro p2 hp2
      rw [hp2]
      split
      · rfl
      · split <;> simp
    have e2 := h2 _ rfl
    dsimp only at hq
    generalize (if p1.root = none then error_msg p1
        else if p1.tflags.closed = false then warn_msg p1 else p1) = p2 at hq e2
    split at hq
    · cases hq
      rw [e2, e1]
    · cases hq
      have e3 : ∀ d, (p2.unlink_open d).flags = p2.flags := by
        intro d
        unfold parse.unlink_open
        split <;> rfl
      rw [e3, e2, e1]

theorem parse_file_at_warn (r : nested)
    (hr : ∀ p s q, (r.file p s = .ok q → q.flags.warn = p.flags.warn) ∧
      (r.str p s = .ok q → q.flags.warn = p.flags.warn))
    (p q : parse) (fd : Option (List Char)) (fname : cstring)
    (hq : parse_file_at r p fd fname = .ok q) : q.flags.warn = p.flags.warn := by
  unfold parse_file_at at hq
  dsimp only at hq
  split at hq
  · cases hq
    rfl
  · split at hq
    · cases hq
    · rename_i p1 hp1
      have e1 : p1.flags.warn = p.flags.warn := by
        unfold parse_fd at hp1
        exact parse_fd_loop_warn r hr _ { p with fname := some fname, line := 0, col := 0, nline := 1, ncol := 1 } _ _ _ _ p1 hp1
      split at hq
      · cases hq
      · rename_i p2 hp2
        cases hq
        show p2.flags.warn = _
        split at hp2
        · rw [parse_finish_warn p1 p2 hp2, e1]
        · cases hp2
          exact e1

/-- The parser with nested files leaves the switch for warnings as it is. -/
theorem parse_nested_warn : ∀ (k : Nat) (p : parse) (s : cstring) (q : parse),
    ((parse_nested k).file p s = .ok q → q.flags.warn = p.flags.warn) ∧
      ((parse_nested k).str p s = .ok q → q.flags.warn = p.flags.warn)
  | 0, p, s, q => by
    constructor <;> intro h <;> cases h
  | k + 1, p, s, q => by
    constructor
    · intro h
      exact parse_file_at_warn (parse_nested k) (parse_nested_warn k) p q none s h
    · intro h
      have h1 : (parse_string (parse_nested k) p (s.map some ++ [some NUL]) s.length
          PARSE_ELEM false).map (fun res => res.1.p) = .ok q := h
      cases hres : parse_string (parse_nested k) p (s.map some ++ [some NUL]) s.length
          PARSE_ELEM false with
      | error e => rw [hres] at h1; cases h1
      | ok res =>
        rw [hres] at h1
        cases h1
        exact parse_string_loop_warn (parse_nested k) (parse_nested_warn k) _ _ _ _ _ hres

theorem parse_file_warn (fuel : Nat) (p q : parse) (fd : Option (List Char)) (fname : cstring)
    (hq : parse_file fuel p fd fname = .ok q) : q.flags.warn = p.flags.warn :=
  parse_file_at_warn (parse_nested fuel) (parse_nested_warn fuel) p q fd fname hq

/-! ## The exit code -/

theorem ptree_reorg_flags (a : Nat) (tree : ptree) (sec : Option cstring) (r : ptree × Nat)
    (h : ptree_reorg a tree sec = some r) : r.1.flags = tree.flags := by
  unfold ptree_reorg at h
  split at h
  · cases h
    rfl
  · split at h
    · cases h
    · split at h
      · cases h
      · cases h
        rfl

theorem parse_tree_flags (p : parse) (tree : ptree) (h : parse_tree p = .ok tree) :
    tree.flags = p.tflags ∧ (tree.root = none ↔ p.root = none) := by
  unfold parse_tree at h
  split at h
  · rename_i hroot
    cases h
    exact ⟨rfl, by simp [hroot]⟩
  · rename_i a hroot
    split at h
    · cases h
      exact ⟨rfl, by simp [hroot]⟩
    · cases h

/-- The flags of the tree that `main` looks at are those that `parse_file`
left. -/
theorem main_tree_flags (fuel : Nat) (files : List (cstring × List Char)) (warn : Bool)
    (sec : Option cstring) (input : List Char) (tree : ptree)
    (h : main_tree fuel files warn sec input = .ok tree) :
    ∃ p, parse_file fuel (parse_alloc warn files 1) (some input) "<stdin>".toList = .ok p ∧
      tree.flags = p.tflags := by
  unfold main_tree at h
  obtain ⟨p, h1, h⟩ := except_bind_ok _ _ _ h
  obtain ⟨t0, h2, h⟩ := except_bind_ok _ _ _ h
  refine ⟨p, h1, ?_⟩
  split at h
  · cases h
  · rename_i t1 a1 h3
    cases except_pure_ok _ _ h
    exact (ptree_reorg_flags _ _ _ _ h3).trans (parse_tree_flags p t0 h2).1

/-- The exit code of `main` is computed from the flags of the tree. -/
theorem main_mdoc_rc (fuel : Nat) (files : List (cstring × List Char)) (flags : fflags)
    (warn : Bool) (sec : Option cstring) (input : List Char) (out : List Char) (rc : Nat)
    (h : main_mdoc fuel files flags warn sec input = .ok (out, rc)) :
    ∃ tree, main_tree fuel files warn sec input = .ok tree ∧ rc = main_rc tree.flags := by
  unfold main_mdoc at h
  obtain ⟨tree, h1, h⟩ := except_bind_ok _ _ _ h
  refine ⟨tree, h1, ?_⟩
  split at h
  · exact (congrArg Prod.snd (except_pure_ok _ _ h)).symm
  · obtain ⟨_, -, h⟩ := except_bind_ok _ _ _ h
    obtain ⟨f, h2, h⟩ := except_bind_ok _ _ _ h
    exact (congrArg Prod.snd (except_pure_ok _ _ h)).symm

theorem main_rc_cases (fl : tflags) :
    (fl.error = true → main_rc fl = 3) ∧
    (fl.error = false → fl.warn = true → main_rc fl = 2) ∧
    (fl.error = false → fl.warn = false → main_rc fl = 0) ∧
    (main_rc fl = 0 ↔ fl.error = false ∧ fl.warn = false) := by
  obtain ⟨e, w, c⟩ := fl
  cases e <;> cases w <;> simp [main_rc]

theorem parse_finish_flags (p q : parse) (hq : parse_finish p = .ok q) :
    ∃ p1, pnode_closetext p false = .ok p1 ∧ q.root = p1.root ∧
      q.tflags = (if p1.root = none then error_msg p1
        else if p1.tflags.closed = false then warn_msg p1 else p1).tflags := by
  unfold parse_finish at hq
  split at hq
  · cases hq
  · rename_i p1 hp1
    refine ⟨p1, hp1, ?_⟩
    dsimp only at hq
    have h2 : ∀ p2 : parse, p2 = (if p1.root = none then error_msg p1
        else if p1.tflags.closed = false then warn_msg p1 else p1) →
        p2.root = p1.root := by
      intro p2 hp2
      rw [hp2]
      split
      · rfl
      · split
        · unfold warn_msg
          split <;> rfl
        · rfl
    have e2 := h2 _ rfl
    generalize (if p1.root = none then error_msg p1
        else if p1.tflags.closed = false then warn_msg p1 else p1) = p2 at hq e2 ⊢
    have e3 : ∀ d, (p2.unlink_open d).root = p2.root ∧ (p2.unlink_open d).tflags = p2.tflags := by
      intro d
      unfold parse.unlink_open
      split <;> exact ⟨rfl, rfl⟩
    split at hq
    · cases hq
      exact ⟨e2, rfl⟩
    · cases hq
      exact ⟨(e3 _).1.trans e2, (e3 _).2⟩

theorem parse_fd_warn (r : nested)
    (hr : ∀ p s q, (r.file p s = .ok q → q.flags.warn = p.flags.warn) ∧
      (r.str p s = .ok q → q.flags.warn = p.flags.warn))
    (p : parse) (input : List Char) (q : parse) (hq : parse_fd r p input = .ok q) :
    q.flags.warn = p.flags.warn := by
  unfold parse_fd at hq
  exact parse_fd_loop_warn r hr _ p _ _ _ _ q hq

/-- A document that was begun and not closed is warned about, when warnings
are on. -/
theorem parse_file_unclosed (fuel : Nat) (files : List (cstring × List Char)) (next : Nat)
    (input : List Char) (name : cstring) (q : parse)
    (hq : parse_file fuel (parse_alloc true files next) (some input) name = .ok q)
    (hroot : q.root ≠ none) (hclosed : q.tflags.closed = false) : q.tflags.warn = true := by
  have hw := parse_file_warn fuel _ q _ name hq
  unfold parse_file parse_file_at at hq
  dsimp only at hq
  split at hq
  · cases hq
  · rename_i p1 hp1
    split at hq
    · cases hq
    · rename_i p2 hp2
      cases hq
      rw [if_pos (show (parse_alloc true files next).fname = none from rfl)] at hp2
      obtain ⟨p3, h3, e1, e2⟩ := parse_finish_flags p1 p2 hp2
      have hw3 : p3.flags.warn = true := by
        rw [pnode_closetext_warn p1 p3 false h3]
        exact parse_fd_warn (parse_nested fuel) (parse_nested_warn fuel) _ _ p1 hp1
      have hroot3 : p3.root ≠ none := fun h => hroot (e1.trans h)
      show p2.tflags.warn = true
      have hc2 : p2.tflags.closed = false := hclosed
      rw [e2] at hc2 ⊢
      rw [if_neg hroot3] at hc2 ⊢
      by_cases hc3 : p3.tflags.closed = false
      · rw [if_pos hc3]
        unfold warn_msg
        rw [if_pos hw3]
      · rw [if_neg hc3] at hc2
        exact absurd hc2 hc3

set_option maxRecDepth 1000000 in
theorem main_unclosed_eval : ∀ a b c d : Bool,
    main_mdoc 0 [] ⟨a, b, c, d⟩ true none "<refentry><para>x".toList =
      .ok (".Dd $Mdocdate$\n.Dt UNKNOWN 1\n.Os\nx\n".toList, 2) ∧
    main_mdoc 0 [] ⟨a, b, c, d⟩ false none "<refentry><para>x".toList =
      .ok (".Dd $Mdocdate$\n.Dt UNKNOWN 1\n.Os\nx\n".toList, 0) := by
  decide!

set_option maxRecDepth 1000000 in
theorem parse_unclosed_eval :
    (parse_file 0 (parse_alloc true [] 1) (some "<refentry><para>x".toList)
      "<stdin>".toList).map (fun q => (q.root, q.tflags)) = .ok (some 1, ⟨false, true, false⟩) := by
  decide!

/-- C23: the exit code that `main` computes from the flags of the tree is 3
when the ERROR flag is set, with or without WARN, 2 when only WARN is set and
0 otherwise, so it is 0 exactly when neither flag is set, and it is computed
from the flags that `parse_file` left; and when `parse_file` with warnings
enabled returns with a document element that was never closed (a root
exists and CLOSED is unset), the WARN flag is set and the exit code is not 0.
For the input `<refentry><para>x` the program ends with the exit code 2 with
warnings enabled and 0 without. -/
theorem main_rc_unclosed (fuel : Nat) (files : List (cstring × List Char)) (next : Nat)
    (input : List Char) (name : cstring) (q : parse)
    (hq : parse_file fuel (parse_alloc true files next) (some input) name = .ok q)
    (hroot : q.root ≠ none) (hclosed : q.tflags.closed = false) :
    q.tflags.warn = true ∧ q.tflags.closed = false ∧
    (main_rc q.tflags = 2 ∨ main_rc q.tflags = 3) ∧
    (∀ fl : tflags, (fl.error = true → main_rc fl = 3) ∧
      (fl.error = false → fl.warn = true → main_rc fl = 2) ∧
      (fl.error = false → fl.warn = false → main_rc fl = 0) ∧
      (main_rc fl = 0 ↔ fl.error = false ∧ fl.warn = false)) ∧
    (∀ fuel files flags warn sec input out rc,
      main_mdoc fuel files flags warn sec input = .ok (out, rc) →
      ∃ p, parse_file fuel (parse_alloc warn files 1) (some input) "<stdin>".toList = .ok p ∧
        rc = main_rc p.tflags) ∧
    (∀ flags, main_mdoc 0 [] flags true none "<refentry><para>x".toList =
        .ok (".Dd $Mdocdate$\n.Dt UNKNOWN 1\n.Os\nx\n".toList, 2) ∧
      main_mdoc 0 [] flags false none "<refentry><para>x".toList =
        .ok (".Dd $Mdocdate$\n.Dt UNKNOWN 1\n.Os\nx\n".toList, 0)) := by
  have hw := parse_file_unclosed fuel files next input name q hq hroot hclosed
  refine ⟨hw, hclosed, ?_, main_rc_cases, ?_, ?_⟩
  · cases he : q.tflags.error
    · exact Or.inl ((main_rc_cases q.tflags).2.1 he hw)
    · exact Or.inr ((main_rc_cases q.tflags).1 he)
  · intro fuel files flags warn sec input out rc h
    obtain ⟨tree, h1, h2⟩ := main_mdoc_rc fuel files flags warn sec input out rc h
    obtain ⟨p, h3, h4⟩ := main_tree_flags fuel files warn sec input tree h1
    exact ⟨p, h3, by rw [h2, h4]⟩
  · intro flags
    obtain ⟨a, b, c, d⟩ := flags
    exact main_unclosed_eval a b c d

theorem main_rc_unclosed_witness :
    ∃ q, parse_file 0 (parse_alloc true [] 1) (some "<refentry><para>x".toList)
        "<stdin>".toList = .ok q ∧ q.root = some 1 ∧ q.tflags.closed = false ∧
      q.tflags.error = false ∧ q.tflags.warn = true ∧ main_rc q.tflags = 2 := by
  have h := parse_unclosed_eval
  cases hq : parse_file 0 (parse_alloc true [] 1) (some "<refentry><para>x".toList)
      "<stdin>".toList with
  | error e =>
    rw [hq] at h
    cases h
  | ok q =>
    rw [hq] at h
    have h1 : (q.root, q.tflags) = (some 1, ⟨false, true, false⟩) := by
      injection h
    have hroot : q.root = some 1 := congrArg Prod.fst h1
    have hfl : q.tflags = ⟨false, true, false⟩ := congrArg Prod.snd h1
    have hclosed : q.tflags.closed = false := by rw [hfl]
    have herr : q.tflags.error = false := by rw [hfl]
    have hm := main_rc_unclosed 0 [] 1 "<refentry><para>x".toList "<stdin>".toList q hq
      (by rw [hroot]; exact fun h => Option.noConfusion h) hclosed
    exact ⟨q, rfl, hroot, hclosed, herr, hm.1, (hm.2.2.2.1 q.tflags).2.1 herr hm.1⟩

/-! ## The argument of a macro, word by word -/

theorem format.puts_nil (f : format) : f.puts [] = f := by
  cases f
  simp [format.puts]

theorem format.puts_puts (f : format) (a b : List Char) : (f.puts a).puts b = f.puts (a ++ b) := by
  simp [format.puts, List.append_assoc]

theorem format.putc_eq (f : format) (c : Char) : f.putc c = f.puts [c] := rfl

theorem c_islower_space (d : Char) (h : c_isspace d = true) : c_islower d = false := by
  unfold c_isspace at h
  simp only [Bool.or_eq_true, decide_eq_true_eq] at h
  rcases h with ((((h | h) | h) | h) | h) | h <;> subst h <;> decide

theorem c_isupper_NUL : c_isupper NUL = false := by decide

theorem c_islower_NUL : c_islower NUL = false := by decide

theorem c_isspace_NUL : c_isspace NUL = false := by decide

theorem arg_tokens_aux_word : ∀ (cp w : List Char),
    arg_tokens_aux w cp =
      arg_tokens_aux (w ++ cp.takeWhile (fun c => !c_isspace c))
        (cp.dropWhile (fun c => !c_isspace c))
  | [], w => by simp
  | c :: rest, w => by
    by_cases hc : c_isspace c = true
    · simp [List.takeWhile, List.dropWhile, hc]
    · have hc1 : c_isspace c = false := by simpa using hc
      have e1 : arg_tokens_aux w (c :: rest) = arg_tokens_aux (w ++ [c]) rest := by
        simp [arg_tokens_aux, hc1]
      rw [e1, arg_tokens_aux_word rest (w ++ [c])]
      simp [List.takeWhile, List.dropWhile, hc1]

theorem macro_addarg_loop_space (f : format) (start : Bool) (prev : Char) (flags : aflags)
    (d : Char) (D : List Char) (hd : c_isspace d = true) :
    macro_addarg_loop f start prev flags (d :: D) =
      macro_addarg_loop f false d { flags with space := true } D := by
  simp [macro_addarg_loop, hd]

theorem macro_addarg_loop_cons (f : format) (start : Bool) (prev : Char) (flags : aflags)
    (c : Char) (rest : List Char) (hc : c_isspace c = false) :
    macro_addarg_loop f start prev flags (c :: rest) =
      macro_addarg_loop (f.puts ((if flags.space then [' '] else []) ++
        (if !flags.quoted && !flags.upper && (start || c_isspace prev) &&
          macro_like (c :: rest) then "\\&".toList else []) ++
        arg_escape flags.upper c)) false c { flags with space := false } rest := by
  simp only [macro_addarg_loop, hc]
  generalize (!flags.quoted && !flags.upper && (start || c_isspace prev) &&
    macro_like (c :: rest)) = b
  obtain ⟨sp, si, q, up⟩ := flags
  by_cases h1 : c = '"'
  · subst h1
    cases sp <;> cases b <;> cases up <;>
      simp [format.puts, format.putc, arg_escape, List.append_assoc]
  · by_cases h2 : c = '\\'
    · subst h2
      have e : c_toupper '\\' = '\\' := by decide
      cases sp <;> cases b <;> cases up <;>
        simp [format.puts, format.putc, arg_escape, List.append_assoc, e]
    · cases sp <;> cases b <;> cases up <;>
        simp [format.puts, format.putc, arg_escape, List.append_assoc, h1, h2]

/-- Inside a word the loop writes the characters one by one. -/
theorem macro_addarg_loop_word : ∀ (u : List Char) (f : format) (prev : Char)
    (si q up : Bool) (D : List Char),
    (∀ c ∈ u, c_isspace c = false) → c_isspace prev = false →
    macro_addarg_loop f false prev ⟨false, si, q, up⟩ (u ++ D) =
      macro_addarg_loop (f.puts (u.flatMap (arg_escape up))) false (u.getLast?.getD prev)
        ⟨false, si, q, up⟩ D
  | [], f, prev, si, q, up, D, _, _ => by
    simp [format.puts_nil]
  | c :: u, f, prev, si, q, up, D, hu, hp => by
    have hc : c_isspace c = false := hu c (List.mem_cons_self _ _)
    have hu1 : ∀ x ∈ u, c_isspace x = false := fun x hx => hu x (List.mem_cons_of_mem _ hx)
    rw [List.cons_append, macro_addarg_loop_cons f false prev _ c (u ++ D) hc]
    simp only [hp, Bool.or_self, Bool.and_false, Bool.false_and, Bool.false_eq_true, if_false,
      List.nil_append]
    rw [macro_addarg_loop_word u _ c si q up D hu1 hc, format.puts_puts]
    congr 1
    cases u with
    | nil => rfl
    | cons x xs =>
      rw [List.getLast?_cons_cons, List.getLast?_eq_getLast _ (List.cons_ne_nil x xs)]
      rfl

theorem word_four_head (W : List Char)
    (h : (W == "Brq".toList || W == "Bro".toList || W == "Brc".toList || W == "Bsx".toList) = true) :
    W.length = 3 ∧ c_isupper (W.getD 0 NUL) = true ∧ c_islower (W.getD 1 NUL) = true := by
  simp only [Bool.or_eq_true, beq_iff_eq] at h
  rcases h with ((h | h) | h) | h <;> subst h <;> decide

/-- The test for a word that looks like a macro, in terms of the word at
which it is made and of the character that follows the word. -/
theorem macro_like_word (W D : List Char) (hW : ∀ c ∈ W, c_isspace c = false)
    (hN : ∀ c ∈ W, c ≠ NUL) (hne : W ≠ [])
    (hD : ∀ d, D.head? = some d → c_isspace d = true) :
    macro_like (W ++ D) = (macro_word W && (D.head? == none || D.head? == some ' ')) := by
  have hsp : ∀ c ∈ W, (c == ' ') = false := by
    intro c hc
    have h := hW c hc
    cases hcc : c == ' '
    · rfl
    · rw [beq_iff_eq] at hcc
      subst hcc
      exact absurd h (by decide)
  have hnul : ∀ c ∈ W, (c == NUL) = false := by
    intro c hc
    simpa using hN c hc
  match W, D with
  | [], _ => exact absurd rfl hne
  | [a], [] =>
    simp [macro_like, macro_word, c_islower_NUL]
  | [a], d :: D1 =>
    have hd := hD d rfl
    simp [macro_like, macro_word, c_islower_space d hd]
  | [a, b], [] =>
    simp [macro_like, macro_word]
  | [a, b], d :: D1 =>
    have hd := hD d rfl
    have hd0 : (d == NUL) = false := by
      cases h : d == NUL
      · rfl
      · rw [beq_iff_eq] at h
        subst h
        exact absurd hd (by decide)
    have hdq : ∀ x : Char, c_isspace x = false → (d == x) = false := by
      intro x hx
      cases h : d == x
      · rfl
      · rw [beq_iff_eq] at h
        subst h
        rw [hd] at hx
        cases hx
    have e1 := hdq 'q' (by decide)
    have e2 := hdq 'o' (by decide)
    have e3 := hdq 'c' (by decide)
    have e4 := hdq 'x' (by decide)
    simp only [beq_iff_eq] at hd0 e1 e2 e3 e4
    simp [macro_like, macro_word, hd0, e1, e2, e3, e4]
  | [a, b, e], D =>
    have he1 := hsp e (by simp)
    have he2 := hnul e (by simp)
    simp only [beq_eq_false_iff_ne, ne_eq] at he1 he2
    have m1 : macro_like ([a, b, e] ++ D) = (c_isupper a && c_islower b &&
        ((D.getD 0 NUL == NUL || D.getD 0 NUL == ' ') &&
          ([a, b, e] == "Brq".toList || [a, b, e] == "Bro".toList ||
            [a, b, e] == "Brc".toList || [a, b, e] == "Bsx".toList))) := by
      have k1 := hsp e (by simp)
      have k2 := hnul e (by simp)
      simp [macro_like, k1, k2]
    have m2 : macro_word [a, b, e] = ([a, b, e] == "Brq".toList || [a, b, e] == "Bro".toList ||
        [a, b, e] == "Brc".toList || [a, b, e] == "Bsx".toList) := by
      simp [macro_word]
    have m3 : (D.getD 0 NUL == NUL || D.getD 0 NUL == ' ') =
        (D.head? == none || D.head? == some ' ') := by
      cases D with
      | nil => simp
      | cons d D1 =>
        have hd := hD d rfl
        have hd0 : d ≠ NUL := by
          intro h
          subst h
          exact absurd hd (by decide)
        simp [hd0]
    rw [m1, m2, m3]
    cases h4 : ([a, b, e] == "Brq".toList || [a, b, e] == "Bro".toList ||
        [a, b, e] == "Brc".toList || [a, b, e] == "Bsx".toList)
    · simp
    · obtain ⟨-, h5, h6⟩ := word_four_head _ h4
      have h5a : c_isupper a = true := h5
      have h6a : c_islower b = true := h6
      rw [h5a, h6a]
      simp
  | a :: b :: e :: g :: W1, D =>
    have he1 := hsp e (by simp)
    have he2 := hnul e (by simp)
    have hg1 := hsp g (by simp)
    have hg2 := hnul g (by simp)
    simp only [beq_eq_false_iff_ne, ne_eq] at he1 he2 hg1 hg2
    simp [macro_like, macro_word, he1, he2, hg1, hg2]

theorem dropWhile_head_space : ∀ (cp : List Char) (d : Char),
    (cp.dropWhile (fun c => !c_isspace c)).head? = some d → c_isspace d = true
  | [], d, h => by simp at h
  | c :: rest, d, h => by
    by_cases hc : c_isspace c = true
    · simp [List.dropWhile, hc] at h
      rw [← h]
      exact hc
    · have hc1 : c_isspace c = false := by simpa using hc
      simp only [List.dropWhile, hc1, Bool.not_false] at h
      exact dropWhile_head_space rest d h

theorem takeWhile_nospace : ∀ (cp : List Char),
    ∀ x ∈ cp.takeWhile (fun c => !c_isspace c), c_isspace x = false
  | [], x, h => by simp at h
  | c :: rest, x, h => by
    by_cases hc : c_isspace c = true
    · simp [List.takeWhile, hc] at h
    · have hc1 : c_isspace c = false := by simpa using hc
      simp only [List.takeWhile, hc1, Bool.not_false, List.mem_cons] at h
      rcases h with h | h
      · rw [h]
        exact hc1
      · exact takeWhile_nospace rest x h

/-- A string is a word, which may be empty, and what follows the word. -/
theorem arg_word_split (cp : List Char) :
    ∃ u D, cp = u ++ D ∧ (∀ x ∈ u, c_isspace x = false) ∧
      (∀ d, D.head? = some d → c_isspace d = true) ∧
      ∀ w, arg_tokens_aux w cp = arg_tokens_aux (w ++ u) D :=
  ⟨cp.takeWhile (fun c => !c_isspace c), cp.dropWhile (fun c => !c_isspace c),
    (List.takeWhile_append_dropWhile _ cp).symm, takeWhile_nospace cp,
    dropWhile_head_space cp, fun w => arg_tokens_aux_word cp w⟩

/-- The loop of `macro_addarg`, started at the begin of the argument or
behind white space, writes the words of the rest of the argument. -/
theorem macro_addarg_loop_render : ∀ (n : Nat) (cp : List Char), cp.length ≤ n →
    ∀ (f : format) (start : Bool) (prev : Char) (flags : aflags),
    (start || c_isspace prev) = true → (∀ c ∈ cp, c ≠ NUL) →
    macro_addarg_loop f start prev flags cp =
      f.puts (arg_render (flags.space || cp.head?.any c_isspace) flags.quoted flags.upper
        (arg_tokens cp))
  | _, [], _, f, start, prev, flags, _, _ => by
    simp [macro_addarg_loop, arg_tokens, arg_tokens_aux, arg_render, format.puts_nil]
  | 0, c :: rest, h, _, _, _, _, _, _ => by
    simp at h
  | n + 1, c :: rest, hlen, f, start, prev, flags, hb, hN => by
    have hlen1 : rest.length ≤ n := by
      simp only [List.length_cons] at hlen
      omega
    have hN1 : ∀ x ∈ rest, x ≠ NUL := fun x hx => hN x (List.mem_cons_of_mem _ hx)
    by_cases hc : c_isspace c = true
    · rw [macro_addarg_loop_space _ _ _ _ _ _ hc,
        macro_addarg_loop_render n rest hlen1 _ false c _ (by simp [hc]) hN1]
      have e : arg_tokens (c :: rest) = arg_tokens rest := by
        simp [arg_tokens, arg_tokens_aux, hc]
      rw [e]
      simp [hc]
    · have hc1 : c_isspace c = false := by simpa using hc
      obtain ⟨u, D, hrest, hu, hD, htok⟩ := arg_word_split rest
      subst hrest
      have hW : ∀ x ∈ c :: u, c_isspace x = false := by
        intro x hx
        rcases List.mem_cons.1 hx with h | h
        · rw [h]
          exact hc1
        · exact hu x h
      have hWN : ∀ x ∈ c :: u, x ≠ NUL := by
        intro x hx
        apply hN
        rcases List.mem_cons.1 hx with h | h
        · rw [h]
          exact List.mem_cons_self _ _
        · exact List.mem_cons_of_mem _ (List.mem_append_left _ h)
      have hml := macro_like_word (c :: u) D hW hWN (List.cons_ne_nil _ _) hD
      have htok1 : arg_tokens (c :: (u ++ D)) = arg_tokens_aux (c :: u) D := by
        have e1 : arg_tokens (c :: (u ++ D)) = arg_tokens_aux [c] (u ++ D) := by
          simp [arg_tokens, arg_tokens_aux, hc1]
        rw [e1, htok [c]]
        rfl
      rw [macro_addarg_loop_cons _ _ _ _ _ _ hc1, hb, htok1]
      rw [List.cons_append] at hml
      rw [hml]
      obtain ⟨sp, si, q, up⟩ := flags
      rw [macro_addarg_loop_word u _ c si q up D hu hc1, format.puts_puts]
      cases D with
      | nil =>
        simp [macro_addarg_loop, arg_tokens_aux, arg_render, arg_word, arg_prefixed, hc1,
          List.append_assoc]
      | cons d D1 =>
        have hd := hD d rfl
        have hlen2 : D1.length ≤ n := by
          simp only [List.length_append, List.length_cons] at hlen1
          omega
        have hN2 : ∀ x ∈ D1, x ≠ NUL := fun x hx =>
          hN1 x (List.mem_append_right _ (List.mem_cons_of_mem _ hx))
        rw [macro_addarg_loop_space _ _ _ _ _ _ hd,
          macro_addarg_loop_render n D1 hlen2 _ false d _ (by simp [hd]) hN2, format.puts_puts]
        simp [arg_tokens_aux, arg_render, arg_word, arg_prefixed, hc1, hd, arg_tokens,
          List.append_assoc, and_assoc]

/-- What `macro_addarg` writes, in terms of the words of the argument: with
ARG_SINGLE and without ARG_QUOTED an argument with white space is written
between two double quotes with no other flag in force, and else the words
are written with the flags as they are. -/
theorem macro_addarg_render (f : format) (arg : cstring) (flags : aflags)
    (hl : f.linestate = LINE_MACRO) (hN : ∀ c ∈ arg, c ≠ NUL) :
    macro_addarg f arg flags = .ok { f.puts
      (if flags.single && !flags.quoted && arg.any c_isspace then
        (if flags.space then [' '] else []) ++ ['"'] ++
          arg_render (arg.head?.any c_isspace) true false (arg_tokens arg) ++ ['"']
      else
        arg_render (flags.space || arg.head?.any c_isspace) flags.quoted flags.upper
          (arg_tokens arg)) with parastate := PARA_MID } := by
  unfold macro_addarg
  rw [if_neg (fun h => h hl)]
  dsimp only
  cases hq : (flags.single && !flags.quoted && arg.any c_isspace)
  · simp only [Bool.false_eq_true, if_false]
    rw [macro_addarg_loop_render arg.length arg (le_refl _) f true NUL flags rfl hN]
  · simp only [if_true]
    rw [macro_addarg_loop_render arg.length arg (le_refl _) _ true NUL ARG_QUOTED rfl hN]
    cases flags.space <;>
      simp [format.puts, format.putc, ARG_QUOTED, List.append_assoc]

/-! ## Double quotes in the argument of a macro -/

theorem c_toupper_quote (c : Char) (h : c_toupper c = '"') : c = '"' := by
  unfold c_toupper at h
  split at h
  · rename_i hr
    obtain ⟨h1, h2⟩ := hr
    have h1n : 97 ≤ c.toNat := h1
    have h2n : c.toNat ≤ 122 := h2
    generalize c.toNat = n at h h1n h2n
    exfalso
    interval_cases n <;> exact absurd h (by decide)
  · exact h

theorem arg_escape_quote (up : Bool) (c : Char) : '"' ∉ arg_escape up c := by
  unfold arg_escape
  split
  · decide
  · rename_i h1
    split
    · decide
    · split
      · intro h
        rw [List.mem_singleton] at h
        exact h1 (c_toupper_quote c h.symm)
      · intro h
        rw [List.mem_singleton] at h
        exact h1 h.symm

theorem arg_word_quote (q up : Bool) (t : List Char × Option Char) : '"' ∉ arg_word q up t := by
  unfold arg_word
  intro h
  rcases List.mem_append.1 h with h | h
  · split at h
    · exact absurd h (by decide)
    · cases h
  · obtain ⟨c, -, hc⟩ := List.mem_flatMap.1 h
    exact arg_escape_quote up c hc

theorem arg_render_quote (q up : Bool) : ∀ (ts : List (List Char × Option Char)) (sp : Bool),
    '"' ∉ arg_render sp q up ts
  | [], sp => by simp [arg_render]
  | t :: ts, sp => by
    unfold arg_render
    intro h
    rcases List.mem_append.1 h with h | h
    · rcases List.mem_append.1 h with h | h
      · split at h
        · exact absurd h (by decide)
        · cases h
      · exact arg_word_quote q up t h
    · exact arg_render_quote q up ts true h

/-- C24: for every argument and every combination of flags, on a macro line
`macro_addarg` returns, and what it writes is either a body, or, exactly when
ARG_SINGLE is set without ARG_QUOTED and the argument contains white space,
an optional blank, a double quote, a body and a double quote.  The body
holds no double quote: it is made of the words of the argument with single
blanks between them, and in a word every double quote of the argument is
written as `\(dq` and every backslash as `\e`. -/
theorem macro_addarg_quotes (f : format) (arg : cstring) (flags : aflags)
    (hl : f.linestate = LINE_MACRO) (hN : ∀ c ∈ arg, c ≠ NUL) :
    (flags.single = true → flags.quoted = false → arg.any c_isspace = true →
      ∃ f1, macro_addarg f arg flags = .ok f1 ∧
        f1.out = f.out ++ (if flags.space then [' '] else []) ++ ['"'] ++
          arg_render (arg.head?.any c_isspace) true false (arg_tokens arg) ++ ['"']) ∧
    (¬ (flags.single = true ∧ flags.quoted = false ∧ arg.any c_isspace = true) →
      ∃ f1, macro_addarg f arg flags = .ok f1 ∧
        f1.out = f.out ++ arg_render (flags.space || arg.head?.any c_isspace) flags.quoted
          flags.upper (arg_tokens arg)) ∧
    (∀ (s q up : Bool) (ts : List (List Char × Option Char)), '"' ∉ arg_render s q up ts) ∧
    (∀ (t : List Char × Option Char) (ts : List (List Char × Option Char)) (s q up : Bool),
      arg_render s q up (t :: ts) = (if s then [' '] else []) ++
        ((if arg_prefixed q up t then "\\&".toList else []) ++ t.1.flatMap (arg_escape up)) ++
        arg_render true q up ts) ∧
    (∀ up : Bool, arg_escape up '"' = "\\(dq".toList ∧ arg_escape up '\\' = "\\e".toList ∧
      ∀ c, c ≠ '"' → c ≠ '\\' → arg_escape up c = [if up then c_toupper c else c]) := by
  have h := macro_addarg_render f arg flags hl hN
  refine ⟨?_, ?_, fun s q up ts => arg_render_quote q up ts s, fun t ts s q up => rfl, ?_⟩
  · intro h1 h2 h3
    rw [h1, h2, h3] at h
    simp only [Bool.not_false, Bool.and_self, if_true] at h
    exact ⟨_, h, by simp [format.puts, List.append_assoc]⟩
  · intro hn
    have hq : (flags.single && !flags.quoted && arg.any c_isspace) = false := by
      cases h3 : (flags.single && !flags.quoted && arg.any c_isspace)
      · rfl
      · exfalso
        apply hn
        simp only [Bool.and_eq_true, Bool.not_eq_true'] at h3
        exact ⟨h3.1.1, h3.1.2, h3.2⟩
    rw [hq] at h
    simp only [Bool.false_eq_true, if_false] at h
    exact ⟨_, h, rfl⟩
  · intro up
    refine ⟨by simp [arg_escape], by simp [arg_escape], ?_⟩
    intro c h1 h2
    cases up <;> simp [arg_escape, h1, h2]

theorem macro_addarg_quotes_witness :
    ∃ f1, macro_addarg ⟨0, 0, FMT_NONE, LINE_MACRO, PARA_MID, ".Dt".toList⟩
        "a \"b\\".toList ⟨true, true, false, false⟩ = .ok f1 ∧
      f1.out = ".Dt \"a \\(dqb\\e\"".toList := by
  obtain ⟨f1, h1, h2⟩ := (macro_addarg_quotes
    ⟨0, 0, FMT_NONE, LINE_MACRO, PARA_MID, ".Dt".toList⟩ "a \"b\\".toList
    ⟨true, true, false, false⟩ rfl (by decide)).1 rfl rfl (by decide)
  refine ⟨f1, h1, ?_⟩
  rw [h2]
  decide

/-! ## Upper case in the argument of a macro -/

theorem arg_escape_plain (w : List Char) (hw : ∀ c ∈ w, c ≠ '"' ∧ c ≠ '\\') :
    w.flatMap (arg_escape false) = w ∧ w.flatMap (arg_escape true) = w.map c_toupper := by
  induction w with
  | nil => exact ⟨rfl, rfl⟩
  | cons c w ih =>
    obtain ⟨h1, h2⟩ := hw c (List.mem_cons_self _ _)
    obtain ⟨i1, i2⟩ := ih (fun x hx => hw x (List.mem_cons_of_mem _ hx))
    constructor
    · rw [List.flatMap_cons, i1]
      simp [arg_escape, h1, h2]
    · rw [List.flatMap_cons, i2]
      simp [arg_escape, h1, h2]

set_option maxRecDepth 1000000 in
theorem main_title_eval : ∀ a b c d : Bool,
    main_mdoc 0 [] ⟨a, b, c, d⟩ false none
      ("<refentry><refmeta><refentrytitle>foo bar</refentrytitle><manvolnum>1</manvolnum>" ++
        "</refmeta><para>x</para></refentry>").toList =
      .ok (".Dd $Mdocdate$\n.Dt \"foo bar\" 1\n.Os\nx\n".toList, 0) ∧
    main_mdoc 0 [] ⟨a, b, c, d⟩ false none
      ("<refentry><refmeta><refentrytitle>foo</refentrytitle><manvolnum>1</manvolnum>" ++
        "</refmeta><para>x</para></refentry>").toList =
      .ok (".Dd $Mdocdate$\n.Dt FOO 1\n.Os\nx\n".toList, 0) := by
  decide!

/-- C25 fails when the title contains white space: on a macro line, with
ARG_SINGLE and without ARG_QUOTED, `macro_addarg` writes an argument with
white space between double quotes and then ARG_UPPER is no longer in force,
so the call writes what it writes without ARG_UPPER, and a word without
double quote and backslash is written as it is.  In every other case an
argument with ARG_UPPER is written in upper case: such a word is written
with `toupper` applied to each character.  For the title `foo bar` the
program writes the line `.Dt "foo bar" 1`, and for the title `foo` the
line `.Dt FOO 1`. -/
theorem macro_addarg_upper_lost (f : format) (arg : cstring) (flags : aflags)
    (hl : f.linestate = LINE_MACRO) (hN : ∀ c ∈ arg, c ≠ NUL) :
    (flags.single = true → flags.quoted = false → arg.any c_isspace = true →
      macro_addarg f arg flags = macro_addarg f arg { flags with upper := false } ∧
      ∃ f1, macro_addarg f arg flags = .ok f1 ∧
        f1.out = f.out ++ (if flags.space then [' '] else []) ++ ['"'] ++
          arg_render (arg.head?.any c_isspace) true false (arg_tokens arg) ++ ['"']) ∧
    (flags.upper = true →
      ¬ (flags.single = true ∧ flags.quoted = false ∧ arg.any c_isspace = true) →
      ∃ f1, macro_addarg f arg flags = .ok f1 ∧
        f1.out = f.out ++ arg_render (flags.space || arg.head?.any c_isspace) flags.quoted true
          (arg_tokens arg)) ∧
    (∀ (t : List Char × Option Char) (q : Bool), (∀ c ∈ t.1, c ≠ '"' ∧ c ≠ '\\') →
      arg_word true false t = t.1 ∧ arg_word q true t = t.1.map c_toupper) ∧
    (∀ flags, main_mdoc 0 [] flags false none
      ("<refentry><refmeta><refentrytitle>foo bar</refentrytitle><manvolnum>1</manvolnum>" ++
        "</refmeta><para>x</para></refentry>").toList =
      .ok (".Dd $Mdocdate$\n.Dt \"foo bar\" 1\n.Os\nx\n".toList, 0) ∧
    main_mdoc 0 [] flags false none
      ("<refentry><refmeta><refentrytitle>foo</refentrytitle><manvolnum>1</manvolnum>" ++
        "</refmeta><para>x</para></refentry>").toList =
      .ok (".Dd $Mdocdate$\n.Dt FOO 1\n.Os\nx\n".toList, 0)) := by
  refine ⟨?_, ?_, ?_, ?_⟩
  · intro h1 h2 h3
    obtain ⟨sp, si, q, up⟩ := flags
    dsimp only at h1 h2
    subst h1 h2
    have e1 := macro_addarg_render f arg ⟨sp, true, false, up⟩ hl hN
    have e2 := macro_addarg_render f arg ⟨sp, true, false, false⟩ hl hN
    simp only [h3, Bool.not_false, Bool.and_self, if_true] at e1 e2
    exact ⟨e1.trans e2.symm, _, e1, by simp [format.puts, List.append_assoc]⟩
  · intro h1 h2
    have e1 := macro_addarg_render f arg flags hl hN
    have hq : (flags.single && !flags.quoted && arg.any c_isspace) = false := by
      cases h3 : (flags.single && !flags.quoted && arg.any c_isspace)
      · rfl
      · exfalso
        apply h2
        simp only [Bool.and_eq_true, Bool.not_eq_true'] at h3
        exact ⟨h3.1.1, h3.1.2, h3.2⟩
    rw [hq] at e1
    simp only [Bool.false_eq_true, if_false] at e1
    rw [h1] at e1
    exact ⟨_, e1, rfl⟩
  · intro t q ht
    obtain ⟨a1, a2⟩ := arg_escape_plain t.1 ht
    constructor
    · simp [arg_word, arg_prefixed, a1]
    · simp [arg_word, arg_prefixed, a2]
  · intro flags
    obtain ⟨a, b, c, d⟩ := flags
    exact main_title_eval a b c d

theorem macro_addarg_upper_lost_witness :
    ∃ f1, macro_addarg ⟨0, 0, FMT_NONE, LINE_MACRO, PARA_MID, ".Dt".toList⟩ "foo bar".toList
        ((ARG_SPACE.or ARG_SINGLE).or ARG_UPPER) = .ok f1 ∧
      f1.out = ".Dt \"foo bar\"".toList := by
  obtain ⟨-, f1, h1, h2⟩ := (macro_addarg_upper_lost
    ⟨0, 0, FMT_NONE, LINE_MACRO, PARA_MID, ".Dt".toList⟩ "foo bar".toList
    ((ARG_SPACE.or ARG_SINGLE).or ARG_UPPER) rfl (by decide)).1 rfl rfl (by decide)
  refine ⟨f1, h1, ?_⟩
  rw [h2]
  decide

/-! ## Words that look like a macro -/

theorem macro_word_iff (w : List Char) :
    macro_word w = true ↔
      (∃ a b, w = [a, b] ∧ c_isupper a = true ∧ c_islower b = true) ∨
      w = "Brq".toList ∨ w = "Bro".toList ∨ w = "Brc".toList ∨ w = "Bsx".toList := by
  unfold macro_word
  simp only [Bool.or_eq_true, Bool.and_eq_true, beq_iff_eq]
  constructor
  · rintro ((((⟨⟨h1, h2⟩, h3⟩ | h) | h) | h) | h)
    · match w, h1 with
      | [a, b], _ => exact Or.inl ⟨a, b, rfl, h2, h3⟩
    · exact Or.inr (Or.inl h)
    · exact Or.inr (Or.inr (Or.inl h))
    · exact Or.inr (Or.inr (Or.inr (Or.inl h)))
    · exact Or.inr (Or.inr (Or.inr (Or.inr h)))
  · rintro (⟨a, b, rfl, h2, h3⟩ | h | h | h | h)
    · exact Or.inl (Or.inl (Or.inl (Or.inl ⟨⟨rfl, h2⟩, h3⟩)))
    · exact Or.inl (Or.inl (Or.inl (Or.inr h)))
    · exact Or.inl (Or.inl (Or.inr h))
    · exact Or.inl (Or.inr h)
    · exact Or.inr h

set_option maxRecDepth 1000000 in
theorem main_macro_word_eval : ∀ a b c d : Bool,
    main_mdoc 0 [] ⟨a, b, c, d⟩ false none
      "<refentry><para><emphasis>Fl\tx</emphasis> <emphasis>Fl x</emphasis></para></refentry>".toList =
      .ok (".Dd $Mdocdate$\n.Dt UNKNOWN 1\n.Os\n.Em Fl x\n.Em \\&Fl x\n".toList, 0) := by
  decide!

/-- C26 fails for a word that a tab or a newline follows: on a macro line,
without ARG_QUOTED and ARG_UPPER, `macro_addarg` writes the words of the
argument, and a word gets the prefix `\&` exactly when it is one upper-case
letter followed by one lower-case letter, or one of Brq, Bro, Brc and Bsx,
and the end of the argument or a blank follows it; when ARG_SINGLE is set
and the argument contains white space, the argument is written between
double quotes and no word gets the prefix.  For the argument `Fl`, tab, `x`
the function writes `Fl x`, which mdoc reads as the macro Fl, and the
program writes the line `.Em Fl x` for an emphasis with that text. -/
theorem macro_addarg_prefixes (f : format) (arg : cstring) (flags : aflags)
    (hl : f.linestate = LINE_MACRO) (hN : ∀ c ∈ arg, c ≠ NUL)
    (hq : flags.quoted = false) (hu : flags.upper = false) :
    (¬ (flags.single = true ∧ arg.any c_isspace = true) →
      ∃ f1, macro_addarg f arg flags = .ok f1 ∧
        f1.out = f.out ++ arg_render (flags.space || arg.head?.any c_isspace) false false
          (arg_tokens arg)) ∧
    (flags.single = true → arg.any c_isspace = true →
      ∃ f1, macro_addarg f arg flags = .ok f1 ∧
        f1.out = f.out ++ (if flags.space then [' '] else []) ++ ['"'] ++
          arg_render (arg.head?.any c_isspace) true false (arg_tokens arg) ++ ['"']) ∧
    (∀ (w : List Char) (d : Option Char),
      arg_word false false (w, d) =
        (if macro_word w = true ∧ (d = none ∨ d = some ' ') then "\\&".toList else []) ++
          w.flatMap (arg_escape false) ∧
      arg_word true false (w, d) = w.flatMap (arg_escape false)) ∧
    (∀ w, macro_word w = true ↔
      (∃ a b, w = [a, b] ∧ c_isupper a = true ∧ c_islower b = true) ∨
      w = "Brq".toList ∨ w = "Bro".toList ∨ w = "Brc".toList ∨ w = "Bsx".toList) ∧
    arg_tokens "Fl\tx".toList = [("Fl".toList, some '\t'), ("x".toList, none)] ∧
    arg_render true false false (arg_tokens "Fl\tx".toList) = " Fl x".toList ∧
    arg_render true false false (arg_tokens "Fl x".toList) = " \\&Fl x".toList ∧
    (∀ flags, main_mdoc 0 [] flags false none
      "<refentry><para><emphasis>Fl\tx</emphasis> <emphasis>Fl x</emphasis></para></refentry>".toList =
      .ok (".Dd $Mdocdate$\n.Dt UNKNOWN 1\n.Os\n.Em Fl x\n.Em \\&Fl x\n".toList, 0)) := by
  obtain ⟨sp, si, q, up⟩ := flags
  dsimp only at hq hu
  subst hq hu
  have e1 := macro_addarg_render f arg ⟨sp, si, false, false⟩ hl hN
  refine ⟨?_, ?_, ?_, macro_word_iff, by decide, by decide, by decide, ?_⟩
  · intro h
    have hq : (si && !false && arg.any c_isspace) = false := by
      cases h3 : (si && !false && arg.any c_isspace)
      · rfl
      · exfalso
        apply h
        simp only [Bool.and_eq_true, Bool.not_eq_true'] at h3
        exact ⟨h3.1.1, h3.2⟩
    dsimp only at e1
    rw [hq] at e1
    simp only [Bool.false_eq_true, if_false] at e1
    exact ⟨_, e1, rfl⟩
  · intro h1 h2
    dsimp only at h1
    subst h1
    simp only [h2, Bool.not_false, Bool.and_self, if_true] at e1
    exact ⟨_, e1, by simp [format.puts, List.append_assoc]⟩
  · intro w d
    constructor
    · cases hw : macro_word w <;> simp [arg_word, arg_prefixed, hw]
    · simp [arg_word, arg_prefixed]
  · intro flags
    obtain ⟨a, b, c, d⟩ := flags
    exact main_macro_word_eval a b c d

theorem macro_addarg_prefixes_witness :
    (∃ f1, macro_addarg ⟨0, 0, FMT_NONE, LINE_MACRO, PARA_MID, ".Em".toList⟩ "Fl\tx".toList
        ARG_SPACE = .ok f1 ∧ f1.out = ".Em Fl x".toList) ∧
    macro_word "Fl".toList = true := by
  have h := macro_addarg_prefixes ⟨0, 0, FMT_NONE, LINE_MACRO, PARA_MID, ".Em".toList⟩
    "Fl\tx".toList ARG_SPACE rfl (by decide) rfl rfl
  obtain ⟨f1, h1, h2⟩ := h.1 (by decide)
  refine ⟨⟨f1, h1, ?_⟩, by decide⟩
  rw [h2]
  decide

/-! ## The last word of a text node -/

theorem rstrip_eq_self (u : cstring) (h : ∀ x, u.getLast? = some x → c_isspace x = false) :
    rstrip u = u := by
  unfold rstrip
  cases hr : u.reverse with
  | nil => rw [List.reverse_eq_nil_iff.1 hr]; rfl
  | cons a r =>
    have ha : c_isspace a = false := by
      apply h
      rw [← List.head?_reverse, hr]
      rfl
    rw [List.dropWhile_cons_of_neg (by simp [ha]), ← hr, List.reverse_reverse]

theorem rstrip_append_space (u ws : cstring) (hws : ∀ x ∈ ws, c_isspace x = true) :
    rstrip (u ++ ws) = rstrip u := by
  unfold rstrip
  rw [List.reverse_append, List.dropWhile_append_of_pos]
  intro a ha
  exact hws a (List.mem_reverse.1 ha)

theorem last_word_nospace (t : cstring) :
    ∀ x ∈ (t.reverse.takeWhile (fun c => !c_isspace c)).reverse, c_isspace x = false := by
  intro x hx
  have h := List.mem_takeWhile_imp (List.mem_reverse.1 hx)
  simpa using h

/-- The last word of a string that ends with a word behind white space, and
the part of the string before it. -/
theorem last_word_split (u ws w : cstring) (hne : ws ≠ [])
    (hws : ∀ x ∈ ws, c_isspace x = true) (hw : ∀ x ∈ w, c_isspace x = false)
    (hu : ∀ x, u.getLast? = some x → c_isspace x = false) :
    ((u ++ ws ++ w).reverse.takeWhile (fun c => !c_isspace c)).reverse = w ∧
    rstrip ((u ++ ws ++ w).take ((u ++ ws ++ w).length - w.length)) = u := by
  have h1 : ((u ++ ws ++ w).reverse.takeWhile (fun c => !c_isspace c)) = w.reverse := by
    rw [List.reverse_append, List.takeWhile_append_of_pos]
    · rw [List.reverse_append]
      cases hr : ws.reverse with
      | nil => exact absurd (List.reverse_eq_nil_iff.1 hr) hne
      | cons a r =>
        have ha : c_isspace a = true := by
          apply hws
          rw [← List.mem_reverse, hr]
          exact List.mem_cons_self _ _
        rw [List.cons_append, List.takeWhile_cons_of_neg (by simp [ha]), List.append_nil]
    · intro a ha
      simp [hw a (List.mem_reverse.1 ha)]
  constructor
  · rw [h1, List.reverse_reverse]
  · have h2 : (u ++ ws ++ w).length - w.length = (u ++ ws).length := by
      simp only [List.length_append]
      omega
    rw [h2, List.take_left, rstrip_append_space u ws hws, rstrip_eq_self u hu]

/-- The last word of a string without white space is the string. -/
theorem last_word_single (t : cstring) (ht : ∀ x ∈ t, c_isspace x = false) :
    (t.reverse.takeWhile (fun c => !c_isspace c)).reverse = t ∧
    rstrip (t.take (t.length - t.length)) = [] := by
  constructor
  · rw [List.takeWhile_eq_self_iff.2, List.reverse_reverse]
    intro a ha
    simp [ht a (List.mem_reverse.1 ha)]
  · rw [Nat.sub_self]
    rfl

/-- The function `pnode_closetext(p, 1)` for an open text node with the
string `t` that does not end with white space, when no white space is
pending. -/
theorem pnode_closetext_last_word (p : parse) (n c : pnode) (up : List pnode) (t : cstring)
    (hs : p.stack = n :: c :: up) (hn : n.node = NODE_TEXT) (hb : n.b = some t)
    (hspc : p.flags.spc = false) (hlast : ∀ x, t.getLast? = some x → c_isspace x = false) :
    pnode_closetext p true = .ok
      (if (rstrip (t.take (t.length -
          ((t.reverse.takeWhile (fun c => !c_isspace c)).reverse).length))).length = 0 then
        (p.setCur (n.setB (some t))).pop
      else
        ((p.setCur (n.setB (some (rstrip (t.take (t.length -
          ((t.reverse.takeWhile (fun c => !c_isspace c)).reverse).length)))))).pop).alloc.2.link
          ((pnode_alloc_text
            ((p.setCur (n.setB (some (rstrip (t.take (t.length -
              ((t.reverse.takeWhile (fun c => !c_isspace c)).reverse).length)))))).pop).alloc.1.addr
            ((p.setCur (n.setB (some (rstrip (t.take (t.length -
              ((t.reverse.takeWhile (fun c => !c_isspace c)).reverse).length)))))).pop).alloc.1.parent
            ((t.reverse.takeWhile (fun c => !c_isspace c)).reverse)).setFlags ⟨false, true⟩)) := by
  have hr := rstrip_eq_self t hlast
  unfold pnode_closetext
  rw [hs]
  dsimp only
  rw [if_neg (by simp [hn]), hb]
  dsimp only
  rw [hr, if_neg (Nat.lt_irrefl _)]
  rw [if_neg (by simp [hspc])]
  split <;> rfl

/-! ## The last word before an element on the same line -/

theorem pnode.insertTail_addr (x y : pnode) : (x.insertTail y).addr = x.addr := by
  cases x; rfl

/-- The tree after `pnode_closetext(p, 1)` for an open text node that does
not end with white space, when no white space is pending. -/
theorem pnode_closetext_words (p : parse) (n c : pnode) (up : List pnode) (t : cstring)
    (hs : p.stack = n :: c :: up) (hn : n.node = NODE_TEXT) (hb : n.b = some t)
    (hspc : p.flags.spc = false) (hlast : ∀ x, t.getLast? = some x → c_isspace x = false) :
    ∃ q, pnode_closetext p true = .ok q ∧ q.flags = p.flags ∧ q.ncur = p.ncur ∧
      q.loose = p.loose ∧
      (text_front t = [] → q.stack = c.insertTail (n.setB (some t)) :: up) ∧
      (text_front t ≠ [] →
        q.stack = (c.insertTail (n.setB (some (text_front t)))).insertTail
          ((pnode_alloc_text p.next (some c.addr) (text_last_word t)).setFlags ⟨false, true⟩)
            :: up) := by
  have h : pnode_closetext p true = .ok
      (if (text_front t).length = 0 then (p.setCur (n.setB (some t))).pop
      else
        ((p.setCur (n.setB (some (text_front t)))).pop).alloc.2.link
          ((pnode_alloc_text ((p.setCur (n.setB (some (text_front t)))).pop).alloc.1.addr
            ((p.setCur (n.setB (some (text_front t)))).pop).alloc.1.parent
            (text_last_word t)).setFlags ⟨false, true⟩)) :=
    pnode_closetext_last_word p n c up t hs hn hb hspc hlast
  refine ⟨_, h, ?_⟩
  obtain ⟨fname, root, tfl, doctype, stack, loose, ncur, line, col, nline, ncol, del, nofill,
    flags, next, files⟩ := p
  dsimp only at hs
  subst hs
  by_cases hf : text_front t = []
  · have hl : (text_front t).length = 0 := by rw [hf]; rfl
    rw [if_pos hl]
    refine ⟨rfl, rfl, rfl, fun _ => rfl, fun h2 => absurd hf h2⟩
  · have hl : ¬ (text_front t).length = 0 := fun h0 => hf (List.length_eq_zero.1 h0)
    rw [if_neg hl]
    refine ⟨rfl, rfl, rfl, fun h2 => absurd h2 hf, fun _ => ?_⟩
    simp [parse.setCur, parse.pop, parse.link, parse.alloc, parse.cur, pnode.insertTail_addr,
      pnode_alloc, pnode_alloc_text, pnode.setNode, pnode.setB, pnode.setFlags]

theorem pnode_class_regular (k : nodeid) (cls : nodeclass) (h : pnode_class k = some cls)
    (hle : cls = CLASS_LINE ∨ cls = CLASS_ENCL) :
    k ≠ NODE_DELETE_WARN ∧ k ≠ NODE_DELETE ∧ k ≠ NODE_IGNORE ∧ k ≠ NODE_UNKNOWN := by
  refine ⟨?_, ?_, ?_, ?_⟩ <;>
  · intro hk
    subst hk
    rcases hle with rfl | rfl <;> revert h <;> decide
theorem xml_elem_start_closetext (p : parse) (name : cstring) (cls : nodeclass) (n : pnode)
    (rest : List pnode) (hd : p.del = 0) (hcls : pnode_class (xml_name2node name) = some cls)
    (hle : cls = CLASS_LINE ∨ cls = CLASS_ENCL) (hs : p.stack = n :: rest) :
    ∃ p1 : parse, p1.stack = p.stack ∧ p1.flags = p.flags ∧ p1.next = p.next ∧
      p1.loose = p.loose ∧ p1.ncur = xml_name2node name ∧
      xml_elem_start p name = (pnode_closetext p1 true).map (fun p2 => xml_elem_alloc p2 cls) := by
  obtain ⟨k1, k2, k3, k4⟩ := pnode_class_regular _ cls hcls hle
  unfold xml_elem_start
  rw [if_neg (by omega)]
  dsimp only
  split
  · rename_i h; exact absurd h k1
  · rename_i h; exact absurd h k2
  · rename_i h; exact absurd h k3
  · rename_i h; exact absurd h k4
  · split
    · rename_i h
      exfalso
      split at h
      · simp [parse.cur, hs] at h
      · cases h
    · rename_i h _
      rw [hcls] at h
      cases h
    · rename_i w cls1 h1 h2
      rw [hcls] at h2
      cases h2
      have hdec : decide (cls = CLASS_LINE ∨ cls = CLASS_ENCL) = true := by simpa using hle
      rw [hdec]
      refine ⟨if w = true then warn_msg { p with ncur := xml_name2node name }
        else { p with ncur := xml_name2node name }, ?_, ?_, ?_, ?_, ?_, ?_⟩
      · split
        · unfold warn_msg; split <;> rfl
        · rfl
      · split
        · unfold warn_msg; split <;> rfl
        · rfl
      · split
        · unfold warn_msg; split <;> rfl
        · rfl
      · split
        · unfold warn_msg; split <;> rfl
        · rfl
      · split
        · unfold warn_msg; split <;> rfl
        · rfl
      · cases pnode_closetext (if w = true then warn_msg { p with ncur := xml_name2node name }
          else { p with ncur := xml_name2node name }) true <;> rfl

theorem xml_elem_alloc_stack (p2 : parse) (cls : nodeclass)
    (hle : cls = CLASS_LINE ∨ cls = CLASS_ENCL) :
    ∃ e, (xml_elem_alloc p2 cls).stack = e :: p2.stack ∧ e.node = p2.ncur ∧ e.childq = [] ∧
      e.flags.spc = p2.flags.spc ∧ e.b = none := by
  have hfr := fun (n : pnode) (pp : parse) => xml_elem_alloc_frame n pp _ rfl
  unfold xml_elem_alloc
  dsimp only
  rw [(hfr _ _).1]
  refine ⟨_, rfl, rfl, rfl, ?_, rfl⟩
  simp [pnode.setFlags, pnode.setNode, parse.alloc, pnode_alloc, hle]

/-- C21: when an open text node with the string `t` is closed by the start
of an element of class LINE or ENCL, and no white space lies between the
text and the tag (`t` does not end with white space and no white space is
pending), `xml_elem_start` returns, and below the new element the tree is as
follows.  When `t` is `u`, white space and `w`, where `u` is not empty and
does not end with white space and `w` holds no white space, the text node
holds `u` and a new TEXT node follows it as the next sibling, which holds
`w` and has the SPC flag.  When `t` holds no white space, the text node
stays the last child of its parent, with the string `t`.  In both cases the
last of these nodes holds no white space.  In general the node is split
exactly when the part of `t` before the last word holds more than white
space. -/
theorem xml_elem_start_words (p : parse) (name : cstring) (cls : nodeclass) (n c : pnode)
    (up : List pnode) (t : cstring) (hd : p.del = 0)
    (hcls : pnode_class (xml_name2node name) = some cls)
    (hle : cls = CLASS_LINE ∨ cls = CLASS_ENCL)
    (hs : p.stack = n :: c :: up) (hn : n.node = NODE_TEXT) (hb : n.b = some t)
    (hspc : p.flags.spc = false) (hlast : ∀ x, t.getLast? = some x → c_isspace x = false) :
    ∃ q e, xml_elem_start p name = .ok q ∧ e.node = xml_name2node name ∧ e.childq = [] ∧
      (∀ u ws w, t = u ++ ws ++ w → u ≠ [] → (∀ x, u.getLast? = some x → c_isspace x = false) →
        ws ≠ [] → (∀ x ∈ ws, c_isspace x = true) → (∀ x ∈ w, c_isspace x = false) →
        ∃ t2, q.stack = e :: (c.insertTail (n.setB (some u))).insertTail t2 :: up ∧
          t2.node = NODE_TEXT ∧ t2.b = some w ∧ t2.flags.spc = true ∧ t2.childq = [] ∧
          t2.parent = some c.addr) ∧
      ((∀ x ∈ t, c_isspace x = false) → q.stack = e :: c.insertTail (n.setB (some t)) :: up) ∧
      (text_front t = [] → q.stack = e :: c.insertTail (n.setB (some t)) :: up) ∧
      (text_front t ≠ [] →
        ∃ t2, q.stack = e :: (c.insertTail (n.setB (some (text_front t)))).insertTail t2 :: up ∧
          t2.node = NODE_TEXT ∧ t2.b = some (text_last_word t) ∧ t2.flags.spc = true ∧
          t2.childq = [] ∧ t2.parent = some c.addr) ∧
      (∀ x ∈ text_last_word t, c_isspace x = false) := by
  obtain ⟨p1, e1, e2, e3, e4, e5, hstart⟩ :=
    xml_elem_start_closetext p name cls n (c :: up) hd hcls hle hs
  obtain ⟨q2, hq2, f1, f2, f3, hnil, hcons⟩ := pnode_closetext_words p1 n c up t
    (e1.trans hs) hn hb (by rw [e2]; exact hspc) hlast
  obtain ⟨e, g1, g2, g3, g4, g5⟩ := xml_elem_alloc_stack q2 cls hle
  rw [hq2] at hstart
  have hA : text_front t = [] → (xml_elem_alloc q2 cls).stack =
      e :: c.insertTail (n.setB (some t)) :: up := by
    intro h0
    rw [g1, hnil h0]
  have hB : text_front t ≠ [] →
      ∃ t2, (xml_elem_alloc q2 cls).stack =
          e :: (c.insertTail (n.setB (some (text_front t)))).insertTail t2 :: up ∧
        t2.node = NODE_TEXT ∧ t2.b = some (text_last_word t) ∧ t2.flags.spc = true ∧
        t2.childq = [] ∧ t2.parent = some c.addr := by
    intro h0
    exact ⟨(pnode_alloc_text p1.next (some c.addr) (text_last_word t)).setFlags ⟨false, true⟩,
      by rw [g1, hcons h0], rfl, rfl, rfl, rfl, rfl⟩
  refine ⟨_, e, hstart, by rw [g2, f2, e5], g3, ?_, ?_, hA, hB, last_word_nospace t⟩
  · intro u ws w ht hu hul hws hwsa hw
    obtain ⟨l1, l2⟩ := last_word_split u ws w hws hwsa hw hul
    have hfront : text_front t = u := by
      rw [ht]
      unfold text_front
      rw [show text_last_word (u ++ ws ++ w) = w from l1]
      exact l2
    have hword : text_last_word t = w := by
      rw [ht]
      exact l1
    obtain ⟨t2, h1, h2, h3, h4⟩ := hB (by rw [hfront]; exact hu)
    rw [hfront] at h1
    rw [hword] at h3
    exact ⟨t2, h1, h2, h3, h4⟩
  · intro ht
    apply hA
    unfold text_front
    rw [show text_last_word t = t from (last_word_single t ht).1]
    exact (last_word_single t ht).2

theorem xml_elem_start_words_witness :
    ∃ q e t2, xml_elem_start ex_words "emphasis".toList = .ok q ∧
      q.stack = [e, ((pnode.mk 1 NODE_PARA none none ⟨false, true⟩ [] []).insertTail
        (pnode.mk 2 NODE_TEXT (some "see".toList) (some 1) ⟨false, false⟩ [] [])).insertTail t2] ∧
      e.node = NODE_EMPHASIS ∧ t2.node = NODE_TEXT ∧ t2.b = some "foo".toList ∧
      t2.flags.spc = true := by
  obtain ⟨q, e, h1, h2, h3, h4, -⟩ := xml_elem_start_words ex_words "emphasis".toList CLASS_LINE
    (pnode.mk 2 NODE_TEXT (some "see foo".toList) (some 1) ⟨false, false⟩ [] [])
    (pnode.mk 1 NODE_PARA none none ⟨false, true⟩ [] []) [] "see foo".toList rfl (by decide)
    (Or.inl rfl) rfl rfl rfl rfl (by decide)
  obtain ⟨t2, k1, k2, k3, k4, -⟩ := h4 "see".toList " ".toList "foo".toList rfl (by decide)
    (by decide) (by decide) (by decide) (by decide)
  exact ⟨q, e, t2, h1, k1, h2.trans (by decide), k2, k3, k4⟩

/-! ## The text of a line, chunk by chunk -/

theorem text_put_eq (f : format) (c : Char) :
    (if c = '\\' then (f.putc c).putc 'e' else f.putc c) = f.puts (text_escape c) := by
  unfold text_escape
  split
  · rename_i h
    subst h
    simp [format.puts, format.putc]
  · rfl

theorem text_plain_iff (c : Char) :
    text_plain c = true ↔ c ≠ ' ' ∧ text_punct c = false ∧ text_closer c = false := by
  unfold text_plain
  cases text_punct c <;> cases text_closer c <;> simp

theorem text_punct_iff (c : Char) : text_punct c = true ↔ (c = '!' ∨ c = '.' ∨ c = '?') := by
  unfold text_punct
  simp [or_assoc]

theorem text_closer_iff (c : Char) :
    text_closer c = true ↔ (c = '"' ∨ c = Char.ofNat 39 ∨ c = ')' ∨ c = ']') := by
  unfold text_closer
  simp [or_assoc]

theorem text_punct_closer (c : Char) (h : text_punct c = true) : text_closer c = false := by
  rw [text_punct_iff] at h
  rcases h with h | h | h <;> subst h <;> decide

theorem text_punct_blank (c : Char) (h : text_punct c = true) : c ≠ ' ' := by
  rw [text_punct_iff] at h
  rcases h with h | h | h <;> subst h <;> decide

theorem text_closer_blank (c : Char) (h : text_closer c = true) : c ≠ ' ' := by
  rw [text_closer_iff] at h
  rcases h with h | h | h | h <;> subst h <;> decide

/-- One turn of the loop of `print_text` in fill mode, at a character that
is no blank. -/
theorem print_text_loop_step (k : Nat) (f : format) (ateos : Bool) (iw : Nat)
    (p2 p1 c : Char) (rest : List Char) (hf : f.nofill = 0) (hc : c ≠ ' ') :
    print_text_loop (k + 1) f ateos iw p2 p1 (c :: rest) =
      print_text_loop k (f.puts (text_escape c))
        (if text_punct c = true then
          (if iw > 1 ∧ (p2 ≠ 'n' ∨ p1 ≠ 'c') ∧ (p2 ≠ 'v' ∨ p1 ≠ 's') then true else ateos)
         else if text_closer c = true then ateos else false)
        (if text_punct c = true ∨ text_closer c = true then 0
          else if c_isalnum c = true then iw + 1 else iw) p1 c rest := by
  rw [print_text_loop]
  simp only [hf, hc, if_true, if_false, text_put_eq]
  by_cases hp : text_punct c = true
  · have hp1 := (text_punct_iff c).1 hp
    simp only [hp, hp1, if_true, true_or]
  · have hp1 : ¬ (c = '!' ∨ c = '.' ∨ c = '?') := fun h => hp ((text_punct_iff c).2 h)
    by_cases hcl : text_closer c = true
    · have hcl1 := (text_closer_iff c).1 hcl
      simp only [hp, hp1, hcl, hcl1, if_true, if_false, or_true, Bool.false_eq_true]
    · have hcl1 : ¬ (c = '"' ∨ c = Char.ofNat 39 ∨ c = ')' ∨ c = ']') :=
        fun h => hcl ((text_closer_iff c).2 h)
      simp only [hp, hp1, hcl, hcl1, if_false, or_self, Bool.false_eq_true]

/-- One turn of the loop of `print_text` in fill mode, at a blank that does
not follow the end of a sentence. -/
theorem print_text_loop_blank (k : Nat) (f : format) (iw : Nat) (p2 p1 : Char)
    (rest : List Char) (hf : f.nofill = 0) :
    print_text_loop (k + 1) f false iw p2 p1 (' ' :: rest) =
      print_text_loop k (f.puts [' ']) false 0 p1 ' ' rest := by
  rw [print_text_loop]
  simp only [hf, if_true, text_put_eq]
  rfl

/-- One turn of the loop of `print_text` in fill mode, at a blank that
follows the end of a sentence. -/
theorem print_text_loop_break (k : Nat) (f : format) (iw : Nat) (p2 p1 : Char)
    (rest : List Char) (hf : f.nofill = 0) :
    ∃ q2, print_text_loop (k + 1) f true iw p2 p1 (' ' :: rest) =
      print_text_loop k (match (rest.dropWhile (fun d => d == ' ')).head? with
          | none => f
          | some d => if d = Char.ofNat 39 ∨ d = '.' then f.puts "\n\\&".toList else f.putc '\n')
        false 0 q2 ' ' (rest.dropWhile (fun d => d == ' ')) := by
  refine ⟨if (rest.dropWhile (fun d => d == ' ')).length < rest.length then ' ' else p1, ?_⟩
  rw [print_text_loop]
  simp only [hf, if_true]
  rfl

/-- What the loop of `print_text` knows after the characters of a chunk,
which are `xr` when read backwards. -/
theorem text_state_step (xr : List Char) (ateos : Bool) (iw : Nat) (p2 p1 c : Char)
    (hc : c ≠ ' ') (h1 : ateos = sentence_end_rev xr)
    (h2 : iw = (xr.takeWhile text_plain).countP c_isalnum)
    (h3 : ∀ a r, xr = a :: r → p1 = a) (h4 : ∀ a b r, xr = a :: b :: r → p2 = b) :
    (if text_punct c = true then
        (if iw > 1 ∧ (p2 ≠ 'n' ∨ p1 ≠ 'c') ∧ (p2 ≠ 'v' ∨ p1 ≠ 's') then true else ateos)
      else if text_closer c = true then ateos else false) = sentence_end_rev (c :: xr) ∧
    (if text_punct c = true ∨ text_closer c = true then 0
      else if c_isalnum c = true then iw + 1 else iw) =
        ((c :: xr).takeWhile text_plain).countP c_isalnum := by
  have hplain : text_plain c = (!(text_punct c || text_closer c)) := by
    unfold text_plain
    simp [hc]
  have twp : ∀ (a : Char) (r : List Char), (text_punct a || text_closer a) = true →
      List.takeWhile (fun c => text_punct c || text_closer c) (a :: r) =
        a :: List.takeWhile (fun c => text_punct c || text_closer c) r := by
    intro a r h
    simp only [List.takeWhile, h]
  have twn : ∀ (a : Char) (r : List Char), ¬ (text_punct a || text_closer a) = true →
      List.takeWhile (fun c => text_punct c || text_closer c) (a :: r) = [] ∧
      List.dropWhile (fun c => text_punct c || text_closer c) (a :: r) = a :: r := by
    intro a r h
    have h0 : (text_punct a || text_closer a) = false := by simpa using h
    simp only [List.takeWhile, List.dropWhile, h0, and_self]
  have dwp : ∀ (a : Char) (r : List Char), (text_punct a || text_closer a) = true →
      List.dropWhile (fun c => text_punct c || text_closer c) (a :: r) =
        List.dropWhile (fun c => text_punct c || text_closer c) r := by
    intro a r h
    simp only [List.dropWhile, h]
  by_cases hpc : (text_punct c || text_closer c) = true
  · -- one of the seven characters
    have hnp : text_plain c = false := by rw [hplain, hpc]; rfl
    have hiw : ((c :: xr).takeWhile text_plain).countP c_isalnum = 0 := by
      rw [List.takeWhile_cons_of_neg (by simp [hnp])]
      rfl
    have hor : text_punct c = true ∨ text_closer c = true := by simpa using hpc
    rw [if_pos hor, hiw]
    refine ⟨?_, rfl⟩
    have htw : (c :: xr).takeWhile (fun c => text_punct c || text_closer c) =
        c :: xr.takeWhile (fun c => text_punct c || text_closer c) :=
      twp c xr hpc
    have hdw : (c :: xr).dropWhile (fun c => text_punct c || text_closer c) =
        xr.dropWhile (fun c => text_punct c || text_closer c) :=
      dwp c xr hpc
    cases hx0 : xr.takeWhile (fun c => text_punct c || text_closer c) with
    | nil =>
      -- the run of the seven characters begins here
      have hdx : xr.dropWhile (fun c => text_punct c || text_closer c) = xr := by
        cases xr with
        | nil => rfl
        | cons a r =>
          by_cases ha : (text_punct a || text_closer a) = true
          · rw [twp a r ha] at hx0
            cases hx0
          · exact (twn a r ha).2
      have hat : ateos = false := by
        rw [h1]
        unfold sentence_end_rev
        rw [hx0]
        rfl
      have hse : sentence_end_rev (c :: xr) = (text_punct c &&
          decide (1 < (xr.takeWhile text_plain).countP c_isalnum) &&
          !(xr.take 2 == ['c', 'n']) && !(xr.take 2 == ['s', 'v'])) := by
        unfold sentence_end_rev
        rw [htw, hdw, hx0, hdx]
        rfl
      rw [hse, hat, ← h2]
      by_cases hp : text_punct c = true
      · rw [if_pos hp, hp]
        by_cases hiw1 : iw > 1
        · -- two characters are there
          have hlen : 2 ≤ (xr.takeWhile text_plain).length := by
            have := List.countP_le_length c_isalnum (l := xr.takeWhile text_plain)
            omega
          have hlen2 : 2 ≤ xr.length :=
            le_trans hlen (List.takeWhile_sublist text_plain).length_le
          match xr, hlen2, h3, h4 with
          | a :: b :: r, _, h3, h4 =>
            have e1 := h3 a _ rfl
            have e2 := h4 a b r rfl
            subst e1 e2
            have hd : decide (1 < iw) = true := by simpa using hiw1
            simp only [hd, List.take, Bool.true_and]
            by_cases k1 : p2 = 'n' <;> by_cases k2 : p1 = 'c' <;> by_cases k3 : p2 = 'v' <;>
              by_cases k4 : p1 = 's' <;> simp [k1, k2, k3, k4, hiw1]
        · have hd : decide (1 < iw) = false := by simpa using hiw1
          simp [hd, hiw1]
      · have hp0 : text_punct c = false := by simpa using hp
        have hcl : text_closer c = true := by
          rcases hor with h | h
          · exact absurd h hp
          · exact h
        rw [if_neg hp, if_pos hcl, hp0]
        rfl
    | cons a r =>
      -- inside the run of the seven characters
      have hxa : ∃ r2, xr = a :: r2 ∧ text_plain a = false := by
        cases xr with
        | nil => cases hx0
        | cons a0 r0 =>
          by_cases ha : (text_punct a0 || text_closer a0) = true
          · rw [twp a0 r0 ha] at hx0
            cases hx0
            refine ⟨r0, rfl, ?_⟩
            unfold text_plain
            simp only [Bool.or_assoc, Bool.not_eq_false', Bool.or_eq_true, decide_eq_true_eq]
            right
            simpa using ha
          · rw [(twn a0 r0 ha).1] at hx0
            cases hx0
      obtain ⟨r2, hxr, hap⟩ := hxa
      have hiw0 : iw = 0 := by
        rw [h2, hxr, List.takeWhile_cons_of_neg (by simp [hap])]
        rfl
      have hse : sentence_end_rev (c :: xr) = sentence_end_rev xr := by
        unfold sentence_end_rev
        rw [htw, hdw, hx0]
        rfl
      rw [hse, ← h1, hiw0]
      by_cases hp : text_punct c = true
      · rw [if_pos hp, if_neg (by omega)]
      · have hcl : text_closer c = true := by
          rcases hor with h | h
          · exact absurd h hp
          · exact h
        rw [if_neg hp, if_pos hcl]
  · -- a plain character
    have hpc0 : (text_punct c || text_closer c) = false := by simpa using hpc
    have hp0 : text_punct c = false := by
      cases h : text_punct c
      · rfl
      · rw [h] at hpc0; cases hpc0
    have hcl0 : text_closer c = false := by
      cases h : text_closer c
      · rfl
      · rw [h, Bool.or_true] at hpc0; cases hpc0
    have hpl : text_plain c = true := by rw [hplain, hpc0]; rfl
    rw [if_neg (by simp [hp0]), if_neg (by simp [hcl0]), if_neg (by simp [hp0, hcl0])]
    constructor
    · unfold sentence_end_rev
      rw [(twn c xr hpc).1]
      rfl
    · rw [List.takeWhile_cons_of_pos hpl, List.countP_cons, h2]
      split <;> rfl

/-- The loop of `print_text` in fill mode over the rest `y` of a chunk, of
which the characters `xr` have been read. -/
theorem print_text_loop_chunk : ∀ (y : List Char) (k : Nat) (f : format) (xr : List Char)
    (ateos : Bool) (iw : Nat) (p2 p1 : Char) (tail : List Char),
    f.nofill = 0 → (∀ c ∈ y, c ≠ ' ') →
    ateos = sentence_end_rev xr → iw = (xr.takeWhile text_plain).countP c_isalnum →
    (∀ a r, xr = a :: r → p1 = a) → (∀ a b r, xr = a :: b :: r → p2 = b) →
    ∃ iw1 q2 q1, print_text_loop (k + y.length) f ateos iw p2 p1 (y ++ tail) =
      print_text_loop k (f.puts (y.flatMap text_escape)) (sentence_end_rev (y.reverse ++ xr))
        iw1 q2 q1 tail
  | [], k, f, xr, ateos, iw, p2, p1, tail, _, _, h1, _, _, _ => by
    refine ⟨iw, p2, p1, ?_⟩
    rw [h1]
    simp [format.puts_nil]
  | c :: y, k, f, xr, ateos, iw, p2, p1, tail, hf, hy, h1, h2, h3, h4 => by
    have hc : c ≠ ' ' := hy c (List.mem_cons_self _ _)
    obtain ⟨e1, e2⟩ := text_state_step xr ateos iw p2 p1 c hc h1 h2 h3 h4
    have hstep := print_text_loop_step (k + y.length) f ateos iw p2 p1 c (y ++ tail) hf hc
    rw [e1, e2] at hstep
    obtain ⟨iw1, q2, q1, ih⟩ := print_text_loop_chunk y k (f.puts (text_escape c)) (c :: xr)
      (sentence_end_rev (c :: xr)) _ p1 c tail hf
      (fun x hx => hy x (List.mem_cons_of_mem _ hx)) rfl rfl
      (fun a r h => by cases h; rfl)
      (fun a b r h => by
        have hr : xr = b :: r := (List.cons.inj h).2
        exact h3 b r hr)
    refine ⟨iw1, q2, q1, ?_⟩
    rw [List.length_cons, ← Nat.add_assoc, List.cons_append, hstep, ih, format.puts_puts]
    simp [List.append_assoc]

/-! ## The chunks of a word and the loop of `print_text` -/

theorem text_chunks_aux_chunk : ∀ (y chunk tail : List Char), (∀ c ∈ y, c ≠ ' ') →
    text_chunks_aux chunk 0 (y ++ tail) = text_chunks_aux (chunk ++ y) 0 tail
  | [], chunk, tail, _ => by simp
  | c :: y, chunk, tail, hy => by
    have hc : c ≠ ' ' := hy c (List.mem_cons_self _ _)
    rw [List.cons_append, text_chunks_aux, if_neg hc, if_pos rfl,
      text_chunks_aux_chunk y (chunk ++ [c]) tail (fun x hx => hy x (List.mem_cons_of_mem _ hx))]
    simp [List.append_assoc]

theorem text_chunks_aux_blanks : ∀ (m : Nat) (chunk : List Char) (n : Nat) (tail : List Char),
    text_chunks_aux chunk n (List.replicate m ' ' ++ tail) = text_chunks_aux chunk (n + m) tail
  | 0, chunk, n, tail => by simp
  | m + 1, chunk, n, tail => by
    rw [List.replicate_succ, List.cons_append, text_chunks_aux, if_pos rfl,
      text_chunks_aux_blanks m chunk (n + 1) tail]
    congr 1
    omega

theorem text_chunks_aux_head : ∀ (r chunk : List Char) (n : Nat), chunk ≠ [] →
    ∃ c m more, text_chunks_aux chunk n r = (c, m) :: more ∧ c.head? = chunk.head?
  | [], chunk, n, _ => ⟨chunk, n, [], rfl, rfl⟩
  | c :: rest, chunk, n, hne => by
    rw [text_chunks_aux]
    split
    · exact text_chunks_aux_head rest chunk (n + 1) hne
    · split
      · obtain ⟨c1, m, more, h1, h2⟩ := text_chunks_aux_head rest (chunk ++ [c]) 0 (by simp)
        refine ⟨c1, m, more, h1, ?_⟩
        rw [h2]
        cases chunk with
        | nil => exact absurd rfl hne
        | cons a r => rfl
      · exact ⟨chunk, n, _, rfl, rfl⟩

/-- The chunks of a word that begins with a chunk `y` and blanks. -/
theorem text_chunks_split (y : List Char) (j : Nat) (t2 : List Char) (hy : ∀ c ∈ y, c ≠ ' ')
    (hd : ∀ d, t2.head? = some d → d ≠ ' ') :
    text_chunks (y ++ List.replicate (j + 1) ' ' ++ t2) =
      (y, j + 1) :: (if t2 = [] then [] else text_chunks t2) ∧
    text_render (if t2 = [] then [] else text_chunks t2) = text_render (text_chunks t2) ∧
    text_break (if t2 = [] then [] else text_chunks t2) =
      (match t2.head? with
        | none => []
        | some d => if d = Char.ofNat 39 ∨ d = '.' then "\n\\&".toList else "\n".toList) := by
  have h1 : text_chunks (y ++ List.replicate (j + 1) ' ' ++ t2) =
      text_chunks_aux y (j + 1) t2 := by
    unfold text_chunks
    rw [List.append_assoc, text_chunks_aux_chunk y [] _ hy, text_chunks_aux_blanks]
    simp
  rw [h1]
  cases t2 with
  | nil => exact ⟨rfl, rfl, rfl⟩
  | cons d r =>
    have hdd : d ≠ ' ' := hd d rfl
    have h2 : text_chunks (d :: r) = text_chunks_aux [d] 0 r := by
      unfold text_chunks
      rw [text_chunks_aux, if_neg hdd, if_pos rfl]
      rfl
    refine ⟨?_, rfl, ?_⟩
    · rw [text_chunks_aux, if_neg hdd, if_neg (by omega), if_neg (by simp), h2]
    · rw [if_neg (by simp), h2]
      obtain ⟨c1, m, more, e1, e2⟩ := text_chunks_aux_head r [d] 0 (by simp)
      rw [e1]
      show (if c1.head? = some (Char.ofNat 39) ∨ c1.head? = some '.' then "\n\\&".toList
        else "\n".toList) = _
      rw [e2]
      simp only [List.head?_cons, Option.some.injEq]

theorem blank_split : ∀ (l : List Char), ∃ j t2, l = List.replicate j ' ' ++ t2 ∧
    (∀ d, t2.head? = some d → d ≠ ' ') ∧ l.dropWhile (fun d => d == ' ') = t2 ∧
    t2.length ≤ l.length
  | [] => by
    refine ⟨0, [], rfl, ?_, rfl, le_refl _⟩
    intro d h
    cases h
  | c :: rest => by
    by_cases hc : c = ' '
    · obtain ⟨j, t2, h1, h2, h3, h4⟩ := blank_split rest
      refine ⟨j + 1, t2, ?_, h2, ?_, ?_⟩
      · rw [hc, List.replicate_succ, List.cons_append, ← h1]
      · rw [hc]
        simp only [List.dropWhile, beq_self_eq_true]
        exact h3
      · simp only [List.length_cons]
        omega
    · refine ⟨0, c :: rest, rfl, ?_, ?_, le_refl _⟩
      · intro d hd
        cases hd
        exact hc
      · have : (c == ' ') = false := by simpa using hc
        simp only [List.dropWhile, this]

theorem chunk_split : ∀ (word : List Char), ∃ y tail, word = y ++ tail ∧ (∀ c ∈ y, c ≠ ' ') ∧
    (tail = [] ∨ ∃ t1, tail = ' ' :: t1)
  | [] => by
    refine ⟨[], [], rfl, ?_, Or.inl rfl⟩
    intro c h
    cases h
  | c :: rest => by
    by_cases hc : c = ' '
    · refine ⟨[], c :: rest, rfl, ?_, Or.inr ⟨rest, by rw [hc]⟩⟩
      intro c h
      cases h
    · obtain ⟨y, tail, h1, h2, h3⟩ := chunk_split rest
      refine ⟨c :: y, tail, by rw [h1]; rfl, ?_, h3⟩
      intro x hx
      rcases List.mem_cons.1 hx with h | h
      · rw [h]; exact hc
      · exact h2 x h

/-- The loop of `print_text` in fill mode over blanks that do not follow
the end of a sentence. -/
theorem print_text_loop_blanks : ∀ (m k : Nat) (f : format) (iw : Nat) (p2 p1 : Char)
    (tail : List Char), f.nofill = 0 →
    ∃ q2 q1, print_text_loop (k + (m + 1)) f false iw p2 p1 (List.replicate (m + 1) ' ' ++ tail) =
      print_text_loop k (f.puts (List.replicate (m + 1) ' ')) false 0 q2 q1 tail
  | 0, k, f, iw, p2, p1, tail, hf => ⟨p1, ' ', print_text_loop_blank k f iw p2 p1 tail hf⟩
  | m + 1, k, f, iw, p2, p1, tail, hf => by
    obtain ⟨q2, q1, ih⟩ := print_text_loop_blanks m k (f.puts [' ']) 0 p1 ' ' tail hf
    refine ⟨q2, q1, ?_⟩
    rw [List.replicate_succ, List.cons_append, ← Nat.add_assoc,
      print_text_loop_blank _ f iw p2 p1 _ hf, ih, format.puts_puts]
    rfl

theorem print_text_loop_nil (k : Nat) (f : format) (ateos : Bool) (iw : Nat) (p2 p1 : Char) :
    print_text_loop (k + 1) f ateos iw p2 p1 [] = .ok f := by
  rw [print_text_loop]

/-- The loop of `print_text` in fill mode writes the chunks of the word. -/
theorem print_text_loop_fill (n : Nat) : ∀ (word : List Char), word.length ≤ n →
    ∀ (k : Nat) (f : format) (p2 p1 : Char), word.length < k → f.nofill = 0 →
    print_text_loop k f false 0 p2 p1 word =
      .ok (f.puts (text_render (text_chunks word))) := by
  induction n using Nat.strong_induction_on with
  | _ n ih =>
    intro word hn k f p2 p1 hk hf
    obtain ⟨y, tail, rfl, hy, htail⟩ := chunk_split word
    obtain ⟨k0, rfl⟩ : ∃ k0, k = k0 + y.length := ⟨k - y.length, by
      simp only [List.length_append] at hk
      omega⟩
    have hk0 : tail.length < k0 := by
      simp only [List.length_append] at hk
      omega
    obtain ⟨iw1, q2, q1, hch⟩ := print_text_loop_chunk y k0 f [] false 0 p2 p1 tail hf hy
      rfl rfl (fun a r h => by cases h) (fun a b r h => by cases h)
    rw [List.append_nil] at hch
    have hse : sentence_end_rev y.reverse = sentence_end y := rfl
    rw [hse] at hch
    rw [hch]
    rcases htail with rfl | ⟨t1, rfl⟩
    · obtain ⟨k1, rfl⟩ : ∃ k1, k0 = k1 + 1 := ⟨k0 - 1, by
        simp only [List.length_nil] at hk0
        omega⟩
      rw [print_text_loop_nil]
      have hc : text_chunks (y ++ []) = [(y, 0)] := by
        unfold text_chunks
        rw [text_chunks_aux_chunk y [] [] hy]
        rfl
      rw [hc]
      simp [text_render]
    · obtain ⟨j, t2, rfl, hd, hdw, hlen⟩ := blank_split t1
      have hword : y ++ ' ' :: (List.replicate j ' ' ++ t2) =
          y ++ List.replicate (j + 1) ' ' ++ t2 := by
        simp [List.replicate_succ]
      obtain ⟨c1, c2, c3⟩ := text_chunks_split y j t2 hy hd
      rw [hword, c1]
      have hlen2 : t2.length ≤ n - 1 ∧ 0 < n := by
        simp only [List.length_append, List.length_cons, List.length_replicate] at hn
        omega
      have hk2 : j + 1 + t2.length < k0 := by
        simp only [List.length_append, List.length_cons, List.length_replicate] at hk0
        omega
      cases hs : sentence_end y
      · -- the blanks are written
        obtain ⟨k1, rfl⟩ : ∃ k1, k0 = k1 + (j + 1) := ⟨k0 - (j + 1), by omega⟩
        obtain ⟨r2, r1, hb⟩ := print_text_loop_blanks j k1 (f.puts (y.flatMap text_escape)) iw1
          q2 q1 t2 hf
        have e : ' ' :: (List.replicate j ' ' ++ t2) = List.replicate (j + 1) ' ' ++ t2 := by
          simp [List.replicate_succ]
        rw [e, hb, ih (n - 1) (by omega) t2 hlen2.1 k1
          ((f.puts (y.flatMap text_escape)).puts (List.replicate (j + 1) ' ')) r2 r1
          (by omega) hf, format.puts_puts, format.puts_puts]
        simp [text_render, hs, c2, List.append_assoc]
      · -- the blanks are replaced
        obtain ⟨k1, rfl⟩ : ∃ k1, k0 = k1 + 1 := ⟨k0 - 1, by omega⟩
        obtain ⟨r2, hb⟩ := print_text_loop_break k1 (f.puts (y.flatMap text_escape)) iw1 q2 q1
          (List.replicate j ' ' ++ t2) hf
        rw [hb, hdw]
        have hbr : (match t2.head? with
            | none => f.puts (y.flatMap text_escape)
            | some d => if d = Char.ofNat 39 ∨ d = '.' then
                (f.puts (y.flatMap text_escape)).puts "\n\\&".toList
              else (f.puts (y.flatMap text_escape)).putc '\n') =
            (f.puts (y.flatMap text_escape)).puts
              (text_break (if t2 = [] then [] else text_chunks t2)) := by
          rw [c3]
          cases t2.head? with
          | none => exact (format.puts_nil _).symm
          | some d =>
            dsimp only
            split <;> rfl
        rw [hbr, ih (n - 1) (by omega) t2 hlen2.1 k1
          ((f.puts (y.flatMap text_escape)).puts
            (text_break (if t2 = [] then [] else text_chunks t2))) r2 ' ' (by omega) hf,
          format.puts_puts, format.puts_puts]
        simp [text_render, hs, c2, List.append_assoc]

/-! ## Sentences in the text of a line -/

/-- The loop of `print_text` in no-fill mode writes the word as it is,
but for the backslashes. -/
theorem print_text_loop_nofill : ∀ (word : List Char) (k : Nat) (f : format) (ateos : Bool)
    (iw : Nat) (p2 p1 : Char), word.length < k → f.nofill ≠ 0 →
    print_text_loop k f ateos iw p2 p1 word = .ok (f.puts (word.flatMap text_escape))
  | _, 0, _, _, _, _, _, hk, _ => by omega
  | [], k + 1, f, ateos, iw, p2, p1, _, _ => by
    rw [print_text_loop]
    simp [format.puts_nil]
  | c :: rest, k + 1, f, ateos, iw, p2, p1, hk, hf => by
    rw [print_text_loop]
    simp only [hf, if_false, text_put_eq]
    have hf1 : (f.puts (text_escape c)).nofill ≠ 0 := hf
    rw [print_text_loop_nofill rest k _ ateos iw p1 c
      (by simp only [List.length_cons] at hk; omega) hf1, format.puts_puts]
    rfl

/-- A chunk that ends with a run of plain characters, one of `.`, `?` and
`!`, and closing characters ends a sentence exactly when the plain
characters hold two alphanumeric characters and do not end with `nc` or
`vs`. -/
theorem sentence_end_shape (a b cl : List Char) (p : Char)
    (ha : ∀ x, a.getLast? = some x → text_plain x = false)
    (hb : ∀ x ∈ b, text_plain x = true) (hne : b ≠ []) (hp : text_punct p = true)
    (hcl : ∀ x ∈ cl, (text_punct x || text_closer x) = true) :
    sentence_end (a ++ b ++ [p] ++ cl) =
      (decide (2 ≤ b.countP c_isalnum) && !(b.reverse.take 2 == ['c', 'n']) &&
        !(b.reverse.take 2 == ['s', 'v'])) := by
  have hrev : (a ++ b ++ [p] ++ cl).reverse = (cl.reverse ++ [p]) ++ (b.reverse ++ a.reverse) := by
    simp [List.append_assoc]
  have hpc : ∀ x ∈ cl.reverse ++ [p], (text_punct x || text_closer x) = true := by
    intro x hx
    rcases List.mem_append.1 hx with h | h
    · exact hcl x (List.mem_reverse.1 h)
    · rw [List.mem_singleton.1 h, hp]
      rfl
  obtain ⟨b0, br, hbr⟩ : ∃ b0 br, b.reverse = b0 :: br := by
    cases h : b.reverse with
    | nil => exact absurd (List.reverse_eq_nil_iff.1 h) hne
    | cons b0 br => exact ⟨b0, br, rfl⟩
  have hb0 : text_plain b0 = true := hb b0 (List.mem_reverse.1 (by rw [hbr]; exact List.mem_cons_self _ _))
  have hb0n : ¬ (text_punct b0 || text_closer b0) = true := by
    have := (text_plain_iff b0).1 hb0
    simp [this.2.1, this.2.2]
  have htw : ((a ++ b ++ [p] ++ cl).reverse).takeWhile (fun c => text_punct c || text_closer c) =
      cl.reverse ++ [p] := by
    rw [hrev, List.takeWhile_append_of_pos hpc, hbr, List.cons_append,
      @List.takeWhile_cons_of_neg _ (fun c => text_punct c || text_closer c) b0 _ hb0n,
      List.append_nil]
  have hdw : ((a ++ b ++ [p] ++ cl).reverse).dropWhile (fun c => text_punct c || text_closer c) =
      b.reverse ++ a.reverse := by
    rw [hrev, List.dropWhile_append_of_pos hpc, hbr, List.cons_append,
      @List.dropWhile_cons_of_neg _ (fun c => text_punct c || text_closer c) b0 _ hb0n]
  have hplain : (b.reverse ++ a.reverse).takeWhile text_plain = b.reverse := by
    rw [List.takeWhile_append_of_pos (fun x hx => hb x (List.mem_reverse.1 hx))]
    cases har : a.reverse with
    | nil => simp
    | cons a0 ar =>
      have : text_plain a0 = false := by
        apply ha
        rw [← List.head?_reverse, har]
        rfl
      rw [List.takeWhile_cons_of_neg (by simp [this]), List.append_nil]
  unfold sentence_end sentence_end_rev
  rw [htw, hdw, hplain]
  have hlast : (cl.reverse ++ [p]).getLast?.any text_punct = true := by
    rw [List.getLast?_append]
    simp [hp]
  rw [hlast, List.countP_reverse]
  by_cases h2 : 2 ≤ b.countP c_isalnum
  · have hlen : 2 ≤ b.reverse.length := by
      rw [List.length_reverse]
      exact le_trans h2 (List.countP_le_length _)
    have htake : (b.reverse ++ a.reverse).take 2 = b.reverse.take 2 := by
      rw [List.take_append_of_le_length hlen]
    rw [htake]
    have : decide (1 < b.countP c_isalnum) = decide (2 ≤ b.countP c_isalnum) := by
      simp only [decide_eq_decide]
      omega
    rw [this]
    simp
  · have h1 : decide (1 < b.countP c_isalnum) = false := by
      simp only [decide_eq_false_iff_not]
      omega
    have h3 : decide (2 ≤ b.countP c_isalnum) = false := by
      simp only [decide_eq_false_iff_not]
      exact h2
    rw [h1, h3]
    simp

theorem para_check_frame (f : format) :
    (para_check f).level = f.level ∧ (para_check f).nofill = f.nofill ∧
    ∃ w, (para_check f).out = f.out ++ w := by
  refine ⟨?_, ?_, para_check_out f⟩
  · unfold para_check
    split
    · rfl
    · dsimp only
      split <;> rfl
  · unfold para_check
    split
    · rfl
    · dsimp only
      split <;> rfl

theorem macro_close_frame (f : format) :
    (macro_close f).level = f.level ∧ (macro_close f).nofill = f.nofill ∧
    ∃ w, (macro_close f).out = f.out ++ w := by
  unfold macro_close
  dsimp only
  split
  · exact ⟨rfl, rfl, ['\n'], rfl⟩
  · exact ⟨rfl, rfl, [], (List.append_nil _).symm⟩

/-- The function `print_text` is its loop, run on a state that differs from
the given one in the state of the line and in what has been written before
the word. -/
theorem print_text_frame (f : format) (word : cstring) (flags : aflags) :
    ∃ f3 pre, f3.level = f.level ∧ f3.nofill = f.nofill ∧ f3.out = f.out ++ pre ∧
      print_text f word flags =
        (print_text_loop (word.length + 1) f3 false 0 NUL NUL word).map
          (fun g => { g with linestate := LINE_TEXT, parastate := PARA_MID, flags := FMT_NONE }) := by
  obtain ⟨a1, a2, w1, a3⟩ := para_check_frame f
  unfold print_text
  dsimp only
  generalize para_check f = f1 at a1 a2 a3
  obtain ⟨lv, nf, fl, ls, ps, out⟩ := f1
  dsimp only at a1 a2 a3
  subst a1 a2 a3
  cases ls
  · -- a new line
    dsimp only
    by_cases hc : word.head? = some '.' ∨ word.head? = some (Char.ofNat 39)
    · rw [if_pos ⟨rfl, hc⟩]
      refine ⟨_, w1 ++ "\\&".toList, ?_, ?_, ?_, rfl⟩
      · rfl
      · rfl
      · simp [format.puts]
    · rw [if_neg (fun h => hc h.2)]
      refine ⟨_, w1, ?_, ?_, ?_, rfl⟩ <;> rfl
  · -- a text line
    dsimp only
    cases flags.space
    · rw [if_neg (by simp)]
      refine ⟨_, w1, ?_, ?_, ?_, rfl⟩ <;> rfl
    · rw [if_neg (by simp [format.putc])]
      refine ⟨_, w1 ++ [' '], ?_, ?_, ?_, rfl⟩
      · rfl
      · rfl
      · simp [format.putc]
  · -- a macro line
    dsimp only
    by_cases hc : word.head? = some '.' ∨ word.head? = some (Char.ofNat 39)
    · rw [if_pos ⟨rfl, hc⟩]
      refine ⟨_, w1 ++ "\n\\&".toList, ?_, ?_, ?_, rfl⟩
      · rfl
      · rfl
      · simp [format.puts, format.putc, macro_close]
    · rw [if_neg (fun h => hc h.2)]
      refine ⟨_, w1 ++ "\n".toList, ?_, ?_, ?_, rfl⟩
      · rfl
      · rfl
      · simp [format.putc, macro_close]

/-- The claim of C28 fails as it is stated: in fill mode the blank of `a-b. c`
is replaced by a newline although only one alphanumeric character stands
directly before the dot, and so is the blank of `ab.! c` although none
stands directly before the exclamation mark; the blanks at the end of `ab. `
are not written at all; and before a dot the newline is followed by `\&`. -/
theorem print_text_sentence_counterexample :
    (print_text ⟨0, 0, FMT_NONE, LINE_NEW, PARA_MID, []⟩ "a-b. c".toList ARG_NONE).map
      format.out = .ok "a-b.\nc".toList ∧
    (print_text ⟨0, 0, FMT_NONE, LINE_NEW, PARA_MID, []⟩ "ab.! c".toList ARG_NONE).map
      format.out = .ok "ab.!\nc".toList ∧
    (print_text ⟨0, 0, FMT_NONE, LINE_NEW, PARA_MID, []⟩ "ab.  ".toList ARG_NONE).map
      format.out = .ok "ab.".toList ∧
    (print_text ⟨0, 0, FMT_NONE, LINE_NEW, PARA_MID, []⟩ "ab. .c".toList ARG_NONE).map
      format.out = .ok "ab.\n\\&.c".toList := by
  decide

/-- C28, amended: in fill mode `print_text` writes the chunks without blanks
of the word one after the other, each backslash as `\e`.  The blanks behind a
chunk are replaced exactly when the chunk ends a sentence: by a newline when
another chunk follows, with `\&` behind it when that chunk begins with a dot
or an apostrophe, and by nothing at the end of the word; all other blanks
are written as they are.  A chunk ends a sentence when it ends with a run of
the characters `.`, `?`, `!`, `"`, `'`, `)` and `]` that begins with one of
the first three, and the run of other characters before it holds at least
two alphanumeric characters, which need not be adjacent, and does not end
with `nc` or `vs`.  In no-fill mode the word is written as it is but for the
backslashes, so that no newline is inserted. -/
theorem print_text_sentences (f : format) (word : cstring) (flags : aflags) (k : Nat)
    (p2 p1 : Char) (hk : word.length < k) :
    (f.nofill = 0 →
      print_text_loop k f false 0 p2 p1 word = .ok (f.puts (text_render (text_chunks word)))) ∧
    (f.nofill ≠ 0 →
      print_text_loop k f false 0 p2 p1 word = .ok (f.puts (word.flatMap text_escape))) ∧
    (∃ pre, print_text f word flags = .ok ⟨f.level, f.nofill, FMT_NONE, LINE_TEXT, PARA_MID,
      f.out ++ pre ++ (if f.nofill = 0 then text_render (text_chunks word)
        else word.flatMap text_escape)⟩) ∧
    (∀ (chunk : List Char) (n : Nat) (more : List (List Char × Nat)),
      text_render ((chunk, n) :: more) = chunk.flatMap text_escape ++
        (if n = 0 then [] else if sentence_end chunk then text_break more
          else List.replicate n ' ') ++ text_render more) ∧
    (∀ (a b cl : List Char) (p : Char), (∀ x, a.getLast? = some x → text_plain x = false) →
      (∀ x ∈ b, text_plain x = true) → b ≠ [] → text_punct p = true →
      (∀ x ∈ cl, (text_punct x || text_closer x) = true) →
      sentence_end (a ++ b ++ [p] ++ cl) =
        (decide (2 ≤ b.countP c_isalnum) && !(b.reverse.take 2 == ['c', 'n']) &&
          !(b.reverse.take 2 == ['s', 'v']))) ∧
    (∀ c, c ≠ '\n' → '\n' ∉ text_escape c) := by
  refine ⟨fun hf => print_text_loop_fill word.length word (le_refl _) k f p2 p1 hk hf,
    fun hf => print_text_loop_nofill word k f false 0 p2 p1 hk hf, ?_,
    fun chunk n more => rfl, sentence_end_shape, ?_⟩
  · obtain ⟨f3, pre, h1, h2, h3, h4⟩ := print_text_frame f word flags
    refine ⟨pre, ?_⟩
    rw [h4]
    by_cases hf : f.nofill = 0
    · rw [print_text_loop_fill word.length word (le_refl _) _ f3 NUL NUL (Nat.lt_succ_self _)
        (h2.trans hf), if_pos hf]
      simp [Except.map, format.puts, h1, h2, h3]
    · rw [print_text_loop_nofill word _ f3 false 0 NUL NUL (Nat.lt_succ_self _)
        (by rw [h2]; exact hf), if_neg hf]
      simp [Except.map, format.puts, h1, h2, h3]
  · intro c hc
    unfold text_escape
    split
    · decide
    · intro h
      exact hc (List.mem_singleton.1 h).symm

theorem print_text_sentences_witness :
    print_text_loop 6 ⟨0, 0, FMT_NONE, LINE_TEXT, PARA_MID, []⟩ false 0 NUL NUL "ab. c".toList =
      .ok ⟨0, 0, FMT_NONE, LINE_TEXT, PARA_MID, "ab.\nc".toList⟩ ∧
    text_chunks "ab. c".toList = [("ab.".toList, 1), ("c".toList, 0)] ∧
    sentence_end "ab.".toList = true := by
  refine ⟨?_, by decide, by decide⟩
  rw [(print_text_sentences ⟨0, 0, FMT_NONE, LINE_TEXT, PARA_MID, []⟩ "ab. c".toList ARG_NONE 6
    NUL NUL (by decide)).1 rfl]
  decide

/-! ## Text at the begin of a line -/

theorem pnode_printtext_escape_new (f : format) (ctx : pctx) (n : pnode) (s : cstring)
    (hn : n.node = NODE_ESCAPE) (hb : n.b = some s) (hl : f.linestate = LINE_NEW)
    (hp : f.parastate ≠ PARA_WANT) (hnext : ∀ nn, ctx.next = some nn → nn.flags.spc = true) :
    pnode_printtext f ctx n = .ok ({ f.puts s with linestate := LINE_TEXT }, n, ctx.next) := by
  have hpc : para_check f = f := by
    unfold para_check
    rw [if_pos hp]
  have hpf : pnode_printtext_pf f ctx f.flags.arg = .ok (f, ctx.next, f.flags.arg) := by
    unfold pnode_printtext_pf
    rw [if_pos (Or.inr (by rw [hl]; decide))]
    cases hnx : ctx.next with
    | none => rfl
    | some nn =>
      dsimp only
      rw [if_pos (hnext nn hnx)]
  have hsep : pnode_printtext_sep f ctx n f.flags.arg = .ok f := by
    unfold pnode_printtext_sep
    rw [hl]
  unfold pnode_printtext
  rw [hb]
  dsimp only
  rw [hpc, if_neg (by rw [hl]; simp)]
  dsimp only
  rw [if_neg (by rw [hl]; simp)]
  simp only [hpf, hsep, hn, bind, Except.bind, if_true, pure, Except.pure]
  simp [format.puts, hl]

/-- The function `print_text` on a new line, when no paragraph break is
wanted. -/
theorem print_text_new (f : format) (word : cstring) (flags : aflags)
    (hl : f.linestate = LINE_NEW) (hp : f.parastate ≠ PARA_WANT) :
    print_text f word flags = .ok ⟨f.level, f.nofill, FMT_NONE, LINE_TEXT, PARA_MID,
      f.out ++ (if word.head? = some '.' ∨ word.head? = some (Char.ofNat 39) then "\\&".toList
        else []) ++ (if f.nofill = 0 then text_render (text_chunks word)
        else word.flatMap text_escape)⟩ := by
  have hpc : para_check f = f := by
    unfold para_check
    rw [if_pos hp]
  have hloop : ∀ g : format, g.nofill = f.nofill →
      print_text_loop (word.length + 1) g false 0 NUL NUL word =
        .ok (g.puts (if f.nofill = 0 then text_render (text_chunks word)
          else word.flatMap text_escape)) := by
    intro g hg
    by_cases hf : f.nofill = 0
    · rw [if_pos hf]
      exact print_text_loop_fill word.length word (le_refl _) _ g NUL NUL (Nat.lt_succ_self _)
        (hg.trans hf)
    · rw [if_neg hf]
      exact print_text_loop_nofill word _ g false 0 NUL NUL (Nat.lt_succ_self _)
        (by rw [hg]; exact hf)
  unfold print_text
  dsimp only
  rw [hpc, hl]
  dsimp only
  by_cases hc : word.head? = some '.' ∨ word.head? = some (Char.ofNat 39)
  · rw [if_pos ⟨hl, hc⟩, if_pos hc, hloop (f.puts "\\&".toList) rfl]
    simp [Except.map, format.puts, List.append_assoc]
  · rw [if_neg (fun h => hc h.2), if_neg hc, hloop f rfl]
    simp [Except.map, format.puts, List.append_assoc]

set_option maxRecDepth 1000000 in
theorem main_apos_eval : ∀ a b c d : Bool,
    main_mdoc 0 [] ⟨a, b, c, d⟩ false none "<refentry><para>&apos;x y</para></refentry>".toList =
      .ok (".Dd $Mdocdate$\n.Dt UNKNOWN 1\n.Os\n'x y\n".toList, 0) ∧
    main_mdoc 0 [] ⟨a, b, c, d⟩ false none "<refentry><para>'x y</para></refentry>".toList =
      .ok (".Dd $Mdocdate$\n.Dt UNKNOWN 1\n.Os\n\\&'x y\n".toList, 0) := by
  decide!

/-- C27 fails for the text of an ESCAPE node: on a new line, when no
paragraph break is wanted and no macro follows without white space,
`pnode_printtext` writes the string of an ESCAPE node as it is, without `\&`,
also when it begins with a dot or an apostrophe, whereas `print_text` writes
`\&` before a word that begins with one of the two.  For the input
`<refentry><para>&apos;x y</para></refentry>` the program writes the text line
`'x y`, and for the same text with a plain apostrophe the line `\&'x y`. -/
theorem pnode_printtext_escape (f : format) (ctx : pctx) (n : pnode) (s : cstring)
    (hn : n.node = NODE_ESCAPE) (hb : n.b = some s) (hl : f.linestate = LINE_NEW)
    (hp : f.parastate ≠ PARA_WANT) (hnext : ∀ nn, ctx.next = some nn → nn.flags.spc = true) :
    pnode_printtext f ctx n = .ok ({ f.puts s with linestate := LINE_TEXT }, n, ctx.next) ∧
    (∀ word flags, print_text f word flags = .ok ⟨f.level, f.nofill, FMT_NONE, LINE_TEXT,
      PARA_MID, f.out ++ (if word.head? = some '.' ∨ word.head? = some (Char.ofNat 39) then
          "\\&".toList else []) ++
        (if f.nofill = 0 then text_render (text_chunks word) else word.flatMap text_escape)⟩) ∧
    (∀ flags, main_mdoc 0 [] flags false none
        "<refentry><para>&apos;x y</para></refentry>".toList =
        .ok (".Dd $Mdocdate$\n.Dt UNKNOWN 1\n.Os\n'x y\n".toList, 0) ∧
      main_mdoc 0 [] flags false none "<refentry><para>'x y</para></refentry>".toList =
        .ok (".Dd $Mdocdate$\n.Dt UNKNOWN 1\n.Os\n\\&'x y\n".toList, 0)) := by
  refine ⟨pnode_printtext_escape_new f ctx n s hn hb hl hp hnext,
    fun word flags => print_text_new f word flags hl hp, ?_⟩
  intro flags
  obtain ⟨a, b, c, d⟩ := flags
  exact main_apos_eval a b c d

theorem pnode_printtext_escape_witness :
    (pnode_printtext ⟨0, 0, FMT_NONE, LINE_NEW, PARA_HAVE, ".Os\n".toList⟩ pctx.top
      (pnode.mk 5 NODE_ESCAPE (some [Char.ofNat 39]) none ⟨false, false⟩ [] [])).map
        (fun r => r.1.out) = .ok ".Os\n'".toList ∧
    (print_text ⟨0, 0, FMT_NONE, LINE_NEW, PARA_HAVE, ".Os\n".toList⟩ [Char.ofNat 39]
      ARG_NONE).map format.out = .ok ".Os\n\\&'".toList := by
  have h := pnode_printtext_escape ⟨0, 0, FMT_NONE, LINE_NEW, PARA_HAVE, ".Os\n".toList⟩ pctx.top
    (pnode.mk 5 NODE_ESCAPE (some [Char.ofNat 39]) none ⟨false, false⟩ [] []) [Char.ofNat 39]
    rfl rfl rfl (by decide) (fun nn hnn => by cases hnn)
  constructor
  · rw [h.1]
    rfl
  · rw [h.2.1]
    decide

/-! ## Paragraph breaks -/

set_option maxRecDepth 1000000 in
theorem main_imagedata_eval : ∀ a b c d : Bool,
    main_mdoc 0 [] ⟨a, b, c, d⟩ false none
      "<refentry><para><imagedata fileref=\"x\n.Sh y\"/></para><para>z</para></refentry>".toList =
      .ok (".Dd $Mdocdate$\n.Dt UNKNOWN 1\n.Os\n[image: x\n.Sh y]\n.Pp\nz\n".toList, 0) := by
  decide!

/-- C30 fails for a text line that begins with `.Sh`: the function
`para_check` writes `.Pp` only in the paragraph state WANT, on a line of its
own, and leaves the state HAVE, and in every other state it changes
nothing; but `print_text` writes a newline of an attribute value as it is,
so that for an `imagedata` element with the attribute value `x`, newline,
`.Sh y` inside a paragraph that another paragraph follows, the program
writes the lines `[image: x`, `.Sh y]`, `.Pp` and `z`: the line `.Pp`
directly follows a line that starts with `.Sh`. -/
theorem para_check_pp (f : format) :
    (f.parastate ≠ PARA_WANT → para_check f = f) ∧
    (f.parastate = PARA_WANT →
      (para_check f).parastate = PARA_HAVE ∧ (para_check f).linestate = LINE_NEW ∧
      (para_check f).out =
        f.out ++ (if f.linestate ≠ LINE_NEW then "\n".toList else []) ++ ".Pp\n".toList ∧
      (para_check f).level = f.level ∧ (para_check f).nofill = f.nofill ∧
      (para_check f).flags = f.flags) ∧
    (∀ flags, main_mdoc 0 [] flags false none
      "<refentry><para><imagedata fileref=\"x\n.Sh y\"/></para><para>z</para></refentry>".toList =
      .ok (".Dd $Mdocdate$\n.Dt UNKNOWN 1\n.Os\n[image: x\n.Sh y]\n.Pp\nz\n".toList, 0)) ∧
    out_lines ".Dd $Mdocdate$\n.Dt UNKNOWN 1\n.Os\n[image: x\n.Sh y]\n.Pp\nz\n".toList =
      [".Dd $Mdocdate$".toList, ".Dt UNKNOWN 1".toList, ".Os".toList, "[image: x".toList,
        ".Sh y]".toList, ".Pp".toList, "z".toList, []] ∧
    pp_misplaced (out_lines
      ".Dd $Mdocdate$\n.Dt UNKNOWN 1\n.Os\n[image: x\n.Sh y]\n.Pp\nz\n".toList) = true := by
  refine ⟨?_, ?_, ?_, by decide, by decide⟩
  · intro h
    unfold para_check
    rw [if_pos h]
  · intro h
    obtain ⟨level, nofill, flags, ls, ps, out⟩ := f
    dsimp only at h
    subst h
    cases ls <;> simp [para_check, format.puts, format.putc]
  · intro flags
    obtain ⟨a, b, c, d⟩ := flags
    exact main_imagedata_eval a b c d

/-! ## White space between tokens -/

/-- One turn of the token loop at a white-space byte: the byte is passed,
the pending SPC flag is set, and the pending LINE flag when the byte is a
newline; nothing else changes in the parser but the position. -/
theorem parse_string_step_blank (r : nested) (s : scan) (rlen : Nat) (refill : Bool) (c : Char)
    (hne : s.pend ≠ rlen) (hc : s.b.get? s.pend = some (some c)) (hsp : c_isspace c = true) :
    ∃ s1, parse_string_step r s rlen refill = .ok (s1, none) ∧ s1.b = s.b ∧
      s1.pstate = s.pstate ∧ s1.pend = s.pend + 1 ∧
      s1.p = { s.p with
        flags := { s.p.flags with spc := true, line := s.p.flags.line || decide (c = '\n') }
        line := s1.p.line, col := s1.p.col, nline := s1.p.nline, ncol := s1.p.ncol } := by
  have hget := buf_get_of_get _ _ _ hc
  unfold parse_string_step
  cases refill with
  | false =>
    simp only [Bool.false_eq_true, if_false, hne, bind, Except.bind, pure, Except.pure, hget,
      hsp, if_true, increment]
    by_cases hnl : c = '\n'
    · simp only [hnl, if_true]
      refine ⟨_, rfl, rfl, rfl, rfl, ?_⟩
      simp
    · simp only [hnl, if_false]
      refine ⟨_, rfl, rfl, rfl, rfl, ?_⟩
      simp
  | true =>
    simp only [if_true, hne, if_false, bind, Except.bind, pure, Except.pure, hget,
      hsp, increment]
    by_cases hnl : c = '\n'
    · simp only [hnl, if_true, hget]
      refine ⟨_, rfl, rfl, rfl, rfl, ?_⟩
      simp
    · simp only [hnl, if_false, hget]
      refine ⟨_, rfl, rfl, rfl, rfl, ?_⟩
      simp

theorem buf_run_cons (b : List (Option Char)) (i : Nat) (c : Char) (ws : List Char)
    (h : (b.drop i).take (ws.length + 1) = (c :: ws).map some) :
    b.get? i = some (some c) ∧ (b.drop (i + 1)).take ws.length = ws.map some := by
  cases hd : b.drop i with
  | nil =>
    rw [hd] at h
    cases h
  | cons x xs =>
    rw [hd] at h
    simp only [List.take_succ_cons, List.map_cons, List.cons.injEq] at h
    constructor
    · have e : b.get? i = (b.drop i).head? := by
        rw [List.head?_drop, List.get?_eq_getElem?]
      rw [e, hd, ← h.1]
      rfl
    · have e : b.drop (i + 1) = (b.drop i).drop 1 := by
        rw [List.drop_drop, Nat.add_comm]
      rw [e, hd]
      exact h.2

/-- The token loop over a run of white-space bytes: the run is passed, the
pending SPC flag is set when the run is not empty, and the pending LINE flag
when it holds a newline; nothing else changes in the parser but the
position. -/
theorem parse_string_loop_blanks (r : nested) (rlen : Nat) (refill : Bool) (k : Nat) :
    ∀ (ws : List Char) (s : scan), (∀ c ∈ ws, c_isspace c = true) →
    (s.b.drop s.pend).take ws.length = ws.map some → s.pend + ws.length ≤ rlen →
    ∃ s1, parse_string_loop r (k + ws.length) s rlen refill =
        parse_string_loop r k s1 rlen refill ∧
      s1.b = s.b ∧ s1.pstate = s.pstate ∧ s1.pend = s.pend + ws.length ∧
      s1.p = { s.p with
        flags := { s.p.flags with
          spc := s.p.flags.spc || (!ws.isEmpty), line := s.p.flags.line || ws.contains '\n' }
        line := s1.p.line, col := s1.p.col, nline := s1.p.nline, ncol := s1.p.ncol }
  | [], s, _, _, _ => by
    refine ⟨s, rfl, rfl, rfl, rfl, ?_⟩
    simp
  | c :: ws, s, hws, hbuf, hlen => by
    obtain ⟨hc, hrest⟩ := buf_run_cons s.b s.pend c ws hbuf
    have hsp : c_isspace c = true := hws c (List.mem_cons_self _ _)
    have hne : s.pend ≠ rlen := by
      simp only [List.length_cons] at hlen
      omega
    obtain ⟨s1, h1, e1, e2, e3, e4⟩ := parse_string_step_blank r s rlen refill c hne hc hsp
    obtain ⟨s2, h2, f1, f2, f3, f4⟩ := parse_string_loop_blanks r rlen refill k ws s1
      (fun x hx => hws x (List.mem_cons_of_mem _ hx)) (by rw [e1, e3]; exact hrest)
      (by simp only [List.length_cons] at hlen; omega)
    refine ⟨s2, ?_, f1.trans e1, f2.trans e2, ?_, ?_⟩
    · rw [List.length_cons, ← Nat.add_assoc, parse_string_loop, h1]
      exact h2
    · rw [f3, e3, List.length_cons]
      omega
    · rw [f4, e4]
      by_cases hnl : c = '\n'
      · simp [hnl]
      · have hnl2 : ¬ '\n' = c := fun h => hnl h.symm
        simp [hnl, hnl2, List.contains_cons, Bool.or_assoc]

set_option maxRecDepth 1000000 in
/-- The claim of C22 fails as it is stated: the three inputs differ only in the
white space between the closing tag and the opening tag in a paragraph, and
the program writes `ab` for the first, `a b` for the second and the two
lines `a` and `b` for the third. -/
theorem main_whitespace_counterexample :
    main_mdoc 0 [] FMT_NONE false none
      "<refentry><para><link>a</link><link>b</link></para></refentry>".toList =
      .ok (".Dd $Mdocdate$\n.Dt UNKNOWN 1\n.Os\nab\n".toList, 0) ∧
    main_mdoc 0 [] FMT_NONE false none
      "<refentry><para><link>a</link> <link>b</link></para></refentry>".toList =
      .ok (".Dd $Mdocdate$\n.Dt UNKNOWN 1\n.Os\na b\n".toList, 0) ∧
    main_mdoc 0 [] FMT_NONE false none
      "<refentry><para><link>a</link>\n<link>b</link></para></refentry>".toList =
      .ok (".Dd $Mdocdate$\n.Dt UNKNOWN 1\n.Os\na\nb\n".toList, 0) := by
  decide!

set_option maxRecDepth 1000000 in
theorem main_whitespace_eval : ∀ a b c d : Bool,
    main_mdoc 0 [] ⟨a, b, c, d⟩ false none
      "<refentry><para><link>a</link> <link>b</link></para></refentry>".toList =
      .ok (".Dd $Mdocdate$\n.Dt UNKNOWN 1\n.Os\na b\n".toList, 0) ∧
    main_mdoc 0 [] ⟨a, b, c, d⟩ false none
      "<refentry><para><link>a</link>\t  <link>b</link></para></refentry>".toList =
      .ok (".Dd $Mdocdate$\n.Dt UNKNOWN 1\n.Os\na b\n".toList, 0) := by
  decide!

/-- C22, amended: white space between tokens reaches the tree through two
pending flags only.  When the token loop of `parse_string` stands before
a run of white-space bytes, it passes the run, and afterwards the parser is
as before but for the position and for the flags SPC, which is set when the
run is not empty, and LINE, which is set when the run holds a newline.  So
for two runs that are both empty or both not, and that both hold a newline
or both do not, the loop goes on with the same state of the parser, the
position apart.  For a blank and for a tab with two blanks between the same
two tags the program writes the same output. -/
theorem parse_string_spaces (r : nested) (refill : Bool) (k : Nat) (ws1 ws2 : List Char)
    (sa sb : scan) (rlen1 rlen2 : Nat) (hp : sa.p = sb.p) (hst : sa.pstate = sb.pstate)
    (hw1 : ∀ c ∈ ws1, c_isspace c = true) (hw2 : ∀ c ∈ ws2, c_isspace c = true)
    (hne : ws1.isEmpty = ws2.isEmpty) (hnl : ws1.contains '\n' = ws2.contains '\n')
    (hb1 : (sa.b.drop sa.pend).take ws1.length = ws1.map some)
    (hb2 : (sb.b.drop sb.pend).take ws2.length = ws2.map some)
    (hl1 : sa.pend + ws1.length ≤ rlen1) (hl2 : sb.pend + ws2.length ≤ rlen2) :
    ∃ s1 s2,
      parse_string_loop r (k + ws1.length) sa rlen1 refill =
        parse_string_loop r k s1 rlen1 refill ∧
      parse_string_loop r (k + ws2.length) sb rlen2 refill =
        parse_string_loop r k s2 rlen2 refill ∧
      s1.b = sa.b ∧ s2.b = sb.b ∧ s1.pend = sa.pend + ws1.length ∧
      s2.pend = sb.pend + ws2.length ∧ s1.pstate = s2.pstate ∧
      s1.p = { sa.p with
        flags := { sa.p.flags with
          spc := sa.p.flags.spc || (!ws1.isEmpty), line := sa.p.flags.line || ws1.contains '\n' }
        line := s1.p.line, col := s1.p.col, nline := s1.p.nline, ncol := s1.p.ncol } ∧
      s2.p = { s1.p with
        line := s2.p.line, col := s2.p.col, nline := s2.p.nline, ncol := s2.p.ncol } ∧
      (∀ flags, main_mdoc 0 [] flags false none
          "<refentry><para><link>a</link> <link>b</link></para></refentry>".toList =
        main_mdoc 0 [] flags false none
          "<refentry><para><link>a</link>\t  <link>b</link></para></refentry>".toList) := by
  obtain ⟨s1, h1, e1, e2, e3, e4⟩ := parse_string_loop_blanks r rlen1 refill k ws1 sa hw1 hb1 hl1
  obtain ⟨s2, h2, f1, f2, f3, f4⟩ := parse_string_loop_blanks r rlen2 refill k ws2 sb hw2 hb2 hl2
  refine ⟨s1, s2, h1, h2, e1, f1, e3, f3, by rw [e2, f2, hst], e4, ?_, ?_⟩
  · rw [f4, ← hp, ← hne, ← hnl]
    rw [e4]
  · intro flags
    obtain ⟨a, b, c, d⟩ := flags
    rw [(main_whitespace_eval a b c d).1, (main_whitespace_eval a b c d).2]

theorem parse_string_spaces_witness :
    ∃ s1 s2 : scan, s1.pend = 1 ∧ s2.pend = 2 ∧ s1.p.flags.spc = true ∧
      s1.p.flags.line = false ∧
      s2.p = { s1.p with
        line := s2.p.line, col := s2.p.col, nline := s2.p.nline, ncol := s2.p.ncol } := by
  obtain ⟨s1, s2, -, -, -, -, h5, h6, -, h8, h9, -⟩ := parse_string_spaces (parse_nested 0) false 1
    " ".toList "\t ".toList
    ⟨ex_open, " <b>".toList.map some ++ [none], PARSE_ELEM, 0, 0⟩
    ⟨ex_open, "\t <b>".toList.map some ++ [none], PARSE_ELEM, 0, 0⟩ 4 5 rfl rfl
    (by decide) (by decide) rfl rfl (by decide) (by decide) (by decide) (by decide)
  refine ⟨s1, s2, h5, h6, ?_, ?_, h9⟩
  · exact congrArg (fun p : parse => p.flags.spc) h8
  · exact congrArg (fun p : parse => p.flags.line) h8

/-! ## reorg_function: the parentheses after a function name -/

theorem take_append_two (t : List Char) (x y : Char) :
    (t ++ [x, y]).take ((t ++ [x, y]).length - 2) = t := by
  have h : (t ++ [x, y]).length - 2 = t.length := by simp
  rw [h, List.take_left]

theorem get_append_two (t : List Char) (x y : Char) :
    (t ++ [x, y]).get? ((t ++ [x, y]).length - 2) = some x ∧
      (t ++ [x, y]).get? ((t ++ [x, y]).length - 1) = some y := by
  have h2 : (t ++ [x, y]).length - 2 = t.length := by simp
  have h1 : (t ++ [x, y]).length - 1 = t.length + 1 := by simp
  rw [h2, h1]
  constructor
  · rw [List.get?_eq_getElem?, List.getElem?_append_right (Nat.le_refl _)]
    simp
  · rw [List.get?_eq_getElem?, List.getElem?_append_right (Nat.le_succ _)]
    simp

theorem split_last_two (b : List Char) (x y : Char) (h2 : b.length > 2)
    (hx : b.get? (b.length - 2) = some x) (hy : b.get? (b.length - 1) = some y) :
    b.take (b.length - 2) ≠ [] ∧ b = b.take (b.length - 2) ++ [x, y] := by
  constructor
  · intro h
    have := congrArg List.length h
    simp at this
    omega
  · have hd : b.drop (b.length - 2) = [x, y] := by
      apply List.ext_get?
      intro i
      rw [List.get?_eq_getElem?, List.getElem?_drop]
      match i with
      | 0 => simpa using hx
      | 1 =>
        have : b.length - 2 + 1 = b.length - 1 := by omega
        rw [this]
        simpa using hy
      | i + 2 =>
        have : b.length ≤ b.length - 2 + (i + 2) := by omega
        simp [List.getElem?_eq_none this]
    conv_lhs => rw [← List.take_append_drop (b.length - 2) b]
    rw [hd]

/-- C34: `reorg_function` cuts the string of the only child of a node to the
text `t` exactly when that child is a TEXT node whose string is `t` followed
by `()` with `t` not empty; in every other case the node is unchanged. -/
theorem reorg_function_parens (n : pnode) :
    (∀ nc t, n.childq = [nc] → nc.node = NODE_TEXT → t ≠ [] →
      nc.b = some (t ++ "()".toList) → reorg_function n = n.setChildq [nc.setB (some t)]) ∧
    ((¬ ∃ nc t, n.childq = [nc] ∧ nc.node = NODE_TEXT ∧ t ≠ [] ∧
      nc.b = some (t ++ "()".toList)) → reorg_function n = n) := by
  constructor
  · intro nc t hq hk ht hb
    unfold reorg_function
    rw [hq]
    simp only [hb]
    have hlen : (t ++ "()".toList).length > 2 := by
      have : 0 < t.length := List.length_pos.2 ht
      simp
      omega
    obtain ⟨g1, g2⟩ := get_append_two t '(' ')'
    rw [if_pos ⟨hk, hlen, g1, g2⟩]
    have := take_append_two t '(' ')'
    rw [show "()".toList = ['(', ')'] from rfl, this]
  · intro hno
    unfold reorg_function
    split
    · rename_i nc hq
      split
      · rename_i b hb
        split
        · rename_i hc
          obtain ⟨hk, h2, hx, hy⟩ := hc
          obtain ⟨hne, hsplit⟩ := split_last_two b '(' ')' h2 hx hy
          exact absurd ⟨nc, _, hq, hk, hne, by rw [hb]; exact congrArg some hsplit⟩ hno
        · rfl
      · rfl
    · rfl

/-- The function name `name()` loses its parentheses, and `()` alone, a name
without parentheses and a second child leave the node as it is. -/
theorem reorg_function_eval :
    reorg_function (.mk 1 NODE_FUNCTION none none ⟨false, false⟩ []
        [.mk 2 NODE_TEXT (some "name()".toList) (some 1) ⟨false, false⟩ [] []]) =
      .mk 1 NODE_FUNCTION none none ⟨false, false⟩ []
        [.mk 2 NODE_TEXT (some "name".toList) (some 1) ⟨false, false⟩ [] []] ∧
    reorg_function (.mk 1 NODE_FUNCTION none none ⟨false, false⟩ []
        [.mk 2 NODE_TEXT (some "()".toList) (some 1) ⟨false, false⟩ [] []]) =
      .mk 1 NODE_FUNCTION none none ⟨false, false⟩ []
        [.mk 2 NODE_TEXT (some "()".toList) (some 1) ⟨false, false⟩ [] []] ∧
    reorg_function (.mk 1 NODE_FUNCTION none none ⟨false, false⟩ []
        [.mk 2 NODE_TEXT (some "f(x)".toList) (some 1) ⟨false, false⟩ [] []]) =
      .mk 1 NODE_FUNCTION none none ⟨false, false⟩ []
        [.mk 2 NODE_TEXT (some "f(x)".toList) (some 1) ⟨false, false⟩ [] []] :=
  ⟨rfl, rfl, rfl⟩

/-! ## pnode_findfirst and pnode_takefirst in document order -/

theorem pnode_findfirst_queue_find (node : nodeid) : ∀ cs : List pnode,
    (∀ c ∈ cs, pnode_findfirst node c = c.nodes.find? (fun m => m.node == node)) →
    pnode_findfirst_queue node cs = (pnode.nodes_queue cs).find? (fun m => m.node == node)
  | [], _ => by simp [pnode_findfirst_queue, pnode.nodes_queue]
  | c :: cs, h => by
    have h1 := h c (List.mem_cons_self _ _)
    have h2 := pnode_findfirst_queue_find node cs (fun x hx => h x (List.mem_cons_of_mem _ hx))
    simp only [pnode_findfirst_queue, pnode.nodes_queue, List.find?_append, h1, h2]
    cases List.find? (fun m => m.node == node) c.nodes <;> rfl

theorem pnode_findfirst_find (node : nodeid) (n : pnode) :
    pnode_findfirst node n = n.nodes.find? (fun m => m.node == node) := by
  induction n using pnode.induct with
  | h n ih =>
    rw [pnode_findfirst_eq, pnode.nodes_eq, List.find?_cons]
    by_cases hk : n.node = node
    · simp [hk]
    · have hb : (n.node == node) = false := by simpa using hk
      simp only [hk, if_false, hb]
      exact pnode_findfirst_queue_find node n.childq ih

theorem pnode.outline_eq (d : Nat) (n : pnode) :
    n.outline d = (d, n.setChildq []) :: pnode.outline_queue (d + 1) n.childq := by
  cases n; simp [pnode.outline]

theorem pnode.outline_kind (n : pnode) : ∀ (d : Nat) (x : Nat × pnode), x ∈ n.outline d →
    ∃ m ∈ n.nodes, m.node = x.2.node := by
  induction n using pnode.induct with
  | h n ih =>
    intro d x hx
    rw [pnode.outline_eq] at hx
    rcases List.mem_cons.1 hx with rfl | hx
    · exact ⟨n, pnode.mem_nodes_self n, by simp⟩
    · have key : ∀ (cs : List pnode), (∀ c ∈ cs, c ∈ n.childq) →
          x ∈ pnode.outline_queue (d + 1) cs → ∃ c ∈ cs, x ∈ c.outline (d + 1) := by
        intro cs
        induction cs with
        | nil => intro _ h; simp [pnode.outline_queue] at h
        | cons c cs ihc =>
          intro hsub h
          simp only [pnode.outline_queue, List.mem_append] at h
          rcases h with h | h
          · exact ⟨c, List.mem_cons_self _ _, h⟩
          · obtain ⟨c1, hc1, hx1⟩ := ihc (fun y hy => hsub y (List.mem_cons_of_mem _ hy)) h
            exact ⟨c1, List.mem_cons_of_mem _ hc1, hx1⟩
      obtain ⟨c, hc, hxc⟩ := key n.childq (fun _ h => h) hx
      obtain ⟨m, hm, hk⟩ := ih c hc (d + 1) x hxc
      exact ⟨m, pnode.mem_nodes_of_child hc hm, hk⟩

theorem pnode.outline_queue_kind (d : Nat) (x : Nat × pnode) : ∀ cs : List pnode,
    x ∈ pnode.outline_queue d cs → ∃ m ∈ pnode.nodes_queue cs, m.node = x.2.node
  | [], h => by simp [pnode.outline_queue] at h
  | c :: cs, h => by
    simp only [pnode.outline_queue, List.mem_append] at h
    rcases h with h | h
    · obtain ⟨m, hm, hk⟩ := pnode.outline_kind c d x h
      exact ⟨m, by simp [pnode.nodes_queue, hm], hk⟩
    · obtain ⟨m, hm, hk⟩ := pnode.outline_queue_kind d x cs h
      exact ⟨m, by simp [pnode.nodes_queue, hm], hk⟩

theorem pnode_takefirst_queue_none (node : nodeid) (cs : List pnode)
    (h : pnode_takefirst_queue node cs = none) (d : Nat) :
    ∀ x ∈ pnode.outline_queue d cs, x.2.node ≠ node := by
  intro x hx
  obtain ⟨m, hm, hk⟩ := pnode.outline_queue_kind d x cs hx
  have hf : pnode_findfirst_queue node cs = none := by
    rw [← pnode_takefirst_queue_find, h]
    rfl
  rw [← hk]
  exact pnode_findfirst_queue_none node cs
    (fun c _ hc => pnode_findfirst_none node c hc) hf m hm

/-- What `pnode_takefirst` does to a queue: the outline of the queue is the
outline of the node found between two parts that stay, and no node of the
first part has the kind searched. -/
theorem pnode_takefirst_queue_outline (node : nodeid) : ∀ (cs : List pnode) (r : pnode)
    (cs' : List pnode) (d : Nat), pnode_takefirst_queue node cs = some (r, cs') →
    ∃ l1 l2 e, pnode.outline_queue d cs = l1 ++ r.outline e ++ l2 ∧
      pnode.outline_queue d cs' = l1 ++ l2 ∧ ∀ x ∈ l1, x.2.node ≠ node
  | [], r, cs', d, h => by simp [pnode_takefirst_queue] at h
  | nc :: rest, r, cs', d, h => by
    have h2 := pnode_takefirst_queue_outline node rest
    have h1 := pnode_takefirst_queue_outline node nc.childq
    simp only [pnode_takefirst_queue, pnode_takebelow_eq] at h
    by_cases hk : nc.node = node
    · simp [hk] at h
      obtain ⟨rfl, rfl⟩ := h
      exact ⟨[], pnode.outline_queue d rest, d, by simp [pnode.outline_queue], by simp,
        by simp⟩
    · simp only [hk, if_false] at h
      cases hb : pnode_takefirst_queue node nc.childq with
      | some x =>
        obtain ⟨r1, c1⟩ := x
        rw [hb] at h; simp at h
        obtain ⟨rfl, rfl⟩ := h
        obtain ⟨l1, l2, e, e1, e2, e3⟩ := h1 _ _ (d + 1) hb
        refine ⟨(d, nc.setChildq []) :: l1, l2 ++ pnode.outline_queue d rest, e, ?_, ?_, ?_⟩
        · simp only [pnode.outline_queue]
          rw [pnode.outline_eq d nc, e1]
          simp
        · simp only [pnode.outline_queue, pnode.outline, pnode.setChildq_eq]
          rw [e2]
          simp
        · intro x hx
          rcases List.mem_cons.1 hx with rfl | hx
          · simpa using hk
          · exact e3 x hx
      | none =>
        rw [hb] at h; simp at h
        cases hq : pnode_takefirst_queue node rest with
        | none => rw [hq] at h; simp at h
        | some x =>
          obtain ⟨r1, c1⟩ := x
          rw [hq] at h; simp at h
          obtain ⟨rfl, rfl⟩ := h
          obtain ⟨l1, l2, e, e1, e2, e3⟩ := h2 _ _ d hq
          refine ⟨nc.outline d ++ l1, l2, e, ?_, ?_, ?_⟩
          · simp only [pnode.outline_queue]
            rw [e1]
            simp
          · simp only [pnode.outline_queue]
            rw [e2]
            simp
          · intro x hx
            rcases List.mem_append.1 hx with hx | hx
            · rw [pnode.outline_eq] at hx
              rcases List.mem_cons.1 hx with rfl | hx
              · simpa using hk
              · exact pnode_takefirst_queue_none node nc.childq hb (d + 1) x hx
            · exact e3 x hx
termination_by cs => sizeOf cs
decreasing_by
  all_goals simp_wf
  all_goals first | omega | (have hlt := pnode.sizeOf_childq_lt nc; omega)

/-- The first PARA of a small tree is taken out with its subtree, and the
nodes that remain keep their order. -/
theorem pnode_takefirst_order_eval :
    pnode_takefirst (.mk 1 NODE_SECTION none none ⟨false, false⟩ []
      [.mk 2 NODE_TITLE none (some 1) ⟨false, false⟩ [] [],
       .mk 3 NODE_NOTE none (some 1) ⟨false, false⟩ []
        [.mk 4 NODE_PARA none (some 3) ⟨false, false⟩ []
          [.mk 5 NODE_TEXT (some "x".toList) (some 4) ⟨false, false⟩ [] []],
         .mk 6 NODE_PARA none (some 3) ⟨false, false⟩ [] []],
       .mk 7 NODE_PARA none (some 1) ⟨false, false⟩ [] []]) NODE_PARA =
    (some (.mk 4 NODE_PARA none (some 3) ⟨false, false⟩ []
        [.mk 5 NODE_TEXT (some "x".toList) (some 4) ⟨false, false⟩ [] []]),
      .mk 1 NODE_SECTION none none ⟨false, false⟩ []
      [.mk 2 NODE_TITLE none (some 1) ⟨false, false⟩ [] [],
       .mk 3 NODE_NOTE none (some 1) ⟨false, false⟩ []
        [.mk 6 NODE_PARA none (some 3) ⟨false, false⟩ [] []],
       .mk 7 NODE_PARA none (some 1) ⟨false, false⟩ [] []]) := rfl

/-! ## pnode_printtext: the dash of an option -/

/-- The document of the claim has no white space between its elements, and
its output is one macro line. -/
theorem main_option_counterexample :
    main_mdoc 0 [] FMT_NONE false none
      "<cmdsynopsis><command>x</command><arg choice=\"opt\"><option>-v</option></arg></cmdsynopsis>".toList =
      .ok (".Dd $Mdocdate$\n.Dt UNKNOWN 1\n.Os\n.Nm x Ns Op Ns Fl v\n".toList, 0) := by
  decide!

theorem main_option_joined :
    main_mdoc 0 [] FMT_NONE false none
      "<cmdsynopsis><command>x</command><arg choice=\"opt\"><option>-v</option></arg></cmdsynopsis>".toList =
      .ok (".Dd $Mdocdate$\n.Dt UNKNOWN 1\n.Os\n.Nm x Ns Op Ns Fl v\n".toList, 0) := by
  decide!

theorem main_option_eval :
    main_mdoc 0 [] FMT_NONE false none
      "<cmdsynopsis><command>x</command> <arg choice=\"opt\"><option>-v</option></arg></cmdsynopsis>".toList =
      .ok (".Dd $Mdocdate$\n.Dt UNKNOWN 1\n.Os\n.Nm x\n.Op Fl v\n".toList, 0) ∧
    main_mdoc 0 [] FMT_NONE false none
      "<cmdsynopsis><command>x</command>\n<arg choice=\"opt\"><option>--long</option></arg> <arg>-q</arg><para>-p <emphasis>-e</emphasis></para></cmdsynopsis>".toList =
      .ok (".Dd $Mdocdate$\n.Dt UNKNOWN 1\n.Os\n.Nm x\n.Op Fl -long\n.Op Ar -q\n.Pp\n-p\n.Em -e\n".toList, 0) := by
  decide!

theorem pnode_parent_is_eq (ctx : pctx) (n : pnode) (k : nodeid) (hp : n.parent ≠ none)
    (hu : ctx.upaddr = n.parent) : pnode_parent_is ctx n k = .ok (ctx.upnode == some k) := by
  unfold pnode_parent_is
  cases hn : n.parent with
  | none => exact absurd hn hp
  | some a =>
    rw [hn] at hu
    simp [hu]

theorem option_strip_eq (opt : Bool) (s : cstring) :
    (if opt = true ∧ s.head? = some '-' then s.drop 1 else s) = option_strip opt s := by
  cases opt with
  | false => simp [option_strip]
  | true =>
    cases s with
    | nil => simp [option_strip]
    | cons c t =>
      by_cases hc : c = '-'
      · subst hc; simp [option_strip]
      · have : option_strip true (c :: t) = c :: t := by
          unfold option_strip
          split
          · rename_i h1 h2
            cases h2
            exact absurd rfl hc
          · rfl
        rw [this]
        simp [hc]

theorem pnode_printtext_pf_macro (f : format) (ctx : pctx) (acc : Bool) (hf : f.nofill = 0)
    (hl : f.linestate = LINE_MACRO) : pnode_printtext_pf f ctx acc = .ok (f, ctx.next, acc) := by
  unfold pnode_printtext_pf
  rw [if_neg]
  rintro (h | h)
  · exact h hf
  · exact h hl

theorem pnode_printtext_sep_first (f : format) (ctx : pctx) (n : pnode)
    (hl : f.linestate = LINE_MACRO) (hprev : ctx.prev = none) :
    pnode_printtext_sep f ctx n true = .ok (f.putc ' ') := by
  unfold pnode_printtext_sep
  rw [hl, hprev]
  simp

/-- C32: on a macro line that takes arguments, as `Fl` has opened it, the
first text node of an element is written as one argument after a blank, and
below an OPTION element the argument is the string without one leading dash,
while below any other element it is the whole string; for the document of
the claim with and without a blank after the command, the output is
`.Nm x`, `.Op Fl v` and `.Nm x Ns Op Ns Fl v`. -/
theorem pnode_printtext_option (f : format) (ctx : pctx) (n : pnode) (s : cstring)
    (hk : n.node = NODE_TEXT) (hb : n.b = some s) (hp : n.parent ≠ none)
    (hu : ctx.upaddr = n.parent) (hl : f.linestate = LINE_MACRO) (ha : f.flags.arg = true)
    (hf : f.nofill = 0) (hw : f.parastate ≠ PARA_WANT) (hprev : ctx.prev = none) :
    pnode_printtext f ctx n =
      (macro_addarg (f.putc ' ') (option_strip (ctx.upnode == some NODE_OPTION) s)
        ARG_NONE).map (fun g => (g, n, ctx.next)) ∧
    option_strip true "-v".toList = "v".toList ∧
    option_strip true "--long".toList = "-long".toList ∧
    option_strip false "-v".toList = "-v".toList ∧
    main_mdoc 0 [] FMT_NONE false none
      "<cmdsynopsis><command>x</command> <arg choice=\"opt\"><option>-v</option></arg></cmdsynopsis>".toList =
      .ok (".Dd $Mdocdate$\n.Dt UNKNOWN 1\n.Os\n.Nm x\n.Op Fl v\n".toList, 0) ∧
    main_mdoc 0 [] FMT_NONE false none
      "<cmdsynopsis><command>x</command><arg choice=\"opt\"><option>-v</option></arg></cmdsynopsis>".toList =
      .ok (".Dd $Mdocdate$\n.Dt UNKNOWN 1\n.Os\n.Nm x Ns Op Ns Fl v\n".toList, 0) := by
  refine ⟨?_, rfl, rfl, rfl, main_option_eval.1,
    main_option_joined⟩
  have hpc : para_check f = f := by
    unfold para_check
    rw [if_pos hw]
  have hne : n.node ≠ NODE_ESCAPE := by rw [hk]; decide
  have hc : ¬(f.linestate = LINE_MACRO ∧ f.flags.arg = false ∧ n.flags.spc = false) := by
    rintro ⟨-, h, -⟩
    rw [ha] at h
    cases h
  have hc2 : ¬(f.linestate = LINE_MACRO ∧ f.nofill = 0 ∧ f.flags.arg = false ∧
      f.flags.impl = false) := by
    rintro ⟨-, -, h, -⟩
    rw [ha] at h
    cases h
  unfold pnode_printtext
  rw [hb]
  simp only [hpc, if_neg hc]
  rw [if_neg hc2, pnode_printtext_pf_macro f ctx _ hf hl]
  simp only [bind, Except.bind, ha, pnode_printtext_sep_first f ctx n hl hprev, if_neg hne,
    pnode_parent_is_eq ctx n NODE_OPTION hp hu]
  have hl2 : (f.putc ' ').linestate = LINE_MACRO := hl
  rw [if_pos hl2, option_strip_eq]
  cases macro_addarg (f.putc ' ') (option_strip (ctx.upnode == some NODE_OPTION) s) ARG_NONE <;>
    rfl

theorem pnode_printtext_option_witness :
    pnode_printtext ⟨0, 0, ⟨true, true, false, false⟩, LINE_MACRO, PARA_MID, ".Fl".toList⟩
      ⟨some NODE_OPTION, some 7, none, none⟩
      (.mk 8 NODE_TEXT (some "-v".toList) (some 7) ⟨false, false⟩ [] []) =
    .ok (⟨0, 0, ⟨true, true, false, false⟩, LINE_MACRO, PARA_MID, ".Fl v".toList⟩,
      .mk 8 NODE_TEXT (some "-v".toList) (some 7) ⟨false, false⟩ [] [], none) :=
  (pnode_printtext_option ⟨0, 0, ⟨true, true, false, false⟩, LINE_MACRO, PARA_MID, ".Fl".toList⟩
    ⟨some NODE_OPTION, some 7, none, none⟩
    (.mk 8 NODE_TEXT (some "-v".toList) (some 7) ⟨false, false⟩ [] []) "-v".toList
    rfl rfl (by decide) rfl rfl rfl rfl (by decide) rfl).1

/-! ## pnode_printfuncprototype: the forms `Fn` and `Fo` -/

/-- The prototype of the claim has one parameter and is written with `Fo`,
`Fa` and `Fc`. -/
theorem main_prototype_counterexample :
    main_mdoc 0 [] FMT_NONE false none
      "<funcprototype><funcdef>int <function>f</function></funcdef><paramdef>int <parameter>a</parameter></paramdef><void/></funcprototype>".toList =
      .ok (".Dd $Mdocdate$\n.Dt UNKNOWN 1\n.Os\n.Ft int\n.Fo f\n.Fa \"int a\"\n.Fc\n".toList, 0) := by
  decide!

theorem main_prototype_eval :
    main_mdoc 0 [] FMT_NONE false none
      "<funcprototype><funcdef>int <function>f</function></funcdef><void/></funcprototype>".toList =
      .ok (".Dd $Mdocdate$\n.Dt UNKNOWN 1\n.Os\n.Ft int\n.Fn f void\n".toList, 0) ∧
    main_mdoc 0 [] FMT_NONE false none
      "<funcprototype><funcdef>int <function>f</function></funcdef><paramdef>int <parameter>a</parameter></paramdef><paramdef>int <parameter>b</parameter></paramdef></funcprototype>".toList =
      .ok (".Dd $Mdocdate$\n.Dt UNKNOWN 1\n.Os\n.Ft int\n.Fo f\n.Fa \"int a\"\n.Fa \"int b\"\n.Fc\n".toList, 0) := by
  decide!

theorem para_check_new (f : format) (h : f.linestate = LINE_NEW) :
    (para_check f).linestate = LINE_NEW := by
  unfold para_check
  split
  · exact h
  · dsimp only
    split
    · rfl
    · exact h

theorem macro_line_out (f : format) (name : cstring) :
    ∃ pre, (macro_line f name).out = pre ++ '.' :: name ++ ['\n'] := by
  have h1 : (macro_close f).linestate = LINE_NEW := rfl
  have h2 := para_check_new _ h1
  refine ⟨(para_check (macro_close f)).out, ?_⟩
  unfold macro_line macro_open macro_open_line
  rw [h2]
  simp [macro_close, format.puts, format.putc]

theorem macro_addarg_void (f g : format) (h : macro_addarg f "void".toList ARG_SPACE = .ok g) :
    g.linestate = LINE_MACRO ∧ g.out = f.out ++ " void".toList := by
  have h0 := h
  unfold macro_addarg at h0
  split at h0
  · cases h0
  · rename_i hl
    have hl1 : f.linestate = LINE_MACRO := by
      cases hls : f.linestate <;> simp_all
    rw [macro_addarg_render f _ _ hl1 (by decide)] at h
    cases h
    exact ⟨hl1, rfl⟩

/-- C33: when the prototype has a FUNCDEF child and `pnode_printfuncprototype`
returns, its output ends with the argument `void` of an `Fn` line if no
child is left besides the first FUNCDEF and the VOID children, and with the
line `.Fc` that closes `Fo` if any other child is left, be it a single
parameter. -/
theorem pnode_printfuncprototype_forms (f g : format) (n m d : pnode) (cs : List pnode)
    (hd : pnode_funcdef n.addr none n.childq = .ok (some d, cs))
    (hr : pnode_printfuncprototype f n = .ok (g, m)) :
    (cs = [] → ∃ pre, g.out = pre ++ " void\n".toList) ∧
    (cs ≠ [] → ∃ pre, g.out = pre ++ ".Fc\n".toList) := by
  unfold pnode_printfuncprototype at hr
  rw [hd] at hr
  simp only [bind, Except.bind, pure, Except.pure] at hr
  constructor
  · intro hcs
    subst hcs
    simp only [List.isEmpty_nil, if_true] at hr
    split at hr
    · cases hr
    · rename_i f1 hf1
      simp only [Except.ok.injEq, Prod.mk.injEq] at hr
      obtain ⟨rfl, -⟩ := hr
      unfold pnode_printfuncdef at hf1
      simp only [bind, Except.bind, pure, Except.pure, if_true] at hf1
      split at hf1
      · cases hf1
      · rename_i v hv
        split at hf1
        · cases hf1
        · rename_i f2 hf2
          split at hf1
          · cases hf1
          · rename_i f3 hf3
            cases hf1
            obtain ⟨hl, ho⟩ := macro_addarg_void f2 f3 hf3
            refine ⟨f2.out, ?_⟩
            unfold macro_close
            simp [hl, format.putc, ho]
  · intro hcs
    have he : cs.isEmpty = false := by
      cases cs with
      | nil => exact absurd rfl hcs
      | cons _ _ => rfl
    simp only [he] at hr
    split at hr
    · cases hr
    · rename_i f1 hf1
      simp only [Bool.false_eq_true, if_false] at hr
      split at hr
      · cases hr
      · rename_i f2 hf2
        simp only [Except.ok.injEq, Prod.mk.injEq] at hr
        obtain ⟨rfl, -⟩ := hr
        obtain ⟨pre, hpre⟩ := macro_line_out f2 "Fc".toList
        exact ⟨pre, by rw [hpre]; simp⟩

theorem pnode_printfuncprototype_forms_witness :
    ∃ pre, (⟨0, 0, FMT_NONE, LINE_NEW, PARA_MID,
      ".Ft int\n.Fo f\n.Fa \"int a\"\n.Fc\n".toList⟩ : format).out = pre ++ ".Fc\n".toList :=
  (pnode_printfuncprototype_forms ⟨0, 0, FMT_NONE, LINE_NEW, PARA_HAVE, []⟩
    ⟨0, 0, FMT_NONE, LINE_NEW, PARA_MID, ".Ft int\n.Fo f\n.Fa \"int a\"\n.Fc\n".toList⟩
    (.mk 1 NODE_FUNCPROTOTYPE none (some 0) ⟨false, true⟩ []
      [.mk 2 NODE_FUNCDEF none (some 1) ⟨false, true⟩ []
        [.mk 3 NODE_TEXT (some "int".toList) (some 2) ⟨false, false⟩ [] [],
         .mk 4 NODE_FUNCTION none (some 2) ⟨false, true⟩ []
          [.mk 5 NODE_TEXT (some "f".toList) (some 4) ⟨false, false⟩ [] []]],
       .mk 6 NODE_PARAMDEF none (some 1) ⟨false, true⟩ []
        [.mk 7 NODE_TEXT (some "int".toList) (some 6) ⟨false, false⟩ [] [],
         .mk 8 NODE_PARAMETER none (some 6) ⟨false, true⟩ []
          [.mk 9 NODE_TEXT (some "a".toList) (some 8) ⟨false, false⟩ [] []]],
       .mk 10 NODE_VOID none (some 1) ⟨false, true⟩ [] []])
    (.mk 1 NODE_FUNCPROTOTYPE none (some 0) ⟨false, true⟩ [] [])
    (.mk 2 NODE_FUNCDEF none none ⟨false, true⟩ []
        [.mk 3 NODE_TEXT (some "int".toList) (some 2) ⟨false, false⟩ [] [],
         .mk 4 NODE_FUNCTION none (some 2) ⟨false, true⟩ []
          [.mk 5 NODE_TEXT (some "f".toList) (some 4) ⟨false, false⟩ [] []]])
    [.mk 6 NODE_PARAMDEF none (some 1) ⟨false, true⟩ []
        [.mk 7 NODE_TEXT (some "int".toList) (some 6) ⟨false, false⟩ [] [],
         .mk 8 NODE_PARAMETER none (some 6) ⟨false, true⟩ []
          [.mk 9 NODE_TEXT (some "a".toList) (some 8) ⟨false, false⟩ [] []]]]
    (by decide!) (by decide!)).2 (List.cons_ne_nil _ _)

/-! ## The flags that the formatter starts with -/

theorem macro_open_new (f : format) (flags : fflags) (name : cstring)
    (hl : f.linestate = LINE_NEW) :
    macro_open { f with flags := flags } name = macro_open f name := by
  obtain ⟨lv, nf, fl, ls, ps, out⟩ := f
  dsimp only at hl
  subst hl
  unfold macro_open macro_open_line para_check
  by_cases hw : ps = PARA_WANT
  · subst hw
    rfl
  · simp only [ne_eq, hw, not_false_eq_true, if_true]
    rfl

theorem pnode_printprologue_flags (f : format) (flags : fflags) (root : pnode)
    (hl : f.linestate = LINE_NEW) :
    pnode_printprologue { f with flags := flags } root = pnode_printprologue f root := by
  unfold pnode_printprologue
  split
  · rfl
  · split
    · rfl
    · unfold macro_nodeline
      rw [macro_open_new f flags _ hl]

/-- C39: the end tag of the document element lowers the no-fill counter of
the parser although the element stays open: after the events of
`<programlisting></programlisting>` the counter is 0 with one open element of
class NOFILL, and after a second end tag it is -1; the parser then reads
`<programlisting>a</programlisting></programlisting>` and what follows
with a counter of -1. -/
theorem xml_elem_end_nofill :
    (∀ r : nested, ∃ p, xml_calls r (parse_alloc false [] 1)
      [.elem_start "programlisting".toList, .elem_end (some "programlisting".toList)] = .ok p ∧
      p.nofill = 0 ∧ p.nofill_open = 1 ∧ p.tflags.closed = true) ∧
    (∀ r : nested, ∃ p, xml_calls r (parse_alloc false [] 1)
      [.elem_start "programlisting".toList, .elem_end (some "programlisting".toList),
        .elem_end (some "programlisting".toList)] = .ok p ∧
      p.nofill = -1 ∧ p.nofill_open = 1) ∧
    (parse_file 0 (parse_alloc false [] 1)
      (some "<programlisting>a</programlisting></programlisting>\n  c".toList)
      "<stdin>".toList).map (fun p => (p.nofill, p.nofill_open)) = .ok (-1, 1) := by
  refine ⟨fun r => ⟨_, rfl, rfl, rfl, rfl⟩, fun r => ⟨_, rfl, rfl, rfl⟩, ?_⟩
  decide!

/-! ## The blocks that the formatter opens and closes -/

/-- C31: a list below an argument is opened on the line of the enclosure,
which is no `.Bl` line, and closed with an `.El` line; a display, a
prototype and an equation below a mathematical row are opened behind the
text ` { ` on a line that is no macro line.  In these outputs the lines with
`.El`, `.Ed`, `.Fc` and `.EN` have no line with `.Bl`, `.Bd`, `.Fo` and `.EQ`
before them. -/
theorem main_blocks_unbalanced : ∀ a b c d : Bool,
    (∃ out, main_mdoc 0 [] ⟨a, b, c, d⟩ false none
        "<refentry><arg><itemizedlist/></arg></refentry>".toList = .ok (out, 0) ∧
      out = ".Dd $Mdocdate$\n.Dt UNKNOWN 1\n.Os\n.Op Bl -bullet\n.El\n".toList ∧
      macro_lines ".Bl" out = 0 ∧ macro_lines ".El" out = 1) ∧
    (∃ out, main_mdoc 0 [] ⟨a, b, c, d⟩ false none
        "<refentry><mml:mrow><programlisting>x</programlisting></mml:mrow></refentry>".toList =
        .ok (out, 0) ∧
      out = ".Dd $Mdocdate$\n.Dt UNKNOWN 1\n.Os\n \x7b .Bd -literal\nx\n.Ed\n \x7d ".toList ∧
      macro_lines ".Bd" out = 0 ∧ macro_lines ".Ed" out = 1) ∧
    (∃ out, main_mdoc 0 [] ⟨a, b, c, d⟩ false none
        "<refentry><mml:mrow><funcprototype><paramdef>a</paramdef></funcprototype></mml:mrow></refentry>".toList =
        .ok (out, 0) ∧
      out = ".Dd $Mdocdate$\n.Dt UNKNOWN 1\n.Os\n \x7b .Fo UNKNOWN\n.Fa a\n.Fc\n \x7d ".toList ∧
      macro_lines ".Fo" out = 0 ∧ macro_lines ".Fc" out = 1) ∧
    (∃ out, main_mdoc 0 [] ⟨a, b, c, d⟩ false none
        "<refentry><mml:mrow><inlineequation>x</inlineequation></mml:mrow></refentry>".toList =
        .ok (out, 0) ∧
      out = ".Dd $Mdocdate$\n.Dt UNKNOWN 1\n.Os\n \x7b .EQ\nx\n.EN\n \x7d ".toList ∧
      macro_lines ".EQ" out = 0 ∧ macro_lines ".EN" out = 1) := by
  intro a b c d
  refine ⟨⟨_, ?_, rfl, by decide, by decide⟩, ⟨_, ?_, rfl, by decide, by decide⟩,
    ⟨_, ?_, rfl, by decide, by decide⟩, ⟨_, ?_, rfl, by decide, by decide⟩⟩
  · revert a b c d
    decide!
  · revert a b c d
    decide!
  · revert a b c d
    decide!
  · revert a b c d
    decide!

/-! ## The parser with and without warnings -/

namespace parse
@[simp] theorem no_warn_fname (p : parse) : p.no_warn.fname = p.fname := rfl
@[simp] theorem no_warn_root (p : parse) : p.no_warn.root = p.root := rfl
@[simp] theorem no_warn_doctype (p : parse) : p.no_warn.doctype = p.doctype := rfl
@[simp] theorem no_warn_stack (p : parse) : p.no_warn.stack = p.stack := rfl
@[simp] theorem no_warn_loose (p : parse) : p.no_warn.loose = p.loose := rfl
@[simp] theorem no_warn_ncur (p : parse) : p.no_warn.ncur = p.ncur := rfl
@[simp] theorem no_warn_line (p : parse) : p.no_warn.line = p.line := rfl
@[simp] theorem no_warn_col (p : parse) : p.no_warn.col = p.col := rfl
@[simp] theorem no_warn_nline (p : parse) : p.no_warn.nline = p.nline := rfl
@[simp] theorem no_warn_ncol (p : parse) : p.no_warn.ncol = p.ncol := rfl
@[simp] theorem no_warn_del (p : parse) : p.no_warn.del = p.del := rfl
@[simp] theorem no_warn_nofill (p : parse) : p.no_warn.nofill = p.nofill := rfl
@[simp] theorem no_warn_next (p : parse) : p.no_warn.next = p.next := rfl
@[simp] theorem no_warn_files (p : parse) : p.no_warn.files = p.files := rfl
@[simp] theorem no_warn_closed (p : parse) : p.no_warn.tflags.closed = p.tflags.closed := rfl
@[simp] theorem no_warn_error (p : parse) : p.no_warn.tflags.error = p.tflags.error := rfl
@[simp] theorem no_warn_fline (p : parse) : p.no_warn.flags.line = p.flags.line := rfl
@[simp] theorem no_warn_spc (p : parse) : p.no_warn.flags.spc = p.flags.spc := rfl
@[simp] theorem no_warn_attr (p : parse) : p.no_warn.flags.attr = p.flags.attr := rfl
@[simp] theorem no_warn_eend (p : parse) : p.no_warn.flags.eend = p.flags.eend := rfl
@[simp] theorem no_warn_cur (p : parse) : p.no_warn.cur = p.cur := rfl
@[simp] theorem no_warn_alloc (p : parse) : p.no_warn.alloc.1 = p.alloc.1 := rfl
@[simp] theorem no_warn_zip (p : parse) : p.no_warn.zip = p.zip := rfl
@[simp] theorem no_warn_deref (p : parse) (a : Nat) : p.no_warn.deref a = p.deref a := rfl
theorem no_warn_alloc2 (p : parse) : p.no_warn.alloc.2 = p.alloc.2.no_warn := rfl
theorem no_warn_push (p : parse) (n : pnode) : p.no_warn.push n = (p.push n).no_warn :=
  rfl
theorem no_warn_unlink (p : parse) (a : Nat) :
    p.no_warn.unlink a = (p.unlink a).no_warn := rfl
@[simp] theorem no_warn_idem (p : parse) : p.no_warn.no_warn = p.no_warn := rfl

theorem no_warn_setCur (p : parse) (n : pnode) :
    p.no_warn.setCur n = (p.setCur n).no_warn := by
  unfold parse.setCur
  simp only [no_warn_stack]
  split <;> rfl

theorem no_warn_link (p : parse) (n : pnode) :
    p.no_warn.link n = (p.link n).no_warn := by
  unfold parse.link
  simp only [no_warn_stack]
  split <;> rfl

theorem no_warn_pop (p : parse) : p.no_warn.pop = p.pop.no_warn := by
  unfold parse.pop
  simp only [no_warn_stack]
  split
  · rfl
  · rename_i nc rest _
    exact no_warn_link { p with stack := rest } nc

theorem no_warn_unlink_open (p : parse) (a : Nat) :
    p.no_warn.unlink_open a = (p.unlink_open a).no_warn := by
  unfold parse.unlink_open
  simp only [no_warn_stack]
  split <;> rfl

end parse

theorem error_msg_no_warn (p : parse) : error_msg p.no_warn = (error_msg p).no_warn :=
  rfl

@[simp] theorem warn_msg_no_warn (p : parse) : warn_msg p.no_warn = p.no_warn := rfl

@[simp] theorem no_warn_warn_msg (p : parse) : (warn_msg p).no_warn = p.no_warn := by
  unfold warn_msg
  split <;> rfl

theorem warn_msg_if_no_warn (c : Prop) [Decidable c] (p : parse) :
    (if c then warn_msg p.no_warn else p.no_warn) = (if c then warn_msg p else p).no_warn := by
  split
  · rw [warn_msg_no_warn, no_warn_warn_msg]
  · rfl


theorem warn_msg_eq (p : parse) :
    warn_msg p = { p with tflags := { p.tflags with warn := p.tflags.warn || p.flags.warn } } := by
  obtain ⟨fname, root, ⟨e, w, c⟩, doctype, stack, loose, ncur, line, col, nline, ncol, del,
    nofill, ⟨pw, pl, ps, pa, pe⟩, next, files⟩ := p
  cases pw <;> cases w <;> rfl

theorem no_warn_fold_a (q : parse) (fn : Option cstring) (r d : Option Nat) (st lo : List pnode)
    (nc : nodeid) (li co nl ncl de nf : Int) (nx : Nat) (fi : List (cstring × List Char))
    (a b c e : Bool) :
    (⟨fn, r, q.no_warn.tflags, d, st, lo, nc, li, co, nl, ncl, de, nf,
      ⟨q.no_warn.flags.warn, a, b, c, e⟩, nx, fi⟩ : parse) =
    parse.no_warn ⟨fn, r, q.tflags, d, st, lo, nc, li, co, nl, ncl, de, nf,
      ⟨q.flags.warn, a, b, c, e⟩, nx, fi⟩ := rfl

theorem no_warn_fold_b (q : parse) (fn : Option cstring) (r d : Option Nat) (st lo : List pnode)
    (nc : nodeid) (li co nl ncl de nf : Int) (nx : Nat) (fi : List (cstring × List Char)) :
    (⟨fn, r, q.no_warn.tflags, d, st, lo, nc, li, co, nl, ncl, de, nf,
      q.no_warn.flags, nx, fi⟩ : parse) =
    parse.no_warn ⟨fn, r, q.tflags, d, st, lo, nc, li, co, nl, ncl, de, nf,
      q.flags, nx, fi⟩ := rfl

theorem no_warn_fold_c (q : parse) (fn : Option cstring) (r d : Option Nat) (st lo : List pnode)
    (nc : nodeid) (li co nl ncl de nf : Int) (nx : Nat) (fi : List (cstring × List Char))
    (x y : Bool) :
    (⟨fn, r, ⟨x, q.no_warn.tflags.warn, y⟩, d, st, lo, nc, li, co, nl, ncl, de, nf,
      q.no_warn.flags, nx, fi⟩ : parse) =
    parse.no_warn ⟨fn, r, ⟨x, q.tflags.warn, y⟩, d, st, lo, nc, li, co, nl, ncl, de, nf,
      q.flags, nx, fi⟩ := rfl

theorem no_warn_fold_d (q : parse) (fn : Option cstring) (r d : Option Nat) (st lo : List pnode)
    (nc : nodeid) (li co nl ncl de nf : Int) (nx : Nat) (fi : List (cstring × List Char))
    (x y a b c e : Bool) :
    (⟨fn, r, ⟨x, q.no_warn.tflags.warn, y⟩, d, st, lo, nc, li, co, nl, ncl, de, nf,
      ⟨q.no_warn.flags.warn, a, b, c, e⟩, nx, fi⟩ : parse) =
    parse.no_warn ⟨fn, r, ⟨x, q.tflags.warn, y⟩, d, st, lo, nc, li, co, nl, ncl, de, nf,
      ⟨q.flags.warn, a, b, c, e⟩, nx, fi⟩ := rfl

theorem map_reset_no_warn (x : Except fault parse) :
    (x.map parse.no_warn).map
      (fun q => { q with flags := { q.flags with line := false, spc := false } }) =
    (x.map (fun q => { q with flags := { q.flags with line := false, spc := false } })).map
      parse.no_warn := by
  cases x <;> rfl

theorem except_map_ok {α β : Type} (f : α → β) (a : α) :
    Except.map f (Except.ok a : Except fault α) = Except.ok (f a) := rfl

theorem except_map_error {α β : Type} (f : α → β) (e : fault) :
    Except.map f (Except.error e : Except fault α) = Except.error e := rfl

theorem warn_msg_out (p : parse) : warn_msg p.no_warn = (warn_msg p).no_warn := by
  rw [warn_msg_no_warn, no_warn_warn_msg]

theorem ite_no_warn (c : Prop) [Decidable c] (a b : parse) :
    (if c then a.no_warn else b.no_warn) = (if c then a else b).no_warn := by
  split <;> rfl

@[simp] theorem warn_msg_tflags_closed (p : parse) :
    (warn_msg p).tflags.closed = p.tflags.closed := by
  unfold warn_msg; split <;> rfl

@[simp] theorem warn_msg_tflags_error (p : parse) :
    (warn_msg p).tflags.error = p.tflags.error := by
  unfold warn_msg; split <;> rfl

@[simp] theorem warn_msg_alloc_fst (p : parse) : (warn_msg p).alloc.1 = p.alloc.1 := by
  unfold warn_msg; split <;> rfl

@[simp] theorem warn_msg_cur_eq (p : parse) : (warn_msg p).cur = p.cur := by
  unfold warn_msg; split <;> rfl
theorem pnode_closetext_no_warn (p : parse) (chk : Bool) :
    pnode_closetext p.no_warn chk =
      (pnode_closetext p chk).map parse.no_warn := by
  generalize hx : pnode_closetext p chk = x
  unfold pnode_closetext at hx
  repeat' (first | split at hx | dsimp only at hx)
  all_goals subst hx
  all_goals try simp only [
      warn_msg_eq, pnode.setFlags_eq, pnode.setNode_eq, pnode.setB_eq, pnode.flags_mk,
      pnode.node_mk, pnode.addr_mk, pnode.parent_mk, pnode.b_mk, pnode.childq_mk,
      pnode.attrq_mk] at *
  all_goals try simp only [
      pnode_closetext, parse.no_warn_fname, parse.no_warn_root, parse.no_warn_doctype,
      parse.no_warn_stack, parse.no_warn_loose, parse.no_warn_ncur, parse.no_warn_line,
      parse.no_warn_col, parse.no_warn_nline, parse.no_warn_ncol, parse.no_warn_del,
      parse.no_warn_nofill, parse.no_warn_next, parse.no_warn_files, parse.no_warn_closed,
      parse.no_warn_error, parse.no_warn_fline, parse.no_warn_spc, parse.no_warn_attr,
      parse.no_warn_eend, parse.no_warn_cur, parse.no_warn_alloc, parse.no_warn_zip,
      parse.no_warn_deref, warn_msg_eq, pnode.setFlags_eq, pnode.setNode_eq, pnode.setB_eq,
      pnode.flags_mk, pnode.node_mk, pnode.addr_mk, pnode.parent_mk, pnode.b_mk,
      pnode.childq_mk, pnode.attrq_mk, except_map_ok, except_map_error, no_warn_fold_a,
      no_warn_fold_b, no_warn_fold_c, no_warn_fold_d, parse.no_warn_pop, parse.no_warn_setCur,
      parse.no_warn_link, parse.no_warn_push, parse.no_warn_alloc2, parse.no_warn_alloc,
      parse.no_warn_unlink, parse.no_warn_unlink_open, error_msg_no_warn, parse.no_warn_idem,
      *, if_true, if_false, not_true_eq_false, not_false_eq_true, ne_eq, and_self, and_true,
      true_and, and_false, false_and, or_true, true_or, or_false, false_or, Bool.false_eq_true,
      not_not]
  all_goals first
    | rfl
    | (simp only [
        except_map_ok, except_map_error, no_warn_fold_a, no_warn_fold_b, no_warn_fold_c,
        no_warn_fold_d, parse.no_warn_pop, parse.no_warn_setCur, parse.no_warn_link,
        parse.no_warn_push, parse.no_warn_alloc2, parse.no_warn_alloc, parse.no_warn_unlink,
        parse.no_warn_unlink_open, error_msg_no_warn, parse.no_warn_idem]
       done)
    | (simp only [
        except_map_ok, except_map_error, no_warn_fold_a, no_warn_fold_b, no_warn_fold_c,
        no_warn_fold_d, parse.no_warn_pop, parse.no_warn_setCur, parse.no_warn_link,
        parse.no_warn_push, parse.no_warn_alloc2, parse.no_warn_alloc, parse.no_warn_unlink,
        parse.no_warn_unlink_open, error_msg_no_warn, parse.no_warn_idem]
       rfl)
    | (simp only [
        except_map_ok, except_map_error, ← parse.no_warn_pop, ← parse.no_warn_setCur,
        ← parse.no_warn_link, ← parse.no_warn_push, ← parse.no_warn_alloc2,
        ← parse.no_warn_unlink, ← parse.no_warn_unlink_open, ← error_msg_no_warn]
       rfl)
    | (exfalso
       simp at *
       done)

theorem xml_text_no_warn (p : parse) (word : List Char) :
    xml_text p.no_warn word =
      (xml_text p word).map parse.no_warn := by
  generalize hx : xml_text p word = x
  unfold xml_text at hx
  repeat' (first | split at hx | dsimp only at hx)
  all_goals subst hx
  all_goals try simp only [
      warn_msg_eq, pnode.setFlags_eq, pnode.setNode_eq, pnode.setB_eq, pnode.flags_mk,
      pnode.node_mk, pnode.addr_mk, pnode.parent_mk, pnode.b_mk, pnode.childq_mk,
      pnode.attrq_mk] at *
  all_goals try simp only [
      xml_text, parse.no_warn_fname, parse.no_warn_root, parse.no_warn_doctype,
      parse.no_warn_stack, parse.no_warn_loose, parse.no_warn_ncur, parse.no_warn_line,
      parse.no_warn_col, parse.no_warn_nline, parse.no_warn_ncol, parse.no_warn_del,
      parse.no_warn_nofill, parse.no_warn_next, parse.no_warn_files, parse.no_warn_closed,
      parse.no_warn_error, parse.no_warn_fline, parse.no_warn_spc, parse.no_warn_attr,
      parse.no_warn_eend, parse.no_warn_cur, parse.no_warn_alloc, parse.no_warn_zip,
      parse.no_warn_deref, warn_msg_eq, pnode.setFlags_eq, pnode.setNode_eq, pnode.setB_eq,
      pnode.flags_mk, pnode.node_mk, pnode.addr_mk, pnode.parent_mk, pnode.b_mk,
      pnode.childq_mk, pnode.attrq_mk, except_map_ok, except_map_error, no_warn_fold_a,
      no_warn_fold_b, no_warn_fold_c, no_warn_fold_d, parse.no_warn_pop, parse.no_warn_setCur,
      parse.no_warn_link, parse.no_warn_push, parse.no_warn_alloc2, parse.no_warn_alloc,
      parse.no_warn_unlink, parse.no_warn_unlink_open, error_msg_no_warn, parse.no_warn_idem,
      *, if_true, if_false, not_true_eq_false, not_false_eq_true, ne_eq, and_self, and_true,
      true_and, and_false, false_and, or_true, true_or, or_false, false_or, Bool.false_eq_true,
      not_not]
  all_goals first
    | rfl
    | (simp only [
        except_map_ok, except_map_error, no_warn_fold_a, no_warn_fold_b, no_warn_fold_c,
        no_warn_fold_d, parse.no_warn_pop, parse.no_warn_setCur, parse.no_warn_link,
        parse.no_warn_push, parse.no_warn_alloc2, parse.no_warn_alloc, parse.no_warn_unlink,
        parse.no_warn_unlink_open, error_msg_no_warn, parse.no_warn_idem]
       done)
    | (simp only [
        except_map_ok, except_map_error, no_warn_fold_a, no_warn_fold_b, no_warn_fold_c,
        no_warn_fold_d, parse.no_warn_pop, parse.no_warn_setCur, parse.no_warn_link,
        parse.no_warn_push, parse.no_warn_alloc2, parse.no_warn_alloc, parse.no_warn_unlink,
        parse.no_warn_unlink_open, error_msg_no_warn, parse.no_warn_idem]
       rfl)
    | (simp only [
        except_map_ok, except_map_error, ← parse.no_warn_pop, ← parse.no_warn_setCur,
        ← parse.no_warn_link, ← parse.no_warn_push, ← parse.no_warn_alloc2,
        ← parse.no_warn_unlink, ← parse.no_warn_unlink_open, ← error_msg_no_warn]
       rfl)
    | (exfalso
       simp at *
       done)

theorem xml_entity_done_no_warn (p : parse) (b : cstring) :
    xml_entity_done p.no_warn b =
      (xml_entity_done p b).map parse.no_warn := by
  generalize hx : xml_entity_done p b = x
  unfold xml_entity_done at hx
  repeat' (first | split at hx | dsimp only at hx)
  all_goals subst hx
  all_goals try simp only [
      warn_msg_eq, pnode.setFlags_eq, pnode.setNode_eq, pnode.setB_eq, pnode.flags_mk,
      pnode.node_mk, pnode.addr_mk, pnode.parent_mk, pnode.b_mk, pnode.childq_mk,
      pnode.attrq_mk] at *
  all_goals try simp only [
      xml_entity_done, parse.no_warn_fname, parse.no_warn_root, parse.no_warn_doctype,
      parse.no_warn_stack, parse.no_warn_loose, parse.no_warn_ncur, parse.no_warn_line,
      parse.no_warn_col, parse.no_warn_nline, parse.no_warn_ncol, parse.no_warn_del,
      parse.no_warn_nofill, parse.no_warn_next, parse.no_warn_files, parse.no_warn_closed,
      parse.no_warn_error, parse.no_warn_fline, parse.no_warn_spc, parse.no_warn_attr,
      parse.no_warn_eend, parse.no_warn_cur, parse.no_warn_alloc, parse.no_warn_zip,
      parse.no_warn_deref, warn_msg_eq, pnode.setFlags_eq, pnode.setNode_eq, pnode.setB_eq,
      pnode.flags_mk, pnode.node_mk, pnode.addr_mk, pnode.parent_mk, pnode.b_mk,
      pnode.childq_mk, pnode.attrq_mk, except_map_ok, except_map_error, no_warn_fold_a,
      no_warn_fold_b, no_warn_fold_c, no_warn_fold_d, parse.no_warn_pop, parse.no_warn_setCur,
      parse.no_warn_link, parse.no_warn_push, parse.no_warn_alloc2, parse.no_warn_alloc,
      parse.no_warn_unlink, parse.no_warn_unlink_open, error_msg_no_warn, parse.no_warn_idem,
      *, if_true, if_false, not_true_eq_false, not_false_eq_true, ne_eq, and_self, and_true,
      true_and, and_false, false_and, or_true, true_or, or_false, false_or, Bool.false_eq_true,
      not_not]
  all_goals first
    | rfl
    | (simp only [
        except_map_ok, except_map_error, no_warn_fold_a, no_warn_fold_b, no_warn_fold_c,
        no_warn_fold_d, parse.no_warn_pop, parse.no_warn_setCur, parse.no_warn_link,
        parse.no_warn_push, parse.no_warn_alloc2, parse.no_warn_alloc, parse.no_warn_unlink,
        parse.no_warn_unlink_open, error_msg_no_warn, parse.no_warn_idem]
       done)
    | (simp only [
        except_map_ok, except_map_error, no_warn_fold_a, no_warn_fold_b, no_warn_fold_c,
        no_warn_fold_d, parse.no_warn_pop, parse.no_warn_setCur, parse.no_warn_link,
        parse.no_warn_push, parse.no_warn_alloc2, parse.no_warn_alloc, parse.no_warn_unlink,
        parse.no_warn_unlink_open, error_msg_no_warn, parse.no_warn_idem]
       rfl)
    | (simp only [
        except_map_ok, except_map_error, ← parse.no_warn_pop, ← parse.no_warn_setCur,
        ← parse.no_warn_link, ← parse.no_warn_push, ← parse.no_warn_alloc2,
        ← parse.no_warn_unlink, ← parse.no_warn_unlink_open, ← error_msg_no_warn]
       rfl)
    | (exfalso
       simp at *
       done)

theorem xml_attrval_no_warn (p : parse) (name : cstring) :
    xml_attrval p.no_warn name =
      (xml_attrval p name).map parse.no_warn := by
  generalize hx : xml_attrval p name = x
  unfold xml_attrval at hx
  repeat' (first | split at hx | dsimp only at hx)
  all_goals subst hx
  all_goals try simp only [
      warn_msg_eq, pnode.setFlags_eq, pnode.setNode_eq, pnode.setB_eq, pnode.flags_mk,
      pnode.node_mk, pnode.addr_mk, pnode.parent_mk, pnode.b_mk, pnode.childq_mk,
      pnode.attrq_mk] at *
  all_goals try simp only [
      xml_attrval, parse.no_warn_fname, parse.no_warn_root, parse.no_warn_doctype,
      parse.no_warn_stack, parse.no_warn_loose, parse.no_warn_ncur, parse.no_warn_line,
      parse.no_warn_col, parse.no_warn_nline, parse.no_warn_ncol, parse.no_warn_del,
      parse.no_warn_nofill, parse.no_warn_next, parse.no_warn_files, parse.no_warn_closed,
      parse.no_warn_error, parse.no_warn_fline, parse.no_warn_spc, parse.no_warn_attr,
      parse.no_warn_eend, parse.no_warn_cur, parse.no_warn_alloc, parse.no_warn_zip,
      parse.no_warn_deref, warn_msg_eq, pnode.setFlags_eq, pnode.setNode_eq, pnode.setB_eq,
      pnode.flags_mk, pnode.node_mk, pnode.addr_mk, pnode.parent_mk, pnode.b_mk,
      pnode.childq_mk, pnode.attrq_mk, except_map_ok, except_map_error, no_warn_fold_a,
      no_warn_fold_b, no_warn_fold_c, no_warn_fold_d, parse.no_warn_pop, parse.no_warn_setCur,
      parse.no_warn_link, parse.no_warn_push, parse.no_warn_alloc2, parse.no_warn_alloc,
      parse.no_warn_unlink, parse.no_warn_unlink_open, error_msg_no_warn, parse.no_warn_idem,
      *, if_true, if_false, not_true_eq_false, not_false_eq_true, ne_eq, and_self, and_true,
      true_and, and_false, false_and, or_true, true_or, or_false, false_or, Bool.false_eq_true,
      not_not]
  all_goals first
    | rfl
    | (simp only [
        except_map_ok, except_map_error, no_warn_fold_a, no_warn_fold_b, no_warn_fold_c,
        no_warn_fold_d, parse.no_warn_pop, parse.no_warn_setCur, parse.no_warn_link,
        parse.no_warn_push, parse.no_warn_alloc2, parse.no_warn_alloc, parse.no_warn_unlink,
        parse.no_warn_unlink_open, error_msg_no_warn, parse.no_warn_idem]
       done)
    | (simp only [
        except_map_ok, except_map_error, no_warn_fold_a, no_warn_fold_b, no_warn_fold_c,
        no_warn_fold_d, parse.no_warn_pop, parse.no_warn_setCur, parse.no_warn_link,
        parse.no_warn_push, parse.no_warn_alloc2, parse.no_warn_alloc, parse.no_warn_unlink,
        parse.no_warn_unlink_open, error_msg_no_warn, parse.no_warn_idem]
       rfl)
    | (simp only [
        except_map_ok, except_map_error, ← parse.no_warn_pop, ← parse.no_warn_setCur,
        ← parse.no_warn_link, ← parse.no_warn_push, ← parse.no_warn_alloc2,
        ← parse.no_warn_unlink, ← parse.no_warn_unlink_open, ← error_msg_no_warn]
       rfl)
    | (exfalso
       simp at *
       done)

theorem xml_entity_other_no_warn (r : nested) (hr : r.warn_free) (p : parse) (name : cstring) :
    xml_entity_other r p.no_warn name =
      (xml_entity_other r p name).map parse.no_warn := by
  have hf := fun p s => (hr p s).1
  have hs := fun p s => (hr p s).2
  generalize hx : xml_entity_other r p name = x
  unfold xml_entity_other at hx
  repeat' (first | split at hx | dsimp only at hx)
  all_goals subst hx
  all_goals try simp only [
      warn_msg_eq, pnode.setFlags_eq, pnode.setNode_eq, pnode.setB_eq, pnode.flags_mk,
      pnode.node_mk, pnode.addr_mk, pnode.parent_mk, pnode.b_mk, pnode.childq_mk,
      pnode.attrq_mk] at *
  all_goals try simp only [
      xml_entity_other, xml_entity_done_no_warn, hf, hs, map_reset_no_warn,
      parse.no_warn_fname, parse.no_warn_root, parse.no_warn_doctype, parse.no_warn_stack,
      parse.no_warn_loose, parse.no_warn_ncur, parse.no_warn_line, parse.no_warn_col,
      parse.no_warn_nline, parse.no_warn_ncol, parse.no_warn_del, parse.no_warn_nofill,
      parse.no_warn_next, parse.no_warn_files, parse.no_warn_closed, parse.no_warn_error,
      parse.no_warn_fline, parse.no_warn_spc, parse.no_warn_attr, parse.no_warn_eend,
      parse.no_warn_cur, parse.no_warn_alloc, parse.no_warn_zip, parse.no_warn_deref,
      warn_msg_eq, pnode.setFlags_eq, pnode.setNode_eq, pnode.setB_eq, pnode.flags_mk,
      pnode.node_mk, pnode.addr_mk, pnode.parent_mk, pnode.b_mk, pnode.childq_mk,
      pnode.attrq_mk, except_map_ok, except_map_error, no_warn_fold_a, no_warn_fold_b,
      no_warn_fold_c, no_warn_fold_d, parse.no_warn_pop, parse.no_warn_setCur,
      parse.no_warn_link, parse.no_warn_push, parse.no_warn_alloc2, parse.no_warn_alloc,
      parse.no_warn_unlink, parse.no_warn_unlink_open, error_msg_no_warn, parse.no_warn_idem,
      *, if_true, if_false, not_true_eq_false, not_false_eq_true, ne_eq, and_self, and_true,
      true_and, and_false, false_and, or_true, true_or, or_false, false_or, Bool.false_eq_true,
      not_not]
  all_goals first
    | rfl
    | (simp only [
        except_map_ok, except_map_error, no_warn_fold_a, no_warn_fold_b, no_warn_fold_c,
        no_warn_fold_d, parse.no_warn_pop, parse.no_warn_setCur, parse.no_warn_link,
        parse.no_warn_push, parse.no_warn_alloc2, parse.no_warn_alloc, parse.no_warn_unlink,
        parse.no_warn_unlink_open, error_msg_no_warn, parse.no_warn_idem]
       done)
    | (simp only [
        except_map_ok, except_map_error, no_warn_fold_a, no_warn_fold_b, no_warn_fold_c,
        no_warn_fold_d, parse.no_warn_pop, parse.no_warn_setCur, parse.no_warn_link,
        parse.no_warn_push, parse.no_warn_alloc2, parse.no_warn_alloc, parse.no_warn_unlink,
        parse.no_warn_unlink_open, error_msg_no_warn, parse.no_warn_idem]
       rfl)
    | (simp only [
        except_map_ok, except_map_error, ← parse.no_warn_pop, ← parse.no_warn_setCur,
        ← parse.no_warn_link, ← parse.no_warn_push, ← parse.no_warn_alloc2,
        ← parse.no_warn_unlink, ← parse.no_warn_unlink_open, ← error_msg_no_warn]
       rfl)
    | (simp only [
        ← xml_entity_done_no_warn]
       rfl)
    | (generalize r.file _ _ = y
       cases y <;> rfl)
    | (generalize r.str _ _ = y
       cases y <;> rfl)
    | (exfalso
       simp at *
       done)

theorem xml_entity_no_warn (r : nested) (hr : r.warn_free) (p : parse) (name : cstring) :
    xml_entity r p.no_warn name =
      (xml_entity r p name).map parse.no_warn := by
  have hf := fun p s => (hr p s).1
  have hs := fun p s => (hr p s).2
  generalize hx : xml_entity r p name = x
  unfold xml_entity at hx
  repeat' (first | split at hx | dsimp only at hx)
  all_goals subst hx
  all_goals try simp only [
      warn_msg_eq, pnode.setFlags_eq, pnode.setNode_eq, pnode.setB_eq, pnode.flags_mk,
      pnode.node_mk, pnode.addr_mk, pnode.parent_mk, pnode.b_mk, pnode.childq_mk,
      pnode.attrq_mk] at *
  all_goals try simp only [
      xml_entity, xml_entity_done_no_warn, pnode_closetext_no_warn,
      xml_entity_other_no_warn r hr, hf, hs, map_reset_no_warn, parse.no_warn_fname,
      parse.no_warn_root, parse.no_warn_doctype, parse.no_warn_stack, parse.no_warn_loose,
      parse.no_warn_ncur, parse.no_warn_line, parse.no_warn_col, parse.no_warn_nline,
      parse.no_warn_ncol, parse.no_warn_del, parse.no_warn_nofill, parse.no_warn_next,
      parse.no_warn_files, parse.no_warn_closed, parse.no_warn_error, parse.no_warn_fline,
      parse.no_warn_spc, parse.no_warn_attr, parse.no_warn_eend, parse.no_warn_cur,
      parse.no_warn_alloc, parse.no_warn_zip, parse.no_warn_deref, warn_msg_eq,
      pnode.setFlags_eq, pnode.setNode_eq, pnode.setB_eq, pnode.flags_mk, pnode.node_mk,
      pnode.addr_mk, pnode.parent_mk, pnode.b_mk, pnode.childq_mk, pnode.attrq_mk,
      except_map_ok, except_map_error, no_warn_fold_a, no_warn_fold_b, no_warn_fold_c,
      no_warn_fold_d, parse.no_warn_pop, parse.no_warn_setCur, parse.no_warn_link,
      parse.no_warn_push, parse.no_warn_alloc2, parse.no_warn_alloc, parse.no_warn_unlink,
      parse.no_warn_unlink_open, error_msg_no_warn, parse.no_warn_idem, *, if_true, if_false,
      not_true_eq_false, not_false_eq_true, ne_eq, and_self, and_true, true_and, and_false,
      false_and, or_true, true_or, or_false, false_or, Bool.false_eq_true, not_not]
  all_goals first
    | rfl
    | (simp only [
        except_map_ok, except_map_error, no_warn_fold_a, no_warn_fold_b, no_warn_fold_c,
        no_warn_fold_d, parse.no_warn_pop, parse.no_warn_setCur, parse.no_warn_link,
        parse.no_warn_push, parse.no_warn_alloc2, parse.no_warn_alloc, parse.no_warn_unlink,
        parse.no_warn_unlink_open, error_msg_no_warn, parse.no_warn_idem]
       done)
    | (simp only [
        except_map_ok, except_map_error, no_warn_fold_a, no_warn_fold_b, no_warn_fold_c,
        no_warn_fold_d, parse.no_warn_pop, parse.no_warn_setCur, parse.no_warn_link,
        parse.no_warn_push, parse.no_warn_alloc2, parse.no_warn_alloc, parse.no_warn_unlink,
        parse.no_warn_unlink_open, error_msg_no_warn, parse.no_warn_idem]
       rfl)
    | (simp only [
        except_map_ok, except_map_error, ← parse.no_warn_pop, ← parse.no_warn_setCur,
        ← parse.no_warn_link, ← parse.no_warn_push, ← parse.no_warn_alloc2,
        ← parse.no_warn_unlink, ← parse.no_warn_unlink_open, ← error_msg_no_warn]
       rfl)
    | (simp only [
        ← xml_entity_done_no_warn, ← pnode_closetext_no_warn, ← xml_entity_other_no_warn r hr]
       rfl)
    | (generalize r.file _ _ = y
       cases y <;> rfl)
    | (generalize r.str _ _ = y
       cases y <;> rfl)
    | (exfalso
       simp at *
       done)

theorem xml_elem_alloc_no_warn (p : parse) (cls : nodeclass) :
    xml_elem_alloc p.no_warn cls = (xml_elem_alloc p cls).no_warn := by
  obtain ⟨fname, root, ⟨e, w, c⟩, doctype, stack, loose, ncur, line, col, nline, ncol, del,
    nofill, ⟨pw, pl, ps, pa, pe⟩, next, files⟩ := p
  simp only [xml_elem_alloc, parse.no_warn, parse.alloc, parse.push, error_msg, parse.cur,
    pnode.setFlags_eq, pnode.setNode_eq, pnode.node_mk, pnode.parent_mk, pnode.addr_mk]
  split
  · split <;> rfl
  · split <;> rfl

theorem xml_elem_start_no_warn (p : parse) (name : cstring) :
    xml_elem_start p.no_warn name =
      (xml_elem_start p name).map parse.no_warn := by
  generalize hx : xml_elem_start p name = x
  unfold xml_elem_start at hx
  repeat' (first | split at hx | dsimp only at hx)
  all_goals subst hx
  all_goals try simp only [
      xml_elem_start, pnode_closetext_no_warn, xml_elem_alloc_no_warn, parse.no_warn_fname,
      parse.no_warn_root, parse.no_warn_doctype, parse.no_warn_stack, parse.no_warn_loose,
      parse.no_warn_ncur, parse.no_warn_line, parse.no_warn_col, parse.no_warn_nline,
      parse.no_warn_ncol, parse.no_warn_del, parse.no_warn_nofill, parse.no_warn_next,
      parse.no_warn_files, parse.no_warn_closed, parse.no_warn_error, parse.no_warn_fline,
      parse.no_warn_spc, parse.no_warn_attr, parse.no_warn_eend, parse.no_warn_cur,
      parse.no_warn_alloc, parse.no_warn_zip, parse.no_warn_deref, pnode.setFlags_eq,
      pnode.setNode_eq, pnode.setB_eq, pnode.flags_mk, pnode.node_mk, pnode.addr_mk,
      pnode.parent_mk, pnode.b_mk, pnode.childq_mk, pnode.attrq_mk, except_map_ok,
      except_map_error, no_warn_fold_a, no_warn_fold_b, no_warn_fold_c, no_warn_fold_d,
      parse.no_warn_pop, parse.no_warn_setCur, parse.no_warn_link, parse.no_warn_push,
      parse.no_warn_alloc2, parse.no_warn_alloc, parse.no_warn_unlink,
      parse.no_warn_unlink_open, error_msg_no_warn, parse.no_warn_idem, warn_msg_out,
      ite_no_warn, *, if_true, if_false, not_true_eq_false, not_false_eq_true, ne_eq, and_self,
      and_true, true_and, and_false, false_and, or_true, true_or, or_false, false_or,
      Bool.false_eq_true, not_not]
  all_goals first
    | rfl
    | (simp only [
        except_map_ok, except_map_error, no_warn_fold_a, no_warn_fold_b, no_warn_fold_c,
        no_warn_fold_d, parse.no_warn_pop, parse.no_warn_setCur, parse.no_warn_link,
        parse.no_warn_push, parse.no_warn_alloc2, parse.no_warn_alloc, parse.no_warn_unlink,
        parse.no_warn_unlink_open, error_msg_no_warn, parse.no_warn_idem, warn_msg_out,
        ite_no_warn]
       done)
    | (simp only [
        except_map_ok, except_map_error, no_warn_fold_a, no_warn_fold_b, no_warn_fold_c,
        no_warn_fold_d, parse.no_warn_pop, parse.no_warn_setCur, parse.no_warn_link,
        parse.no_warn_push, parse.no_warn_alloc2, parse.no_warn_alloc, parse.no_warn_unlink,
        parse.no_warn_unlink_open, error_msg_no_warn, parse.no_warn_idem, warn_msg_out,
        ite_no_warn]
       rfl)
    | (simp only [
        except_map_ok, except_map_error, ← parse.no_warn_pop, ← parse.no_warn_setCur,
        ← parse.no_warn_link, ← parse.no_warn_push, ← parse.no_warn_alloc2,
        ← parse.no_warn_unlink, ← parse.no_warn_unlink_open, ← error_msg_no_warn]
       rfl)
    | (simp only [
        ← pnode_closetext_no_warn, ← xml_elem_alloc_no_warn]
       rfl)
    | (exfalso
       simp at *
       done)
theorem xml_attrkey_aux_no_warn (k : Nat) : ∀ (p : parse) (name : cstring),
    xml_attrkey_aux k p.no_warn name = (xml_attrkey_aux k p name).map parse.no_warn := by
  induction k with
  | zero => intro p name; rfl
  | succ k ih =>
    intro p name
    unfold xml_attrkey_aux
    simp only [parse.no_warn_del, parse.no_warn_ncur, parse.no_warn_cur, parse.no_warn_stack]
    by_cases hc : p.del > 0 ∨ p.ncur.toCtorIdx ≥ NODE_UNKNOWN.toCtorIdx ∨ name.length = 0
    · rw [if_pos hc, if_pos hc]
      rfl
    · rw [if_neg hc, if_neg hc]
      generalize (if p.ncur = NODE_DOCTYPE ∨ p.ncur = NODE_ENTITY then
        Option.map (fun c => decide (c.attrq.length = 0)) p.cur else some false) = of
      cases of with
      | none => rfl
      | some first =>
        dsimp only
        generalize attrkey_parse (if first = true then "NAME".toList else name) = key
        generalize (if first = true then some name else none) = value
        by_cases hk : key = ATTRKEY__MAX
        · rw [if_pos hk, if_pos hk]
          rfl
        · rw [if_neg hk, if_neg hk]
          cases hst : p.stack with
          | nil => rfl
          | cons c rest =>
            simp only [parse.no_warn_setCur, no_warn_fold_a, parse.no_warn_fname,
              parse.no_warn_root, parse.no_warn_doctype, parse.no_warn_stack,
              parse.no_warn_loose, parse.no_warn_ncur, parse.no_warn_line, parse.no_warn_col,
              parse.no_warn_nline, parse.no_warn_ncol, parse.no_warn_del, parse.no_warn_nofill,
              parse.no_warn_next, parse.no_warn_files, parse.no_warn_fline, parse.no_warn_spc,
              parse.no_warn_eend, ih]
            split
            · rw [← ih]
              rfl
            · rfl

theorem xml_attrkey_no_warn (p : parse) (name : cstring) :
    xml_attrkey p.no_warn name = (xml_attrkey p name).map parse.no_warn :=
  xml_attrkey_aux_no_warn 2 p name

theorem xml_elem_close_no_warn (r : nested) (hr : r.warn_free) (p : parse) (node : nodeid) :
    xml_elem_close r p.no_warn node = (xml_elem_close r p node).map parse.no_warn := by
  have hf := fun p s => (hr p s).1
  obtain ⟨fname, root, ⟨e, w, c⟩, doctype, stack, loose, ncur, line, col, nline, ncol, del,
    nofill, ⟨pw, pl, ps, pa, pe⟩, next, files⟩ := p
  cases stack with
  | nil =>
    simp only [xml_elem_close, parse.no_warn, warn_msg_eq]
    rfl
  | cons n rest =>
    simp only [xml_elem_close, parse.no_warn, warn_msg_eq]
    cases pnode_class node with
    | none => split_ifs <;> rfl
    | some cls =>
      simp only []
      cases rest <;>
      split_ifs <;>
      (try simp only [parse.pop, parse.link, parse.cur, List.head?, pnode.insertTail_eq,
        pnode.node_mk]) <;>
      (try cases pnode_getattr_raw (some n) ATTRKEY_SYSTEM none) <;>
      first
        | rfl
        | (simp only []
           rw [← hf]
           rfl)
        | (rw [← hf]
           rfl)
theorem xml_elem_switch_no_warn (r : nested) (hr : r.warn_free) (p : parse) (node : nodeid) :
    xml_elem_switch r p.no_warn node =
      (xml_elem_switch r p node).map parse.no_warn := by
  have hf := fun p s => (hr p s).1
  have hs := fun p s => (hr p s).2
  generalize hx : xml_elem_switch r p node = x
  unfold xml_elem_switch at hx
  repeat' (first | split at hx | dsimp only at hx)
  all_goals subst hx
  all_goals try simp only [
      xml_elem_switch, xml_elem_close_no_warn r hr, hf, hs, map_reset_no_warn,
      parse.no_warn_fname, parse.no_warn_root, parse.no_warn_doctype, parse.no_warn_stack,
      parse.no_warn_loose, parse.no_warn_ncur, parse.no_warn_line, parse.no_warn_col,
      parse.no_warn_nline, parse.no_warn_ncol, parse.no_warn_del, parse.no_warn_nofill,
      parse.no_warn_next, parse.no_warn_files, parse.no_warn_closed, parse.no_warn_error,
      parse.no_warn_fline, parse.no_warn_spc, parse.no_warn_attr, parse.no_warn_eend,
      parse.no_warn_cur, parse.no_warn_alloc, parse.no_warn_zip, parse.no_warn_deref,
      pnode.setFlags_eq, pnode.setNode_eq, pnode.setB_eq, pnode.flags_mk, pnode.node_mk,
      pnode.addr_mk, pnode.parent_mk, pnode.b_mk, pnode.childq_mk, pnode.attrq_mk,
      except_map_ok, except_map_error, no_warn_fold_a, no_warn_fold_b, no_warn_fold_c,
      no_warn_fold_d, parse.no_warn_pop, parse.no_warn_setCur, parse.no_warn_link,
      parse.no_warn_push, parse.no_warn_alloc2, parse.no_warn_alloc, parse.no_warn_unlink,
      parse.no_warn_unlink_open, error_msg_no_warn, parse.no_warn_idem, warn_msg_out,
      ite_no_warn, *, if_true, if_false, not_true_eq_false, not_false_eq_true, ne_eq, and_self,
      and_true, true_and, and_false, false_and, or_true, true_or, or_false, false_or,
      Bool.false_eq_true, not_not]
  all_goals first
    | rfl
    | (simp only [
        except_map_ok, except_map_error, no_warn_fold_a, no_warn_fold_b, no_warn_fold_c,
        no_warn_fold_d, parse.no_warn_pop, parse.no_warn_setCur, parse.no_warn_link,
        parse.no_warn_push, parse.no_warn_alloc2, parse.no_warn_alloc, parse.no_warn_unlink,
        parse.no_warn_unlink_open, error_msg_no_warn, parse.no_warn_idem, warn_msg_out,
        ite_no_warn]
       done)
    | (simp only [
        except_map_ok, except_map_error, no_warn_fold_a, no_warn_fold_b, no_warn_fold_c,
        no_warn_fold_d, parse.no_warn_pop, parse.no_warn_setCur, parse.no_warn_link,
        parse.no_warn_push, parse.no_warn_alloc2, parse.no_warn_alloc, parse.no_warn_unlink,
        parse.no_warn_unlink_open, error_msg_no_warn, parse.no_warn_idem, warn_msg_out,
        ite_no_warn]
       rfl)
    | (simp only [
        except_map_ok, except_map_error, ← parse.no_warn_pop, ← parse.no_warn_setCur,
        ← parse.no_warn_link, ← parse.no_warn_push, ← parse.no_warn_alloc2,
        ← parse.no_warn_unlink, ← parse.no_warn_unlink_open, ← error_msg_no_warn]
       rfl)
    | (simp only [
        ← xml_elem_close_no_warn r hr]
       rfl)
    | (generalize r.file _ _ = y
       cases y <;> rfl)
    | (generalize r.str _ _ = y
       cases y <;> rfl)
    | (exfalso
       simp at *
       done)

theorem xml_elem_end_no_warn (r : nested) (hr : r.warn_free) (p : parse)
    (name : Option cstring) :
    xml_elem_end r p.no_warn name = (xml_elem_end r p name).map parse.no_warn := by
  unfold xml_elem_end
  simp only [parse.no_warn_del]
  split
  · rfl
  · have e : (if p.del = 0 then pnode_closetext p.no_warn false else Except.ok p.no_warn) =
        (if p.del = 0 then pnode_closetext p false else Except.ok p).map parse.no_warn := by
      split
      · exact pnode_closetext_no_warn p false
      · rfl
    rw [e]
    cases (if p.del = 0 then pnode_closetext p false else Except.ok p) with
    | error e => rfl
    | ok p1 =>
      simp only [except_map_ok, parse.no_warn_ncur, xml_elem_switch_no_warn r hr]
      generalize xml_elem_switch r p1 _ = y
      cases y with
      | error e => rfl
      | ok p2 =>
        simp only [except_map_ok, parse.no_warn_del]
        split <;> rfl
namespace scan
@[simp] theorem no_warn_p (s : scan) : s.no_warn.p = s.p.no_warn := rfl
@[simp] theorem no_warn_b (s : scan) : s.no_warn.b = s.b := rfl
@[simp] theorem no_warn_pstate (s : scan) : s.no_warn.pstate = s.pstate := rfl
@[simp] theorem no_warn_pend (s : scan) : s.no_warn.pend = s.pend := rfl
@[simp] theorem no_warn_pws (s : scan) : s.no_warn.pws = s.pws := rfl
end scan

theorem scan_fold (q : parse) (b : List (Option Char)) (st : pstate) (pe pw : Nat) :
    (⟨q.no_warn, b, st, pe, pw⟩ : scan) = scan.no_warn ⟨q, b, st, pe, pw⟩ := rfl
theorem increment_no_warn (s : scan) (refill : Bool) :
    increment s.no_warn refill =
      (increment s refill).map scan.no_warn := by
  generalize hx : increment s refill = x
  unfold increment at hx
  try simp only [bind, Except.bind, pure, Except.pure] at hx
  repeat' (first | split at hx | dsimp only at hx)
  all_goals subst hx
  all_goals try simp only [
      increment, scan.no_warn_p, scan.no_warn_b, scan.no_warn_pstate, scan.no_warn_pend,
      scan.no_warn_pws, scan_fold, bind, Except.bind, pure, Except.pure, parse.no_warn_fname,
      parse.no_warn_root, parse.no_warn_doctype, parse.no_warn_stack, parse.no_warn_loose,
      parse.no_warn_ncur, parse.no_warn_line, parse.no_warn_col, parse.no_warn_nline,
      parse.no_warn_ncol, parse.no_warn_del, parse.no_warn_nofill, parse.no_warn_next,
      parse.no_warn_files, parse.no_warn_closed, parse.no_warn_error, parse.no_warn_fline,
      parse.no_warn_spc, parse.no_warn_attr, parse.no_warn_eend, parse.no_warn_cur,
      parse.no_warn_alloc, parse.no_warn_zip, parse.no_warn_deref, pnode.setFlags_eq,
      pnode.setNode_eq, pnode.setB_eq, pnode.flags_mk, pnode.node_mk, pnode.addr_mk,
      pnode.parent_mk, pnode.b_mk, pnode.childq_mk, pnode.attrq_mk, except_map_ok,
      except_map_error, no_warn_fold_a, no_warn_fold_b, no_warn_fold_c, no_warn_fold_d,
      parse.no_warn_pop, parse.no_warn_setCur, parse.no_warn_link, parse.no_warn_push,
      parse.no_warn_alloc2, parse.no_warn_alloc, parse.no_warn_unlink,
      parse.no_warn_unlink_open, error_msg_no_warn, parse.no_warn_idem, warn_msg_out,
      ite_no_warn, *, if_true, if_false, not_true_eq_false, not_false_eq_true, ne_eq, and_self,
      and_true, true_and, and_false, false_and, or_true, true_or, or_false, false_or,
      Bool.false_eq_true, not_not]
  all_goals first
    | rfl
    | (simp only [
        except_map_ok, except_map_error, no_warn_fold_a, no_warn_fold_b, no_warn_fold_c,
        no_warn_fold_d, parse.no_warn_pop, parse.no_warn_setCur, parse.no_warn_link,
        parse.no_warn_push, parse.no_warn_alloc2, parse.no_warn_alloc, parse.no_warn_unlink,
        parse.no_warn_unlink_open, error_msg_no_warn, parse.no_warn_idem, warn_msg_out,
        ite_no_warn]
       done)
    | (simp only [
        except_map_ok, except_map_error, no_warn_fold_a, no_warn_fold_b, no_warn_fold_c,
        no_warn_fold_d, parse.no_warn_pop, parse.no_warn_setCur, parse.no_warn_link,
        parse.no_warn_push, parse.no_warn_alloc2, parse.no_warn_alloc, parse.no_warn_unlink,
        parse.no_warn_unlink_open, error_msg_no_warn, parse.no_warn_idem, warn_msg_out,
        ite_no_warn]
       rfl)
    | (simp only [
        except_map_ok, except_map_error, ← parse.no_warn_pop, ← parse.no_warn_setCur,
        ← parse.no_warn_link, ← parse.no_warn_push, ← parse.no_warn_alloc2,
        ← parse.no_warn_unlink, ← parse.no_warn_unlink_open, ← error_msg_no_warn]
       rfl)
    | (exfalso
       simp at *
       done)

theorem advance_loop_no_warn (k : Nat) : ∀ (s : scan) (rlen : Nat) (space : Bool) (charset : cstring) (refill : Bool),
    advance_loop k s.no_warn rlen space charset refill =
      (advance_loop k s rlen space charset refill).map scan.no_warn := by
  induction k with
  | zero =>
    intro s rlen space charset refill
    rfl
  | succ k ih =>
  intro s rlen space charset refill
  generalize hx : advance_loop (k + 1) s rlen space charset refill = x
  unfold advance_loop at hx
  try simp only [bind, Except.bind, pure, Except.pure] at hx
  repeat' (first | split at hx | dsimp only at hx)
  all_goals subst hx
  all_goals try simp only [
      advance_loop, increment_no_warn, ih, scan.no_warn_p, scan.no_warn_b, scan.no_warn_pstate,
      scan.no_warn_pend, scan.no_warn_pws, scan_fold, bind, Except.bind, pure, Except.pure,
      parse.no_warn_fname, parse.no_warn_root, parse.no_warn_doctype, parse.no_warn_stack,
      parse.no_warn_loose, parse.no_warn_ncur, parse.no_warn_line, parse.no_warn_col,
      parse.no_warn_nline, parse.no_warn_ncol, parse.no_warn_del, parse.no_warn_nofill,
      parse.no_warn_next, parse.no_warn_files, parse.no_warn_closed, parse.no_warn_error,
      parse.no_warn_fline, parse.no_warn_spc, parse.no_warn_attr, parse.no_warn_eend,
      parse.no_warn_cur, parse.no_warn_alloc, parse.no_warn_zip, parse.no_warn_deref,
      pnode.setFlags_eq, pnode.setNode_eq, pnode.setB_eq, pnode.flags_mk, pnode.node_mk,
      pnode.addr_mk, pnode.parent_mk, pnode.b_mk, pnode.childq_mk, pnode.attrq_mk,
      except_map_ok, except_map_error, no_warn_fold_a, no_warn_fold_b, no_warn_fold_c,
      no_warn_fold_d, parse.no_warn_pop, parse.no_warn_setCur, parse.no_warn_link,
      parse.no_warn_push, parse.no_warn_alloc2, parse.no_warn_alloc, parse.no_warn_unlink,
      parse.no_warn_unlink_open, error_msg_no_warn, parse.no_warn_idem, warn_msg_out,
      ite_no_warn, *, if_true, if_false, not_true_eq_false, not_false_eq_true, ne_eq, and_self,
      and_true, true_and, and_false, false_and, or_true, true_or, or_false, false_or,
      Bool.false_eq_true, not_not]
  all_goals first
    | rfl
    | (simp only [
        except_map_ok, except_map_error, no_warn_fold_a, no_warn_fold_b, no_warn_fold_c,
        no_warn_fold_d, parse.no_warn_pop, parse.no_warn_setCur, parse.no_warn_link,
        parse.no_warn_push, parse.no_warn_alloc2, parse.no_warn_alloc, parse.no_warn_unlink,
        parse.no_warn_unlink_open, error_msg_no_warn, parse.no_warn_idem, warn_msg_out,
        ite_no_warn]
       done)
    | (simp only [
        except_map_ok, except_map_error, no_warn_fold_a, no_warn_fold_b, no_warn_fold_c,
        no_warn_fold_d, parse.no_warn_pop, parse.no_warn_setCur, parse.no_warn_link,
        parse.no_warn_push, parse.no_warn_alloc2, parse.no_warn_alloc, parse.no_warn_unlink,
        parse.no_warn_unlink_open, error_msg_no_warn, parse.no_warn_idem, warn_msg_out,
        ite_no_warn]
       rfl)
    | (simp only [
        except_map_ok, except_map_error, ← parse.no_warn_pop, ← parse.no_warn_setCur,
        ← parse.no_warn_link, ← parse.no_warn_push, ← parse.no_warn_alloc2,
        ← parse.no_warn_unlink, ← parse.no_warn_unlink_open, ← error_msg_no_warn]
       rfl)
    | (simp only [
        ← increment_no_warn]
       rfl)
    | (exfalso
       simp at *
       done)

theorem advance_no_warn (s : scan) (rlen : Nat) (charset : cstring) (refill : Bool) :
    advance s.no_warn rlen charset refill =
      (advance s rlen charset refill).map (fun x => (x.1.no_warn, x.2)) := by
  cases refill
  · simp only [advance, Bool.false_eq_true, if_false]
    rw [advance_loop_no_warn]
    simp only [scan.no_warn_pend]
    generalize advance_loop _ _ _ _ _ _ = y
    cases y with
    | error e => rfl
    | ok s1 =>
      simp only [except_map_ok, scan.no_warn_pend]
      split_ifs <;> rfl
  · have e := advance_loop_no_warn (rlen - s.pend)
      { s with p := { s.p with nline := s.p.line, ncol := s.p.col } } rlen
      (charset.head? = some ' ') (if charset.head? = some ' ' then charset.drop 1 else charset) true
    simp only [advance, if_true]
    simp only [scan.no_warn, parse.no_warn] at e ⊢
    rw [e]
    generalize advance_loop _ _ _ _ _ _ = y
    cases y with
    | error e => rfl
    | ok s1 =>
      simp only [except_map_ok, scan.no_warn_pend]
      split_ifs <;> rfl

theorem scan_slash_no_warn (s : scan) :
    scan_slash s.no_warn =
      (scan_slash s).map (fun x => (x.1.no_warn, x.2)) := by
  generalize hx : scan_slash s = x
  unfold scan_slash at hx
  try simp only [bind, Except.bind, pure, Except.pure] at hx
  repeat' (first | split at hx | dsimp only at hx)
  all_goals subst hx
  all_goals try simp only [
      scan_slash, scan.no_warn_p, scan.no_warn_b, scan.no_warn_pstate, scan.no_warn_pend,
      scan.no_warn_pws, scan_fold, bind, Except.bind, pure, Except.pure, parse.no_warn_fname,
      parse.no_warn_root, parse.no_warn_doctype, parse.no_warn_stack, parse.no_warn_loose,
      parse.no_warn_ncur, parse.no_warn_line, parse.no_warn_col, parse.no_warn_nline,
      parse.no_warn_ncol, parse.no_warn_del, parse.no_warn_nofill, parse.no_warn_next,
      parse.no_warn_files, parse.no_warn_closed, parse.no_warn_error, parse.no_warn_fline,
      parse.no_warn_spc, parse.no_warn_attr, parse.no_warn_eend, parse.no_warn_cur,
      parse.no_warn_alloc, parse.no_warn_zip, parse.no_warn_deref, pnode.setFlags_eq,
      pnode.setNode_eq, pnode.setB_eq, pnode.flags_mk, pnode.node_mk, pnode.addr_mk,
      pnode.parent_mk, pnode.b_mk, pnode.childq_mk, pnode.attrq_mk, except_map_ok,
      except_map_error, no_warn_fold_a, no_warn_fold_b, no_warn_fold_c, no_warn_fold_d,
      parse.no_warn_pop, parse.no_warn_setCur, parse.no_warn_link, parse.no_warn_push,
      parse.no_warn_alloc2, parse.no_warn_alloc, parse.no_warn_unlink,
      parse.no_warn_unlink_open, error_msg_no_warn, parse.no_warn_idem, warn_msg_out,
      ite_no_warn, *, if_true, if_false, not_true_eq_false, not_false_eq_true, ne_eq, and_self,
      and_true, true_and, and_false, false_and, or_true, true_or, or_false, false_or,
      Bool.false_eq_true, not_not]
  all_goals first
    | rfl
    | (simp only [
        except_map_ok, except_map_error, no_warn_fold_a, no_warn_fold_b, no_warn_fold_c,
        no_warn_fold_d, parse.no_warn_pop, parse.no_warn_setCur, parse.no_warn_link,
        parse.no_warn_push, parse.no_warn_alloc2, parse.no_warn_alloc, parse.no_warn_unlink,
        parse.no_warn_unlink_open, error_msg_no_warn, parse.no_warn_idem, warn_msg_out,
        ite_no_warn]
       done)
    | (simp only [
        except_map_ok, except_map_error, no_warn_fold_a, no_warn_fold_b, no_warn_fold_c,
        no_warn_fold_d, parse.no_warn_pop, parse.no_warn_setCur, parse.no_warn_link,
        parse.no_warn_push, parse.no_warn_alloc2, parse.no_warn_alloc, parse.no_warn_unlink,
        parse.no_warn_unlink_open, error_msg_no_warn, parse.no_warn_idem, warn_msg_out,
        ite_no_warn]
       rfl)
    | (simp only [
        except_map_ok, except_map_error, ← parse.no_warn_pop, ← parse.no_warn_setCur,
        ← parse.no_warn_link, ← parse.no_warn_push, ← parse.no_warn_alloc2,
        ← parse.no_warn_unlink, ← parse.no_warn_unlink_open, ← error_msg_no_warn]
       rfl)
    | (exfalso
       simp at *
       done)

theorem scan_term_no_warn (s : scan) (rlen : Nat) (refill : Bool) :
    scan_term s.no_warn rlen refill =
      (scan_term s rlen refill).map scan.no_warn := by
  generalize hx : scan_term s rlen refill = x
  unfold scan_term at hx
  try simp only [bind, Except.bind, pure, Except.pure] at hx
  repeat' (first | split at hx | dsimp only at hx)
  all_goals subst hx
  all_goals try simp only [
      scan_term, increment_no_warn, scan.no_warn_p, scan.no_warn_b, scan.no_warn_pstate,
      scan.no_warn_pend, scan.no_warn_pws, scan_fold, bind, Except.bind, pure, Except.pure,
      parse.no_warn_fname, parse.no_warn_root, parse.no_warn_doctype, parse.no_warn_stack,
      parse.no_warn_loose, parse.no_warn_ncur, parse.no_warn_line, parse.no_warn_col,
      parse.no_warn_nline, parse.no_warn_ncol, parse.no_warn_del, parse.no_warn_nofill,
      parse.no_warn_next, parse.no_warn_files, parse.no_warn_closed, parse.no_warn_error,
      parse.no_warn_fline, parse.no_warn_spc, parse.no_warn_attr, parse.no_warn_eend,
      parse.no_warn_cur, parse.no_warn_alloc, parse.no_warn_zip, parse.no_warn_deref,
      pnode.setFlags_eq, pnode.setNode_eq, pnode.setB_eq, pnode.flags_mk, pnode.node_mk,
      pnode.addr_mk, pnode.parent_mk, pnode.b_mk, pnode.childq_mk, pnode.attrq_mk,
      except_map_ok, except_map_error, no_warn_fold_a, no_warn_fold_b, no_warn_fold_c,
      no_warn_fold_d, parse.no_warn_pop, parse.no_warn_setCur, parse.no_warn_link,
      parse.no_warn_push, parse.no_warn_alloc2, parse.no_warn_alloc, parse.no_warn_unlink,
      parse.no_warn_unlink_open, error_msg_no_warn, parse.no_warn_idem, warn_msg_out,
      ite_no_warn, *, if_true, if_false, not_true_eq_false, not_false_eq_true, ne_eq, and_self,
      and_true, true_and, and_false, false_and, or_true, true_or, or_false, false_or,
      Bool.false_eq_true, not_not]
  all_goals first
    | rfl
    | (simp only [
        except_map_ok, except_map_error, no_warn_fold_a, no_warn_fold_b, no_warn_fold_c,
        no_warn_fold_d, parse.no_warn_pop, parse.no_warn_setCur, parse.no_warn_link,
        parse.no_warn_push, parse.no_warn_alloc2, parse.no_warn_alloc, parse.no_warn_unlink,
        parse.no_warn_unlink_open, error_msg_no_warn, parse.no_warn_idem, warn_msg_out,
        ite_no_warn]
       done)
    | (simp only [
        except_map_ok, except_map_error, no_warn_fold_a, no_warn_fold_b, no_warn_fold_c,
        no_warn_fold_d, parse.no_warn_pop, parse.no_warn_setCur, parse.no_warn_link,
        parse.no_warn_push, parse.no_warn_alloc2, parse.no_warn_alloc, parse.no_warn_unlink,
        parse.no_warn_unlink_open, error_msg_no_warn, parse.no_warn_idem, warn_msg_out,
        ite_no_warn]
       rfl)
    | (simp only [
        except_map_ok, except_map_error, ← parse.no_warn_pop, ← parse.no_warn_setCur,
        ← parse.no_warn_link, ← parse.no_warn_push, ← parse.no_warn_alloc2,
        ← parse.no_warn_unlink, ← parse.no_warn_unlink_open, ← error_msg_no_warn]
       rfl)
    | (simp only [
        ← increment_no_warn]
       rfl)
    | (exfalso
       simp at *
       done)

theorem scan_skip_no_warn (k : Nat) : ∀ (s : scan) (cp : Nat) (refill : Bool),
    scan_skip k s.no_warn cp refill =
      (scan_skip k s cp refill).map scan.no_warn := by
  induction k with
  | zero =>
    intro s cp refill
    rfl
  | succ k ih =>
  intro s cp refill
  generalize hx : scan_skip (k + 1) s cp refill = x
  unfold scan_skip at hx
  try simp only [bind, Except.bind, pure, Except.pure] at hx
  repeat' (first | split at hx | dsimp only at hx)
  all_goals subst hx
  all_goals try simp only [
      scan_skip, increment_no_warn, ih, scan.no_warn_p, scan.no_warn_b, scan.no_warn_pstate,
      scan.no_warn_pend, scan.no_warn_pws, scan_fold, bind, Except.bind, pure, Except.pure,
      parse.no_warn_fname, parse.no_warn_root, parse.no_warn_doctype, parse.no_warn_stack,
      parse.no_warn_loose, parse.no_warn_ncur, parse.no_warn_line, parse.no_warn_col,
      parse.no_warn_nline, parse.no_warn_ncol, parse.no_warn_del, parse.no_warn_nofill,
      parse.no_warn_next, parse.no_warn_files, parse.no_warn_closed, parse.no_warn_error,
      parse.no_warn_fline, parse.no_warn_spc, parse.no_warn_attr, parse.no_warn_eend,
      parse.no_warn_cur, parse.no_warn_alloc, parse.no_warn_zip, parse.no_warn_deref,
      pnode.setFlags_eq, pnode.setNode_eq, pnode.setB_eq, pnode.flags_mk, pnode.node_mk,
      pnode.addr_mk, pnode.parent_mk, pnode.b_mk, pnode.childq_mk, pnode.attrq_mk,
      except_map_ok, except_map_error, no_warn_fold_a, no_warn_fold_b, no_warn_fold_c,
      no_warn_fold_d, parse.no_warn_pop, parse.no_warn_setCur, parse.no_warn_link,
      parse.no_warn_push, parse.no_warn_alloc2, parse.no_warn_alloc, parse.no_warn_unlink,
      parse.no_warn_unlink_open, error_msg_no_warn, parse.no_warn_idem, warn_msg_out,
      ite_no_warn, *, if_true, if_false, not_true_eq_false, not_false_eq_true, ne_eq, and_self,
      and_true, true_and, and_false, false_and, or_true, true_or, or_false, false_or,
      Bool.false_eq_true, not_not]
  all_goals first
    | rfl
    | (simp only [
        except_map_ok, except_map_error, no_warn_fold_a, no_warn_fold_b, no_warn_fold_c,
        no_warn_fold_d, parse.no_warn_pop, parse.no_warn_setCur, parse.no_warn_link,
        parse.no_warn_push, parse.no_warn_alloc2, parse.no_warn_alloc, parse.no_warn_unlink,
        parse.no_warn_unlink_open, error_msg_no_warn, parse.no_warn_idem, warn_msg_out,
        ite_no_warn]
       done)
    | (simp only [
        except_map_ok, except_map_error, no_warn_fold_a, no_warn_fold_b, no_warn_fold_c,
        no_warn_fold_d, parse.no_warn_pop, parse.no_warn_setCur, parse.no_warn_link,
        parse.no_warn_push, parse.no_warn_alloc2, parse.no_warn_alloc, parse.no_warn_unlink,
        parse.no_warn_unlink_open, error_msg_no_warn, parse.no_warn_idem, warn_msg_out,
        ite_no_warn]
       rfl)
    | (simp only [
        except_map_ok, except_map_error, ← parse.no_warn_pop, ← parse.no_warn_setCur,
        ← parse.no_warn_link, ← parse.no_warn_push, ← parse.no_warn_alloc2,
        ← parse.no_warn_unlink, ← parse.no_warn_unlink_open, ← error_msg_no_warn]
       rfl)
    | (simp only [
        ← increment_no_warn]
       rfl)
    | (exfalso
       simp at *
       done)

theorem scan_entity_no_warn (r : nested) (hr : r.warn_free) (s : scan) (rlen : Nat) (refill : Bool) (poff : Nat) :
    scan_entity r s.no_warn rlen refill poff =
      (scan_entity r s rlen refill poff).map (fun x => (x.1.no_warn, x.2)) := by
  have hf := fun p s => (hr p s).1
  have hs := fun p s => (hr p s).2
  generalize hx : scan_entity r s rlen refill poff = x
  unfold scan_entity at hx
  try simp only [bind, Except.bind, pure, Except.pure] at hx
  repeat' (first | split at hx | dsimp only at hx)
  all_goals subst hx
  all_goals try simp only [
      scan_entity, advance_no_warn, scan_term_no_warn, xml_entity_no_warn r hr, scan.no_warn_p,
      scan.no_warn_b, scan.no_warn_pstate, scan.no_warn_pend, scan.no_warn_pws, scan_fold,
      bind, Except.bind, pure, Except.pure, hf, hs, map_reset_no_warn, parse.no_warn_fname,
      parse.no_warn_root, parse.no_warn_doctype, parse.no_warn_stack, parse.no_warn_loose,
      parse.no_warn_ncur, parse.no_warn_line, parse.no_warn_col, parse.no_warn_nline,
      parse.no_warn_ncol, parse.no_warn_del, parse.no_warn_nofill, parse.no_warn_next,
      parse.no_warn_files, parse.no_warn_closed, parse.no_warn_error, parse.no_warn_fline,
      parse.no_warn_spc, parse.no_warn_attr, parse.no_warn_eend, parse.no_warn_cur,
      parse.no_warn_alloc, parse.no_warn_zip, parse.no_warn_deref, pnode.setFlags_eq,
      pnode.setNode_eq, pnode.setB_eq, pnode.flags_mk, pnode.node_mk, pnode.addr_mk,
      pnode.parent_mk, pnode.b_mk, pnode.childq_mk, pnode.attrq_mk, except_map_ok,
      except_map_error, no_warn_fold_a, no_warn_fold_b, no_warn_fold_c, no_warn_fold_d,
      parse.no_warn_pop, parse.no_warn_setCur, parse.no_warn_link, parse.no_warn_push,
      parse.no_warn_alloc2, parse.no_warn_alloc, parse.no_warn_unlink,
      parse.no_warn_unlink_open, error_msg_no_warn, parse.no_warn_idem, warn_msg_out,
      ite_no_warn, *, if_true, if_false, not_true_eq_false, not_false_eq_true, ne_eq, and_self,
      and_true, true_and, and_false, false_and, or_true, true_or, or_false, false_or,
      Bool.false_eq_true, not_not]
  all_goals first
    | rfl
    | (simp only [
        except_map_ok, except_map_error, no_warn_fold_a, no_warn_fold_b, no_warn_fold_c,
        no_warn_fold_d, parse.no_warn_pop, parse.no_warn_setCur, parse.no_warn_link,
        parse.no_warn_push, parse.no_warn_alloc2, parse.no_warn_alloc, parse.no_warn_unlink,
        parse.no_warn_unlink_open, error_msg_no_warn, parse.no_warn_idem, warn_msg_out,
        ite_no_warn]
       done)
    | (simp only [
        except_map_ok, except_map_error, no_warn_fold_a, no_warn_fold_b, no_warn_fold_c,
        no_warn_fold_d, parse.no_warn_pop, parse.no_warn_setCur, parse.no_warn_link,
        parse.no_warn_push, parse.no_warn_alloc2, parse.no_warn_alloc, parse.no_warn_unlink,
        parse.no_warn_unlink_open, error_msg_no_warn, parse.no_warn_idem, warn_msg_out,
        ite_no_warn]
       rfl)
    | (simp only [
        except_map_ok, except_map_error, ← parse.no_warn_pop, ← parse.no_warn_setCur,
        ← parse.no_warn_link, ← parse.no_warn_push, ← parse.no_warn_alloc2,
        ← parse.no_warn_unlink, ← parse.no_warn_unlink_open, ← error_msg_no_warn]
       rfl)
    | (simp only [
        ← advance_no_warn, ← scan_term_no_warn, ← xml_entity_no_warn r hr]
       rfl)
    | (generalize r.file _ _ = y
       cases y <;> rfl)
    | (generalize r.str _ _ = y
       cases y <;> rfl)
    | (exfalso
       simp at *
       done)

theorem scan_text_no_warn (s : scan) (rlen : Nat) (refill : Bool) (poff : Nat) :
    scan_text s.no_warn rlen refill poff =
      (scan_text s rlen refill poff).map (fun x => (x.1.no_warn, x.2)) := by
  generalize hx : scan_text s rlen refill poff = x
  unfold scan_text at hx
  try simp only [bind, Except.bind, pure, Except.pure] at hx
  repeat' (first | split at hx | dsimp only at hx)
  all_goals subst hx
  all_goals try simp only [
      scan_text, advance_no_warn, xml_text_no_warn, pnode_closetext_no_warn, scan.no_warn_p,
      scan.no_warn_b, scan.no_warn_pstate, scan.no_warn_pend, scan.no_warn_pws, scan_fold,
      bind, Except.bind, pure, Except.pure, parse.no_warn_fname, parse.no_warn_root,
      parse.no_warn_doctype, parse.no_warn_stack, parse.no_warn_loose, parse.no_warn_ncur,
      parse.no_warn_line, parse.no_warn_col, parse.no_warn_nline, parse.no_warn_ncol,
      parse.no_warn_del, parse.no_warn_nofill, parse.no_warn_next, parse.no_warn_files,
      parse.no_warn_closed, parse.no_warn_error, parse.no_warn_fline, parse.no_warn_spc,
      parse.no_warn_attr, parse.no_warn_eend, parse.no_warn_cur, parse.no_warn_alloc,
      parse.no_warn_zip, parse.no_warn_deref, pnode.setFlags_eq, pnode.setNode_eq,
      pnode.setB_eq, pnode.flags_mk, pnode.node_mk, pnode.addr_mk, pnode.parent_mk, pnode.b_mk,
      pnode.childq_mk, pnode.attrq_mk, except_map_ok, except_map_error, no_warn_fold_a,
      no_warn_fold_b, no_warn_fold_c, no_warn_fold_d, parse.no_warn_pop, parse.no_warn_setCur,
      parse.no_warn_link, parse.no_warn_push, parse.no_warn_alloc2, parse.no_warn_alloc,
      parse.no_warn_unlink, parse.no_warn_unlink_open, error_msg_no_warn, parse.no_warn_idem,
      warn_msg_out, ite_no_warn, *, if_true, if_false, not_true_eq_false, not_false_eq_true,
      ne_eq, and_self, and_true, true_and, and_false, false_and, or_true, true_or, or_false,
      false_or, Bool.false_eq_true, not_not]
  all_goals first
    | rfl
    | (simp only [
        except_map_ok, except_map_error, no_warn_fold_a, no_warn_fold_b, no_warn_fold_c,
        no_warn_fold_d, parse.no_warn_pop, parse.no_warn_setCur, parse.no_warn_link,
        parse.no_warn_push, parse.no_warn_alloc2, parse.no_warn_alloc, parse.no_warn_unlink,
        parse.no_warn_unlink_open, error_msg_no_warn, parse.no_warn_idem, warn_msg_out,
        ite_no_warn]
       done)
    | (simp only [
        except_map_ok, except_map_error, no_warn_fold_a, no_warn_fold_b, no_warn_fold_c,
        no_warn_fold_d, parse.no_warn_pop, parse.no_warn_setCur, parse.no_warn_link,
        parse.no_warn_push, parse.no_warn_alloc2, parse.no_warn_alloc, parse.no_warn_unlink,
        parse.no_warn_unlink_open, error_msg_no_warn, parse.no_warn_idem, warn_msg_out,
        ite_no_warn]
       rfl)
    | (simp only [
        except_map_ok, except_map_error, ← parse.no_warn_pop, ← parse.no_warn_setCur,
        ← parse.no_warn_link, ← parse.no_warn_push, ← parse.no_warn_alloc2,
        ← parse.no_warn_unlink, ← parse.no_warn_unlink_open, ← error_msg_no_warn]
       rfl)
    | (simp only [
        ← advance_no_warn, ← xml_text_no_warn, ← pnode_closetext_no_warn]
       rfl)
    | (exfalso
       simp at *
       done)

theorem scan_value_no_warn (r : nested) (hr : r.warn_free) (s : scan) (rlen : Nat) (refill : Bool) (poff : Nat) :
    scan_value r s.no_warn rlen refill poff =
      (scan_value r s rlen refill poff).map (fun x => (x.1.no_warn, x.2)) := by
  have hf := fun p s => (hr p s).1
  have hs := fun p s => (hr p s).2
  generalize hx : scan_value r s rlen refill poff = x
  unfold scan_value at hx
  try simp only [bind, Except.bind, pure, Except.pure] at hx
  repeat' (first | split at hx | dsimp only at hx)
  all_goals subst hx
  all_goals try simp only [
      scan_value, advance_no_warn, scan_term_no_warn, scan_slash_no_warn, xml_attrval_no_warn,
      xml_elem_end_no_warn r hr, scan.no_warn_p, scan.no_warn_b, scan.no_warn_pstate,
      scan.no_warn_pend, scan.no_warn_pws, scan_fold, bind, Except.bind, pure, Except.pure, hf,
      hs, map_reset_no_warn, parse.no_warn_fname, parse.no_warn_root, parse.no_warn_doctype,
      parse.no_warn_stack, parse.no_warn_loose, parse.no_warn_ncur, parse.no_warn_line,
      parse.no_warn_col, parse.no_warn_nline, parse.no_warn_ncol, parse.no_warn_del,
      parse.no_warn_nofill, parse.no_warn_next, parse.no_warn_files, parse.no_warn_closed,
      parse.no_warn_error, parse.no_warn_fline, parse.no_warn_spc, parse.no_warn_attr,
      parse.no_warn_eend, parse.no_warn_cur, parse.no_warn_alloc, parse.no_warn_zip,
      parse.no_warn_deref, pnode.setFlags_eq, pnode.setNode_eq, pnode.setB_eq, pnode.flags_mk,
      pnode.node_mk, pnode.addr_mk, pnode.parent_mk, pnode.b_mk, pnode.childq_mk,
      pnode.attrq_mk, except_map_ok, except_map_error, no_warn_fold_a, no_warn_fold_b,
      no_warn_fold_c, no_warn_fold_d, parse.no_warn_pop, parse.no_warn_setCur,
      parse.no_warn_link, parse.no_warn_push, parse.no_warn_alloc2, parse.no_warn_alloc,
      parse.no_warn_unlink, parse.no_warn_unlink_open, error_msg_no_warn, parse.no_warn_idem,
      warn_msg_out, ite_no_warn, *, if_true, if_false, not_true_eq_false, not_false_eq_true,
      ne_eq, and_self, and_true, true_and, and_false, false_and, or_true, true_or, or_false,
      false_or, Bool.false_eq_true, not_not]
  all_goals first
    | rfl
    | (simp only [
        except_map_ok, except_map_error, no_warn_fold_a, no_warn_fold_b, no_warn_fold_c,
        no_warn_fold_d, parse.no_warn_pop, parse.no_warn_setCur, parse.no_warn_link,
        parse.no_warn_push, parse.no_warn_alloc2, parse.no_warn_alloc, parse.no_warn_unlink,
        parse.no_warn_unlink_open, error_msg_no_warn, parse.no_warn_idem, warn_msg_out,
        ite_no_warn]
       done)
    | (simp only [
        except_map_ok, except_map_error, no_warn_fold_a, no_warn_fold_b, no_warn_fold_c,
        no_warn_fold_d, parse.no_warn_pop, parse.no_warn_setCur, parse.no_warn_link,
        parse.no_warn_push, parse.no_warn_alloc2, parse.no_warn_alloc, parse.no_warn_unlink,
        parse.no_warn_unlink_open, error_msg_no_warn, parse.no_warn_idem, warn_msg_out,
        ite_no_warn]
       rfl)
    | (simp only [
        except_map_ok, except_map_error, ← parse.no_warn_pop, ← parse.no_warn_setCur,
        ← parse.no_warn_link, ← parse.no_warn_push, ← parse.no_warn_alloc2,
        ← parse.no_warn_unlink, ← parse.no_warn_unlink_open, ← error_msg_no_warn]
       rfl)
    | (simp only [
        ← advance_no_warn, ← scan_term_no_warn, ← scan_slash_no_warn, ← xml_attrval_no_warn,
        ← xml_elem_end_no_warn r hr]
       rfl)
    | (generalize r.file _ _ = y
       cases y <;> rfl)
    | (generalize r.str _ _ = y
       cases y <;> rfl)
    | (simp_all
       done)
    | (exfalso
       simp at *
       done)

theorem scan_key_no_warn (r : nested) (hr : r.warn_free) (s : scan) (rlen : Nat) (refill : Bool) (poff : Nat) :
    scan_key r s.no_warn rlen refill poff =
      (scan_key r s rlen refill poff).map (fun x => (x.1.no_warn, x.2)) := by
  have hf := fun p s => (hr p s).1
  have hs := fun p s => (hr p s).2
  generalize hx : scan_key r s rlen refill poff = x
  unfold scan_key at hx
  try simp only [bind, Except.bind, pure, Except.pure] at hx
  repeat' (first | split at hx | dsimp only at hx)
  all_goals subst hx
  all_goals try simp only [
      scan_key, advance_no_warn, scan_term_no_warn, scan_slash_no_warn, xml_attrkey_no_warn,
      xml_elem_end_no_warn r hr, scan.no_warn_p, scan.no_warn_b, scan.no_warn_pstate,
      scan.no_warn_pend, scan.no_warn_pws, scan_fold, bind, Except.bind, pure, Except.pure, hf,
      hs, map_reset_no_warn, parse.no_warn_fname, parse.no_warn_root, parse.no_warn_doctype,
      parse.no_warn_stack, parse.no_warn_loose, parse.no_warn_ncur, parse.no_warn_line,
      parse.no_warn_col, parse.no_warn_nline, parse.no_warn_ncol, parse.no_warn_del,
      parse.no_warn_nofill, parse.no_warn_next, parse.no_warn_files, parse.no_warn_closed,
      parse.no_warn_error, parse.no_warn_fline, parse.no_warn_spc, parse.no_warn_attr,
      parse.no_warn_eend, parse.no_warn_cur, parse.no_warn_alloc, parse.no_warn_zip,
      parse.no_warn_deref, pnode.setFlags_eq, pnode.setNode_eq, pnode.setB_eq, pnode.flags_mk,
      pnode.node_mk, pnode.addr_mk, pnode.parent_mk, pnode.b_mk, pnode.childq_mk,
      pnode.attrq_mk, except_map_ok, except_map_error, no_warn_fold_a, no_warn_fold_b,
      no_warn_fold_c, no_warn_fold_d, parse.no_warn_pop, parse.no_warn_setCur,
      parse.no_warn_link, parse.no_warn_push, parse.no_warn_alloc2, parse.no_warn_alloc,
      parse.no_warn_unlink, parse.no_warn_unlink_open, error_msg_no_warn, parse.no_warn_idem,
      warn_msg_out, ite_no_warn, *, if_true, if_false, not_true_eq_false, not_false_eq_true,
      ne_eq, and_self, and_true, true_and, and_false, false_and, or_true, true_or, or_false,
      false_or, Bool.false_eq_true, not_not]
  all_goals first
    | rfl
    | (simp only [
        except_map_ok, except_map_error, no_warn_fold_a, no_warn_fold_b, no_warn_fold_c,
        no_warn_fold_d, parse.no_warn_pop, parse.no_warn_setCur, parse.no_warn_link,
        parse.no_warn_push, parse.no_warn_alloc2, parse.no_warn_alloc, parse.no_warn_unlink,
        parse.no_warn_unlink_open, error_msg_no_warn, parse.no_warn_idem, warn_msg_out,
        ite_no_warn]
       done)
    | (simp only [
        except_map_ok, except_map_error, no_warn_fold_a, no_warn_fold_b, no_warn_fold_c,
        no_warn_fold_d, parse.no_warn_pop, parse.no_warn_setCur, parse.no_warn_link,
        parse.no_warn_push, parse.no_warn_alloc2, parse.no_warn_alloc, parse.no_warn_unlink,
        parse.no_warn_unlink_open, error_msg_no_warn, parse.no_warn_idem, warn_msg_out,
        ite_no_warn]
       rfl)
    | (simp only [
        except_map_ok, except_map_error, ← parse.no_warn_pop, ← parse.no_warn_setCur,
        ← parse.no_warn_link, ← parse.no_warn_push, ← parse.no_warn_alloc2,
        ← parse.no_warn_unlink, ← parse.no_warn_unlink_open, ← error_msg_no_warn]
       rfl)
    | (simp only [
        ← advance_no_warn, ← scan_term_no_warn, ← scan_slash_no_warn, ← xml_attrkey_no_warn,
        ← xml_elem_end_no_warn r hr]
       rfl)
    | (generalize r.file _ _ = y
       cases y <;> rfl)
    | (generalize r.str _ _ = y
       cases y <;> rfl)
    | (simp_all
       done)
    | (exfalso
       simp at *
       done)

theorem scan_tag_no_warn (r : nested) (hr : r.warn_free) (s : scan) (rlen : Nat) (refill : Bool) (poff : Nat) :
    scan_tag r s.no_warn rlen refill poff =
      (scan_tag r s rlen refill poff).map (fun x => (x.1.no_warn, x.2)) := by
  have hf := fun p s => (hr p s).1
  have hs := fun p s => (hr p s).2
  cases refill
  all_goals generalize hx : scan_tag r s rlen _ poff = x
  all_goals unfold scan_tag at hx
  all_goals try simp only [bind, Except.bind, pure, Except.pure] at hx
  all_goals repeat' (first | split at hx | dsimp only at hx)
  all_goals subst hx
  all_goals try subst_vars
  all_goals try simp only [
      scan_tag, advance_no_warn, scan_term_no_warn, scan_slash_no_warn, scan_skip_no_warn,
      xml_elem_start_no_warn, xml_elem_end_no_warn r hr, scan.no_warn_p, scan.no_warn_b,
      scan.no_warn_pstate, scan.no_warn_pend, scan.no_warn_pws, scan_fold, bind, Except.bind,
      pure, Except.pure, hf, hs, map_reset_no_warn, parse.no_warn_fname, parse.no_warn_root,
      parse.no_warn_doctype, parse.no_warn_stack, parse.no_warn_loose, parse.no_warn_ncur,
      parse.no_warn_line, parse.no_warn_col, parse.no_warn_nline, parse.no_warn_ncol,
      parse.no_warn_del, parse.no_warn_nofill, parse.no_warn_next, parse.no_warn_files,
      parse.no_warn_closed, parse.no_warn_error, parse.no_warn_fline, parse.no_warn_spc,
      parse.no_warn_attr, parse.no_warn_eend, parse.no_warn_cur, parse.no_warn_alloc,
      parse.no_warn_zip, parse.no_warn_deref, pnode.setFlags_eq, pnode.setNode_eq,
      pnode.setB_eq, pnode.flags_mk, pnode.node_mk, pnode.addr_mk, pnode.parent_mk, pnode.b_mk,
      pnode.childq_mk, pnode.attrq_mk, except_map_ok, except_map_error, no_warn_fold_a,
      no_warn_fold_b, no_warn_fold_c, no_warn_fold_d, parse.no_warn_pop, parse.no_warn_setCur,
      parse.no_warn_link, parse.no_warn_push, parse.no_warn_alloc2, parse.no_warn_alloc,
      parse.no_warn_unlink, parse.no_warn_unlink_open, error_msg_no_warn, parse.no_warn_idem,
      warn_msg_out, ite_no_warn, *, if_true, if_false, not_true_eq_false, not_false_eq_true,
      ne_eq, and_self, and_true, true_and, and_false, false_and, or_true, true_or, or_false,
      false_or, Bool.false_eq_true, not_not]
  all_goals first
    | rfl
    | (simp only [
        except_map_ok, except_map_error, no_warn_fold_a, no_warn_fold_b, no_warn_fold_c,
        no_warn_fold_d, parse.no_warn_pop, parse.no_warn_setCur, parse.no_warn_link,
        parse.no_warn_push, parse.no_warn_alloc2, parse.no_warn_alloc, parse.no_warn_unlink,
        parse.no_warn_unlink_open, error_msg_no_warn, parse.no_warn_idem, warn_msg_out,
        ite_no_warn]
       done)
    | (simp only [
        except_map_ok, except_map_error, no_warn_fold_a, no_warn_fold_b, no_warn_fold_c,
        no_warn_fold_d, parse.no_warn_pop, parse.no_warn_setCur, parse.no_warn_link,
        parse.no_warn_push, parse.no_warn_alloc2, parse.no_warn_alloc, parse.no_warn_unlink,
        parse.no_warn_unlink_open, error_msg_no_warn, parse.no_warn_idem, warn_msg_out,
        ite_no_warn]
       rfl)
    | (simp only [
        except_map_ok, except_map_error, ← parse.no_warn_pop, ← parse.no_warn_setCur,
        ← parse.no_warn_link, ← parse.no_warn_push, ← parse.no_warn_alloc2,
        ← parse.no_warn_unlink, ← parse.no_warn_unlink_open, ← error_msg_no_warn]
       rfl)
    | (simp only [
        ← advance_no_warn, ← scan_term_no_warn, ← scan_slash_no_warn, ← scan_skip_no_warn,
        ← xml_elem_start_no_warn, ← xml_elem_end_no_warn r hr]
       rfl)
    | (generalize r.file _ _ = y
       cases y <;> rfl)
    | (generalize r.str _ _ = y
       cases y <;> rfl)
    | (simp_all
       done)
    | (exfalso
       simp at *
       done)

theorem scan_ite_no_warn (c : Prop) [Decidable c] (a b : scan) :
    (if c then a.no_warn else b.no_warn) = scan.no_warn (if c then a else b) := by
  split <;> rfl

theorem parse_string_step_no_warn (r : nested) (hr : r.warn_free) (s : scan) (rlen : Nat) (refill : Bool) :
    parse_string_step r s.no_warn rlen refill =
      (parse_string_step r s rlen refill).map (fun x => (x.1.no_warn, x.2)) := by
  have hf := fun p s => (hr p s).1
  have hs := fun p s => (hr p s).2
  cases refill
  all_goals generalize hx : parse_string_step r s rlen _ = x
  all_goals unfold parse_string_step at hx
  all_goals try simp only [bind, Except.bind, pure, Except.pure] at hx
  all_goals repeat' (first | split at hx | dsimp only at hx)
  all_goals subst hx
  all_goals try subst_vars
  all_goals try simp only [
      parse_string_step, increment_no_warn, scan_value_no_warn r hr, scan_key_no_warn r hr,
      scan_tag_no_warn r hr, scan_entity_no_warn r hr, scan_text_no_warn, scan_ite_no_warn,
      scan.no_warn_p, scan.no_warn_b, scan.no_warn_pstate, scan.no_warn_pend, scan.no_warn_pws,
      scan_fold, bind, Except.bind, pure, Except.pure, hf, hs, map_reset_no_warn,
      parse.no_warn_fname, parse.no_warn_root, parse.no_warn_doctype, parse.no_warn_stack,
      parse.no_warn_loose, parse.no_warn_ncur, parse.no_warn_line, parse.no_warn_col,
      parse.no_warn_nline, parse.no_warn_ncol, parse.no_warn_del, parse.no_warn_nofill,
      parse.no_warn_next, parse.no_warn_files, parse.no_warn_closed, parse.no_warn_error,
      parse.no_warn_fline, parse.no_warn_spc, parse.no_warn_attr, parse.no_warn_eend,
      parse.no_warn_cur, parse.no_warn_alloc, parse.no_warn_zip, parse.no_warn_deref,
      pnode.setFlags_eq, pnode.setNode_eq, pnode.setB_eq, pnode.flags_mk, pnode.node_mk,
      pnode.addr_mk, pnode.parent_mk, pnode.b_mk, pnode.childq_mk, pnode.attrq_mk,
      except_map_ok, except_map_error, no_warn_fold_a, no_warn_fold_b, no_warn_fold_c,
      no_warn_fold_d, parse.no_warn_pop, parse.no_warn_setCur, parse.no_warn_link,
      parse.no_warn_push, parse.no_warn_alloc2, parse.no_warn_alloc, parse.no_warn_unlink,
      parse.no_warn_unlink_open, error_msg_no_warn, parse.no_warn_idem, warn_msg_out,
      ite_no_warn, *, if_true, if_false, not_true_eq_false, not_false_eq_true, ne_eq, and_self,
      and_true, true_and, and_false, false_and, or_true, true_or, or_false, false_or,
      Bool.false_eq_true, not_not]
  all_goals first
    | rfl
    | (simp only [
        except_map_ok, except_map_error, no_warn_fold_a, no_warn_fold_b, no_warn_fold_c,
        no_warn_fold_d, parse.no_warn_pop, parse.no_warn_setCur, parse.no_warn_link,
        parse.no_warn_push, parse.no_warn_alloc2, parse.no_warn_alloc, parse.no_warn_unlink,
        parse.no_warn_unlink_open, error_msg_no_warn, parse.no_warn_idem, warn_msg_out,
        ite_no_warn]
       done)
    | (simp only [
        except_map_ok, except_map_error, no_warn_fold_a, no_warn_fold_b, no_warn_fold_c,
        no_warn_fold_d, parse.no_warn_pop, parse.no_warn_setCur, parse.no_warn_link,
        parse.no_warn_push, parse.no_warn_alloc2, parse.no_warn_alloc, parse.no_warn_unlink,
        parse.no_warn_unlink_open, error_msg_no_warn, parse.no_warn_idem, warn_msg_out,
        ite_no_warn]
       rfl)
    | (simp only [
        except_map_ok, except_map_error, ← parse.no_warn_pop, ← parse.no_warn_setCur,
        ← parse.no_warn_link, ← parse.no_warn_push, ← parse.no_warn_alloc2,
        ← parse.no_warn_unlink, ← parse.no_warn_unlink_open, ← error_msg_no_warn]
       rfl)
    | (simp only [
        ← increment_no_warn, ← scan_value_no_warn r hr, ← scan_key_no_warn r hr,
        ← scan_tag_no_warn r hr, ← scan_entity_no_warn r hr, ← scan_text_no_warn,
        ← scan_ite_no_warn]
       rfl)
    | (generalize r.file _ _ = y
       cases y <;> rfl)
    | (generalize r.str _ _ = y
       cases y <;> rfl)
    | (simp_all
       done)
    | (exfalso
       simp at *
       done)

theorem parse_string_loop_no_warn (r : nested) (hr : r.warn_free) (k : Nat) :
    ∀ (s : scan) (rlen : Nat) (refill : Bool),
    parse_string_loop r k s.no_warn rlen refill =
      (parse_string_loop r k s rlen refill).map (fun x => (x.1.no_warn, x.2)) := by
  induction k with
  | zero =>
    intro s rlen refill
    rfl
  | succ k ih =>
    intro s rlen refill
    simp only [parse_string_loop]
    rw [parse_string_step_no_warn r hr]
    generalize parse_string_step r s rlen refill = y
    cases y with
    | error e => rfl
    | ok v =>
      obtain ⟨s1, o⟩ := v
      cases o with
      | none =>
        simp only [except_map_ok]
        exact ih s1 rlen refill
      | some poff => rfl

theorem parse_string_no_warn (r : nested) (hr : r.warn_free) (p : parse)
    (b : List (Option Char)) (rlen : Nat) (st : pstate) (refill : Bool) :
    parse_string r p.no_warn b rlen st refill =
      (parse_string r p b rlen st refill).map (fun x => (x.1.no_warn, x.2)) :=
  parse_string_loop_no_warn r hr _ ⟨p, b, st, 0, 0⟩ rlen refill

theorem parse_fd_loop_no_warn (r : nested) (hr : r.warn_free) (k : Nat) :
    ∀ (p : parse) (input : List Char) (b : List (Option Char)) (rlen : Nat) (st : pstate),
    parse_fd_loop r k p.no_warn input b rlen st =
      (parse_fd_loop r k p input b rlen st).map parse.no_warn := by
  induction k with
  | zero =>
    intro p input b rlen st
    rfl
  | succ k ih =>
    intro p input b rlen st
    simp only [parse_fd_loop]
    rw [parse_string_no_warn r hr]
    generalize parse_string r p _ _ st _ = y
    by_cases h0 : rlen + min input.length (b.length - rlen - 1) = 0
    · simp only [h0, if_true]
      rfl
    · simp only [h0, if_false]
      cases y with
      | error e => rfl
      | ok v =>
        obtain ⟨s, poff⟩ := v
        simp only [except_map_ok, scan.no_warn_b, scan.no_warn_p, scan.no_warn_pstate]
        split_ifs
        · rfl
        · rfl
        · exact ih _ _ _ _ _

theorem parse_fd_no_warn (r : nested) (hr : r.warn_free) (p : parse) (input : List Char) :
    parse_fd r p.no_warn input = (parse_fd r p input).map parse.no_warn :=
  parse_fd_loop_no_warn r hr _ p input _ 0 PARSE_ELEM

theorem parse_finish_no_warn (p : parse) :
    parse_finish p.no_warn = (parse_finish p).map parse.no_warn := by
  generalize hx : parse_finish p = x
  unfold parse_finish at hx
  repeat' (first | split at hx | dsimp only at hx)
  all_goals subst hx
  all_goals try simp only [
      parse_finish, pnode_closetext_no_warn, parse.no_warn_fname, parse.no_warn_root,
      parse.no_warn_doctype, parse.no_warn_stack, parse.no_warn_loose, parse.no_warn_ncur,
      parse.no_warn_line, parse.no_warn_col, parse.no_warn_nline, parse.no_warn_ncol,
      parse.no_warn_del, parse.no_warn_nofill, parse.no_warn_next, parse.no_warn_files,
      parse.no_warn_closed, parse.no_warn_error, parse.no_warn_fline, parse.no_warn_spc,
      parse.no_warn_attr, parse.no_warn_eend, parse.no_warn_cur, parse.no_warn_alloc,
      parse.no_warn_zip, parse.no_warn_deref, pnode.setFlags_eq, pnode.setNode_eq,
      pnode.setB_eq, pnode.flags_mk, pnode.node_mk, pnode.addr_mk, pnode.parent_mk, pnode.b_mk,
      pnode.childq_mk, pnode.attrq_mk, except_map_ok, except_map_error, no_warn_fold_a,
      no_warn_fold_b, no_warn_fold_c, no_warn_fold_d, parse.no_warn_pop, parse.no_warn_setCur,
      parse.no_warn_link, parse.no_warn_push, parse.no_warn_alloc2, parse.no_warn_alloc,
      parse.no_warn_unlink, parse.no_warn_unlink_open, error_msg_no_warn, parse.no_warn_idem,
      warn_msg_out, ite_no_warn, *, if_true, if_false, not_true_eq_false, not_false_eq_true,
      ne_eq, and_self, and_true, true_and, and_false, false_and, or_true, true_or, or_false,
      false_or, Bool.false_eq_true, not_not]
  all_goals first
    | rfl
    | (simp only [
        except_map_ok, except_map_error, no_warn_fold_a, no_warn_fold_b, no_warn_fold_c,
        no_warn_fold_d, parse.no_warn_pop, parse.no_warn_setCur, parse.no_warn_link,
        parse.no_warn_push, parse.no_warn_alloc2, parse.no_warn_alloc, parse.no_warn_unlink,
        parse.no_warn_unlink_open, error_msg_no_warn, parse.no_warn_idem, warn_msg_out,
        ite_no_warn]
       done)
    | (simp only [
        except_map_ok, except_map_error, no_warn_fold_a, no_warn_fold_b, no_warn_fold_c,
        no_warn_fold_d, parse.no_warn_pop, parse.no_warn_setCur, parse.no_warn_link,
        parse.no_warn_push, parse.no_warn_alloc2, parse.no_warn_alloc, parse.no_warn_unlink,
        parse.no_warn_unlink_open, error_msg_no_warn, parse.no_warn_idem, warn_msg_out,
        ite_no_warn]
       rfl)
    | (simp only [
        except_map_ok, except_map_error, ← parse.no_warn_pop, ← parse.no_warn_setCur,
        ← parse.no_warn_link, ← parse.no_warn_push, ← parse.no_warn_alloc2,
        ← parse.no_warn_unlink, ← parse.no_warn_unlink_open, ← error_msg_no_warn]
       rfl)
    | (simp only [
        ← pnode_closetext_no_warn]
       rfl)
    | (generalize r.file _ _ = y
       cases y <;> rfl)
    | (generalize r.str _ _ = y
       cases y <;> rfl)
    | (simp_all
       done)
    | (exfalso
       simp at *
       done)

theorem parse_file_at_no_warn (r : nested) (hr : r.warn_free) (p : parse) (fd : Option (List Char))
    (fname : cstring) :
    parse_file_at r p.no_warn fd fname = (parse_file_at r p fd fname).map parse.no_warn := by
  generalize hx : parse_file_at r p fd fname = x
  unfold parse_file_at at hx
  repeat' (first | split at hx | dsimp only at hx)
  all_goals subst hx
  all_goals try simp only [
      parse_file_at, parse_fd_no_warn r hr, parse_finish_no_warn, parse.no_warn_fname,
      parse.no_warn_root, parse.no_warn_doctype, parse.no_warn_stack, parse.no_warn_loose,
      parse.no_warn_ncur, parse.no_warn_line, parse.no_warn_col, parse.no_warn_nline,
      parse.no_warn_ncol, parse.no_warn_del, parse.no_warn_nofill, parse.no_warn_next,
      parse.no_warn_files, parse.no_warn_closed, parse.no_warn_error, parse.no_warn_fline,
      parse.no_warn_spc, parse.no_warn_attr, parse.no_warn_eend, parse.no_warn_cur,
      parse.no_warn_alloc, parse.no_warn_zip, parse.no_warn_deref, pnode.setFlags_eq,
      pnode.setNode_eq, pnode.setB_eq, pnode.flags_mk, pnode.node_mk, pnode.addr_mk,
      pnode.parent_mk, pnode.b_mk, pnode.childq_mk, pnode.attrq_mk, except_map_ok,
      except_map_error, no_warn_fold_a, no_warn_fold_b, no_warn_fold_c, no_warn_fold_d,
      parse.no_warn_pop, parse.no_warn_setCur, parse.no_warn_link, parse.no_warn_push,
      parse.no_warn_alloc2, parse.no_warn_alloc, parse.no_warn_unlink,
      parse.no_warn_unlink_open, error_msg_no_warn, parse.no_warn_idem, warn_msg_out,
      ite_no_warn, *, if_true, if_false, not_true_eq_false, not_false_eq_true, ne_eq, and_self,
      and_true, true_and, and_false, false_and, or_true, true_or, or_false, false_or,
      Bool.false_eq_true, not_not]
  all_goals first
    | rfl
    | (simp only [
        except_map_ok, except_map_error, no_warn_fold_a, no_warn_fold_b, no_warn_fold_c,
        no_warn_fold_d, parse.no_warn_pop, parse.no_warn_setCur, parse.no_warn_link,
        parse.no_warn_push, parse.no_warn_alloc2, parse.no_warn_alloc, parse.no_warn_unlink,
        parse.no_warn_unlink_open, error_msg_no_warn, parse.no_warn_idem, warn_msg_out,
        ite_no_warn]
       done)
    | (simp only [
        except_map_ok, except_map_error, no_warn_fold_a, no_warn_fold_b, no_warn_fold_c,
        no_warn_fold_d, parse.no_warn_pop, parse.no_warn_setCur, parse.no_warn_link,
        parse.no_warn_push, parse.no_warn_alloc2, parse.no_warn_alloc, parse.no_warn_unlink,
        parse.no_warn_unlink_open, error_msg_no_warn, parse.no_warn_idem, warn_msg_out,
        ite_no_warn]
       rfl)
    | (simp only [
        except_map_ok, except_map_error, ← parse.no_warn_pop, ← parse.no_warn_setCur,
        ← parse.no_warn_link, ← parse.no_warn_push, ← parse.no_warn_alloc2,
        ← parse.no_warn_unlink, ← parse.no_warn_unlink_open, ← error_msg_no_warn]
       rfl)
    | (simp only [
        ← parse_fd_no_warn r hr, ← parse_finish_no_warn]
       rfl)
    | (generalize r.file _ _ = y
       cases y <;> rfl)
    | (generalize r.str _ _ = y
       cases y <;> rfl)
    | (simp_all
       done)
    | (exfalso
       simp at *
       done)

theorem parse_nested_warn_free (k : Nat) : (parse_nested k).warn_free := by
  induction k with
  | zero =>
    intro p s
    exact ⟨rfl, rfl⟩
  | succ k ih =>
    intro p s
    refine ⟨parse_file_at_no_warn (parse_nested k) ih p none s, ?_⟩
    show (parse_string (parse_nested k) p.no_warn _ _ PARSE_ELEM false).map _ =
      ((parse_string (parse_nested k) p _ _ PARSE_ELEM false).map _).map parse.no_warn
    rw [parse_string_no_warn (parse_nested k) ih]
    generalize parse_string (parse_nested k) p _ _ PARSE_ELEM false = y
    cases y <;> rfl

theorem parse_file_no_warn (fuel : Nat) (p : parse) (fd : Option (List Char)) (fname : cstring) :
    parse_file fuel p.no_warn fd fname = (parse_file fuel p fd fname).map parse.no_warn :=
  parse_file_at_no_warn (parse_nested fuel) (parse_nested_warn_free fuel) p fd fname

theorem parse_tree_no_warn (p : parse) :
    parse_tree p.no_warn = (parse_tree p).map ptree.no_warn := by
  unfold parse_tree
  simp only [parse.no_warn_root, parse.no_warn_zip, parse.no_warn_loose]
  cases p.root with
  | none => rfl
  | some a =>
    simp only []
    cases (p.zip.toList ++ p.loose).find? (fun n => n.addr == a) <;> rfl

theorem ptree_reorg_no_warn (a : Nat) (tree : ptree) (sec : Option cstring) :
    ptree_reorg a tree.no_warn sec =
      (ptree_reorg a tree sec).map (fun x => (x.1.no_warn, x.2)) := by
  obtain ⟨root, fl⟩ := tree
  cases root with
  | none => rfl
  | some root =>
    simp only [ptree_reorg, ptree.no_warn]
    cases reorg_root a root sec with
    | none => rfl
    | some v =>
      simp only []
      cases reorg_recurse v.1.weight v.2 v.1 <;> rfl

theorem main_tree_no_warn (fuel : Nat) (files : List (cstring × List Char))
    (sec : Option cstring) (input : List Char) :
    main_tree fuel files false sec input =
      (main_tree fuel files true sec input).map ptree.no_warn := by
  have e := parse_file_no_warn fuel (parse_alloc true files 1) (some input) "<stdin>".toList
  unfold main_tree
  rw [show parse_alloc false files 1 = (parse_alloc true files 1).no_warn from rfl, e]
  generalize parse_file fuel (parse_alloc true files 1) (some input) "<stdin>".toList = y
  cases y with
  | error e => rfl
  | ok p =>
    simp only [except_map_ok, bind, Except.bind, parse_tree_no_warn, parse.no_warn_next]
    cases parse_tree p with
    | error e => rfl
    | ok t =>
      simp only [except_map_ok, ptree_reorg_no_warn]
      cases ptree_reorg p.next t sec <;> rfl

/-- C38: the parser started with warnings disabled ends, for every input and
every depth of nested files, in the state that the parser started with
warnings enabled ends in, with the two warning flags cleared: the same
fault, or the same root, nodes, strings, attributes, node flags and the same
flags `TREE_ERROR` and `TREE_CLOSED`; the flag `TREE_WARN` is not set in a
run with warnings disabled; and the same holds for the tree that
`parse_file` returns and for the tree that `main` reorganizes. -/
theorem parse_file_warn_independent (fuel : Nat) (files : List (cstring × List Char)) (next : Nat)
    (fd : Option (List Char)) (fname : cstring) (sec : Option cstring) (input : List Char) :
    parse_file fuel (parse_alloc false files next) fd fname =
      (parse_file fuel (parse_alloc true files next) fd fname).map parse.no_warn ∧
    (∀ p, parse_file fuel (parse_alloc false files next) fd fname = .ok p →
      p.tflags.warn = false ∧
      ∃ q, parse_file fuel (parse_alloc true files next) fd fname = .ok q ∧
        p.root = q.root ∧ p.stack = q.stack ∧ p.loose = q.loose ∧ p.zip = q.zip ∧
        p.tflags.error = q.tflags.error ∧ p.tflags.closed = q.tflags.closed ∧
        parse_tree p = (parse_tree q).map ptree.no_warn) ∧
    main_tree fuel files false sec input =
      (main_tree fuel files true sec input).map ptree.no_warn := by
  have e := parse_file_no_warn fuel (parse_alloc true files next) fd fname
  rw [show (parse_alloc true files next).no_warn = parse_alloc false files next from rfl] at e
  refine ⟨e, ?_, main_tree_no_warn fuel files sec input⟩
  intro p hp
  rw [e] at hp
  cases hq : parse_file fuel (parse_alloc true files next) fd fname with
  | error err =>
    rw [hq] at hp
    cases hp
  | ok q =>
    rw [hq] at hp
    cases hp
    exact ⟨rfl, q, rfl, rfl, rfl, rfl, parse.no_warn_zip q, rfl, rfl, parse_tree_no_warn q⟩

theorem Runs.ok_iff {α : Type} {Q : α → Prop} {a : α} : Runs Q (.ok a) ↔ Q a := Iff.rfl

theorem Runs.pure_iff {α : Type} {Q : α → Prop} {a : α} :
    Runs Q (pure a : Except fault α) ↔ Q a := Iff.rfl

theorem Runs.error_iff {α : Type} {Q : α → Prop} {e : fault} :
    Runs Q (.error e : Except fault α) ↔ e ≠ fault.fuel := Iff.rfl

theorem Runs.bind_iff {α β : Type} {Q : β → Prop} {x : Except fault α}
    {g : α → Except fault β} : Runs Q (x >>= g) ↔ Runs (fun a => Runs Q (g a)) x := by
  cases x <;> exact Iff.rfl

theorem Runs.bind_iff2 {α β : Type} {Q : β → Prop} {x : Except fault α}
    {g : α → Except fault β} : Runs Q (x.bind g) ↔ Runs (fun a => Runs Q (g a)) x := by
  cases x <;> exact Iff.rfl

theorem Runs.map_iff {α β : Type} {Q : β → Prop} {x : Except fault α} {g : α → β} :
    Runs Q (x.map g) ↔ Runs (fun a => Q (g a)) x := by
  cases x <;> exact Iff.rfl

theorem Runs.fmap_iff {α β : Type} {Q : β → Prop} {x : Except fault α} {g : α → β} :
    Runs Q (g <$> x) ↔ Runs (fun a => Q (g a)) x := by
  cases x <;> exact Iff.rfl

theorem Runs.match_iff {α β : Type} {Q : β → Prop} {x : Except fault α}
    {g : α → Except fault β} :
    Runs Q (match x with
      | .error e => .error e
      | .ok a => g a) ↔ Runs (fun a => Runs Q (g a)) x := by
  cases x <;> exact Iff.rfl

theorem Runs.imp {α : Type} {Q R : α → Prop} {x : Except fault α} (hx : Runs Q x)
    (h : ∀ a, Q a → R a) : Runs R x := by
  cases x with
  | error e => exact hx
  | ok a => exact h a hx

theorem Runs.at_ok {α : Type} {Q : α → Prop} {x : Except fault α} {a : α} (hx : Runs Q x)
    (h : x = .ok a) : Q a := by
  subst h
  exact hx

theorem Runs.ne_fuel {α : Type} {Q : α → Prop} {x : Except fault α} (hx : Runs Q x) :
    x ≠ .error .fuel := by
  intro h
  subst h
  exact hx rfl

theorem pnode.nodes_length_eq (n : pnode) :
    n.nodes.length = (pnode.nodes_queue n.childq).length + 1 := by
  rw [pnode.nodes_eq]
  rfl

theorem pnode.nodes_queue_length_mem : ∀ (cs : List pnode) (c : pnode), c ∈ cs →
    c.nodes.length ≤ (pnode.nodes_queue cs).length
  | [], c, h => by cases h
  | d :: rest, c, h => by
    simp only [pnode.nodes_queue, List.length_append]
    rcases List.mem_cons.1 h with h1 | h1
    · subst h1
      omega
    · have := pnode.nodes_queue_length_mem rest c h1
      omega

theorem pnode.child_lt {n c : pnode} (h : c ∈ n.childq) : c.nodes.length < n.nodes.length := by
  rw [pnode.nodes_length_eq n]
  have := pnode.nodes_queue_length_mem n.childq c h
  omega

theorem pnode.small_of_le {n : pnode} {k : Nat} (h : n.nodes.length ≤ k + 1) : n.small k := by
  intro c hc
  have := pnode.child_lt hc
  omega

theorem pnode.setFlags_nodes_length (n : pnode) (fl : nflags) :
    (n.setFlags fl).nodes.length = n.nodes.length := by
  cases n
  rfl

theorem pnode.setParent_nodes_length (n : pnode) (p : Option Nat) :
    (n.setParent p).nodes.length = n.nodes.length := by
  cases n
  rfl

theorem pnode.setChildq_childq (n : pnode) (cs : List pnode) : (n.setChildq cs).childq = cs := by
  cases n
  rfl

theorem pnode.setChildq_node (n : pnode) (cs : List pnode) : (n.setChildq cs).node = n.node := by
  cases n
  rfl

theorem pnode.setChildq_parent (n : pnode) (cs : List pnode) :
    (n.setChildq cs).parent = n.parent := by
  cases n
  rfl

theorem pnode.setFlags_node (n : pnode) (fl : nflags) : (n.setFlags fl).node = n.node := by
  cases n
  rfl

theorem pnode.setFlags_parent (n : pnode) (fl : nflags) : (n.setFlags fl).parent = n.parent := by
  cases n
  rfl

theorem pnode.setFlags_childq (n : pnode) (fl : nflags) : (n.setFlags fl).childq = n.childq := by
  cases n
  rfl

theorem pnode.kept_refl {k : Nat} {n : pnode} (h : n.small k) : n.kept k n := ⟨rfl, rfl, h⟩

theorem pnode.kept_setChildq {k : Nat} (n : pnode) (cs : List pnode)
    (h : ∀ c ∈ cs, c.nodes.length ≤ k) : n.kept k (n.setChildq cs) :=
  ⟨pnode.setChildq_node n cs, pnode.setChildq_parent n cs, by
    intro c hc
    rw [pnode.setChildq_childq] at hc
    exact h c hc⟩

theorem pnode.kept_nil {k : Nat} (n : pnode) : n.kept k (n.setChildq []) :=
  pnode.kept_setChildq n [] (fun c hc => by cases hc)

theorem pnode.kept_trans {k : Nat} {n m l : pnode} (h1 : n.kept k m) (h2 : m.kept k l) :
    n.kept k l := ⟨h2.1.trans h1.1, h2.2.1.trans h1.2.1, h2.2.2⟩

theorem pnode.kept_first_flags {k : Nat} (n : pnode) (g : nflags → nflags) (h : n.small k) :
    n.kept k (pnode_first_flags n g) := by
  unfold pnode_first_flags
  cases hc : n.childq with
  | nil => exact pnode.kept_refl h
  | cons c rest =>
    refine pnode.kept_setChildq n _ ?_
    intro x hx
    rcases List.mem_cons.1 hx with h1 | h1
    · subst h1
      rw [pnode.setFlags_nodes_length]
      exact h c (by rw [hc]; exact List.mem_cons_self _ _)
    · exact h x (by rw [hc]; exact List.mem_cons_of_mem _ h1)

theorem pnode_first_flags_nodes_length (n : pnode) (g : nflags → nflags) :
    (pnode_first_flags n g).nodes.length = n.nodes.length := by
  unfold pnode_first_flags
  cases hc : n.childq with
  | nil => rfl
  | cons c rest =>
    rw [pnode.nodes_length_eq, pnode.nodes_length_eq n, pnode.setChildq_childq, hc]
    simp only [pnode.nodes_queue, List.length_append, pnode.setFlags_nodes_length]

theorem pnode.kept_iff {k : Nat} {n m : pnode} :
    n.kept k m ↔ m.node = n.node ∧ m.parent = n.parent ∧ m.small k := Iff.rfl

theorem pnode.small_setChildq {k : Nat} {n : pnode} {cs : List pnode} (hn : n.small k)
    (h : cs ⊆ n.childq) : (n.setChildq cs).small k ↔ True :=
  iff_true_intro (pnode.kept_setChildq n cs (fun c hc => hn c (h hc))).2.2

theorem pnode.small_setChildq_nil {k : Nat} (n : pnode) : (n.setChildq []).small k ↔ True :=
  iff_true_intro (pnode.kept_nil n).2.2

theorem pnode.small_of_nil {k : Nat} {m : pnode} (h : m.childq = []) : m.small k ↔ True :=
  iff_true_intro (fun c hc => by rw [h] at hc; cases hc)

theorem pnode.small_first_flags {k : Nat} {n : pnode} (g : nflags → nflags) (hn : n.small k) :
    (pnode_first_flags n g).small k ↔ True :=
  iff_true_intro (pnode.kept_first_flags n g hn).2.2

theorem pnode_first_flags_node (n : pnode) (g : nflags → nflags) :
    (pnode_first_flags n g).node = n.node := by
  unfold pnode_first_flags
  split
  · rfl
  · exact pnode.setChildq_node _ _

theorem pnode_first_flags_parent (n : pnode) (g : nflags → nflags) :
    (pnode_first_flags n g).parent = n.parent := by
  unfold pnode_first_flags
  split
  · rfl
  · exact pnode.setChildq_parent _ _

theorem pnode.small_setFlags {k : Nat} {n : pnode} (fl : nflags) (hn : n.small k) :
    (n.setFlags fl).small k ↔ True :=
  iff_true_intro (fun c hc => hn c (by rw [pnode.setFlags_childq] at hc; exact hc))

theorem pnode_unlinksub_runs (n : pnode) :
    Runs (fun m => m.node = n.node ∧ m.parent = n.parent ∧ m.childq = []) (pnode_unlinksub n) := by
  unfold pnode_unlinksub
  split
  · exact ⟨pnode.setChildq_node n [], pnode.setChildq_parent n [], pnode.setChildq_childq n []⟩
  · exact fun h => by cases h

theorem pnode_unlink_child_runs (n : pnode) (i : Nat) :
    Runs (fun m => m.node = n.node ∧ m.parent = n.parent ∧ m.childq ⊆ n.childq ∧
      m.nodes.length ≤ n.nodes.length) (pnode_unlink_child n i) := by
  unfold pnode_unlink_child
  split
  · exact fun h => by cases h
  · split
    · refine ⟨pnode.setChildq_node n _, pnode.setChildq_parent n _, ?_, ?_⟩
      · rw [pnode.setChildq_childq]
        exact fun c hc => List.mem_of_mem_eraseIdx hc
      · rw [pnode.nodes_length_eq, pnode.nodes_length_eq n, pnode.setChildq_childq]
        have : ∀ (cs : List pnode) (i : Nat),
            (pnode.nodes_queue (cs.eraseIdx i)).length ≤ (pnode.nodes_queue cs).length := by
          intro cs
          induction cs with
          | nil =>
            intro i
            simp
          | cons c rest ih =>
            intro i
            cases i with
            | zero =>
              simp only [List.eraseIdx_cons_zero, pnode.nodes_queue, List.length_append]
              omega
            | succ i =>
              simp only [List.eraseIdx_cons_succ, pnode.nodes_queue, List.length_append]
              have := ih i
              omega
        have := this n.childq i
        omega
    · exact fun h => by cases h

theorem pnode_unlink_childk_runs (n : pnode) (i : Nat) {k : Nat} (hn : n.small k) :
    Runs (fun m => m.node = n.node ∧ m.parent = n.parent ∧ m.small k)
      (pnode_unlink_child n i) :=
  Runs.imp (pnode_unlink_child_runs n i)
    (fun m hm => ⟨hm.1, hm.2.1, fun c hc => hn c (hm.2.2.1 hc)⟩)

theorem sub_cons_cons {a : pnode} {l m : List pnode} (h : l ⊆ m) : (a :: l ⊆ a :: m) ↔ True :=
  iff_true_intro (List.cons_subset_cons a h)

theorem sub_cons {a : pnode} {l m : List pnode} (h : l ⊆ m) : (l ⊆ a :: m) ↔ True :=
  iff_true_intro (List.subset_cons_of_subset a h)

theorem sub_refl (l : List pnode) : (l ⊆ l) ↔ True := iff_true_intro (List.Subset.refl l)

theorem sub_nil (l : List pnode) : ([] ⊆ l) ↔ True := iff_true_intro (List.nil_subset l)

theorem sub_tail (a : pnode) (l : List pnode) : (l ⊆ a :: l) ↔ True :=
  iff_true_intro (List.subset_cons_self a l)

theorem next_kept_none (a : Option pnode) : next_kept a none ↔ True :=
  iff_true_intro (fun x h => by cases h)

theorem next_kept_some (m x : pnode) :
    next_kept (some m) (some x) ↔ x.nodes.length = m.nodes.length :=
  ⟨fun h => by
    obtain ⟨m1, h1, h2⟩ := h x rfl
    cases h1
    exact h2, fun h y hy => by
    cases hy
    exact ⟨m, rfl, h⟩⟩

theorem next_kept_refl (a : Option pnode) : next_kept a a ↔ True :=
  iff_true_intro (fun x h => ⟨x, h, rfl⟩)

theorem next_kept_le {a b : Option pnode} {k : Nat} (h : next_kept a b)
    (ha : ∀ m, a = some m → m.nodes.length ≤ k) : ∀ x, b = some x → x.nodes.length ≤ k := by
  intro x hx
  obtain ⟨m, h1, h2⟩ := h x hx
  rw [h2]
  exact ha m h1


theorem pnode_takebelow_chk_eq (node : nodeid) (n : pnode) :
    pnode_takebelow_chk node n =
      (pnode_takefirst_queue_chk node n.node n.addr none n.childq).map
        (fun r => (r.1, n.setChildq r.2.1, r.2.2)) := by
  cases n with
  | mk a k s p f q cs =>
    simp only [pnode_takebelow_chk]
    show _ = (pnode_takefirst_queue_chk node k a none cs).map _
    cases pnode_takefirst_queue_chk node k a none cs <;> rfl

theorem pnode.setChildq_nodes_length (n : pnode) (cs : List pnode) :
    (n.setChildq cs).nodes.length = (pnode.nodes_queue cs).length + 1 := by
  rw [pnode.nodes_length_eq, pnode.setChildq_childq]

/-- What `pnode_takefirst` does to the size of a queue: the node found and
the queue that remains have the nodes of the queue between them, and no
node of the queue grows. -/
theorem pnode_takefirst_queue_chk_size (node : nodeid) : ∀ (cs : List pnode) (k : nodeid)
    (a : Nat) (prev : Option pnode) (res : pnode) (cs1 : List pnode) (r : Bool × pctx),
    pnode_takefirst_queue_chk node k a prev cs = some (res, cs1, r) →
    (pnode.nodes_queue cs1).length + res.nodes.length = (pnode.nodes_queue cs).length ∧
      ∀ j, (∀ c ∈ cs, c.nodes.length ≤ j) →
        (∀ c ∈ cs1, c.nodes.length ≤ j) ∧ res.nodes.length ≤ j
  | [], k, a, prev, res, cs1, r, h => by simp [pnode_takefirst_queue_chk] at h
  | nc :: rest, k, a, prev, res, cs1, r, h => by
    have h2 := pnode_takefirst_queue_chk_size node rest
    have h1 := pnode_takefirst_queue_chk_size node nc.childq
    simp only [pnode_takefirst_queue_chk, pnode_takebelow_chk_eq] at h
    by_cases hk : nc.node = node
    · simp only [hk, if_true, Option.some.injEq, Prod.mk.injEq] at h
      obtain ⟨rfl, rfl, -⟩ := h
      refine ⟨by simp only [pnode.nodes_queue, List.length_append]; omega, ?_⟩
      intro j hj
      exact ⟨fun c hc => hj c (List.mem_cons_of_mem _ hc), hj _ (List.mem_cons_self _ _)⟩
    · simp only [hk, if_false] at h
      cases hb : pnode_takefirst_queue_chk node nc.node nc.addr none nc.childq with
      | some x =>
        obtain ⟨r1, c1, rr⟩ := x
        rw [hb] at h
        simp only [Option.map_some', Option.some.injEq, Prod.mk.injEq] at h
        obtain ⟨rfl, rfl, -⟩ := h
        obtain ⟨e1, e2⟩ := h1 _ _ _ _ _ _ hb
        have hs : (nc.setChildq c1).nodes.length + r1.nodes.length = nc.nodes.length := by
          rw [pnode.setChildq_nodes_length, pnode.nodes_length_eq nc]
          omega
        refine ⟨by simp only [pnode.nodes_queue, List.length_append]; omega, ?_⟩
        intro j hj
        have hnc := hj nc (List.mem_cons_self _ _)
        refine ⟨?_, by omega⟩
        intro c hc
        rcases List.mem_cons.1 hc with h3 | h3
        · subst h3
          omega
        · exact hj c (List.mem_cons_of_mem _ h3)
      | none =>
        rw [hb] at h
        simp only [Option.map_none'] at h
        cases hc : pnode_takefirst_queue_chk node k a (some nc) rest with
        | none =>
          rw [hc] at h
          cases h
        | some x =>
          obtain ⟨r1, c1, rr⟩ := x
          rw [hc] at h
          simp only [Option.some.injEq, Prod.mk.injEq] at h
          obtain ⟨rfl, rfl, -⟩ := h
          obtain ⟨e1, e2⟩ := h2 _ _ _ _ _ _ hc
          refine ⟨by simp only [pnode.nodes_queue, List.length_append]; omega, ?_⟩
          intro j hj
          obtain ⟨e3, e4⟩ := e2 j (fun c hc => hj c (List.mem_cons_of_mem _ hc))
          refine ⟨?_, e4⟩
          intro c hc
          rcases List.mem_cons.1 hc with h3 | h3
          · subst h3
            exact hj _ (List.mem_cons_self _ _)
          · exact e3 c h3
termination_by cs => sizeOf cs
decreasing_by
  all_goals simp_wf
  all_goals first | omega | (have hlt := pnode.sizeOf_childq_lt nc; omega)

theorem pnode_takebelow_chk_size (node : nodeid) (n nc n1 : pnode) (r : Bool × pctx)
    (h : pnode_takebelow_chk node n = some (nc, n1, r)) :
    n1.nodes.length + nc.nodes.length = n.nodes.length ∧ n1.node = n.node ∧
      n1.parent = n.parent ∧ ∀ k, n.small k → n1.small k ∧ nc.nodes.length ≤ k := by
  rw [pnode_takebelow_chk_eq] at h
  cases hb : pnode_takefirst_queue_chk node n.node n.addr none n.childq with
  | none =>
    rw [hb] at h
    cases h
  | some x =>
    obtain ⟨r1, c1, rr⟩ := x
    rw [hb] at h
    simp only [Option.map_some', Option.some.injEq, Prod.mk.injEq] at h
    obtain ⟨rfl, rfl, -⟩ := h
    obtain ⟨e1, e2⟩ := pnode_takefirst_queue_chk_size node _ _ _ _ _ _ _ hb
    refine ⟨?_, pnode.setChildq_node _ _, pnode.setChildq_parent _ _, ?_⟩
    · rw [pnode.setChildq_nodes_length, pnode.nodes_length_eq n]
      omega
    · intro k hk
      obtain ⟨e3, e4⟩ := e2 k hk
      refine ⟨?_, e4⟩
      intro c hc
      rw [pnode.setChildq_childq] at hc
      exact e3 c hc

theorem pnode_takebelow_chk_fwd {node : nodeid} {n nc n1 : pnode} {r : Bool × pctx} :
    pnode_takebelow_chk node n = some (nc, n1, r) ↔
      (some (nc, n1, r) = pnode_takebelow_chk node n ∧ n1.node = n.node ∧
        n1.parent = n.parent ∧ n1.nodes.length + nc.nodes.length = n.nodes.length ∧
        (∀ k, n.small k → n1.small k) ∧ ∀ k, n.small k → nc.nodes.length ≤ k) :=
  ⟨fun h => ⟨h.symm, (pnode_takebelow_chk_size node n nc n1 r h).2.1,
    (pnode_takebelow_chk_size node n nc n1 r h).2.2.1,
    (pnode_takebelow_chk_size node n nc n1 r h).1,
    fun k hk => ((pnode_takebelow_chk_size node n nc n1 r h).2.2.2 k hk).1,
    fun k hk => ((pnode_takebelow_chk_size node n nc n1 r h).2.2.2 k hk).2⟩, fun h => h.1.symm⟩


theorem format_puts_level (f : format) (s : List Char) :
    (f.puts s).level = f.level := rfl

theorem format_puts_nofill (f : format) (s : List Char) :
    (f.puts s).nofill = f.nofill := rfl

theorem format_putc_level (f : format) (c : Char) :
    (f.putc c).level = f.level := rfl

theorem format_putc_nofill (f : format) (c : Char) :
    (f.putc c).nofill = f.nofill := rfl

theorem para_check_level (f : format) :
    (para_check f).level = f.level := by
  unfold para_check
  split
  · rfl
  · dsimp only
    split <;> rfl

theorem para_check_nofill (f : format) :
    (para_check f).nofill = f.nofill := by
  unfold para_check
  split
  · rfl
  · dsimp only
    split <;> rfl

theorem macro_open_line_level (f : format) :
    (macro_open_line f).level = f.level := by
  obtain ⟨level, nofill, ⟨nospc, arg, child, impl⟩, ls, ps, out⟩ := f
  cases ls <;> simp only [macro_open_line, format.putc, format.puts] <;> (repeat' split) <;> rfl

theorem macro_open_line_nofill (f : format) :
    (macro_open_line f).nofill = f.nofill := by
  obtain ⟨level, nofill, ⟨nospc, arg, child, impl⟩, ls, ps, out⟩ := f
  cases ls <;> simp only [macro_open_line, format.putc, format.puts] <;> (repeat' split) <;> rfl

theorem macro_open_level (f : format) (name : cstring) :
    (macro_open f name).level = f.level := by
  simp only [macro_open, format.puts, macro_open_line_level, para_check_level]

theorem macro_open_nofill (f : format) (name : cstring) :
    (macro_open f name).nofill = f.nofill := by
  simp only [macro_open, format.puts, macro_open_line_nofill, para_check_nofill]

theorem macro_close_level (f : format) :
    (macro_close f).level = f.level := by
  unfold macro_close
  dsimp only
  split <;> rfl

theorem macro_close_nofill (f : format) :
    (macro_close f).nofill = f.nofill := by
  unfold macro_close
  dsimp only
  split <;> rfl

theorem macro_line_level (f : format) (name : cstring) :
    (macro_line f name).level = f.level := by
  simp only [macro_line, macro_close_level, macro_open_level]

theorem macro_line_nofill (f : format) (name : cstring) :
    (macro_line f name).nofill = f.nofill := by
  simp only [macro_line, macro_close_nofill, macro_open_nofill]

theorem macro_addarg_loop_level (f : format) (start : Bool) (prev : Char) (flags : aflags) (cp : List Char) :
    (macro_addarg_loop f start prev flags cp).level = f.level := by
  induction cp generalizing f start prev flags with
  | nil => rfl
  | cons c rest ih =>
    unfold macro_addarg_loop
    split
    · exact ih _ _ _ _
    · dsimp only
      rw [ih]
      (repeat' split) <;> rfl

theorem macro_addarg_loop_nofill (f : format) (start : Bool) (prev : Char) (flags : aflags) (cp : List Char) :
    (macro_addarg_loop f start prev flags cp).nofill = f.nofill := by
  induction cp generalizing f start prev flags with
  | nil => rfl
  | cons c rest ih =>
    unfold macro_addarg_loop
    split
    · exact ih _ _ _ _
    · dsimp only
      rw [ih]
      (repeat' split) <;> rfl

theorem macro_enclose_if_level (f : format) (impl : Bool) (one open_ : String) :
    (macro_enclose_if f impl one open_).level = f.level := by
  unfold macro_enclose_if
  split
  · exact macro_open_level _ _
  · exact macro_open_level f one.toList

theorem macro_enclose_if_nofill (f : format) (impl : Bool) (one open_ : String) :
    (macro_enclose_if f impl one open_).nofill = f.nofill := by
  unfold macro_enclose_if
  split
  · exact macro_open_nofill _ _
  · exact macro_open_nofill f one.toList

theorem macro_unclose_level (f : format) (was_impl : Bool) (close : String) :
    (macro_unclose f was_impl close).level = f.level := by
  unfold macro_unclose
  split
  · exact macro_open_level _ _
  · rfl

theorem macro_unclose_nofill (f : format) (was_impl : Bool) (close : String) :
    (macro_unclose f was_impl close).nofill = f.nofill := by
  unfold macro_unclose
  split
  · exact macro_open_nofill _ _
  · rfl

theorem macro_unclose_if_level (f : format) (was_impl : Bool) (close : String) :
    (macro_unclose_if f was_impl close).level = f.level := by
  unfold macro_unclose_if
  split
  · exact macro_open_level _ _
  · rfl

theorem macro_unclose_if_nofill (f : format) (was_impl : Bool) (close : String) :
    (macro_unclose_if f was_impl close).nofill = f.nofill := by
  unfold macro_unclose_if
  split
  · exact macro_open_nofill _ _
  · rfl

theorem macro_display_level (f : format) (name : String) :
    (macro_display f name).level = f.level := by
  simp only [macro_display, macro_line_level]

theorem macro_display_nofill (f : format) (name : String) :
    (macro_display f name).nofill = f.nofill := by
  simp only [macro_display, macro_line_nofill]

theorem pnode_printsystemitem_level (f : format) (n : pnode) :
    (pnode_printsystemitem f n).level = f.level := by
  unfold pnode_printsystemitem
  split <;> first | rfl | exact macro_open_level _ _

theorem pnode_printsystemitem_nofill (f : format) (n : pnode) :
    (pnode_printsystemitem f n).nofill = f.nofill := by
  unfold pnode_printsystemitem
  split <;> first | rfl | exact macro_open_nofill _ _

theorem pnode_printtext_punct_level (f : format) (cp : List Char) :
    ((pnode_printtext_punct f cp).1).level = f.level := by
  induction cp generalizing f with
  | nil => rfl
  | cons c rest ih =>
    unfold pnode_printtext_punct
    split
    · exact (ih _).trans rfl
    · rfl

theorem pnode_printtext_punct_nofill (f : format) (cp : List Char) :
    ((pnode_printtext_punct f cp).1).nofill = f.nofill := by
  induction cp generalizing f with
  | nil => rfl
  | cons c rest ih =>
    unfold pnode_printtext_punct
    split
    · exact (ih _).trans rfl
    · rfl

theorem pnode_printtext_head_level (f : format) (n : pnode) (cp : List Char) :
    ((pnode_printtext_head f n cp).1).level = f.level := by
  unfold pnode_printtext_head
  have h := pnode_printtext_punct_level f cp
  generalize pnode_printtext_punct f cp = y at h ⊢
  obtain ⟨f1, o⟩ := y
  cases o with
  | none => exact h
  | some cp1 =>
    dsimp only at h ⊢
    split
    · exact h
    · simp only [macro_open_level]
      exact h

theorem pnode_printtext_head_nofill (f : format) (n : pnode) (cp : List Char) :
    ((pnode_printtext_head f n cp).1).nofill = f.nofill := by
  unfold pnode_printtext_head
  have h := pnode_printtext_punct_nofill f cp
  generalize pnode_printtext_punct f cp = y at h ⊢
  obtain ⟨f1, o⟩ := y
  cases o with
  | none => exact h
  | some cp1 =>
    dsimp only at h ⊢
    split
    · exact h
    · simp only [macro_open_nofill]
      exact h


theorem macro_addarg_runs (f : format) (arg : cstring) (flags : aflags) :
    Runs (fun g => g.level = f.level ∧ g.nofill = f.nofill) (macro_addarg f arg flags) := by
  unfold macro_addarg
  split
  · exact fun h => by cases h
  · simp only [Runs.ok_iff, macro_addarg_loop_level, macro_addarg_loop_nofill]
    constructor <;> (repeat' split) <;>
      simp only [format_putc_level, format_putc_nofill, macro_addarg_loop_level,
        macro_addarg_loop_nofill]

theorem macro_addarg_fwd {f : format} {arg : cstring} {flags : aflags}  {g : format} :
    macro_addarg f arg flags = .ok g ↔ (Except.ok g = macro_addarg f arg flags ∧ g.level = f.level ∧ g.nofill = f.nofill) :=
  ⟨fun h => ⟨h.symm, by
    have h1 := macro_addarg_runs f arg flags 
    rw [h] at h1
    exact h1⟩, fun h => h.1.symm⟩

theorem macro_addarg_efwd {f : format} {arg : cstring} {flags : aflags}  {e : fault} :
    macro_addarg f arg flags = .error e ↔ (Except.error e = macro_addarg f arg flags ∧ e ≠ fault.fuel) :=
  ⟨fun h => ⟨h.symm, by
    have h1 := macro_addarg_runs f arg flags 
    rw [h] at h1
    exact h1⟩, fun h => h.1.symm⟩

theorem macro_argline_runs (f : format) (name arg : cstring) :
    Runs (fun g => g.level = f.level ∧ g.nofill = f.nofill)
      (macro_argline f name arg) := by
  generalize hx : macro_argline f name arg = x
  unfold macro_argline at hx
  try simp only [bind, Except.bind, pure, Except.pure, Except.map] at hx
  repeat' (first | split at hx | dsimp only at hx)
  all_goals subst hx
  all_goals try simp only [
      macro_addarg_fwd, macro_addarg_efwd] at *
  all_goals first
    | (simp only [Runs.ok_iff, Runs.error_iff]
       decide)
    | (simp only [Runs.ok_iff, Runs.error_iff]
       simp only [
        apply_ite format.level, apply_ite format.nofill, ite_self, ne_eq, not_false_eq_true,
        and_self, and_true, true_and, not_true_eq_false, if_true, if_false, format_puts_level,
        format_puts_nofill, format_putc_level, format_putc_nofill, para_check_level,
        para_check_nofill, macro_open_line_level, macro_open_line_nofill, macro_open_level,
        macro_open_nofill, macro_close_level, macro_close_nofill, macro_line_level,
        macro_line_nofill, macro_addarg_loop_level, macro_addarg_loop_nofill,
        macro_enclose_if_level, macro_enclose_if_nofill, macro_unclose_level,
        macro_unclose_nofill, macro_unclose_if_level, macro_unclose_if_nofill,
        macro_display_level, macro_display_nofill, pnode_printsystemitem_level,
        pnode_printsystemitem_nofill, pnode_printtext_punct_level,
        pnode_printtext_punct_nofill, *]
       done)

theorem macro_argline_fwd {f : format} {name arg : cstring}  {g : format} :
    macro_argline f name arg = .ok g ↔ (Except.ok g = macro_argline f name arg ∧ g.level = f.level ∧ g.nofill = f.nofill) :=
  ⟨fun h => ⟨h.symm, by
    have h1 := macro_argline_runs f name arg 
    rw [h] at h1
    exact h1⟩, fun h => h.1.symm⟩

theorem macro_argline_efwd {f : format} {name arg : cstring}  {e : fault} :
    macro_argline f name arg = .error e ↔ (Except.error e = macro_argline f name arg ∧ e ≠ fault.fuel) :=
  ⟨fun h => ⟨h.symm, by
    have h1 := macro_argline_runs f name arg 
    rw [h] at h1
    exact h1⟩, fun h => h.1.symm⟩

theorem macro_addnode_next_err (nc : pnode) (nn : Option pnode) (flags : aflags) (e : fault)
    (h : macro_addnode_next nc nn flags = .error e) : e ≠ fault.fuel := by
  unfold macro_addnode_next at h
  repeat' split at h
  all_goals cases h
  all_goals decide

theorem macro_addnode_queue_runs (cs : List pnode)
    (ih : ∀ c ∈ cs, ∀ (f : format) (flags : aflags),
      Runs (fun g => g.level = f.level ∧ g.nofill = f.nofill) (macro_addnode f flags c)) :
    ∀ (f : format) (flags : aflags),
      Runs (fun g => g.level = f.level ∧ g.nofill = f.nofill) (macro_addnode_queue f flags cs) := by
  induction cs with
  | nil =>
    intro f flags
    rw [macro_addnode_queue]
    exact ⟨rfl, rfl⟩
  | cons nc rest ihl =>
    intro f flags
    rw [macro_addnode_queue]
    have h1 := ih nc (List.mem_cons_self _ _) f flags
    cases hx : macro_addnode f flags nc with
    | error e =>
      rw [hx] at h1
      exact h1
    | ok f1 =>
      rw [hx] at h1
      simp only []
      cases hy : macro_addnode_next nc rest.head? flags with
      | error e => exact macro_addnode_next_err _ _ _ _ hy
      | ok flags1 =>
        have h2 := ihl (fun c hc => ih c (List.mem_cons_of_mem _ hc)) f1 flags1
        exact Runs.imp h2 (fun g hg => ⟨hg.1.trans h1.1, hg.2.trans h1.2⟩)

theorem macro_addnode_mk (f : format) (flags : aflags) (a : Nat) (k : nodeid)
    (b : Option cstring) (p : Option Nat) (fl : nflags) (q : List pattr) (cs : List pnode) :
    macro_addnode f flags (.mk a k b p fl q cs) =
      if f.linestate ≠ LINE_MACRO then .error .assertion
      else
        match macro_addnode_only f flags cs with
        | some r => r
        | none =>
          if k = NODE_TEXT ∨ k = NODE_ESCAPE then
            match b with
            | none => .error .null
            | some s => (macro_addarg f s flags).map (fun g => { g with parastate := PARA_MID })
          else
            let quote_now := flags.single && !flags.quoted
            let f1 := if quote_now then (if flags.space then f.putc ' ' else f).putc '"' else f
            let flags1 : aflags :=
              if quote_now then ⟨false, false, true, flags.upper⟩
              else { flags with single := false }
            match macro_addnode_queue f1 flags1 cs with
            | .error e => .error e
            | .ok f2 =>
              .ok { (if quote_now then f2.putc '"' else f2) with parastate := PARA_MID } := rfl

theorem macro_addnode_runs (f : format) (flags : aflags) (n : pnode) :
    Runs (fun g => g.level = f.level ∧ g.nofill = f.nofill) (macro_addnode f flags n) := by
  revert f flags
  refine pnode.induct (P := fun n => ∀ (f : format) (flags : aflags),
    Runs (fun g => g.level = f.level ∧ g.nofill = f.nofill) (macro_addnode f flags n)) ?_ n
  intro n ih f flags
  obtain ⟨a, k, b, p, fl, q, cs⟩ := n
  rw [macro_addnode_mk]
  split
  · exact fun h => by cases h
  · have hq := macro_addnode_queue_runs cs ih
    cases cs with
    | nil =>
      simp only [macro_addnode_only]
      split
      · split
        · exact fun h => by cases h
        · exact Runs.map_iff.2 (Runs.imp (macro_addarg_runs _ _ _) (fun g hg => hg))
      · try dsimp only
        have h2 := hq (if (flags.single && !flags.quoted) = true then
          (if flags.space = true then f.putc ' ' else f).putc '"' else f)
          (if (flags.single && !flags.quoted) = true then ⟨false, false, true, flags.upper⟩
            else { flags with single := false })
        revert h2
        generalize macro_addnode_queue _ _ [] = y
        intro h2
        cases y with
        | error e => exact h2
        | ok f2 =>
          simp only [Runs.ok_iff] at h2 ⊢
          constructor <;> (repeat' split) <;>
            simp only [format_putc_level, format_putc_nofill, h2] <;> (repeat' split) <;>
            simp only [format_putc_level, format_putc_nofill]
    | cons c rest =>
      cases rest with
      | nil =>
        simp only [macro_addnode_only]
        exact ih c (List.mem_cons_self _ _) f flags
      | cons d rest =>
        simp only [macro_addnode_only]
        split
        · split
          · exact fun h => by cases h
          · exact Runs.map_iff.2 (Runs.imp (macro_addarg_runs _ _ _) (fun g hg => hg))
        · try dsimp only
          have h2 := hq (if (flags.single && !flags.quoted) = true then
            (if flags.space = true then f.putc ' ' else f).putc '"' else f)
            (if (flags.single && !flags.quoted) = true then ⟨false, false, true, flags.upper⟩
              else { flags with single := false })
          revert h2
          generalize macro_addnode_queue _ _ (c :: d :: rest) = y
          intro h2
          cases y with
          | error e => exact h2
          | ok f2 =>
            simp only [Runs.ok_iff] at h2 ⊢
            constructor <;> (repeat' split) <;>
              simp only [format_putc_level, format_putc_nofill, h2] <;> (repeat' split) <;>
              simp only [format_putc_level, format_putc_nofill]

theorem macro_addnode_fwd {f : format} {flags : aflags} {n : pnode}  {g : format} :
    macro_addnode f flags n = .ok g ↔ (Except.ok g = macro_addnode f flags n ∧ g.level = f.level ∧ g.nofill = f.nofill) :=
  ⟨fun h => ⟨h.symm, by
    have h1 := macro_addnode_runs f flags n 
    rw [h] at h1
    exact h1⟩, fun h => h.1.symm⟩

theorem macro_addnode_efwd {f : format} {flags : aflags} {n : pnode}  {e : fault} :
    macro_addnode f flags n = .error e ↔ (Except.error e = macro_addnode f flags n ∧ e ≠ fault.fuel) :=
  ⟨fun h => ⟨h.symm, by
    have h1 := macro_addnode_runs f flags n 
    rw [h] at h1
    exact h1⟩, fun h => h.1.symm⟩

theorem print_text_runs (f : format) (word : cstring) (flags : aflags) :
    Runs (fun g => g.level = f.level ∧ g.nofill = f.nofill) (print_text f word flags) := by
  obtain ⟨f3, pre, h1, h2, -, h⟩ := print_text_frame f word flags
  rw [h]
  by_cases hf : f3.nofill = 0
  · rw [print_text_loop_fill word.length word (Nat.le_refl _) _ f3 NUL NUL (Nat.lt_succ_self _) hf]
    exact ⟨h1, h2⟩
  · rw [print_text_loop_nofill word _ f3 false 0 NUL NUL (Nat.lt_succ_self _) hf]
    exact ⟨h1, h2⟩

theorem print_text_fwd {f : format} {word : cstring} {flags : aflags}  {g : format} :
    print_text f word flags = .ok g ↔ (Except.ok g = print_text f word flags ∧ g.level = f.level ∧ g.nofill = f.nofill) :=
  ⟨fun h => ⟨h.symm, by
    have h1 := print_text_runs f word flags 
    rw [h] at h1
    exact h1⟩, fun h => h.1.symm⟩

theorem print_text_efwd {f : format} {word : cstring} {flags : aflags}  {e : fault} :
    print_text f word flags = .error e ↔ (Except.error e = print_text f word flags ∧ e ≠ fault.fuel) :=
  ⟨fun h => ⟨h.symm, by
    have h1 := print_text_runs f word flags 
    rw [h] at h1
    exact h1⟩, fun h => h.1.symm⟩

theorem pnode_printimagedata_runs (f : format) (n : pnode) :
    Runs (fun g => g.level = f.level ∧ g.nofill = f.nofill)
      (pnode_printimagedata f n) := by
  generalize hx : pnode_printimagedata f n = x
  unfold pnode_printimagedata at hx
  try simp only [bind, Except.bind, pure, Except.pure, Except.map] at hx
  repeat' (first | split at hx | dsimp only at hx)
  all_goals subst hx
  all_goals try simp only [
      print_text_fwd, print_text_efwd] at *
  all_goals first
    | (simp only [Runs.ok_iff, Runs.error_iff]
       decide)
    | (simp only [Runs.ok_iff, Runs.error_iff]
       simp only [
        apply_ite format.level, apply_ite format.nofill, ite_self, ne_eq, not_false_eq_true,
        and_self, and_true, true_and, not_true_eq_false, if_true, if_false, format_puts_level,
        format_puts_nofill, format_putc_level, format_putc_nofill, para_check_level,
        para_check_nofill, macro_open_line_level, macro_open_line_nofill, macro_open_level,
        macro_open_nofill, macro_close_level, macro_close_nofill, macro_line_level,
        macro_line_nofill, macro_addarg_loop_level, macro_addarg_loop_nofill,
        macro_enclose_if_level, macro_enclose_if_nofill, macro_unclose_level,
        macro_unclose_nofill, macro_unclose_if_level, macro_unclose_if_nofill,
        macro_display_level, macro_display_nofill, pnode_printsystemitem_level,
        pnode_printsystemitem_nofill, pnode_printtext_punct_level,
        pnode_printtext_punct_nofill, *]
       done)
    | (refine Runs.imp (print_text_runs _ _ _) ?_
       intro a ha
       simp only [
        ha, apply_ite format.level, apply_ite format.nofill, ite_self, ne_eq,
        not_false_eq_true, and_self, and_true, true_and, not_true_eq_false, if_true, if_false,
        format_puts_level, format_puts_nofill, format_putc_level, format_putc_nofill,
        para_check_level, para_check_nofill, macro_open_line_level, macro_open_line_nofill,
        macro_open_level, macro_open_nofill, macro_close_level, macro_close_nofill,
        macro_line_level, macro_line_nofill, macro_addarg_loop_level, macro_addarg_loop_nofill,
        macro_enclose_if_level, macro_enclose_if_nofill, macro_unclose_level,
        macro_unclose_nofill, macro_unclose_if_level, macro_unclose_if_nofill,
        macro_display_level, macro_display_nofill, pnode_printsystemitem_level,
        pnode_printsystemitem_nofill, pnode_printtext_punct_level,
        pnode_printtext_punct_nofill, *]
       done)

theorem pnode_printimagedata_fwd {f : format} {n : pnode}  {g : format} :
    pnode_printimagedata f n = .ok g ↔ (Except.ok g = pnode_printimagedata f n ∧ g.level = f.level ∧ g.nofill = f.nofill) :=
  ⟨fun h => ⟨h.symm, by
    have h1 := pnode_printimagedata_runs f n 
    rw [h] at h1
    exact h1⟩, fun h => h.1.symm⟩

theorem pnode_printimagedata_efwd {f : format} {n : pnode}  {e : fault} :
    pnode_printimagedata f n = .error e ↔ (Except.error e = pnode_printimagedata f n ∧ e ≠ fault.fuel) :=
  ⟨fun h => ⟨h.symm, by
    have h1 := pnode_printimagedata_runs f n 
    rw [h] at h1
    exact h1⟩, fun h => h.1.symm⟩

theorem pnode_printxref_runs (f : format) (n : pnode) :
    Runs (fun g => g.level = f.level ∧ g.nofill = f.nofill)
      (pnode_printxref f n) := by
  generalize hx : pnode_printxref f n = x
  unfold pnode_printxref at hx
  try simp only [bind, Except.bind, pure, Except.pure, Except.map] at hx
  repeat' (first | split at hx | dsimp only at hx)
  all_goals subst hx
  all_goals try simp only [
      macro_addarg_fwd, macro_addarg_efwd] at *
  all_goals first
    | (simp only [Runs.ok_iff, Runs.error_iff]
       decide)
    | (simp only [Runs.ok_iff, Runs.error_iff]
       simp only [
        apply_ite format.level, apply_ite format.nofill, ite_self, ne_eq, not_false_eq_true,
        and_self, and_true, true_and, not_true_eq_false, if_true, if_false, format_puts_level,
        format_puts_nofill, format_putc_level, format_putc_nofill, para_check_level,
        para_check_nofill, macro_open_line_level, macro_open_line_nofill, macro_open_level,
        macro_open_nofill, macro_close_level, macro_close_nofill, macro_line_level,
        macro_line_nofill, macro_addarg_loop_level, macro_addarg_loop_nofill,
        macro_enclose_if_level, macro_enclose_if_nofill, macro_unclose_level,
        macro_unclose_nofill, macro_unclose_if_level, macro_unclose_if_nofill,
        macro_display_level, macro_display_nofill, pnode_printsystemitem_level,
        pnode_printsystemitem_nofill, pnode_printtext_punct_level,
        pnode_printtext_punct_nofill, *]
       done)
    | (refine Runs.imp (macro_addarg_runs _ _ _) ?_
       intro a ha
       simp only [
        ha, apply_ite format.level, apply_ite format.nofill, ite_self, ne_eq,
        not_false_eq_true, and_self, and_true, true_and, not_true_eq_false, if_true, if_false,
        format_puts_level, format_puts_nofill, format_putc_level, format_putc_nofill,
        para_check_level, para_check_nofill, macro_open_line_level, macro_open_line_nofill,
        macro_open_level, macro_open_nofill, macro_close_level, macro_close_nofill,
        macro_line_level, macro_line_nofill, macro_addarg_loop_level, macro_addarg_loop_nofill,
        macro_enclose_if_level, macro_enclose_if_nofill, macro_unclose_level,
        macro_unclose_nofill, macro_unclose_if_level, macro_unclose_if_nofill,
        macro_display_level, macro_display_nofill, pnode_printsystemitem_level,
        pnode_printsystemitem_nofill, pnode_printtext_punct_level,
        pnode_printtext_punct_nofill, *]
       done)

theorem pnode_printxref_fwd {f : format} {n : pnode}  {g : format} :
    pnode_printxref f n = .ok g ↔ (Except.ok g = pnode_printxref f n ∧ g.level = f.level ∧ g.nofill = f.nofill) :=
  ⟨fun h => ⟨h.symm, by
    have h1 := pnode_printxref_runs f n 
    rw [h] at h1
    exact h1⟩, fun h => h.1.symm⟩

theorem pnode_printxref_efwd {f : format} {n : pnode}  {e : fault} :
    pnode_printxref f n = .error e ↔ (Except.error e = pnode_printxref f n ∧ e ≠ fault.fuel) :=
  ⟨fun h => ⟨h.symm, by
    have h1 := pnode_printxref_runs f n 
    rw [h] at h1
    exact h1⟩, fun h => h.1.symm⟩


theorem pnode_unlinksub_fwd {n : pnode}  {g : pnode} :
    pnode_unlinksub n = .ok g ↔ (Except.ok g = pnode_unlinksub n ∧ g.node = n.node ∧ g.parent = n.parent ∧ g.childq = []) :=
  ⟨fun h => ⟨h.symm, by
    have h1 := pnode_unlinksub_runs n 
    rw [h] at h1
    exact h1⟩, fun h => h.1.symm⟩

theorem pnode_unlinksub_efwd {n : pnode}  {e : fault} :
    pnode_unlinksub n = .error e ↔ (Except.error e = pnode_unlinksub n ∧ e ≠ fault.fuel) :=
  ⟨fun h => ⟨h.symm, by
    have h1 := pnode_unlinksub_runs n 
    rw [h] at h1
    exact h1⟩, fun h => h.1.symm⟩

theorem pnode_unlink_child_fwd {n : pnode} {i : Nat}  {g : pnode} :
    pnode_unlink_child n i = .ok g ↔ (Except.ok g = pnode_unlink_child n i ∧ g.node = n.node ∧ g.parent = n.parent ∧ g.childq ⊆ n.childq ∧
      g.nodes.length ≤ n.nodes.length) :=
  ⟨fun h => ⟨h.symm, by
    have h1 := pnode_unlink_child_runs n i 
    rw [h] at h1
    exact h1⟩, fun h => h.1.symm⟩

theorem pnode_unlink_child_efwd {n : pnode} {i : Nat}  {e : fault} :
    pnode_unlink_child n i = .error e ↔ (Except.error e = pnode_unlink_child n i ∧ e ≠ fault.fuel) :=
  ⟨fun h => ⟨h.symm, by
    have h1 := pnode_unlink_child_runs n i 
    rw [h] at h1
    exact h1⟩, fun h => h.1.symm⟩

theorem macro_nodeline_runs (f : format) (name : cstring) (n : pnode) (flags : aflags) :
    Runs (fun g => g.level = f.level ∧ g.nofill = f.nofill)
      (macro_nodeline f name n flags) := by
  generalize hx : macro_nodeline f name n flags = x
  unfold macro_nodeline at hx
  try simp only [bind, Except.bind, pure, Except.pure, Except.map] at hx
  repeat' (first | split at hx | dsimp only at hx)
  all_goals subst hx
  all_goals try simp only [
      macro_addnode_fwd, macro_addnode_efwd] at *
  all_goals first
    | (simp only [Runs.ok_iff, Runs.error_iff]
       decide)
    | (simp only [Runs.ok_iff, Runs.error_iff]
       simp only [
        apply_ite format.level, apply_ite format.nofill, ite_self, ne_eq, not_false_eq_true,
        and_self, and_true, true_and, not_true_eq_false, if_true, if_false, next_kept_none,
        next_kept_some, next_kept_refl, pnode.setFlags_nodes_length,
        pnode_first_flags_nodes_length, sub_cons_cons, sub_cons, sub_refl, sub_nil, sub_tail,
        pnode.kept_iff, pnode.small_setChildq, pnode.small_setChildq_nil, pnode.small_of_nil,
        pnode.small_first_flags, pnode.small_setFlags, pnode_first_flags_node,
        pnode_first_flags_parent, pnode.setChildq_node, pnode.setChildq_parent,
        pnode.setChildq_childq, pnode.setFlags_node, pnode.setFlags_parent,
        pnode.setFlags_childq, format_puts_level, format_puts_nofill, format_putc_level,
        format_putc_nofill, para_check_level, para_check_nofill, macro_open_line_level,
        macro_open_line_nofill, macro_open_level, macro_open_nofill, macro_close_level,
        macro_close_nofill, macro_line_level, macro_line_nofill, macro_addarg_loop_level,
        macro_addarg_loop_nofill, macro_enclose_if_level, macro_enclose_if_nofill,
        macro_unclose_level, macro_unclose_nofill, macro_unclose_if_level,
        macro_unclose_if_nofill, macro_display_level, macro_display_nofill,
        pnode_printsystemitem_level, pnode_printsystemitem_nofill, pnode_printtext_punct_level,
        pnode_printtext_punct_nofill, pnode_printtext_head_level, pnode_printtext_head_nofill, *]
       done)
    | (simp only [Runs.ok_iff]
       repeat' split at *
       all_goals try simp only [
          macro_addnode_fwd, macro_addnode_efwd, Except.ok.injEq, Except.error.injEq,
          Prod.mk.injEq, Option.some.injEq] at *
       all_goals try subst_vars
       all_goals first
         | (simp only [
            apply_ite format.level, apply_ite format.nofill, ite_self, ne_eq, not_false_eq_true,
            and_self, and_true, true_and, not_true_eq_false, if_true, if_false, next_kept_none,
            next_kept_some, next_kept_refl, pnode.setFlags_nodes_length,
            pnode_first_flags_nodes_length, sub_cons_cons, sub_cons, sub_refl, sub_nil, sub_tail,
            pnode.kept_iff, pnode.small_setChildq, pnode.small_setChildq_nil, pnode.small_of_nil,
            pnode.small_first_flags, pnode.small_setFlags, pnode_first_flags_node,
            pnode_first_flags_parent, pnode.setChildq_node, pnode.setChildq_parent,
            pnode.setChildq_childq, pnode.setFlags_node, pnode.setFlags_parent,
            pnode.setFlags_childq, format_puts_level, format_puts_nofill, format_putc_level,
            format_putc_nofill, para_check_level, para_check_nofill, macro_open_line_level,
            macro_open_line_nofill, macro_open_level, macro_open_nofill, macro_close_level,
            macro_close_nofill, macro_line_level, macro_line_nofill, macro_addarg_loop_level,
            macro_addarg_loop_nofill, macro_enclose_if_level, macro_enclose_if_nofill,
            macro_unclose_level, macro_unclose_nofill, macro_unclose_if_level,
            macro_unclose_if_nofill, macro_display_level, macro_display_nofill,
            pnode_printsystemitem_level, pnode_printsystemitem_nofill,
            pnode_printtext_punct_level, pnode_printtext_punct_nofill,
            pnode_printtext_head_level, pnode_printtext_head_nofill, *]
            done)
         | (simp_all
            done)
       done)
    | (simp only [Runs.error_iff]
       intro hh
       subst hh
       repeat' split at *
       all_goals try simp only [
          macro_addnode_fwd, macro_addnode_efwd] at *
       all_goals try subst_vars
       all_goals first
         | (simp at *
            done)
         | (simp_all
            done)
       done)
    | (simp_all
       done)
    | (simp only [Runs.ok_iff, Runs.error_iff]
       simp_all only [
        apply_ite format.level, apply_ite format.nofill, ite_self, ne_eq, not_false_eq_true,
        and_self, and_true, true_and, not_true_eq_false, if_true, if_false, next_kept_none,
        next_kept_some, next_kept_refl, pnode.setFlags_nodes_length,
        pnode_first_flags_nodes_length, sub_cons_cons, sub_cons, sub_refl, sub_nil, sub_tail,
        pnode.kept_iff, pnode.small_setChildq, pnode.small_setChildq_nil, pnode.small_of_nil,
        pnode.small_first_flags, pnode.small_setFlags, pnode_first_flags_node,
        pnode_first_flags_parent, pnode.setChildq_node, pnode.setChildq_parent,
        pnode.setChildq_childq, pnode.setFlags_node, pnode.setFlags_parent,
        pnode.setFlags_childq, format_puts_level, format_puts_nofill, format_putc_level,
        format_putc_nofill, para_check_level, para_check_nofill, macro_open_line_level,
        macro_open_line_nofill, macro_open_level, macro_open_nofill, macro_close_level,
        macro_close_nofill, macro_line_level, macro_line_nofill, macro_addarg_loop_level,
        macro_addarg_loop_nofill, macro_enclose_if_level, macro_enclose_if_nofill,
        macro_unclose_level, macro_unclose_nofill, macro_unclose_if_level,
        macro_unclose_if_nofill, macro_display_level, macro_display_nofill,
        pnode_printsystemitem_level, pnode_printsystemitem_nofill, pnode_printtext_punct_level,
        pnode_printtext_punct_nofill, pnode_printtext_head_level, pnode_printtext_head_nofill]
       done)
    | (simp only [Runs.ok_iff, Runs.error_iff]
       repeat' split at *
       all_goals try simp only [
          macro_addnode_fwd, macro_addnode_efwd, Except.ok.injEq, Except.error.injEq,
          Prod.mk.injEq, Option.some.injEq] at *
       all_goals try subst_vars
       all_goals simp_all only [
        apply_ite format.level, apply_ite format.nofill, ite_self, ne_eq, not_false_eq_true,
        and_self, and_true, true_and, not_true_eq_false, if_true, if_false, next_kept_none,
        next_kept_some, next_kept_refl, pnode.setFlags_nodes_length,
        pnode_first_flags_nodes_length, sub_cons_cons, sub_cons, sub_refl, sub_nil, sub_tail,
        pnode.kept_iff, pnode.small_setChildq, pnode.small_setChildq_nil, pnode.small_of_nil,
        pnode.small_first_flags, pnode.small_setFlags, pnode_first_flags_node,
        pnode_first_flags_parent, pnode.setChildq_node, pnode.setChildq_parent,
        pnode.setChildq_childq, pnode.setFlags_node, pnode.setFlags_parent,
        pnode.setFlags_childq, format_puts_level, format_puts_nofill, format_putc_level,
        format_putc_nofill, para_check_level, para_check_nofill, macro_open_line_level,
        macro_open_line_nofill, macro_open_level, macro_open_nofill, macro_close_level,
        macro_close_nofill, macro_line_level, macro_line_nofill, macro_addarg_loop_level,
        macro_addarg_loop_nofill, macro_enclose_if_level, macro_enclose_if_nofill,
        macro_unclose_level, macro_unclose_nofill, macro_unclose_if_level,
        macro_unclose_if_nofill, macro_display_level, macro_display_nofill,
        pnode_printsystemitem_level, pnode_printsystemitem_nofill, pnode_printtext_punct_level,
        pnode_printtext_punct_nofill, pnode_printtext_head_level, pnode_printtext_head_nofill]
       done)

theorem macro_nodeline_fwd {f : format} {name : cstring} {n : pnode} {flags : aflags}  {g : format} :
    macro_nodeline f name n flags = .ok g ↔ (Except.ok g = macro_nodeline f name n flags ∧ g.level = f.level ∧ g.nofill = f.nofill) :=
  ⟨fun h => ⟨h.symm, by
    have h1 := macro_nodeline_runs f name n flags 
    rw [h] at h1
    exact h1⟩, fun h => h.1.symm⟩

theorem macro_nodeline_efwd {f : format} {name : cstring} {n : pnode} {flags : aflags}  {e : fault} :
    macro_nodeline f name n flags = .error e ↔ (Except.error e = macro_nodeline f name n flags ∧ e ≠ fault.fuel) :=
  ⟨fun h => ⟨h.symm, by
    have h1 := macro_nodeline_runs f name n flags 
    rw [h] at h1
    exact h1⟩, fun h => h.1.symm⟩

theorem pnode_printrefnamediv_loop_runs (a : Nat) (f : format) (comma : Bool) (cs : List pnode) :
    Runs (fun r => r.1.level = f.level ∧ r.1.nofill = f.nofill ∧ r.2 ⊆ cs)
      (pnode_printrefnamediv_loop a f comma cs) := by
  induction cs generalizing f comma with
  | nil =>
    generalize hx : pnode_printrefnamediv_loop a f comma [] = x
    unfold pnode_printrefnamediv_loop at hx
    try simp only [bind, Except.bind, pure, Except.pure] at hx
    repeat' (first | split at hx | dsimp only at hx)
    all_goals subst hx
    all_goals try simp only [
        macro_addarg_fwd, macro_addarg_efwd, macro_addnode_fwd, macro_addnode_efwd] at *
    all_goals first
      | (simp only [Runs.ok_iff, Runs.error_iff]
         decide)
      | (simp only [Runs.ok_iff, Runs.error_iff]
         simp only [
          apply_ite format.level, apply_ite format.nofill, ite_self, ne_eq, not_false_eq_true,
          and_self, and_true, true_and, not_true_eq_false, if_true, if_false, next_kept_none,
          next_kept_some, next_kept_refl, pnode.setFlags_nodes_length,
          pnode_first_flags_nodes_length, sub_cons_cons, sub_cons, sub_refl, sub_nil, sub_tail,
          pnode.kept_iff, pnode.small_setChildq, pnode.small_setChildq_nil, pnode.small_of_nil,
          pnode.small_first_flags, pnode.small_setFlags, pnode_first_flags_node,
          pnode_first_flags_parent, pnode.setChildq_node, pnode.setChildq_parent,
          pnode.setChildq_childq, pnode.setFlags_node, pnode.setFlags_parent,
          pnode.setFlags_childq, format_puts_level, format_puts_nofill, format_putc_level,
          format_putc_nofill, para_check_level, para_check_nofill, macro_open_line_level,
          macro_open_line_nofill, macro_open_level, macro_open_nofill, macro_close_level,
          macro_close_nofill, macro_line_level, macro_line_nofill, macro_addarg_loop_level,
          macro_addarg_loop_nofill, macro_enclose_if_level, macro_enclose_if_nofill,
          macro_unclose_level, macro_unclose_nofill, macro_unclose_if_level,
          macro_unclose_if_nofill, macro_display_level, macro_display_nofill,
          pnode_printsystemitem_level, pnode_printsystemitem_nofill, pnode_printtext_punct_level,
          pnode_printtext_punct_nofill, pnode_printtext_head_level, pnode_printtext_head_nofill, *]
         done)
      | (simp only [Runs.ok_iff]
         repeat' split at *
         all_goals try simp only [
            macro_addarg_fwd, macro_addarg_efwd, macro_addnode_fwd, macro_addnode_efwd,
            Except.ok.injEq, Except.error.injEq, Prod.mk.injEq, Option.some.injEq] at *
         all_goals try subst_vars
         all_goals first
           | (simp only [
              apply_ite format.level, apply_ite format.nofill, ite_self, ne_eq, not_false_eq_true,
              and_self, and_true, true_and, not_true_eq_false, if_true, if_false, next_kept_none,
              next_kept_some, next_kept_refl, pnode.setFlags_nodes_length,
              pnode_first_flags_nodes_length, sub_cons_cons, sub_cons, sub_refl, sub_nil, sub_tail,
              pnode.kept_iff, pnode.small_setChildq, pnode.small_setChildq_nil, pnode.small_of_nil,
              pnode.small_first_flags, pnode.small_setFlags, pnode_first_flags_node,
              pnode_first_flags_parent, pnode.setChildq_node, pnode.setChildq_parent,
              pnode.setChildq_childq, pnode.setFlags_node, pnode.setFlags_parent,
              pnode.setFlags_childq, format_puts_level, format_puts_nofill, format_putc_level,
              format_putc_nofill, para_check_level, para_check_nofill, macro_open_line_level,
              macro_open_line_nofill, macro_open_level, macro_open_nofill, macro_close_level,
              macro_close_nofill, macro_line_level, macro_line_nofill, macro_addarg_loop_level,
              macro_addarg_loop_nofill, macro_enclose_if_level, macro_enclose_if_nofill,
              macro_unclose_level, macro_unclose_nofill, macro_unclose_if_level,
              macro_unclose_if_nofill, macro_display_level, macro_display_nofill,
              pnode_printsystemitem_level, pnode_printsystemitem_nofill,
              pnode_printtext_punct_level, pnode_printtext_punct_nofill,
              pnode_printtext_head_level, pnode_printtext_head_nofill, *]
              done)
           | (simp_all
              done)
         done)
      | (simp only [Runs.error_iff]
         intro hh
         subst hh
         repeat' split at *
         all_goals try simp only [
            macro_addarg_fwd, macro_addarg_efwd, macro_addnode_fwd, macro_addnode_efwd] at *
         all_goals try subst_vars
         all_goals first
           | (simp at *
              done)
           | (simp_all
              done)
         done)
      | (simp_all
         done)
      | (simp only [Runs.ok_iff, Runs.error_iff]
         simp_all only [
          apply_ite format.level, apply_ite format.nofill, ite_self, ne_eq, not_false_eq_true,
          and_self, and_true, true_and, not_true_eq_false, if_true, if_false, next_kept_none,
          next_kept_some, next_kept_refl, pnode.setFlags_nodes_length,
          pnode_first_flags_nodes_length, sub_cons_cons, sub_cons, sub_refl, sub_nil, sub_tail,
          pnode.kept_iff, pnode.small_setChildq, pnode.small_setChildq_nil, pnode.small_of_nil,
          pnode.small_first_flags, pnode.small_setFlags, pnode_first_flags_node,
          pnode_first_flags_parent, pnode.setChildq_node, pnode.setChildq_parent,
          pnode.setChildq_childq, pnode.setFlags_node, pnode.setFlags_parent,
          pnode.setFlags_childq, format_puts_level, format_puts_nofill, format_putc_level,
          format_putc_nofill, para_check_level, para_check_nofill, macro_open_line_level,
          macro_open_line_nofill, macro_open_level, macro_open_nofill, macro_close_level,
          macro_close_nofill, macro_line_level, macro_line_nofill, macro_addarg_loop_level,
          macro_addarg_loop_nofill, macro_enclose_if_level, macro_enclose_if_nofill,
          macro_unclose_level, macro_unclose_nofill, macro_unclose_if_level,
          macro_unclose_if_nofill, macro_display_level, macro_display_nofill,
          pnode_printsystemitem_level, pnode_printsystemitem_nofill, pnode_printtext_punct_level,
          pnode_printtext_punct_nofill, pnode_printtext_head_level, pnode_printtext_head_nofill]
         done)
      | (simp only [Runs.ok_iff, Runs.error_iff]
         repeat' split at *
         all_goals try simp only [
            macro_addarg_fwd, macro_addarg_efwd, macro_addnode_fwd, macro_addnode_efwd,
            Except.ok.injEq, Except.error.injEq, Prod.mk.injEq, Option.some.injEq] at *
         all_goals try subst_vars
         all_goals simp_all only [
          apply_ite format.level, apply_ite format.nofill, ite_self, ne_eq, not_false_eq_true,
          and_self, and_true, true_and, not_true_eq_false, if_true, if_false, next_kept_none,
          next_kept_some, next_kept_refl, pnode.setFlags_nodes_length,
          pnode_first_flags_nodes_length, sub_cons_cons, sub_cons, sub_refl, sub_nil, sub_tail,
          pnode.kept_iff, pnode.small_setChildq, pnode.small_setChildq_nil, pnode.small_of_nil,
          pnode.small_first_flags, pnode.small_setFlags, pnode_first_flags_node,
          pnode_first_flags_parent, pnode.setChildq_node, pnode.setChildq_parent,
          pnode.setChildq_childq, pnode.setFlags_node, pnode.setFlags_parent,
          pnode.setFlags_childq, format_puts_level, format_puts_nofill, format_putc_level,
          format_putc_nofill, para_check_level, para_check_nofill, macro_open_line_level,
          macro_open_line_nofill, macro_open_level, macro_open_nofill, macro_close_level,
          macro_close_nofill, macro_line_level, macro_line_nofill, macro_addarg_loop_level,
          macro_addarg_loop_nofill, macro_enclose_if_level, macro_enclose_if_nofill,
          macro_unclose_level, macro_unclose_nofill, macro_unclose_if_level,
          macro_unclose_if_nofill, macro_display_level, macro_display_nofill,
          pnode_printsystemitem_level, pnode_printsystemitem_nofill, pnode_printtext_punct_level,
          pnode_printtext_punct_nofill, pnode_printtext_head_level, pnode_printtext_head_nofill]
         done)
  | cons nc rest ih =>
    generalize hx : pnode_printrefnamediv_loop a f comma (nc :: rest) = x
    unfold pnode_printrefnamediv_loop at hx
    try simp only [bind, Except.bind, pure, Except.pure] at hx
    repeat' (first | split at hx | dsimp only at hx)
    all_goals subst hx
    all_goals try simp only [
        macro_addarg_fwd, macro_addarg_efwd, macro_addnode_fwd, macro_addnode_efwd] at *
    all_goals first
      | (simp only [Runs.ok_iff, Runs.error_iff]
         decide)
      | (simp only [Runs.ok_iff, Runs.error_iff]
         simp only [
          apply_ite format.level, apply_ite format.nofill, ite_self, ne_eq, not_false_eq_true,
          and_self, and_true, true_and, not_true_eq_false, if_true, if_false, next_kept_none,
          next_kept_some, next_kept_refl, pnode.setFlags_nodes_length,
          pnode_first_flags_nodes_length, sub_cons_cons, sub_cons, sub_refl, sub_nil, sub_tail,
          pnode.kept_iff, pnode.small_setChildq, pnode.small_setChildq_nil, pnode.small_of_nil,
          pnode.small_first_flags, pnode.small_setFlags, pnode_first_flags_node,
          pnode_first_flags_parent, pnode.setChildq_node, pnode.setChildq_parent,
          pnode.setChildq_childq, pnode.setFlags_node, pnode.setFlags_parent,
          pnode.setFlags_childq, format_puts_level, format_puts_nofill, format_putc_level,
          format_putc_nofill, para_check_level, para_check_nofill, macro_open_line_level,
          macro_open_line_nofill, macro_open_level, macro_open_nofill, macro_close_level,
          macro_close_nofill, macro_line_level, macro_line_nofill, macro_addarg_loop_level,
          macro_addarg_loop_nofill, macro_enclose_if_level, macro_enclose_if_nofill,
          macro_unclose_level, macro_unclose_nofill, macro_unclose_if_level,
          macro_unclose_if_nofill, macro_display_level, macro_display_nofill,
          pnode_printsystemitem_level, pnode_printsystemitem_nofill, pnode_printtext_punct_level,
          pnode_printtext_punct_nofill, pnode_printtext_head_level, pnode_printtext_head_nofill, *]
         done)
      | (refine Runs.imp (ih _ _) ?_
         intro a ha
         simp only [
          ha, apply_ite format.level, apply_ite format.nofill, ite_self, ne_eq, not_false_eq_true,
          and_self, and_true, true_and, not_true_eq_false, if_true, if_false, next_kept_none,
          next_kept_some, next_kept_refl, pnode.setFlags_nodes_length,
          pnode_first_flags_nodes_length, sub_cons_cons, sub_cons, sub_refl, sub_nil, sub_tail,
          pnode.kept_iff, pnode.small_setChildq, pnode.small_setChildq_nil, pnode.small_of_nil,
          pnode.small_first_flags, pnode.small_setFlags, pnode_first_flags_node,
          pnode_first_flags_parent, pnode.setChildq_node, pnode.setChildq_parent,
          pnode.setChildq_childq, pnode.setFlags_node, pnode.setFlags_parent,
          pnode.setFlags_childq, format_puts_level, format_puts_nofill, format_putc_level,
          format_putc_nofill, para_check_level, para_check_nofill, macro_open_line_level,
          macro_open_line_nofill, macro_open_level, macro_open_nofill, macro_close_level,
          macro_close_nofill, macro_line_level, macro_line_nofill, macro_addarg_loop_level,
          macro_addarg_loop_nofill, macro_enclose_if_level, macro_enclose_if_nofill,
          macro_unclose_level, macro_unclose_nofill, macro_unclose_if_level,
          macro_unclose_if_nofill, macro_display_level, macro_display_nofill,
          pnode_printsystemitem_level, pnode_printsystemitem_nofill, pnode_printtext_punct_level,
          pnode_printtext_punct_nofill, pnode_printtext_head_level, pnode_printtext_head_nofill, *]
         done)
      | (refine Runs.map_iff.2 (Runs.imp (ih _ _) ?_)
         intro a ha
         simp only [
          ha, apply_ite format.level, apply_ite format.nofill, ite_self, ne_eq, not_false_eq_true,
          and_self, and_true, true_and, not_true_eq_false, if_true, if_false, next_kept_none,
          next_kept_some, next_kept_refl, pnode.setFlags_nodes_length,
          pnode_first_flags_nodes_length, sub_cons_cons, sub_cons, sub_refl, sub_nil, sub_tail,
          pnode.kept_iff, pnode.small_setChildq, pnode.small_setChildq_nil, pnode.small_of_nil,
          pnode.small_first_flags, pnode.small_setFlags, pnode_first_flags_node,
          pnode_first_flags_parent, pnode.setChildq_node, pnode.setChildq_parent,
          pnode.setChildq_childq, pnode.setFlags_node, pnode.setFlags_parent,
          pnode.setFlags_childq, format_puts_level, format_puts_nofill, format_putc_level,
          format_putc_nofill, para_check_level, para_check_nofill, macro_open_line_level,
          macro_open_line_nofill, macro_open_level, macro_open_nofill, macro_close_level,
          macro_close_nofill, macro_line_level, macro_line_nofill, macro_addarg_loop_level,
          macro_addarg_loop_nofill, macro_enclose_if_level, macro_enclose_if_nofill,
          macro_unclose_level, macro_unclose_nofill, macro_unclose_if_level,
          macro_unclose_if_nofill, macro_display_level, macro_display_nofill,
          pnode_printsystemitem_level, pnode_printsystemitem_nofill, pnode_printtext_punct_level,
          pnode_printtext_punct_nofill, pnode_printtext_head_level, pnode_printtext_head_nofill, *]
         done)
      | (refine Runs.imp (ih _ _) ?_
         intro a ha
         repeat' split at *
         all_goals try simp only [
            macro_addarg_fwd, macro_addarg_efwd, macro_addnode_fwd, macro_addnode_efwd,
            Except.ok.injEq, Except.error.injEq, Prod.mk.injEq, Option.some.injEq] at *
         all_goals try subst_vars
         all_goals first
           | (simp only [
              apply_ite format.level, apply_ite format.nofill, ite_self, ne_eq, not_false_eq_true,
              and_self, and_true, true_and, not_true_eq_false, if_true, if_false, next_kept_none,
              next_kept_some, next_kept_refl, pnode.setFlags_nodes_length,
              pnode_first_flags_nodes_length, sub_cons_cons, sub_cons, sub_refl, sub_nil, sub_tail,
              pnode.kept_iff, pnode.small_setChildq, pnode.small_setChildq_nil, pnode.small_of_nil,
              pnode.small_first_flags, pnode.small_setFlags, pnode_first_flags_node,
              pnode_first_flags_parent, pnode.setChildq_node, pnode.setChildq_parent,
              pnode.setChildq_childq, pnode.setFlags_node, pnode.setFlags_parent,
              pnode.setFlags_childq, format_puts_level, format_puts_nofill, format_putc_level,
              format_putc_nofill, para_check_level, para_check_nofill, macro_open_line_level,
              macro_open_line_nofill, macro_open_level, macro_open_nofill, macro_close_level,
              macro_close_nofill, macro_line_level, macro_line_nofill, macro_addarg_loop_level,
              macro_addarg_loop_nofill, macro_enclose_if_level, macro_enclose_if_nofill,
              macro_unclose_level, macro_unclose_nofill, macro_unclose_if_level,
              macro_unclose_if_nofill, macro_display_level, macro_display_nofill,
              pnode_printsystemitem_level, pnode_printsystemitem_nofill,
              pnode_printtext_punct_level, pnode_printtext_punct_nofill,
              pnode_printtext_head_level, pnode_printtext_head_nofill, *]
              done)
           | (simp_all
              done)
         done)
      | (refine Runs.map_iff.2 (Runs.imp (ih _ _) ?_)
         intro a ha
         repeat' split at *
         all_goals try simp only [
            macro_addarg_fwd, macro_addarg_efwd, macro_addnode_fwd, macro_addnode_efwd,
            Except.ok.injEq, Except.error.injEq, Prod.mk.injEq, Option.some.injEq] at *
         all_goals try subst_vars
         all_goals first
           | (simp only [
              apply_ite format.level, apply_ite format.nofill, ite_self, ne_eq, not_false_eq_true,
              and_self, and_true, true_and, not_true_eq_false, if_true, if_false, next_kept_none,
              next_kept_some, next_kept_refl, pnode.setFlags_nodes_length,
              pnode_first_flags_nodes_length, sub_cons_cons, sub_cons, sub_refl, sub_nil, sub_tail,
              pnode.kept_iff, pnode.small_setChildq, pnode.small_setChildq_nil, pnode.small_of_nil,
              pnode.small_first_flags, pnode.small_setFlags, pnode_first_flags_node,
              pnode_first_flags_parent, pnode.setChildq_node, pnode.setChildq_parent,
              pnode.setChildq_childq, pnode.setFlags_node, pnode.setFlags_parent,
              pnode.setFlags_childq, format_puts_level, format_puts_nofill, format_putc_level,
              format_putc_nofill, para_check_level, para_check_nofill, macro_open_line_level,
              macro_open_line_nofill, macro_open_level, macro_open_nofill, macro_close_level,
              macro_close_nofill, macro_line_level, macro_line_nofill, macro_addarg_loop_level,
              macro_addarg_loop_nofill, macro_enclose_if_level, macro_enclose_if_nofill,
              macro_unclose_level, macro_unclose_nofill, macro_unclose_if_level,
              macro_unclose_if_nofill, macro_display_level, macro_display_nofill,
              pnode_printsystemitem_level, pnode_printsystemitem_nofill,
              pnode_printtext_punct_level, pnode_printtext_punct_nofill,
              pnode_printtext_head_level, pnode_printtext_head_nofill, *]
              done)
           | (simp_all
              done)
         done)
      | (simp only [Runs.ok_iff]
         repeat' split at *
         all_goals try simp only [
            macro_addarg_fwd, macro_addarg_efwd, macro_addnode_fwd, macro_addnode_efwd,
            Except.ok.injEq, Except.error.injEq, Prod.mk.injEq, Option.some.injEq] at *
         all_goals try subst_vars
         all_goals first
           | (simp only [
              apply_ite format.level, apply_ite format.nofill, ite_self, ne_eq, not_false_eq_true,
              and_self, and_true, true_and, not_true_eq_false, if_true, if_false, next_kept_none,
              next_kept_some, next_kept_refl, pnode.setFlags_nodes_length,
              pnode_first_flags_nodes_length, sub_cons_cons, sub_cons, sub_refl, sub_nil, sub_tail,
              pnode.kept_iff, pnode.small_setChildq, pnode.small_setChildq_nil, pnode.small_of_nil,
              pnode.small_first_flags, pnode.small_setFlags, pnode_first_flags_node,
              pnode_first_flags_parent, pnode.setChildq_node, pnode.setChildq_parent,
              pnode.setChildq_childq, pnode.setFlags_node, pnode.setFlags_parent,
              pnode.setFlags_childq, format_puts_level, format_puts_nofill, format_putc_level,
              format_putc_nofill, para_check_level, para_check_nofill, macro_open_line_level,
              macro_open_line_nofill, macro_open_level, macro_open_nofill, macro_close_level,
              macro_close_nofill, macro_line_level, macro_line_nofill, macro_addarg_loop_level,
              macro_addarg_loop_nofill, macro_enclose_if_level, macro_enclose_if_nofill,
              macro_unclose_level, macro_unclose_nofill, macro_unclose_if_level,
              macro_unclose_if_nofill, macro_display_level, macro_display_nofill,
              pnode_printsystemitem_level, pnode_printsystemitem_nofill,
              pnode_printtext_punct_level, pnode_printtext_punct_nofill,
              pnode_printtext_head_level, pnode_printtext_head_nofill, *]
              done)
           | (simp_all
              done)
         done)
      | (simp only [Runs.error_iff]
         intro hh
         subst hh
         repeat' split at *
         all_goals try simp only [
            macro_addarg_fwd, macro_addarg_efwd, macro_addnode_fwd, macro_addnode_efwd] at *
         all_goals try subst_vars
         all_goals first
           | (simp at *
              done)
           | (simp_all
              done)
         done)
      | (simp_all
         done)
      | (simp only [Runs.ok_iff, Runs.error_iff]
         simp_all only [
          apply_ite format.level, apply_ite format.nofill, ite_self, ne_eq, not_false_eq_true,
          and_self, and_true, true_and, not_true_eq_false, if_true, if_false, next_kept_none,
          next_kept_some, next_kept_refl, pnode.setFlags_nodes_length,
          pnode_first_flags_nodes_length, sub_cons_cons, sub_cons, sub_refl, sub_nil, sub_tail,
          pnode.kept_iff, pnode.small_setChildq, pnode.small_setChildq_nil, pnode.small_of_nil,
          pnode.small_first_flags, pnode.small_setFlags, pnode_first_flags_node,
          pnode_first_flags_parent, pnode.setChildq_node, pnode.setChildq_parent,
          pnode.setChildq_childq, pnode.setFlags_node, pnode.setFlags_parent,
          pnode.setFlags_childq, format_puts_level, format_puts_nofill, format_putc_level,
          format_putc_nofill, para_check_level, para_check_nofill, macro_open_line_level,
          macro_open_line_nofill, macro_open_level, macro_open_nofill, macro_close_level,
          macro_close_nofill, macro_line_level, macro_line_nofill, macro_addarg_loop_level,
          macro_addarg_loop_nofill, macro_enclose_if_level, macro_enclose_if_nofill,
          macro_unclose_level, macro_unclose_nofill, macro_unclose_if_level,
          macro_unclose_if_nofill, macro_display_level, macro_display_nofill,
          pnode_printsystemitem_level, pnode_printsystemitem_nofill, pnode_printtext_punct_level,
          pnode_printtext_punct_nofill, pnode_printtext_head_level, pnode_printtext_head_nofill]
         done)
      | (simp only [Runs.ok_iff, Runs.error_iff]
         repeat' split at *
         all_goals try simp only [
            macro_addarg_fwd, macro_addarg_efwd, macro_addnode_fwd, macro_addnode_efwd,
            Except.ok.injEq, Except.error.injEq, Prod.mk.injEq, Option.some.injEq] at *
         all_goals try subst_vars
         all_goals simp_all only [
          apply_ite format.level, apply_ite format.nofill, ite_self, ne_eq, not_false_eq_true,
          and_self, and_true, true_and, not_true_eq_false, if_true, if_false, next_kept_none,
          next_kept_some, next_kept_refl, pnode.setFlags_nodes_length,
          pnode_first_flags_nodes_length, sub_cons_cons, sub_cons, sub_refl, sub_nil, sub_tail,
          pnode.kept_iff, pnode.small_setChildq, pnode.small_setChildq_nil, pnode.small_of_nil,
          pnode.small_first_flags, pnode.small_setFlags, pnode_first_flags_node,
          pnode_first_flags_parent, pnode.setChildq_node, pnode.setChildq_parent,
          pnode.setChildq_childq, pnode.setFlags_node, pnode.setFlags_parent,
          pnode.setFlags_childq, format_puts_level, format_puts_nofill, format_putc_level,
          format_putc_nofill, para_check_level, para_check_nofill, macro_open_line_level,
          macro_open_line_nofill, macro_open_level, macro_open_nofill, macro_close_level,
          macro_close_nofill, macro_line_level, macro_line_nofill, macro_addarg_loop_level,
          macro_addarg_loop_nofill, macro_enclose_if_level, macro_enclose_if_nofill,
          macro_unclose_level, macro_unclose_nofill, macro_unclose_if_level,
          macro_unclose_if_nofill, macro_display_level, macro_display_nofill,
          pnode_printsystemitem_level, pnode_printsystemitem_nofill, pnode_printtext_punct_level,
          pnode_printtext_punct_nofill, pnode_printtext_head_level, pnode_printtext_head_nofill]
         done)

theorem pnode_printrefnamediv_loop_fwd {a : Nat} {f : format} {comma : Bool} {cs : List pnode}  {g : format × List pnode} :
    pnode_printrefnamediv_loop a f comma cs = .ok g ↔ (Except.ok g = pnode_printrefnamediv_loop a f comma cs ∧ g.1.level = f.level ∧ g.1.nofill = f.nofill ∧ ∀ l, cs ⊆ l → g.2 ⊆ l) :=
  ⟨fun h => ⟨h.symm, by
    have h1 := pnode_printrefnamediv_loop_runs a f comma cs 
    rw [h] at h1
    exact ⟨h1.1, h1.2.1, fun l hl => List.Subset.trans h1.2.2 hl⟩⟩, fun h => h.1.symm⟩

theorem pnode_printrefnamediv_loop_efwd {a : Nat} {f : format} {comma : Bool} {cs : List pnode}  {e : fault} :
    pnode_printrefnamediv_loop a f comma cs = .error e ↔ (Except.error e = pnode_printrefnamediv_loop a f comma cs ∧ e ≠ fault.fuel) :=
  ⟨fun h => ⟨h.symm, by
    have h1 := pnode_printrefnamediv_loop_runs a f comma cs 
    rw [h] at h1
    exact h1⟩, fun h => h.1.symm⟩

theorem pnode_printrefnamediv_runs (f : format) (n : pnode) {k : Nat} (hn : n.small k) :
    Runs (fun r => r.1.level = f.level ∧ r.1.nofill = f.nofill ∧ r.2.node = n.node ∧
      r.2.parent = n.parent ∧ r.2.small k)
      (pnode_printrefnamediv f n) := by
  generalize hx : pnode_printrefnamediv f n = x
  unfold pnode_printrefnamediv at hx
  try simp only [bind, Except.bind, pure, Except.pure, Except.map] at hx
  repeat' (first | split at hx | dsimp only at hx)
  all_goals subst hx
  all_goals try simp only [
      pnode_printrefnamediv_loop_fwd, pnode_printrefnamediv_loop_efwd] at *
  all_goals first
    | (simp only [Runs.ok_iff, Runs.error_iff]
       decide)
    | (simp only [Runs.ok_iff, Runs.error_iff]
       simp only [
        apply_ite format.level, apply_ite format.nofill, ite_self, ne_eq, not_false_eq_true,
        and_self, and_true, true_and, not_true_eq_false, if_true, if_false, next_kept_none,
        next_kept_some, next_kept_refl, pnode.setFlags_nodes_length,
        pnode_first_flags_nodes_length, sub_cons_cons, sub_cons, sub_refl, sub_nil, sub_tail,
        pnode.kept_iff, pnode.small_setChildq, pnode.small_setChildq_nil, pnode.small_of_nil,
        pnode.small_first_flags, pnode.small_setFlags, pnode_first_flags_node,
        pnode_first_flags_parent, pnode.setChildq_node, pnode.setChildq_parent,
        pnode.setChildq_childq, pnode.setFlags_node, pnode.setFlags_parent,
        pnode.setFlags_childq, format_puts_level, format_puts_nofill, format_putc_level,
        format_putc_nofill, para_check_level, para_check_nofill, macro_open_line_level,
        macro_open_line_nofill, macro_open_level, macro_open_nofill, macro_close_level,
        macro_close_nofill, macro_line_level, macro_line_nofill, macro_addarg_loop_level,
        macro_addarg_loop_nofill, macro_enclose_if_level, macro_enclose_if_nofill,
        macro_unclose_level, macro_unclose_nofill, macro_unclose_if_level,
        macro_unclose_if_nofill, macro_display_level, macro_display_nofill,
        pnode_printsystemitem_level, pnode_printsystemitem_nofill, pnode_printtext_punct_level,
        pnode_printtext_punct_nofill, pnode_printtext_head_level, pnode_printtext_head_nofill, *]
       done)
    | (simp only [Runs.ok_iff]
       repeat' split at *
       all_goals try simp only [
          pnode_printrefnamediv_loop_fwd, pnode_printrefnamediv_loop_efwd, Except.ok.injEq,
          Except.error.injEq, Prod.mk.injEq, Option.some.injEq] at *
       all_goals try subst_vars
       all_goals first
         | (simp only [
            apply_ite format.level, apply_ite format.nofill, ite_self, ne_eq, not_false_eq_true,
            and_self, and_true, true_and, not_true_eq_false, if_true, if_false, next_kept_none,
            next_kept_some, next_kept_refl, pnode.setFlags_nodes_length,
            pnode_first_flags_nodes_length, sub_cons_cons, sub_cons, sub_refl, sub_nil, sub_tail,
            pnode.kept_iff, pnode.small_setChildq, pnode.small_setChildq_nil, pnode.small_of_nil,
            pnode.small_first_flags, pnode.small_setFlags, pnode_first_flags_node,
            pnode_first_flags_parent, pnode.setChildq_node, pnode.setChildq_parent,
            pnode.setChildq_childq, pnode.setFlags_node, pnode.setFlags_parent,
            pnode.setFlags_childq, format_puts_level, format_puts_nofill, format_putc_level,
            format_putc_nofill, para_check_level, para_check_nofill, macro_open_line_level,
            macro_open_line_nofill, macro_open_level, macro_open_nofill, macro_close_level,
            macro_close_nofill, macro_line_level, macro_line_nofill, macro_addarg_loop_level,
            macro_addarg_loop_nofill, macro_enclose_if_level, macro_enclose_if_nofill,
            macro_unclose_level, macro_unclose_nofill, macro_unclose_if_level,
            macro_unclose_if_nofill, macro_display_level, macro_display_nofill,
            pnode_printsystemitem_level, pnode_printsystemitem_nofill,
            pnode_printtext_punct_level, pnode_printtext_punct_nofill,
            pnode_printtext_head_level, pnode_printtext_head_nofill, *]
            done)
         | (simp_all
            done)
       done)
    | (simp only [Runs.error_iff]
       intro hh
       subst hh
       repeat' split at *
       all_goals try simp only [
          pnode_printrefnamediv_loop_fwd, pnode_printrefnamediv_loop_efwd] at *
       all_goals try subst_vars
       all_goals first
         | (simp at *
            done)
         | (simp_all
            done)
       done)
    | (simp_all
       done)
    | (simp only [Runs.ok_iff, Runs.error_iff]
       simp_all only [
        apply_ite format.level, apply_ite format.nofill, ite_self, ne_eq, not_false_eq_true,
        and_self, and_true, true_and, not_true_eq_false, if_true, if_false, next_kept_none,
        next_kept_some, next_kept_refl, pnode.setFlags_nodes_length,
        pnode_first_flags_nodes_length, sub_cons_cons, sub_cons, sub_refl, sub_nil, sub_tail,
        pnode.kept_iff, pnode.small_setChildq, pnode.small_setChildq_nil, pnode.small_of_nil,
        pnode.small_first_flags, pnode.small_setFlags, pnode_first_flags_node,
        pnode_first_flags_parent, pnode.setChildq_node, pnode.setChildq_parent,
        pnode.setChildq_childq, pnode.setFlags_node, pnode.setFlags_parent,
        pnode.setFlags_childq, format_puts_level, format_puts_nofill, format_putc_level,
        format_putc_nofill, para_check_level, para_check_nofill, macro_open_line_level,
        macro_open_line_nofill, macro_open_level, macro_open_nofill, macro_close_level,
        macro_close_nofill, macro_line_level, macro_line_nofill, macro_addarg_loop_level,
        macro_addarg_loop_nofill, macro_enclose_if_level, macro_enclose_if_nofill,
        macro_unclose_level, macro_unclose_nofill, macro_unclose_if_level,
        macro_unclose_if_nofill, macro_display_level, macro_display_nofill,
        pnode_printsystemitem_level, pnode_printsystemitem_nofill, pnode_printtext_punct_level,
        pnode_printtext_punct_nofill, pnode_printtext_head_level, pnode_printtext_head_nofill]
       done)
    | (simp only [Runs.ok_iff, Runs.error_iff]
       repeat' split at *
       all_goals try simp only [
          pnode_printrefnamediv_loop_fwd, pnode_printrefnamediv_loop_efwd, Except.ok.injEq,
          Except.error.injEq, Prod.mk.injEq, Option.some.injEq] at *
       all_goals try subst_vars
       all_goals simp_all only [
        apply_ite format.level, apply_ite format.nofill, ite_self, ne_eq, not_false_eq_true,
        and_self, and_true, true_and, not_true_eq_false, if_true, if_false, next_kept_none,
        next_kept_some, next_kept_refl, pnode.setFlags_nodes_length,
        pnode_first_flags_nodes_length, sub_cons_cons, sub_cons, sub_refl, sub_nil, sub_tail,
        pnode.kept_iff, pnode.small_setChildq, pnode.small_setChildq_nil, pnode.small_of_nil,
        pnode.small_first_flags, pnode.small_setFlags, pnode_first_flags_node,
        pnode_first_flags_parent, pnode.setChildq_node, pnode.setChildq_parent,
        pnode.setChildq_childq, pnode.setFlags_node, pnode.setFlags_parent,
        pnode.setFlags_childq, format_puts_level, format_puts_nofill, format_putc_level,
        format_putc_nofill, para_check_level, para_check_nofill, macro_open_line_level,
        macro_open_line_nofill, macro_open_level, macro_open_nofill, macro_close_level,
        macro_close_nofill, macro_line_level, macro_line_nofill, macro_addarg_loop_level,
        macro_addarg_loop_nofill, macro_enclose_if_level, macro_enclose_if_nofill,
        macro_unclose_level, macro_unclose_nofill, macro_unclose_if_level,
        macro_unclose_if_nofill, macro_display_level, macro_display_nofill,
        pnode_printsystemitem_level, pnode_printsystemitem_nofill, pnode_printtext_punct_level,
        pnode_printtext_punct_nofill, pnode_printtext_head_level, pnode_printtext_head_nofill]
       done)

theorem pnode_printrefnamediv_fwd {f : format} {n : pnode} {k : Nat} (hn : n.small k) {g : format × pnode} :
    pnode_printrefnamediv f n = .ok g ↔ (Except.ok g = pnode_printrefnamediv f n ∧ g.1.level = f.level ∧ g.1.nofill = f.nofill ∧ g.2.node = n.node ∧
      g.2.parent = n.parent ∧ g.2.small k) :=
  ⟨fun h => ⟨h.symm, by
    have h1 := pnode_printrefnamediv_runs f n hn
    rw [h] at h1
    exact h1⟩, fun h => h.1.symm⟩

theorem pnode_printrefnamediv_efwd {f : format} {n : pnode} {k : Nat} (hn : n.small k) {e : fault} :
    pnode_printrefnamediv f n = .error e ↔ (Except.error e = pnode_printrefnamediv f n ∧ e ≠ fault.fuel) :=
  ⟨fun h => ⟨h.symm, by
    have h1 := pnode_printrefnamediv_runs f n hn
    rw [h] at h1
    exact h1⟩, fun h => h.1.symm⟩

theorem pnode_foreach_unlink_runs (a : Nat) (sel : pnode → Bool)
    (act : format → pnode → Except fault format)
    (hact : ∀ g nc, Runs (fun g1 => g1.level = g.level ∧ g1.nofill = g.nofill) (act g nc))
    (f : format) (cs : List pnode) :
    Runs (fun r => r.1.level = f.level ∧ r.1.nofill = f.nofill ∧ r.2 ⊆ cs)
      (pnode_foreach_unlink a sel act f cs) := by
  induction cs generalizing f with
  | nil =>
    rw [pnode_foreach_unlink]
    exact ⟨rfl, rfl, List.Subset.refl _⟩
  | cons nc rest ih =>
    rw [pnode_foreach_unlink]
    split
    · have h1 := hact f nc
      cases hx : act f nc with
      | error e =>
        rw [hx] at h1
        exact h1
      | ok f1 =>
        rw [hx] at h1
        simp only []
        split
        · exact Runs.imp (ih f1) (fun r hr =>
            ⟨hr.1.trans h1.1, hr.2.1.trans h1.2, List.subset_cons_of_subset _ hr.2.2⟩)
        · exact fun h => by cases h
    · have h2 := ih f
      cases hy : pnode_foreach_unlink a sel act f rest with
      | error e =>
        rw [hy] at h2
        exact h2
      | ok r =>
        obtain ⟨f1, rest1⟩ := r
        rw [hy] at h2
        exact ⟨h2.1, h2.2.1, List.cons_subset_cons _ h2.2.2⟩

theorem print_textnode_queue_runs (cs : List pnode)
    (ih : ∀ c ∈ cs, ∀ (f : format),
      Runs (fun g => g.level = f.level ∧ g.nofill = f.nofill) (print_textnode f c)) :
    ∀ (f : format),
      Runs (fun g => g.level = f.level ∧ g.nofill = f.nofill) (print_textnode_queue f cs) := by
  induction cs with
  | nil =>
    intro f
    rw [print_textnode_queue]
    exact ⟨rfl, rfl⟩
  | cons nc rest ihl =>
    intro f
    rw [print_textnode_queue]
    have h1 := ih nc (List.mem_cons_self _ _) f
    cases hx : print_textnode f nc with
    | error e =>
      rw [hx] at h1
      exact h1
    | ok f1 =>
      rw [hx] at h1
      have h2 := ihl (fun c hc => ih c (List.mem_cons_of_mem _ hc)) f1
      exact Runs.imp h2 (fun g hg => ⟨hg.1.trans h1.1, hg.2.trans h1.2⟩)

theorem print_textnode_mk (f : format) (a : Nat) (k : nodeid)
    (b : Option cstring) (p : Option Nat) (fl : nflags) (q : List pattr) (cs : List pnode) :
    print_textnode f (.mk a k b p fl q cs) =
      if k = NODE_TEXT ∨ k = NODE_ESCAPE then
        match b with
        | none => .error .null
        | some s => print_text f s ARG_SPACE
      else print_textnode_queue f cs := rfl

theorem print_textnode_runs (f : format) (n : pnode) :
    Runs (fun g => g.level = f.level ∧ g.nofill = f.nofill) (print_textnode f n) := by
  revert f
  refine pnode.induct (P := fun n => ∀ (f : format),
    Runs (fun g => g.level = f.level ∧ g.nofill = f.nofill) (print_textnode f n)) ?_ n
  intro n ih f
  obtain ⟨a, k, b, p, fl, q, cs⟩ := n
  rw [print_textnode_mk]
  split
  · split
    · exact fun h => by cases h
    · exact print_text_runs _ _ _
  · exact print_textnode_queue_runs cs ih f

theorem pnode_printsection_level_runs (k : nodeid) (level : Int) :
    Runs (fun _ => True) (pnode_printsection_level k level) := by
  unfold pnode_printsection_level
  split <;> first | trivial | exact fun h => by cases h

theorem pnode_printtitle_runs (f : format) (n : pnode) {k : Nat} (hn : n.small k) :
    Runs (fun r => r.1.level = f.level ∧ r.1.nofill = f.nofill ∧ r.2.node = n.node ∧
      r.2.parent = n.parent ∧ r.2.small k)
      (pnode_printtitle f n) := by
  unfold pnode_printtitle
  refine Runs.map_iff.2 (Runs.imp (pnode_foreach_unlink_runs _ _ _ ?_ f n.childq) ?_)
  · intro g nc
    refine Runs.imp (macro_nodeline_runs _ _ _ _) ?_
    intro a ha
    obtain ⟨h1, h2⟩ := ha
    constructor
    · rw [h1]
      split <;> rfl
    · rw [h2]
      split <;> rfl
  · intro r hr
    exact ⟨hr.1, hr.2.1, pnode.setChildq_node _ _, pnode.setChildq_parent _ _,
      (pnode.small_setChildq hn hr.2.2).2 trivial⟩

theorem pnode_printrefsynopsisdiv_runs (f : format) (n : pnode) {k : Nat} (hn : n.small k) :
    Runs (fun r => r.1.level = f.level ∧ r.1.nofill = f.nofill ∧ r.2.node = n.node ∧
      r.2.parent = n.parent ∧ r.2.small k)
      (pnode_printrefsynopsisdiv f n) := by
  unfold pnode_printrefsynopsisdiv
  refine Runs.bind_iff.2 (Runs.imp (pnode_foreach_unlink_runs _ _ _ ?_ f n.childq) ?_)
  · intro g nc
    exact ⟨rfl, rfl⟩
  · intro r hr
    obtain ⟨f1, cs⟩ := r
    refine ⟨?_, ?_, pnode.setChildq_node _ _, pnode.setChildq_parent _ _,
      (pnode.small_setChildq hn hr.2.2).2 trivial⟩
    · simp only [macro_line_level]
      exact hr.1
    · simp only [macro_line_nofill]
      exact hr.2.1

theorem print_textnode_fwd {f : format} {n : pnode}  {g : format} :
    print_textnode f n = .ok g ↔ (Except.ok g = print_textnode f n ∧ g.level = f.level ∧ g.nofill = f.nofill) :=
  ⟨fun h => ⟨h.symm, by
    have h1 := print_textnode_runs f n 
    rw [h] at h1
    exact h1⟩, fun h => h.1.symm⟩

theorem print_textnode_efwd {f : format} {n : pnode}  {e : fault} :
    print_textnode f n = .error e ↔ (Except.error e = print_textnode f n ∧ e ≠ fault.fuel) :=
  ⟨fun h => ⟨h.symm, by
    have h1 := print_textnode_runs f n 
    rw [h] at h1
    exact h1⟩, fun h => h.1.symm⟩

theorem pnode_printsection_level_fwd {k : nodeid} {level : Int}  {g : aflags × Int} :
    pnode_printsection_level k level = .ok g ↔ (Except.ok g = pnode_printsection_level k level ∧ True) :=
  ⟨fun h => ⟨h.symm, by
    have h1 := pnode_printsection_level_runs k level 
    rw [h] at h1
    exact h1⟩, fun h => h.1.symm⟩

theorem pnode_printsection_level_efwd {k : nodeid} {level : Int}  {e : fault} :
    pnode_printsection_level k level = .error e ↔ (Except.error e = pnode_printsection_level k level ∧ e ≠ fault.fuel) :=
  ⟨fun h => ⟨h.symm, by
    have h1 := pnode_printsection_level_runs k level 
    rw [h] at h1
    exact h1⟩, fun h => h.1.symm⟩

theorem pnode_printtitle_fwd {f : format} {n : pnode} {k : Nat} (hn : n.small k) {g : format × pnode} :
    pnode_printtitle f n = .ok g ↔ (Except.ok g = pnode_printtitle f n ∧ g.1.level = f.level ∧ g.1.nofill = f.nofill ∧ g.2.node = n.node ∧
      g.2.parent = n.parent ∧ g.2.small k) :=
  ⟨fun h => ⟨h.symm, by
    have h1 := pnode_printtitle_runs f n hn
    rw [h] at h1
    exact h1⟩, fun h => h.1.symm⟩

theorem pnode_printtitle_efwd {f : format} {n : pnode} {k : Nat} (hn : n.small k) {e : fault} :
    pnode_printtitle f n = .error e ↔ (Except.error e = pnode_printtitle f n ∧ e ≠ fault.fuel) :=
  ⟨fun h => ⟨h.symm, by
    have h1 := pnode_printtitle_runs f n hn
    rw [h] at h1
    exact h1⟩, fun h => h.1.symm⟩

theorem pnode_printrefsynopsisdiv_fwd {f : format} {n : pnode} {k : Nat} (hn : n.small k) {g : format × pnode} :
    pnode_printrefsynopsisdiv f n = .ok g ↔ (Except.ok g = pnode_printrefsynopsisdiv f n ∧ g.1.level = f.level ∧ g.1.nofill = f.nofill ∧ g.2.node = n.node ∧
      g.2.parent = n.parent ∧ g.2.small k) :=
  ⟨fun h => ⟨h.symm, by
    have h1 := pnode_printrefsynopsisdiv_runs f n hn
    rw [h] at h1
    exact h1⟩, fun h => h.1.symm⟩

theorem pnode_printrefsynopsisdiv_efwd {f : format} {n : pnode} {k : Nat} (hn : n.small k) {e : fault} :
    pnode_printrefsynopsisdiv f n = .error e ↔ (Except.error e = pnode_printrefsynopsisdiv f n ∧ e ≠ fault.fuel) :=
  ⟨fun h => ⟨h.symm, by
    have h1 := pnode_printrefsynopsisdiv_runs f n hn
    rw [h] at h1
    exact h1⟩, fun h => h.1.symm⟩

theorem pnode_unlink_childk_fwd {n : pnode} {i : Nat} {k : Nat} (hn : n.small k) {g : pnode} :
    pnode_unlink_child n i = .ok g ↔ (Except.ok g = pnode_unlink_child n i ∧ g.node = n.node ∧ g.parent = n.parent ∧ g.small k) :=
  ⟨fun h => ⟨h.symm, by
    have h1 := pnode_unlink_childk_runs n i hn
    rw [h] at h1
    exact h1⟩, fun h => h.1.symm⟩

theorem pnode_unlink_childk_efwd {n : pnode} {i : Nat} {k : Nat} (hn : n.small k) {e : fault} :
    pnode_unlink_child n i = .error e ↔ (Except.error e = pnode_unlink_child n i ∧ e ≠ fault.fuel) :=
  ⟨fun h => ⟨h.symm, by
    have h1 := pnode_unlink_childk_runs n i hn
    rw [h] at h1
    exact h1⟩, fun h => h.1.symm⟩

theorem pnode_printsection_runs (f : format) (n : pnode) {k : Nat} (hn : n.small k) :
    Runs (fun r => r.1.level = f.level + (if n.parent = none then 0 else 1) ∧ r.1.nofill = f.nofill ∧
      r.2.node = n.node ∧ r.2.parent = n.parent ∧ r.2.small k)
      (pnode_printsection f n) := by
  generalize hx : pnode_printsection f n = x
  unfold pnode_printsection at hx
  try simp only [bind, Except.bind, pure, Except.pure, Except.map] at hx
  repeat' (first | split at hx | dsimp only at hx)
  all_goals subst hx
  all_goals try simp only [
      pnode_printsection_level_fwd, pnode_printsection_level_efwd, macro_addnode_fwd,
      macro_addnode_efwd, pnode_unlink_childk_fwd hn, pnode_unlink_childk_efwd hn] at *
  all_goals first
    | (simp only [Runs.ok_iff, Runs.error_iff]
       decide)
    | (simp only [Runs.ok_iff, Runs.error_iff]
       simp only [
        apply_ite format.level, apply_ite format.nofill, ite_self, ne_eq, not_false_eq_true,
        and_self, and_true, true_and, not_true_eq_false, if_true, if_false, next_kept_none,
        next_kept_some, next_kept_refl, pnode.setFlags_nodes_length,
        pnode_first_flags_nodes_length, sub_cons_cons, sub_cons, sub_refl, sub_nil, sub_tail,
        pnode.kept_iff, pnode.small_setChildq, pnode.small_setChildq_nil, pnode.small_of_nil,
        pnode.small_first_flags, pnode.small_setFlags, pnode_first_flags_node,
        pnode_first_flags_parent, pnode.setChildq_node, pnode.setChildq_parent,
        pnode.setChildq_childq, pnode.setFlags_node, pnode.setFlags_parent,
        pnode.setFlags_childq, format_puts_level, format_puts_nofill, format_putc_level,
        format_putc_nofill, para_check_level, para_check_nofill, macro_open_line_level,
        macro_open_line_nofill, macro_open_level, macro_open_nofill, macro_close_level,
        macro_close_nofill, macro_line_level, macro_line_nofill, macro_addarg_loop_level,
        macro_addarg_loop_nofill, macro_enclose_if_level, macro_enclose_if_nofill,
        macro_unclose_level, macro_unclose_nofill, macro_unclose_if_level,
        macro_unclose_if_nofill, macro_display_level, macro_display_nofill,
        pnode_printsystemitem_level, pnode_printsystemitem_nofill, pnode_printtext_punct_level,
        pnode_printtext_punct_nofill, pnode_printtext_head_level, pnode_printtext_head_nofill,
        add_zero, *]
       done)
    | (simp only [Runs.ok_iff]
       repeat' split at *
       all_goals try simp only [
          pnode_printsection_level_fwd, pnode_printsection_level_efwd, macro_addnode_fwd,
          macro_addnode_efwd, pnode_unlink_childk_fwd hn, pnode_unlink_childk_efwd hn,
          Except.ok.injEq, Except.error.injEq, Prod.mk.injEq, Option.some.injEq] at *
       all_goals try subst_vars
       all_goals first
         | (simp only [
            apply_ite format.level, apply_ite format.nofill, ite_self, ne_eq, not_false_eq_true,
            and_self, and_true, true_and, not_true_eq_false, if_true, if_false, next_kept_none,
            next_kept_some, next_kept_refl, pnode.setFlags_nodes_length,
            pnode_first_flags_nodes_length, sub_cons_cons, sub_cons, sub_refl, sub_nil, sub_tail,
            pnode.kept_iff, pnode.small_setChildq, pnode.small_setChildq_nil, pnode.small_of_nil,
            pnode.small_first_flags, pnode.small_setFlags, pnode_first_flags_node,
            pnode_first_flags_parent, pnode.setChildq_node, pnode.setChildq_parent,
            pnode.setChildq_childq, pnode.setFlags_node, pnode.setFlags_parent,
            pnode.setFlags_childq, format_puts_level, format_puts_nofill, format_putc_level,
            format_putc_nofill, para_check_level, para_check_nofill, macro_open_line_level,
            macro_open_line_nofill, macro_open_level, macro_open_nofill, macro_close_level,
            macro_close_nofill, macro_line_level, macro_line_nofill, macro_addarg_loop_level,
            macro_addarg_loop_nofill, macro_enclose_if_level, macro_enclose_if_nofill,
            macro_unclose_level, macro_unclose_nofill, macro_unclose_if_level,
            macro_unclose_if_nofill, macro_display_level, macro_display_nofill,
            pnode_printsystemitem_level, pnode_printsystemitem_nofill,
            pnode_printtext_punct_level, pnode_printtext_punct_nofill,
            pnode_printtext_head_level, pnode_printtext_head_nofill, add_zero, *]
            done)
         | (simp_all
            done)
       done)
    | (simp only [Runs.error_iff]
       intro hh
       subst hh
       repeat' split at *
       all_goals try simp only [
          pnode_printsection_level_fwd, pnode_printsection_level_efwd, macro_addnode_fwd,
          macro_addnode_efwd, pnode_unlink_childk_fwd hn, pnode_unlink_childk_efwd hn] at *
       all_goals try subst_vars
       all_goals first
         | (simp at *
            done)
         | (simp_all
            done)
       done)
    | (simp_all
       done)
    | (simp only [Runs.ok_iff, Runs.error_iff]
       simp_all only [
        apply_ite format.level, apply_ite format.nofill, ite_self, ne_eq, not_false_eq_true,
        and_self, and_true, true_and, not_true_eq_false, if_true, if_false, next_kept_none,
        next_kept_some, next_kept_refl, pnode.setFlags_nodes_length,
        pnode_first_flags_nodes_length, sub_cons_cons, sub_cons, sub_refl, sub_nil, sub_tail,
        pnode.kept_iff, pnode.small_setChildq, pnode.small_setChildq_nil, pnode.small_of_nil,
        pnode.small_first_flags, pnode.small_setFlags, pnode_first_flags_node,
        pnode_first_flags_parent, pnode.setChildq_node, pnode.setChildq_parent,
        pnode.setChildq_childq, pnode.setFlags_node, pnode.setFlags_parent,
        pnode.setFlags_childq, format_puts_level, format_puts_nofill, format_putc_level,
        format_putc_nofill, para_check_level, para_check_nofill, macro_open_line_level,
        macro_open_line_nofill, macro_open_level, macro_open_nofill, macro_close_level,
        macro_close_nofill, macro_line_level, macro_line_nofill, macro_addarg_loop_level,
        macro_addarg_loop_nofill, macro_enclose_if_level, macro_enclose_if_nofill,
        macro_unclose_level, macro_unclose_nofill, macro_unclose_if_level,
        macro_unclose_if_nofill, macro_display_level, macro_display_nofill,
        pnode_printsystemitem_level, pnode_printsystemitem_nofill, pnode_printtext_punct_level,
        pnode_printtext_punct_nofill, pnode_printtext_head_level, pnode_printtext_head_nofill,
        add_zero]
       done)
    | (simp only [Runs.ok_iff, Runs.error_iff]
       repeat' split at *
       all_goals try simp only [
          pnode_printsection_level_fwd, pnode_printsection_level_efwd, macro_addnode_fwd,
          macro_addnode_efwd, pnode_unlink_childk_fwd hn, pnode_unlink_childk_efwd hn,
          Except.ok.injEq, Except.error.injEq, Prod.mk.injEq, Option.some.injEq] at *
       all_goals try subst_vars
       all_goals simp_all only [
        apply_ite format.level, apply_ite format.nofill, ite_self, ne_eq, not_false_eq_true,
        and_self, and_true, true_and, not_true_eq_false, if_true, if_false, next_kept_none,
        next_kept_some, next_kept_refl, pnode.setFlags_nodes_length,
        pnode_first_flags_nodes_length, sub_cons_cons, sub_cons, sub_refl, sub_nil, sub_tail,
        pnode.kept_iff, pnode.small_setChildq, pnode.small_setChildq_nil, pnode.small_of_nil,
        pnode.small_first_flags, pnode.small_setFlags, pnode_first_flags_node,
        pnode_first_flags_parent, pnode.setChildq_node, pnode.setChildq_parent,
        pnode.setChildq_childq, pnode.setFlags_node, pnode.setFlags_parent,
        pnode.setFlags_childq, format_puts_level, format_puts_nofill, format_putc_level,
        format_putc_nofill, para_check_level, para_check_nofill, macro_open_line_level,
        macro_open_line_nofill, macro_open_level, macro_open_nofill, macro_close_level,
        macro_close_nofill, macro_line_level, macro_line_nofill, macro_addarg_loop_level,
        macro_addarg_loop_nofill, macro_enclose_if_level, macro_enclose_if_nofill,
        macro_unclose_level, macro_unclose_nofill, macro_unclose_if_level,
        macro_unclose_if_nofill, macro_display_level, macro_display_nofill,
        pnode_printsystemitem_level, pnode_printsystemitem_nofill, pnode_printtext_punct_level,
        pnode_printtext_punct_nofill, pnode_printtext_head_level, pnode_printtext_head_nofill,
        add_zero]
       done)

theorem pnode_printsection_fwd {f : format} {n : pnode} {k : Nat} (hn : n.small k) {g : format × pnode} :
    pnode_printsection f n = .ok g ↔ (Except.ok g = pnode_printsection f n ∧ g.1.level = f.level + (if n.parent = none then 0 else 1) ∧ g.1.nofill = f.nofill ∧
      g.2.node = n.node ∧ g.2.parent = n.parent ∧ g.2.small k) :=
  ⟨fun h => ⟨h.symm, by
    have h1 := pnode_printsection_runs f n hn
    rw [h] at h1
    exact h1⟩, fun h => h.1.symm⟩

theorem pnode_printsection_efwd {f : format} {n : pnode} {k : Nat} (hn : n.small k) {e : fault} :
    pnode_printsection f n = .error e ↔ (Except.error e = pnode_printsection f n ∧ e ≠ fault.fuel) :=
  ⟨fun h => ⟨h.symm, by
    have h1 := pnode_printsection_runs f n hn
    rw [h] at h1
    exact h1⟩, fun h => h.1.symm⟩

theorem pnode_printciterefentry_runs (f : format) (n : pnode) {k : Nat} (hn : n.small k) :
    Runs (fun r => r.1.level = f.level ∧ r.1.nofill = f.nofill ∧ r.2.node = n.node ∧
      r.2.parent = n.parent ∧ r.2.small k)
      (pnode_printciterefentry f n) := by
  generalize hx : pnode_printciterefentry f n = x
  unfold pnode_printciterefentry at hx
  try simp only [bind, Except.bind, pure, Except.pure, Except.map] at hx
  repeat' (first | split at hx | dsimp only at hx)
  all_goals subst hx
  all_goals try simp only [
      macro_addarg_fwd, macro_addarg_efwd, macro_addnode_fwd, macro_addnode_efwd,
      pnode_unlinksub_fwd, pnode_unlinksub_efwd] at *
  all_goals first
    | (simp only [Runs.ok_iff, Runs.error_iff]
       decide)
    | (simp only [Runs.ok_iff, Runs.error_iff]
       simp only [
        apply_ite format.level, apply_ite format.nofill, ite_self, ne_eq, not_false_eq_true,
        and_self, and_true, true_and, not_true_eq_false, if_true, if_false, next_kept_none,
        next_kept_some, next_kept_refl, pnode.setFlags_nodes_length,
        pnode_first_flags_nodes_length, sub_cons_cons, sub_cons, sub_refl, sub_nil, sub_tail,
        pnode.kept_iff, pnode.small_setChildq, pnode.small_setChildq_nil, pnode.small_of_nil,
        pnode.small_first_flags, pnode.small_setFlags, pnode_first_flags_node,
        pnode_first_flags_parent, pnode.setChildq_node, pnode.setChildq_parent,
        pnode.setChildq_childq, pnode.setFlags_node, pnode.setFlags_parent,
        pnode.setFlags_childq, format_puts_level, format_puts_nofill, format_putc_level,
        format_putc_nofill, para_check_level, para_check_nofill, macro_open_line_level,
        macro_open_line_nofill, macro_open_level, macro_open_nofill, macro_close_level,
        macro_close_nofill, macro_line_level, macro_line_nofill, macro_addarg_loop_level,
        macro_addarg_loop_nofill, macro_enclose_if_level, macro_enclose_if_nofill,
        macro_unclose_level, macro_unclose_nofill, macro_unclose_if_level,
        macro_unclose_if_nofill, macro_display_level, macro_display_nofill,
        pnode_printsystemitem_level, pnode_printsystemitem_nofill, pnode_printtext_punct_level,
        pnode_printtext_punct_nofill, pnode_printtext_head_level, pnode_printtext_head_nofill, *]
       done)
    | (simp only [Runs.ok_iff]
       repeat' split at *
       all_goals try simp only [
          macro_addarg_fwd, macro_addarg_efwd, macro_addnode_fwd, macro_addnode_efwd,
          pnode_unlinksub_fwd, pnode_unlinksub_efwd, Except.ok.injEq, Except.error.injEq,
          Prod.mk.injEq, Option.some.injEq] at *
       all_goals try subst_vars
       all_goals first
         | (simp only [
            apply_ite format.level, apply_ite format.nofill, ite_self, ne_eq, not_false_eq_true,
            and_self, and_true, true_and, not_true_eq_false, if_true, if_false, next_kept_none,
            next_kept_some, next_kept_refl, pnode.setFlags_nodes_length,
            pnode_first_flags_nodes_length, sub_cons_cons, sub_cons, sub_refl, sub_nil, sub_tail,
            pnode.kept_iff, pnode.small_setChildq, pnode.small_setChildq_nil, pnode.small_of_nil,
            pnode.small_first_flags, pnode.small_setFlags, pnode_first_flags_node,
            pnode_first_flags_parent, pnode.setChildq_node, pnode.setChildq_parent,
            pnode.setChildq_childq, pnode.setFlags_node, pnode.setFlags_parent,
            pnode.setFlags_childq, format_puts_level, format_puts_nofill, format_putc_level,
            format_putc_nofill, para_check_level, para_check_nofill, macro_open_line_level,
            macro_open_line_nofill, macro_open_level, macro_open_nofill, macro_close_level,
            macro_close_nofill, macro_line_level, macro_line_nofill, macro_addarg_loop_level,
            macro_addarg_loop_nofill, macro_enclose_if_level, macro_enclose_if_nofill,
            macro_unclose_level, macro_unclose_nofill, macro_unclose_if_level,
            macro_unclose_if_nofill, macro_display_level, macro_display_nofill,
            pnode_printsystemitem_level, pnode_printsystemitem_nofill,
            pnode_printtext_punct_level, pnode_printtext_punct_nofill,
            pnode_printtext_head_level, pnode_printtext_head_nofill, *]
            done)
         | (simp_all
            done)
       done)
    | (simp only [Runs.error_iff]
       intro hh
       subst hh
       repeat' split at *
       all_goals try simp only [
          macro_addarg_fwd, macro_addarg_efwd, macro_addnode_fwd, macro_addnode_efwd,
          pnode_unlinksub_fwd, pnode_unlinksub_efwd] at *
       all_goals try subst_vars
       all_goals first
         | (simp at *
            done)
         | (simp_all
            done)
       done)
    | (simp_all
       done)
    | (simp only [Runs.ok_iff, Runs.error_iff]
       simp_all only [
        apply_ite format.level, apply_ite format.nofill, ite_self, ne_eq, not_false_eq_true,
        and_self, and_true, true_and, not_true_eq_false, if_true, if_false, next_kept_none,
        next_kept_some, next_kept_refl, pnode.setFlags_nodes_length,
        pnode_first_flags_nodes_length, sub_cons_cons, sub_cons, sub_refl, sub_nil, sub_tail,
        pnode.kept_iff, pnode.small_setChildq, pnode.small_setChildq_nil, pnode.small_of_nil,
        pnode.small_first_flags, pnode.small_setFlags, pnode_first_flags_node,
        pnode_first_flags_parent, pnode.setChildq_node, pnode.setChildq_parent,
        pnode.setChildq_childq, pnode.setFlags_node, pnode.setFlags_parent,
        pnode.setFlags_childq, format_puts_level, format_puts_nofill, format_putc_level,
        format_putc_nofill, para_check_level, para_check_nofill, macro_open_line_level,
        macro_open_line_nofill, macro_open_level, macro_open_nofill, macro_close_level,
        macro_close_nofill, macro_line_level, macro_line_nofill, macro_addarg_loop_level,
        macro_addarg_loop_nofill, macro_enclose_if_level, macro_enclose_if_nofill,
        macro_unclose_level, macro_unclose_nofill, macro_unclose_if_level,
        macro_unclose_if_nofill, macro_display_level, macro_display_nofill,
        pnode_printsystemitem_level, pnode_printsystemitem_nofill, pnode_printtext_punct_level,
        pnode_printtext_punct_nofill, pnode_printtext_head_level, pnode_printtext_head_nofill]
       done)
    | (simp only [Runs.ok_iff, Runs.error_iff]
       repeat' split at *
       all_goals try simp only [
          macro_addarg_fwd, macro_addarg_efwd, macro_addnode_fwd, macro_addnode_efwd,
          pnode_unlinksub_fwd, pnode_unlinksub_efwd, Except.ok.injEq, Except.error.injEq,
          Prod.mk.injEq, Option.some.injEq] at *
       all_goals try subst_vars
       all_goals simp_all only [
        apply_ite format.level, apply_ite format.nofill, ite_self, ne_eq, not_false_eq_true,
        and_self, and_true, true_and, not_true_eq_false, if_true, if_false, next_kept_none,
        next_kept_some, next_kept_refl, pnode.setFlags_nodes_length,
        pnode_first_flags_nodes_length, sub_cons_cons, sub_cons, sub_refl, sub_nil, sub_tail,
        pnode.kept_iff, pnode.small_setChildq, pnode.small_setChildq_nil, pnode.small_of_nil,
        pnode.small_first_flags, pnode.small_setFlags, pnode_first_flags_node,
        pnode_first_flags_parent, pnode.setChildq_node, pnode.setChildq_parent,
        pnode.setChildq_childq, pnode.setFlags_node, pnode.setFlags_parent,
        pnode.setFlags_childq, format_puts_level, format_puts_nofill, format_putc_level,
        format_putc_nofill, para_check_level, para_check_nofill, macro_open_line_level,
        macro_open_line_nofill, macro_open_level, macro_open_nofill, macro_close_level,
        macro_close_nofill, macro_line_level, macro_line_nofill, macro_addarg_loop_level,
        macro_addarg_loop_nofill, macro_enclose_if_level, macro_enclose_if_nofill,
        macro_unclose_level, macro_unclose_nofill, macro_unclose_if_level,
        macro_unclose_if_nofill, macro_display_level, macro_display_nofill,
        pnode_printsystemitem_level, pnode_printsystemitem_nofill, pnode_printtext_punct_level,
        pnode_printtext_punct_nofill, pnode_printtext_head_level, pnode_printtext_head_nofill]
       done)

theorem pnode_printciterefentry_fwd {f : format} {n : pnode} {k : Nat} (hn : n.small k) {g : format × pnode} :
    pnode_printciterefentry f n = .ok g ↔ (Except.ok g = pnode_printciterefentry f n ∧ g.1.level = f.level ∧ g.1.nofill = f.nofill ∧ g.2.node = n.node ∧
      g.2.parent = n.parent ∧ g.2.small k) :=
  ⟨fun h => ⟨h.symm, by
    have h1 := pnode_printciterefentry_runs f n hn
    rw [h] at h1
    exact h1⟩, fun h => h.1.symm⟩

theorem pnode_printciterefentry_efwd {f : format} {n : pnode} {k : Nat} (hn : n.small k) {e : fault} :
    pnode_printciterefentry f n = .error e ↔ (Except.error e = pnode_printciterefentry f n ∧ e ≠ fault.fuel) :=
  ⟨fun h => ⟨h.symm, by
    have h1 := pnode_printciterefentry_runs f n hn
    rw [h] at h1
    exact h1⟩, fun h => h.1.symm⟩

theorem pnode_printolink_runs (f : format) (n : pnode) {k : Nat} (hn : n.small k) :
    Runs (fun r => r.1.level = f.level ∧ r.1.nofill = f.nofill ∧ r.2.node = n.node ∧
      r.2.parent = n.parent ∧ r.2.small k)
      (pnode_printolink f n) := by
  generalize hx : pnode_printolink f n = x
  unfold pnode_printolink at hx
  try simp only [bind, Except.bind, pure, Except.pure, Except.map] at hx
  repeat' (first | split at hx | dsimp only at hx)
  all_goals subst hx
  all_goals try simp only [
      macro_addarg_fwd, macro_addarg_efwd, macro_addnode_fwd, macro_addnode_efwd,
      pnode_unlinksub_fwd, pnode_unlinksub_efwd] at *
  all_goals first
    | (simp only [Runs.ok_iff, Runs.error_iff]
       decide)
    | (simp only [Runs.ok_iff, Runs.error_iff]
       simp only [
        apply_ite format.level, apply_ite format.nofill, ite_self, ne_eq, not_false_eq_true,
        and_self, and_true, true_and, not_true_eq_false, if_true, if_false, next_kept_none,
        next_kept_some, next_kept_refl, pnode.setFlags_nodes_length,
        pnode_first_flags_nodes_length, sub_cons_cons, sub_cons, sub_refl, sub_nil, sub_tail,
        pnode.kept_iff, pnode.small_setChildq, pnode.small_setChildq_nil, pnode.small_of_nil,
        pnode.small_first_flags, pnode.small_setFlags, pnode_first_flags_node,
        pnode_first_flags_parent, pnode.setChildq_node, pnode.setChildq_parent,
        pnode.setChildq_childq, pnode.setFlags_node, pnode.setFlags_parent,
        pnode.setFlags_childq, format_puts_level, format_puts_nofill, format_putc_level,
        format_putc_nofill, para_check_level, para_check_nofill, macro_open_line_level,
        macro_open_line_nofill, macro_open_level, macro_open_nofill, macro_close_level,
        macro_close_nofill, macro_line_level, macro_line_nofill, macro_addarg_loop_level,
        macro_addarg_loop_nofill, macro_enclose_if_level, macro_enclose_if_nofill,
        macro_unclose_level, macro_unclose_nofill, macro_unclose_if_level,
        macro_unclose_if_nofill, macro_display_level, macro_display_nofill,
        pnode_printsystemitem_level, pnode_printsystemitem_nofill, pnode_printtext_punct_level,
        pnode_printtext_punct_nofill, pnode_printtext_head_level, pnode_printtext_head_nofill, *]
       done)
    | (simp only [Runs.ok_iff]
       repeat' split at *
       all_goals try simp only [
          macro_addarg_fwd, macro_addarg_efwd, macro_addnode_fwd, macro_addnode_efwd,
          pnode_unlinksub_fwd, pnode_unlinksub_efwd, Except.ok.injEq, Except.error.injEq,
          Prod.mk.injEq, Option.some.injEq] at *
       all_goals try subst_vars
       all_goals first
         | (simp only [
            apply_ite format.level, apply_ite format.nofill, ite_self, ne_eq, not_false_eq_true,
            and_self, and_true, true_and, not_true_eq_false, if_true, if_false, next_kept_none,
            next_kept_some, next_kept_refl, pnode.setFlags_nodes_length,
            pnode_first_flags_nodes_length, sub_cons_cons, sub_cons, sub_refl, sub_nil, sub_tail,
            pnode.kept_iff, pnode.small_setChildq, pnode.small_setChildq_nil, pnode.small_of_nil,
            pnode.small_first_flags, pnode.small_setFlags, pnode_first_flags_node,
            pnode_first_flags_parent, pnode.setChildq_node, pnode.setChildq_parent,
            pnode.setChildq_childq, pnode.setFlags_node, pnode.setFlags_parent,
            pnode.setFlags_childq, format_puts_level, format_puts_nofill, format_putc_level,
            format_putc_nofill, para_check_level, para_check_nofill, macro_open_line_level,
            macro_open_line_nofill, macro_open_level, macro_open_nofill, macro_close_level,
            macro_close_nofill, macro_line_level, macro_line_nofill, macro_addarg_loop_level,
            macro_addarg_loop_nofill, macro_enclose_if_level, macro_enclose_if_nofill,
            macro_unclose_level, macro_unclose_nofill, macro_unclose_if_level,
            macro_unclose_if_nofill, macro_display_level, macro_display_nofill,
            pnode_printsystemitem_level, pnode_printsystemitem_nofill,
            pnode_printtext_punct_level, pnode_printtext_punct_nofill,
            pnode_printtext_head_level, pnode_printtext_head_nofill, *]
            done)
         | (simp_all
            done)
       done)
    | (simp only [Runs.error_iff]
       intro hh
       subst hh
       repeat' split at *
       all_goals try simp only [
          macro_addarg_fwd, macro_addarg_efwd, macro_addnode_fwd, macro_addnode_efwd,
          pnode_unlinksub_fwd, pnode_unlinksub_efwd] at *
       all_goals try subst_vars
       all_goals first
         | (simp at *
            done)
         | (simp_all
            done)
       done)
    | (simp_all
       done)
    | (simp only [Runs.ok_iff, Runs.error_iff]
       simp_all only [
        apply_ite format.level, apply_ite format.nofill, ite_self, ne_eq, not_false_eq_true,
        and_self, and_true, true_and, not_true_eq_false, if_true, if_false, next_kept_none,
        next_kept_some, next_kept_refl, pnode.setFlags_nodes_length,
        pnode_first_flags_nodes_length, sub_cons_cons, sub_cons, sub_refl, sub_nil, sub_tail,
        pnode.kept_iff, pnode.small_setChildq, pnode.small_setChildq_nil, pnode.small_of_nil,
        pnode.small_first_flags, pnode.small_setFlags, pnode_first_flags_node,
        pnode_first_flags_parent, pnode.setChildq_node, pnode.setChildq_parent,
        pnode.setChildq_childq, pnode.setFlags_node, pnode.setFlags_parent,
        pnode.setFlags_childq, format_puts_level, format_puts_nofill, format_putc_level,
        format_putc_nofill, para_check_level, para_check_nofill, macro_open_line_level,
        macro_open_line_nofill, macro_open_level, macro_open_nofill, macro_close_level,
        macro_close_nofill, macro_line_level, macro_line_nofill, macro_addarg_loop_level,
        macro_addarg_loop_nofill, macro_enclose_if_level, macro_enclose_if_nofill,
        macro_unclose_level, macro_unclose_nofill, macro_unclose_if_level,
        macro_unclose_if_nofill, macro_display_level, macro_display_nofill,
        pnode_printsystemitem_level, pnode_printsystemitem_nofill, pnode_printtext_punct_level,
        pnode_printtext_punct_nofill, pnode_printtext_head_level, pnode_printtext_head_nofill]
       done)
    | (simp only [Runs.ok_iff, Runs.error_iff]
       repeat' split at *
       all_goals try simp only [
          macro_addarg_fwd, macro_addarg_efwd, macro_addnode_fwd, macro_addnode_efwd,
          pnode_unlinksub_fwd, pnode_unlinksub_efwd, Except.ok.injEq, Except.error.injEq,
          Prod.mk.injEq, Option.some.injEq] at *
       all_goals try subst_vars
       all_goals simp_all only [
        apply_ite format.level, apply_ite format.nofill, ite_self, ne_eq, not_false_eq_true,
        and_self, and_true, true_and, not_true_eq_false, if_true, if_false, next_kept_none,
        next_kept_some, next_kept_refl, pnode.setFlags_nodes_length,
        pnode_first_flags_nodes_length, sub_cons_cons, sub_cons, sub_refl, sub_nil, sub_tail,
        pnode.kept_iff, pnode.small_setChildq, pnode.small_setChildq_nil, pnode.small_of_nil,
        pnode.small_first_flags, pnode.small_setFlags, pnode_first_flags_node,
        pnode_first_flags_parent, pnode.setChildq_node, pnode.setChildq_parent,
        pnode.setChildq_childq, pnode.setFlags_node, pnode.setFlags_parent,
        pnode.setFlags_childq, format_puts_level, format_puts_nofill, format_putc_level,
        format_putc_nofill, para_check_level, para_check_nofill, macro_open_line_level,
        macro_open_line_nofill, macro_open_level, macro_open_nofill, macro_close_level,
        macro_close_nofill, macro_line_level, macro_line_nofill, macro_addarg_loop_level,
        macro_addarg_loop_nofill, macro_enclose_if_level, macro_enclose_if_nofill,
        macro_unclose_level, macro_unclose_nofill, macro_unclose_if_level,
        macro_unclose_if_nofill, macro_display_level, macro_display_nofill,
        pnode_printsystemitem_level, pnode_printsystemitem_nofill, pnode_printtext_punct_level,
        pnode_printtext_punct_nofill, pnode_printtext_head_level, pnode_printtext_head_nofill]
       done)

theorem pnode_printolink_fwd {f : format} {n : pnode} {k : Nat} (hn : n.small k) {g : format × pnode} :
    pnode_printolink f n = .ok g ↔ (Except.ok g = pnode_printolink f n ∧ g.1.level = f.level ∧ g.1.nofill = f.nofill ∧ g.2.node = n.node ∧
      g.2.parent = n.parent ∧ g.2.small k) :=
  ⟨fun h => ⟨h.symm, by
    have h1 := pnode_printolink_runs f n hn
    rw [h] at h1
    exact h1⟩, fun h => h.1.symm⟩

theorem pnode_printolink_efwd {f : format} {n : pnode} {k : Nat} (hn : n.small k) {e : fault} :
    pnode_printolink f n = .error e ↔ (Except.error e = pnode_printolink f n ∧ e ≠ fault.fuel) :=
  ⟨fun h => ⟨h.symm, by
    have h1 := pnode_printolink_runs f n hn
    rw [h] at h1
    exact h1⟩, fun h => h.1.symm⟩

theorem pnode_funcdef_runs (a : Nat) (fdef : Option pnode) (cs : List pnode) :
    Runs (fun _ => True)
      (pnode_funcdef a fdef cs) := by
  induction cs generalizing fdef with
  | nil =>
    generalize hx : pnode_funcdef a fdef [] = x
    unfold pnode_funcdef at hx
    try simp only [bind, Except.bind, pure, Except.pure] at hx
    repeat' (first | split at hx | dsimp only at hx)
    all_goals subst hx
    all_goals first
      | (simp only [Runs.ok_iff, Runs.error_iff]
         decide)
      | (simp only [Runs.ok_iff, Runs.error_iff]
         simp only [
          apply_ite format.level, apply_ite format.nofill, ite_self, ne_eq, not_false_eq_true,
          and_self, and_true, true_and, not_true_eq_false, if_true, if_false, next_kept_none,
          next_kept_some, next_kept_refl, pnode.setFlags_nodes_length,
          pnode_first_flags_nodes_length, sub_cons_cons, sub_cons, sub_refl, sub_nil, sub_tail,
          pnode.kept_iff, pnode.small_setChildq, pnode.small_setChildq_nil, pnode.small_of_nil,
          pnode.small_first_flags, pnode.small_setFlags, pnode_first_flags_node,
          pnode_first_flags_parent, pnode.setChildq_node, pnode.setChildq_parent,
          pnode.setChildq_childq, pnode.setFlags_node, pnode.setFlags_parent,
          pnode.setFlags_childq, format_puts_level, format_puts_nofill, format_putc_level,
          format_putc_nofill, para_check_level, para_check_nofill, macro_open_line_level,
          macro_open_line_nofill, macro_open_level, macro_open_nofill, macro_close_level,
          macro_close_nofill, macro_line_level, macro_line_nofill, macro_addarg_loop_level,
          macro_addarg_loop_nofill, macro_enclose_if_level, macro_enclose_if_nofill,
          macro_unclose_level, macro_unclose_nofill, macro_unclose_if_level,
          macro_unclose_if_nofill, macro_display_level, macro_display_nofill,
          pnode_printsystemitem_level, pnode_printsystemitem_nofill, pnode_printtext_punct_level,
          pnode_printtext_punct_nofill, pnode_printtext_head_level, pnode_printtext_head_nofill, *]
         done)
      | (simp only [Runs.ok_iff]
         repeat' split at *
         all_goals try simp only [
            Except.ok.injEq, Except.error.injEq, Prod.mk.injEq, Option.some.injEq] at *
         all_goals try subst_vars
         all_goals first
           | (simp only [
              apply_ite format.level, apply_ite format.nofill, ite_self, ne_eq, not_false_eq_true,
              and_self, and_true, true_and, not_true_eq_false, if_true, if_false, next_kept_none,
              next_kept_some, next_kept_refl, pnode.setFlags_nodes_length,
              pnode_first_flags_nodes_length, sub_cons_cons, sub_cons, sub_refl, sub_nil, sub_tail,
              pnode.kept_iff, pnode.small_setChildq, pnode.small_setChildq_nil, pnode.small_of_nil,
              pnode.small_first_flags, pnode.small_setFlags, pnode_first_flags_node,
              pnode_first_flags_parent, pnode.setChildq_node, pnode.setChildq_parent,
              pnode.setChildq_childq, pnode.setFlags_node, pnode.setFlags_parent,
              pnode.setFlags_childq, format_puts_level, format_puts_nofill, format_putc_level,
              format_putc_nofill, para_check_level, para_check_nofill, macro_open_line_level,
              macro_open_line_nofill, macro_open_level, macro_open_nofill, macro_close_level,
              macro_close_nofill, macro_line_level, macro_line_nofill, macro_addarg_loop_level,
              macro_addarg_loop_nofill, macro_enclose_if_level, macro_enclose_if_nofill,
              macro_unclose_level, macro_unclose_nofill, macro_unclose_if_level,
              macro_unclose_if_nofill, macro_display_level, macro_display_nofill,
              pnode_printsystemitem_level, pnode_printsystemitem_nofill,
              pnode_printtext_punct_level, pnode_printtext_punct_nofill,
              pnode_printtext_head_level, pnode_printtext_head_nofill, *]
              done)
           | (simp_all
              done)
         done)
      | (simp only [Runs.error_iff]
         intro hh
         subst hh
         repeat' split at *
         all_goals try subst_vars
         all_goals first
           | (simp at *
              done)
           | (simp_all
              done)
         done)
      | (simp_all
         done)
      | (simp only [Runs.ok_iff, Runs.error_iff]
         simp_all only [
          apply_ite format.level, apply_ite format.nofill, ite_self, ne_eq, not_false_eq_true,
          and_self, and_true, true_and, not_true_eq_false, if_true, if_false, next_kept_none,
          next_kept_some, next_kept_refl, pnode.setFlags_nodes_length,
          pnode_first_flags_nodes_length, sub_cons_cons, sub_cons, sub_refl, sub_nil, sub_tail,
          pnode.kept_iff, pnode.small_setChildq, pnode.small_setChildq_nil, pnode.small_of_nil,
          pnode.small_first_flags, pnode.small_setFlags, pnode_first_flags_node,
          pnode_first_flags_parent, pnode.setChildq_node, pnode.setChildq_parent,
          pnode.setChildq_childq, pnode.setFlags_node, pnode.setFlags_parent,
          pnode.setFlags_childq, format_puts_level, format_puts_nofill, format_putc_level,
          format_putc_nofill, para_check_level, para_check_nofill, macro_open_line_level,
          macro_open_line_nofill, macro_open_level, macro_open_nofill, macro_close_level,
          macro_close_nofill, macro_line_level, macro_line_nofill, macro_addarg_loop_level,
          macro_addarg_loop_nofill, macro_enclose_if_level, macro_enclose_if_nofill,
          macro_unclose_level, macro_unclose_nofill, macro_unclose_if_level,
          macro_unclose_if_nofill, macro_display_level, macro_display_nofill,
          pnode_printsystemitem_level, pnode_printsystemitem_nofill, pnode_printtext_punct_level,
          pnode_printtext_punct_nofill, pnode_printtext_head_level, pnode_printtext_head_nofill]
         done)
      | (simp only [Runs.ok_iff, Runs.error_iff]
         repeat' split at *
         all_goals try simp only [
            Except.ok.injEq, Except.error.injEq, Prod.mk.injEq, Option.some.injEq] at *
         all_goals try subst_vars
         all_goals simp_all only [
          apply_ite format.level, apply_ite format.nofill, ite_self, ne_eq, not_false_eq_true,
          and_self, and_true, true_and, not_true_eq_false, if_true, if_false, next_kept_none,
          next_kept_some, next_kept_refl, pnode.setFlags_nodes_length,
          pnode_first_flags_nodes_length, sub_cons_cons, sub_cons, sub_refl, sub_nil, sub_tail,
          pnode.kept_iff, pnode.small_setChildq, pnode.small_setChildq_nil, pnode.small_of_nil,
          pnode.small_first_flags, pnode.small_setFlags, pnode_first_flags_node,
          pnode_first_flags_parent, pnode.setChildq_node, pnode.setChildq_parent,
          pnode.setChildq_childq, pnode.setFlags_node, pnode.setFlags_parent,
          pnode.setFlags_childq, format_puts_level, format_puts_nofill, format_putc_level,
          format_putc_nofill, para_check_level, para_check_nofill, macro_open_line_level,
          macro_open_line_nofill, macro_open_level, macro_open_nofill, macro_close_level,
          macro_close_nofill, macro_line_level, macro_line_nofill, macro_addarg_loop_level,
          macro_addarg_loop_nofill, macro_enclose_if_level, macro_enclose_if_nofill,
          macro_unclose_level, macro_unclose_nofill, macro_unclose_if_level,
          macro_unclose_if_nofill, macro_display_level, macro_display_nofill,
          pnode_printsystemitem_level, pnode_printsystemitem_nofill, pnode_printtext_punct_level,
          pnode_printtext_punct_nofill, pnode_printtext_head_level, pnode_printtext_head_nofill]
         done)
  | cons nc rest ih =>
    generalize hx : pnode_funcdef a fdef (nc :: rest) = x
    unfold pnode_funcdef at hx
    try simp only [bind, Except.bind, pure, Except.pure] at hx
    repeat' (first | split at hx | dsimp only at hx)
    all_goals subst hx
    all_goals first
      | (simp only [Runs.ok_iff, Runs.error_iff]
         decide)
      | (simp only [Runs.ok_iff, Runs.error_iff]
         simp only [
          apply_ite format.level, apply_ite format.nofill, ite_self, ne_eq, not_false_eq_true,
          and_self, and_true, true_and, not_true_eq_false, if_true, if_false, next_kept_none,
          next_kept_some, next_kept_refl, pnode.setFlags_nodes_length,
          pnode_first_flags_nodes_length, sub_cons_cons, sub_cons, sub_refl, sub_nil, sub_tail,
          pnode.kept_iff, pnode.small_setChildq, pnode.small_setChildq_nil, pnode.small_of_nil,
          pnode.small_first_flags, pnode.small_setFlags, pnode_first_flags_node,
          pnode_first_flags_parent, pnode.setChildq_node, pnode.setChildq_parent,
          pnode.setChildq_childq, pnode.setFlags_node, pnode.setFlags_parent,
          pnode.setFlags_childq, format_puts_level, format_puts_nofill, format_putc_level,
          format_putc_nofill, para_check_level, para_check_nofill, macro_open_line_level,
          macro_open_line_nofill, macro_open_level, macro_open_nofill, macro_close_level,
          macro_close_nofill, macro_line_level, macro_line_nofill, macro_addarg_loop_level,
          macro_addarg_loop_nofill, macro_enclose_if_level, macro_enclose_if_nofill,
          macro_unclose_level, macro_unclose_nofill, macro_unclose_if_level,
          macro_unclose_if_nofill, macro_display_level, macro_display_nofill,
          pnode_printsystemitem_level, pnode_printsystemitem_nofill, pnode_printtext_punct_level,
          pnode_printtext_punct_nofill, pnode_printtext_head_level, pnode_printtext_head_nofill, *]
         done)
      | (refine Runs.imp (ih _) ?_
         intro a ha
         simp only [
          ha, apply_ite format.level, apply_ite format.nofill, ite_self, ne_eq, not_false_eq_true,
          and_self, and_true, true_and, not_true_eq_false, if_true, if_false, next_kept_none,
          next_kept_some, next_kept_refl, pnode.setFlags_nodes_length,
          pnode_first_flags_nodes_length, sub_cons_cons, sub_cons, sub_refl, sub_nil, sub_tail,
          pnode.kept_iff, pnode.small_setChildq, pnode.small_setChildq_nil, pnode.small_of_nil,
          pnode.small_first_flags, pnode.small_setFlags, pnode_first_flags_node,
          pnode_first_flags_parent, pnode.setChildq_node, pnode.setChildq_parent,
          pnode.setChildq_childq, pnode.setFlags_node, pnode.setFlags_parent,
          pnode.setFlags_childq, format_puts_level, format_puts_nofill, format_putc_level,
          format_putc_nofill, para_check_level, para_check_nofill, macro_open_line_level,
          macro_open_line_nofill, macro_open_level, macro_open_nofill, macro_close_level,
          macro_close_nofill, macro_line_level, macro_line_nofill, macro_addarg_loop_level,
          macro_addarg_loop_nofill, macro_enclose_if_level, macro_enclose_if_nofill,
          macro_unclose_level, macro_unclose_nofill, macro_unclose_if_level,
          macro_unclose_if_nofill, macro_display_level, macro_display_nofill,
          pnode_printsystemitem_level, pnode_printsystemitem_nofill, pnode_printtext_punct_level,
          pnode_printtext_punct_nofill, pnode_printtext_head_level, pnode_printtext_head_nofill, *]
         done)
      | (refine Runs.map_iff.2 (Runs.imp (ih _) ?_)
         intro a ha
         simp only [
          ha, apply_ite format.level, apply_ite format.nofill, ite_self, ne_eq, not_false_eq_true,
          and_self, and_true, true_and, not_true_eq_false, if_true, if_false, next_kept_none,
          next_kept_some, next_kept_refl, pnode.setFlags_nodes_length,
          pnode_first_flags_nodes_length, sub_cons_cons, sub_cons, sub_refl, sub_nil, sub_tail,
          pnode.kept_iff, pnode.small_setChildq, pnode.small_setChildq_nil, pnode.small_of_nil,
          pnode.small_first_flags, pnode.small_setFlags, pnode_first_flags_node,
          pnode_first_flags_parent, pnode.setChildq_node, pnode.setChildq_parent,
          pnode.setChildq_childq, pnode.setFlags_node, pnode.setFlags_parent,
          pnode.setFlags_childq, format_puts_level, format_puts_nofill, format_putc_level,
          format_putc_nofill, para_check_level, para_check_nofill, macro_open_line_level,
          macro_open_line_nofill, macro_open_level, macro_open_nofill, macro_close_level,
          macro_close_nofill, macro_line_level, macro_line_nofill, macro_addarg_loop_level,
          macro_addarg_loop_nofill, macro_enclose_if_level, macro_enclose_if_nofill,
          macro_unclose_level, macro_unclose_nofill, macro_unclose_if_level,
          macro_unclose_if_nofill, macro_display_level, macro_display_nofill,
          pnode_printsystemitem_level, pnode_printsystemitem_nofill, pnode_printtext_punct_level,
          pnode_printtext_punct_nofill, pnode_printtext_head_level, pnode_printtext_head_nofill, *]
         done)
      | (refine Runs.imp (ih _) ?_
         intro a ha
         repeat' split at *
         all_goals try simp only [
            Except.ok.injEq, Except.error.injEq, Prod.mk.injEq, Option.some.injEq] at *
         all_goals try subst_vars
         all_goals first
           | (simp only [
              apply_ite format.level, apply_ite format.nofill, ite_self, ne_eq, not_false_eq_true,
              and_self, and_true, true_and, not_true_eq_false, if_true, if_false, next_kept_none,
              next_kept_some, next_kept_refl, pnode.setFlags_nodes_length,
              pnode_first_flags_nodes_length, sub_cons_cons, sub_cons, sub_refl, sub_nil, sub_tail,
              pnode.kept_iff, pnode.small_setChildq, pnode.small_setChildq_nil, pnode.small_of_nil,
              pnode.small_first_flags, pnode.small_setFlags, pnode_first_flags_node,
              pnode_first_flags_parent, pnode.setChildq_node, pnode.setChildq_parent,
              pnode.setChildq_childq, pnode.setFlags_node, pnode.setFlags_parent,
              pnode.setFlags_childq, format_puts_level, format_puts_nofill, format_putc_level,
              format_putc_nofill, para_check_level, para_check_nofill, macro_open_line_level,
              macro_open_line_nofill, macro_open_level, macro_open_nofill, macro_close_level,
              macro_close_nofill, macro_line_level, macro_line_nofill, macro_addarg_loop_level,
              macro_addarg_loop_nofill, macro_enclose_if_level, macro_enclose_if_nofill,
              macro_unclose_level, macro_unclose_nofill, macro_unclose_if_level,
              macro_unclose_if_nofill, macro_display_level, macro_display_nofill,
              pnode_printsystemitem_level, pnode_printsystemitem_nofill,
              pnode_printtext_punct_level, pnode_printtext_punct_nofill,
              pnode_printtext_head_level, pnode_printtext_head_nofill, *]
              done)
           | (simp_all
              done)
         done)
      | (refine Runs.map_iff.2 (Runs.imp (ih _) ?_)
         intro a ha
         repeat' split at *
         all_goals try simp only [
            Except.ok.injEq, Except.error.injEq, Prod.mk.injEq, Option.some.injEq] at *
         all_goals try subst_vars
         all_goals first
           | (simp only [
              apply_ite format.level, apply_ite format.nofill, ite_self, ne_eq, not_false_eq_true,
              and_self, and_true, true_and, not_true_eq_false, if_true, if_false, next_kept_none,
              next_kept_some, next_kept_refl, pnode.setFlags_nodes_length,
              pnode_first_flags_nodes_length, sub_cons_cons, sub_cons, sub_refl, sub_nil, sub_tail,
              pnode.kept_iff, pnode.small_setChildq, pnode.small_setChildq_nil, pnode.small_of_nil,
              pnode.small_first_flags, pnode.small_setFlags, pnode_first_flags_node,
              pnode_first_flags_parent, pnode.setChildq_node, pnode.setChildq_parent,
              pnode.setChildq_childq, pnode.setFlags_node, pnode.setFlags_parent,
              pnode.setFlags_childq, format_puts_level, format_puts_nofill, format_putc_level,
              format_putc_nofill, para_check_level, para_check_nofill, macro_open_line_level,
              macro_open_line_nofill, macro_open_level, macro_open_nofill, macro_close_level,
              macro_close_nofill, macro_line_level, macro_line_nofill, macro_addarg_loop_level,
              macro_addarg_loop_nofill, macro_enclose_if_level, macro_enclose_if_nofill,
              macro_unclose_level, macro_unclose_nofill, macro_unclose_if_level,
              macro_unclose_if_nofill, macro_display_level, macro_display_nofill,
              pnode_printsystemitem_level, pnode_printsystemitem_nofill,
              pnode_printtext_punct_level, pnode_printtext_punct_nofill,
              pnode_printtext_head_level, pnode_printtext_head_nofill, *]
              done)
           | (simp_all
              done)
         done)
      | (simp only [Runs.ok_iff]
         repeat' split at *
         all_goals try simp only [
            Except.ok.injEq, Except.error.injEq, Prod.mk.injEq, Option.some.injEq] at *
         all_goals try subst_vars
         all_goals first
           | (simp only [
              apply_ite format.level, apply_ite format.nofill, ite_self, ne_eq, not_false_eq_true,
              and_self, and_true, true_and, not_true_eq_false, if_true, if_false, next_kept_none,
              next_kept_some, next_kept_refl, pnode.setFlags_nodes_length,
              pnode_first_flags_nodes_length, sub_cons_cons, sub_cons, sub_refl, sub_nil, sub_tail,
              pnode.kept_iff, pnode.small_setChildq, pnode.small_setChildq_nil, pnode.small_of_nil,
              pnode.small_first_flags, pnode.small_setFlags, pnode_first_flags_node,
              pnode_first_flags_parent, pnode.setChildq_node, pnode.setChildq_parent,
              pnode.setChildq_childq, pnode.setFlags_node, pnode.setFlags_parent,
              pnode.setFlags_childq, format_puts_level, format_puts_nofill, format_putc_level,
              format_putc_nofill, para_check_level, para_check_nofill, macro_open_line_level,
              macro_open_line_nofill, macro_open_level, macro_open_nofill, macro_close_level,
              macro_close_nofill, macro_line_level, macro_line_nofill, macro_addarg_loop_level,
              macro_addarg_loop_nofill, macro_enclose_if_level, macro_enclose_if_nofill,
              macro_unclose_level, macro_unclose_nofill, macro_unclose_if_level,
              macro_unclose_if_nofill, macro_display_level, macro_display_nofill,
              pnode_printsystemitem_level, pnode_printsystemitem_nofill,
              pnode_printtext_punct_level, pnode_printtext_punct_nofill,
              pnode_printtext_head_level, pnode_printtext_head_nofill, *]
              done)
           | (simp_all
              done)
         done)
      | (simp only [Runs.error_iff]
         intro hh
         subst hh
         repeat' split at *
         all_goals try subst_vars
         all_goals first
           | (simp at *
              done)
           | (simp_all
              done)
         done)
      | (simp_all
         done)
      | (simp only [Runs.ok_iff, Runs.error_iff]
         simp_all only [
          apply_ite format.level, apply_ite format.nofill, ite_self, ne_eq, not_false_eq_true,
          and_self, and_true, true_and, not_true_eq_false, if_true, if_false, next_kept_none,
          next_kept_some, next_kept_refl, pnode.setFlags_nodes_length,
          pnode_first_flags_nodes_length, sub_cons_cons, sub_cons, sub_refl, sub_nil, sub_tail,
          pnode.kept_iff, pnode.small_setChildq, pnode.small_setChildq_nil, pnode.small_of_nil,
          pnode.small_first_flags, pnode.small_setFlags, pnode_first_flags_node,
          pnode_first_flags_parent, pnode.setChildq_node, pnode.setChildq_parent,
          pnode.setChildq_childq, pnode.setFlags_node, pnode.setFlags_parent,
          pnode.setFlags_childq, format_puts_level, format_puts_nofill, format_putc_level,
          format_putc_nofill, para_check_level, para_check_nofill, macro_open_line_level,
          macro_open_line_nofill, macro_open_level, macro_open_nofill, macro_close_level,
          macro_close_nofill, macro_line_level, macro_line_nofill, macro_addarg_loop_level,
          macro_addarg_loop_nofill, macro_enclose_if_level, macro_enclose_if_nofill,
          macro_unclose_level, macro_unclose_nofill, macro_unclose_if_level,
          macro_unclose_if_nofill, macro_display_level, macro_display_nofill,
          pnode_printsystemitem_level, pnode_printsystemitem_nofill, pnode_printtext_punct_level,
          pnode_printtext_punct_nofill, pnode_printtext_head_level, pnode_printtext_head_nofill]
         done)
      | (simp only [Runs.ok_iff, Runs.error_iff]
         repeat' split at *
         all_goals try simp only [
            Except.ok.injEq, Except.error.injEq, Prod.mk.injEq, Option.some.injEq] at *
         all_goals try subst_vars
         all_goals simp_all only [
          apply_ite format.level, apply_ite format.nofill, ite_self, ne_eq, not_false_eq_true,
          and_self, and_true, true_and, not_true_eq_false, if_true, if_false, next_kept_none,
          next_kept_some, next_kept_refl, pnode.setFlags_nodes_length,
          pnode_first_flags_nodes_length, sub_cons_cons, sub_cons, sub_refl, sub_nil, sub_tail,
          pnode.kept_iff, pnode.small_setChildq, pnode.small_setChildq_nil, pnode.small_of_nil,
          pnode.small_first_flags, pnode.small_setFlags, pnode_first_flags_node,
          pnode_first_flags_parent, pnode.setChildq_node, pnode.setChildq_parent,
          pnode.setChildq_childq, pnode.setFlags_node, pnode.setFlags_parent,
          pnode.setFlags_childq, format_puts_level, format_puts_nofill, format_putc_level,
          format_putc_nofill, para_check_level, para_check_nofill, macro_open_line_level,
          macro_open_line_nofill, macro_open_level, macro_open_nofill, macro_close_level,
          macro_close_nofill, macro_line_level, macro_line_nofill, macro_addarg_loop_level,
          macro_addarg_loop_nofill, macro_enclose_if_level, macro_enclose_if_nofill,
          macro_unclose_level, macro_unclose_nofill, macro_unclose_if_level,
          macro_unclose_if_nofill, macro_display_level, macro_display_nofill,
          pnode_printsystemitem_level, pnode_printsystemitem_nofill, pnode_printtext_punct_level,
          pnode_printtext_punct_nofill, pnode_printtext_head_level, pnode_printtext_head_nofill]
         done)

theorem pnode_funcdef_fwd {a : Nat} {fdef : Option pnode} {cs : List pnode}  {g : Option pnode × List pnode} :
    pnode_funcdef a fdef cs = .ok g ↔ (Except.ok g = pnode_funcdef a fdef cs ∧ True) :=
  ⟨fun h => ⟨h.symm, by
    have h1 := pnode_funcdef_runs a fdef cs 
    rw [h] at h1
    exact h1⟩, fun h => h.1.symm⟩

theorem pnode_funcdef_efwd {a : Nat} {fdef : Option pnode} {cs : List pnode}  {e : fault} :
    pnode_funcdef a fdef cs = .error e ↔ (Except.error e = pnode_funcdef a fdef cs ∧ e ≠ fault.fuel) :=
  ⟨fun h => ⟨h.symm, by
    have h1 := pnode_funcdef_runs a fdef cs 
    rw [h] at h1
    exact h1⟩, fun h => h.1.symm⟩

theorem pnode_printfuncdef_runs (f : format) (fdef : pnode) (void : Bool) :
    Runs (fun g => g.level = f.level ∧ g.nofill = f.nofill)
      (pnode_printfuncdef f fdef void) := by
  generalize hx : pnode_printfuncdef f fdef void = x
  unfold pnode_printfuncdef at hx
  try simp only [bind, Except.bind, pure, Except.pure, Except.map] at hx
  repeat' (first | split at hx | dsimp only at hx)
  all_goals subst hx
  all_goals try simp only [
      macro_argline_fwd, macro_argline_efwd, pnode_unlink_child_fwd, pnode_unlink_child_efwd,
      macro_addnode_fwd, macro_addnode_efwd, macro_addarg_fwd, macro_addarg_efwd,
      macro_nodeline_fwd, macro_nodeline_efwd] at *
  all_goals first
    | (simp only [Runs.ok_iff, Runs.error_iff]
       decide)
    | (simp only [Runs.ok_iff, Runs.error_iff]
       simp only [
        apply_ite format.level, apply_ite format.nofill, ite_self, ne_eq, not_false_eq_true,
        and_self, and_true, true_and, not_true_eq_false, if_true, if_false, next_kept_none,
        next_kept_some, next_kept_refl, pnode.setFlags_nodes_length,
        pnode_first_flags_nodes_length, sub_cons_cons, sub_cons, sub_refl, sub_nil, sub_tail,
        pnode.kept_iff, pnode.small_setChildq, pnode.small_setChildq_nil, pnode.small_of_nil,
        pnode.small_first_flags, pnode.small_setFlags, pnode_first_flags_node,
        pnode_first_flags_parent, pnode.setChildq_node, pnode.setChildq_parent,
        pnode.setChildq_childq, pnode.setFlags_node, pnode.setFlags_parent,
        pnode.setFlags_childq, format_puts_level, format_puts_nofill, format_putc_level,
        format_putc_nofill, para_check_level, para_check_nofill, macro_open_line_level,
        macro_open_line_nofill, macro_open_level, macro_open_nofill, macro_close_level,
        macro_close_nofill, macro_line_level, macro_line_nofill, macro_addarg_loop_level,
        macro_addarg_loop_nofill, macro_enclose_if_level, macro_enclose_if_nofill,
        macro_unclose_level, macro_unclose_nofill, macro_unclose_if_level,
        macro_unclose_if_nofill, macro_display_level, macro_display_nofill,
        pnode_printsystemitem_level, pnode_printsystemitem_nofill, pnode_printtext_punct_level,
        pnode_printtext_punct_nofill, pnode_printtext_head_level, pnode_printtext_head_nofill, *]
       done)
    | (refine Runs.imp (macro_nodeline_runs _ _ _ _) ?_
       intro a ha
       simp only [
        ha, apply_ite format.level, apply_ite format.nofill, ite_self, ne_eq, not_false_eq_true,
        and_self, and_true, true_and, not_true_eq_false, if_true, if_false, next_kept_none,
        next_kept_some, next_kept_refl, pnode.setFlags_nodes_length,
        pnode_first_flags_nodes_length, sub_cons_cons, sub_cons, sub_refl, sub_nil, sub_tail,
        pnode.kept_iff, pnode.small_setChildq, pnode.small_setChildq_nil, pnode.small_of_nil,
        pnode.small_first_flags, pnode.small_setFlags, pnode_first_flags_node,
        pnode_first_flags_parent, pnode.setChildq_node, pnode.setChildq_parent,
        pnode.setChildq_childq, pnode.setFlags_node, pnode.setFlags_parent,
        pnode.setFlags_childq, format_puts_level, format_puts_nofill, format_putc_level,
        format_putc_nofill, para_check_level, para_check_nofill, macro_open_line_level,
        macro_open_line_nofill, macro_open_level, macro_open_nofill, macro_close_level,
        macro_close_nofill, macro_line_level, macro_line_nofill, macro_addarg_loop_level,
        macro_addarg_loop_nofill, macro_enclose_if_level, macro_enclose_if_nofill,
        macro_unclose_level, macro_unclose_nofill, macro_unclose_if_level,
        macro_unclose_if_nofill, macro_display_level, macro_display_nofill,
        pnode_printsystemitem_level, pnode_printsystemitem_nofill, pnode_printtext_punct_level,
        pnode_printtext_punct_nofill, pnode_printtext_head_level, pnode_printtext_head_nofill, *]
       done)
    | (refine Runs.imp (macro_nodeline_runs _ _ _ _) ?_
       intro a ha
       repeat' split at *
       all_goals try simp only [
          macro_argline_fwd, macro_argline_efwd, pnode_unlink_child_fwd, pnode_unlink_child_efwd,
          macro_addnode_fwd, macro_addnode_efwd, macro_addarg_fwd, macro_addarg_efwd,
          macro_nodeline_fwd, macro_nodeline_efwd, Except.ok.injEq, Except.error.injEq,
          Prod.mk.injEq, Option.some.injEq] at *
       all_goals try subst_vars
       all_goals first
         | (simp only [
            apply_ite format.level, apply_ite format.nofill, ite_self, ne_eq, not_false_eq_true,
            and_self, and_true, true_and, not_true_eq_false, if_true, if_false, next_kept_none,
            next_kept_some, next_kept_refl, pnode.setFlags_nodes_length,
            pnode_first_flags_nodes_length, sub_cons_cons, sub_cons, sub_refl, sub_nil, sub_tail,
            pnode.kept_iff, pnode.small_setChildq, pnode.small_setChildq_nil, pnode.small_of_nil,
            pnode.small_first_flags, pnode.small_setFlags, pnode_first_flags_node,
            pnode_first_flags_parent, pnode.setChildq_node, pnode.setChildq_parent,
            pnode.setChildq_childq, pnode.setFlags_node, pnode.setFlags_parent,
            pnode.setFlags_childq, format_puts_level, format_puts_nofill, format_putc_level,
            format_putc_nofill, para_check_level, para_check_nofill, macro_open_line_level,
            macro_open_line_nofill, macro_open_level, macro_open_nofill, macro_close_level,
            macro_close_nofill, macro_line_level, macro_line_nofill, macro_addarg_loop_level,
            macro_addarg_loop_nofill, macro_enclose_if_level, macro_enclose_if_nofill,
            macro_unclose_level, macro_unclose_nofill, macro_unclose_if_level,
            macro_unclose_if_nofill, macro_display_level, macro_display_nofill,
            pnode_printsystemitem_level, pnode_printsystemitem_nofill,
            pnode_printtext_punct_level, pnode_printtext_punct_nofill,
            pnode_printtext_head_level, pnode_printtext_head_nofill, *]
            done)
         | (simp_all
            done)
       done)
    | (simp only [Runs.ok_iff]
       repeat' split at *
       all_goals try simp only [
          macro_argline_fwd, macro_argline_efwd, pnode_unlink_child_fwd, pnode_unlink_child_efwd,
          macro_addnode_fwd, macro_addnode_efwd, macro_addarg_fwd, macro_addarg_efwd,
          macro_nodeline_fwd, macro_nodeline_efwd, Except.ok.injEq, Except.error.injEq,
          Prod.mk.injEq, Option.some.injEq] at *
       all_goals try subst_vars
       all_goals first
         | (simp only [
            apply_ite format.level, apply_ite format.nofill, ite_self, ne_eq, not_false_eq_true,
            and_self, and_true, true_and, not_true_eq_false, if_true, if_false, next_kept_none,
            next_kept_some, next_kept_refl, pnode.setFlags_nodes_length,
            pnode_first_flags_nodes_length, sub_cons_cons, sub_cons, sub_refl, sub_nil, sub_tail,
            pnode.kept_iff, pnode.small_setChildq, pnode.small_setChildq_nil, pnode.small_of_nil,
            pnode.small_first_flags, pnode.small_setFlags, pnode_first_flags_node,
            pnode_first_flags_parent, pnode.setChildq_node, pnode.setChildq_parent,
            pnode.setChildq_childq, pnode.setFlags_node, pnode.setFlags_parent,
            pnode.setFlags_childq, format_puts_level, format_puts_nofill, format_putc_level,
            format_putc_nofill, para_check_level, para_check_nofill, macro_open_line_level,
            macro_open_line_nofill, macro_open_level, macro_open_nofill, macro_close_level,
            macro_close_nofill, macro_line_level, macro_line_nofill, macro_addarg_loop_level,
            macro_addarg_loop_nofill, macro_enclose_if_level, macro_enclose_if_nofill,
            macro_unclose_level, macro_unclose_nofill, macro_unclose_if_level,
            macro_unclose_if_nofill, macro_display_level, macro_display_nofill,
            pnode_printsystemitem_level, pnode_printsystemitem_nofill,
            pnode_printtext_punct_level, pnode_printtext_punct_nofill,
            pnode_printtext_head_level, pnode_printtext_head_nofill, *]
            done)
         | (simp_all
            done)
       done)
    | (simp only [Runs.error_iff]
       intro hh
       subst hh
       repeat' split at *
       all_goals try simp only [
          macro_argline_fwd, macro_argline_efwd, pnode_unlink_child_fwd, pnode_unlink_child_efwd,
          macro_addnode_fwd, macro_addnode_efwd, macro_addarg_fwd, macro_addarg_efwd,
          macro_nodeline_fwd, macro_nodeline_efwd] at *
       all_goals try subst_vars
       all_goals first
         | (simp at *
            done)
         | (simp_all
            done)
       done)
    | (simp_all
       done)
    | (simp only [Runs.ok_iff, Runs.error_iff]
       simp_all only [
        apply_ite format.level, apply_ite format.nofill, ite_self, ne_eq, not_false_eq_true,
        and_self, and_true, true_and, not_true_eq_false, if_true, if_false, next_kept_none,
        next_kept_some, next_kept_refl, pnode.setFlags_nodes_length,
        pnode_first_flags_nodes_length, sub_cons_cons, sub_cons, sub_refl, sub_nil, sub_tail,
        pnode.kept_iff, pnode.small_setChildq, pnode.small_setChildq_nil, pnode.small_of_nil,
        pnode.small_first_flags, pnode.small_setFlags, pnode_first_flags_node,
        pnode_first_flags_parent, pnode.setChildq_node, pnode.setChildq_parent,
        pnode.setChildq_childq, pnode.setFlags_node, pnode.setFlags_parent,
        pnode.setFlags_childq, format_puts_level, format_puts_nofill, format_putc_level,
        format_putc_nofill, para_check_level, para_check_nofill, macro_open_line_level,
        macro_open_line_nofill, macro_open_level, macro_open_nofill, macro_close_level,
        macro_close_nofill, macro_line_level, macro_line_nofill, macro_addarg_loop_level,
        macro_addarg_loop_nofill, macro_enclose_if_level, macro_enclose_if_nofill,
        macro_unclose_level, macro_unclose_nofill, macro_unclose_if_level,
        macro_unclose_if_nofill, macro_display_level, macro_display_nofill,
        pnode_printsystemitem_level, pnode_printsystemitem_nofill, pnode_printtext_punct_level,
        pnode_printtext_punct_nofill, pnode_printtext_head_level, pnode_printtext_head_nofill]
       done)
    | (simp only [Runs.ok_iff, Runs.error_iff]
       repeat' split at *
       all_goals try simp only [
          macro_argline_fwd, macro_argline_efwd, pnode_unlink_child_fwd, pnode_unlink_child_efwd,
          macro_addnode_fwd, macro_addnode_efwd, macro_addarg_fwd, macro_addarg_efwd,
          macro_nodeline_fwd, macro_nodeline_efwd, Except.ok.injEq, Except.error.injEq,
          Prod.mk.injEq, Option.some.injEq] at *
       all_goals try subst_vars
       all_goals simp_all only [
        apply_ite format.level, apply_ite format.nofill, ite_self, ne_eq, not_false_eq_true,
        and_self, and_true, true_and, not_true_eq_false, if_true, if_false, next_kept_none,
        next_kept_some, next_kept_refl, pnode.setFlags_nodes_length,
        pnode_first_flags_nodes_length, sub_cons_cons, sub_cons, sub_refl, sub_nil, sub_tail,
        pnode.kept_iff, pnode.small_setChildq, pnode.small_setChildq_nil, pnode.small_of_nil,
        pnode.small_first_flags, pnode.small_setFlags, pnode_first_flags_node,
        pnode_first_flags_parent, pnode.setChildq_node, pnode.setChildq_parent,
        pnode.setChildq_childq, pnode.setFlags_node, pnode.setFlags_parent,
        pnode.setFlags_childq, format_puts_level, format_puts_nofill, format_putc_level,
        format_putc_nofill, para_check_level, para_check_nofill, macro_open_line_level,
        macro_open_line_nofill, macro_open_level, macro_open_nofill, macro_close_level,
        macro_close_nofill, macro_line_level, macro_line_nofill, macro_addarg_loop_level,
        macro_addarg_loop_nofill, macro_enclose_if_level, macro_enclose_if_nofill,
        macro_unclose_level, macro_unclose_nofill, macro_unclose_if_level,
        macro_unclose_if_nofill, macro_display_level, macro_display_nofill,
        pnode_printsystemitem_level, pnode_printsystemitem_nofill, pnode_printtext_punct_level,
        pnode_printtext_punct_nofill, pnode_printtext_head_level, pnode_printtext_head_nofill]
       done)

theorem pnode_printfuncdef_fwd {f : format} {fdef : pnode} {void : Bool}  {g : format} :
    pnode_printfuncdef f fdef void = .ok g ↔ (Except.ok g = pnode_printfuncdef f fdef void ∧ g.level = f.level ∧ g.nofill = f.nofill) :=
  ⟨fun h => ⟨h.symm, by
    have h1 := pnode_printfuncdef_runs f fdef void 
    rw [h] at h1
    exact h1⟩, fun h => h.1.symm⟩

theorem pnode_printfuncdef_efwd {f : format} {fdef : pnode} {void : Bool}  {e : fault} :
    pnode_printfuncdef f fdef void = .error e ↔ (Except.error e = pnode_printfuncdef f fdef void ∧ e ≠ fault.fuel) :=
  ⟨fun h => ⟨h.symm, by
    have h1 := pnode_printfuncdef_runs f fdef void 
    rw [h] at h1
    exact h1⟩, fun h => h.1.symm⟩

theorem pnode_printparams_runs (a : Nat) (f : format) (cs : List pnode) :
    Runs (fun g => g.level = f.level ∧ g.nofill = f.nofill)
      (pnode_printparams a f cs) := by
  induction cs generalizing f with
  | nil =>
    generalize hx : pnode_printparams a f [] = x
    unfold pnode_printparams at hx
    try simp only [bind, Except.bind, pure, Except.pure] at hx
    repeat' (first | split at hx | dsimp only at hx)
    all_goals subst hx
    all_goals try simp only [
        macro_addnode_fwd, macro_addnode_efwd, macro_addarg_fwd, macro_addarg_efwd,
        macro_nodeline_fwd, macro_nodeline_efwd] at *
    all_goals first
      | (simp only [Runs.ok_iff, Runs.error_iff]
         decide)
      | (simp only [Runs.ok_iff, Runs.error_iff]
         simp only [
          apply_ite format.level, apply_ite format.nofill, ite_self, ne_eq, not_false_eq_true,
          and_self, and_true, true_and, not_true_eq_false, if_true, if_false, next_kept_none,
          next_kept_some, next_kept_refl, pnode.setFlags_nodes_length,
          pnode_first_flags_nodes_length, sub_cons_cons, sub_cons, sub_refl, sub_nil, sub_tail,
          pnode.kept_iff, pnode.small_setChildq, pnode.small_setChildq_nil, pnode.small_of_nil,
          pnode.small_first_flags, pnode.small_setFlags, pnode_first_flags_node,
          pnode_first_flags_parent, pnode.setChildq_node, pnode.setChildq_parent,
          pnode.setChildq_childq, pnode.setFlags_node, pnode.setFlags_parent,
          pnode.setFlags_childq, format_puts_level, format_puts_nofill, format_putc_level,
          format_putc_nofill, para_check_level, para_check_nofill, macro_open_line_level,
          macro_open_line_nofill, macro_open_level, macro_open_nofill, macro_close_level,
          macro_close_nofill, macro_line_level, macro_line_nofill, macro_addarg_loop_level,
          macro_addarg_loop_nofill, macro_enclose_if_level, macro_enclose_if_nofill,
          macro_unclose_level, macro_unclose_nofill, macro_unclose_if_level,
          macro_unclose_if_nofill, macro_display_level, macro_display_nofill,
          pnode_printsystemitem_level, pnode_printsystemitem_nofill, pnode_printtext_punct_level,
          pnode_printtext_punct_nofill, pnode_printtext_head_level, pnode_printtext_head_nofill, *]
         done)
      | (simp only [Runs.ok_iff]
         repeat' split at *
         all_goals try simp only [
            macro_addnode_fwd, macro_addnode_efwd, macro_addarg_fwd, macro_addarg_efwd,
            macro_nodeline_fwd, macro_nodeline_efwd, Except.ok.injEq, Except.error.injEq,
            Prod.mk.injEq, Option.some.injEq] at *
         all_goals try subst_vars
         all_goals first
           | (simp only [
              apply_ite format.level, apply_ite format.nofill, ite_self, ne_eq, not_false_eq_true,
              and_self, and_true, true_and, not_true_eq_false, if_true, if_false, next_kept_none,
              next_kept_some, next_kept_refl, pnode.setFlags_nodes_length,
              pnode_first_flags_nodes_length, sub_cons_cons, sub_cons, sub_refl, sub_nil, sub_tail,
              pnode.kept_iff, pnode.small_setChildq, pnode.small_setChildq_nil, pnode.small_of_nil,
              pnode.small_first_flags, pnode.small_setFlags, pnode_first_flags_node,
              pnode_first_flags_parent, pnode.setChildq_node, pnode.setChildq_parent,
              pnode.setChildq_childq, pnode.setFlags_node, pnode.setFlags_parent,
              pnode.setFlags_childq, format_puts_level, format_puts_nofill, format_putc_level,
              format_putc_nofill, para_check_level, para_check_nofill, macro_open_line_level,
              macro_open_line_nofill, macro_open_level, macro_open_nofill, macro_close_level,
              macro_close_nofill, macro_line_level, macro_line_nofill, macro_addarg_loop_level,
              macro_addarg_loop_nofill, macro_enclose_if_level, macro_enclose_if_nofill,
              macro_unclose_level, macro_unclose_nofill, macro_unclose_if_level,
              macro_unclose_if_nofill, macro_display_level, macro_display_nofill,
              pnode_printsystemitem_level, pnode_printsystemitem_nofill,
              pnode_printtext_punct_level, pnode_printtext_punct_nofill,
              pnode_printtext_head_level, pnode_printtext_head_nofill, *]
              done)
           | (simp_all
              done)
         done)
      | (simp only [Runs.error_iff]
         intro hh
         subst hh
         repeat' split at *
         all_goals try simp only [
            macro_addnode_fwd, macro_addnode_efwd, macro_addarg_fwd, macro_addarg_efwd,
            macro_nodeline_fwd, macro_nodeline_efwd] at *
         all_goals try subst_vars
         all_goals first
           | (simp at *
              done)
           | (simp_all
              done)
         done)
      | (simp_all
         done)
      | (simp only [Runs.ok_iff, Runs.error_iff]
         simp_all only [
          apply_ite format.level, apply_ite format.nofill, ite_self, ne_eq, not_false_eq_true,
          and_self, and_true, true_and, not_true_eq_false, if_true, if_false, next_kept_none,
          next_kept_some, next_kept_refl, pnode.setFlags_nodes_length,
          pnode_first_flags_nodes_length, sub_cons_cons, sub_cons, sub_refl, sub_nil, sub_tail,
          pnode.kept_iff, pnode.small_setChildq, pnode.small_setChildq_nil, pnode.small_of_nil,
          pnode.small_first_flags, pnode.small_setFlags, pnode_first_flags_node,
          pnode_first_flags_parent, pnode.setChildq_node, pnode.setChildq_parent,
          pnode.setChildq_childq, pnode.setFlags_node, pnode.setFlags_parent,
          pnode.setFlags_childq, format_puts_level, format_puts_nofill, format_putc_level,
          format_putc_nofill, para_check_level, para_check_nofill, macro_open_line_level,
          macro_open_line_nofill, macro_open_level, macro_open_nofill, macro_close_level,
          macro_close_nofill, macro_line_level, macro_line_nofill, macro_addarg_loop_level,
          macro_addarg_loop_nofill, macro_enclose_if_level, macro_enclose_if_nofill,
          macro_unclose_level, macro_unclose_nofill, macro_unclose_if_level,
          macro_unclose_if_nofill, macro_display_level, macro_display_nofill,
          pnode_printsystemitem_level, pnode_printsystemitem_nofill, pnode_printtext_punct_level,
          pnode_printtext_punct_nofill, pnode_printtext_head_level, pnode_printtext_head_nofill]
         done)
      | (simp only [Runs.ok_iff, Runs.error_iff]
         repeat' split at *
         all_goals try simp only [
            macro_addnode_fwd, macro_addnode_efwd, macro_addarg_fwd, macro_addarg_efwd,
            macro_nodeline_fwd, macro_nodeline_efwd, Except.ok.injEq, Except.error.injEq,
            Prod.mk.injEq, Option.some.injEq] at *
         all_goals try subst_vars
         all_goals simp_all only [
          apply_ite format.level, apply_ite format.nofill, ite_self, ne_eq, not_false_eq_true,
          and_self, and_true, true_and, not_true_eq_false, if_true, if_false, next_kept_none,
          next_kept_some, next_kept_refl, pnode.setFlags_nodes_length,
          pnode_first_flags_nodes_length, sub_cons_cons, sub_cons, sub_refl, sub_nil, sub_tail,
          pnode.kept_iff, pnode.small_setChildq, pnode.small_setChildq_nil, pnode.small_of_nil,
          pnode.small_first_flags, pnode.small_setFlags, pnode_first_flags_node,
          pnode_first_flags_parent, pnode.setChildq_node, pnode.setChildq_parent,
          pnode.setChildq_childq, pnode.setFlags_node, pnode.setFlags_parent,
          pnode.setFlags_childq, format_puts_level, format_puts_nofill, format_putc_level,
          format_putc_nofill, para_check_level, para_check_nofill, macro_open_line_level,
          macro_open_line_nofill, macro_open_level, macro_open_nofill, macro_close_level,
          macro_close_nofill, macro_line_level, macro_line_nofill, macro_addarg_loop_level,
          macro_addarg_loop_nofill, macro_enclose_if_level, macro_enclose_if_nofill,
          macro_unclose_level, macro_unclose_nofill, macro_unclose_if_level,
          macro_unclose_if_nofill, macro_display_level, macro_display_nofill,
          pnode_printsystemitem_level, pnode_printsystemitem_nofill, pnode_printtext_punct_level,
          pnode_printtext_punct_nofill, pnode_printtext_head_level, pnode_printtext_head_nofill]
         done)
  | cons nc rest ih =>
    generalize hx : pnode_printparams a f (nc :: rest) = x
    unfold pnode_printparams at hx
    try simp only [bind, Except.bind, pure, Except.pure] at hx
    repeat' (first | split at hx | dsimp only at hx)
    all_goals subst hx
    all_goals try simp only [
        macro_addnode_fwd, macro_addnode_efwd, macro_addarg_fwd, macro_addarg_efwd,
        macro_nodeline_fwd, macro_nodeline_efwd] at *
    all_goals first
      | (simp only [Runs.ok_iff, Runs.error_iff]
         decide)
      | (simp only [Runs.ok_iff, Runs.error_iff]
         simp only [
          apply_ite format.level, apply_ite format.nofill, ite_self, ne_eq, not_false_eq_true,
          and_self, and_true, true_and, not_true_eq_false, if_true, if_false, next_kept_none,
          next_kept_some, next_kept_refl, pnode.setFlags_nodes_length,
          pnode_first_flags_nodes_length, sub_cons_cons, sub_cons, sub_refl, sub_nil, sub_tail,
          pnode.kept_iff, pnode.small_setChildq, pnode.small_setChildq_nil, pnode.small_of_nil,
          pnode.small_first_flags, pnode.small_setFlags, pnode_first_flags_node,
          pnode_first_flags_parent, pnode.setChildq_node, pnode.setChildq_parent,
          pnode.setChildq_childq, pnode.setFlags_node, pnode.setFlags_parent,
          pnode.setFlags_childq, format_puts_level, format_puts_nofill, format_putc_level,
          format_putc_nofill, para_check_level, para_check_nofill, macro_open_line_level,
          macro_open_line_nofill, macro_open_level, macro_open_nofill, macro_close_level,
          macro_close_nofill, macro_line_level, macro_line_nofill, macro_addarg_loop_level,
          macro_addarg_loop_nofill, macro_enclose_if_level, macro_enclose_if_nofill,
          macro_unclose_level, macro_unclose_nofill, macro_unclose_if_level,
          macro_unclose_if_nofill, macro_display_level, macro_display_nofill,
          pnode_printsystemitem_level, pnode_printsystemitem_nofill, pnode_printtext_punct_level,
          pnode_printtext_punct_nofill, pnode_printtext_head_level, pnode_printtext_head_nofill, *]
         done)
      | (refine Runs.imp (ih _) ?_
         intro a ha
         simp only [
          ha, apply_ite format.level, apply_ite format.nofill, ite_self, ne_eq, not_false_eq_true,
          and_self, and_true, true_and, not_true_eq_false, if_true, if_false, next_kept_none,
          next_kept_some, next_kept_refl, pnode.setFlags_nodes_length,
          pnode_first_flags_nodes_length, sub_cons_cons, sub_cons, sub_refl, sub_nil, sub_tail,
          pnode.kept_iff, pnode.small_setChildq, pnode.small_setChildq_nil, pnode.small_of_nil,
          pnode.small_first_flags, pnode.small_setFlags, pnode_first_flags_node,
          pnode_first_flags_parent, pnode.setChildq_node, pnode.setChildq_parent,
          pnode.setChildq_childq, pnode.setFlags_node, pnode.setFlags_parent,
          pnode.setFlags_childq, format_puts_level, format_puts_nofill, format_putc_level,
          format_putc_nofill, para_check_level, para_check_nofill, macro_open_line_level,
          macro_open_line_nofill, macro_open_level, macro_open_nofill, macro_close_level,
          macro_close_nofill, macro_line_level, macro_line_nofill, macro_addarg_loop_level,
          macro_addarg_loop_nofill, macro_enclose_if_level, macro_enclose_if_nofill,
          macro_unclose_level, macro_unclose_nofill, macro_unclose_if_level,
          macro_unclose_if_nofill, macro_display_level, macro_display_nofill,
          pnode_printsystemitem_level, pnode_printsystemitem_nofill, pnode_printtext_punct_level,
          pnode_printtext_punct_nofill, pnode_printtext_head_level, pnode_printtext_head_nofill, *]
         done)
      | (refine Runs.map_iff.2 (Runs.imp (ih _) ?_)
         intro a ha
         simp only [
          ha, apply_ite format.level, apply_ite format.nofill, ite_self, ne_eq, not_false_eq_true,
          and_self, and_true, true_and, not_true_eq_false, if_true, if_false, next_kept_none,
          next_kept_some, next_kept_refl, pnode.setFlags_nodes_length,
          pnode_first_flags_nodes_length, sub_cons_cons, sub_cons, sub_refl, sub_nil, sub_tail,
          pnode.kept_iff, pnode.small_setChildq, pnode.small_setChildq_nil, pnode.small_of_nil,
          pnode.small_first_flags, pnode.small_setFlags, pnode_first_flags_node,
          pnode_first_flags_parent, pnode.setChildq_node, pnode.setChildq_parent,
          pnode.setChildq_childq, pnode.setFlags_node, pnode.setFlags_parent,
          pnode.setFlags_childq, format_puts_level, format_puts_nofill, format_putc_level,
          format_putc_nofill, para_check_level, para_check_nofill, macro_open_line_level,
          macro_open_line_nofill, macro_open_level, macro_open_nofill, macro_close_level,
          macro_close_nofill, macro_line_level, macro_line_nofill, macro_addarg_loop_level,
          macro_addarg_loop_nofill, macro_enclose_if_level, macro_enclose_if_nofill,
          macro_unclose_level, macro_unclose_nofill, macro_unclose_if_level,
          macro_unclose_if_nofill, macro_display_level, macro_display_nofill,
          pnode_printsystemitem_level, pnode_printsystemitem_nofill, pnode_printtext_punct_level,
          pnode_printtext_punct_nofill, pnode_printtext_head_level, pnode_printtext_head_nofill, *]
         done)
      | (refine Runs.imp (ih _) ?_
         intro a ha
         repeat' split at *
         all_goals try simp only [
            macro_addnode_fwd, macro_addnode_efwd, macro_addarg_fwd, macro_addarg_efwd,
            macro_nodeline_fwd, macro_nodeline_efwd, Except.ok.injEq, Except.error.injEq,
            Prod.mk.injEq, Option.some.injEq] at *
         all_goals try subst_vars
         all_goals first
           | (simp only [
              apply_ite format.level, apply_ite format.nofill, ite_self, ne_eq, not_false_eq_true,
              and_self, and_true, true_and, not_true_eq_false, if_true, if_false, next_kept_none,
              next_kept_some, next_kept_refl, pnode.setFlags_nodes_length,
              pnode_first_flags_nodes_length, sub_cons_cons, sub_cons, sub_refl, sub_nil, sub_tail,
              pnode.kept_iff, pnode.small_setChildq, pnode.small_setChildq_nil, pnode.small_of_nil,
              pnode.small_first_flags, pnode.small_setFlags, pnode_first_flags_node,
              pnode_first_flags_parent, pnode.setChildq_node, pnode.setChildq_parent,
              pnode.setChildq_childq, pnode.setFlags_node, pnode.setFlags_parent,
              pnode.setFlags_childq, format_puts_level, format_puts_nofill, format_putc_level,
              format_putc_nofill, para_check_level, para_check_nofill, macro_open_line_level,
              macro_open_line_nofill, macro_open_level, macro_open_nofill, macro_close_level,
              macro_close_nofill, macro_line_level, macro_line_nofill, macro_addarg_loop_level,
              macro_addarg_loop_nofill, macro_enclose_if_level, macro_enclose_if_nofill,
              macro_unclose_level, macro_unclose_nofill, macro_unclose_if_level,
              macro_unclose_if_nofill, macro_display_level, macro_display_nofill,
              pnode_printsystemitem_level, pnode_printsystemitem_nofill,
              pnode_printtext_punct_level, pnode_printtext_punct_nofill,
              pnode_printtext_head_level, pnode_printtext_head_nofill, *]
              done)
           | (simp_all
              done)
         done)
      | (refine Runs.map_iff.2 (Runs.imp (ih _) ?_)
         intro a ha
         repeat' split at *
         all_goals try simp only [
            macro_addnode_fwd, macro_addnode_efwd, macro_addarg_fwd, macro_addarg_efwd,
            macro_nodeline_fwd, macro_nodeline_efwd, Except.ok.injEq, Except.error.injEq,
            Prod.mk.injEq, Option.some.injEq] at *
         all_goals try subst_vars
         all_goals first
           | (simp only [
              apply_ite format.level, apply_ite format.nofill, ite_self, ne_eq, not_false_eq_true,
              and_self, and_true, true_and, not_true_eq_false, if_true, if_false, next_kept_none,
              next_kept_some, next_kept_refl, pnode.setFlags_nodes_length,
              pnode_first_flags_nodes_length, sub_cons_cons, sub_cons, sub_refl, sub_nil, sub_tail,
              pnode.kept_iff, pnode.small_setChildq, pnode.small_setChildq_nil, pnode.small_of_nil,
              pnode.small_first_flags, pnode.small_setFlags, pnode_first_flags_node,
              pnode_first_flags_parent, pnode.setChildq_node, pnode.setChildq_parent,
              pnode.setChildq_childq, pnode.setFlags_node, pnode.setFlags_parent,
              pnode.setFlags_childq, format_puts_level, format_puts_nofill, format_putc_level,
              format_putc_nofill, para_check_level, para_check_nofill, macro_open_line_level,
              macro_open_line_nofill, macro_open_level, macro_open_nofill, macro_close_level,
              macro_close_nofill, macro_line_level, macro_line_nofill, macro_addarg_loop_level,
              macro_addarg_loop_nofill, macro_enclose_if_level, macro_enclose_if_nofill,
              macro_unclose_level, macro_unclose_nofill, macro_unclose_if_level,
              macro_unclose_if_nofill, macro_display_level, macro_display_nofill,
              pnode_printsystemitem_level, pnode_printsystemitem_nofill,
              pnode_printtext_punct_level, pnode_printtext_punct_nofill,
              pnode_printtext_head_level, pnode_printtext_head_nofill, *]
              done)
           | (simp_all
              done)
         done)
      | (simp only [Runs.ok_iff]
         repeat' split at *
         all_goals try simp only [
            macro_addnode_fwd, macro_addnode_efwd, macro_addarg_fwd, macro_addarg_efwd,
            macro_nodeline_fwd, macro_nodeline_efwd, Except.ok.injEq, Except.error.injEq,
            Prod.mk.injEq, Option.some.injEq] at *
         all_goals try subst_vars
         all_goals first
           | (simp only [
              apply_ite format.level, apply_ite format.nofill, ite_self, ne_eq, not_false_eq_true,
              and_self, and_true, true_and, not_true_eq_false, if_true, if_false, next_kept_none,
              next_kept_some, next_kept_refl, pnode.setFlags_nodes_length,
              pnode_first_flags_nodes_length, sub_cons_cons, sub_cons, sub_refl, sub_nil, sub_tail,
              pnode.kept_iff, pnode.small_setChildq, pnode.small_setChildq_nil, pnode.small_of_nil,
              pnode.small_first_flags, pnode.small_setFlags, pnode_first_flags_node,
              pnode_first_flags_parent, pnode.setChildq_node, pnode.setChildq_parent,
              pnode.setChildq_childq, pnode.setFlags_node, pnode.setFlags_parent,
              pnode.setFlags_childq, format_puts_level, format_puts_nofill, format_putc_level,
              format_putc_nofill, para_check_level, para_check_nofill, macro_open_line_level,
              macro_open_line_nofill, macro_open_level, macro_open_nofill, macro_close_level,
              macro_close_nofill, macro_line_level, macro_line_nofill, macro_addarg_loop_level,
              macro_addarg_loop_nofill, macro_enclose_if_level, macro_enclose_if_nofill,
              macro_unclose_level, macro_unclose_nofill, macro_unclose_if_level,
              macro_unclose_if_nofill, macro_display_level, macro_display_nofill,
              pnode_printsystemitem_level, pnode_printsystemitem_nofill,
              pnode_printtext_punct_level, pnode_printtext_punct_nofill,
              pnode_printtext_head_level, pnode_printtext_head_nofill, *]
              done)
           | (simp_all
              done)
         done)
      | (simp only [Runs.error_iff]
         intro hh
         subst hh
         repeat' split at *
         all_goals try simp only [
            macro_addnode_fwd, macro_addnode_efwd, macro_addarg_fwd, macro_addarg_efwd,
            macro_nodeline_fwd, macro_nodeline_efwd] at *
         all_goals try subst_vars
         all_goals first
           | (simp at *
              done)
           | (simp_all
              done)
         done)
      | (simp_all
         done)
      | (simp only [Runs.ok_iff, Runs.error_iff]
         simp_all only [
          apply_ite format.level, apply_ite format.nofill, ite_self, ne_eq, not_false_eq_true,
          and_self, and_true, true_and, not_true_eq_false, if_true, if_false, next_kept_none,
          next_kept_some, next_kept_refl, pnode.setFlags_nodes_length,
          pnode_first_flags_nodes_length, sub_cons_cons, sub_cons, sub_refl, sub_nil, sub_tail,
          pnode.kept_iff, pnode.small_setChildq, pnode.small_setChildq_nil, pnode.small_of_nil,
          pnode.small_first_flags, pnode.small_setFlags, pnode_first_flags_node,
          pnode_first_flags_parent, pnode.setChildq_node, pnode.setChildq_parent,
          pnode.setChildq_childq, pnode.setFlags_node, pnode.setFlags_parent,
          pnode.setFlags_childq, format_puts_level, format_puts_nofill, format_putc_level,
          format_putc_nofill, para_check_level, para_check_nofill, macro_open_line_level,
          macro_open_line_nofill, macro_open_level, macro_open_nofill, macro_close_level,
          macro_close_nofill, macro_line_level, macro_line_nofill, macro_addarg_loop_level,
          macro_addarg_loop_nofill, macro_enclose_if_level, macro_enclose_if_nofill,
          macro_unclose_level, macro_unclose_nofill, macro_unclose_if_level,
          macro_unclose_if_nofill, macro_display_level, macro_display_nofill,
          pnode_printsystemitem_level, pnode_printsystemitem_nofill, pnode_printtext_punct_level,
          pnode_printtext_punct_nofill, pnode_printtext_head_level, pnode_printtext_head_nofill]
         done)
      | (simp only [Runs.ok_iff, Runs.error_iff]
         repeat' split at *
         all_goals try simp only [
            macro_addnode_fwd, macro_addnode_efwd, macro_addarg_fwd, macro_addarg_efwd,
            macro_nodeline_fwd, macro_nodeline_efwd, Except.ok.injEq, Except.error.injEq,
            Prod.mk.injEq, Option.some.injEq] at *
         all_goals try subst_vars
         all_goals simp_all only [
          apply_ite format.level, apply_ite format.nofill, ite_self, ne_eq, not_false_eq_true,
          and_self, and_true, true_and, not_true_eq_false, if_true, if_false, next_kept_none,
          next_kept_some, next_kept_refl, pnode.setFlags_nodes_length,
          pnode_first_flags_nodes_length, sub_cons_cons, sub_cons, sub_refl, sub_nil, sub_tail,
          pnode.kept_iff, pnode.small_setChildq, pnode.small_setChildq_nil, pnode.small_of_nil,
          pnode.small_first_flags, pnode.small_setFlags, pnode_first_flags_node,
          pnode_first_flags_parent, pnode.setChildq_node, pnode.setChildq_parent,
          pnode.setChildq_childq, pnode.setFlags_node, pnode.setFlags_parent,
          pnode.setFlags_childq, format_puts_level, format_puts_nofill, format_putc_level,
          format_putc_nofill, para_check_level, para_check_nofill, macro_open_line_level,
          macro_open_line_nofill, macro_open_level, macro_open_nofill, macro_close_level,
          macro_close_nofill, macro_line_level, macro_line_nofill, macro_addarg_loop_level,
          macro_addarg_loop_nofill, macro_enclose_if_level, macro_enclose_if_nofill,
          macro_unclose_level, macro_unclose_nofill, macro_unclose_if_level,
          macro_unclose_if_nofill, macro_display_level, macro_display_nofill,
          pnode_printsystemitem_level, pnode_printsystemitem_nofill, pnode_printtext_punct_level,
          pnode_printtext_punct_nofill, pnode_printtext_head_level, pnode_printtext_head_nofill]
         done)

theorem pnode_printparams_fwd {a : Nat} {f : format} {cs : List pnode}  {g : format} :
    pnode_printparams a f cs = .ok g ↔ (Except.ok g = pnode_printparams a f cs ∧ g.level = f.level ∧ g.nofill = f.nofill) :=
  ⟨fun h => ⟨h.symm, by
    have h1 := pnode_printparams_runs a f cs 
    rw [h] at h1
    exact h1⟩, fun h => h.1.symm⟩

theorem pnode_printparams_efwd {a : Nat} {f : format} {cs : List pnode}  {e : fault} :
    pnode_printparams a f cs = .error e ↔ (Except.error e = pnode_printparams a f cs ∧ e ≠ fault.fuel) :=
  ⟨fun h => ⟨h.symm, by
    have h1 := pnode_printparams_runs a f cs 
    rw [h] at h1
    exact h1⟩, fun h => h.1.symm⟩

theorem pnode_printfuncprototype_runs (f : format) (n : pnode) {k : Nat} (hn : n.small k) :
    Runs (fun r => r.1.level = f.level ∧ r.1.nofill = f.nofill ∧ r.2.node = n.node ∧
      r.2.parent = n.parent ∧ r.2.small k)
      (pnode_printfuncprototype f n) := by
  generalize hx : pnode_printfuncprototype f n = x
  unfold pnode_printfuncprototype at hx
  try simp only [bind, Except.bind, pure, Except.pure, Except.map] at hx
  repeat' (first | split at hx | dsimp only at hx)
  all_goals subst hx
  all_goals try simp only [
      pnode_funcdef_fwd, pnode_funcdef_efwd, pnode_printfuncdef_fwd, pnode_printfuncdef_efwd,
      pnode_printparams_fwd, pnode_printparams_efwd] at *
  all_goals first
    | (simp only [Runs.ok_iff, Runs.error_iff]
       decide)
    | (simp only [Runs.ok_iff, Runs.error_iff]
       simp only [
        apply_ite format.level, apply_ite format.nofill, ite_self, ne_eq, not_false_eq_true,
        and_self, and_true, true_and, not_true_eq_false, if_true, if_false, next_kept_none,
        next_kept_some, next_kept_refl, pnode.setFlags_nodes_length,
        pnode_first_flags_nodes_length, sub_cons_cons, sub_cons, sub_refl, sub_nil, sub_tail,
        pnode.kept_iff, pnode.small_setChildq, pnode.small_setChildq_nil, pnode.small_of_nil,
        pnode.small_first_flags, pnode.small_setFlags, pnode_first_flags_node,
        pnode_first_flags_parent, pnode.setChildq_node, pnode.setChildq_parent,
        pnode.setChildq_childq, pnode.setFlags_node, pnode.setFlags_parent,
        pnode.setFlags_childq, format_puts_level, format_puts_nofill, format_putc_level,
        format_putc_nofill, para_check_level, para_check_nofill, macro_open_line_level,
        macro_open_line_nofill, macro_open_level, macro_open_nofill, macro_close_level,
        macro_close_nofill, macro_line_level, macro_line_nofill, macro_addarg_loop_level,
        macro_addarg_loop_nofill, macro_enclose_if_level, macro_enclose_if_nofill,
        macro_unclose_level, macro_unclose_nofill, macro_unclose_if_level,
        macro_unclose_if_nofill, macro_display_level, macro_display_nofill,
        pnode_printsystemitem_level, pnode_printsystemitem_nofill, pnode_printtext_punct_level,
        pnode_printtext_punct_nofill, pnode_printtext_head_level, pnode_printtext_head_nofill, *]
       done)
    | (simp only [Runs.ok_iff]
       repeat' split at *
       all_goals try simp only [
          pnode_funcdef_fwd, pnode_funcdef_efwd, pnode_printfuncdef_fwd, pnode_printfuncdef_efwd,
          pnode_printparams_fwd, pnode_printparams_efwd, Except.ok.injEq, Except.error.injEq,
          Prod.mk.injEq, Option.some.injEq] at *
       all_goals try subst_vars
       all_goals first
         | (simp only [
            apply_ite format.level, apply_ite format.nofill, ite_self, ne_eq, not_false_eq_true,
            and_self, and_true, true_and, not_true_eq_false, if_true, if_false, next_kept_none,
            next_kept_some, next_kept_refl, pnode.setFlags_nodes_length,
            pnode_first_flags_nodes_length, sub_cons_cons, sub_cons, sub_refl, sub_nil, sub_tail,
            pnode.kept_iff, pnode.small_setChildq, pnode.small_setChildq_nil, pnode.small_of_nil,
            pnode.small_first_flags, pnode.small_setFlags, pnode_first_flags_node,
            pnode_first_flags_parent, pnode.setChildq_node, pnode.setChildq_parent,
            pnode.setChildq_childq, pnode.setFlags_node, pnode.setFlags_parent,
            pnode.setFlags_childq, format_puts_level, format_puts_nofill, format_putc_level,
            format_putc_nofill, para_check_level, para_check_nofill, macro_open_line_level,
            macro_open_line_nofill, macro_open_level, macro_open_nofill, macro_close_level,
            macro_close_nofill, macro_line_level, macro_line_nofill, macro_addarg_loop_level,
            macro_addarg_loop_nofill, macro_enclose_if_level, macro_enclose_if_nofill,
            macro_unclose_level, macro_unclose_nofill, macro_unclose_if_level,
            macro_unclose_if_nofill, macro_display_level, macro_display_nofill,
            pnode_printsystemitem_level, pnode_printsystemitem_nofill,
            pnode_printtext_punct_level, pnode_printtext_punct_nofill,
            pnode_printtext_head_level, pnode_printtext_head_nofill, *]
            done)
         | (simp_all
            done)
       done)
    | (simp only [Runs.error_iff]
       intro hh
       subst hh
       repeat' split at *
       all_goals try simp only [
          pnode_funcdef_fwd, pnode_funcdef_efwd, pnode_printfuncdef_fwd, pnode_printfuncdef_efwd,
          pnode_printparams_fwd, pnode_printparams_efwd] at *
       all_goals try subst_vars
       all_goals first
         | (simp at *
            done)
         | (simp_all
            done)
       done)
    | (simp_all
       done)
    | (simp only [Runs.ok_iff, Runs.error_iff]
       simp_all only [
        apply_ite format.level, apply_ite format.nofill, ite_self, ne_eq, not_false_eq_true,
        and_self, and_true, true_and, not_true_eq_false, if_true, if_false, next_kept_none,
        next_kept_some, next_kept_refl, pnode.setFlags_nodes_length,
        pnode_first_flags_nodes_length, sub_cons_cons, sub_cons, sub_refl, sub_nil, sub_tail,
        pnode.kept_iff, pnode.small_setChildq, pnode.small_setChildq_nil, pnode.small_of_nil,
        pnode.small_first_flags, pnode.small_setFlags, pnode_first_flags_node,
        pnode_first_flags_parent, pnode.setChildq_node, pnode.setChildq_parent,
        pnode.setChildq_childq, pnode.setFlags_node, pnode.setFlags_parent,
        pnode.setFlags_childq, format_puts_level, format_puts_nofill, format_putc_level,
        format_putc_nofill, para_check_level, para_check_nofill, macro_open_line_level,
        macro_open_line_nofill, macro_open_level, macro_open_nofill, macro_close_level,
        macro_close_nofill, macro_line_level, macro_line_nofill, macro_addarg_loop_level,
        macro_addarg_loop_nofill, macro_enclose_if_level, macro_enclose_if_nofill,
        macro_unclose_level, macro_unclose_nofill, macro_unclose_if_level,
        macro_unclose_if_nofill, macro_display_level, macro_display_nofill,
        pnode_printsystemitem_level, pnode_printsystemitem_nofill, pnode_printtext_punct_level,
        pnode_printtext_punct_nofill, pnode_printtext_head_level, pnode_printtext_head_nofill]
       done)
    | (simp only [Runs.ok_iff, Runs.error_iff]
       repeat' split at *
       all_goals try simp only [
          pnode_funcdef_fwd, pnode_funcdef_efwd, pnode_printfuncdef_fwd, pnode_printfuncdef_efwd,
          pnode_printparams_fwd, pnode_printparams_efwd, Except.ok.injEq, Except.error.injEq,
          Prod.mk.injEq, Option.some.injEq] at *
       all_goals try subst_vars
       all_goals simp_all only [
        apply_ite format.level, apply_ite format.nofill, ite_self, ne_eq, not_false_eq_true,
        and_self, and_true, true_and, not_true_eq_false, if_true, if_false, next_kept_none,
        next_kept_some, next_kept_refl, pnode.setFlags_nodes_length,
        pnode_first_flags_nodes_length, sub_cons_cons, sub_cons, sub_refl, sub_nil, sub_tail,
        pnode.kept_iff, pnode.small_setChildq, pnode.small_setChildq_nil, pnode.small_of_nil,
        pnode.small_first_flags, pnode.small_setFlags, pnode_first_flags_node,
        pnode_first_flags_parent, pnode.setChildq_node, pnode.setChildq_parent,
        pnode.setChildq_childq, pnode.setFlags_node, pnode.setFlags_parent,
        pnode.setFlags_childq, format_puts_level, format_puts_nofill, format_putc_level,
        format_putc_nofill, para_check_level, para_check_nofill, macro_open_line_level,
        macro_open_line_nofill, macro_open_level, macro_open_nofill, macro_close_level,
        macro_close_nofill, macro_line_level, macro_line_nofill, macro_addarg_loop_level,
        macro_addarg_loop_nofill, macro_enclose_if_level, macro_enclose_if_nofill,
        macro_unclose_level, macro_unclose_nofill, macro_unclose_if_level,
        macro_unclose_if_nofill, macro_display_level, macro_display_nofill,
        pnode_printsystemitem_level, pnode_printsystemitem_nofill, pnode_printtext_punct_level,
        pnode_printtext_punct_nofill, pnode_printtext_head_level, pnode_printtext_head_nofill]
       done)

theorem pnode_printfuncprototype_fwd {f : format} {n : pnode} {k : Nat} (hn : n.small k) {g : format × pnode} :
    pnode_printfuncprototype f n = .ok g ↔ (Except.ok g = pnode_printfuncprototype f n ∧ g.1.level = f.level ∧ g.1.nofill = f.nofill ∧ g.2.node = n.node ∧
      g.2.parent = n.parent ∧ g.2.small k) :=
  ⟨fun h => ⟨h.symm, by
    have h1 := pnode_printfuncprototype_runs f n hn
    rw [h] at h1
    exact h1⟩, fun h => h.1.symm⟩

theorem pnode_printfuncprototype_efwd {f : format} {n : pnode} {k : Nat} (hn : n.small k) {e : fault} :
    pnode_printfuncprototype f n = .error e ↔ (Except.error e = pnode_printfuncprototype f n ∧ e ≠ fault.fuel) :=
  ⟨fun h => ⟨h.symm, by
    have h1 := pnode_printfuncprototype_runs f n hn
    rw [h] at h1
    exact h1⟩, fun h => h.1.symm⟩

theorem pnode_printcontrib_runs (a : Nat) (f : format) (have_contrib : Bool) (cs : List pnode) :
    Runs (fun r => r.1.level = f.level ∧ r.1.nofill = f.nofill ∧ r.2.2 ⊆ cs)
      (pnode_printcontrib a f have_contrib cs) := by
  induction cs generalizing f have_contrib with
  | nil =>
    generalize hx : pnode_printcontrib a f have_contrib [] = x
    unfold pnode_printcontrib at hx
    try simp only [bind, Except.bind, pure, Except.pure] at hx
    repeat' (first | split at hx | dsimp only at hx)
    all_goals subst hx
    all_goals try simp only [
        print_text_fwd, print_text_efwd, print_textnode_fwd, print_textnode_efwd] at *
    all_goals first
      | (simp only [Runs.ok_iff, Runs.error_iff]
         decide)
      | (simp only [Runs.ok_iff, Runs.error_iff]
         simp only [
          apply_ite format.level, apply_ite format.nofill, ite_self, ne_eq, not_false_eq_true,
          and_self, and_true, true_and, not_true_eq_false, if_true, if_false, next_kept_none,
          next_kept_some, next_kept_refl, pnode.setFlags_nodes_length,
          pnode_first_flags_nodes_length, sub_cons_cons, sub_cons, sub_refl, sub_nil, sub_tail,
          pnode.kept_iff, pnode.small_setChildq, pnode.small_setChildq_nil, pnode.small_of_nil,
          pnode.small_first_flags, pnode.small_setFlags, pnode_first_flags_node,
          pnode_first_flags_parent, pnode.setChildq_node, pnode.setChildq_parent,
          pnode.setChildq_childq, pnode.setFlags_node, pnode.setFlags_parent,
          pnode.setFlags_childq, format_puts_level, format_puts_nofill, format_putc_level,
          format_putc_nofill, para_check_level, para_check_nofill, macro_open_line_level,
          macro_open_line_nofill, macro_open_level, macro_open_nofill, macro_close_level,
          macro_close_nofill, macro_line_level, macro_line_nofill, macro_addarg_loop_level,
          macro_addarg_loop_nofill, macro_enclose_if_level, macro_enclose_if_nofill,
          macro_unclose_level, macro_unclose_nofill, macro_unclose_if_level,
          macro_unclose_if_nofill, macro_display_level, macro_display_nofill,
          pnode_printsystemitem_level, pnode_printsystemitem_nofill, pnode_printtext_punct_level,
          pnode_printtext_punct_nofill, pnode_printtext_head_level, pnode_printtext_head_nofill, *]
         done)
      | (simp only [Runs.ok_iff]
         repeat' split at *
         all_goals try simp only [
            print_text_fwd, print_text_efwd, print_textnode_fwd, print_textnode_efwd,
            Except.ok.injEq, Except.error.injEq, Prod.mk.injEq, Option.some.injEq] at *
         all_goals try subst_vars
         all_goals first
           | (simp only [
              apply_ite format.level, apply_ite format.nofill, ite_self, ne_eq, not_false_eq_true,
              and_self, and_true, true_and, not_true_eq_false, if_true, if_false, next_kept_none,
              next_kept_some, next_kept_refl, pnode.setFlags_nodes_length,
              pnode_first_flags_nodes_length, sub_cons_cons, sub_cons, sub_refl, sub_nil, sub_tail,
              pnode.kept_iff, pnode.small_setChildq, pnode.small_setChildq_nil, pnode.small_of_nil,
              pnode.small_first_flags, pnode.small_setFlags, pnode_first_flags_node,
              pnode_first_flags_parent, pnode.setChildq_node, pnode.setChildq_parent,
              pnode.setChildq_childq, pnode.setFlags_node, pnode.setFlags_parent,
              pnode.setFlags_childq, format_puts_level, format_puts_nofill, format_putc_level,
              format_putc_nofill, para_check_level, para_check_nofill, macro_open_line_level,
              macro_open_line_nofill, macro_open_level, macro_open_nofill, macro_close_level,
              macro_close_nofill, macro_line_level, macro_line_nofill, macro_addarg_loop_level,
              macro_addarg_loop_nofill, macro_enclose_if_level, macro_enclose_if_nofill,
              macro_unclose_level, macro_unclose_nofill, macro_unclose_if_level,
              macro_unclose_if_nofill, macro_display_level, macro_display_nofill,
              pnode_printsystemitem_level, pnode_printsystemitem_nofill,
              pnode_printtext_punct_level, pnode_printtext_punct_nofill,
              pnode_printtext_head_level, pnode_printtext_head_nofill, *]
              done)
           | (simp_all
              done)
         done)
      | (simp only [Runs.error_iff]
         intro hh
         subst hh
         repeat' split at *
         all_goals try simp only [
            print_text_fwd, print_text_efwd, print_textnode_fwd, print_textnode_efwd] at *
         all_goals try subst_vars
         all_goals first
           | (simp at *
              done)
           | (simp_all
              done)
         done)
      | (simp_all
         done)
      | (simp only [Runs.ok_iff, Runs.error_iff]
         simp_all only [
          apply_ite format.level, apply_ite format.nofill, ite_self, ne_eq, not_false_eq_true,
          and_self, and_true, true_and, not_true_eq_false, if_true, if_false, next_kept_none,
          next_kept_some, next_kept_refl, pnode.setFlags_nodes_length,
          pnode_first_flags_nodes_length, sub_cons_cons, sub_cons, sub_refl, sub_nil, sub_tail,
          pnode.kept_iff, pnode.small_setChildq, pnode.small_setChildq_nil, pnode.small_of_nil,
          pnode.small_first_flags, pnode.small_setFlags, pnode_first_flags_node,
          pnode_first_flags_parent, pnode.setChildq_node, pnode.setChildq_parent,
          pnode.setChildq_childq, pnode.setFlags_node, pnode.setFlags_parent,
          pnode.setFlags_childq, format_puts_level, format_puts_nofill, format_putc_level,
          format_putc_nofill, para_check_level, para_check_nofill, macro_open_line_level,
          macro_open_line_nofill, macro_open_level, macro_open_nofill, macro_close_level,
          macro_close_nofill, macro_line_level, macro_line_nofill, macro_addarg_loop_level,
          macro_addarg_loop_nofill, macro_enclose_if_level, macro_enclose_if_nofill,
          macro_unclose_level, macro_unclose_nofill, macro_unclose_if_level,
          macro_unclose_if_nofill, macro_display_level, macro_display_nofill,
          pnode_printsystemitem_level, pnode_printsystemitem_nofill, pnode_printtext_punct_level,
          pnode_printtext_punct_nofill, pnode_printtext_head_level, pnode_printtext_head_nofill]
         done)
      | (simp only [Runs.ok_iff, Runs.error_iff]
         repeat' split at *
         all_goals try simp only [
            print_text_fwd, print_text_efwd, print_textnode_fwd, print_textnode_efwd,
            Except.ok.injEq, Except.error.injEq, Prod.mk.injEq, Option.some.injEq] at *
         all_goals try subst_vars
         all_goals simp_all only [
          apply_ite format.level, apply_ite format.nofill, ite_self, ne_eq, not_false_eq_true,
          and_self, and_true, true_and, not_true_eq_false, if_true, if_false, next_kept_none,
          next_kept_some, next_kept_refl, pnode.setFlags_nodes_length,
          pnode_first_flags_nodes_length, sub_cons_cons, sub_cons, sub_refl, sub_nil, sub_tail,
          pnode.kept_iff, pnode.small_setChildq, pnode.small_setChildq_nil, pnode.small_of_nil,
          pnode.small_first_flags, pnode.small_setFlags, pnode_first_flags_node,
          pnode_first_flags_parent, pnode.setChildq_node, pnode.setChildq_parent,
          pnode.setChildq_childq, pnode.setFlags_node, pnode.setFlags_parent,
          pnode.setFlags_childq, format_puts_level, format_puts_nofill, format_putc_level,
          format_putc_nofill, para_check_level, para_check_nofill, macro_open_line_level,
          macro_open_line_nofill, macro_open_level, macro_open_nofill, macro_close_level,
          macro_close_nofill, macro_line_level, macro_line_nofill, macro_addarg_loop_level,
          macro_addarg_loop_nofill, macro_enclose_if_level, macro_enclose_if_nofill,
          macro_unclose_level, macro_unclose_nofill, macro_unclose_if_level,
          macro_unclose_if_nofill, macro_display_level, macro_display_nofill,
          pnode_printsystemitem_level, pnode_printsystemitem_nofill, pnode_printtext_punct_level,
          pnode_printtext_punct_nofill, pnode_printtext_head_level, pnode_printtext_head_nofill]
         done)
  | cons nc rest ih =>
    generalize hx : pnode_printcontrib a f have_contrib (nc :: rest) = x
    unfold pnode_printcontrib at hx
    try simp only [bind, Except.bind, pure, Except.pure] at hx
    repeat' (first | split at hx | dsimp only at hx)
    all_goals subst hx
    all_goals try simp only [
        print_text_fwd, print_text_efwd, print_textnode_fwd, print_textnode_efwd] at *
    all_goals first
      | (simp only [Runs.ok_iff, Runs.error_iff]
         decide)
      | (simp only [Runs.ok_iff, Runs.error_iff]
         simp only [
          apply_ite format.level, apply_ite format.nofill, ite_self, ne_eq, not_false_eq_true,
          and_self, and_true, true_and, not_true_eq_false, if_true, if_false, next_kept_none,
          next_kept_some, next_kept_refl, pnode.setFlags_nodes_length,
          pnode_first_flags_nodes_length, sub_cons_cons, sub_cons, sub_refl, sub_nil, sub_tail,
          pnode.kept_iff, pnode.small_setChildq, pnode.small_setChildq_nil, pnode.small_of_nil,
          pnode.small_first_flags, pnode.small_setFlags, pnode_first_flags_node,
          pnode_first_flags_parent, pnode.setChildq_node, pnode.setChildq_parent,
          pnode.setChildq_childq, pnode.setFlags_node, pnode.setFlags_parent,
          pnode.setFlags_childq, format_puts_level, format_puts_nofill, format_putc_level,
          format_putc_nofill, para_check_level, para_check_nofill, macro_open_line_level,
          macro_open_line_nofill, macro_open_level, macro_open_nofill, macro_close_level,
          macro_close_nofill, macro_line_level, macro_line_nofill, macro_addarg_loop_level,
          macro_addarg_loop_nofill, macro_enclose_if_level, macro_enclose_if_nofill,
          macro_unclose_level, macro_unclose_nofill, macro_unclose_if_level,
          macro_unclose_if_nofill, macro_display_level, macro_display_nofill,
          pnode_printsystemitem_level, pnode_printsystemitem_nofill, pnode_printtext_punct_level,
          pnode_printtext_punct_nofill, pnode_printtext_head_level, pnode_printtext_head_nofill, *]
         done)
      | (refine Runs.imp (ih _ _) ?_
         intro a ha
         simp only [
          ha, apply_ite format.level, apply_ite format.nofill, ite_self, ne_eq, not_false_eq_true,
          and_self, and_true, true_and, not_true_eq_false, if_true, if_false, next_kept_none,
          next_kept_some, next_kept_refl, pnode.setFlags_nodes_length,
          pnode_first_flags_nodes_length, sub_cons_cons, sub_cons, sub_refl, sub_nil, sub_tail,
          pnode.kept_iff, pnode.small_setChildq, pnode.small_setChildq_nil, pnode.small_of_nil,
          pnode.small_first_flags, pnode.small_setFlags, pnode_first_flags_node,
          pnode_first_flags_parent, pnode.setChildq_node, pnode.setChildq_parent,
          pnode.setChildq_childq, pnode.setFlags_node, pnode.setFlags_parent,
          pnode.setFlags_childq, format_puts_level, format_puts_nofill, format_putc_level,
          format_putc_nofill, para_check_level, para_check_nofill, macro_open_line_level,
          macro_open_line_nofill, macro_open_level, macro_open_nofill, macro_close_level,
          macro_close_nofill, macro_line_level, macro_line_nofill, macro_addarg_loop_level,
          macro_addarg_loop_nofill, macro_enclose_if_level, macro_enclose_if_nofill,
          macro_unclose_level, macro_unclose_nofill, macro_unclose_if_level,
          macro_unclose_if_nofill, macro_display_level, macro_display_nofill,
          pnode_printsystemitem_level, pnode_printsystemitem_nofill, pnode_printtext_punct_level,
          pnode_printtext_punct_nofill, pnode_printtext_head_level, pnode_printtext_head_nofill, *]
         done)
      | (refine Runs.map_iff.2 (Runs.imp (ih _ _) ?_)
         intro a ha
         simp only [
          ha, apply_ite format.level, apply_ite format.nofill, ite_self, ne_eq, not_false_eq_true,
          and_self, and_true, true_and, not_true_eq_false, if_true, if_false, next_kept_none,
          next_kept_some, next_kept_refl, pnode.setFlags_nodes_length,
          pnode_first_flags_nodes_length, sub_cons_cons, sub_cons, sub_refl, sub_nil, sub_tail,
          pnode.kept_iff, pnode.small_setChildq, pnode.small_setChildq_nil, pnode.small_of_nil,
          pnode.small_first_flags, pnode.small_setFlags, pnode_first_flags_node,
          pnode_first_flags_parent, pnode.setChildq_node, pnode.setChildq_parent,
          pnode.setChildq_childq, pnode.setFlags_node, pnode.setFlags_parent,
          pnode.setFlags_childq, format_puts_level, format_puts_nofill, format_putc_level,
          format_putc_nofill, para_check_level, para_check_nofill, macro_open_line_level,
          macro_open_line_nofill, macro_open_level, macro_open_nofill, macro_close_level,
          macro_close_nofill, macro_line_level, macro_line_nofill, macro_addarg_loop_level,
          macro_addarg_loop_nofill, macro_enclose_if_level, macro_enclose_if_nofill,
          macro_unclose_level, macro_unclose_nofill, macro_unclose_if_level,
          macro_unclose_if_nofill, macro_display_level, macro_display_nofill,
          pnode_printsystemitem_level, pnode_printsystemitem_nofill, pnode_printtext_punct_level,
          pnode_printtext_punct_nofill, pnode_printtext_head_level, pnode_printtext_head_nofill, *]
         done)
      | (refine Runs.imp (ih _ _) ?_
         intro a ha
         repeat' split at *
         all_goals try simp only [
            print_text_fwd, print_text_efwd, print_textnode_fwd, print_textnode_efwd,
            Except.ok.injEq, Except.error.injEq, Prod.mk.injEq, Option.some.injEq] at *
         all_goals try subst_vars
         all_goals first
           | (simp only [
              apply_ite format.level, apply_ite format.nofill, ite_self, ne_eq, not_false_eq_true,
              and_self, and_true, true_and, not_true_eq_false, if_true, if_false, next_kept_none,
              next_kept_some, next_kept_refl, pnode.setFlags_nodes_length,
              pnode_first_flags_nodes_length, sub_cons_cons, sub_cons, sub_refl, sub_nil, sub_tail,
              pnode.kept_iff, pnode.small_setChildq, pnode.small_setChildq_nil, pnode.small_of_nil,
              pnode.small_first_flags, pnode.small_setFlags, pnode_first_flags_node,
              pnode_first_flags_parent, pnode.setChildq_node, pnode.setChildq_parent,
              pnode.setChildq_childq, pnode.setFlags_node, pnode.setFlags_parent,
              pnode.setFlags_childq, format_puts_level, format_puts_nofill, format_putc_level,
              format_putc_nofill, para_check_level, para_check_nofill, macro_open_line_level,
              macro_open_line_nofill, macro_open_level, macro_open_nofill, macro_close_level,
              macro_close_nofill, macro_line_level, macro_line_nofill, macro_addarg_loop_level,
              macro_addarg_loop_nofill, macro_enclose_if_level, macro_enclose_if_nofill,
              macro_unclose_level, macro_unclose_nofill, macro_unclose_if_level,
              macro_unclose_if_nofill, macro_display_level, macro_display_nofill,
              pnode_printsystemitem_level, pnode_printsystemitem_nofill,
              pnode_printtext_punct_level, pnode_printtext_punct_nofill,
              pnode_printtext_head_level, pnode_printtext_head_nofill, *]
              done)
           | (simp_all
              done)
         done)
      | (refine Runs.map_iff.2 (Runs.imp (ih _ _) ?_)
         intro a ha
         repeat' split at *
         all_goals try simp only [
            print_text_fwd, print_text_efwd, print_textnode_fwd, print_textnode_efwd,
            Except.ok.injEq, Except.error.injEq, Prod.mk.injEq, Option.some.injEq] at *
         all_goals try subst_vars
         all_goals first
           | (simp only [
              apply_ite format.level, apply_ite format.nofill, ite_self, ne_eq, not_false_eq_true,
              and_self, and_true, true_and, not_true_eq_false, if_true, if_false, next_kept_none,
              next_kept_some, next_kept_refl, pnode.setFlags_nodes_length,
              pnode_first_flags_nodes_length, sub_cons_cons, sub_cons, sub_refl, sub_nil, sub_tail,
              pnode.kept_iff, pnode.small_setChildq, pnode.small_setChildq_nil, pnode.small_of_nil,
              pnode.small_first_flags, pnode.small_setFlags, pnode_first_flags_node,
              pnode_first_flags_parent, pnode.setChildq_node, pnode.setChildq_parent,
              pnode.setChildq_childq, pnode.setFlags_node, pnode.setFlags_parent,
              pnode.setFlags_childq, format_puts_level, format_puts_nofill, format_putc_level,
              format_putc_nofill, para_check_level, para_check_nofill, macro_open_line_level,
              macro_open_line_nofill, macro_open_level, macro_open_nofill, macro_close_level,
              macro_close_nofill, macro_line_level, macro_line_nofill, macro_addarg_loop_level,
              macro_addarg_loop_nofill, macro_enclose_if_level, macro_enclose_if_nofill,
              macro_unclose_level, macro_unclose_nofill, macro_unclose_if_level,
              macro_unclose_if_nofill, macro_display_level, macro_display_nofill,
              pnode_printsystemitem_level, pnode_printsystemitem_nofill,
              pnode_printtext_punct_level, pnode_printtext_punct_nofill,
              pnode_printtext_head_level, pnode_printtext_head_nofill, *]
              done)
           | (simp_all
              done)
         done)
      | (simp only [Runs.ok_iff]
         repeat' split at *
         all_goals try simp only [
            print_text_fwd, print_text_efwd, print_textnode_fwd, print_textnode_efwd,
            Except.ok.injEq, Except.error.injEq, Prod.mk.injEq, Option.some.injEq] at *
         all_goals try subst_vars
         all_goals first
           | (simp only [
              apply_ite format.level, apply_ite format.nofill, ite_self, ne_eq, not_false_eq_true,
              and_self, and_true, true_and, not_true_eq_false, if_true, if_false, next_kept_none,
              next_kept_some, next_kept_refl, pnode.setFlags_nodes_length,
              pnode_first_flags_nodes_length, sub_cons_cons, sub_cons, sub_refl, sub_nil, sub_tail,
              pnode.kept_iff, pnode.small_setChildq, pnode.small_setChildq_nil, pnode.small_of_nil,
              pnode.small_first_flags, pnode.small_setFlags, pnode_first_flags_node,
              pnode_first_flags_parent, pnode.setChildq_node, pnode.setChildq_parent,
              pnode.setChildq_childq, pnode.setFlags_node, pnode.setFlags_parent,
              pnode.setFlags_childq, format_puts_level, format_puts_nofill, format_putc_level,
              format_putc_nofill, para_check_level, para_check_nofill, macro_open_line_level,
              macro_open_line_nofill, macro_open_level, macro_open_nofill, macro_close_level,
              macro_close_nofill, macro_line_level, macro_line_nofill, macro_addarg_loop_level,
              macro_addarg_loop_nofill, macro_enclose_if_level, macro_enclose_if_nofill,
              macro_unclose_level, macro_unclose_nofill, macro_unclose_if_level,
              macro_unclose_if_nofill, macro_display_level, macro_display_nofill,
              pnode_printsystemitem_level, pnode_printsystemitem_nofill,
              pnode_printtext_punct_level, pnode_printtext_punct_nofill,
              pnode_printtext_head_level, pnode_printtext_head_nofill, *]
              done)
           | (simp_all
              done)
         done)
      | (simp only [Runs.error_iff]
         intro hh
         subst hh
         repeat' split at *
         all_goals try simp only [
            print_text_fwd, print_text_efwd, print_textnode_fwd, print_textnode_efwd] at *
         all_goals try subst_vars
         all_goals first
           | (simp at *
              done)
           | (simp_all
              done)
         done)
      | (simp_all
         done)
      | (simp only [Runs.ok_iff, Runs.error_iff]
         simp_all only [
          apply_ite format.level, apply_ite format.nofill, ite_self, ne_eq, not_false_eq_true,
          and_self, and_true, true_and, not_true_eq_false, if_true, if_false, next_kept_none,
          next_kept_some, next_kept_refl, pnode.setFlags_nodes_length,
          pnode_first_flags_nodes_length, sub_cons_cons, sub_cons, sub_refl, sub_nil, sub_tail,
          pnode.kept_iff, pnode.small_setChildq, pnode.small_setChildq_nil, pnode.small_of_nil,
          pnode.small_first_flags, pnode.small_setFlags, pnode_first_flags_node,
          pnode_first_flags_parent, pnode.setChildq_node, pnode.setChildq_parent,
          pnode.setChildq_childq, pnode.setFlags_node, pnode.setFlags_parent,
          pnode.setFlags_childq, format_puts_level, format_puts_nofill, format_putc_level,
          format_putc_nofill, para_check_level, para_check_nofill, macro_open_line_level,
          macro_open_line_nofill, macro_open_level, macro_open_nofill, macro_close_level,
          macro_close_nofill, macro_line_level, macro_line_nofill, macro_addarg_loop_level,
          macro_addarg_loop_nofill, macro_enclose_if_level, macro_enclose_if_nofill,
          macro_unclose_level, macro_unclose_nofill, macro_unclose_if_level,
          macro_unclose_if_nofill, macro_display_level, macro_display_nofill,
          pnode_printsystemitem_level, pnode_printsystemitem_nofill, pnode_printtext_punct_level,
          pnode_printtext_punct_nofill, pnode_printtext_head_level, pnode_printtext_head_nofill]
         done)
      | (simp only [Runs.ok_iff, Runs.error_iff]
         repeat' split at *
         all_goals try simp only [
            print_text_fwd, print_text_efwd, print_textnode_fwd, print_textnode_efwd,
            Except.ok.injEq, Except.error.injEq, Prod.mk.injEq, Option.some.injEq] at *
         all_goals try subst_vars
         all_goals simp_all only [
          apply_ite format.level, apply_ite format.nofill, ite_self, ne_eq, not_false_eq_true,
          and_self, and_true, true_and, not_true_eq_false, if_true, if_false, next_kept_none,
          next_kept_some, next_kept_refl, pnode.setFlags_nodes_length,
          pnode_first_flags_nodes_length, sub_cons_cons, sub_cons, sub_refl, sub_nil, sub_tail,
          pnode.kept_iff, pnode.small_setChildq, pnode.small_setChildq_nil, pnode.small_of_nil,
          pnode.small_first_flags, pnode.small_setFlags, pnode_first_flags_node,
          pnode_first_flags_parent, pnode.setChildq_node, pnode.setChildq_parent,
          pnode.setChildq_childq, pnode.setFlags_node, pnode.setFlags_parent,
          pnode.setFlags_childq, format_puts_level, format_puts_nofill, format_putc_level,
          format_putc_nofill, para_check_level, para_check_nofill, macro_open_line_level,
          macro_open_line_nofill, macro_open_level, macro_open_nofill, macro_close_level,
          macro_close_nofill, macro_line_level, macro_line_nofill, macro_addarg_loop_level,
          macro_addarg_loop_nofill, macro_enclose_if_level, macro_enclose_if_nofill,
          macro_unclose_level, macro_unclose_nofill, macro_unclose_if_level,
          macro_unclose_if_nofill, macro_display_level, macro_display_nofill,
          pnode_printsystemitem_level, pnode_printsystemitem_nofill, pnode_printtext_punct_level,
          pnode_printtext_punct_nofill, pnode_printtext_head_level, pnode_printtext_head_nofill]
         done)

theorem pnode_printcontrib_fwd {a : Nat} {f : format} {have_contrib : Bool} {cs : List pnode}  {g : format × Bool × List pnode} :
    pnode_printcontrib a f have_contrib cs = .ok g ↔ (Except.ok g = pnode_printcontrib a f have_contrib cs ∧ g.1.level = f.level ∧ g.1.nofill = f.nofill ∧ ∀ l, cs ⊆ l → g.2.2 ⊆ l) :=
  ⟨fun h => ⟨h.symm, by
    have h1 := pnode_printcontrib_runs a f have_contrib cs 
    rw [h] at h1
    exact ⟨h1.1, h1.2.1, fun l hl => List.Subset.trans h1.2.2 hl⟩⟩, fun h => h.1.symm⟩

theorem pnode_printcontrib_efwd {a : Nat} {f : format} {have_contrib : Bool} {cs : List pnode}  {e : fault} :
    pnode_printcontrib a f have_contrib cs = .error e ↔ (Except.error e = pnode_printcontrib a f have_contrib cs ∧ e ≠ fault.fuel) :=
  ⟨fun h => ⟨h.symm, by
    have h1 := pnode_printcontrib_runs a f have_contrib cs 
    rw [h] at h1
    exact h1⟩, fun h => h.1.symm⟩

theorem pnode_foreach_unlink_fwd {a : Nat} {sel : pnode → Bool} {act : format → pnode → Except fault format} {f : format} {cs : List pnode} (hact : ∀ g nc, Runs (fun g1 => g1.level = g.level ∧ g1.nofill = g.nofill) (act g nc)) {g : format × List pnode} :
    pnode_foreach_unlink a sel act f cs = .ok g ↔ (Except.ok g = pnode_foreach_unlink a sel act f cs ∧ g.1.level = f.level ∧ g.1.nofill = f.nofill ∧ ∀ l, cs ⊆ l → g.2 ⊆ l) :=
  ⟨fun h => ⟨h.symm, by
    have h1 := pnode_foreach_unlink_runs a sel act hact f cs
    rw [h] at h1
    exact ⟨h1.1, h1.2.1, fun l hl => List.Subset.trans h1.2.2 hl⟩⟩, fun h => h.1.symm⟩

theorem pnode_foreach_unlink_efwd {a : Nat} {sel : pnode → Bool} {act : format → pnode → Except fault format} {f : format} {cs : List pnode} (hact : ∀ g nc, Runs (fun g1 => g1.level = g.level ∧ g1.nofill = g.nofill) (act g nc)) {e : fault} :
    pnode_foreach_unlink a sel act f cs = .error e ↔ (Except.error e = pnode_foreach_unlink a sel act f cs ∧ e ≠ fault.fuel) :=
  ⟨fun h => ⟨h.symm, by
    have h1 := pnode_foreach_unlink_runs a sel act hact f cs
    rw [h] at h1
    exact h1⟩, fun h => h.1.symm⟩

theorem pnode_printauthor_runs (f : format) (n : pnode) {k : Nat} (hn : n.small k) :
    Runs (fun r => r.1.level = f.level ∧ r.1.nofill = f.nofill ∧ r.2.node = n.node ∧
      r.2.parent = n.parent ∧ r.2.small k)
      (pnode_printauthor f n) := by
  unfold pnode_printauthor
  refine Runs.bind_iff.2 (Runs.imp (pnode_printcontrib_runs _ _ _ _) ?_)
  rintro ⟨f1, hc, cs⟩ ⟨a1, a2, a3⟩
  dsimp only
  split
  · exact ⟨a1, a2, pnode.setChildq_node _ _, pnode.setChildq_parent _ _,
      (pnode.small_setChildq_nil n).2 trivial⟩
  refine Runs.bind_iff.2 (Runs.pure_iff.2 ?_)
  split <;>
    (refine Runs.bind_iff.2 (Runs.imp
        (Q := fun (g : format) => g.level = f.level ∧ g.nofill = f.nofill) ?_ ?_)
     · first
         | exact Runs.imp (print_text_runs _ _ _) (fun g hg => ⟨hg.1.trans a1, hg.2.trans a2⟩)
         | exact ⟨a1, a2⟩
     · rintro f2 ⟨b1, b2⟩
       refine Runs.bind_iff.2 (Runs.imp (pnode_foreach_unlink_runs _ _ _
         (fun g nc => macro_addnode_runs g ARG_SPACE nc) _ _) ?_)
       rintro ⟨f3, cs1⟩ ⟨c1, c2, c3⟩
       rw [macro_open_level] at c1
       rw [macro_open_nofill] at c2
       dsimp only at c1 c2 c3 ⊢
       have hs1 : (n.setChildq cs1).small k :=
         (pnode.small_setChildq hn (List.Subset.trans c3 a3)).2 trivial
       refine Runs.bind_iff.2 (Runs.imp (Q := fun (r : format × pnode) => r.1.level = f.level ∧
         r.1.nofill = f.nofill ∧ r.2.node = n.node ∧ r.2.parent = n.parent ∧ r.2.small k) ?_ ?_)
       · cases ht : pnode_takebelow_chk NODE_EMAIL (n.setChildq cs1) with
         | none =>
           exact ⟨c1.trans b1, c2.trans b2, pnode.setChildq_node _ _,
             pnode.setChildq_parent _ _, hs1⟩
         | some x =>
           obtain ⟨nc, n2, ok, cx⟩ := x
           obtain ⟨-, e2, e3, e4⟩ := pnode_takebelow_chk_size _ _ _ _ _ ht
           dsimp only
           split
           · exact fun h => by cases h
           · refine Runs.bind_iff.2 (Runs.imp (macro_addnode_runs _ _ _) ?_)
             rintro g ⟨d1, d2⟩
             rw [macro_open_level] at d1
             rw [macro_open_nofill] at d2
             exact ⟨(d1.trans c1).trans b1, (d2.trans c2).trans b2,
               e2.trans (pnode.setChildq_node _ _), e3.trans (pnode.setChildq_parent _ _),
               (e4 k hs1).1⟩
       · rintro ⟨f4, n2⟩ ⟨d1, d2, d3, d4, d5⟩
         dsimp only at d1 d2 d3 d4 d5 ⊢
         split
         · exact ⟨d1, d2, d3, d4, d5⟩
         · refine Runs.bind_iff.2 (Runs.pure_iff.2 ?_)
           refine Runs.bind_iff.2 (Runs.imp (macro_addarg_runs _ _ _) ?_)
           rintro f5 ⟨g1, g2⟩
           refine ⟨?_, ?_, d3, d4, d5⟩
           · show (macro_close f5).level = f.level
             rw [macro_close_level]
             exact g1.trans d1
           · show (macro_close f5).nofill = f.nofill
             rw [macro_close_nofill]
             exact g2.trans d2)

theorem pnode_printauthor_fwd {f : format} {n : pnode} {k : Nat} (hn : n.small k) {g : format × pnode} :
    pnode_printauthor f n = .ok g ↔ (Except.ok g = pnode_printauthor f n ∧ g.1.level = f.level ∧ g.1.nofill = f.nofill ∧ g.2.node = n.node ∧
      g.2.parent = n.parent ∧ g.2.small k) :=
  ⟨fun h => ⟨h.symm, by
    have h1 := pnode_printauthor_runs f n hn
    rw [h] at h1
    exact h1⟩, fun h => h.1.symm⟩

theorem pnode_printauthor_efwd {f : format} {n : pnode} {k : Nat} (hn : n.small k) {e : fault} :
    pnode_printauthor f n = .error e ↔ (Except.error e = pnode_printauthor f n ∧ e ≠ fault.fuel) :=
  ⟨fun h => ⟨h.symm, by
    have h1 := pnode_printauthor_runs f n hn
    rw [h] at h1
    exact h1⟩, fun h => h.1.symm⟩

theorem pnode_printtext_pf_runs (f : format) (ctx : pctx) (accept_arg : Bool) :
    Runs (fun r => r.1.level = f.level ∧ r.1.nofill = f.nofill ∧ next_kept ctx.next r.2.1)
      (pnode_printtext_pf f ctx accept_arg) := by
  generalize hx : pnode_printtext_pf f ctx accept_arg = x
  unfold pnode_printtext_pf at hx
  try simp only [bind, Except.bind, pure, Except.pure, Except.map] at hx
  repeat' (first | split at hx | dsimp only at hx)
  all_goals subst hx
  all_goals first
    | (simp only [Runs.ok_iff, Runs.error_iff]
       decide)
    | (simp only [Runs.ok_iff, Runs.error_iff]
       simp only [
        apply_ite format.level, apply_ite format.nofill, ite_self, ne_eq, not_false_eq_true,
        and_self, and_true, true_and, not_true_eq_false, if_true, if_false, next_kept_none,
        next_kept_some, next_kept_refl, pnode.setFlags_nodes_length,
        pnode_first_flags_nodes_length, sub_cons_cons, sub_cons, sub_refl, sub_nil, sub_tail,
        pnode.kept_iff, pnode.small_setChildq, pnode.small_setChildq_nil, pnode.small_of_nil,
        pnode.small_first_flags, pnode.small_setFlags, pnode_first_flags_node,
        pnode_first_flags_parent, pnode.setChildq_node, pnode.setChildq_parent,
        pnode.setChildq_childq, pnode.setFlags_node, pnode.setFlags_parent,
        pnode.setFlags_childq, format_puts_level, format_puts_nofill, format_putc_level,
        format_putc_nofill, para_check_level, para_check_nofill, macro_open_line_level,
        macro_open_line_nofill, macro_open_level, macro_open_nofill, macro_close_level,
        macro_close_nofill, macro_line_level, macro_line_nofill, macro_addarg_loop_level,
        macro_addarg_loop_nofill, macro_enclose_if_level, macro_enclose_if_nofill,
        macro_unclose_level, macro_unclose_nofill, macro_unclose_if_level,
        macro_unclose_if_nofill, macro_display_level, macro_display_nofill,
        pnode_printsystemitem_level, pnode_printsystemitem_nofill, pnode_printtext_punct_level,
        pnode_printtext_punct_nofill, pnode_printtext_head_level, pnode_printtext_head_nofill, *]
       done)
    | (simp only [Runs.ok_iff]
       repeat' split at *
       all_goals try simp only [
          Except.ok.injEq, Except.error.injEq, Prod.mk.injEq, Option.some.injEq] at *
       all_goals try subst_vars
       all_goals first
         | (simp only [
            apply_ite format.level, apply_ite format.nofill, ite_self, ne_eq, not_false_eq_true,
            and_self, and_true, true_and, not_true_eq_false, if_true, if_false, next_kept_none,
            next_kept_some, next_kept_refl, pnode.setFlags_nodes_length,
            pnode_first_flags_nodes_length, sub_cons_cons, sub_cons, sub_refl, sub_nil, sub_tail,
            pnode.kept_iff, pnode.small_setChildq, pnode.small_setChildq_nil, pnode.small_of_nil,
            pnode.small_first_flags, pnode.small_setFlags, pnode_first_flags_node,
            pnode_first_flags_parent, pnode.setChildq_node, pnode.setChildq_parent,
            pnode.setChildq_childq, pnode.setFlags_node, pnode.setFlags_parent,
            pnode.setFlags_childq, format_puts_level, format_puts_nofill, format_putc_level,
            format_putc_nofill, para_check_level, para_check_nofill, macro_open_line_level,
            macro_open_line_nofill, macro_open_level, macro_open_nofill, macro_close_level,
            macro_close_nofill, macro_line_level, macro_line_nofill, macro_addarg_loop_level,
            macro_addarg_loop_nofill, macro_enclose_if_level, macro_enclose_if_nofill,
            macro_unclose_level, macro_unclose_nofill, macro_unclose_if_level,
            macro_unclose_if_nofill, macro_display_level, macro_display_nofill,
            pnode_printsystemitem_level, pnode_printsystemitem_nofill,
            pnode_printtext_punct_level, pnode_printtext_punct_nofill,
            pnode_printtext_head_level, pnode_printtext_head_nofill, *]
            done)
         | (simp_all
            done)
       done)
    | (simp only [Runs.error_iff]
       intro hh
       subst hh
       repeat' split at *
       all_goals try subst_vars
       all_goals first
         | (simp at *
            done)
         | (simp_all
            done)
       done)
    | (simp_all
       done)
    | (simp only [Runs.ok_iff, Runs.error_iff]
       simp_all only [
        apply_ite format.level, apply_ite format.nofill, ite_self, ne_eq, not_false_eq_true,
        and_self, and_true, true_and, not_true_eq_false, if_true, if_false, next_kept_none,
        next_kept_some, next_kept_refl, pnode.setFlags_nodes_length,
        pnode_first_flags_nodes_length, sub_cons_cons, sub_cons, sub_refl, sub_nil, sub_tail,
        pnode.kept_iff, pnode.small_setChildq, pnode.small_setChildq_nil, pnode.small_of_nil,
        pnode.small_first_flags, pnode.small_setFlags, pnode_first_flags_node,
        pnode_first_flags_parent, pnode.setChildq_node, pnode.setChildq_parent,
        pnode.setChildq_childq, pnode.setFlags_node, pnode.setFlags_parent,
        pnode.setFlags_childq, format_puts_level, format_puts_nofill, format_putc_level,
        format_putc_nofill, para_check_level, para_check_nofill, macro_open_line_level,
        macro_open_line_nofill, macro_open_level, macro_open_nofill, macro_close_level,
        macro_close_nofill, macro_line_level, macro_line_nofill, macro_addarg_loop_level,
        macro_addarg_loop_nofill, macro_enclose_if_level, macro_enclose_if_nofill,
        macro_unclose_level, macro_unclose_nofill, macro_unclose_if_level,
        macro_unclose_if_nofill, macro_display_level, macro_display_nofill,
        pnode_printsystemitem_level, pnode_printsystemitem_nofill, pnode_printtext_punct_level,
        pnode_printtext_punct_nofill, pnode_printtext_head_level, pnode_printtext_head_nofill]
       done)
    | (simp only [Runs.ok_iff, Runs.error_iff]
       repeat' split at *
       all_goals try simp only [
          Except.ok.injEq, Except.error.injEq, Prod.mk.injEq, Option.some.injEq] at *
       all_goals try subst_vars
       all_goals simp_all only [
        apply_ite format.level, apply_ite format.nofill, ite_self, ne_eq, not_false_eq_true,
        and_self, and_true, true_and, not_true_eq_false, if_true, if_false, next_kept_none,
        next_kept_some, next_kept_refl, pnode.setFlags_nodes_length,
        pnode_first_flags_nodes_length, sub_cons_cons, sub_cons, sub_refl, sub_nil, sub_tail,
        pnode.kept_iff, pnode.small_setChildq, pnode.small_setChildq_nil, pnode.small_of_nil,
        pnode.small_first_flags, pnode.small_setFlags, pnode_first_flags_node,
        pnode_first_flags_parent, pnode.setChildq_node, pnode.setChildq_parent,
        pnode.setChildq_childq, pnode.setFlags_node, pnode.setFlags_parent,
        pnode.setFlags_childq, format_puts_level, format_puts_nofill, format_putc_level,
        format_putc_nofill, para_check_level, para_check_nofill, macro_open_line_level,
        macro_open_line_nofill, macro_open_level, macro_open_nofill, macro_close_level,
        macro_close_nofill, macro_line_level, macro_line_nofill, macro_addarg_loop_level,
        macro_addarg_loop_nofill, macro_enclose_if_level, macro_enclose_if_nofill,
        macro_unclose_level, macro_unclose_nofill, macro_unclose_if_level,
        macro_unclose_if_nofill, macro_display_level, macro_display_nofill,
        pnode_printsystemitem_level, pnode_printsystemitem_nofill, pnode_printtext_punct_level,
        pnode_printtext_punct_nofill, pnode_printtext_head_level, pnode_printtext_head_nofill]
       done)

theorem pnode_printtext_pf_fwd {f : format} {ctx : pctx} {accept_arg : Bool}  {g : format × Option pnode × Bool} :
    pnode_printtext_pf f ctx accept_arg = .ok g ↔ (Except.ok g = pnode_printtext_pf f ctx accept_arg ∧ g.1.level = f.level ∧ g.1.nofill = f.nofill ∧ next_kept ctx.next g.2.1) :=
  ⟨fun h => ⟨h.symm, by
    have h1 := pnode_printtext_pf_runs f ctx accept_arg 
    rw [h] at h1
    exact h1⟩, fun h => h.1.symm⟩

theorem pnode_printtext_pf_efwd {f : format} {ctx : pctx} {accept_arg : Bool}  {e : fault} :
    pnode_printtext_pf f ctx accept_arg = .error e ↔ (Except.error e = pnode_printtext_pf f ctx accept_arg ∧ e ≠ fault.fuel) :=
  ⟨fun h => ⟨h.symm, by
    have h1 := pnode_printtext_pf_runs f ctx accept_arg 
    rw [h] at h1
    exact h1⟩, fun h => h.1.symm⟩

theorem pnode_printtext_sep_runs (f : format) (ctx : pctx) (n : pnode) (accept_arg : Bool) :
    Runs (fun g => g.level = f.level ∧ g.nofill = f.nofill)
      (pnode_printtext_sep f ctx n accept_arg) := by
  generalize hx : pnode_printtext_sep f ctx n accept_arg = x
  unfold pnode_printtext_sep at hx
  try simp only [bind, Except.bind, pure, Except.pure, Except.map] at hx
  repeat' (first | split at hx | dsimp only at hx)
  all_goals subst hx
  all_goals first
    | (simp only [Runs.ok_iff, Runs.error_iff]
       decide)
    | (simp only [Runs.ok_iff, Runs.error_iff]
       simp only [
        apply_ite format.level, apply_ite format.nofill, ite_self, ne_eq, not_false_eq_true,
        and_self, and_true, true_and, not_true_eq_false, if_true, if_false, next_kept_none,
        next_kept_some, next_kept_refl, pnode.setFlags_nodes_length,
        pnode_first_flags_nodes_length, sub_cons_cons, sub_cons, sub_refl, sub_nil, sub_tail,
        pnode.kept_iff, pnode.small_setChildq, pnode.small_setChildq_nil, pnode.small_of_nil,
        pnode.small_first_flags, pnode.small_setFlags, pnode_first_flags_node,
        pnode_first_flags_parent, pnode.setChildq_node, pnode.setChildq_parent,
        pnode.setChildq_childq, pnode.setFlags_node, pnode.setFlags_parent,
        pnode.setFlags_childq, format_puts_level, format_puts_nofill, format_putc_level,
        format_putc_nofill, para_check_level, para_check_nofill, macro_open_line_level,
        macro_open_line_nofill, macro_open_level, macro_open_nofill, macro_close_level,
        macro_close_nofill, macro_line_level, macro_line_nofill, macro_addarg_loop_level,
        macro_addarg_loop_nofill, macro_enclose_if_level, macro_enclose_if_nofill,
        macro_unclose_level, macro_unclose_nofill, macro_unclose_if_level,
        macro_unclose_if_nofill, macro_display_level, macro_display_nofill,
        pnode_printsystemitem_level, pnode_printsystemitem_nofill, pnode_printtext_punct_level,
        pnode_printtext_punct_nofill, pnode_printtext_head_level, pnode_printtext_head_nofill, *]
       done)
    | (simp only [Runs.ok_iff]
       repeat' split at *
       all_goals try simp only [
          Except.ok.injEq, Except.error.injEq, Prod.mk.injEq, Option.some.injEq] at *
       all_goals try subst_vars
       all_goals first
         | (simp only [
            apply_ite format.level, apply_ite format.nofill, ite_self, ne_eq, not_false_eq_true,
            and_self, and_true, true_and, not_true_eq_false, if_true, if_false, next_kept_none,
            next_kept_some, next_kept_refl, pnode.setFlags_nodes_length,
            pnode_first_flags_nodes_length, sub_cons_cons, sub_cons, sub_refl, sub_nil, sub_tail,
            pnode.kept_iff, pnode.small_setChildq, pnode.small_setChildq_nil, pnode.small_of_nil,
            pnode.small_first_flags, pnode.small_setFlags, pnode_first_flags_node,
            pnode_first_flags_parent, pnode.setChildq_node, pnode.setChildq_parent,
            pnode.setChildq_childq, pnode.setFlags_node, pnode.setFlags_parent,
            pnode.setFlags_childq, format_puts_level, format_puts_nofill, format_putc_level,
            format_putc_nofill, para_check_level, para_check_nofill, macro_open_line_level,
            macro_open_line_nofill, macro_open_level, macro_open_nofill, macro_close_level,
            macro_close_nofill, macro_line_level, macro_line_nofill, macro_addarg_loop_level,
            macro_addarg_loop_nofill, macro_enclose_if_level, macro_enclose_if_nofill,
            macro_unclose_level, macro_unclose_nofill, macro_unclose_if_level,
            macro_unclose_if_nofill, macro_display_level, macro_display_nofill,
            pnode_printsystemitem_level, pnode_printsystemitem_nofill,
            pnode_printtext_punct_level, pnode_printtext_punct_nofill,
            pnode_printtext_head_level, pnode_printtext_head_nofill, *]
            done)
         | (simp_all
            done)
       done)
    | (simp only [Runs.error_iff]
       intro hh
       subst hh
       repeat' split at *
       all_goals try subst_vars
       all_goals first
         | (simp at *
            done)
         | (simp_all
            done)
       done)
    | (simp_all
       done)
    | (simp only [Runs.ok_iff, Runs.error_iff]
       simp_all only [
        apply_ite format.level, apply_ite format.nofill, ite_self, ne_eq, not_false_eq_true,
        and_self, and_true, true_and, not_true_eq_false, if_true, if_false, next_kept_none,
        next_kept_some, next_kept_refl, pnode.setFlags_nodes_length,
        pnode_first_flags_nodes_length, sub_cons_cons, sub_cons, sub_refl, sub_nil, sub_tail,
        pnode.kept_iff, pnode.small_setChildq, pnode.small_setChildq_nil, pnode.small_of_nil,
        pnode.small_first_flags, pnode.small_setFlags, pnode_first_flags_node,
        pnode_first_flags_parent, pnode.setChildq_node, pnode.setChildq_parent,
        pnode.setChildq_childq, pnode.setFlags_node, pnode.setFlags_parent,
        pnode.setFlags_childq, format_puts_level, format_puts_nofill, format_putc_level,
        format_putc_nofill, para_check_level, para_check_nofill, macro_open_line_level,
        macro_open_line_nofill, macro_open_level, macro_open_nofill, macro_close_level,
        macro_close_nofill, macro_line_level, macro_line_nofill, macro_addarg_loop_level,
        macro_addarg_loop_nofill, macro_enclose_if_level, macro_enclose_if_nofill,
        macro_unclose_level, macro_unclose_nofill, macro_unclose_if_level,
        macro_unclose_if_nofill, macro_display_level, macro_display_nofill,
        pnode_printsystemitem_level, pnode_printsystemitem_nofill, pnode_printtext_punct_level,
        pnode_printtext_punct_nofill, pnode_printtext_head_level, pnode_printtext_head_nofill]
       done)
    | (simp only [Runs.ok_iff, Runs.error_iff]
       repeat' split at *
       all_goals try simp only [
          Except.ok.injEq, Except.error.injEq, Prod.mk.injEq, Option.some.injEq] at *
       all_goals try subst_vars
       all_goals simp_all only [
        apply_ite format.level, apply_ite format.nofill, ite_self, ne_eq, not_false_eq_true,
        and_self, and_true, true_and, not_true_eq_false, if_true, if_false, next_kept_none,
        next_kept_some, next_kept_refl, pnode.setFlags_nodes_length,
        pnode_first_flags_nodes_length, sub_cons_cons, sub_cons, sub_refl, sub_nil, sub_tail,
        pnode.kept_iff, pnode.small_setChildq, pnode.small_setChildq_nil, pnode.small_of_nil,
        pnode.small_first_flags, pnode.small_setFlags, pnode_first_flags_node,
        pnode_first_flags_parent, pnode.setChildq_node, pnode.setChildq_parent,
        pnode.setChildq_childq, pnode.setFlags_node, pnode.setFlags_parent,
        pnode.setFlags_childq, format_puts_level, format_puts_nofill, format_putc_level,
        format_putc_nofill, para_check_level, para_check_nofill, macro_open_line_level,
        macro_open_line_nofill, macro_open_level, macro_open_nofill, macro_close_level,
        macro_close_nofill, macro_line_level, macro_line_nofill, macro_addarg_loop_level,
        macro_addarg_loop_nofill, macro_enclose_if_level, macro_enclose_if_nofill,
        macro_unclose_level, macro_unclose_nofill, macro_unclose_if_level,
        macro_unclose_if_nofill, macro_display_level, macro_display_nofill,
        pnode_printsystemitem_level, pnode_printsystemitem_nofill, pnode_printtext_punct_level,
        pnode_printtext_punct_nofill, pnode_printtext_head_level, pnode_printtext_head_nofill]
       done)

theorem pnode_printtext_sep_fwd {f : format} {ctx : pctx} {n : pnode} {accept_arg : Bool}  {g : format} :
    pnode_printtext_sep f ctx n accept_arg = .ok g ↔ (Except.ok g = pnode_printtext_sep f ctx n accept_arg ∧ g.level = f.level ∧ g.nofill = f.nofill) :=
  ⟨fun h => ⟨h.symm, by
    have h1 := pnode_printtext_sep_runs f ctx n accept_arg 
    rw [h] at h1
    exact h1⟩, fun h => h.1.symm⟩

theorem pnode_printtext_sep_efwd {f : format} {ctx : pctx} {n : pnode} {accept_arg : Bool}  {e : fault} :
    pnode_printtext_sep f ctx n accept_arg = .error e ↔ (Except.error e = pnode_printtext_sep f ctx n accept_arg ∧ e ≠ fault.fuel) :=
  ⟨fun h => ⟨h.symm, by
    have h1 := pnode_printtext_sep_runs f ctx n accept_arg 
    rw [h] at h1
    exact h1⟩, fun h => h.1.symm⟩

theorem pnode_printtext_head_fwd {f : format} {n : pnode} {cp cp1 : List Char} {n1 : pnode}
    {acc : Bool} :
    (pnode_printtext_head f n cp).2 = some (cp1, n1, acc) ↔
      (some (cp1, n1, acc) = (pnode_printtext_head f n cp).2 ∧ n1.node = n.node ∧
        n1.parent = n.parent ∧ ∀ k, n.small k → n1.small k) := by
  refine ⟨fun h => ⟨h.symm, ?_⟩, fun h => h.1.symm⟩
  unfold pnode_printtext_head at h
  generalize pnode_printtext_punct f cp = y at h
  obtain ⟨f1, o⟩ := y
  cases o with
  | none => cases h
  | some cp2 =>
    dsimp only at h
    split at h
    · simp only [Option.some.injEq, Prod.mk.injEq] at h
      obtain ⟨-, h2, -⟩ := h
      subst h2
      exact ⟨pnode.setFlags_node _ _, pnode.setFlags_parent _ _,
        fun k hk => (pnode.small_setFlags _ hk).2 trivial⟩
    · simp only [Option.some.injEq, Prod.mk.injEq] at h
      obtain ⟨-, h2, -⟩ := h
      subst h2
      exact ⟨rfl, rfl, fun k hk => hk⟩

theorem pnode_parent_is_runs (ctx : pctx) (n : pnode) (k : nodeid) :
    Runs (fun _ => True) (pnode_parent_is ctx n k) := by
  unfold pnode_parent_is
  split
  · trivial
  · split
    · trivial
    · exact fun h => by cases h

theorem pnode_first_inline_runs (n : pnode) : Runs (fun _ => True) (pnode_first_inline n) := by
  unfold pnode_first_inline
  split
  · trivial
  · split
    · exact fun h => by cases h
    · trivial

theorem pnode_parent_is_fwd {ctx : pctx} {n : pnode} {k : nodeid}  {g : Bool} :
    pnode_parent_is ctx n k = .ok g ↔ (Except.ok g = pnode_parent_is ctx n k ∧ True) :=
  ⟨fun h => ⟨h.symm, by
    have h1 := pnode_parent_is_runs ctx n k 
    rw [h] at h1
    exact h1⟩, fun h => h.1.symm⟩

theorem pnode_parent_is_efwd {ctx : pctx} {n : pnode} {k : nodeid}  {e : fault} :
    pnode_parent_is ctx n k = .error e ↔ (Except.error e = pnode_parent_is ctx n k ∧ e ≠ fault.fuel) :=
  ⟨fun h => ⟨h.symm, by
    have h1 := pnode_parent_is_runs ctx n k 
    rw [h] at h1
    exact h1⟩, fun h => h.1.symm⟩

theorem pnode_first_inline_fwd {n : pnode}  {g : Bool} :
    pnode_first_inline n = .ok g ↔ (Except.ok g = pnode_first_inline n ∧ True) :=
  ⟨fun h => ⟨h.symm, by
    have h1 := pnode_first_inline_runs n 
    rw [h] at h1
    exact h1⟩, fun h => h.1.symm⟩

theorem pnode_first_inline_efwd {n : pnode}  {e : fault} :
    pnode_first_inline n = .error e ↔ (Except.error e = pnode_first_inline n ∧ e ≠ fault.fuel) :=
  ⟨fun h => ⟨h.symm, by
    have h1 := pnode_first_inline_runs n 
    rw [h] at h1
    exact h1⟩, fun h => h.1.symm⟩

theorem pnode_printtext_runs (f : format) (ctx : pctx) (n : pnode) {k : Nat} (hn : n.small k) :
    Runs (fun r => r.1.level = f.level ∧ r.1.nofill = f.nofill ∧ r.2.1.node = n.node ∧
      r.2.1.parent = n.parent ∧ r.2.1.small k ∧ next_kept ctx.next r.2.2)
      (pnode_printtext f ctx n) := by
  generalize hx : pnode_printtext f ctx n = x
  unfold pnode_printtext at hx
  try simp only [bind, Except.bind, pure, Except.pure, Except.map] at hx
  repeat' (first | split at hx | dsimp only at hx)
  all_goals subst hx
  all_goals try (repeat' split at *)
  all_goals try simp only [
      pnode_printtext_pf_fwd, pnode_printtext_pf_efwd, pnode_printtext_sep_fwd,
      pnode_printtext_sep_efwd, macro_addarg_fwd, macro_addarg_efwd, print_text_fwd,
      print_text_efwd, pnode_parent_is_fwd, pnode_parent_is_efwd, pnode_printtext_head_fwd] at *
  all_goals first
    | (simp only [Runs.ok_iff, Runs.error_iff]
       decide)
    | (simp only [Runs.ok_iff, Runs.error_iff]
       simp only [
        apply_ite format.level, apply_ite format.nofill, ite_self, ne_eq, not_false_eq_true,
        and_self, and_true, true_and, not_true_eq_false, if_true, if_false, next_kept_none,
        next_kept_some, next_kept_refl, pnode.setFlags_nodes_length,
        pnode_first_flags_nodes_length, sub_cons_cons, sub_cons, sub_refl, sub_nil, sub_tail,
        pnode.kept_iff, pnode.small_setChildq, pnode.small_setChildq_nil, pnode.small_of_nil,
        pnode.small_first_flags, pnode.small_setFlags, pnode_first_flags_node,
        pnode_first_flags_parent, pnode.setChildq_node, pnode.setChildq_parent,
        pnode.setChildq_childq, pnode.setFlags_node, pnode.setFlags_parent,
        pnode.setFlags_childq, format_puts_level, format_puts_nofill, format_putc_level,
        format_putc_nofill, para_check_level, para_check_nofill, macro_open_line_level,
        macro_open_line_nofill, macro_open_level, macro_open_nofill, macro_close_level,
        macro_close_nofill, macro_line_level, macro_line_nofill, macro_addarg_loop_level,
        macro_addarg_loop_nofill, macro_enclose_if_level, macro_enclose_if_nofill,
        macro_unclose_level, macro_unclose_nofill, macro_unclose_if_level,
        macro_unclose_if_nofill, macro_display_level, macro_display_nofill,
        pnode_printsystemitem_level, pnode_printsystemitem_nofill, pnode_printtext_punct_level,
        pnode_printtext_punct_nofill, pnode_printtext_head_level, pnode_printtext_head_nofill, *]
       done)
    | (simp only [Runs.ok_iff]
       repeat' split at *
       all_goals try simp only [
          pnode_printtext_pf_fwd, pnode_printtext_pf_efwd, pnode_printtext_sep_fwd,
          pnode_printtext_sep_efwd, macro_addarg_fwd, macro_addarg_efwd, print_text_fwd,
          print_text_efwd, pnode_parent_is_fwd, pnode_parent_is_efwd, pnode_printtext_head_fwd,
          Except.ok.injEq, Except.error.injEq, Prod.mk.injEq, Option.some.injEq] at *
       all_goals try subst_vars
       all_goals first
         | (simp only [
            apply_ite format.level, apply_ite format.nofill, ite_self, ne_eq, not_false_eq_true,
            and_self, and_true, true_and, not_true_eq_false, if_true, if_false, next_kept_none,
            next_kept_some, next_kept_refl, pnode.setFlags_nodes_length,
            pnode_first_flags_nodes_length, sub_cons_cons, sub_cons, sub_refl, sub_nil, sub_tail,
            pnode.kept_iff, pnode.small_setChildq, pnode.small_setChildq_nil, pnode.small_of_nil,
            pnode.small_first_flags, pnode.small_setFlags, pnode_first_flags_node,
            pnode_first_flags_parent, pnode.setChildq_node, pnode.setChildq_parent,
            pnode.setChildq_childq, pnode.setFlags_node, pnode.setFlags_parent,
            pnode.setFlags_childq, format_puts_level, format_puts_nofill, format_putc_level,
            format_putc_nofill, para_check_level, para_check_nofill, macro_open_line_level,
            macro_open_line_nofill, macro_open_level, macro_open_nofill, macro_close_level,
            macro_close_nofill, macro_line_level, macro_line_nofill, macro_addarg_loop_level,
            macro_addarg_loop_nofill, macro_enclose_if_level, macro_enclose_if_nofill,
            macro_unclose_level, macro_unclose_nofill, macro_unclose_if_level,
            macro_unclose_if_nofill, macro_display_level, macro_display_nofill,
            pnode_printsystemitem_level, pnode_printsystemitem_nofill,
            pnode_printtext_punct_level, pnode_printtext_punct_nofill,
            pnode_printtext_head_level, pnode_printtext_head_nofill, *]
            done)
         | (simp_all
            done)
       done)
    | (simp only [Runs.error_iff]
       intro hh
       subst hh
       repeat' split at *
       all_goals try simp only [
          pnode_printtext_pf_fwd, pnode_printtext_pf_efwd, pnode_printtext_sep_fwd,
          pnode_printtext_sep_efwd, macro_addarg_fwd, macro_addarg_efwd, print_text_fwd,
          print_text_efwd, pnode_parent_is_fwd, pnode_parent_is_efwd, pnode_printtext_head_fwd] at *
       all_goals try subst_vars
       all_goals first
         | (simp at *
            done)
         | (simp_all
            done)
       done)
    | (simp_all
       done)
    | (simp only [Runs.ok_iff, Runs.error_iff]
       simp_all only [
        apply_ite format.level, apply_ite format.nofill, ite_self, ne_eq, not_false_eq_true,
        and_self, and_true, true_and, not_true_eq_false, if_true, if_false, next_kept_none,
        next_kept_some, next_kept_refl, pnode.setFlags_nodes_length,
        pnode_first_flags_nodes_length, sub_cons_cons, sub_cons, sub_refl, sub_nil, sub_tail,
        pnode.kept_iff, pnode.small_setChildq, pnode.small_setChildq_nil, pnode.small_of_nil,
        pnode.small_first_flags, pnode.small_setFlags, pnode_first_flags_node,
        pnode_first_flags_parent, pnode.setChildq_node, pnode.setChildq_parent,
        pnode.setChildq_childq, pnode.setFlags_node, pnode.setFlags_parent,
        pnode.setFlags_childq, format_puts_level, format_puts_nofill, format_putc_level,
        format_putc_nofill, para_check_level, para_check_nofill, macro_open_line_level,
        macro_open_line_nofill, macro_open_level, macro_open_nofill, macro_close_level,
        macro_close_nofill, macro_line_level, macro_line_nofill, macro_addarg_loop_level,
        macro_addarg_loop_nofill, macro_enclose_if_level, macro_enclose_if_nofill,
        macro_unclose_level, macro_unclose_nofill, macro_unclose_if_level,
        macro_unclose_if_nofill, macro_display_level, macro_display_nofill,
        pnode_printsystemitem_level, pnode_printsystemitem_nofill, pnode_printtext_punct_level,
        pnode_printtext_punct_nofill, pnode_printtext_head_level, pnode_printtext_head_nofill]
       done)
    | (simp only [Runs.ok_iff, Runs.error_iff]
       repeat' split at *
       all_goals try simp only [
          pnode_printtext_pf_fwd, pnode_printtext_pf_efwd, pnode_printtext_sep_fwd,
          pnode_printtext_sep_efwd, macro_addarg_fwd, macro_addarg_efwd, print_text_fwd,
          print_text_efwd, pnode_parent_is_fwd, pnode_parent_is_efwd, pnode_printtext_head_fwd,
          Except.ok.injEq, Except.error.injEq, Prod.mk.injEq, Option.some.injEq] at *
       all_goals try subst_vars
       all_goals simp_all only [
        apply_ite format.level, apply_ite format.nofill, ite_self, ne_eq, not_false_eq_true,
        and_self, and_true, true_and, not_true_eq_false, if_true, if_false, next_kept_none,
        next_kept_some, next_kept_refl, pnode.setFlags_nodes_length,
        pnode_first_flags_nodes_length, sub_cons_cons, sub_cons, sub_refl, sub_nil, sub_tail,
        pnode.kept_iff, pnode.small_setChildq, pnode.small_setChildq_nil, pnode.small_of_nil,
        pnode.small_first_flags, pnode.small_setFlags, pnode_first_flags_node,
        pnode_first_flags_parent, pnode.setChildq_node, pnode.setChildq_parent,
        pnode.setChildq_childq, pnode.setFlags_node, pnode.setFlags_parent,
        pnode.setFlags_childq, format_puts_level, format_puts_nofill, format_putc_level,
        format_putc_nofill, para_check_level, para_check_nofill, macro_open_line_level,
        macro_open_line_nofill, macro_open_level, macro_open_nofill, macro_close_level,
        macro_close_nofill, macro_line_level, macro_line_nofill, macro_addarg_loop_level,
        macro_addarg_loop_nofill, macro_enclose_if_level, macro_enclose_if_nofill,
        macro_unclose_level, macro_unclose_nofill, macro_unclose_if_level,
        macro_unclose_if_nofill, macro_display_level, macro_display_nofill,
        pnode_printsystemitem_level, pnode_printsystemitem_nofill, pnode_printtext_punct_level,
        pnode_printtext_punct_nofill, pnode_printtext_head_level, pnode_printtext_head_nofill]
       done)


theorem pnode_foreach_runs {k : Nat} (step : Bool → printer) (up : pnode)
    (hstep : ∀ first, Restores k (step first)) :
    ∀ (rest : List pnode) (first : Bool) (f : format) (prev : Option pnode) (n : pnode),
      n.nodes.length ≤ k → (∀ c ∈ rest, c.nodes.length ≤ k) →
      Runs (fun r => r.1.level = f.level ∧ r.1.nofill = f.nofill)
        (pnode_foreach step up first f prev n rest) := by
  intro rest
  induction rest with
  | nil =>
    intro first f prev n hn hr
    rw [pnode_foreach]
    have h1 := hstep first f ⟨some up.node, some up.addr, prev, none⟩ n hn
    generalize step first f ⟨some up.node, some up.addr, prev, none⟩ n = y at h1 ⊢
    rcases y with e | ⟨f1, n1, nx⟩
    · exact h1
    · exact ⟨h1.1, h1.2.1⟩
  | cons m rest ih =>
    intro first f prev n hn hr
    rw [pnode_foreach]
    have h1 := hstep first f ⟨some up.node, some up.addr, prev, some m⟩ n hn
    generalize step first f ⟨some up.node, some up.addr, prev, some m⟩ n = y at h1 ⊢
    rcases y with e | ⟨f1, n1, nx⟩
    · exact h1
    · obtain ⟨a1, a2, a3⟩ := h1
      dsimp only at a1 a2 a3 ⊢
      have hm : (nx.getD m).nodes.length ≤ k := by
        cases nx with
        | none => exact hr m (List.mem_cons_self _ _)
        | some x =>
          show x.nodes.length ≤ k
          rw [(next_kept_some m x).1 a3]
          exact hr m (List.mem_cons_self _ _)
      have h2 := ih false f1 (some n1) (nx.getD m) hm
        (fun c hc => hr c (List.mem_cons_of_mem _ hc))
      generalize pnode_foreach step up false f1 (some n1) (nx.getD m) rest = y at h2 ⊢
      rcases y with e | ⟨f2, l⟩
      · exact h2
      · exact ⟨h2.1.trans a1, h2.2.trans a2⟩

theorem pnode_children_runs {k : Nat} (step : Bool → printer)
    (hstep : ∀ first, Restores k (step first)) (f : format) (n : pnode) (hn : n.small k) :
    Runs (fun r => r.1.level = f.level ∧ r.1.nofill = f.nofill ∧ r.2.node = n.node ∧
      r.2.parent = n.parent) (pnode_children step f n) := by
  unfold pnode_children
  split
  · exact ⟨rfl, rfl, rfl, rfl⟩
  · rename_i c rest hc
    refine Runs.map_iff.2 (Runs.imp (pnode_foreach_runs step n hstep rest true f none c
      (hn c (by rw [hc]; exact List.mem_cons_self _ _))
      (fun x hx => hn x (by rw [hc]; exact List.mem_cons_of_mem _ hx))) ?_)
    intro r hr
    exact ⟨hr.1, hr.2, pnode.setChildq_node _ _, pnode.setChildq_parent _ _⟩

theorem Restores.print {k : Nat} {print : printer} (hp : Restores k print) :
    ∀ (b : Bool), Restores k (fun g ctx nc => print g ctx nc) :=
  fun _ => hp

theorem Restores.pre {k : Nat} {print : printer} (hp : Restores k print)
    (t : format → pnode → format)
    (ht : ∀ g nc, (t g nc).level = g.level ∧ (t g nc).nofill = g.nofill) :
    Restores k (fun g ctx nc => print (t g nc) ctx nc) := by
  intro g ctx nc hnc
  refine Runs.imp (hp (t g nc) ctx nc hnc) ?_
  intro r hr
  exact ⟨hr.1.trans (ht g nc).1, hr.2.1.trans (ht g nc).2, hr.2.2⟩


theorem Runs.bind2 {α β : Type} {P : α → Prop} {Q : β → Prop} {x : Except fault α}
    {g : α → Except fault β} (hx : Runs P x) (h : ∀ a, P a → Runs Q (g a)) :
    Runs Q (x >>= g) :=
  Runs.bind_iff.2 (Runs.imp hx h)

theorem Runs.skip {β : Type} {Q : β → Prop} {g : PUnit → Except fault β}
    (h : Runs Q (g PUnit.unit)) : Runs Q (pure PUnit.unit >>= g) := h

theorem pnode_unlinksub_small (k : Nat) (n : pnode) :
    Runs (fun r => r.node = n.node ∧ r.parent = n.parent ∧ r.small k) (pnode_unlinksub n) :=
  Runs.imp (pnode_unlinksub_runs n)
    (fun r hr => ⟨hr.1, hr.2.1, (pnode.small_of_nil hr.2.2).2 trivial⟩)

theorem pnode_printmathfenced_runs {k : Nat} {print : printer} (hp : Restores k print)
    (f : format) (n : pnode) (hn : n.small k) :
    Runs (fun r => r.1.level = f.level ∧ r.1.nofill = f.nofill ∧ r.2.node = n.node ∧
      r.2.parent = n.parent ∧ r.2.small k) (pnode_printmathfenced print f n) := by
  unfold pnode_printmathfenced
  dsimp only
  split
  · exact fun h => by cases h
  · rename_i c rest hc
    refine Runs.bind2 (pnode_foreach_runs _ n
      (fun first => Restores.pre hp (fun g _ => if first then g else g.putc ',')
        (fun g _ => by split <;> exact ⟨rfl, rfl⟩)) rest true _ none c
      (hn c (by rw [hc]; exact List.mem_cons_self _ _))
      (fun x hx => hn x (by rw [hc]; exact List.mem_cons_of_mem _ hx))) ?_
    rintro ⟨f2, cs⟩ ⟨a1, a2⟩
    refine Runs.bind2 (pnode_unlinksub_small k (n.setChildq cs)) ?_
    rintro n1 ⟨b1, b2, b3⟩
    exact ⟨a1, a2, b1.trans (pnode.setChildq_node _ _), b2.trans (pnode.setChildq_parent _ _), b3⟩

theorem next_kept_getD {k : Nat} {m : pnode} {nx : Option pnode} (h : next_kept (some m) nx)
    (hm : m.nodes.length ≤ k) : (nx.getD m).nodes.length ≤ k := by
  cases nx with
  | none => exact hm
  | some x =>
    show x.nodes.length ≤ k
    rw [(next_kept_some m x).1 h]
    exact hm

theorem pnode_printmath_runs {k : Nat} {print : printer} (hp : Restores k print)
    (f : format) (n : pnode) (hn : n.small k) :
    Runs (fun r => r.1.level = f.level ∧ r.1.nofill = f.nofill ∧ r.2.node = n.node ∧
      r.2.parent = n.parent ∧ r.2.small k) (pnode_printmath print f n) := by
  unfold pnode_printmath
  split
  · exact fun h => by cases h
  · rename_i c rest hc
    have hc1 := hn c (by rw [hc]; exact List.mem_cons_self _ _)
    refine Runs.bind2 (hp f _ c hc1) ?_
    rintro ⟨f1, c1, nx⟩ ⟨a1, a2, a3⟩
    dsimp only at a1 a2 a3 ⊢
    cases rest with
    | nil =>
      dsimp only
      refine Runs.bind2 (pnode_unlinksub_small k _) ?_
      rintro n1 ⟨b1, b2, b3⟩
      refine ⟨?_, ?_, b1.trans (pnode.setChildq_node _ _),
        b2.trans (pnode.setChildq_parent _ _), b3⟩
      · show (match n.node with
          | NODE_MML_MSUP => f1.puts " sup ".toList
          | NODE_MML_MFRAC => f1.puts " over ".toList
          | NODE_MML_MSUB => f1.puts " sub ".toList
          | _ => f1).level = f.level
        split <;> exact a1
      · show (match n.node with
          | NODE_MML_MSUP => f1.puts " sup ".toList
          | NODE_MML_MFRAC => f1.puts " over ".toList
          | NODE_MML_MSUB => f1.puts " sub ".toList
          | _ => f1).nofill = f.nofill
        split <;> exact a2
    | cons d rest1 =>
      dsimp only
      have hd := hn d (by rw [hc]; exact List.mem_cons_of_mem _ (List.mem_cons_self _ _))
      refine Runs.bind2 (hp _ _ (nx.getD d) (next_kept_getD a3 hd)) ?_
      rintro ⟨f3, d1, nx1⟩ ⟨b1, b2, b3⟩
      dsimp only at b1 b2 ⊢
      refine Runs.bind2 (pnode_unlinksub_small k _) ?_
      rintro n1 ⟨e1, e2, e3⟩
      refine ⟨b1.trans ?_, b2.trans ?_, e1.trans (pnode.setChildq_node _ _),
        e2.trans (pnode.setChildq_parent _ _), e3⟩
      · split <;> exact a1
      · split <;> exact a2

theorem macro_enclose_frame (f : format) (one open_ : String) :
    (macro_enclose f one open_).1.level = f.level ∧
      (macro_enclose f one open_).1.nofill = f.nofill :=
  ⟨macro_enclose_if_level _ _ _ _, macro_enclose_if_nofill _ _ _ _⟩

theorem pnode_printarg_runs {k : Nat} {print : printer} (hp : Restores k print)
    (f : format) (n : pnode) (hn : n.small k) :
    Runs (fun r => r.1.level = f.level ∧ r.1.nofill = f.nofill ∧ r.2.node = n.node ∧
      r.2.parent = n.parent ∧ r.2.small k) (pnode_printarg print f n) := by
  unfold pnode_printarg
  generalize pnode_choice n = ch
  obtain ⟨isop, isrep⟩ := ch
  dsimp only
  have h1 : (if isop = true then macro_enclose f "Op" "Oo" else (f, false)).1.level = f.level ∧
      (if isop = true then macro_enclose f "Op" "Oo" else (f, false)).1.nofill = f.nofill := by
    split
    · exact macro_enclose_frame _ _ _
    · exact ⟨rfl, rfl⟩
  generalize (if isop = true then macro_enclose f "Op" "Oo" else (f, false)) = p1 at h1 ⊢
  obtain ⟨f1, was_impl⟩ := p1
  dsimp only at h1 ⊢
  refine Runs.bind2 (pnode_children_runs _
    (fun _ => Restores.pre hp (fun g nc => if nc.node = NODE_TEXT then macro_open g "Ar".toList
      else g) (fun g nc => by
        dsimp only
        split
        · exact ⟨macro_open_level _ _, macro_open_nofill _ _⟩
        · exact ⟨rfl, rfl⟩)) f1 n hn) ?_
  rintro ⟨f2, n1⟩ ⟨a1, a2, a3, a4⟩
  dsimp only at a1 a2 a3 a4 ⊢
  split <;>
    (refine Runs.bind2 (P := fun (g : format) => g.level = f.level ∧ g.nofill = f.nofill) ?_ ?_
     · first
         | exact Runs.imp (macro_addarg_runs _ _ _)
             (fun g hg => ⟨(hg.1.trans a1).trans h1.1, (hg.2.trans a2).trans h1.2⟩)
         | exact ⟨a1.trans h1.1, a2.trans h1.2⟩
     · rintro f3 ⟨b1, b2⟩
       refine Runs.bind2 (pnode_unlinksub_small k n1) ?_
       rintro n2 ⟨e1, e2, e3⟩
       refine ⟨?_, ?_, e1.trans a3, e2.trans a4, e3⟩
       · show (if isop = true then macro_unclose f3 was_impl "Oc" else f3).level = f.level
         split
         · rw [macro_unclose_level]
           exact b1
         · exact b1
       · show (if isop = true then macro_unclose f3 was_impl "Oc" else f3).nofill = f.nofill
         split
         · rw [macro_unclose_nofill]
           exact b2
         · exact b2)

theorem pnode_printgroup_runs {k : Nat} {print : printer} (hp : Restores k print)
    (f : format) (n : pnode) (hn : n.small k) :
    Runs (fun r => r.1.level = f.level ∧ r.1.nofill = f.nofill ∧ r.2.node = n.node ∧
      r.2.parent = n.parent ∧ r.2.small k) (pnode_printgroup print f n) := by
  unfold pnode_printgroup
  generalize pnode_choice n = ch
  obtain ⟨isop, isrep⟩ := ch
  dsimp only
  have h1 : (if isop = true then macro_enclose f "Op" "Oo"
      else if isrep = true then macro_enclose f "Brq" "Bro" else (f, false)).1.level = f.level ∧
      (if isop = true then macro_enclose f "Op" "Oo"
      else if isrep = true then macro_enclose f "Brq" "Bro" else (f, false)).1.nofill =
        f.nofill := by
    split
    · exact macro_enclose_frame _ _ _
    · split
      · exact macro_enclose_frame _ _ _
      · exact ⟨rfl, rfl⟩
  generalize (if isop = true then macro_enclose f "Op" "Oo"
      else if isrep = true then macro_enclose f "Brq" "Bro" else (f, false)) = p1 at h1 ⊢
  obtain ⟨f1, was_impl⟩ := p1
  dsimp only at h1 ⊢
  refine Runs.bind2 (pnode_children_runs _ (fun first => by
    intro g ctx nc hnc
    dsimp only
    split
    · refine Runs.bind2 (macro_addarg_runs _ _ _) ?_
      rintro y ⟨b1, b2⟩
      exact Runs.imp (hp y ctx nc hnc) (fun r hr => ⟨hr.1.trans b1, hr.2.1.trans b2, hr.2.2⟩)
    · refine Runs.bind_iff.2 (Runs.pure_iff.2 ?_)
      exact hp g ctx nc hnc) f1 n hn) ?_
  rintro ⟨f2, n1⟩ ⟨a1, a2, a3, a4⟩
  dsimp only at a1 a2 a3 a4 ⊢
  have h3 : (if isop = true then macro_unclose f2 was_impl "Oc"
      else if isrep = true then macro_unclose f2 was_impl "Brc" else f2).level = f.level ∧
      (if isop = true then macro_unclose f2 was_impl "Oc"
      else if isrep = true then macro_unclose f2 was_impl "Brc" else f2).nofill = f.nofill := by
    split
    · exact ⟨(macro_unclose_level _ _ _).trans (a1.trans h1.1),
        (macro_unclose_nofill _ _ _).trans (a2.trans h1.2)⟩
    · split
      · exact ⟨(macro_unclose_level _ _ _).trans (a1.trans h1.1),
          (macro_unclose_nofill _ _ _).trans (a2.trans h1.2)⟩
      · exact ⟨a1.trans h1.1, a2.trans h1.2⟩
  generalize (if isop = true then macro_unclose f2 was_impl "Oc"
      else if isrep = true then macro_unclose f2 was_impl "Brc" else f2) = f3 at h3 ⊢
  split <;>
    (refine Runs.bind2 (P := fun (g : format) => g.level = f.level ∧ g.nofill = f.nofill) ?_ ?_
     · first
         | exact Runs.imp (macro_addarg_runs _ _ _)
             (fun g hg => ⟨hg.1.trans h3.1, hg.2.trans h3.2⟩)
         | exact h3
     · rintro f4 ⟨b1, b2⟩
       refine Runs.bind2 (pnode_unlinksub_small k n1) ?_
       rintro n2 ⟨e1, e2, e3⟩
       exact ⟨b1, b2, e1.trans a3, e2.trans a4, e3⟩)


theorem pnode_printlinkend_runs {k : Nat} {print : printer} (hp : Restores k print)
    (f : format) (n : pnode) (uri : cstring) (hn : n.small k) :
    Runs (fun r => r.1.level = f.level ∧ r.1.nofill = f.nofill ∧ r.2.node = n.node ∧
      r.2.parent = n.parent ∧ r.2.small k) (pnode_printlinkend print f n uri) := by
  unfold pnode_printlinkend
  refine Runs.bind2 (P := fun (r : format × pnode × Bool) => r.1.level = f.level ∧
    r.1.nofill = f.nofill ∧ r.2.1.node = n.node ∧ r.2.1.parent = n.parent) ?_ ?_
  · split
    · exact Runs.map_iff.2 (Runs.imp (pnode_children_runs _ (fun _ => hp) f n hn)
        (fun r hr => hr))
    · split
      · refine Runs.map_iff.2 ?_
        split
        · exact Runs.imp (macro_addarg_runs _ _ _) (fun g hg => ⟨hg.1, hg.2, rfl, rfl⟩)
        · exact Runs.imp (print_text_runs _ _ _) (fun g hg => ⟨hg.1, hg.2, rfl, rfl⟩)
      · exact ⟨rfl, rfl, rfl, rfl⟩
  · rintro ⟨f1, n1, text⟩ ⟨a1, a2, a3, a4⟩
    dsimp only at a1 a2 a3 a4 ⊢
    refine Runs.bind2 (macro_addarg_runs _ _ _) ?_
    rintro f3 ⟨b1, b2⟩
    simp only [
        apply_ite format.level, apply_ite format.nofill, ite_self, format_puts_level,
        format_puts_nofill, format_putc_level, format_putc_nofill, para_check_level,
        para_check_nofill, macro_open_line_level, macro_open_line_nofill, macro_open_level,
        macro_open_nofill, macro_close_level, macro_close_nofill, macro_line_level,
        macro_line_nofill, macro_addarg_loop_level, macro_addarg_loop_nofill,
        macro_enclose_if_level, macro_enclose_if_nofill, macro_unclose_level,
        macro_unclose_nofill, macro_unclose_if_level, macro_unclose_if_nofill,
        macro_display_level, macro_display_nofill, pnode_printsystemitem_level,
        pnode_printsystemitem_nofill, pnode_printtext_punct_level,
        pnode_printtext_punct_nofill, pnode_printtext_head_level, pnode_printtext_head_nofill,
        a1, a2] at b1 b2
    refine Runs.bind2 (pnode_unlinksub_small k n1) ?_
    rintro n2 ⟨e1, e2, e3⟩
    refine ⟨?_, ?_, e1.trans a3, e2.trans a4, e3⟩
    · show (if text = true ∧ f3.flags.impl = true then macro_open f3 "Pc".toList
        else f3).level = f.level
      simp only [
          apply_ite format.level, apply_ite format.nofill, ite_self, format_puts_level,
          format_puts_nofill, format_putc_level, format_putc_nofill, para_check_level,
          para_check_nofill, macro_open_line_level, macro_open_line_nofill, macro_open_level,
          macro_open_nofill, macro_close_level, macro_close_nofill, macro_line_level,
          macro_line_nofill, macro_addarg_loop_level, macro_addarg_loop_nofill,
          macro_enclose_if_level, macro_enclose_if_nofill, macro_unclose_level,
          macro_unclose_nofill, macro_unclose_if_level, macro_unclose_if_nofill,
          macro_display_level, macro_display_nofill, pnode_printsystemitem_level,
          pnode_printsystemitem_nofill, pnode_printtext_punct_level,
          pnode_printtext_punct_nofill, pnode_printtext_head_level,
          pnode_printtext_head_nofill, b1]
    · show (if text = true ∧ f3.flags.impl = true then macro_open f3 "Pc".toList
        else f3).nofill = f.nofill
      simp only [
          apply_ite format.level, apply_ite format.nofill, ite_self, format_puts_level,
          format_puts_nofill, format_putc_level, format_putc_nofill, para_check_level,
          para_check_nofill, macro_open_line_level, macro_open_line_nofill, macro_open_level,
          macro_open_nofill, macro_close_level, macro_close_nofill, macro_line_level,
          macro_line_nofill, macro_addarg_loop_level, macro_addarg_loop_nofill,
          macro_enclose_if_level, macro_enclose_if_nofill, macro_unclose_level,
          macro_unclose_nofill, macro_unclose_if_level, macro_unclose_if_nofill,
          macro_display_level, macro_display_nofill, pnode_printsystemitem_level,
          pnode_printsystemitem_nofill, pnode_printtext_punct_level,
          pnode_printtext_punct_nofill, pnode_printtext_head_level,
          pnode_printtext_head_nofill, b2]

theorem pnode_printlink_runs {k : Nat} {print : printer} (hp : Restores k print)
    (f : format) (n : pnode) (hn : n.small k) :
    Runs (fun r => r.1.level = f.level ∧ r.1.nofill = f.nofill ∧ r.2.node = n.node ∧
      r.2.parent = n.parent ∧ r.2.small k) (pnode_printlink print f n) := by
  unfold pnode_printlink
  split
  · exact pnode_printlinkend_runs hp f n _ hn
  · dsimp only
    split
    · exact ⟨rfl, rfl, rfl, rfl, hn⟩
    · refine Runs.bind2 (macro_addarg_runs _ _ _) ?_
      rintro f1 ⟨a1, a2⟩
      simp only [
          apply_ite format.level, apply_ite format.nofill, ite_self, format_puts_level,
          format_puts_nofill, format_putc_level, format_putc_nofill, para_check_level,
          para_check_nofill, macro_open_line_level, macro_open_line_nofill, macro_open_level,
          macro_open_nofill, macro_close_level, macro_close_nofill, macro_line_level,
          macro_line_nofill, macro_addarg_loop_level, macro_addarg_loop_nofill,
          macro_enclose_if_level, macro_enclose_if_nofill, macro_unclose_level,
          macro_unclose_nofill, macro_unclose_if_level, macro_unclose_if_nofill,
          macro_display_level, macro_display_nofill, pnode_printsystemitem_level,
          pnode_printsystemitem_nofill, pnode_printtext_punct_level,
          pnode_printtext_punct_nofill, pnode_printtext_head_level, pnode_printtext_head_nofill] at a1 a2
      split <;>
        (refine Runs.bind2 (P := fun (g : format) => g.level = f.level ∧ g.nofill = f.nofill)
           ?_ ?_
         · first
             | exact Runs.imp (macro_addnode_runs _ _ _)
                 (fun g hg => ⟨hg.1.trans a1, hg.2.trans a2⟩)
             | exact ⟨a1, a2⟩
         · rintro f2 ⟨b1, b2⟩
           refine Runs.bind2 (pnode_unlinksub_small k n) ?_
           rintro n2 ⟨e1, e2, e3⟩
           exact ⟨b1, b2, e1, e2, e3⟩)

theorem pnode_printterms_runs {k : Nat} {print : printer} (hp : Restores k print) (up : pnode) :
    ∀ (rest : List pnode) (f : format) (comma : Option aflags) (prev : Option pnode) (nc : pnode),
      nc.nodes.length ≤ k → (∀ c ∈ rest, c.nodes.length ≤ k) →
      Runs (fun r => r.1.level = f.level ∧ r.1.nofill = f.nofill ∧
        ∀ c ∈ r.2, c.nodes.length ≤ k) (pnode_printterms print up f comma prev nc rest) := by
  intro rest
  induction rest with
  | nil =>
    intro f comma prev nc hnc hr
    rw [pnode_printterms.eq_def]
    dsimp only
    split
    · refine ⟨rfl, rfl, ?_⟩
      intro c hc
      rcases List.mem_singleton.1 hc with rfl
      exact hnc
    · refine Runs.bind2 (P := fun (g : format) => g.level = f.level ∧ g.nofill = f.nofill)
        ?_ ?_
      · split
        · exact ⟨rfl, rfl⟩
        · exact ⟨rfl, rfl⟩
        · exact print_text_runs _ _ _
        · exact macro_addarg_runs _ _ _
      · rintro f1 ⟨a1, a2⟩
        refine Runs.bind2 (P := fun (_ : aflags) => True) ?_ ?_
        · split
          · trivial
          · split
            · exact fun h => by cases h
            · trivial
        · rintro comma1 -
          refine Runs.bind2 (hp _ _ nc hnc) ?_
          rintro ⟨f2, n1, nx⟩ ⟨b1, b2, b3⟩
          dsimp only at b1 b2 b3 ⊢
          split
          · exact ⟨b1.trans a1, b2.trans a2, fun c hc => by cases hc⟩
          · exact fun h => by cases h
  | cons m rest ih =>
    intro f comma prev nc hnc hr
    rw [pnode_printterms.eq_def]
    dsimp only
    have hm := hr m (List.mem_cons_self _ _)
    have hrest : ∀ c ∈ rest, c.nodes.length ≤ k := fun c hc => hr c (List.mem_cons_of_mem _ hc)
    split
    · refine Runs.map_iff.2 (Runs.imp (ih f comma _ _ hm hrest) ?_)
      rintro r ⟨c1, c2, c3⟩
      refine ⟨c1, c2, ?_⟩
      intro c hc
      rcases List.mem_append.1 hc with h | h
      · rcases List.mem_singleton.1 h with rfl
        exact hnc
      · exact c3 c h
    · refine Runs.bind2 (P := fun (g : format) => g.level = f.level ∧ g.nofill = f.nofill)
        ?_ ?_
      · split
        · exact ⟨rfl, rfl⟩
        · exact ⟨rfl, rfl⟩
        · exact print_text_runs _ _ _
        · exact macro_addarg_runs _ _ _
      · rintro f1 ⟨a1, a2⟩
        refine Runs.bind2 (P := fun (_ : aflags) => True) ?_ ?_
        · split
          · trivial
          · split
            · exact fun h => by cases h
            · trivial
        · rintro comma1 -
          refine Runs.bind2 (hp _ _ nc hnc) ?_
          rintro ⟨f2, n1, nx⟩ ⟨b1, b2, b3⟩
          dsimp only at b1 b2 b3 ⊢
          split
          · refine Runs.map_iff.2 (Runs.imp
              (ih f2 (some comma1) _ (nx.getD m) (next_kept_getD b3 hm) hrest) ?_)
            rintro r ⟨c1, c2, c3⟩
            exact ⟨(c1.trans b1).trans a1, (c2.trans b2).trans a2, c3⟩
          · exact fun h => by cases h

theorem pnode_printrest_runs {k : Nat} {print : printer} (hp : Restores k print) (up : pnode) :
    ∀ (rest : List pnode) (f : format) (nc : pnode),
      nc.nodes.length ≤ k → (∀ c ∈ rest, c.nodes.length ≤ k) →
      Runs (fun g => g.level = f.level ∧ g.nofill = f.nofill)
        (pnode_printrest print up f nc rest) := by
  intro rest
  induction rest with
  | nil =>
    intro f nc hnc hr
    rw [pnode_printrest]
    have h1 := hp f ⟨some up.node, some up.addr, none, none⟩ nc hnc
    generalize print f ⟨some up.node, some up.addr, none, none⟩ nc = y at h1 ⊢
    rcases y with e | ⟨f1, n1, nx⟩
    · exact h1
    · dsimp only
      split
      · exact ⟨h1.1, h1.2.1⟩
      · exact fun h => by cases h
  | cons m rest ih =>
    intro f nc hnc hr
    rw [pnode_printrest]
    have hm := hr m (List.mem_cons_self _ _)
    have hrest : ∀ c ∈ rest, c.nodes.length ≤ k := fun c hc => hr c (List.mem_cons_of_mem _ hc)
    have h1 := hp f ⟨some up.node, some up.addr, none, some m⟩ nc hnc
    generalize print f ⟨some up.node, some up.addr, none, some m⟩ nc = y at h1 ⊢
    rcases y with e | ⟨f1, n1, nx⟩
    · exact h1
    · obtain ⟨a1, a2, a3⟩ := h1
      dsimp only at a1 a2 a3 ⊢
      split
      · exact Runs.imp (ih f1 (nx.getD m) (next_kept_getD a3 hm) hrest)
          (fun g hg => ⟨hg.1.trans a1, hg.2.trans a2⟩)
      · exact fun h => by cases h

theorem pnode_printvarlistentry_runs {k : Nat} {print : printer} (hp : Restores k print)
    (f : format) (n : pnode) (hn : n.small k) :
    Runs (fun r => r.1.level = f.level ∧ r.1.nofill = f.nofill ∧ r.2.node = n.node ∧
      r.2.parent = n.parent ∧ r.2.small k) (pnode_printvarlistentry print f n) := by
  unfold pnode_printvarlistentry
  dsimp only
  refine Runs.bind2 (P := fun (r : format × List pnode) => r.1.level = f.level ∧
    r.1.nofill = f.nofill ∧ ∀ c ∈ r.2, c.nodes.length ≤ k) ?_ ?_
  · split
    · exact ⟨macro_open_level f "It".toList, macro_open_nofill f "It".toList,
        fun c hc => by cases hc⟩
    · rename_i c rest hc
      refine Runs.imp (pnode_printterms_runs hp n rest _ none none c
        (hn c (by rw [hc]; exact List.mem_cons_self _ _))
        (fun x hx => hn x (by rw [hc]; exact List.mem_cons_of_mem _ hx))) ?_
      rintro r ⟨c1, c2, c3⟩
      exact ⟨c1.trans (macro_open_level f "It".toList),
        c2.trans (macro_open_nofill f "It".toList), c3⟩
  · rintro ⟨f2, cs⟩ ⟨a1, a2, a3⟩
    dsimp only at a1 a2 a3 ⊢
    refine Runs.bind2 (P := fun (g : format) => g.level = f.level ∧ g.nofill = f.nofill) ?_ ?_
    · split
      · exact ⟨(macro_close_level _).trans a1, (macro_close_nofill _).trans a2⟩
      · rename_i c rest
        refine Runs.imp (pnode_printrest_runs hp n rest _ c
          (a3 c (List.mem_cons_self _ _)) (fun x hx => a3 x (List.mem_cons_of_mem _ hx))) ?_
        rintro g ⟨c1, c2⟩
        exact ⟨c1.trans ((macro_close_level _).trans a1),
          c2.trans ((macro_close_nofill _).trans a2)⟩
    · rintro f4 ⟨b1, b2⟩
      exact ⟨(macro_close_level _).trans b1, (macro_close_nofill _).trans b2,
        pnode.setChildq_node _ _, pnode.setChildq_parent _ _,
        (pnode.small_setChildq_nil n).2 trivial⟩

theorem pnode_printrow_runs {k : Nat} {print : printer} (hp : Restores k print)
    (f : format) (n : pnode) (hn : n.small k) :
    Runs (fun g => g.level = f.level ∧ g.nofill = f.nofill) (pnode_printrow print f n) := by
  unfold pnode_printrow
  refine Runs.map_iff.2 (Runs.imp (pnode_children_runs _
    (fun _ => Restores.pre hp (fun g _ => macro_line g "It".toList)
      (fun g _ => ⟨macro_line_level _ _, macro_line_nofill _ _⟩)) _ n hn) ?_)
  rintro r ⟨a1, a2, -, -⟩
  exact ⟨(macro_line_level _ _).trans (a1.trans (macro_line_level _ _)),
    (macro_line_nofill _ _).trans (a2.trans (macro_line_nofill _ _))⟩

theorem pnode_printtgroup1_loop_runs {k : Nat} {print : printer} (hp : Restores k print) :
    ∀ (fuel : Nat) (f : format) (n : pnode), n.nodes.length < fuel → n.small k →
      Runs (fun r => r.1.level = f.level ∧ r.1.nofill = f.nofill ∧ r.2.node = n.node ∧
        r.2.parent = n.parent ∧ r.2.small k) (pnode_printtgroup1_loop print fuel f n) := by
  intro fuel
  induction fuel with
  | zero =>
    intro f n h
    omega
  | succ fuel ih =>
    intro f n hf hn
    rw [pnode_printtgroup1_loop]
    cases ht : pnode_takebelow_chk NODE_ENTRY n with
    | none => exact ⟨rfl, rfl, rfl, rfl, hn⟩
    | some x =>
      obtain ⟨nc, n1, ok, ctx⟩ := x
      obtain ⟨e1, e2, e3, e4⟩ := pnode_takebelow_chk_size _ _ _ _ _ ht
      obtain ⟨e5, e6⟩ := e4 k hn
      dsimp only
      have h1 := hp { macro_line f "It".toList with parastate := PARA_HAVE } ctx nc e6
      generalize print { macro_line f "It".toList with parastate := PARA_HAVE } ctx nc = y
        at h1 ⊢
      rcases y with e | ⟨f1, m1, nx⟩
      · exact h1
      · obtain ⟨a1, a2, -⟩ := h1
        dsimp only at a1 a2 ⊢
        rw [macro_line_level] at a1
        rw [macro_line_nofill] at a2
        split
        · have hlt : 0 < nc.nodes.length := by
            rw [pnode.nodes_length_eq]
            omega
          refine Runs.imp (ih { f1 with parastate := PARA_HAVE } n1 (by omega) e5) ?_
          rintro r ⟨c1, c2, c3, c4, c5⟩
          exact ⟨c1.trans a1, c2.trans a2, c3.trans e2, c4.trans e3, c5⟩
        · exact fun h => by cases h

theorem pnode_printtgroup1_runs {k : Nat} {print : printer} (hp : Restores k print)
    (f : format) (n : pnode) (hn : n.small k) :
    Runs (fun r => r.1.level = f.level ∧ r.1.nofill = f.nofill ∧ r.2.node = n.node ∧
      r.2.parent = n.parent ∧ r.2.small k) (pnode_printtgroup1 print f n) := by
  unfold pnode_printtgroup1
  refine Runs.bind2 (pnode_printtgroup1_loop_runs hp _ _ n (Nat.lt_succ_self _) hn) ?_
  rintro ⟨f1, n1⟩ ⟨a1, a2, a3, a4, a5⟩
  dsimp only at a1 a2 a3 a4 a5 ⊢
  rw [macro_line_level] at a1
  rw [macro_line_nofill] at a2
  refine Runs.bind2 (pnode_unlinksub_small k n1) ?_
  rintro n2 ⟨b1, b2, b3⟩
  exact ⟨(macro_line_level _ _).trans a1, (macro_line_nofill _ _).trans a2, b1.trans a3,
    b2.trans a4, b3⟩

theorem pnode_printtgroup_loop_runs {k : Nat} {print : printer} (hp : Restores k print) :
    ∀ (fuel : Nat) (f : format) (n : pnode), n.nodes.length < fuel → n.small k →
      Runs (fun r => r.1.level = f.level ∧ r.1.nofill = f.nofill ∧ r.2.node = n.node ∧
        r.2.parent = n.parent ∧ r.2.small k) (pnode_printtgroup_loop print fuel f n) := by
  intro fuel
  induction fuel with
  | zero =>
    intro f n h
    omega
  | succ fuel ih =>
    intro f n hf hn
    rw [pnode_printtgroup_loop]
    cases ht : pnode_takebelow_chk NODE_ROW n with
    | none => exact ⟨rfl, rfl, rfl, rfl, hn⟩
    | some x =>
      obtain ⟨nc, n1, ok, ctx⟩ := x
      obtain ⟨e1, e2, e3, e4⟩ := pnode_takebelow_chk_size _ _ _ _ _ ht
      obtain ⟨e5, e6⟩ := e4 k hn
      dsimp only
      have h1 := pnode_printrow_runs hp (macro_line f "It Table Row".toList) nc
        (pnode.small_of_le (Nat.le_succ_of_le e6))
      generalize pnode_printrow print (macro_line f "It Table Row".toList) nc = y at h1 ⊢
      rcases y with e | f1
      · exact h1
      · obtain ⟨a1, a2⟩ := h1
        dsimp only
        rw [macro_line_level] at a1
        rw [macro_line_nofill] at a2
        split
        · have hlt : 0 < nc.nodes.length := by
            rw [pnode.nodes_length_eq]
            omega
          refine Runs.imp (ih f1 n1 (by omega) e5) ?_
          rintro r ⟨c1, c2, c3, c4, c5⟩
          exact ⟨c1.trans a1, c2.trans a2, c3.trans e2, c4.trans e3, c5⟩
        · exact fun h => by cases h

theorem pnode_printtgroup2_loop_runs {k : Nat} {print : printer} (hp : Restores k print) :
    ∀ (fuel : Nat) (f : format) (n : pnode), n.nodes.length < fuel → n.small k →
      Runs (fun r => r.1.level = f.level ∧ r.1.nofill = f.nofill ∧ r.2.node = n.node ∧
        r.2.parent = n.parent ∧ r.2.small k) (pnode_printtgroup2_loop print fuel f n) := by
  intro fuel
  induction fuel with
  | zero =>
    intro f n h
    omega
  | succ fuel ih =>
    intro f n hf hn
    rw [pnode_printtgroup2_loop]
    split
    · exact ⟨rfl, rfl, rfl, rfl, hn⟩
    · exact ⟨rfl, rfl, rfl, rfl, hn⟩
    · rename_i nr ne n1 ok ctx hr ht
      obtain ⟨e1, e2, e3, e4⟩ := pnode_takebelow_chk_size _ _ _ _ _ ht
      obtain ⟨e5, e6⟩ := e4 k hn
      dsimp only
      refine Runs.bind2 (hp _ ctx ne e6) ?_
      rintro ⟨f1, m1, nx⟩ ⟨a1, a2, -⟩
      dsimp only at a1 a2 ⊢
      rw [macro_open_level] at a1
      rw [macro_open_nofill] at a2
      split
      · exact fun h => by cases h
      · split
        · exact fun h => by cases h
        · cases ht2 : pnode_takebelow_chk NODE_ROW n1 with
          | none => exact fun h => by cases h
          | some x =>
            obtain ⟨nr1, n2, ok1, ctx1⟩ := x
            obtain ⟨g1, g2, g3, g4⟩ := pnode_takebelow_chk_size _ _ _ _ _ ht2
            obtain ⟨g5, g6⟩ := g4 k e5
            dsimp only
            refine Runs.bind2 (hp _ ctx1 nr1 g6) ?_
            rintro ⟨f2, m2, nx2⟩ ⟨b1, b2, -⟩
            dsimp only at b1 b2 ⊢
            rw [macro_close_level] at b1
            rw [macro_close_nofill] at b2
            split
            · have hlt : 0 < ne.nodes.length := by
                rw [pnode.nodes_length_eq]
                omega
              refine Runs.imp (ih { f2 with parastate := PARA_HAVE } n2 (by omega) g5) ?_
              rintro r ⟨c1, c2, c3, c4, c5⟩
              exact ⟨(c1.trans b1).trans a1, (c2.trans b2).trans a2, (c3.trans g2).trans e2,
                (c4.trans g3).trans e3, c5⟩
            · exact fun h => by cases h

theorem pnode_printtgroup2_runs {k : Nat} {print : printer} (hp : Restores k print)
    (f : format) (n : pnode) (hn : n.small k) :
    Runs (fun r => r.1.level = f.level ∧ r.1.nofill = f.nofill ∧ r.2.node = n.node ∧
      r.2.parent = n.parent ∧ r.2.small k) (pnode_printtgroup2 print f n) := by
  unfold pnode_printtgroup2
  refine Runs.bind2 (pnode_printtgroup2_loop_runs hp _ _ n (Nat.lt_succ_self _) hn) ?_
  rintro ⟨f1, n1⟩ ⟨a1, a2, a3, a4, a5⟩
  dsimp only at a1 a2 a3 a4 a5 ⊢
  rw [macro_line_level] at a1
  rw [macro_line_nofill] at a2
  refine Runs.bind2 (pnode_unlinksub_small k n1) ?_
  rintro n2 ⟨b1, b2, b3⟩
  exact ⟨(macro_line_level _ _).trans a1, (macro_line_nofill _ _).trans a2, b1.trans a3,
    b2.trans a4, b3⟩

theorem pnode_printtgroup_runs {k : Nat} {print : printer} (hp : Restores k print)
    (f : format) (n : pnode) (hn : n.small k) :
    Runs (fun r => r.1.level = f.level ∧ r.1.nofill = f.nofill ∧ r.2.node = n.node ∧
      r.2.parent = n.parent ∧ r.2.small k) (pnode_printtgroup print f n) := by
  unfold pnode_printtgroup
  dsimp only
  split
  · exact pnode_printtgroup1_runs hp f n hn
  · split
    · exact pnode_printtgroup2_runs hp f n hn
    · refine Runs.bind2 (pnode_printtgroup_loop_runs hp _ _ n (Nat.lt_succ_self _) hn) ?_
      rintro ⟨f1, n1⟩ ⟨a1, a2, a3, a4, a5⟩
      dsimp only at a1 a2 a3 a4 a5 ⊢
      rw [macro_line_level] at a1
      rw [macro_line_nofill] at a2
      refine Runs.bind2 (pnode_unlinksub_small k n1) ?_
      rintro n2 ⟨b1, b2, b3⟩
      exact ⟨(macro_line_level _ _).trans a1, (macro_line_nofill _ _).trans a2, b1.trans a3,
        b2.trans a4, b3⟩

theorem pnode_printlist_runs {k : Nat} {print : printer} (hp : Restores k print)
    (f : format) (n : pnode) (hn : n.small k) :
    Runs (fun r => r.1.level = f.level ∧ r.1.nofill = f.nofill ∧ r.2.node = n.node ∧
      r.2.parent = n.parent ∧ r.2.small k) (pnode_printlist print f n) := by
  unfold pnode_printlist
  refine Runs.bind2 (pnode_printtitle_runs f n hn) ?_
  rintro ⟨f1, n1⟩ ⟨a1, a2, a3, a4, a5⟩
  dsimp only at a1 a2 a3 a4 a5 ⊢
  refine Runs.bind2 (macro_argline_runs _ _ _) ?_
  rintro f2 ⟨b1, b2⟩
  dsimp only at b1 b2
  refine Runs.bind2 (pnode_children_runs _ (fun _ => by
    intro g ctx nc hnc
    refine Runs.map_iff.2 (Runs.imp (hp _ ctx nc hnc) ?_)
    rintro r ⟨c1, c2, c3⟩
    exact ⟨c1.trans (macro_line_level _ _), c2.trans (macro_line_nofill _ _), c3⟩)
    f2 n1 a5) ?_
  rintro ⟨f3, n2⟩ ⟨c1, c2, c3, c4⟩
  dsimp only at c1 c2 c3 c4 ⊢
  refine Runs.bind2 (pnode_unlinksub_small k n2) ?_
  rintro n3 ⟨d1, d2, d3⟩
  exact ⟨(macro_line_level _ _).trans ((c1.trans b1).trans a1),
    (macro_line_nofill _ _).trans ((c2.trans b2).trans a2), (d1.trans c3).trans a3,
    (d2.trans c4).trans a4, d3⟩

theorem pnode_printentries_runs {k : Nat} {print : printer} (hp : Restores k print) :
    ∀ (cs : List pnode) (f : format), (∀ c ∈ cs, c.nodes.length ≤ k + 1) →
      Runs (fun r => r.1.level = f.level ∧ r.1.nofill = f.nofill)
        (pnode_printentries print f cs) := by
  intro cs
  induction cs with
  | nil =>
    intro f h
    rw [pnode_printentries]
    exact ⟨rfl, rfl⟩
  | cons nc rest ih =>
    intro f h
    rw [pnode_printentries]
    refine Runs.bind2 (P := fun (r : format × pnode) => r.1.level = f.level ∧
      r.1.nofill = f.nofill) ?_ ?_
    · split
      · exact Runs.imp (pnode_printvarlistentry_runs hp f nc
          (pnode.small_of_le (h nc (List.mem_cons_self _ _)))) (fun r hr => ⟨hr.1, hr.2.1⟩)
      · exact Runs.map_iff.2 (macro_nodeline_runs _ _ _ _)
    · rintro ⟨f1, nc1⟩ ⟨a1, a2⟩
      dsimp only at a1 a2 ⊢
      refine Runs.bind2 (ih f1 (fun c hc => h c (List.mem_cons_of_mem _ hc))) ?_
      rintro ⟨f2, rest1⟩ ⟨b1, b2⟩
      exact ⟨b1.trans a1, b2.trans a2⟩

theorem pnode_printvariablelist_runs {k : Nat} {print : printer} (hp : Restores k print)
    (f : format) (n : pnode) (hn : n.small k) :
    Runs (fun r => r.1.level = f.level ∧ r.1.nofill = f.nofill ∧ r.2.node = n.node ∧
      r.2.parent = n.parent ∧ r.2.small k) (pnode_printvariablelist print f n) := by
  unfold pnode_printvariablelist
  refine Runs.bind2 (pnode_printtitle_runs f n hn) ?_
  rintro ⟨f1, n1⟩ ⟨a1, a2, a3, a4, a5⟩
  dsimp only at a1 a2 a3 a4 a5 ⊢
  refine Runs.bind2 (pnode_printentries_runs hp n1.childq _
    (fun c hc => Nat.le_succ_of_le (a5 c hc))) ?_
  rintro ⟨f2, cs⟩ ⟨b1, b2⟩
  dsimp only at b1 b2 ⊢
  rw [macro_line_level] at b1
  rw [macro_line_nofill] at b2
  refine Runs.bind2 (pnode_unlinksub_small k _) ?_
  rintro n2 ⟨d1, d2, d3⟩
  exact ⟨(macro_line_level _ _).trans (b1.trans a1),
    (macro_line_nofill _ _).trans (b2.trans a2),
    (d1.trans (pnode.setChildq_node _ _)).trans a3,
    (d2.trans (pnode.setChildq_parent _ _)).trans a4, d3⟩


theorem pnode_print_open_runs (f : format) (ctx : pctx) (was_impl : Bool) (n : pnode) :
    Runs (fun g => g.level = f.level ∧ g.nofill = f.nofill)
      (pnode_print_open f ctx was_impl n) := by
  unfold pnode_print_open
  cases n.node
  all_goals dsimp only
  all_goals first
    | exact ⟨rfl, rfl⟩
    | exact fun h => by cases h
    | exact print_text_runs _ _ _
    | exact pnode_printimagedata_runs _ _
    | exact pnode_printxref_runs _ _
    | (refine Runs.ok_iff.2 ?_
       simp only [
        apply_ite format.level, apply_ite format.nofill, ite_self, ne_eq, not_false_eq_true,
        and_self, and_true, true_and, not_true_eq_false, if_true, if_false, next_kept_none,
        next_kept_some, next_kept_refl, pnode.setFlags_nodes_length,
        pnode_first_flags_nodes_length, sub_cons_cons, sub_cons, sub_refl, sub_nil, sub_tail,
        pnode.kept_iff, pnode.small_setChildq, pnode.small_setChildq_nil, pnode.small_of_nil,
        pnode.small_first_flags, pnode.small_setFlags, pnode_first_flags_node,
        pnode_first_flags_parent, pnode.setChildq_node, pnode.setChildq_parent,
        pnode.setChildq_childq, pnode.setFlags_node, pnode.setFlags_parent,
        pnode.setFlags_childq, format_puts_level, format_puts_nofill, format_putc_level,
        format_putc_nofill, para_check_level, para_check_nofill, macro_open_line_level,
        macro_open_line_nofill, macro_open_level, macro_open_nofill, macro_close_level,
        macro_close_nofill, macro_line_level, macro_line_nofill, macro_addarg_loop_level,
        macro_addarg_loop_nofill, macro_enclose_if_level, macro_enclose_if_nofill,
        macro_unclose_level, macro_unclose_nofill, macro_unclose_if_level,
        macro_unclose_if_nofill, macro_display_level, macro_display_nofill,
        pnode_printsystemitem_level, pnode_printsystemitem_nofill, pnode_printtext_punct_level,
        pnode_printtext_punct_nofill, pnode_printtext_head_level, pnode_printtext_head_nofill]
       done)
    | (refine Runs.map_iff.2 (Runs.imp (by
          first
            | exact print_text_runs _ _ _
            | exact macro_argline_runs _ _ _
            | exact pnode_first_inline_runs _
            | exact pnode_parent_is_runs _ _ _) ?_)
       intro a ha
       simp only [
        apply_ite format.level, apply_ite format.nofill, ite_self, ne_eq, not_false_eq_true,
        and_self, and_true, true_and, not_true_eq_false, if_true, if_false, next_kept_none,
        next_kept_some, next_kept_refl, pnode.setFlags_nodes_length,
        pnode_first_flags_nodes_length, sub_cons_cons, sub_cons, sub_refl, sub_nil, sub_tail,
        pnode.kept_iff, pnode.small_setChildq, pnode.small_setChildq_nil, pnode.small_of_nil,
        pnode.small_first_flags, pnode.small_setFlags, pnode_first_flags_node,
        pnode_first_flags_parent, pnode.setChildq_node, pnode.setChildq_parent,
        pnode.setChildq_childq, pnode.setFlags_node, pnode.setFlags_parent,
        pnode.setFlags_childq, format_puts_level, format_puts_nofill, format_putc_level,
        format_putc_nofill, para_check_level, para_check_nofill, macro_open_line_level,
        macro_open_line_nofill, macro_open_level, macro_open_nofill, macro_close_level,
        macro_close_nofill, macro_line_level, macro_line_nofill, macro_addarg_loop_level,
        macro_addarg_loop_nofill, macro_enclose_if_level, macro_enclose_if_nofill,
        macro_unclose_level, macro_unclose_nofill, macro_unclose_if_level,
        macro_unclose_if_nofill, macro_display_level, macro_display_nofill,
        pnode_printsystemitem_level, pnode_printsystemitem_nofill, pnode_printtext_punct_level,
        pnode_printtext_punct_nofill, pnode_printtext_head_level, pnode_printtext_head_nofill, ha]
       done)

theorem pnode_print_open_fwd {f : format} {ctx : pctx} {was_impl : Bool} {n : pnode}  {g : format} :
    pnode_print_open f ctx was_impl n = .ok g ↔ (Except.ok g = pnode_print_open f ctx was_impl n ∧ g.level = f.level ∧ g.nofill = f.nofill) :=
  ⟨fun h => ⟨h.symm, by
    have h1 := pnode_print_open_runs f ctx was_impl n 
    rw [h] at h1
    exact h1⟩, fun h => h.1.symm⟩

theorem pnode_print_open_efwd {f : format} {ctx : pctx} {was_impl : Bool} {n : pnode}  {e : fault} :
    pnode_print_open f ctx was_impl n = .error e ↔ (Except.error e = pnode_print_open f ctx was_impl n ∧ e ≠ fault.fuel) :=
  ⟨fun h => ⟨h.symm, by
    have h1 := pnode_print_open_runs f ctx was_impl n 
    rw [h] at h1
    exact h1⟩, fun h => h.1.symm⟩



theorem pnode_print_post_runs (f : format) (ctx : pctx) (was_impl : Bool) (n : pnode) :
    Runs (fun r => r.1.level = f.level - (if (n.node = NODE_SECTION ∨ n.node = NODE_SIMPLESECT ∨ n.node = NODE_APPENDIX ∨
        n.node = NODE_NOTE) ∧ n.parent ≠ none then 1 else 0) ∧
      r.1.nofill = f.nofill ∧ next_kept ctx.next r.2.1 ∧
      (r.2.2 = false → n.node = NODE_ESCAPE ∨ n.node = NODE_TERM ∨ n.node = NODE_TEXT))
      (pnode_print_post f ctx was_impl n) := by
  unfold pnode_print_post
  cases n.node
  all_goals dsimp only
  all_goals first
    | (refine Runs.ok_iff.2 ?_
       dsimp only
       refine ⟨?_, by with_reducible rfl, (next_kept_refl _).2 trivial, fun h => Bool.noConfusion h⟩
       simp only [reduceCtorEq, or_self, false_and, if_false, sub_zero])
    | (simp [Runs.ok_iff,
        apply_ite format.level, apply_ite format.nofill, ite_self, ne_eq, not_false_eq_true,
        and_self, and_true, true_and, not_true_eq_false, if_true, if_false, next_kept_none,
        next_kept_some, next_kept_refl, pnode.setFlags_nodes_length,
        pnode_first_flags_nodes_length, sub_cons_cons, sub_cons, sub_refl, sub_nil, sub_tail,
        pnode.kept_iff, pnode.small_setChildq, pnode.small_setChildq_nil, pnode.small_of_nil,
        pnode.small_first_flags, pnode.small_setFlags, pnode_first_flags_node,
        pnode_first_flags_parent, pnode.setChildq_node, pnode.setChildq_parent,
        pnode.setChildq_childq, pnode.setFlags_node, pnode.setFlags_parent,
        pnode.setFlags_childq, format_puts_level, format_puts_nofill, format_putc_level,
        format_putc_nofill, para_check_level, para_check_nofill, macro_open_line_level,
        macro_open_line_nofill, macro_open_level, macro_open_nofill, macro_close_level,
        macro_close_nofill, macro_line_level, macro_line_nofill, macro_addarg_loop_level,
        macro_addarg_loop_nofill, macro_enclose_if_level, macro_enclose_if_nofill,
        macro_unclose_level, macro_unclose_nofill, macro_unclose_if_level,
        macro_unclose_if_nofill, macro_display_level, macro_display_nofill,
        pnode_printsystemitem_level, pnode_printsystemitem_nofill, pnode_printtext_punct_level,
        pnode_printtext_punct_nofill, pnode_printtext_head_level, pnode_printtext_head_nofill]
       done)
    | (refine Runs.ok_iff.2 ?_
       by_cases hp : n.parent = none <;> simp [hp, next_kept_refl]
       done)
    | (refine Runs.bind_iff2.2 (Runs.imp (pnode_parent_is_runs _ _ _) ?_)
       intro qq _
       simp [Runs.ok_iff,
        apply_ite format.level, apply_ite format.nofill, ite_self, ne_eq, not_false_eq_true,
        and_self, and_true, true_and, not_true_eq_false, if_true, if_false, next_kept_none,
        next_kept_some, next_kept_refl, pnode.setFlags_nodes_length,
        pnode_first_flags_nodes_length, sub_cons_cons, sub_cons, sub_refl, sub_nil, sub_tail,
        pnode.kept_iff, pnode.small_setChildq, pnode.small_setChildq_nil, pnode.small_of_nil,
        pnode.small_first_flags, pnode.small_setFlags, pnode_first_flags_node,
        pnode_first_flags_parent, pnode.setChildq_node, pnode.setChildq_parent,
        pnode.setChildq_childq, pnode.setFlags_node, pnode.setFlags_parent,
        pnode.setFlags_childq, format_puts_level, format_puts_nofill, format_putc_level,
        format_putc_nofill, para_check_level, para_check_nofill, macro_open_line_level,
        macro_open_line_nofill, macro_open_level, macro_open_nofill, macro_close_level,
        macro_close_nofill, macro_line_level, macro_line_nofill, macro_addarg_loop_level,
        macro_addarg_loop_nofill, macro_enclose_if_level, macro_enclose_if_nofill,
        macro_unclose_level, macro_unclose_nofill, macro_unclose_if_level,
        macro_unclose_if_nofill, macro_display_level, macro_display_nofill,
        pnode_printsystemitem_level, pnode_printsystemitem_nofill, pnode_printtext_punct_level,
        pnode_printtext_punct_nofill, pnode_printtext_head_level, pnode_printtext_head_nofill]
       done)
    | (simp only [reduceCtorEq, or_self, false_and, if_false, sub_zero]
       split <;>
        (first
          | (simp [Runs.ok_iff,
        apply_ite format.level, apply_ite format.nofill, ite_self, ne_eq, not_false_eq_true,
        and_self, and_true, true_and, not_true_eq_false, if_true, if_false, next_kept_none,
        next_kept_some, next_kept_refl, pnode.setFlags_nodes_length,
        pnode_first_flags_nodes_length, sub_cons_cons, sub_cons, sub_refl, sub_nil, sub_tail,
        pnode.kept_iff, pnode.small_setChildq, pnode.small_setChildq_nil, pnode.small_of_nil,
        pnode.small_first_flags, pnode.small_setFlags, pnode_first_flags_node,
        pnode_first_flags_parent, pnode.setChildq_node, pnode.setChildq_parent,
        pnode.setChildq_childq, pnode.setFlags_node, pnode.setFlags_parent,
        pnode.setFlags_childq, format_puts_level, format_puts_nofill, format_putc_level,
        format_putc_nofill, para_check_level, para_check_nofill, macro_open_line_level,
        macro_open_line_nofill, macro_open_level, macro_open_nofill, macro_close_level,
        macro_close_nofill, macro_line_level, macro_line_nofill, macro_addarg_loop_level,
        macro_addarg_loop_nofill, macro_enclose_if_level, macro_enclose_if_nofill,
        macro_unclose_level, macro_unclose_nofill, macro_unclose_if_level,
        macro_unclose_if_nofill, macro_display_level, macro_display_nofill,
        pnode_printsystemitem_level, pnode_printsystemitem_nofill, pnode_printtext_punct_level,
        pnode_printtext_punct_nofill, pnode_printtext_head_level, pnode_printtext_head_nofill]
             done)
          | (refine Runs.bind_iff2.2 ?_
             split <;>
               (first
                 | (refine Runs.imp (by
                      first
                        | exact print_text_runs _ _ _
                        | exact macro_addarg_runs _ _ _) ?_
                    intro g hg
                    simp [Runs.ok_iff, hg,
        apply_ite format.level, apply_ite format.nofill, ite_self, ne_eq, not_false_eq_true,
        and_self, and_true, true_and, not_true_eq_false, if_true, if_false, next_kept_none,
        next_kept_some, next_kept_refl, pnode.setFlags_nodes_length,
        pnode_first_flags_nodes_length, sub_cons_cons, sub_cons, sub_refl, sub_nil, sub_tail,
        pnode.kept_iff, pnode.small_setChildq, pnode.small_setChildq_nil, pnode.small_of_nil,
        pnode.small_first_flags, pnode.small_setFlags, pnode_first_flags_node,
        pnode_first_flags_parent, pnode.setChildq_node, pnode.setChildq_parent,
        pnode.setChildq_childq, pnode.setFlags_node, pnode.setFlags_parent,
        pnode.setFlags_childq, format_puts_level, format_puts_nofill, format_putc_level,
        format_putc_nofill, para_check_level, para_check_nofill, macro_open_line_level,
        macro_open_line_nofill, macro_open_level, macro_open_nofill, macro_close_level,
        macro_close_nofill, macro_line_level, macro_line_nofill, macro_addarg_loop_level,
        macro_addarg_loop_nofill, macro_enclose_if_level, macro_enclose_if_nofill,
        macro_unclose_level, macro_unclose_nofill, macro_unclose_if_level,
        macro_unclose_if_nofill, macro_display_level, macro_display_nofill,
        pnode_printsystemitem_level, pnode_printsystemitem_nofill, pnode_printtext_punct_level,
        pnode_printtext_punct_nofill, pnode_printtext_head_level, pnode_printtext_head_nofill]
                    done)
                 | (simp [Runs.ok_iff,
        apply_ite format.level, apply_ite format.nofill, ite_self, ne_eq, not_false_eq_true,
        and_self, and_true, true_and, not_true_eq_false, if_true, if_false, next_kept_none,
        next_kept_some, next_kept_refl, pnode.setFlags_nodes_length,
        pnode_first_flags_nodes_length, sub_cons_cons, sub_cons, sub_refl, sub_nil, sub_tail,
        pnode.kept_iff, pnode.small_setChildq, pnode.small_setChildq_nil, pnode.small_of_nil,
        pnode.small_first_flags, pnode.small_setFlags, pnode_first_flags_node,
        pnode_first_flags_parent, pnode.setChildq_node, pnode.setChildq_parent,
        pnode.setChildq_childq, pnode.setFlags_node, pnode.setFlags_parent,
        pnode.setFlags_childq, format_puts_level, format_puts_nofill, format_putc_level,
        format_putc_nofill, para_check_level, para_check_nofill, macro_open_line_level,
        macro_open_line_nofill, macro_open_level, macro_open_nofill, macro_close_level,
        macro_close_nofill, macro_line_level, macro_line_nofill, macro_addarg_loop_level,
        macro_addarg_loop_nofill, macro_enclose_if_level, macro_enclose_if_nofill,
        macro_unclose_level, macro_unclose_nofill, macro_unclose_if_level,
        macro_unclose_if_nofill, macro_display_level, macro_display_nofill,
        pnode_printsystemitem_level, pnode_printsystemitem_nofill, pnode_printtext_punct_level,
        pnode_printtext_punct_nofill, pnode_printtext_head_level, pnode_printtext_head_nofill]
                    done)))
          | (split <;>
               (first
                 | (refine Runs.map_iff.2 (Runs.imp (print_text_runs _ _ _) ?_)
                    intro g hg
                    simp [*,
        apply_ite format.level, apply_ite format.nofill, ite_self, ne_eq, not_false_eq_true,
        and_self, and_true, true_and, not_true_eq_false, if_true, if_false, next_kept_none,
        next_kept_some, next_kept_refl, pnode.setFlags_nodes_length,
        pnode_first_flags_nodes_length, sub_cons_cons, sub_cons, sub_refl, sub_nil, sub_tail,
        pnode.kept_iff, pnode.small_setChildq, pnode.small_setChildq_nil, pnode.small_of_nil,
        pnode.small_first_flags, pnode.small_setFlags, pnode_first_flags_node,
        pnode_first_flags_parent, pnode.setChildq_node, pnode.setChildq_parent,
        pnode.setChildq_childq, pnode.setFlags_node, pnode.setFlags_parent,
        pnode.setFlags_childq, format_puts_level, format_puts_nofill, format_putc_level,
        format_putc_nofill, para_check_level, para_check_nofill, macro_open_line_level,
        macro_open_line_nofill, macro_open_level, macro_open_nofill, macro_close_level,
        macro_close_nofill, macro_line_level, macro_line_nofill, macro_addarg_loop_level,
        macro_addarg_loop_nofill, macro_enclose_if_level, macro_enclose_if_nofill,
        macro_unclose_level, macro_unclose_nofill, macro_unclose_if_level,
        macro_unclose_if_nofill, macro_display_level, macro_display_nofill,
        pnode_printsystemitem_level, pnode_printsystemitem_nofill, pnode_printtext_punct_level,
        pnode_printtext_punct_nofill, pnode_printtext_head_level, pnode_printtext_head_nofill]
                    done)
                 | (simp [Runs.ok_iff, *,
        apply_ite format.level, apply_ite format.nofill, ite_self, ne_eq, not_false_eq_true,
        and_self, and_true, true_and, not_true_eq_false, if_true, if_false, next_kept_none,
        next_kept_some, next_kept_refl, pnode.setFlags_nodes_length,
        pnode_first_flags_nodes_length, sub_cons_cons, sub_cons, sub_refl, sub_nil, sub_tail,
        pnode.kept_iff, pnode.small_setChildq, pnode.small_setChildq_nil, pnode.small_of_nil,
        pnode.small_first_flags, pnode.small_setFlags, pnode_first_flags_node,
        pnode_first_flags_parent, pnode.setChildq_node, pnode.setChildq_parent,
        pnode.setChildq_childq, pnode.setFlags_node, pnode.setFlags_parent,
        pnode.setFlags_childq, format_puts_level, format_puts_nofill, format_putc_level,
        format_putc_nofill, para_check_level, para_check_nofill, macro_open_line_level,
        macro_open_line_nofill, macro_open_level, macro_open_nofill, macro_close_level,
        macro_close_nofill, macro_line_level, macro_line_nofill, macro_addarg_loop_level,
        macro_addarg_loop_nofill, macro_enclose_if_level, macro_enclose_if_nofill,
        macro_unclose_level, macro_unclose_nofill, macro_unclose_if_level,
        macro_unclose_if_nofill, macro_display_level, macro_display_nofill,
        pnode_printsystemitem_level, pnode_printsystemitem_nofill, pnode_printtext_punct_level,
        pnode_printtext_punct_nofill, pnode_printtext_head_level, pnode_printtext_head_nofill]
                    done)))))
    | (simp only [reduceCtorEq, or_self, false_and, if_false, sub_zero]
       cases hnx : ctx.next with
       | none =>
         simp [Runs.ok_iff, next_kept_refl]
       | some nn =>
         dsimp only
         split
         · refine Runs.map_iff.2 (Runs.imp (print_text_runs _ _ _) ?_)
           intro g hg
           dsimp only
           refine ⟨hg.1, hg.2, (next_kept_some _ _).2 ?_, by simp⟩
           rw [pnode_first_flags_nodes_length, pnode.setFlags_nodes_length]
         · simp [Runs.ok_iff, next_kept_refl])

theorem pnode_print_pre_runs {k : Nat} {print : printer} (hp : Restores k print)
    (f : format) (ctx : pctx) (was_impl : Bool) (n : pnode) (hn : n.small k) :
    Runs (fun r => r.1.level = f.level + (if (n.node = NODE_SECTION ∨ n.node = NODE_SIMPLESECT ∨
        n.node = NODE_APPENDIX ∨ n.node = NODE_NOTE) ∧ n.parent ≠ none then 1 else 0) ∧
      r.1.nofill = f.nofill ∧ r.2.1.node = n.node ∧ r.2.1.parent = n.parent ∧
      r.2.1.small k ∧ next_kept ctx.next r.2.2)
      (pnode_print_pre print f ctx was_impl n) := by
  suffices h : ∀ (Q : format × pnode × Option pnode → Prop),
      (∀ r : format × pnode × Option pnode,
        (r.1.level = f.level + (if (n.node = NODE_SECTION ∨ n.node = NODE_SIMPLESECT ∨
          n.node = NODE_APPENDIX ∨ n.node = NODE_NOTE) ∧ n.parent ≠ none then 1 else 0) ∧
        r.1.nofill = f.nofill ∧ r.2.1.node = n.node ∧ r.2.1.parent = n.parent ∧
        r.2.1.small k ∧ next_kept ctx.next r.2.2) → Q r) →
      Runs Q (pnode_print_pre print f ctx was_impl n) from h _ (fun _ hr => hr)
  intro Q hQ
  generalize hd : (if (n.node = NODE_SECTION ∨ n.node = NODE_SIMPLESECT ∨
        n.node = NODE_APPENDIX ∨ n.node = NODE_NOTE) ∧ n.parent ≠ none then (1 : Int) else 0) = d
    at hQ
  have hnx : next_kept ctx.next ctx.next := (next_kept_refl _).2 trivial
  unfold pnode_print_pre
  dsimp only
  cases hk : n.node
  all_goals dsimp only
  all_goals first
    | (refine Runs.map_iff.2 (Runs.map_iff.2 (Runs.imp (pnode_print_open_runs _ _ _ _) ?_))
       rintro g ⟨b1, b2⟩
       have hd0 : d = 0 := by
         rw [← hd]
         simp [hk]
       subst hd0
       exact hQ _ ⟨b1.trans (add_zero _).symm, b2, rfl, rfl, hn, hnx⟩)
    | (refine Runs.map_iff.2 (Runs.imp (pnode_printsection_runs f n hn) ?_)
       rintro r ⟨a1, a2, a3, a4, a5⟩
       refine hQ _ ⟨?_, a2, a3, a4, a5, hnx⟩
       rw [a1, ← hd]
       simp [hk]
       done)
    | (have hd0 : d = 0 := by
         rw [← hd]
         simp [hk]
       subst hd0
       first
       | (refine Runs.map_iff.2 (Runs.imp (by
            first
              | exact pnode_printarg_runs hp f n hn
              | exact pnode_printauthor_runs f n hn
              | exact pnode_printciterefentry_runs f n hn
              | exact pnode_printfuncprototype_runs f n hn
              | exact pnode_printlist_runs hp f n hn
              | exact pnode_printgroup_runs hp f n hn
              | exact pnode_printlink_runs hp f n hn
              | exact pnode_printmathfenced_runs hp f n hn
              | exact pnode_printmath_runs hp f n hn
              | exact pnode_printolink_runs f n hn
              | exact pnode_printrefnamediv_runs f n hn
              | exact pnode_printrefsynopsisdiv_runs f n hn
              | exact pnode_printtgroup_runs hp f n hn
              | exact pnode_printvariablelist_runs hp f n hn) ?_)
          rintro r ⟨a1, a2, a3, a4, a5⟩
          exact hQ _ ⟨a1.trans (add_zero _).symm, a2, a3, a4, a5, hnx⟩)
       | (refine Runs.imp (pnode_printtext_runs f ctx n hn) ?_
          rintro r ⟨a1, a2, a3, a4, a5, a6⟩
          exact hQ _ ⟨a1.trans (add_zero _).symm, a2, a3, a4, a5, a6⟩)
       | (refine Runs.map_iff.2 (Runs.bind_iff2.2 (Runs.imp (print_text_runs _ _ _) ?_))
          rintro g ⟨b1, b2⟩
          refine Runs.imp (pnode_printauthor_runs g n hn) ?_
          rintro r ⟨a1, a2, a3, a4, a5⟩
          exact hQ _ ⟨(a1.trans b1).trans (add_zero _).symm, a2.trans b2, a3, a4, a5, hnx⟩)
       | (refine Runs.map_iff.2 (Runs.bind_iff2.2 (Runs.imp (macro_addnode_runs _ _ _) ?_))
          rintro g ⟨b1, b2⟩
          refine Runs.map_iff.2 (Runs.imp (pnode_unlinksub_small k n) ?_)
          rintro m ⟨e1, e2, e3⟩
          exact hQ _ ⟨(b1.trans (macro_open_level _ _)).trans (add_zero _).symm,
            b2.trans (macro_open_nofill _ _), e1, e2, e3, hnx⟩)
       | (refine Runs.map_iff.2 (Runs.bind_iff2.2 (Runs.imp (macro_nodeline_runs _ _ _ _) ?_))
          rintro g ⟨b1, b2⟩
          refine Runs.map_iff.2 (Runs.imp (pnode_unlinksub_small k n) ?_)
          rintro m ⟨e1, e2, e3⟩
          refine hQ _ ⟨(b1.trans ?_).trans (add_zero _).symm, b2.trans ?_, e1, e2, e3, hnx⟩
          · split <;> rfl
          · split <;> rfl)
       | (refine Runs.map_iff.2 (Runs.map_iff.2 ?_)
          split <;>
            (refine Runs.imp (by
               first
                 | exact macro_addarg_runs _ _ _
                 | exact print_text_runs _ _ _) ?_
             rintro g ⟨b1, b2⟩
             refine hQ _ ?_
             dsimp only
             exact ⟨b1.trans (add_zero _).symm, b2, pnode_first_flags_node _ _,
               pnode_first_flags_parent _ _, (pnode.kept_first_flags n _ hn).2.2, hnx⟩))
       | (refine Runs.ok_iff.2 (hQ _ ?_)
          dsimp only
          exact ⟨(add_zero _).symm, rfl, pnode_first_flags_node _ _,
            pnode_first_flags_parent _ _, (pnode.kept_first_flags n _ hn).2.2, hnx⟩)
       | (split
          · refine Runs.ok_iff.2 (hQ _ ?_)
            dsimp only
            refine ⟨(add_zero _).symm, rfl, ?_, ?_, ?_, hnx⟩
            · split
              · exact pnode_first_flags_node _ _
              · rfl
            · split
              · exact pnode_first_flags_parent _ _
              · rfl
            · split
              · exact (pnode.kept_first_flags n _ hn).2.2
              · exact hn
          · exact Runs.ok_iff.2 (hQ _ ⟨(macro_enclose_if_level _ _ _ _).trans (add_zero _).symm,
              macro_enclose_if_nofill _ _ _ _, rfl, rfl, hn, hnx⟩)))

theorem next_kept_trans {a b c : Option pnode} (h1 : next_kept a b) (h2 : next_kept b c) :
    next_kept a c := by
  intro x hx
  obtain ⟨m, e1, e2⟩ := h2 x hx
  obtain ⟨m1, e3, e4⟩ := h1 m e1
  exact ⟨m1, e3, e2.trans e4⟩

theorem pnode_class_text_fill (node : nodeid)
    (h : node = NODE_ESCAPE ∨ node = NODE_TERM ∨ node = NODE_TEXT) :
    pnode_class node ≠ some CLASS_NOFILL := by
  rcases h with h | h | h <;> subst h <;> decide

theorem pnode_print_restores : ∀ k, Restores k (pnode_print k) := by
  intro k
  induction k with
  | zero =>
    intro f ctx n hn
    rw [pnode.nodes_length_eq] at hn
    omega
  | succ k ih =>
    intro f ctx n hn
    have hs : n.small k := pnode.small_of_le hn
    rw [pnode_print]
    dsimp only
    generalize hf1 : ({ (if n.flags.line ∧ (f.nofill ≠ 0 ∨ (f.flags.arg = false ∧ f.flags.impl = false))
      then macro_close f else f) with flags := { (if n.flags.line ∧ (f.nofill ≠ 0 ∨ (f.flags.arg = false ∧ f.flags.impl = false))
      then macro_close f else f).flags with nospc := !n.flags.spc } } : format) = f1
    have hl : f1.level = f.level ∧ f1.nofill = f.nofill := by
      subst hf1
      dsimp only
      split
      · exact ⟨macro_close_level _, macro_close_nofill _⟩
      · exact ⟨rfl, rfl⟩
    refine Runs.bind2 (pnode_print_pre_runs ih f1 ctx _ n hs) ?_
    rintro ⟨f2, n1, next1⟩ ⟨a1, a2, a3, a4, a5, a6⟩
    dsimp only at a1 a2 a3 a4 a5 a6 ⊢
    clear hf1
    generalize hd : (if (n.node = NODE_SECTION ∨ n.node = NODE_SIMPLESECT ∨
        n.node = NODE_APPENDIX ∨ n.node = NODE_NOTE) ∧ n.parent ≠ none then (1 : Int) else 0) = d at a1
    refine Runs.bind_iff.2 ?_
    generalize hcls : pnode_class n1.node = oc
    cases oc with
    | none => exact fun h => by cases h
    | some cls =>
    refine Runs.pure_iff.2 ?_
    dsimp only
    generalize hf3 : (if cls = CLASS_NOFILL then { f2 with nofill := f2.nofill + 1 } else f2) = f3
    have h3 : f3.level = f2.level ∧
        f3.nofill = f2.nofill + (if cls = CLASS_NOFILL then 1 else 0) := by
      subst hf3
      split
      · exact ⟨rfl, rfl⟩
      · exact ⟨rfl, (add_zero _).symm⟩
    refine Runs.bind2 (pnode_children_runs _ (Restores.print ih) f3 n1 a5) ?_
    rintro ⟨f4, n2⟩ ⟨b1, b2, b3, b4⟩
    dsimp only at b1 b2 b3 b4 ⊢
    refine Runs.bind2 (pnode_print_post_runs f4 _ _ n2) ?_
    rintro ⟨f5, next2, more⟩ ⟨c1, c2, c3, c4⟩
    dsimp only at c1 c2 c3 c4 ⊢
    rw [b3, a3, b4, a4, hd] at c1
    have hnext : next_kept ctx.next next2 := next_kept_trans a6 c3
    have hlev : f5.level = f.level := by
      rw [c1, b1, h3.1, a1, hl.1]
      omega
    cases more with
    | true =>
      rw [if_pos rfl]
      refine Runs.pure_iff.2 ⟨?_, ?_, hnext⟩
      · refine Eq.trans ?_ hlev
        split <;> rfl
      · dsimp only
        split
        · rename_i hc
          dsimp only
          rw [c2, b2, h3.2, if_pos hc, a2, hl.2]
          omega
        · rename_i hc
          dsimp only
          rw [c2, b2, h3.2, if_neg hc, a2, hl.2]
          omega
    | false =>
      have hk := pnode_class_text_fill n2.node (c4 rfl)
      rw [b3, hcls] at hk
      have hc : cls ≠ CLASS_NOFILL := fun h => hk (by rw [h])
      refine Runs.pure_iff.2 ⟨hlev, ?_, hnext⟩
      dsimp only
      rw [c2, b2, h3.2, if_neg hc, a2, hl.2]
      omega

theorem pnode.setChildq_tail_le (n : pnode) (c : pnode) (rest : List pnode)
    (h : n.childq = c :: rest) : (n.setChildq rest).nodes.length ≤ n.nodes.length := by
  rw [pnode.nodes_length_eq, pnode.nodes_length_eq n, pnode.setChildq_childq, h]
  simp only [pnode.nodes_queue, List.length_append]
  omega

theorem pnode_printprologue_runs (f : format) (root : pnode) :
    Runs (fun r => r.2.nodes.length ≤ root.nodes.length) (pnode_printprologue f root) := by
  unfold pnode_printprologue
  split
  · exact fun h => by cases h
  split
  · exact fun h => by cases h
  refine Runs.bind2 (macro_nodeline_runs _ _ _ _) ?_
  rintro f1 -
  refine Runs.bind2 (pnode_unlink_child_runs root 0) ?_
  rintro root1 ⟨-, -, -, h1⟩
  dsimp only
  split
  · exact fun h => by cases h
  rename_i name rest hname
  split
  · exact fun h => by cases h
  refine Runs.bind2 (macro_addnode_runs _ _ _) ?_
  rintro f3 -
  have h2 := pnode.setChildq_tail_le root1 name rest hname
  split
  · exact fun h => by cases h
  split
  · exact fun h => by cases h
  refine Runs.bind2 (macro_addnode_runs _ _ _) ?_
  rintro f4 -
  refine Runs.bind2 (pnode_unlink_child_runs _ 0) ?_
  rintro root3 ⟨-, -, -, h3⟩
  have h4 : root3.nodes.length ≤ root.nodes.length := le_trans h3 (le_trans h2 h1)
  split
  · exact h4
  split
  · refine Runs.bind2 (macro_nodeline_runs _ _ _ _) ?_
    rintro f7 -
    refine Runs.bind2 (macro_nodeline_runs _ _ _ _) ?_
    rintro f8 -
    refine Runs.bind2 (pnode_unlink_child_runs _ 0) ?_
    rintro root4 ⟨-, -, -, h5⟩
    exact le_trans h5 h4
  · exact h4

theorem ptree_print_mdoc_runs (fuel : Nat) (flags : fflags) (tree : ptree)
    (h : ∀ root, tree.root = some root → root.nodes.length ≤ fuel) :
    Runs (fun _ => True) (ptree_print_mdoc fuel flags tree) := by
  unfold ptree_print_mdoc
  split
  · exact fun h => by cases h
  rename_i root hroot
  refine Runs.bind2 (pnode_printprologue_runs _ root) ?_
  rintro ⟨f1, root1⟩ h1
  dsimp only at h1 ⊢
  refine Runs.bind2 (pnode_print_restores fuel f1 pctx.top root1 (le_trans h1 (h root hroot))) ?_
  rintro ⟨f2, n2, nx⟩ -
  exact trivial

theorem pnode_takebelow_chk_lt (node : nodeid) (n nc n1 : pnode) (r : Bool × pctx)
    (h : pnode_takebelow_chk node n = some (nc, n1, r)) : n1.nodes.length < n.nodes.length := by
  have h1 := (pnode_takebelow_chk_size node n nc n1 r h).1
  have h2 := pnode.nodes_length_eq nc
  omega

